import Mathlib

/-! # HTMLparser.c: shallow embedding of the libxml2 HTML parser

The parser context is modelled as a record that is passed from call to call.
The input buffer is kept as the list of bytes from `input->cur` up to
`input->end`; reading at or past `input->end` yields the terminating NUL.
The open-element stack `nameTab` is kept innermost first, so that
`nameTab[nameNr - 1]` of the C code is the head of the list and
`ctxt->name` is its head (or NULL when the list is empty).
Calls through `ctxt->sax` append to the `events` log when the callback is
set; calls of `htmlParseErr` append to the `errors` log.
Memory allocation is assumed to succeed.
-/

namespace HTMLparser

/-! ## Data model -/

/-- The `xmlChar` values of an ASCII C string literal. -/
def bytes (s : String) : List Nat := s.toList.map Char.toNat

/-- Error numbers used by HTMLparser.c (a subset of `xmlParserErrors`). -/
inductive xmlParserErrors where
  | XML_ERR_INTERNAL_ERROR
  | XML_ERR_DOCUMENT_EMPTY
  | XML_ERR_DOCUMENT_END
  | XML_ERR_INVALID_HEX_CHARREF
  | XML_ERR_INVALID_DEC_CHARREF
  | XML_ERR_INVALID_CHARREF
  | XML_ERR_INVALID_CHAR
  | XML_ERR_ENTITYREF_SEMICOL_MISSING
  | XML_ERR_ATTRIBUTE_NOT_FINISHED
  | XML_ERR_ATTRIBUTE_WITHOUT_VALUE
  | XML_ERR_ATTRIBUTE_REDEFINED
  | XML_ERR_LITERAL_NOT_STARTED
  | XML_ERR_LITERAL_NOT_FINISHED
  | XML_ERR_COMMENT_NOT_FINISHED
  | XML_ERR_COMMENT_ABRUPTLY_ENDED
  | XML_ERR_PI_NOT_STARTED
  | XML_ERR_PI_NOT_FINISHED
  | XML_ERR_DOCTYPE_NOT_FINISHED
  | XML_ERR_SPACE_REQUIRED
  | XML_ERR_NAME_REQUIRED
  | XML_ERR_NAME_TOO_LONG
  | XML_ERR_URI_REQUIRED
  | XML_ERR_PUBID_REQUIRED
  | XML_ERR_GT_REQUIRED
  | XML_ERR_LTSLASH_REQUIRED
  | XML_ERR_TAG_NAME_MISMATCH
  | XML_ERR_INVALID_ENCODING
  | XML_HTML_STRUCURE_ERROR
  | XML_HTML_UNKNOWN_TAG
  | XML_HTML_INCORRECTLY_OPENED_COMMENT
  deriving DecidableEq, Repr

/-- One report made through `htmlParseErr` / `htmlParseErrInt`: the error
number, the message format, the string parameters and the integer parameter. -/
structure htmlError where
  code : xmlParserErrors
  msg : String
  str1 : Option (List Nat)
  str2 : Option (List Nat)
  val : Nat
  deriving DecidableEq, Repr

/-- The calls made through the SAX handler block, in the order they happen. -/
inductive saxEvent where
  | setDocumentLocator
  | startDocument
  | endDocument
  | startElement (name : List Nat) (atts : List (List Nat × Option (List Nat)))
  | endElement (name : List Nat)
  | characters (ch : List Nat)
  | ignorableWhitespace (ch : List Nat)
  | cdataBlock (ch : List Nat)
  | comment (value : List Nat)
  | processingInstruction (target : List Nat) (data : Option (List Nat))
  | internalSubset (name : Option (List Nat)) (ExternalID : Option (List Nat))
      (SystemID : Option (List Nat))
  deriving DecidableEq, Repr

/-- Which callbacks of the `htmlSAXHandler` block are non-NULL. -/
structure htmlSAXHandler where
  setDocumentLocator : Bool
  startDocument : Bool
  endDocument : Bool
  startElement : Bool
  endElement : Bool
  characters : Bool
  ignorableWhitespace : Bool
  cdataBlock : Bool
  comment : Bool
  processingInstruction : Bool
  internalSubset : Bool
  deriving DecidableEq, Repr

/-- The values of `ctxt->instate` used by the HTML parser. -/
inductive xmlParserInputState where
  | XML_PARSER_EOF
  | XML_PARSER_START
  | XML_PARSER_MISC
  | XML_PARSER_PI
  | XML_PARSER_PROLOG
  | XML_PARSER_COMMENT
  | XML_PARSER_START_TAG
  | XML_PARSER_CONTENT
  | XML_PARSER_END_TAG
  | XML_PARSER_EPILOG
  deriving DecidableEq, Repr

/-- What `areBlanks` reads of a tree node: its type, whether its content
pointer is set, its name, and (for the current node) the types and names of
its children, first child first. Node types: 1 element, 3 text, 8 comment. -/
structure xmlNodeView where
  type : Nat
  hasContent : Bool
  name : List Nat
  children : List (Nat × List Nat)
  deriving DecidableEq, Repr

/-- The values of `xmlCharEncoding` that the parser hands to
`xmlSwitchEncoding`. -/
inductive xmlCharEncoding where
  | XML_CHAR_ENCODING_UTF8
  | XML_CHAR_ENCODING_8859_1
  deriving DecidableEq, Repr

/-- The fields of `htmlParserCtxt` (and of its current input) that the parser
reads or writes. -/
structure htmlParserCtxt where
  /-- Bytes from `input->cur` to `input->end`. -/
  input : List Nat
  line : Nat
  col : Nat
  /-- Flag `XML_INPUT_HAS_ENCODING` of `input->flags`. -/
  hasEncoding : Bool
  /-- Flag `XML_INPUT_ENCODING_ERROR` of `input->flags`. -/
  encodingError : Bool
  /-- Converter plugged into the input buffer (`input->buf->encoder`), if any. -/
  encoder : Option xmlCharEncoding
  /-- Encoding name handed to `xmlSetDeclaredEncoding`, if any. -/
  declaredEncoding : Option (List Nat)
  /-- Open-element stack, innermost element first. -/
  nameTab : List (List Nat)
  /-- Node stack of the tree builder, innermost first (`ctxt->node` is its head). -/
  nodeTab : List xmlNodeView
  /-- ExternalID of the internal subset of `ctxt->myDoc`, when there is one. -/
  dtdExternalID : Option (List Nat)
  nodeInfoNr : Nat
  html : Nat
  depth : Nat
  instate : xmlParserInputState
  checkIndex : Nat
  endCheckState : Nat
  /-- Option bit `HTML_PARSE_NOIMPLIED`. -/
  noImplied : Bool
  /-- Option bit `XML_PARSE_HUGE`. -/
  huge : Bool
  recovery : Bool
  keepBlanks : Bool
  record_info : Bool
  disableSAX : Nat
  wellFormed : Bool
  errNo : Option xmlParserErrors
  sax : Option htmlSAXHandler
  events : List saxEvent
  errors : List htmlError
  deriving DecidableEq, Repr

/-- The static element descriptor `htmlElemDesc` (the name, the flag fields and
the implied sub-element). -/
structure htmlElemDesc where
  name : List Nat
  startTag : Nat
  endTag : Nat
  saveEndTag : Nat
  empty : Nat
  depr : Nat
  dtd : Nat
  isinline : Nat
  defaultsubelt : Option (List Nat)
  deriving DecidableEq, Repr

/-- Entry of the entity table, `htmlEntityDesc`: value and name. -/
structure htmlEntityDesc where
  value : Nat
  name : List Nat
  deriving DecidableEq, Repr

/-- The library constants the parser compares against. They are declared in
libxml headers that are not part of the sources at hand, so they are taken as
parameters: the length limits `XML_MAX_NAME_LENGTH`, `XML_MAX_TEXT_LENGTH`,
`XML_MAX_HUGE_LENGTH`, `INT_MAX`, and the character groups of `chvalid.h` for
code points from 0x100 on, as lists of inclusive ranges. -/
structure xmlLimits where
  XML_MAX_NAME_LENGTH : Nat
  XML_MAX_TEXT_LENGTH : Nat
  XML_MAX_HUGE_LENGTH : Nat
  INT_MAX : Nat
  xmlIsBaseCharGroup : List (Nat × Nat)
  xmlIsIdeographicGroup : List (Nat × Nat)
  xmlIsDigitGroup : List (Nat × Nat)
  xmlIsCombiningGroup : List (Nat × Nat)
  xmlIsExtenderGroup : List (Nat × Nat)
  deriving DecidableEq, Repr

/-! ## Constants and character classes -/

def HTML_MAX_NAMELEN : Nat := 1000
def HTML_PARSER_BIG_BUFFER_SIZE : Nat := 1000
def HTML_PARSER_BUFFER_SIZE : Nat := 100

/-- Global `htmlOmittedDefaultValue`, initialised to 1. Nothing in the parser
writes it; the deprecated entry point `htmlHandleOmittedElem`, which lets an
application overwrite it, is left out, so the initial value stands. -/
def htmlOmittedDefaultValue : Nat := 1

/-- Macro `IS_BLANK_CH` (`xmlIsBlank_ch` of the libxml header chvalid.h): space,
tab, line feed, carriage return. -/
def IS_BLANK_CH (c : Nat) : Bool :=
  c == 0x20 || (0x9 ≤ c && c ≤ 0xa) || c == 0xd

/-- Macro `IS_BLANK`. -/
def IS_BLANK (c : Nat) : Bool :=
  if c < 0x100 then IS_BLANK_CH c else false

/-- Macro `IS_CHAR_CH`: legal XML character below 0x100. -/
def IS_CHAR_CH (c : Nat) : Bool :=
  (0x9 ≤ c && c ≤ 0xa) || c == 0xd || 0x20 ≤ c

/-- Macro `IS_CHAR`: legal XML character. -/
def IS_CHAR (c : Nat) : Bool :=
  if c < 0x100 then IS_CHAR_CH c
  else (0x100 ≤ c && c ≤ 0xd7ff) || (0xe000 ≤ c && c ≤ 0xfffd) ||
    (0x10000 ≤ c && c ≤ 0x10ffff)

def IS_ASCII_LETTER (c : Nat) : Bool :=
  (0x61 ≤ c && c ≤ 0x7a) || (0x41 ≤ c && c ≤ 0x5a)

def IS_ASCII_DIGIT (c : Nat) : Bool :=
  0x30 ≤ c && c ≤ 0x39

/-- Macro `IS_PUBIDCHAR_CH` (table `xmlIsPubidChar_tab`). -/
def IS_PUBIDCHAR_CH (c : Nat) : Bool :=
  c == 0x20 || c == 0xd || c == 0xa || IS_ASCII_LETTER c || IS_ASCII_DIGIT c ||
    (bytes "-'()+,./:=?;!*#@$_%").contains c

/-- Membership of a code point in a list of inclusive ranges. -/
def xmlCharInRange (c : Nat) (g : List (Nat × Nat)) : Bool :=
  g.any fun r => r.1 ≤ c && c ≤ r.2

def IS_BASECHAR (lim : xmlLimits) (c : Nat) : Bool :=
  if c < 0x100 then
    (0x41 ≤ c && c ≤ 0x5a) || (0x61 ≤ c && c ≤ 0x7a) || (0xc0 ≤ c && c ≤ 0xd6) ||
      (0xd8 ≤ c && c ≤ 0xf6) || 0xf8 ≤ c
  else xmlCharInRange c lim.xmlIsBaseCharGroup

def IS_IDEOGRAPHIC (lim : xmlLimits) (c : Nat) : Bool :=
  if c < 0x100 then false else xmlCharInRange c lim.xmlIsIdeographicGroup

def IS_LETTER (lim : xmlLimits) (c : Nat) : Bool :=
  IS_BASECHAR lim c || IS_IDEOGRAPHIC lim c

def IS_DIGIT (lim : xmlLimits) (c : Nat) : Bool :=
  if c < 0x100 then 0x30 ≤ c && c ≤ 0x39 else xmlCharInRange c lim.xmlIsDigitGroup

def IS_COMBINING (lim : xmlLimits) (c : Nat) : Bool :=
  if c < 0x100 then false else xmlCharInRange c lim.xmlIsCombiningGroup

def IS_EXTENDER (lim : xmlLimits) (c : Nat) : Bool :=
  if c < 0x100 then c == 0xb7 else xmlCharInRange c lim.xmlIsExtenderGroup

/-- C library `toupper` on a byte (C locale). -/
def toupper (c : Nat) : Nat :=
  if 0x61 ≤ c ∧ c ≤ 0x7a then c - 0x20 else c

/-! ## Context accessors, error reports and SAX calls -/

/-- The field `ctxt->name`: the innermost open element, NULL when none. -/
def htmlParserCtxt.name (ctxt : htmlParserCtxt) : Option (List Nat) :=
  ctxt.nameTab.head?

/-- The field `ctxt->nameNr`. -/
def htmlParserCtxt.nameNr (ctxt : htmlParserCtxt) : Nat :=
  ctxt.nameTab.length

/-- The field `ctxt->node`. -/
def htmlParserCtxt.node (ctxt : htmlParserCtxt) : Option xmlNodeView :=
  ctxt.nodeTab.head?

/-- Macro `PARSER_STOPPED`. -/
def PARSER_STOPPED (ctxt : htmlParserCtxt) : Bool :=
  decide (1 < ctxt.disableSAX)

/-- Macros `CUR` and `RAW`: the byte at `input->cur`. -/
def CUR (ctxt : htmlParserCtxt) : Nat :=
  ctxt.input.headD 0

/-- Macro `NXT(val)`. -/
def NXT (ctxt : htmlParserCtxt) (val : Nat) : Nat :=
  ctxt.input.getD val 0

/-- Macro `UPP(val)`. -/
def UPP (ctxt : htmlParserCtxt) (val : Nat) : Nat :=
  toupper (NXT ctxt val)

/-- Macro `SKIP(val)`. -/
def SKIP (ctxt : htmlParserCtxt) (val : Nat) : htmlParserCtxt :=
  { ctxt with input := ctxt.input.drop val, col := ctxt.col + val }

/-- Macro `NEXTL(l)`. -/
def NEXTL (ctxt : htmlParserCtxt) (l : Nat) : htmlParserCtxt :=
  if CUR ctxt = 0x0a then
    { ctxt with line := ctxt.line + 1, col := 1, input := ctxt.input.drop l }
  else
    { ctxt with col := ctxt.col + 1, input := ctxt.input.drop l }

/-- Function `htmlParseErr`: the report goes to the error log. The reporting
routine `xmlCtxtErr` is outside the sources at hand; it is taken to record the
report and to store the code in `ctxt->errNo`. -/
def htmlParseErr (ctxt : htmlParserCtxt) (error : xmlParserErrors) (msg : String)
    (str1 str2 : Option (List Nat)) : htmlParserCtxt :=
  { ctxt with errors := ctxt.errors ++ [⟨error, msg, str1, str2, 0⟩], errNo := some error }

/-- Function `htmlParseErrInt`. -/
def htmlParseErrInt (ctxt : htmlParserCtxt) (error : xmlParserErrors) (msg : String)
    (val : Nat) : htmlParserCtxt :=
  { ctxt with errors := ctxt.errors ++ [⟨error, msg, none, none, val⟩], errNo := some error }

/-- A call `ctxt->sax->cb(...)` guarded by `ctxt->sax != NULL` and
`ctxt->sax->cb != NULL`. -/
def saxCall (ctxt : htmlParserCtxt) (cb : htmlSAXHandler → Bool) (ev : saxEvent) :
    htmlParserCtxt :=
  match ctxt.sax with
  | none => ctxt
  | some h => if cb h then { ctxt with events := ctxt.events ++ [ev] } else ctxt

/-- A SAX call that is also guarded by `!ctxt->disableSAX`. -/
def saxCallEnabled (ctxt : htmlParserCtxt) (cb : htmlSAXHandler → Bool) (ev : saxEvent) :
    htmlParserCtxt :=
  if ctxt.disableSAX = 0 then saxCall ctxt cb ev else ctxt

/-! ## Parser stacks -/

/-- Function `htmlnamePush`. -/
def htmlnamePush (ctxt : htmlParserCtxt) (value : List Nat) : htmlParserCtxt :=
  let c1 := if ctxt.html < 3 ∧ value = bytes "head" then { ctxt with html := 3 } else ctxt
  let c2 := if c1.html < 10 ∧ value = bytes "body" then { c1 with html := 10 } else c1
  { c2 with nameTab := value :: c2.nameTab }

/-- Function `htmlnamePop`: the context after the pop and the name removed. -/
def htmlnamePop (ctxt : htmlParserCtxt) : htmlParserCtxt × Option (List Nat) :=
  match ctxt.nameTab with
  | [] => (ctxt, none)
  | ret :: rest => ({ ctxt with nameTab := rest }, some ret)

/-- Function `htmlNodeInfoPop` (only the depth of the node-info stack is kept). -/
def htmlNodeInfoPop (ctxt : htmlParserCtxt) : htmlParserCtxt :=
  if ctxt.nodeInfoNr = 0 then ctxt else { ctxt with nodeInfoNr := ctxt.nodeInfoNr - 1 }

/-- Function `htmlNodeInfoPush` (only the depth of the node-info stack is kept). -/
def htmlNodeInfoPush (ctxt : htmlParserCtxt) : htmlParserCtxt :=
  { ctxt with nodeInfoNr := ctxt.nodeInfoNr + 1 }

/-- Library function `nodePop` of parser.c: drops the innermost tree node. -/
def nodePop (ctxt : htmlParserCtxt) : htmlParserCtxt :=
  { ctxt with nodeTab := ctxt.nodeTab.tail }

/-! ## Scanner -/

/-- The report `xmlCtxtErrIO(ctxt, XML_ERR_INVALID_ENCODING, NULL)` made at the
label `encoding_error`. -/
def htmlEncodingError (ctxt : htmlParserCtxt) : htmlParserCtxt :=
  { ctxt with
    errors := ctxt.errors ++
      [⟨xmlParserErrors.XML_ERR_INVALID_ENCODING, "", none, none, 0⟩],
    errNo := some xmlParserErrors.XML_ERR_INVALID_ENCODING }

/-- Table `casemap` of xmlstring.c: ASCII upper case to lower case. -/
def casemap (c : Nat) : Nat :=
  if 0x41 ≤ c ∧ c ≤ 0x5A then c + 0x20 else c

/-- Library function `xmlStrncasecmp(str1, str2, len)`. -/
def xmlStrncasecmp : List Nat → List Nat → Nat → Int
  | _, _, 0 => 0
  | s1, s2, len + 1 =>
    let a := s1.headD 0
    let b := s2.headD 0
    if casemap a ≠ casemap b then (casemap a : Int) - (casemap b : Int)
    else if b = 0 then 0
    else xmlStrncasecmp s1.tail s2.tail len

/-- Library function `xmlStrcasestr(str, val)`: the remainder of `str` from the
first case-insensitive occurrence of `val` on. -/
def xmlStrcasestr : List Nat → List Nat → Option (List Nat)
  | [], val => if val = [] then some [] else none
  | c :: rest, val =>
    if val = [] then some (c :: rest)
    else if c = 0 then none
    else if xmlStrncasecmp (c :: rest) val val.length = 0 then some (c :: rest)
    else xmlStrcasestr rest val

/-- Function `htmlFindEncoding`: the heuristic search of the buffered input for
a charset name, `none` for the result NULL. The buffer ends in a NUL, so the
test `*end != 0` never fires. -/
def htmlFindEncoding (ctxt : htmlParserCtxt) : Option (List Nat) :=
  if ctxt.hasEncoding then none
  else
    match xmlStrcasestr ctxt.input (bytes "HTTP-EQUIV") with
    | none => none
    | some cur1 =>
      match xmlStrcasestr cur1 (bytes "CONTENT") with
      | none => none
      | some cur2 =>
        match xmlStrcasestr cur2 (bytes "CHARSET=") with
        | none => none
        | some cur3 =>
          let ret := (cur3.drop 8).takeWhile (fun c =>
            (0x41 ≤ c && c ≤ 0x5A) || (0x61 ≤ c && c ≤ 0x7A) || (0x30 ≤ c && c ≤ 0x39) ||
              c == 0x2d || c == 0x5f || c == 0x3a || c == 0x2f)
          if ret = [] then none else some ret

/-- Modelled from the spec: the converter of ISO-8859-1 input lies in
encoding.c, which is not part of the sources at hand. Spec 4.1: in the
fallback mode every byte is one character. The converter writes each byte as
the UTF-8 form of the code point of the same value. -/
def isolat1ToUTF8 (inp : List Nat) : List Nat :=
  (inp.map (fun b =>
    if b < 0x80 then [b] else [(b >>> 6) ||| 0xC0, (b &&& 0x3F) ||| 0x80])).flatten

/-- Modelled from the spec: `xmlSwitchEncoding` is defined in
parserInternals.c, which is not part of the sources at hand. Spec 4.1 and 9:
the switch sets the decode mode of the input once. For UTF-8 the bytes stay as
they are; for ISO-8859-1, the fallback of `htmlCurrentChar`, the converter is
plugged in and the buffered bytes are converted. -/
def xmlSwitchEncoding (ctxt : htmlParserCtxt) (enc : xmlCharEncoding) : htmlParserCtxt :=
  match enc with
  | xmlCharEncoding.XML_CHAR_ENCODING_UTF8 => { ctxt with hasEncoding := true }
  | xmlCharEncoding.XML_CHAR_ENCODING_8859_1 =>
    { ctxt with hasEncoding := true, input := isolat1ToUTF8 ctxt.input,
                encoder := some xmlCharEncoding.XML_CHAR_ENCODING_8859_1 }

/-- Modelled from the spec: `xmlSwitchEncodingName` is defined in
parserInternals.c and its converters in encoding.c, which are not part of the
sources at hand. Spec 4.1 and 9: a charset that was found switches the decode
mode, after which the scanner decodes UTF-8; the bytes are taken as they are. -/
def xmlSwitchEncodingName (ctxt : htmlParserCtxt) (_encoding : List Nat) : htmlParserCtxt :=
  { ctxt with hasEncoding := true }

/-- The label `encoding_error` of `htmlCurrentChar`. -/
def htmlCurrentChar_encoding_error (ctxt : htmlParserCtxt) : htmlParserCtxt × Nat × Nat :=
  let c1 := htmlEncodingError ctxt
  let c2 := if c1.hasEncoding = false then
      xmlSwitchEncoding c1 xmlCharEncoding.XML_CHAR_ENCODING_8859_1
    else c1
  (c2, CUR c2, 1)

/-- The UTF-8 part of `htmlCurrentChar` (from `cur = ctxt->input->cur` on). -/
def htmlCurrentChar_utf8 (ctxt : htmlParserCtxt) : htmlParserCtxt × Nat × Nat :=
  let c := CUR ctxt
  if c &&& 0x80 ≠ 0 then
    if c &&& 0x40 = 0 then htmlCurrentChar_encoding_error ctxt
    else
      let avail := ctxt.input.length
      if avail < 2 ∨ (NXT ctxt 1) &&& 0xc0 ≠ 0x80 then htmlCurrentChar_encoding_error ctxt
      else if c &&& 0xe0 = 0xe0 then
        if avail < 3 ∨ (NXT ctxt 2) &&& 0xc0 ≠ 0x80 then htmlCurrentChar_encoding_error ctxt
        else if c &&& 0xf0 = 0xf0 then
          if c &&& 0xf8 ≠ 0xf0 ∨ avail < 4 ∨ (NXT ctxt 3) &&& 0xc0 ≠ 0x80 then
            htmlCurrentChar_encoding_error ctxt
          else
            let val := ((c &&& 0x7) <<< 18) ||| ((NXT ctxt 1 &&& 0x3f) <<< 12) |||
              ((NXT ctxt 2 &&& 0x3f) <<< 6) ||| (NXT ctxt 3 &&& 0x3f)
            if val < 0x10000 then htmlCurrentChar_encoding_error ctxt
            else if IS_CHAR val = false then
              (htmlParseErrInt ctxt xmlParserErrors.XML_ERR_INVALID_CHAR
                "Char 0x%X out of allowed range\n" val, val, 4)
            else (ctxt, val, 4)
        else
          let val := ((c &&& 0xf) <<< 12) ||| ((NXT ctxt 1 &&& 0x3f) <<< 6) |||
            (NXT ctxt 2 &&& 0x3f)
          if val < 0x800 then htmlCurrentChar_encoding_error ctxt
          else if IS_CHAR val = false then
            (htmlParseErrInt ctxt xmlParserErrors.XML_ERR_INVALID_CHAR
              "Char 0x%X out of allowed range\n" val, val, 3)
          else (ctxt, val, 3)
      else
        let val := ((c &&& 0x1f) <<< 6) ||| (NXT ctxt 1 &&& 0x3f)
        if val < 0x80 then htmlCurrentChar_encoding_error ctxt
        else if IS_CHAR val = false then
          (htmlParseErrInt ctxt xmlParserErrors.XML_ERR_INVALID_CHAR
            "Char 0x%X out of allowed range\n" val, val, 2)
        else (ctxt, val, 2)
  else if c = 0 then
    if ctxt.input ≠ [] then
      (htmlParseErrInt ctxt xmlParserErrors.XML_ERR_INVALID_CHAR
        "Char 0x%X out of allowed range\n" 0, 0x20, 1)
    else (ctxt, 0, 0)
  else (ctxt, c, 1)

/-- The "automatic flow conversion" of `htmlCurrentChar`, made for a byte from
0x80 on in an input without encoding: the charset that `htmlFindEncoding`
guesses is switched to, ISO-8859-1 when it finds none, and the flag
`XML_INPUT_HAS_ENCODING` is set. -/
def htmlCurrentChar_switch (ctxt : htmlParserCtxt) : htmlParserCtxt :=
  let c1 := match htmlFindEncoding ctxt with
    | none => xmlSwitchEncoding ctxt xmlCharEncoding.XML_CHAR_ENCODING_8859_1
    | some guess => xmlSwitchEncodingName ctxt guess
  { c1 with hasEncoding := true }

/-- Function `htmlCurrentChar` (macro `CUR_CHAR(l)`): the context, the current
character value and its length in bytes. -/
def htmlCurrentChar (ctxt : htmlParserCtxt) : htmlParserCtxt × Nat × Nat :=
  if ctxt.hasEncoding = false then
    if CUR ctxt < 0x80 then
      if CUR ctxt = 0 then
        if ctxt.input ≠ [] then
          (htmlParseErrInt ctxt xmlParserErrors.XML_ERR_INVALID_CHAR
            "Char 0x%X out of allowed range\n" 0, 0x20, 1)
        else (ctxt, 0, 0)
      else (ctxt, CUR ctxt, 1)
    else htmlCurrentChar_utf8 (htmlCurrentChar_switch ctxt)
  else htmlCurrentChar_utf8 ctxt

/-- Modelled from the spec: `xmlNextChar` (macro `NEXT`) is defined in
parserInternals.c, which is not part of the sources at hand. Spec 3 and 4.1:
the scanner advances over one character, `line` goes up once per line feed
consumed, and nothing moves at the end of the input. An ASCII byte is one
character (a carriage return takes a directly following line feed with it), a
well-formed UTF-8 sequence is one character, and any other byte is skipped
alone after the encoding error has been reported once. -/
def xmlNextChar (ctxt : htmlParserCtxt) : htmlParserCtxt :=
  match ctxt.input with
  | [] => ctxt
  | c :: rest =>
    if c < 0x80 then
      if c = 0x0a then { ctxt with input := rest, line := ctxt.line + 1, col := 1 }
      else if c = 0x0d then
        { ctxt with input := ctxt.input.drop (if NXT ctxt 1 = 0x0a then 2 else 1),
                    line := ctxt.line + 1, col := 1 }
      else { ctxt with input := rest, col := ctxt.col + 1 }
    else
      let avail := ctxt.input.length
      let val := (c <<< 8) ||| NXT ctxt 1
      let len : Nat :=
        if avail < 2 ∨ (NXT ctxt 1) &&& 0xc0 ≠ 0x80 then 0
        else if c < 0xe0 then (if c < 0xc2 then 0 else 2)
        else if avail < 3 ∨ (NXT ctxt 2) &&& 0xc0 ≠ 0x80 then 0
        else if c < 0xf0 then
          (if val < 0xe0a0 ∨ (0xeda0 ≤ val ∧ val < 0xee00) then 0 else 3)
        else if avail < 4 ∨ (NXT ctxt 3) &&& 0xc0 ≠ 0x80 then 0
        else if val < 0xf090 ∨ 0xf490 ≤ val then 0
        else 4
      if len = 0 then
        let c1 := if ctxt.encodingError = false then
            { htmlEncodingError ctxt with encodingError := true }
          else ctxt
        { c1 with input := rest, col := ctxt.col + 1 }
      else { ctxt with input := ctxt.input.drop len, col := ctxt.col + 1 }

/-- The loop of `htmlSkipBlankChars`. -/
def htmlSkipBlankChars_loop (lim : xmlLimits) : Nat → htmlParserCtxt → Nat → htmlParserCtxt × Nat
  | 0, ctxt, res => (ctxt, res)
  | fuel + 1, ctxt, res =>
    if IS_BLANK_CH (CUR ctxt) then
      let c1 := if CUR ctxt = 0x0a then { ctxt with line := ctxt.line + 1, col := 1 }
        else { ctxt with col := ctxt.col + 1 }
      let c2 := { c1 with input := c1.input.drop 1 }
      htmlSkipBlankChars_loop lim fuel c2 (if res < lim.INT_MAX then res + 1 else res)
    else (ctxt, res)

/-- Function `htmlSkipBlankChars` (macro `SKIP_BLANKS`): the context and the
number of blanks skipped. Every turn of the loop consumes one byte, so the
number of buffered bytes bounds the number of turns. -/
def htmlSkipBlankChars (lim : xmlLimits) (ctxt : htmlParserCtxt) : htmlParserCtxt × Nat :=
  htmlSkipBlankChars_loop lim ctxt.input.length ctxt 0

/-- Library function `xmlCopyChar` (`xmlCopyCharMultiByte`): the UTF-8 bytes
written for a code point. -/
def xmlCopyChar (val : Nat) : List Nat :=
  if val < 0x80 then [val]
  else if val < 0x800 then [(val >>> 6) ||| 0xC0, (val &&& 0x3F) ||| 0x80]
  else if val < 0x10000 then
    [(val >>> 12) ||| 0xE0, ((val >>> 6) &&& 0x3F) ||| 0x80, (val &&& 0x3F) ||| 0x80]
  else if val < 0x110000 then
    [(val >>> 18) ||| 0xF0, ((val >>> 12) &&& 0x3F) ||| 0x80,
      ((val >>> 6) &&& 0x3F) ||| 0x80, (val &&& 0x3F) ||| 0x80]
  else []

/-- Macro `COPY_BUF(l,b,i,v)`: the bytes appended to the buffer. -/
def COPY_BUF (l : Nat) (v : Nat) : List Nat :=
  if l = 1 then [v] else xmlCopyChar v

/-- The UTF-8 writer that `htmlParseReference` and `htmlParseHTMLAttribute`
spell out inline for a code point `c`. -/
def htmlEncodeUTF8 (c : Nat) : List Nat :=
  if c < 0x80 then [c]
  else if c < 0x800 then
    [((c >>> 6) &&& 0x1F) ||| 0xC0, ((c >>> 0) &&& 0x3F) ||| 0x80]
  else if c < 0x10000 then
    [((c >>> 12) &&& 0x0F) ||| 0xE0, ((c >>> 6) &&& 0x3F) ||| 0x80,
      ((c >>> 0) &&& 0x3F) ||| 0x80]
  else
    [((c >>> 18) &&& 0x07) ||| 0xF0, ((c >>> 12) &&& 0x3F) ||| 0x80,
      ((c >>> 6) &&& 0x3F) ||| 0x80, ((c >>> 0) &&& 0x3F) ||| 0x80]

/-! ## Static tables -/

/-- Table `html40ElementTable`. -/
def html40ElementTable : List htmlElemDesc := [
  htmlElemDesc.mk (bytes "a") 0 0 0 0 0 0 1 none,
  htmlElemDesc.mk (bytes "abbr") 0 0 0 0 0 0 1 none,
  htmlElemDesc.mk (bytes "acronym") 0 0 0 0 0 0 1 none,
  htmlElemDesc.mk (bytes "address") 0 0 0 0 0 0 0 none,
  htmlElemDesc.mk (bytes "applet") 0 0 0 0 1 1 2 none,
  htmlElemDesc.mk (bytes "area") 0 2 2 1 0 0 0 none,
  htmlElemDesc.mk (bytes "b") 0 3 0 0 0 0 1 none,
  htmlElemDesc.mk (bytes "base") 0 2 2 1 0 0 0 none,
  htmlElemDesc.mk (bytes "basefont") 0 2 2 1 1 1 1 none,
  htmlElemDesc.mk (bytes "bdo") 0 0 0 0 0 0 1 none,
  htmlElemDesc.mk (bytes "big") 0 3 0 0 0 0 1 none,
  htmlElemDesc.mk (bytes "blockquote") 0 0 0 0 0 0 0 none,
  htmlElemDesc.mk (bytes "body") 1 1 0 0 0 0 0 (some (bytes "div")),
  htmlElemDesc.mk (bytes "br") 0 2 2 1 0 0 1 none,
  htmlElemDesc.mk (bytes "button") 0 0 0 0 0 0 2 none,
  htmlElemDesc.mk (bytes "caption") 0 0 0 0 0 0 0 none,
  htmlElemDesc.mk (bytes "center") 0 3 0 0 1 1 0 none,
  htmlElemDesc.mk (bytes "cite") 0 0 0 0 0 0 1 none,
  htmlElemDesc.mk (bytes "code") 0 0 0 0 0 0 1 none,
  htmlElemDesc.mk (bytes "col") 0 2 2 1 0 0 0 none,
  htmlElemDesc.mk (bytes "colgroup") 0 1 0 0 0 0 0 (some (bytes "col")),
  htmlElemDesc.mk (bytes "dd") 0 1 0 0 0 0 0 none,
  htmlElemDesc.mk (bytes "del") 0 0 0 0 0 0 2 none,
  htmlElemDesc.mk (bytes "dfn") 0 0 0 0 0 0 1 none,
  htmlElemDesc.mk (bytes "dir") 0 0 0 0 1 1 0 (some (bytes "li")),
  htmlElemDesc.mk (bytes "div") 0 0 0 0 0 0 0 none,
  htmlElemDesc.mk (bytes "dl") 0 0 0 0 0 0 0 (some (bytes "dd")),
  htmlElemDesc.mk (bytes "dt") 0 1 0 0 0 0 0 none,
  htmlElemDesc.mk (bytes "em") 0 3 0 0 0 0 1 none,
  htmlElemDesc.mk (bytes "embed") 0 1 0 0 1 1 1 none,
  htmlElemDesc.mk (bytes "fieldset") 0 0 0 0 0 0 0 none,
  htmlElemDesc.mk (bytes "font") 0 3 0 0 1 1 1 none,
  htmlElemDesc.mk (bytes "form") 0 0 0 0 0 0 0 (some (bytes "fieldset")),
  htmlElemDesc.mk (bytes "frame") 0 2 2 1 0 2 0 none,
  htmlElemDesc.mk (bytes "frameset") 0 0 0 0 0 2 0 (some (bytes "noframes")),
  htmlElemDesc.mk (bytes "h1") 0 0 0 0 0 0 0 none,
  htmlElemDesc.mk (bytes "h2") 0 0 0 0 0 0 0 none,
  htmlElemDesc.mk (bytes "h3") 0 0 0 0 0 0 0 none,
  htmlElemDesc.mk (bytes "h4") 0 0 0 0 0 0 0 none,
  htmlElemDesc.mk (bytes "h5") 0 0 0 0 0 0 0 none,
  htmlElemDesc.mk (bytes "h6") 0 0 0 0 0 0 0 none,
  htmlElemDesc.mk (bytes "head") 1 1 0 0 0 0 0 none,
  htmlElemDesc.mk (bytes "hr") 0 2 2 1 0 0 0 none,
  htmlElemDesc.mk (bytes "html") 1 1 0 0 0 0 0 none,
  htmlElemDesc.mk (bytes "i") 0 3 0 0 0 0 1 none,
  htmlElemDesc.mk (bytes "iframe") 0 0 0 0 0 1 2 none,
  htmlElemDesc.mk (bytes "img") 0 2 2 1 0 0 1 none,
  htmlElemDesc.mk (bytes "input") 0 2 2 1 0 0 1 none,
  htmlElemDesc.mk (bytes "ins") 0 0 0 0 0 0 2 none,
  htmlElemDesc.mk (bytes "isindex") 0 2 2 1 1 1 0 none,
  htmlElemDesc.mk (bytes "kbd") 0 0 0 0 0 0 1 none,
  htmlElemDesc.mk (bytes "label") 0 0 0 0 0 0 1 none,
  htmlElemDesc.mk (bytes "legend") 0 0 0 0 0 0 0 none,
  htmlElemDesc.mk (bytes "li") 0 1 1 0 0 0 0 none,
  htmlElemDesc.mk (bytes "link") 0 2 2 1 0 0 0 none,
  htmlElemDesc.mk (bytes "map") 0 0 0 0 0 0 2 none,
  htmlElemDesc.mk (bytes "menu") 0 0 0 0 1 1 0 none,
  htmlElemDesc.mk (bytes "meta") 0 2 2 1 0 0 0 none,
  htmlElemDesc.mk (bytes "noframes") 0 0 0 0 0 2 0 (some (bytes "body")),
  htmlElemDesc.mk (bytes "noscript") 0 0 0 0 0 0 0 (some (bytes "div")),
  htmlElemDesc.mk (bytes "object") 0 0 0 0 0 0 2 (some (bytes "div")),
  htmlElemDesc.mk (bytes "ol") 0 0 0 0 0 0 0 (some (bytes "li")),
  htmlElemDesc.mk (bytes "optgroup") 0 0 0 0 0 0 0 (some (bytes "option")),
  htmlElemDesc.mk (bytes "option") 0 1 0 0 0 0 0 none,
  htmlElemDesc.mk (bytes "p") 0 1 0 0 0 0 0 none,
  htmlElemDesc.mk (bytes "param") 0 2 2 1 0 0 0 none,
  htmlElemDesc.mk (bytes "pre") 0 0 0 0 0 0 0 none,
  htmlElemDesc.mk (bytes "q") 0 0 0 0 0 0 1 none,
  htmlElemDesc.mk (bytes "s") 0 3 0 0 1 1 1 none,
  htmlElemDesc.mk (bytes "samp") 0 0 0 0 0 0 1 none,
  htmlElemDesc.mk (bytes "script") 0 0 0 0 0 0 2 none,
  htmlElemDesc.mk (bytes "select") 0 0 0 0 0 0 1 none,
  htmlElemDesc.mk (bytes "small") 0 3 0 0 0 0 1 none,
  htmlElemDesc.mk (bytes "span") 0 0 0 0 0 0 1 none,
  htmlElemDesc.mk (bytes "strike") 0 3 0 0 1 1 1 none,
  htmlElemDesc.mk (bytes "strong") 0 3 0 0 0 0 1 none,
  htmlElemDesc.mk (bytes "style") 0 0 0 0 0 0 0 none,
  htmlElemDesc.mk (bytes "sub") 0 3 0 0 0 0 1 none,
  htmlElemDesc.mk (bytes "sup") 0 3 0 0 0 0 1 none,
  htmlElemDesc.mk (bytes "table") 0 0 0 0 0 0 0 (some (bytes "tr")),
  htmlElemDesc.mk (bytes "tbody") 1 0 0 0 0 0 0 (some (bytes "tr")),
  htmlElemDesc.mk (bytes "td") 0 0 0 0 0 0 0 none,
  htmlElemDesc.mk (bytes "textarea") 0 0 0 0 0 0 1 none,
  htmlElemDesc.mk (bytes "tfoot") 0 1 0 0 0 0 0 (some (bytes "tr")),
  htmlElemDesc.mk (bytes "th") 0 1 0 0 0 0 0 none,
  htmlElemDesc.mk (bytes "thead") 0 1 0 0 0 0 0 (some (bytes "tr")),
  htmlElemDesc.mk (bytes "title") 0 0 0 0 0 0 0 none,
  htmlElemDesc.mk (bytes "tr") 0 0 0 0 0 0 0 (some (bytes "td")),
  htmlElemDesc.mk (bytes "tt") 0 3 0 0 0 0 1 none,
  htmlElemDesc.mk (bytes "u") 0 3 0 0 1 1 1 none,
  htmlElemDesc.mk (bytes "ul") 0 0 0 0 0 0 0 (some (bytes "li")),
  htmlElemDesc.mk (bytes "var") 0 0 0 0 0 0 1 none]

/-- Table `htmlStartClose`: pairs (oldTag, newTag), a start tag `newTag` closes
an open `oldTag`. -/
def htmlStartClose : List (List Nat × List Nat) := [
  (bytes "a", bytes "a"),
  (bytes "a", bytes "fieldset"),
  (bytes "a", bytes "table"),
  (bytes "a", bytes "td"),
  (bytes "a", bytes "th"),
  (bytes "address", bytes "dd"),
  (bytes "address", bytes "dl"),
  (bytes "address", bytes "dt"),
  (bytes "address", bytes "form"),
  (bytes "address", bytes "li"),
  (bytes "address", bytes "ul"),
  (bytes "b", bytes "center"),
  (bytes "b", bytes "p"),
  (bytes "b", bytes "td"),
  (bytes "b", bytes "th"),
  (bytes "big", bytes "p"),
  (bytes "caption", bytes "col"),
  (bytes "caption", bytes "colgroup"),
  (bytes "caption", bytes "tbody"),
  (bytes "caption", bytes "tfoot"),
  (bytes "caption", bytes "thead"),
  (bytes "caption", bytes "tr"),
  (bytes "col", bytes "col"),
  (bytes "col", bytes "colgroup"),
  (bytes "col", bytes "tbody"),
  (bytes "col", bytes "tfoot"),
  (bytes "col", bytes "thead"),
  (bytes "col", bytes "tr"),
  (bytes "colgroup", bytes "colgroup"),
  (bytes "colgroup", bytes "tbody"),
  (bytes "colgroup", bytes "tfoot"),
  (bytes "colgroup", bytes "thead"),
  (bytes "colgroup", bytes "tr"),
  (bytes "dd", bytes "dt"),
  (bytes "dir", bytes "dd"),
  (bytes "dir", bytes "dl"),
  (bytes "dir", bytes "dt"),
  (bytes "dir", bytes "form"),
  (bytes "dir", bytes "ul"),
  (bytes "dl", bytes "form"),
  (bytes "dl", bytes "li"),
  (bytes "dt", bytes "dd"),
  (bytes "dt", bytes "dl"),
  (bytes "font", bytes "center"),
  (bytes "font", bytes "td"),
  (bytes "font", bytes "th"),
  (bytes "form", bytes "form"),
  (bytes "h1", bytes "fieldset"),
  (bytes "h1", bytes "form"),
  (bytes "h1", bytes "li"),
  (bytes "h1", bytes "p"),
  (bytes "h1", bytes "table"),
  (bytes "h2", bytes "fieldset"),
  (bytes "h2", bytes "form"),
  (bytes "h2", bytes "li"),
  (bytes "h2", bytes "p"),
  (bytes "h2", bytes "table"),
  (bytes "h3", bytes "fieldset"),
  (bytes "h3", bytes "form"),
  (bytes "h3", bytes "li"),
  (bytes "h3", bytes "p"),
  (bytes "h3", bytes "table"),
  (bytes "h4", bytes "fieldset"),
  (bytes "h4", bytes "form"),
  (bytes "h4", bytes "li"),
  (bytes "h4", bytes "p"),
  (bytes "h4", bytes "table"),
  (bytes "h5", bytes "fieldset"),
  (bytes "h5", bytes "form"),
  (bytes "h5", bytes "li"),
  (bytes "h5", bytes "p"),
  (bytes "h5", bytes "table"),
  (bytes "h6", bytes "fieldset"),
  (bytes "h6", bytes "form"),
  (bytes "h6", bytes "li"),
  (bytes "h6", bytes "p"),
  (bytes "h6", bytes "table"),
  (bytes "head", bytes "a"),
  (bytes "head", bytes "abbr"),
  (bytes "head", bytes "acronym"),
  (bytes "head", bytes "address"),
  (bytes "head", bytes "b"),
  (bytes "head", bytes "bdo"),
  (bytes "head", bytes "big"),
  (bytes "head", bytes "blockquote"),
  (bytes "head", bytes "body"),
  (bytes "head", bytes "br"),
  (bytes "head", bytes "center"),
  (bytes "head", bytes "cite"),
  (bytes "head", bytes "code"),
  (bytes "head", bytes "dd"),
  (bytes "head", bytes "dfn"),
  (bytes "head", bytes "dir"),
  (bytes "head", bytes "div"),
  (bytes "head", bytes "dl"),
  (bytes "head", bytes "dt"),
  (bytes "head", bytes "em"),
  (bytes "head", bytes "fieldset"),
  (bytes "head", bytes "font"),
  (bytes "head", bytes "form"),
  (bytes "head", bytes "frameset"),
  (bytes "head", bytes "h1"),
  (bytes "head", bytes "h2"),
  (bytes "head", bytes "h3"),
  (bytes "head", bytes "h4"),
  (bytes "head", bytes "h5"),
  (bytes "head", bytes "h6"),
  (bytes "head", bytes "hr"),
  (bytes "head", bytes "i"),
  (bytes "head", bytes "iframe"),
  (bytes "head", bytes "img"),
  (bytes "head", bytes "kbd"),
  (bytes "head", bytes "li"),
  (bytes "head", bytes "listing"),
  (bytes "head", bytes "map"),
  (bytes "head", bytes "menu"),
  (bytes "head", bytes "ol"),
  (bytes "head", bytes "p"),
  (bytes "head", bytes "pre"),
  (bytes "head", bytes "q"),
  (bytes "head", bytes "s"),
  (bytes "head", bytes "samp"),
  (bytes "head", bytes "small"),
  (bytes "head", bytes "span"),
  (bytes "head", bytes "strike"),
  (bytes "head", bytes "strong"),
  (bytes "head", bytes "sub"),
  (bytes "head", bytes "sup"),
  (bytes "head", bytes "table"),
  (bytes "head", bytes "tt"),
  (bytes "head", bytes "u"),
  (bytes "head", bytes "ul"),
  (bytes "head", bytes "var"),
  (bytes "head", bytes "xmp"),
  (bytes "hr", bytes "form"),
  (bytes "i", bytes "center"),
  (bytes "i", bytes "p"),
  (bytes "i", bytes "td"),
  (bytes "i", bytes "th"),
  (bytes "legend", bytes "fieldset"),
  (bytes "li", bytes "li"),
  (bytes "link", bytes "body"),
  (bytes "link", bytes "frameset"),
  (bytes "listing", bytes "dd"),
  (bytes "listing", bytes "dl"),
  (bytes "listing", bytes "dt"),
  (bytes "listing", bytes "fieldset"),
  (bytes "listing", bytes "form"),
  (bytes "listing", bytes "li"),
  (bytes "listing", bytes "table"),
  (bytes "listing", bytes "ul"),
  (bytes "menu", bytes "dd"),
  (bytes "menu", bytes "dl"),
  (bytes "menu", bytes "dt"),
  (bytes "menu", bytes "form"),
  (bytes "menu", bytes "ul"),
  (bytes "ol", bytes "form"),
  (bytes "option", bytes "optgroup"),
  (bytes "option", bytes "option"),
  (bytes "p", bytes "address"),
  (bytes "p", bytes "blockquote"),
  (bytes "p", bytes "body"),
  (bytes "p", bytes "caption"),
  (bytes "p", bytes "center"),
  (bytes "p", bytes "col"),
  (bytes "p", bytes "colgroup"),
  (bytes "p", bytes "dd"),
  (bytes "p", bytes "dir"),
  (bytes "p", bytes "div"),
  (bytes "p", bytes "dl"),
  (bytes "p", bytes "dt"),
  (bytes "p", bytes "fieldset"),
  (bytes "p", bytes "form"),
  (bytes "p", bytes "frameset"),
  (bytes "p", bytes "h1"),
  (bytes "p", bytes "h2"),
  (bytes "p", bytes "h3"),
  (bytes "p", bytes "h4"),
  (bytes "p", bytes "h5"),
  (bytes "p", bytes "h6"),
  (bytes "p", bytes "head"),
  (bytes "p", bytes "hr"),
  (bytes "p", bytes "li"),
  (bytes "p", bytes "listing"),
  (bytes "p", bytes "menu"),
  (bytes "p", bytes "ol"),
  (bytes "p", bytes "p"),
  (bytes "p", bytes "pre"),
  (bytes "p", bytes "table"),
  (bytes "p", bytes "tbody"),
  (bytes "p", bytes "td"),
  (bytes "p", bytes "tfoot"),
  (bytes "p", bytes "th"),
  (bytes "p", bytes "title"),
  (bytes "p", bytes "tr"),
  (bytes "p", bytes "ul"),
  (bytes "p", bytes "xmp"),
  (bytes "pre", bytes "dd"),
  (bytes "pre", bytes "dl"),
  (bytes "pre", bytes "dt"),
  (bytes "pre", bytes "fieldset"),
  (bytes "pre", bytes "form"),
  (bytes "pre", bytes "li"),
  (bytes "pre", bytes "table"),
  (bytes "pre", bytes "ul"),
  (bytes "s", bytes "p"),
  (bytes "script", bytes "noscript"),
  (bytes "small", bytes "p"),
  (bytes "span", bytes "td"),
  (bytes "span", bytes "th"),
  (bytes "strike", bytes "p"),
  (bytes "style", bytes "body"),
  (bytes "style", bytes "frameset"),
  (bytes "tbody", bytes "tbody"),
  (bytes "tbody", bytes "tfoot"),
  (bytes "td", bytes "tbody"),
  (bytes "td", bytes "td"),
  (bytes "td", bytes "tfoot"),
  (bytes "td", bytes "th"),
  (bytes "td", bytes "tr"),
  (bytes "tfoot", bytes "tbody"),
  (bytes "th", bytes "tbody"),
  (bytes "th", bytes "td"),
  (bytes "th", bytes "tfoot"),
  (bytes "th", bytes "th"),
  (bytes "th", bytes "tr"),
  (bytes "thead", bytes "tbody"),
  (bytes "thead", bytes "tfoot"),
  (bytes "title", bytes "body"),
  (bytes "title", bytes "frameset"),
  (bytes "tr", bytes "tbody"),
  (bytes "tr", bytes "tfoot"),
  (bytes "tr", bytes "tr"),
  (bytes "tt", bytes "p"),
  (bytes "u", bytes "p"),
  (bytes "u", bytes "td"),
  (bytes "u", bytes "th"),
  (bytes "ul", bytes "address"),
  (bytes "ul", bytes "form"),
  (bytes "ul", bytes "menu"),
  (bytes "ul", bytes "pre"),
  (bytes "xmp", bytes "dd"),
  (bytes "xmp", bytes "dl"),
  (bytes "xmp", bytes "dt"),
  (bytes "xmp", bytes "fieldset"),
  (bytes "xmp", bytes "form"),
  (bytes "xmp", bytes "li"),
  (bytes "xmp", bytes "table"),
  (bytes "xmp", bytes "ul")]

/-- Table `htmlNoContentElements`. -/
def htmlNoContentElements : List (List Nat) := [bytes "html", bytes "head"]

/-- Table `htmlEndPriority` without its closing default entry. -/
def htmlEndPriority : List (List Nat × Nat) := [
  (bytes "div", 150),
  (bytes "td", 160),
  (bytes "th", 160),
  (bytes "tr", 170),
  (bytes "thead", 180),
  (bytes "tbody", 180),
  (bytes "tfoot", 180),
  (bytes "table", 190),
  (bytes "head", 200),
  (bytes "body", 200),
  (bytes "html", 220)]

/-- Table `html40EntitiesTable`. -/
def html40EntitiesTable : List htmlEntityDesc := [
  htmlEntityDesc.mk 34 (bytes "quot"),
  htmlEntityDesc.mk 38 (bytes "amp"),
  htmlEntityDesc.mk 39 (bytes "apos"),
  htmlEntityDesc.mk 60 (bytes "lt"),
  htmlEntityDesc.mk 62 (bytes "gt"),
  htmlEntityDesc.mk 160 (bytes "nbsp"),
  htmlEntityDesc.mk 161 (bytes "iexcl"),
  htmlEntityDesc.mk 162 (bytes "cent"),
  htmlEntityDesc.mk 163 (bytes "pound"),
  htmlEntityDesc.mk 164 (bytes "curren"),
  htmlEntityDesc.mk 165 (bytes "yen"),
  htmlEntityDesc.mk 166 (bytes "brvbar"),
  htmlEntityDesc.mk 167 (bytes "sect"),
  htmlEntityDesc.mk 168 (bytes "uml"),
  htmlEntityDesc.mk 169 (bytes "copy"),
  htmlEntityDesc.mk 170 (bytes "ordf"),
  htmlEntityDesc.mk 171 (bytes "laquo"),
  htmlEntityDesc.mk 172 (bytes "not"),
  htmlEntityDesc.mk 173 (bytes "shy"),
  htmlEntityDesc.mk 174 (bytes "reg"),
  htmlEntityDesc.mk 175 (bytes "macr"),
  htmlEntityDesc.mk 176 (bytes "deg"),
  htmlEntityDesc.mk 177 (bytes "plusmn"),
  htmlEntityDesc.mk 178 (bytes "sup2"),
  htmlEntityDesc.mk 179 (bytes "sup3"),
  htmlEntityDesc.mk 180 (bytes "acute"),
  htmlEntityDesc.mk 181 (bytes "micro"),
  htmlEntityDesc.mk 182 (bytes "para"),
  htmlEntityDesc.mk 183 (bytes "middot"),
  htmlEntityDesc.mk 184 (bytes "cedil"),
  htmlEntityDesc.mk 185 (bytes "sup1"),
  htmlEntityDesc.mk 186 (bytes "ordm"),
  htmlEntityDesc.mk 187 (bytes "raquo"),
  htmlEntityDesc.mk 188 (bytes "frac14"),
  htmlEntityDesc.mk 189 (bytes "frac12"),
  htmlEntityDesc.mk 190 (bytes "frac34"),
  htmlEntityDesc.mk 191 (bytes "iquest"),
  htmlEntityDesc.mk 192 (bytes "Agrave"),
  htmlEntityDesc.mk 193 (bytes "Aacute"),
  htmlEntityDesc.mk 194 (bytes "Acirc"),
  htmlEntityDesc.mk 195 (bytes "Atilde"),
  htmlEntityDesc.mk 196 (bytes "Auml"),
  htmlEntityDesc.mk 197 (bytes "Aring"),
  htmlEntityDesc.mk 198 (bytes "AElig"),
  htmlEntityDesc.mk 199 (bytes "Ccedil"),
  htmlEntityDesc.mk 200 (bytes "Egrave"),
  htmlEntityDesc.mk 201 (bytes "Eacute"),
  htmlEntityDesc.mk 202 (bytes "Ecirc"),
  htmlEntityDesc.mk 203 (bytes "Euml"),
  htmlEntityDesc.mk 204 (bytes "Igrave"),
  htmlEntityDesc.mk 205 (bytes "Iacute"),
  htmlEntityDesc.mk 206 (bytes "Icirc"),
  htmlEntityDesc.mk 207 (bytes "Iuml"),
  htmlEntityDesc.mk 208 (bytes "ETH"),
  htmlEntityDesc.mk 209 (bytes "Ntilde"),
  htmlEntityDesc.mk 210 (bytes "Ograve"),
  htmlEntityDesc.mk 211 (bytes "Oacute"),
  htmlEntityDesc.mk 212 (bytes "Ocirc"),
  htmlEntityDesc.mk 213 (bytes "Otilde"),
  htmlEntityDesc.mk 214 (bytes "Ouml"),
  htmlEntityDesc.mk 215 (bytes "times"),
  htmlEntityDesc.mk 216 (bytes "Oslash"),
  htmlEntityDesc.mk 217 (bytes "Ugrave"),
  htmlEntityDesc.mk 218 (bytes "Uacute"),
  htmlEntityDesc.mk 219 (bytes "Ucirc"),
  htmlEntityDesc.mk 220 (bytes "Uuml"),
  htmlEntityDesc.mk 221 (bytes "Yacute"),
  htmlEntityDesc.mk 222 (bytes "THORN"),
  htmlEntityDesc.mk 223 (bytes "szlig"),
  htmlEntityDesc.mk 224 (bytes "agrave"),
  htmlEntityDesc.mk 225 (bytes "aacute"),
  htmlEntityDesc.mk 226 (bytes "acirc"),
  htmlEntityDesc.mk 227 (bytes "atilde"),
  htmlEntityDesc.mk 228 (bytes "auml"),
  htmlEntityDesc.mk 229 (bytes "aring"),
  htmlEntityDesc.mk 230 (bytes "aelig"),
  htmlEntityDesc.mk 231 (bytes "ccedil"),
  htmlEntityDesc.mk 232 (bytes "egrave"),
  htmlEntityDesc.mk 233 (bytes "eacute"),
  htmlEntityDesc.mk 234 (bytes "ecirc"),
  htmlEntityDesc.mk 235 (bytes "euml"),
  htmlEntityDesc.mk 236 (bytes "igrave"),
  htmlEntityDesc.mk 237 (bytes "iacute"),
  htmlEntityDesc.mk 238 (bytes "icirc"),
  htmlEntityDesc.mk 239 (bytes "iuml"),
  htmlEntityDesc.mk 240 (bytes "eth"),
  htmlEntityDesc.mk 241 (bytes "ntilde"),
  htmlEntityDesc.mk 242 (bytes "ograve"),
  htmlEntityDesc.mk 243 (bytes "oacute"),
  htmlEntityDesc.mk 244 (bytes "ocirc"),
  htmlEntityDesc.mk 245 (bytes "otilde"),
  htmlEntityDesc.mk 246 (bytes "ouml"),
  htmlEntityDesc.mk 247 (bytes "divide"),
  htmlEntityDesc.mk 248 (bytes "oslash"),
  htmlEntityDesc.mk 249 (bytes "ugrave"),
  htmlEntityDesc.mk 250 (bytes "uacute"),
  htmlEntityDesc.mk 251 (bytes "ucirc"),
  htmlEntityDesc.mk 252 (bytes "uuml"),
  htmlEntityDesc.mk 253 (bytes "yacute"),
  htmlEntityDesc.mk 254 (bytes "thorn"),
  htmlEntityDesc.mk 255 (bytes "yuml"),
  htmlEntityDesc.mk 338 (bytes "OElig"),
  htmlEntityDesc.mk 339 (bytes "oelig"),
  htmlEntityDesc.mk 352 (bytes "Scaron"),
  htmlEntityDesc.mk 353 (bytes "scaron"),
  htmlEntityDesc.mk 376 (bytes "Yuml"),
  htmlEntityDesc.mk 402 (bytes "fnof"),
  htmlEntityDesc.mk 710 (bytes "circ"),
  htmlEntityDesc.mk 732 (bytes "tilde"),
  htmlEntityDesc.mk 913 (bytes "Alpha"),
  htmlEntityDesc.mk 914 (bytes "Beta"),
  htmlEntityDesc.mk 915 (bytes "Gamma"),
  htmlEntityDesc.mk 916 (bytes "Delta"),
  htmlEntityDesc.mk 917 (bytes "Epsilon"),
  htmlEntityDesc.mk 918 (bytes "Zeta"),
  htmlEntityDesc.mk 919 (bytes "Eta"),
  htmlEntityDesc.mk 920 (bytes "Theta"),
  htmlEntityDesc.mk 921 (bytes "Iota"),
  htmlEntityDesc.mk 922 (bytes "Kappa"),
  htmlEntityDesc.mk 923 (bytes "Lambda"),
  htmlEntityDesc.mk 924 (bytes "Mu"),
  htmlEntityDesc.mk 925 (bytes "Nu"),
  htmlEntityDesc.mk 926 (bytes "Xi"),
  htmlEntityDesc.mk 927 (bytes "Omicron"),
  htmlEntityDesc.mk 928 (bytes "Pi"),
  htmlEntityDesc.mk 929 (bytes "Rho"),
  htmlEntityDesc.mk 931 (bytes "Sigma"),
  htmlEntityDesc.mk 932 (bytes "Tau"),
  htmlEntityDesc.mk 933 (bytes "Upsilon"),
  htmlEntityDesc.mk 934 (bytes "Phi"),
  htmlEntityDesc.mk 935 (bytes "Chi"),
  htmlEntityDesc.mk 936 (bytes "Psi"),
  htmlEntityDesc.mk 937 (bytes "Omega"),
  htmlEntityDesc.mk 945 (bytes "alpha"),
  htmlEntityDesc.mk 946 (bytes "beta"),
  htmlEntityDesc.mk 947 (bytes "gamma"),
  htmlEntityDesc.mk 948 (bytes "delta"),
  htmlEntityDesc.mk 949 (bytes "epsilon"),
  htmlEntityDesc.mk 950 (bytes "zeta"),
  htmlEntityDesc.mk 951 (bytes "eta"),
  htmlEntityDesc.mk 952 (bytes "theta"),
  htmlEntityDesc.mk 953 (bytes "iota"),
  htmlEntityDesc.mk 954 (bytes "kappa"),
  htmlEntityDesc.mk 955 (bytes "lambda"),
  htmlEntityDesc.mk 956 (bytes "mu"),
  htmlEntityDesc.mk 957 (bytes "nu"),
  htmlEntityDesc.mk 958 (bytes "xi"),
  htmlEntityDesc.mk 959 (bytes "omicron"),
  htmlEntityDesc.mk 960 (bytes "pi"),
  htmlEntityDesc.mk 961 (bytes "rho"),
  htmlEntityDesc.mk 962 (bytes "sigmaf"),
  htmlEntityDesc.mk 963 (bytes "sigma"),
  htmlEntityDesc.mk 964 (bytes "tau"),
  htmlEntityDesc.mk 965 (bytes "upsilon"),
  htmlEntityDesc.mk 966 (bytes "phi"),
  htmlEntityDesc.mk 967 (bytes "chi"),
  htmlEntityDesc.mk 968 (bytes "psi"),
  htmlEntityDesc.mk 969 (bytes "omega"),
  htmlEntityDesc.mk 977 (bytes "thetasym"),
  htmlEntityDesc.mk 978 (bytes "upsih"),
  htmlEntityDesc.mk 982 (bytes "piv"),
  htmlEntityDesc.mk 8194 (bytes "ensp"),
  htmlEntityDesc.mk 8195 (bytes "emsp"),
  htmlEntityDesc.mk 8201 (bytes "thinsp"),
  htmlEntityDesc.mk 8204 (bytes "zwnj"),
  htmlEntityDesc.mk 8205 (bytes "zwj"),
  htmlEntityDesc.mk 8206 (bytes "lrm"),
  htmlEntityDesc.mk 8207 (bytes "rlm"),
  htmlEntityDesc.mk 8211 (bytes "ndash"),
  htmlEntityDesc.mk 8212 (bytes "mdash"),
  htmlEntityDesc.mk 8216 (bytes "lsquo"),
  htmlEntityDesc.mk 8217 (bytes "rsquo"),
  htmlEntityDesc.mk 8218 (bytes "sbquo"),
  htmlEntityDesc.mk 8220 (bytes "ldquo"),
  htmlEntityDesc.mk 8221 (bytes "rdquo"),
  htmlEntityDesc.mk 8222 (bytes "bdquo"),
  htmlEntityDesc.mk 8224 (bytes "dagger"),
  htmlEntityDesc.mk 8225 (bytes "Dagger"),
  htmlEntityDesc.mk 8226 (bytes "bull"),
  htmlEntityDesc.mk 8230 (bytes "hellip"),
  htmlEntityDesc.mk 8240 (bytes "permil"),
  htmlEntityDesc.mk 8242 (bytes "prime"),
  htmlEntityDesc.mk 8243 (bytes "Prime"),
  htmlEntityDesc.mk 8249 (bytes "lsaquo"),
  htmlEntityDesc.mk 8250 (bytes "rsaquo"),
  htmlEntityDesc.mk 8254 (bytes "oline"),
  htmlEntityDesc.mk 8260 (bytes "frasl"),
  htmlEntityDesc.mk 8364 (bytes "euro"),
  htmlEntityDesc.mk 8465 (bytes "image"),
  htmlEntityDesc.mk 8472 (bytes "weierp"),
  htmlEntityDesc.mk 8476 (bytes "real"),
  htmlEntityDesc.mk 8482 (bytes "trade"),
  htmlEntityDesc.mk 8501 (bytes "alefsym"),
  htmlEntityDesc.mk 8592 (bytes "larr"),
  htmlEntityDesc.mk 8593 (bytes "uarr"),
  htmlEntityDesc.mk 8594 (bytes "rarr"),
  htmlEntityDesc.mk 8595 (bytes "darr"),
  htmlEntityDesc.mk 8596 (bytes "harr"),
  htmlEntityDesc.mk 8629 (bytes "crarr"),
  htmlEntityDesc.mk 8656 (bytes "lArr"),
  htmlEntityDesc.mk 8657 (bytes "uArr"),
  htmlEntityDesc.mk 8658 (bytes "rArr"),
  htmlEntityDesc.mk 8659 (bytes "dArr"),
  htmlEntityDesc.mk 8660 (bytes "hArr"),
  htmlEntityDesc.mk 8704 (bytes "forall"),
  htmlEntityDesc.mk 8706 (bytes "part"),
  htmlEntityDesc.mk 8707 (bytes "exist"),
  htmlEntityDesc.mk 8709 (bytes "empty"),
  htmlEntityDesc.mk 8711 (bytes "nabla"),
  htmlEntityDesc.mk 8712 (bytes "isin"),
  htmlEntityDesc.mk 8713 (bytes "notin"),
  htmlEntityDesc.mk 8715 (bytes "ni"),
  htmlEntityDesc.mk 8719 (bytes "prod"),
  htmlEntityDesc.mk 8721 (bytes "sum"),
  htmlEntityDesc.mk 8722 (bytes "minus"),
  htmlEntityDesc.mk 8727 (bytes "lowast"),
  htmlEntityDesc.mk 8730 (bytes "radic"),
  htmlEntityDesc.mk 8733 (bytes "prop"),
  htmlEntityDesc.mk 8734 (bytes "infin"),
  htmlEntityDesc.mk 8736 (bytes "ang"),
  htmlEntityDesc.mk 8743 (bytes "and"),
  htmlEntityDesc.mk 8744 (bytes "or"),
  htmlEntityDesc.mk 8745 (bytes "cap"),
  htmlEntityDesc.mk 8746 (bytes "cup"),
  htmlEntityDesc.mk 8747 (bytes "int"),
  htmlEntityDesc.mk 8756 (bytes "there4"),
  htmlEntityDesc.mk 8764 (bytes "sim"),
  htmlEntityDesc.mk 8773 (bytes "cong"),
  htmlEntityDesc.mk 8776 (bytes "asymp"),
  htmlEntityDesc.mk 8800 (bytes "ne"),
  htmlEntityDesc.mk 8801 (bytes "equiv"),
  htmlEntityDesc.mk 8804 (bytes "le"),
  htmlEntityDesc.mk 8805 (bytes "ge"),
  htmlEntityDesc.mk 8834 (bytes "sub"),
  htmlEntityDesc.mk 8835 (bytes "sup"),
  htmlEntityDesc.mk 8836 (bytes "nsub"),
  htmlEntityDesc.mk 8838 (bytes "sube"),
  htmlEntityDesc.mk 8839 (bytes "supe"),
  htmlEntityDesc.mk 8853 (bytes "oplus"),
  htmlEntityDesc.mk 8855 (bytes "otimes"),
  htmlEntityDesc.mk 8869 (bytes "perp"),
  htmlEntityDesc.mk 8901 (bytes "sdot"),
  htmlEntityDesc.mk 8968 (bytes "lceil"),
  htmlEntityDesc.mk 8969 (bytes "rceil"),
  htmlEntityDesc.mk 8970 (bytes "lfloor"),
  htmlEntityDesc.mk 8971 (bytes "rfloor"),
  htmlEntityDesc.mk 9001 (bytes "lang"),
  htmlEntityDesc.mk 9002 (bytes "rang"),
  htmlEntityDesc.mk 9674 (bytes "loz"),
  htmlEntityDesc.mk 9824 (bytes "spades"),
  htmlEntityDesc.mk 9827 (bytes "clubs"),
  htmlEntityDesc.mk 9829 (bytes "hearts"),
  htmlEntityDesc.mk 9830 (bytes "diams")]

/-- Table `allowPCData`. -/
def allowPCData : List (List Nat) := [
  bytes "a", bytes "abbr", bytes "acronym", bytes "address", bytes "applet", bytes "b",
  bytes "bdo", bytes "big", bytes "blockquote", bytes "body", bytes "button",
  bytes "caption", bytes "center", bytes "cite", bytes "code", bytes "dd", bytes "del",
  bytes "dfn", bytes "div", bytes "dt", bytes "em", bytes "font", bytes "form", bytes "h1",
  bytes "h2", bytes "h3", bytes "h4", bytes "h5", bytes "h6", bytes "i", bytes "iframe",
  bytes "ins", bytes "kbd", bytes "label", bytes "legend", bytes "li", bytes "noframes",
  bytes "noscript", bytes "object", bytes "p", bytes "pre", bytes "q", bytes "s",
  bytes "samp", bytes "small", bytes "span", bytes "strike", bytes "strong", bytes "td",
  bytes "th", bytes "tt", bytes "u", bytes "var"]

/-! ## Lookups -/

/-- Library function `xmlStrcasecmp` on NUL-terminated strings: a list stands
for the bytes in memory, the end of the list reads as the terminating NUL, and
the comparison stops at the first NUL. -/
def xmlStrcasecmp : List Nat → List Nat → Int
  | [], [] => 0
  | [], b :: _ => 0 - (casemap b : Int)
  | a :: _, [] => (casemap a : Int)
  | a :: as, b :: bs =>
    if casemap a ≠ casemap b then (casemap a : Int) - (casemap b : Int)
    else if b = 0 then 0
    else xmlStrcasecmp as bs

/-- C library `strcmp` on NUL-terminated strings (same reading of lists). -/
def strcmp : List Nat → List Nat → Int
  | [], [] => 0
  | [], b :: _ => 0 - (b : Int)
  | a :: _, [] => (a : Int)
  | a :: as, b :: bs =>
    if a ≠ b then (a : Int) - (b : Int)
    else if b = 0 then 0
    else strcmp as bs

/-- The C string held in a buffer: the bytes before the first NUL. -/
def cstring (buf : List Nat) : List Nat :=
  buf.takeWhile (fun b => b ≠ 0)

/-- The loop of the C library `bsearch` over the index range `[l, u)`. -/
def bsearch_loop {α β : Type} (compar : α → β → Int) (key : α) (base : List β) :
    Nat → Nat → Nat → Option β
  | 0, _, _ => none
  | fuel + 1, l, u =>
    if l < u then
      let idx := (l + u) / 2
      match base[idx]? with
      | none => none
      | some p =>
        let comparison := compar key p
        if comparison < 0 then bsearch_loop compar key base fuel l idx
        else if comparison > 0 then bsearch_loop compar key base fuel (idx + 1) u
        else some p
    else none

/-- C library `bsearch`; the range halves on every turn, so `nmemb + 1` turns
are enough. -/
def bsearch {α β : Type} (compar : α → β → Int) (key : α) (base : List β) : Option β :=
  bsearch_loop compar key base (base.length + 1) 0 base.length

def htmlCompareTags (key : List Nat) (member : htmlElemDesc) : Int :=
  xmlStrcasecmp key member.name

/-- Function `htmlTagLookup`. -/
def htmlTagLookup (tag : Option (List Nat)) : Option htmlElemDesc :=
  match tag with
  | none => none
  | some t => bsearch htmlCompareTags t html40ElementTable

/-- The loop of `htmlGetEndPriority` over the remaining entries. -/
def htmlGetEndPriority_loop (name : List Nat) : List (List Nat × Nat) → Nat
  | [] => 100
  | e :: rest => if e.1 = name then e.2 else htmlGetEndPriority_loop name rest

/-- Function `htmlGetEndPriority`. -/
def htmlGetEndPriority (name : List Nat) : Nat :=
  htmlGetEndPriority_loop name htmlEndPriority

def htmlCompareStartClose (key : List Nat × List Nat) (entry : List Nat × List Nat) : Int :=
  let ret := strcmp key.1 entry.1
  if ret = 0 then strcmp key.2 entry.2 else ret

/-- Function `htmlCheckAutoClose`. -/
def htmlCheckAutoClose (newtag oldtag : List Nat) : Bool :=
  (bsearch htmlCompareStartClose (oldtag, newtag) htmlStartClose).isSome

/-- The loop of `htmlEntityLookup` over the remaining entries. -/
def htmlEntityLookup_loop (name : List Nat) : List htmlEntityDesc → Option htmlEntityDesc
  | [] => none
  | e :: rest => if name = e.name then some e else htmlEntityLookup_loop name rest

/-- Function `htmlEntityLookup`. -/
def htmlEntityLookup (name : List Nat) : Option htmlEntityDesc :=
  htmlEntityLookup_loop name html40EntitiesTable

/-- The conversion `(int) x` of an `unsigned` value `x`: the value itself below
2^31, the value less 2^32 from there on. -/
def intOfUnsigned (x : Nat) : Int :=
  if x % 2 ^ 32 < 2 ^ 31 then ((x % 2 ^ 32 : Nat) : Int) else ((x % 2 ^ 32 : Nat) : Int) - 2 ^ 32

def htmlCompareEntityDesc (key : Nat) (desc : htmlEntityDesc) : Int :=
  intOfUnsigned key - intOfUnsigned desc.value

/-- Function `htmlEntityValueLookup`. -/
def htmlEntityValueLookup (value : Nat) : Option htmlEntityDesc :=
  bsearch htmlCompareEntityDesc value html40EntitiesTable

/-! ## Auto-close and implied elements -/

/-- The first loop of `htmlAutoCloseOnClose`, from the innermost element down:
`true` when an element named `newtag` is met before any element of higher
priority (the function goes on), `false` when it returns early. -/
def htmlAutoCloseOnClose_scan (newtag : List Nat) (priority : Nat) : List (List Nat) → Bool
  | [] => false
  | n :: rest =>
    if newtag = n then true
    else if htmlGetEndPriority n > priority then false
    else htmlAutoCloseOnClose_scan newtag priority rest

/-- The second loop of `htmlAutoCloseOnClose`. -/
def htmlAutoCloseOnClose_loop (newtag : List Nat) : Nat → htmlParserCtxt → htmlParserCtxt
  | 0, ctxt => ctxt
  | fuel + 1, ctxt =>
    if some newtag ≠ ctxt.name then
      let info := htmlTagLookup ctxt.name
      let c1 := match info with
        | some i =>
          if i.endTag = 3 then
            htmlParseErr ctxt xmlParserErrors.XML_ERR_TAG_NAME_MISMATCH
              "Opening and ending tag mismatch: %s and %s\n" (some newtag) ctxt.name
          else ctxt
        | none => ctxt
      let c2 := match c1.name with
        | some n => saxCall c1 (fun h => h.endElement) (saxEvent.endElement n)
        | none => saxCall c1 (fun h => h.endElement) (saxEvent.endElement [])
      htmlAutoCloseOnClose_loop newtag fuel (htmlnamePop c2).1
    else ctxt

/-- Function `htmlAutoCloseOnClose`. The second loop runs only when the first
one has found `newtag` on the stack, so it ends after at most `nameNr` pops. -/
def htmlAutoCloseOnClose (ctxt : htmlParserCtxt) (newtag : List Nat) : htmlParserCtxt :=
  let priority := htmlGetEndPriority newtag
  if htmlAutoCloseOnClose_scan newtag priority ctxt.nameTab then
    htmlAutoCloseOnClose_loop newtag ctxt.nameNr ctxt
  else ctxt

/-- The loop of `htmlAutoCloseOnEnd`, one turn per element on the stack. -/
def htmlAutoCloseOnEnd_loop : Nat → htmlParserCtxt → htmlParserCtxt
  | 0, ctxt => ctxt
  | i + 1, ctxt =>
    let c1 := match ctxt.name with
      | some n => saxCall ctxt (fun h => h.endElement) (saxEvent.endElement n)
      | none => saxCall ctxt (fun h => h.endElement) (saxEvent.endElement [])
    htmlAutoCloseOnEnd_loop i (htmlnamePop c1).1

/-- Function `htmlAutoCloseOnEnd`. -/
def htmlAutoCloseOnEnd (ctxt : htmlParserCtxt) : htmlParserCtxt :=
  if ctxt.nameNr = 0 then ctxt else htmlAutoCloseOnEnd_loop ctxt.nameNr ctxt

/-- The loop of `htmlAutoClose`. -/
def htmlAutoClose_loop (newtag : List Nat) : Nat → htmlParserCtxt → htmlParserCtxt
  | 0, ctxt => ctxt
  | fuel + 1, ctxt =>
    match ctxt.name with
    | none => ctxt
    | some name =>
      if htmlCheckAutoClose newtag name then
        let c1 := saxCall ctxt (fun h => h.endElement) (saxEvent.endElement name)
        htmlAutoClose_loop newtag fuel (htmlnamePop c1).1
      else ctxt

/-- Function `htmlAutoClose`. Every turn of the loop pops one element, so
`nameNr` bounds the number of turns. -/
def htmlAutoClose (ctxt : htmlParserCtxt) (newtag : Option (List Nat)) : htmlParserCtxt :=
  match newtag with
  | none => ctxt
  | some t => htmlAutoClose_loop t ctxt.nameNr ctxt

/-- Function `htmlCheckImplied`. -/
def htmlCheckImplied (ctxt : htmlParserCtxt) (newtag : List Nat) : htmlParserCtxt :=
  if ctxt.noImplied then ctxt
  else if htmlOmittedDefaultValue = 0 then ctxt
  else if newtag = bytes "html" then ctxt
  else
    let c1 := if ctxt.nameNr = 0 then
        saxCall (htmlnamePush ctxt (bytes "html")) (fun h => h.startElement)
          (saxEvent.startElement (bytes "html") [])
      else ctxt
    if newtag = bytes "body" ∨ newtag = bytes "head" then c1
    else if c1.nameNr ≤ 1 ∧
        (newtag = bytes "script" ∨ newtag = bytes "style" ∨ newtag = bytes "meta" ∨
         newtag = bytes "link" ∨ newtag = bytes "title" ∨ newtag = bytes "base") then
      if c1.html ≥ 3 then c1
      else
        saxCall (htmlnamePush c1 (bytes "head")) (fun h => h.startElement)
          (saxEvent.startElement (bytes "head") [])
    else if newtag ≠ bytes "noframes" ∧ newtag ≠ bytes "frame" ∧
        newtag ≠ bytes "frameset" then
      if c1.html ≥ 10 then c1
      else if c1.nameTab.any (fun n => n = bytes "body" ∨ n = bytes "head") then c1
      else
        saxCall (htmlnamePush c1 (bytes "body")) (fun h => h.startElement)
          (saxEvent.startElement (bytes "body") [])
    else c1

/-- The paragraph insertion that `htmlCheckParagraph` performs in both of its
branches. -/
def htmlCheckParagraph_insert (ctxt : htmlParserCtxt) : htmlParserCtxt :=
  let c1 := htmlAutoClose ctxt (some (bytes "p"))
  let c2 := htmlCheckImplied c1 (bytes "p")
  let c3 := htmlnamePush c2 (bytes "p")
  saxCall c3 (fun h => h.startElement) (saxEvent.startElement (bytes "p") [])

/-- Function `htmlCheckParagraph`: the context and the return value. -/
def htmlCheckParagraph (ctxt : htmlParserCtxt) : htmlParserCtxt × Int :=
  match ctxt.name with
  | none => (htmlCheckParagraph_insert ctxt, 1)
  | some tag =>
    if htmlOmittedDefaultValue = 0 then (ctxt, 0)
    else if htmlNoContentElements.contains tag then (htmlCheckParagraph_insert ctxt, 1)
    else (ctxt, 0)

/-! ## Names -/

/-- The character test of the loop of `htmlParseHTMLName`. -/
def htmlNameChar (c : Nat) : Bool :=
  IS_ASCII_LETTER c || IS_ASCII_DIGIT c || c == 0x3a || c == 0x2d || c == 0x5f || c == 0x2e

/-- The lower-casing done while a name is copied to `loc`. -/
def htmlLowerByte (c : Nat) : Nat :=
  if 0x41 ≤ c ∧ c ≤ 0x5a then c + 0x20 else c

/-- The loop of `htmlParseHTMLName`; the first argument is
`HTML_PARSER_BUFFER_SIZE - i`. -/
def htmlParseHTMLName_loop : Nat → htmlParserCtxt → List Nat → htmlParserCtxt × List Nat
  | 0, ctxt, loc => (ctxt, loc)
  | room + 1, ctxt, loc =>
    if htmlNameChar (CUR ctxt) then
      htmlParseHTMLName_loop room (xmlNextChar ctxt) (loc ++ [htmlLowerByte (CUR ctxt)])
    else (ctxt, loc)

/-- Function `htmlParseHTMLName`. -/
def htmlParseHTMLName (ctxt : htmlParserCtxt) : htmlParserCtxt × Option (List Nat) :=
  if !IS_ASCII_LETTER (CUR ctxt) && CUR ctxt != 0x5f && CUR ctxt != 0x3a && CUR ctxt != 0x2e then
    (ctxt, none)
  else
    let r := htmlParseHTMLName_loop HTML_PARSER_BUFFER_SIZE ctxt []
    (r.1, some r.2)

/-- The character test of the loop of `htmlParseHTMLName_nonInvasive`. -/
def htmlNameCharNonInvasive (c : Nat) : Bool :=
  IS_ASCII_LETTER c || IS_ASCII_DIGIT c || c == 0x3a || c == 0x2d || c == 0x5f

/-- The loop of `htmlParseHTMLName_nonInvasive`; `i` is the loop counter and the
first argument is `HTML_PARSER_BUFFER_SIZE - i`. -/
def htmlParseHTMLName_nonInvasive_loop (ctxt : htmlParserCtxt) : Nat → Nat → List Nat → List Nat
  | 0, _, loc => loc
  | room + 1, i, loc =>
    if htmlNameCharNonInvasive (NXT ctxt (1 + i)) then
      htmlParseHTMLName_nonInvasive_loop ctxt room (i + 1) (loc ++ [htmlLowerByte (NXT ctxt (1 + i))])
    else loc

/-- Function `htmlParseHTMLName_nonInvasive`. -/
def htmlParseHTMLName_nonInvasive (ctxt : htmlParserCtxt) : Option (List Nat) :=
  if !IS_ASCII_LETTER (NXT ctxt 1) && NXT ctxt 1 != 0x5f && NXT ctxt 1 != 0x3a then none
  else some (htmlParseHTMLName_nonInvasive_loop ctxt HTML_PARSER_BUFFER_SIZE 0 [])

/-- The character test of the loop of `htmlParseNameComplex`. -/
def htmlNameComplexChar (lim : xmlLimits) (c : Nat) : Bool :=
  c != 0x20 && c != 0x3e && c != 0x2f &&
    (IS_LETTER lim c || IS_DIGIT lim c || c == 0x2e || c == 0x2d || c == 0x5f || c == 0x3a ||
      IS_COMBINING lim c || IS_EXTENDER lim c)

/-- The loop of `htmlParseNameComplex`. The state is the context, the bytes
consumed so far (`len` is their number) and the current character with its
length. The restart on a moved input buffer is left out: the buffer does not
move in this model. -/
def htmlParseNameComplex_loop (lim : xmlLimits) (maxLength : Nat) :
    Nat → htmlParserCtxt → List Nat → Nat → Nat → htmlParserCtxt × Option (List Nat)
  | 0, ctxt, acc, _, _ => (ctxt, some acc)
  | fuel + 1, ctxt, acc, c, l =>
    if htmlNameComplexChar lim c then
      let acc1 := acc ++ ctxt.input.take l
      if acc1.length > maxLength then
        (htmlParseErr ctxt xmlParserErrors.XML_ERR_NAME_TOO_LONG "name too long" none none, none)
      else
        let r := htmlCurrentChar (NEXTL ctxt l)
        htmlParseNameComplex_loop lim maxLength fuel r.1 acc1 r.2.1 r.2.2
    else (ctxt, some acc)

/-- Function `htmlParseNameComplex`. -/
def htmlParseNameComplex (lim : xmlLimits) (ctxt : htmlParserCtxt) :
    htmlParserCtxt × Option (List Nat) :=
  let maxLength := if ctxt.huge then lim.XML_MAX_TEXT_LENGTH else lim.XML_MAX_NAME_LENGTH
  let r := htmlCurrentChar ctxt
  let c := r.2.1
  if c == 0x20 || c == 0x3e || c == 0x2f || (!IS_LETTER lim c && c != 0x5f && c != 0x3a) then
    (r.1, none)
  else
    htmlParseNameComplex_loop lim maxLength (2 * ctxt.input.length + 1) r.1 [] c r.2.2

/-- The character test of the second loop of the fast path of `htmlParseName`. -/
def htmlNameFastChar (c : Nat) : Bool :=
  (0x61 ≤ c && c ≤ 0x7A) || (0x41 ≤ c && c ≤ 0x5A) || (0x30 ≤ c && c ≤ 0x39) ||
    c == 0x5f || c == 0x2d || c == 0x3a || c == 0x2e

/-- Function `htmlParseName`. -/
def htmlParseName (lim : xmlLimits) (ctxt : htmlParserCtxt) :
    htmlParserCtxt × Option (List Nat) :=
  let c0 := CUR ctxt
  if (0x61 ≤ c0 && c0 ≤ 0x7A) || (0x41 ≤ c0 && c0 ≤ 0x5A) || c0 == 0x5f || c0 == 0x3a then
    let count := 1 + (ctxt.input.tail.takeWhile htmlNameFastChar).length
    if count = ctxt.input.length then (ctxt, none)
    else if 0 < NXT ctxt count ∧ NXT ctxt count < 0x80 then
      ({ ctxt with input := ctxt.input.drop count, col := ctxt.col + count },
        some (ctxt.input.take count))
    else htmlParseNameComplex lim ctxt
  else htmlParseNameComplex lim ctxt

/-! ## References -/

/-- Function `htmlParseEntityRef`: the context, the descriptor found and the
name stored in `*str`. -/
def htmlParseEntityRef (lim : xmlLimits) (ctxt : htmlParserCtxt) :
    htmlParserCtxt × Option htmlEntityDesc × Option (List Nat) :=
  if CUR ctxt = 0x26 then
    let r := htmlParseName lim (xmlNextChar ctxt)
    match r.2 with
    | none =>
      (htmlParseErr r.1 xmlParserErrors.XML_ERR_NAME_REQUIRED
        "htmlParseEntityRef: no name\n" none none, none, none)
    | some name =>
      if CUR r.1 = 0x3b then
        let ent := htmlEntityLookup name
        (if ent.isSome then xmlNextChar r.1 else r.1, ent, some name)
      else
        (htmlParseErr r.1 xmlParserErrors.XML_ERR_ENTITYREF_SEMICOL_MISSING
          "htmlParseEntityRef: expecting ';'\n" none none, none, some name)
  else (ctxt, none, none)

/-- The loop of the hexadecimal branch of `htmlParseCharRef`. -/
def htmlParseCharRef_hex_loop : Nat → htmlParserCtxt → Nat → htmlParserCtxt × Nat
  | 0, ctxt, val => (ctxt, val)
  | fuel + 1, ctxt, val =>
    let c := CUR ctxt
    if c ≠ 0x3b then
      if 0x30 ≤ c ∧ c ≤ 0x39 then
        htmlParseCharRef_hex_loop fuel (xmlNextChar ctxt)
          (if val < 0x110000 then val * 16 + (c - 0x30) else val)
      else if 0x61 ≤ c ∧ c ≤ 0x66 then
        htmlParseCharRef_hex_loop fuel (xmlNextChar ctxt)
          (if val < 0x110000 then val * 16 + (c - 0x61) + 10 else val)
      else if 0x41 ≤ c ∧ c ≤ 0x46 then
        htmlParseCharRef_hex_loop fuel (xmlNextChar ctxt)
          (if val < 0x110000 then val * 16 + (c - 0x41) + 10 else val)
      else
        (htmlParseErr ctxt xmlParserErrors.XML_ERR_INVALID_HEX_CHARREF
          "htmlParseCharRef: missing semicolon\n" none none, val)
    else (ctxt, val)

/-- The loop of the decimal branch of `htmlParseCharRef`. -/
def htmlParseCharRef_dec_loop : Nat → htmlParserCtxt → Nat → htmlParserCtxt × Nat
  | 0, ctxt, val => (ctxt, val)
  | fuel + 1, ctxt, val =>
    let c := CUR ctxt
    if c ≠ 0x3b then
      if 0x30 ≤ c ∧ c ≤ 0x39 then
        htmlParseCharRef_dec_loop fuel (xmlNextChar ctxt)
          (if val < 0x110000 then val * 10 + (c - 0x30) else val)
      else
        (htmlParseErr ctxt xmlParserErrors.XML_ERR_INVALID_DEC_CHARREF
          "htmlParseCharRef: missing semicolon\n" none none, val)
    else (ctxt, val)

/-- Function `htmlParseCharRef`: the context and the value returned. Every turn
of a digit loop that goes on consumes a byte, so the number of buffered bytes
plus one bounds the turns. -/
def htmlParseCharRef (ctxt : htmlParserCtxt) : htmlParserCtxt × Nat :=
  let r : htmlParserCtxt × Nat :=
    if CUR ctxt = 0x26 ∧ NXT ctxt 1 = 0x23 ∧ (NXT ctxt 2 = 0x78 ∨ NXT ctxt 2 = 0x58) then
      let r1 := htmlParseCharRef_hex_loop (ctxt.input.length + 1) (SKIP ctxt 3) 0
      (if CUR r1.1 = 0x3b then xmlNextChar r1.1 else r1.1, r1.2)
    else if CUR ctxt = 0x26 ∧ NXT ctxt 1 = 0x23 then
      let r1 := htmlParseCharRef_dec_loop (ctxt.input.length + 1) (SKIP ctxt 2) 0
      (if CUR r1.1 = 0x3b then xmlNextChar r1.1 else r1.1, r1.2)
    else
      (htmlParseErr ctxt xmlParserErrors.XML_ERR_INVALID_CHARREF
        "htmlParseCharRef: invalid value\n" none none, 0)
  if IS_CHAR r.2 then (r.1, r.2)
  else if r.2 ≥ 0x110000 then
    (htmlParseErr r.1 xmlParserErrors.XML_ERR_INVALID_CHAR
      "htmlParseCharRef: value too large\n" none none, 0)
  else
    (htmlParseErrInt r.1 xmlParserErrors.XML_ERR_INVALID_CHAR
      "htmlParseCharRef: invalid xmlChar value %d\n" r.2, 0)

/-! ## Attributes -/

/-- One turn of the loop of `htmlParseHTMLAttribute`: the context after the turn
and the bytes written to the buffer. -/
def htmlParseHTMLAttribute_step (lim : xmlLimits) (ctxt : htmlParserCtxt) :
    htmlParserCtxt × List Nat :=
  if CUR ctxt = 0x26 then
    if NXT ctxt 1 = 0x23 then
      let r := htmlParseCharRef ctxt
      (r.1, htmlEncodeUTF8 r.2)
    else
      let r := htmlParseEntityRef lim ctxt
      match r.2.2 with
      | none => (r.1, [0x26])
      | some name =>
        match r.2.1 with
        | none => (r.1, 0x26 :: cstring name)
        | some ent => (r.1, htmlEncodeUTF8 ent.value)
  else
    let r := htmlCurrentChar ctxt
    (NEXTL r.1 r.2.2, htmlEncodeUTF8 r.2.1)

/-- The loop of `htmlParseHTMLAttribute`. -/
def htmlParseHTMLAttribute_loop (lim : xmlLimits) (stop : Nat) (maxLength : Nat) :
    Nat → htmlParserCtxt → List Nat → htmlParserCtxt × Option (List Nat)
  | 0, ctxt, out => (ctxt, some (cstring out))
  | fuel + 1, ctxt, out =>
    if !PARSER_STOPPED ctxt && CUR ctxt != 0 && CUR ctxt != stop then
      if stop = 0 ∧ CUR ctxt = 0x3e then (ctxt, some (cstring out))
      else if stop = 0 ∧ IS_BLANK_CH (CUR ctxt) then (ctxt, some (cstring out))
      else
        let r := htmlParseHTMLAttribute_step lim ctxt
        let out1 := out ++ r.2
        if out1.length > maxLength then
          (htmlParseErr r.1 xmlParserErrors.XML_ERR_ATTRIBUTE_NOT_FINISHED
            "attribute value too long\n" none none, none)
        else htmlParseHTMLAttribute_loop lim stop maxLength fuel r.1 out1
    else (ctxt, some (cstring out))

/-- Function `htmlParseHTMLAttribute`. Every turn of the loop consumes a byte,
and the converter that `htmlCurrentChar` may plug in writes at most two bytes
for one, so twice the number of buffered bytes plus one bounds the turns. The
value returned is a C string: it ends at the first NUL written to the buffer. -/
def htmlParseHTMLAttribute (lim : xmlLimits) (ctxt : htmlParserCtxt) (stop : Nat) :
    htmlParserCtxt × Option (List Nat) :=
  let maxLength := if ctxt.huge then lim.XML_MAX_HUGE_LENGTH else lim.XML_MAX_TEXT_LENGTH
  htmlParseHTMLAttribute_loop lim stop maxLength (2 * ctxt.input.length + 1) ctxt []

/-- Function `htmlParseAttValue`. -/
def htmlParseAttValue (lim : xmlLimits) (ctxt : htmlParserCtxt) :
    htmlParserCtxt × Option (List Nat) :=
  if CUR ctxt = 0x22 then
    let r := htmlParseHTMLAttribute lim (xmlNextChar ctxt) 0x22
    if CUR r.1 ≠ 0x22 then
      (htmlParseErr r.1 xmlParserErrors.XML_ERR_ATTRIBUTE_NOT_FINISHED
        "AttValue: \" expected\n" none none, r.2)
    else (xmlNextChar r.1, r.2)
  else if CUR ctxt = 0x27 then
    let r := htmlParseHTMLAttribute lim (xmlNextChar ctxt) 0x27
    if CUR r.1 ≠ 0x27 then
      (htmlParseErr r.1 xmlParserErrors.XML_ERR_ATTRIBUTE_NOT_FINISHED
        "AttValue: ' expected\n" none none, r.2)
    else (xmlNextChar r.1, r.2)
  else
    let r := htmlParseHTMLAttribute lim ctxt 0
    match r.2 with
    | none =>
      (htmlParseErr r.1 xmlParserErrors.XML_ERR_ATTRIBUTE_WITHOUT_VALUE
        "AttValue: no value found\n" none none, none)
    | some v => (r.1, some v)

/-- Function `htmlParseAttribute`: the context, the attribute name and the
value stored in `*value`. -/
def htmlParseAttribute (lim : xmlLimits) (ctxt : htmlParserCtxt) :
    htmlParserCtxt × Option (List Nat) × Option (List Nat) :=
  let r := htmlParseHTMLName ctxt
  match r.2 with
  | none =>
    (htmlParseErr r.1 xmlParserErrors.XML_ERR_NAME_REQUIRED
      "error parsing attribute name\n" none none, none, none)
  | some name =>
    let c1 := (htmlSkipBlankChars lim r.1).1
    if CUR c1 = 0x3d then
      let c2 := (htmlSkipBlankChars lim (xmlNextChar c1)).1
      let v := htmlParseAttValue lim c2
      (v.1, some name, v.2)
    else (c1, some name, none)

/-- Modelled from the spec: `xmlSetDeclaredEncoding` is defined in
parserInternals.c, which is not part of the sources at hand. Spec 4.4 step 5:
an encoding name found in a meta tag is fed to the encoding switch, but only
if no encoding has been declared yet. -/
def xmlSetDeclaredEncoding (ctxt : htmlParserCtxt) (encoding : List Nat) : htmlParserCtxt :=
  if ctxt.hasEncoding = false then
    { xmlSwitchEncodingName ctxt encoding with declaredEncoding := some encoding }
  else ctxt

/-- Function `htmlCheckEncoding`. -/
def htmlCheckEncoding (ctxt : htmlParserCtxt) (attvalue : Option (List Nat)) : htmlParserCtxt :=
  match attvalue with
  | none => ctxt
  | some v =>
    let e1 := (xmlStrcasestr v (bytes "charset")).map (fun e => e.drop 7)
    let e2 := match e1 with
      | some e => if IS_BLANK_CH (e.headD 0) then xmlStrcasestr v (bytes "=") else some e
      | none => none
    match e2 with
    | some e => if e.headD 0 = 0x3d then xmlSetDeclaredEncoding ctxt (e.drop 1) else ctxt
    | none => ctxt

/-- The loop of `htmlCheckMeta` over the attribute pairs: the context, the flag
`http` and the pointer `content`. -/
def htmlCheckMeta_loop :
    List (List Nat × Option (List Nat)) → htmlParserCtxt → Bool → Option (List Nat) →
      htmlParserCtxt × Bool × Option (List Nat)
  | [], ctxt, http, content => (ctxt, http, content)
  | (att, value) :: rest, ctxt, http, content =>
    match value with
    | none => htmlCheckMeta_loop rest ctxt http content
    | some v =>
      if xmlStrcasecmp att (bytes "http-equiv") = 0 ∧ xmlStrcasecmp v (bytes "Content-Type") = 0 then
        htmlCheckMeta_loop rest ctxt true content
      else if xmlStrcasecmp att (bytes "charset") = 0 then
        htmlCheckMeta_loop rest (xmlSetDeclaredEncoding ctxt v) http content
      else if xmlStrcasecmp att (bytes "content") = 0 then
        htmlCheckMeta_loop rest ctxt http (some v)
      else htmlCheckMeta_loop rest ctxt http content

/-- Function `htmlCheckMeta`. -/
def htmlCheckMeta (ctxt : htmlParserCtxt) (atts : List (List Nat × Option (List Nat))) :
    htmlParserCtxt :=
  let r := htmlCheckMeta_loop atts ctxt false none
  if r.2.1 ∧ r.2.2.isSome then htmlCheckEncoding r.1 r.2.2 else r.1

/-! ## Comments, processing instructions, DOCTYPE -/

/-- The loop of `htmlSkipBogusComment`. -/
def htmlSkipBogusComment_loop : Nat → htmlParserCtxt → htmlParserCtxt
  | 0, ctxt => ctxt
  | fuel + 1, ctxt =>
    if PARSER_STOPPED ctxt = false then
      let c := CUR ctxt
      if c = 0 then ctxt
      else
        let c1 := xmlNextChar ctxt
        if c = 0x3e then c1 else htmlSkipBogusComment_loop fuel c1
    else ctxt

/-- Function `htmlSkipBogusComment`. -/
def htmlSkipBogusComment (ctxt : htmlParserCtxt) : htmlParserCtxt :=
  htmlSkipBogusComment_loop (ctxt.input.length + 1)
    (htmlParseErr ctxt xmlParserErrors.XML_HTML_INCORRECTLY_OPENED_COMMENT
      "Incorrectly opened comment\n" none none)

/-- The label `unfinished` of `htmlParseComment`. -/
def htmlParseComment_unfinished (ctxt : htmlParserCtxt) (buf : List Nat) : htmlParserCtxt :=
  htmlParseErr ctxt xmlParserErrors.XML_ERR_COMMENT_NOT_FINISHED
    "Comment not terminated \n<!--%.50s\n" (some buf) none

/-- The label `finished` of `htmlParseComment`. -/
def htmlParseComment_finished (ctxt : htmlParserCtxt) (state : xmlParserInputState)
    (buf : List Nat) (cur : Nat) : htmlParserCtxt :=
  if cur = 0x3e then
    let c1 := xmlNextChar ctxt
    let c2 := saxCallEnabled c1 (fun h => h.comment) (saxEvent.comment buf)
    { c2 with instate := state }
  else htmlParseComment_unfinished ctxt buf

/-- The main loop of `htmlParseComment`. The state is the context, the buffer,
and the three characters `q`, `r`, `cur` with their lengths. -/
def htmlParseComment_loop (maxLength : Nat) (state : xmlParserInputState) :
    Nat → htmlParserCtxt → List Nat → Nat → Nat → Nat → Nat → Nat → Nat → htmlParserCtxt
  | 0, ctxt, buf, _, _, _, _, cur, _ => htmlParseComment_finished ctxt state buf cur
  | fuel + 1, ctxt, buf, q, ql, r, rl, cur, l =>
    if cur ≠ 0 ∧ (cur ≠ 0x3e ∨ r ≠ 0x2d ∨ q ≠ 0x2d) then
      let n := htmlCurrentChar (NEXTL ctxt l)
      let c1 := n.1
      let next := n.2.1
      let nl := n.2.2
      if q = 0x2d ∧ r = 0x2d ∧ cur = 0x21 ∧ next = 0x3e then
        htmlParseComment_finished
          (htmlParseErr c1 xmlParserErrors.XML_ERR_COMMENT_NOT_FINISHED
            "Comment incorrectly closed by '--!>'" none none) state buf 0x3e
      else
        let c2 := if IS_CHAR q then c1
          else htmlParseErrInt c1 xmlParserErrors.XML_ERR_INVALID_CHAR
            "Invalid char in comment 0x%X\n" q
        let buf1 := if IS_CHAR q then buf ++ COPY_BUF ql q else buf
        if buf1.length > maxLength then
          { htmlParseErr c2 xmlParserErrors.XML_ERR_COMMENT_NOT_FINISHED
              "comment too long" none none with instate := state }
        else htmlParseComment_loop maxLength state fuel c2 buf1 r rl cur l next nl
    else htmlParseComment_finished ctxt state buf cur

/-- Function `htmlParseComment`. Every turn of the main loop moves the cursor
over the character `cur`, and the converter that `htmlCurrentChar` may plug in
writes at most two bytes for one, so twice the number of buffered bytes plus
one bounds the turns. -/
def htmlParseComment (lim : xmlLimits) (ctxt : htmlParserCtxt) : htmlParserCtxt :=
  let maxLength := if ctxt.huge then lim.XML_MAX_HUGE_LENGTH else lim.XML_MAX_TEXT_LENGTH
  if CUR ctxt ≠ 0x3c ∨ NXT ctxt 1 ≠ 0x21 ∨ NXT ctxt 2 ≠ 0x2d ∨ NXT ctxt 3 ≠ 0x2d then ctxt
  else
    let state := ctxt.instate
    let c0 := SKIP { ctxt with instate := xmlParserInputState.XML_PARSER_COMMENT } 4
    let rq := htmlCurrentChar c0
    let q := rq.2.1
    let ql := rq.2.2
    if q = 0 then htmlParseComment_unfinished rq.1 []
    else if q = 0x3e then
      htmlParseComment_finished
        (htmlParseErr rq.1 xmlParserErrors.XML_ERR_COMMENT_ABRUPTLY_ENDED
          "Comment abruptly ended" none none) state [] 0x3e
    else
      let rr := htmlCurrentChar (NEXTL rq.1 ql)
      let r := rr.2.1
      let rl := rr.2.2
      if r = 0 then htmlParseComment_unfinished rr.1 []
      else if q = 0x2d ∧ r = 0x3e then
        htmlParseComment_finished
          (htmlParseErr rr.1 xmlParserErrors.XML_ERR_COMMENT_ABRUPTLY_ENDED
            "Comment abruptly ended" none none) state [] 0x3e
      else
        let rc := htmlCurrentChar (NEXTL rr.1 rl)
        htmlParseComment_loop maxLength state (2 * ctxt.input.length + 1) rc.1 [] q ql r rl
          rc.2.1 rc.2.2

/-- The loop of `htmlParsePI` that copies the data. -/
def htmlParsePI_loop (maxLength : Nat) (target : List Nat) :
    Nat → htmlParserCtxt → List Nat → Nat → Nat → htmlParserCtxt × Option (List Nat × Nat)
  | 0, ctxt, buf, cur, _ => (ctxt, some (buf, cur))
  | fuel + 1, ctxt, buf, cur, l =>
    if cur ≠ 0 ∧ cur ≠ 0x3e then
      let c1 := if IS_CHAR cur then ctxt
        else htmlParseErrInt ctxt xmlParserErrors.XML_ERR_INVALID_CHAR
          "Invalid char in processing instruction 0x%X\n" cur
      let buf1 := if IS_CHAR cur then buf ++ COPY_BUF l cur else buf
      if buf1.length > maxLength then
        (htmlParseErr c1 xmlParserErrors.XML_ERR_PI_NOT_FINISHED "PI %s too long"
          (some target) none, none)
      else
        let n := htmlCurrentChar (NEXTL c1 l)
        htmlParsePI_loop maxLength target fuel n.1 buf1 n.2.1 n.2.2
    else (ctxt, some (buf, cur))

/-- Function `htmlParsePI`. -/
def htmlParsePI (lim : xmlLimits) (ctxt : htmlParserCtxt) : htmlParserCtxt :=
  let maxLength := if ctxt.huge then lim.XML_MAX_HUGE_LENGTH else lim.XML_MAX_TEXT_LENGTH
  if CUR ctxt = 0x3c ∧ NXT ctxt 1 = 0x3f then
    let state := ctxt.instate
    let c0 := SKIP { ctxt with instate := xmlParserInputState.XML_PARSER_PI } 2
    let rt := htmlParseName lim c0
    match rt.2 with
    | some target =>
      if CUR rt.1 = 0x3e then
        let c1 := SKIP rt.1 1
        let c2 := saxCallEnabled c1 (fun h => h.processingInstruction)
          (saxEvent.processingInstruction target none)
        { c2 with instate := state }
      else
        let c1 := if IS_BLANK (CUR rt.1) then rt.1
          else htmlParseErr rt.1 xmlParserErrors.XML_ERR_SPACE_REQUIRED
            "ParsePI: PI %s space expected\n" (some target) none
        let c2 := (htmlSkipBlankChars lim c1).1
        let rc := htmlCurrentChar c2
        let rl := htmlParsePI_loop maxLength target (2 * ctxt.input.length + 1) rc.1 [] rc.2.1 rc.2.2
        match rl.2 with
        | none => { rl.1 with instate := state }
        | some (buf, cur) =>
          if cur ≠ 0x3e then
            { htmlParseErr rl.1 xmlParserErrors.XML_ERR_PI_NOT_FINISHED
                "ParsePI: PI %s never end ...\n" (some target) none with instate := state }
          else
            let c3 := SKIP rl.1 1
            let c4 := saxCallEnabled c3 (fun h => h.processingInstruction)
              (saxEvent.processingInstruction target (some buf))
            { c4 with instate := state }
    | none =>
      { htmlParseErr rt.1 xmlParserErrors.XML_ERR_PI_NOT_STARTED
          "PI is not started correctly" none none with instate := state }
  else ctxt

/-- The loop shared by `htmlParseSystemLiteral` and `htmlParsePubidLiteral`:
the context, the bytes passed over and the flag `err`. -/
def htmlParseLiteral_loop (ok : Nat → Bool) (msg : String) (quote : Nat) :
    Nat → htmlParserCtxt → List Nat → Bool → htmlParserCtxt × List Nat × Bool
  | 0, ctxt, acc, err => (ctxt, acc, err)
  | fuel + 1, ctxt, acc, err =>
    if !PARSER_STOPPED ctxt && CUR ctxt != 0 && CUR ctxt != quote then
      let bad := !ok (CUR ctxt)
      let c1 := if bad then
          htmlParseErrInt ctxt xmlParserErrors.XML_ERR_INVALID_CHAR msg (CUR ctxt)
        else ctxt
      let c2 := xmlNextChar c1
      let taken := ctxt.input.take 1
      htmlParseLiteral_loop ok msg quote fuel c2 (acc ++ taken) (err || bad)
    else (ctxt, acc, err)

/-- Function `htmlParseSystemLiteral`. The value is copied from the start
position, as many bytes as the loop made turns (`len`). -/
def htmlParseSystemLiteral (ctxt : htmlParserCtxt) : htmlParserCtxt × Option (List Nat) :=
  if CUR ctxt ≠ 0x22 ∧ CUR ctxt ≠ 0x27 then
    (htmlParseErr ctxt xmlParserErrors.XML_ERR_LITERAL_NOT_STARTED
      "SystemLiteral \" or ' expected\n" none none, none)
  else
    let quote := CUR ctxt
    let c1 := xmlNextChar ctxt
    let r := htmlParseLiteral_loop IS_CHAR_CH "Invalid char in SystemLiteral 0x%X\n" quote
      (c1.input.length + 1) c1 [] false
    if CUR r.1 ≠ quote then
      (htmlParseErr r.1 xmlParserErrors.XML_ERR_LITERAL_NOT_FINISHED
        "Unfinished SystemLiteral\n" none none, none)
    else (xmlNextChar r.1, if r.2.2 = false then some (c1.input.take r.2.1.length) else none)

/-- Function `htmlParsePubidLiteral`. -/
def htmlParsePubidLiteral (ctxt : htmlParserCtxt) : htmlParserCtxt × Option (List Nat) :=
  if CUR ctxt ≠ 0x22 ∧ CUR ctxt ≠ 0x27 then
    (htmlParseErr ctxt xmlParserErrors.XML_ERR_LITERAL_NOT_STARTED
      "PubidLiteral \" or ' expected\n" none none, none)
  else
    let quote := CUR ctxt
    let c1 := xmlNextChar ctxt
    let r := htmlParseLiteral_loop IS_PUBIDCHAR_CH "Invalid char in PubidLiteral 0x%X\n" quote
      (c1.input.length + 1) c1 [] false
    if CUR r.1 ≠ quote then
      (htmlParseErr r.1 xmlParserErrors.XML_ERR_LITERAL_NOT_FINISHED
        "Unfinished PubidLiteral\n" none none, none)
    else (xmlNextChar r.1, if r.2.2 = false then some (c1.input.take r.2.1.length) else none)

/-- Function `htmlParseExternalID`: the context, the URI returned and the
value stored in `*publicID`. -/
def htmlParseExternalID (lim : xmlLimits) (ctxt : htmlParserCtxt) :
    htmlParserCtxt × Option (List Nat) × Option (List Nat) :=
  if UPP ctxt 0 = 0x53 ∧ UPP ctxt 1 = 0x59 ∧ UPP ctxt 2 = 0x53 ∧ UPP ctxt 3 = 0x54 ∧
      UPP ctxt 4 = 0x45 ∧ UPP ctxt 5 = 0x4d then
    let c1 := SKIP ctxt 6
    let c2 := if IS_BLANK_CH (CUR c1) then c1
      else htmlParseErr c1 xmlParserErrors.XML_ERR_SPACE_REQUIRED
        "Space required after 'SYSTEM'\n" none none
    let c3 := (htmlSkipBlankChars lim c2).1
    let r := htmlParseSystemLiteral c3
    match r.2 with
    | none =>
      (htmlParseErr r.1 xmlParserErrors.XML_ERR_URI_REQUIRED
        "htmlParseExternalID: SYSTEM, no URI\n" none none, none, none)
    | some uri => (r.1, some uri, none)
  else if UPP ctxt 0 = 0x50 ∧ UPP ctxt 1 = 0x55 ∧ UPP ctxt 2 = 0x42 ∧ UPP ctxt 3 = 0x4c ∧
      UPP ctxt 4 = 0x49 ∧ UPP ctxt 5 = 0x43 then
    let c1 := SKIP ctxt 6
    let c2 := if IS_BLANK_CH (CUR c1) then c1
      else htmlParseErr c1 xmlParserErrors.XML_ERR_SPACE_REQUIRED
        "Space required after 'PUBLIC'\n" none none
    let c3 := (htmlSkipBlankChars lim c2).1
    let rp := htmlParsePubidLiteral c3
    let c4 := match rp.2 with
      | none => htmlParseErr rp.1 xmlParserErrors.XML_ERR_PUBID_REQUIRED
          "htmlParseExternalID: PUBLIC, no Public Identifier\n" none none
      | some _ => rp.1
    let c5 := (htmlSkipBlankChars lim c4).1
    if CUR c5 = 0x22 ∨ CUR c5 = 0x27 then
      let r := htmlParseSystemLiteral c5
      (r.1, r.2, rp.2)
    else (c5, none, rp.2)
  else (ctxt, none, none)

/-- The loop of `htmlParseDocTypeDecl` that skips bogus content. -/
def htmlParseDocTypeDecl_skip : Nat → htmlParserCtxt → htmlParserCtxt
  | 0, ctxt => ctxt
  | fuel + 1, ctxt =>
    if CUR ctxt != 0 && CUR ctxt != 0x3e && !PARSER_STOPPED ctxt then
      htmlParseDocTypeDecl_skip fuel (xmlNextChar ctxt)
    else ctxt

/-- Function `htmlParseDocTypeDecl`. -/
def htmlParseDocTypeDecl (lim : xmlLimits) (ctxt : htmlParserCtxt) : htmlParserCtxt :=
  let c1 := (htmlSkipBlankChars lim (SKIP ctxt 9)).1
  let rn := htmlParseName lim c1
  let c2 := match rn.2 with
    | none => htmlParseErr rn.1 xmlParserErrors.XML_ERR_NAME_REQUIRED
        "htmlParseDocTypeDecl : no DOCTYPE name !\n" none none
    | some _ => rn.1
  let c3 := (htmlSkipBlankChars lim c2).1
  let re := htmlParseExternalID lim c3
  let c4 := (htmlSkipBlankChars lim re.1).1
  let c5 := if CUR c4 ≠ 0x3e then
      htmlParseDocTypeDecl_skip (c4.input.length + 1)
        (htmlParseErr c4 xmlParserErrors.XML_ERR_DOCTYPE_NOT_FINISHED
          "DOCTYPE improperly terminated\n" none none)
    else c4
  let c6 := if CUR c5 = 0x3e then xmlNextChar c5 else c5
  saxCallEnabled c6 (fun h => h.internalSubset) (saxEvent.internalSubset rn.2 re.2.2 re.2.1)

/-! ## Character data -/

/-- The buffer flush of `htmlParseScript`. -/
def htmlParseScript_flush (ctxt : htmlParserCtxt) (buf : List Nat) : htmlParserCtxt :=
  match ctxt.sax with
  | none => ctxt
  | some h =>
    if h.cdataBlock then { ctxt with events := ctxt.events ++ [saxEvent.cdataBlock buf] }
    else if h.characters then { ctxt with events := ctxt.events ++ [saxEvent.characters buf] }
    else ctxt

/-- The loop of `htmlParseScript`: the context and the buffer on exit. -/
def htmlParseScript_loop :
    Nat → htmlParserCtxt → List Nat → Nat → Nat → htmlParserCtxt × List Nat
  | 0, ctxt, buf, _, _ => (ctxt, buf)
  | fuel + 1, ctxt, buf, cur, l =>
    if cur ≠ 0 then
      let stop : Bool × htmlParserCtxt :=
        if cur = 0x3c ∧ NXT ctxt 1 = 0x2f then
          if ctxt.recovery then
            let nm := ctxt.name.getD []
            if xmlStrncasecmp nm (ctxt.input.drop 2) (cstring nm).length = 0 then (true, ctxt)
            else
              (false, htmlParseErr ctxt xmlParserErrors.XML_ERR_TAG_NAME_MISMATCH
                "Element %s embeds close tag\n" ctxt.name none)
          else if (0x41 ≤ NXT ctxt 2 ∧ NXT ctxt 2 ≤ 0x5a) ∨ (0x61 ≤ NXT ctxt 2 ∧ NXT ctxt 2 ≤ 0x7a) then
            (true, ctxt)
          else (false, ctxt)
        else (false, ctxt)
      if stop.1 then (stop.2, buf)
      else
        let c1 := if IS_CHAR cur then stop.2
          else htmlParseErrInt stop.2 xmlParserErrors.XML_ERR_INVALID_CHAR
            "Invalid char in CDATA 0x%X\n" cur
        let buf1 := if IS_CHAR cur then buf ++ COPY_BUF l cur else buf
        let c2 := NEXTL c1 l
        let flushed := decide (buf1.length ≥ HTML_PARSER_BIG_BUFFER_SIZE)
        let c3 := if flushed then htmlParseScript_flush c2 buf1 else c2
        let n := htmlCurrentChar c3
        htmlParseScript_loop fuel n.1 (if flushed then [] else buf1) n.2.1 n.2.2
    else (ctxt, buf)

/-- Function `htmlParseScript`. -/
def htmlParseScript (ctxt : htmlParserCtxt) : htmlParserCtxt :=
  let rc := htmlCurrentChar ctxt
  let r := htmlParseScript_loop (2 * ctxt.input.length + 1) rc.1 [] rc.2.1 rc.2.2
  if r.2 ≠ [] ∧ r.1.sax.isSome ∧ r.1.disableSAX = 0 then htmlParseScript_flush r.1 r.2
  else r.1

/-- Function `areBlanks`, applied to the buffered text `str`. The tree is read
through `ctxt->node`, its last child that is not a comment, and the external
identifier of the internal subset of `ctxt->myDoc`. -/
def areBlanks (ctxt : htmlParserCtxt) (str : List Nat) : Bool :=
  if str.any (fun b => !IS_BLANK_CH b) then false
  else if CUR ctxt = 0 then true
  else if CUR ctxt ≠ 0x3c then false
  else
    match ctxt.name with
    | none => true
    | some name =>
      if name = bytes "html" then true
      else if name = bytes "head" then true
      else if decide (name = bytes "body") &&
          (match ctxt.dtdExternalID with
           | some id => decide (xmlStrcasecmp id (bytes "-//W3C//DTD HTML 4.01//EN") = 0) ||
               decide (xmlStrcasecmp id (bytes "-//W3C//DTD HTML 4//EN") = 0)
           | none => false) then true
      else
        match ctxt.node with
        | none => false
        | some node =>
          match (node.children.reverse.dropWhile (fun ch => ch.1 = 8)).head? with
          | none =>
            if node.type ≠ 1 ∧ node.hasContent then false
            else if allowPCData.contains name then false
            else true
          | some lastChild =>
            if lastChild.1 = 3 then false
            else if allowPCData.contains lastChild.2 then false
            else true

/-- The buffer flush of `htmlParseCharDataInternal`. -/
def htmlParseCharData_flush (ctxt : htmlParserCtxt) (buf : List Nat) : htmlParserCtxt :=
  match ctxt.sax with
  | none => ctxt
  | some h =>
    if ctxt.disableSAX = 0 then
      if areBlanks ctxt buf then
        if ctxt.keepBlanks then
          (if h.characters then { ctxt with events := ctxt.events ++ [saxEvent.characters buf] }
           else ctxt)
        else
          (if h.ignorableWhitespace then
            { ctxt with events := ctxt.events ++ [saxEvent.ignorableWhitespace buf] }
           else ctxt)
      else
        let c1 := (htmlCheckParagraph ctxt).1
        if h.characters then { c1 with events := c1.events ++ [saxEvent.characters buf] }
        else c1
    else ctxt

/-- The loop of `htmlParseCharDataInternal`: the context and the buffer on exit. -/
def htmlParseCharDataInternal_loop :
    Nat → htmlParserCtxt → List Nat → Nat → Nat → htmlParserCtxt × List Nat
  | 0, ctxt, buf, _, _ => (ctxt, buf)
  | fuel + 1, ctxt, buf, cur, l =>
    if cur ≠ 0x3c ∧ cur ≠ 0x26 ∧ cur ≠ 0 ∧ PARSER_STOPPED ctxt = false then
      let c1 := if IS_CHAR cur then ctxt
        else htmlParseErrInt ctxt xmlParserErrors.XML_ERR_INVALID_CHAR
          "Invalid char in CDATA 0x%X\n" cur
      let buf1 := if IS_CHAR cur then buf ++ COPY_BUF l cur else buf
      let c2 := NEXTL c1 l
      let flushed := decide (buf1.length ≥ HTML_PARSER_BIG_BUFFER_SIZE)
      let c3 := if flushed then htmlParseCharData_flush c2 buf1 else c2
      let n := htmlCurrentChar c3
      htmlParseCharDataInternal_loop fuel n.1 (if flushed then [] else buf1) n.2.1 n.2.2
    else (ctxt, buf)

/-- Function `htmlParseCharDataInternal`; `readahead` is 0 when there is no
read-ahead character. -/
def htmlParseCharDataInternal (ctxt : htmlParserCtxt) (readahead : Nat) : htmlParserCtxt :=
  let buf0 := if readahead ≠ 0 then [readahead] else []
  let rc := htmlCurrentChar ctxt
  let r := htmlParseCharDataInternal_loop (2 * ctxt.input.length + 1) rc.1 buf0 rc.2.1 rc.2.2
  if r.2 ≠ [] then htmlParseCharData_flush r.1 r.2 else r.1

/-- Function `htmlParseCharData`. -/
def htmlParseCharData (ctxt : htmlParserCtxt) : htmlParserCtxt :=
  htmlParseCharDataInternal ctxt 0

/-! ## Tags -/

/-- The loop of `htmlParseStartTag` that drops a bogus tag. -/
def htmlParseStartTag_dump : Nat → htmlParserCtxt → htmlParserCtxt
  | 0, ctxt => ctxt
  | fuel + 1, ctxt =>
    if CUR ctxt != 0 && CUR ctxt != 0x3e && !PARSER_STOPPED ctxt then
      htmlParseStartTag_dump fuel (xmlNextChar ctxt)
    else ctxt

/-- The loop of `htmlParseStartTag` that drops a bogus attribute string. -/
def htmlParseStartTag_dumpAttr : Nat → htmlParserCtxt → htmlParserCtxt
  | 0, ctxt => ctxt
  | fuel + 1, ctxt =>
    if CUR ctxt != 0 && !IS_BLANK_CH (CUR ctxt) && CUR ctxt != 0x3e &&
        (CUR ctxt != 0x2f || NXT ctxt 1 != 0x3e) && !PARSER_STOPPED ctxt then
      htmlParseStartTag_dumpAttr fuel (xmlNextChar ctxt)
    else ctxt

/-- The attribute loop of `htmlParseStartTag`: the context and the pairs
collected in `atts`. -/
def htmlParseStartTag_atts (lim : xmlLimits) :
    Nat → htmlParserCtxt → List (List Nat × Option (List Nat)) →
      htmlParserCtxt × List (List Nat × Option (List Nat))
  | 0, ctxt, atts => (ctxt, atts)
  | fuel + 1, ctxt, atts =>
    if CUR ctxt != 0 && CUR ctxt != 0x3e && (CUR ctxt != 0x2f || NXT ctxt 1 != 0x3e) &&
        !PARSER_STOPPED ctxt then
      let r := htmlParseAttribute lim ctxt
      match r.2.1 with
      | some attname =>
        if atts.any (fun a => a.1 = attname) then
          let c1 := htmlParseErr r.1 xmlParserErrors.XML_ERR_ATTRIBUTE_REDEFINED
            "Attribute %s redefined\n" (some attname) none
          htmlParseStartTag_atts lim fuel (htmlSkipBlankChars lim c1).1 atts
        else
          htmlParseStartTag_atts lim fuel (htmlSkipBlankChars lim r.1).1
            (atts ++ [(attname, r.2.2)])
      | none =>
        let c1 := htmlParseStartTag_dumpAttr (r.1.input.length + 1) r.1
        htmlParseStartTag_atts lim fuel (htmlSkipBlankChars lim c1).1 atts
    else (ctxt, atts)

/-- Function `htmlParseStartTag`: the context and the return value (0 success,
-1 error, 1 discarded). -/
def htmlParseStartTag (lim : xmlLimits) (ctxt : htmlParserCtxt) : htmlParserCtxt × Int :=
  if CUR ctxt ≠ 0x3c then (ctxt, -1)
  else
    let rn := htmlParseHTMLName (xmlNextChar ctxt)
    match rn.2 with
    | none =>
      let c1 := htmlParseErr rn.1 xmlParserErrors.XML_ERR_NAME_REQUIRED
        "htmlParseStartTag: invalid element name\n" none none
      (htmlParseStartTag_dump (c1.input.length + 1) c1, -1)
    | some name =>
      let meta := decide (name = bytes "meta")
      let c1 := htmlAutoClose rn.1 (some name)
      let c2 := htmlCheckImplied c1 name
      let c3 := if c2.nameNr > 0 ∧ name = bytes "html" then
          { htmlParseErr c2 xmlParserErrors.XML_HTML_STRUCURE_ERROR
              "htmlParseStartTag: misplaced <html> tag\n" (some name) none
            with depth := c2.depth + 1 }
        else c2
      let d3 := decide (c2.nameNr > 0 ∧ name = bytes "html")
      let c4 := if c3.nameNr ≠ 1 ∧ name = bytes "head" then
          { htmlParseErr c3 xmlParserErrors.XML_HTML_STRUCURE_ERROR
              "htmlParseStartTag: misplaced <head> tag\n" (some name) none
            with depth := c3.depth + 1 }
        else c3
      let d4 := decide (c3.nameNr ≠ 1 ∧ name = bytes "head")
      let nbody := if name = bytes "body" then
          (c4.nameTab.filter (fun n => n = bytes "body")).length
        else 0
      let c5 := (List.range nbody).foldl (fun c _ =>
          { htmlParseErr c xmlParserErrors.XML_HTML_STRUCURE_ERROR
              "htmlParseStartTag: misplaced <body> tag\n" (some name) none
            with depth := c.depth + 1 }) c4
      let discardtag := d3 || d4 || decide (nbody > 0)
      let c6 := (htmlSkipBlankChars lim c5).1
      let ra := htmlParseStartTag_atts lim (2 * c6.input.length + 1) c6 []
      let atts := ra.2
      let c7 := if meta ∧ atts ≠ [] then htmlCheckMeta ra.1 atts else ra.1
      let c8 := if discardtag = false then
          saxCall (htmlnamePush c7 name) (fun h => h.startElement)
            (saxEvent.startElement name atts)
        else c7
      (c8, if discardtag then 1 else 0)

/-- The loop of `htmlParseEndTag` that skips to the next `>`. -/
def htmlParseEndTag_skip : Nat → htmlParserCtxt → htmlParserCtxt
  | 0, ctxt => ctxt
  | fuel + 1, ctxt =>
    if !PARSER_STOPPED ctxt && CUR ctxt != 0 && CUR ctxt != 0x3e then
      htmlParseEndTag_skip fuel (xmlNextChar ctxt)
    else ctxt

/-- The part of `htmlParseEndTag` that follows the reading of the tag, from the
test of the depth counter on; `ctxt` is the context after the closing `>`. -/
def htmlParseEndTag_close (ctxt : htmlParserCtxt) (name : List Nat) : htmlParserCtxt × Int :=
  if ctxt.depth > 0 ∧ (name = bytes "html" ∨ name = bytes "body" ∨ name = bytes "head") then
    ({ ctxt with depth := ctxt.depth - 1 }, 0)
  else if ¬ (name ∈ ctxt.nameTab) then
    (htmlParseErr ctxt xmlParserErrors.XML_ERR_TAG_NAME_MISMATCH
      "Unexpected end tag : %s\n" (some name) none, 0)
  else
    let c4 := htmlAutoCloseOnClose ctxt name
    let c5 := if c4.name.isSome ∧ c4.name ≠ some name then
        htmlParseErr c4 xmlParserErrors.XML_ERR_TAG_NAME_MISMATCH
          "Opening and ending tag mismatch: %s and %s\n" (some name) c4.name
      else c4
    if c5.name = some name then
      let c6 := saxCall c5 (fun h => h.endElement) (saxEvent.endElement name)
      ((htmlnamePop (htmlNodeInfoPop c6)).1, 1)
    else (c5, 0)

/-- The part of `htmlParseEndTag` between the name and the closing `>`: blanks
are skipped, anything else up to the next `>` is skipped with an error. -/
def htmlParseEndTag_gt (lim : xmlLimits) (ctxt : htmlParserCtxt) : htmlParserCtxt :=
  let c1 := (htmlSkipBlankChars lim ctxt).1
  let c2 := if CUR c1 ≠ 0x3e then
      htmlParseEndTag_skip (c1.input.length + 1)
        (htmlParseErr c1 xmlParserErrors.XML_ERR_GT_REQUIRED
          "End tag : expected '>'\n" none none)
    else c1
  if CUR c2 = 0x3e then xmlNextChar c2 else c2

/-- Function `htmlParseEndTag`: the context and the return value. -/
def htmlParseEndTag (lim : xmlLimits) (ctxt : htmlParserCtxt) : htmlParserCtxt × Int :=
  if CUR ctxt ≠ 0x3c ∨ NXT ctxt 1 ≠ 0x2f then
    (htmlParseErr ctxt xmlParserErrors.XML_ERR_LTSLASH_REQUIRED
      "htmlParseEndTag: '</' not found\n" none none, 0)
  else
    let rn := htmlParseHTMLName (SKIP ctxt 2)
    match rn.2 with
    | none => (rn.1, 0)
    | some name => htmlParseEndTag_close (htmlParseEndTag_gt lim rn.1) name

/-- Function `htmlParseReference`. -/
def htmlParseReference (lim : xmlLimits) (ctxt : htmlParserCtxt) : htmlParserCtxt :=
  if CUR ctxt ≠ 0x26 then ctxt
  else if NXT ctxt 1 = 0x23 then
    let r := htmlParseCharRef ctxt
    if r.2 = 0 then r.1
    else
      let c1 := (htmlCheckParagraph r.1).1
      saxCall c1 (fun h => h.characters) (saxEvent.characters (htmlEncodeUTF8 r.2))
  else
    let r := htmlParseEntityRef lim ctxt
    match r.2.2 with
    | none =>
      let c1 := (htmlCheckParagraph r.1).1
      saxCall c1 (fun h => h.characters) (saxEvent.characters [0x26])
    | some name =>
      match r.2.1 with
      | none =>
        let c1 := (htmlCheckParagraph r.1).1
        let c2 := saxCall c1 (fun h => h.characters) (saxEvent.characters [0x26])
        saxCall c2 (fun h => h.characters) (saxEvent.characters (cstring name))
      | some ent =>
        if ent.value > 0 then
          let c1 := (htmlCheckParagraph r.1).1
          saxCall c1 (fun h => h.characters) (saxEvent.characters (htmlEncodeUTF8 ent.value))
        else
          let c1 := (htmlCheckParagraph r.1).1
          let c2 := saxCall c1 (fun h => h.characters) (saxEvent.characters [0x26])
          saxCall c2 (fun h => h.characters) (saxEvent.characters (cstring name))

/-! ## Elements and content -/

/-- Function `htmlParserFinishElementParsing`. -/
def htmlParserFinishElementParsing (ctxt : htmlParserCtxt) : htmlParserCtxt :=
  let c1 := if ctxt.node.isSome ∧ ctxt.record_info then htmlNodeInfoPop ctxt else ctxt
  if CUR c1 = 0 then htmlAutoCloseOnEnd c1 else c1

/-- Function `htmlParseElementInternal`. -/
def htmlParseElementInternal (lim : xmlLimits) (ctxt : htmlParserCtxt) : htmlParserCtxt :=
  let rs := htmlParseStartTag lim ctxt
  let failed := rs.2
  let c1 := rs.1
  match c1.name with
  | none => if CUR c1 = 0x3e then xmlNextChar c1 else c1
  | some name =>
    if failed = -1 then (if CUR c1 = 0x3e then xmlNextChar c1 else c1)
    else
      let info := htmlTagLookup (some name)
      let c2 := if info.isNone then
          htmlParseErr c1 xmlParserErrors.XML_HTML_UNKNOWN_TAG "Tag %s invalid\n" (some name) none
        else c1
      if CUR c2 = 0x2f ∧ NXT c2 1 = 0x3e then
        let c3 := SKIP c2 2
        let c4 := saxCall c3 (fun h => h.endElement) (saxEvent.endElement name)
        (htmlnamePop c4).1
      else if CUR c2 = 0x3e then
        let c3 := xmlNextChar c2
        if (match info with | some i => decide (i.empty ≠ 0) | none => false) then
          let c4 := saxCall c3 (fun h => h.endElement) (saxEvent.endElement name)
          (htmlnamePop c4).1
        else if c3.record_info then htmlNodeInfoPush c3 else c3
      else
        let c3 := htmlParseErr c2 xmlParserErrors.XML_ERR_GT_REQUIRED
          "Couldn't find end of Start Tag %s\n" (some name) none
        let c4 := if some name = c3.name then (htmlnamePop (nodePop c3)).1 else c3
        let c5 := if c4.record_info then htmlNodeInfoPush c4 else c4
        htmlParserFinishElementParsing c5

/-- The local variables of `htmlParseContentInternal` next to the context:
`currentNode` and `depth`. -/
structure htmlContentState where
  ctxt : htmlParserCtxt
  currentNode : Option (List Nat)
  depth : Nat
  deriving DecidableEq, Repr

/-- The refresh of `currentNode` and `depth` from the context that several
branches of `htmlParseContentInternal` perform. -/
def htmlContentState.refresh (ctxt : htmlParserCtxt) : htmlContentState :=
  ⟨ctxt, ctxt.name, ctxt.nameNr⟩

/-- The dispatch of one turn of the loop of `htmlParseContentInternal` from the
test for SCRIPT/STYLE on; the flag tells whether the loop goes on. -/
def htmlParseContentInternal_dispatch (lim : xmlLimits) (st : htmlContentState) :
    htmlContentState × Bool :=
  let ctxt := st.ctxt
  if CUR ctxt ≠ 0 ∧ (st.currentNode = some (bytes "script") ∨
      st.currentNode = some (bytes "style")) then
    ({ st with ctxt := htmlParseScript ctxt }, true)
  else if CUR ctxt = 0x3c ∧ NXT ctxt 1 = 0x21 then
    if UPP ctxt 2 = 0x44 ∧ UPP ctxt 3 = 0x4f ∧ UPP ctxt 4 = 0x43 ∧ UPP ctxt 5 = 0x54 ∧
        UPP ctxt 6 = 0x59 ∧ UPP ctxt 7 = 0x50 ∧ UPP ctxt 8 = 0x45 then
      let c1 := htmlParseErr ctxt xmlParserErrors.XML_HTML_STRUCURE_ERROR
        "Misplaced DOCTYPE declaration\n" (some (bytes "DOCTYPE")) none
      ({ st with ctxt := htmlParseDocTypeDecl lim c1 }, true)
    else if NXT ctxt 2 = 0x2d ∧ NXT ctxt 3 = 0x2d then
      ({ st with ctxt := htmlParseComment lim ctxt }, true)
    else ({ st with ctxt := htmlSkipBogusComment ctxt }, true)
  else if CUR ctxt = 0x3c ∧ NXT ctxt 1 = 0x3f then
    ({ st with ctxt := htmlParsePI lim ctxt }, true)
  else if CUR ctxt = 0x3c ∧ IS_ASCII_LETTER (NXT ctxt 1) then
    (htmlContentState.refresh (htmlParseElementInternal lim ctxt), true)
  else if CUR ctxt = 0x3c then
    let c1 := saxCallEnabled ctxt (fun h => h.characters) (saxEvent.characters [0x3c])
    ({ st with ctxt := xmlNextChar c1 }, true)
  else if CUR ctxt = 0x26 then
    ({ st with ctxt := htmlParseReference lim ctxt }, true)
  else if CUR ctxt = 0 then
    ({ st with ctxt := htmlAutoCloseOnEnd ctxt }, false)
  else
    ({ st with ctxt := htmlParseCharData ctxt }, true)

/-- The loop `while ((CUR == 0) && (CUR != '>')) NEXT;` of
`htmlParseContentInternal`. -/
def htmlParseContentInternal_dump : Nat → htmlParserCtxt → htmlParserCtxt
  | 0, ctxt => ctxt
  | fuel + 1, ctxt =>
    if CUR ctxt = 0 ∧ CUR ctxt ≠ 0x3e ∧ ctxt.input ≠ [] then
      htmlParseContentInternal_dump fuel (xmlNextChar ctxt)
    else ctxt

/-- One turn of the loop of `htmlParseContentInternal` (entered with the parser
not stopped); the flag tells whether the loop goes on. -/
def htmlParseContentInternal_body (lim : xmlLimits) (st : htmlContentState) :
    htmlContentState × Bool :=
  let ctxt := st.ctxt
  if CUR ctxt = 0x3c ∧ NXT ctxt 1 = 0x2f then
    let r := htmlParseEndTag lim ctxt
    if r.2 ≠ 0 ∧ (st.currentNode.isSome ∨ r.1.nameNr = 0) then
      (htmlContentState.refresh r.1, true)
    else ({ st with ctxt := r.1 }, true)
  else
    let auto : Option htmlContentState :=
      if CUR ctxt = 0x3c ∧ (IS_ASCII_LETTER (NXT ctxt 1) ∨ NXT ctxt 1 = 0x5f ∨ NXT ctxt 1 = 0x3a) then
        match htmlParseHTMLName_nonInvasive ctxt with
        | none =>
          let c1 := htmlParseErr ctxt xmlParserErrors.XML_ERR_NAME_REQUIRED
            "htmlParseStartTag: invalid element name\n" none none
          let c2 := htmlParseContentInternal_dump (c1.input.length + 1) c1
          some (htmlContentState.refresh (htmlParserFinishElementParsing c2))
        | some name =>
          match ctxt.name with
          | some top =>
            if htmlCheckAutoClose name top then
              some { st with ctxt := htmlAutoClose ctxt (some name) }
            else none
          | none => none
      else none
    match auto with
    | some st1 => (st1, true)
    | none =>
      if ctxt.nameNr > 0 ∧ st.depth ≥ ctxt.nameNr ∧ st.currentNode ≠ ctxt.name then
        (htmlContentState.refresh (htmlParserFinishElementParsing ctxt), true)
      else htmlParseContentInternal_dispatch lim st

/-- The loop of `htmlParseContentInternal`. -/
def htmlParseContentInternal_loop (lim : xmlLimits) : Nat → htmlContentState → htmlContentState
  | 0, st => st
  | fuel + 1, st =>
    if PARSER_STOPPED st.ctxt = false then
      let r := htmlParseContentInternal_body lim st
      if r.2 then htmlParseContentInternal_loop lim fuel r.1 else r.1
    else st

/-- The number of loop turns granted to `htmlParseContentInternal`: a turn
either consumes input or pops the stack or refreshes `currentNode`, and the
stack grows by at most three entries per turn that consumes input. The
buffered bytes count twice, since the converter that `htmlCurrentChar` may plug
in writes at most two bytes for one. -/
def htmlParseContentInternal_fuel (ctxt : htmlParserCtxt) : Nat :=
  8 * (2 * ctxt.input.length + 1) + 2 * ctxt.nameNr + 2

/-- Function `htmlParseContentInternal`. -/
def htmlParseContentInternal (lim : xmlLimits) (ctxt : htmlParserCtxt) : htmlParserCtxt :=
  (htmlParseContentInternal_loop lim (htmlParseContentInternal_fuel ctxt)
    (htmlContentState.refresh ctxt)).ctxt

/-- The loops of `htmlParseDocument` over comments and processing
instructions before the content. -/
def htmlParseDocument_misc (lim : xmlLimits) (checkStopped : Bool) :
    Nat → htmlParserCtxt → htmlParserCtxt
  | 0, ctxt => ctxt
  | fuel + 1, ctxt =>
    if (!checkStopped || !PARSER_STOPPED ctxt) &&
        ((CUR ctxt == 0x3c && NXT ctxt 1 == 0x21 && NXT ctxt 2 == 0x2d && NXT ctxt 3 == 0x2d) ||
         (CUR ctxt == 0x3c && NXT ctxt 1 == 0x3f)) then
      let c1 := htmlParseComment lim ctxt
      let c2 := htmlParsePI lim c1
      htmlParseDocument_misc lim checkStopped fuel (htmlSkipBlankChars lim c2).1
    else ctxt

/-- Function `htmlParseDocument`: the context and the return value. The
encoding detection `xmlDetectEncoding` (byte order marks) and the default DTD
given to `ctxt->myDoc` at the end lie outside this model. -/
def htmlParseDocument (lim : xmlLimits) (ctxt : htmlParserCtxt) : htmlParserCtxt × Int :=
  let c0 := saxCall ctxt (fun h => h.setDocumentLocator) saxEvent.setDocumentLocator
  let c1 := if c0.hasEncoding = false ∧ c0.input.take 4 = bytes "<?xm" then
      xmlSwitchEncoding c0 xmlCharEncoding.XML_CHAR_ENCODING_UTF8
    else c0
  let c2 := (htmlSkipBlankChars lim c1).1
  let c3 := if CUR c2 = 0 then
      htmlParseErr c2 xmlParserErrors.XML_ERR_DOCUMENT_EMPTY "Document is empty\n" none none
    else c2
  let c4 := saxCallEnabled c3 (fun h => h.startDocument) saxEvent.startDocument
  let c5 := htmlParseDocument_misc lim false (2 * c4.input.length + 1) c4
  let c6 := if CUR c5 = 0x3c ∧ NXT c5 1 = 0x21 ∧ UPP c5 2 = 0x44 ∧ UPP c5 3 = 0x4f ∧
      UPP c5 4 = 0x43 ∧ UPP c5 5 = 0x54 ∧ UPP c5 6 = 0x59 ∧ UPP c5 7 = 0x50 ∧
      UPP c5 8 = 0x45 then htmlParseDocTypeDecl lim c5 else c5
  let c7 := (htmlSkipBlankChars lim c6).1
  let c8 := htmlParseDocument_misc lim true (2 * c7.input.length + 1) c7
  let c9 := htmlParseContentInternal lim c8
  let c10 := if CUR c9 = 0 then htmlAutoCloseOnEnd c9 else c9
  let c11 := saxCall c10 (fun h => h.endDocument) saxEvent.endDocument
  (c11, if c11.wellFormed then 0 else -1)

/-! ## Progressive parsing -/

/-- The loop of `htmlParseLookupSequence` from index `base` on; the first
argument is `len - base`. The result is the index found, or the values left in
`checkIndex` and `endCheckState` when nothing is found. -/
def htmlParseLookupSequence_loop (lim : xmlLimits) (buf : List Nat) (first next third : Nat)
    (ignoreattrval : Bool) : Nat → Nat → Nat → Sum Nat (Nat × Nat)
  | 0, base, quote => Sum.inr (base, quote)
  | fuel + 1, base, quote =>
    if base ≥ lim.INT_MAX / 2 then Sum.inl (base - 2)
    else if ignoreattrval ∧ quote ≠ 0 then
      htmlParseLookupSequence_loop lim buf first next third ignoreattrval fuel (base + 1)
        (if buf.getD base 0 = quote then 0 else quote)
    else if ignoreattrval ∧ (buf.getD base 0 = 0x22 ∨ buf.getD base 0 = 0x27) then
      htmlParseLookupSequence_loop lim buf first next third ignoreattrval fuel (base + 1)
        (buf.getD base 0)
    else if buf.getD base 0 = first then
      if third ≠ 0 then
        if buf.getD (base + 1) 0 ≠ next ∨ buf.getD (base + 2) 0 ≠ third then
          htmlParseLookupSequence_loop lim buf first next third ignoreattrval fuel (base + 1) quote
        else Sum.inl base
      else if next ≠ 0 then
        if buf.getD (base + 1) 0 ≠ next then
          htmlParseLookupSequence_loop lim buf first next third ignoreattrval fuel (base + 1) quote
        else Sum.inl base
      else Sum.inl base
    else
      htmlParseLookupSequence_loop lim buf first next third ignoreattrval fuel (base + 1) quote

/-- Function `htmlParseLookupSequence`: the context and the index returned,
`none` for -1. -/
def htmlParseLookupSequence (lim : xmlLimits) (ctxt : htmlParserCtxt) (first next third : Nat)
    (ignoreattrval : Bool) : htmlParserCtxt × Option Nat :=
  let base := ctxt.checkIndex
  let quote := ctxt.endCheckState
  let len0 := ctxt.input.length
  let len := if third ≠ 0 then len0 - 2 else if next ≠ 0 then len0 - 1 else len0
  match htmlParseLookupSequence_loop lim ctxt.input first next third ignoreattrval
      (len - base) base quote with
  | Sum.inl idx => ({ ctxt with checkIndex := 0, endCheckState := 0 }, some idx)
  | Sum.inr (b, q) => ({ ctxt with checkIndex := b, endCheckState := q }, none)

/-- The loop of `htmlParseLookupCommentEnd`. -/
def htmlParseLookupCommentEnd_loop (lim : xmlLimits) :
    Nat → htmlParserCtxt → htmlParserCtxt × Option Nat
  | 0, ctxt => (ctxt, none)
  | fuel + 1, ctxt =>
    let r := htmlParseLookupSequence lim ctxt 0x2d 0x2d 0 false
    match r.2 with
    | none => (r.1, none)
    | some mark =>
      if NXT r.1 (mark + 2) = 0x3e ∨ (NXT r.1 (mark + 2) = 0x21 ∧ NXT r.1 (mark + 3) = 0x3e) then
        ({ r.1 with checkIndex := 0 }, some mark)
      else
        let offset := if NXT r.1 (mark + 2) = 0x21 then 3 else 2
        if mark + offset ≥ r.1.input.length then ({ r.1 with checkIndex := mark }, none)
        else htmlParseLookupCommentEnd_loop lim fuel { r.1 with checkIndex := mark + 1 }

/-- Function `htmlParseLookupCommentEnd`. -/
def htmlParseLookupCommentEnd (lim : xmlLimits) (ctxt : htmlParserCtxt) :
    htmlParserCtxt × Option Nat :=
  htmlParseLookupCommentEnd_loop lim (ctxt.input.length + 1) ctxt

/-- The block of `htmlParseTryOrFinish` that closes the document when no input
is left and `terminate` is set. -/
def htmlParseTryOrFinish_finish (ctxt : htmlParserCtxt) : htmlParserCtxt :=
  let c1 := htmlAutoCloseOnEnd ctxt
  if c1.nameNr = 0 ∧ c1.instate ≠ xmlParserInputState.XML_PARSER_EOF then
    saxCall { c1 with instate := xmlParserInputState.XML_PARSER_EOF }
      (fun h => h.endDocument) saxEvent.endDocument
  else c1

/-- The test for `<!DOCTYPE` on the bytes at the cursor, with `cur` and `next`
as read by the caller. -/
def htmlIsDoctype (ctxt : htmlParserCtxt) (cur next : Nat) : Bool :=
  cur == 0x3c && next == 0x21 && UPP ctxt 2 == 0x44 && UPP ctxt 3 == 0x4f && UPP ctxt 4 == 0x43 &&
    UPP ctxt 5 == 0x54 && UPP ctxt 6 == 0x59 && UPP ctxt 7 == 0x50 && UPP ctxt 8 == 0x45

/-- The inner loop of the text branch of the state `XML_PARSER_CONTENT`. -/
def htmlParseTryOrFinish_text (lim : xmlLimits) : Nat → htmlParserCtxt → Nat → htmlParserCtxt
  | 0, ctxt, _ => ctxt
  | fuel + 1, ctxt, cur =>
    if PARSER_STOPPED ctxt = false ∧ cur ≠ 0x3c ∧ ctxt.input ≠ [] then
      let c1 := if cur = 0x26 then htmlParseReference lim ctxt else htmlParseCharData ctxt
      htmlParseTryOrFinish_text lim fuel c1 (CUR c1)
    else ctxt

/-- The comment, processing-instruction and doctype alternatives shared by the
states MISC, PROLOG and EPILOG: `none` when none of them applies. The result
carries the flag that tells whether the loop goes on. -/
def htmlParseTryOrFinish_misc (lim : xmlLimits) (terminate : Bool) (ctxt : htmlParserCtxt)
    (cur next : Nat) (back : xmlParserInputState) : Option (htmlParserCtxt × Bool) :=
  if cur = 0x3c ∧ next = 0x21 ∧ NXT ctxt 2 = 0x2d ∧ NXT ctxt 3 = 0x2d then
    if terminate = false then
      let r := htmlParseLookupCommentEnd lim ctxt
      if r.2.isNone then some (r.1, false)
      else some ({ htmlParseComment lim r.1 with instate := back }, true)
    else some ({ htmlParseComment lim ctxt with instate := back }, true)
  else if cur = 0x3c ∧ next = 0x3f then
    if terminate = false then
      let r := htmlParseLookupSequence lim ctxt 0x3e 0 0 false
      if r.2.isNone then some (r.1, false)
      else some ({ htmlParsePI lim r.1 with instate := back }, true)
    else some ({ htmlParsePI lim ctxt with instate := back }, true)
  else none

/-- The tail of the state `XML_PARSER_START_TAG` once the tag is known to be
complete. -/
def htmlParseTryOrFinish_startTag (lim : xmlLimits) (ctxt : htmlParserCtxt) : htmlParserCtxt :=
  let rs := htmlParseStartTag lim ctxt
  let failed := rs.2
  let c1 := rs.1
  match c1.name with
  | none => if CUR c1 = 0x3e then xmlNextChar c1 else c1
  | some name =>
    if failed = -1 then (if CUR c1 = 0x3e then xmlNextChar c1 else c1)
    else
      let info := htmlTagLookup (some name)
      let c2 := if info.isNone then
          htmlParseErr c1 xmlParserErrors.XML_HTML_UNKNOWN_TAG "Tag %s invalid\n" (some name) none
        else c1
      if CUR c2 = 0x2f ∧ NXT c2 1 = 0x3e then
        let c3 := SKIP c2 2
        let c4 := saxCall c3 (fun h => h.endElement) (saxEvent.endElement name)
        { (htmlnamePop c4).1 with instate := xmlParserInputState.XML_PARSER_CONTENT }
      else if CUR c2 = 0x3e then
        let c3 := xmlNextChar c2
        let c4 := if (match info with | some i => decide (i.empty ≠ 0) | none => false) then
            (htmlnamePop (saxCall c3 (fun h => h.endElement) (saxEvent.endElement name))).1
          else c3
        let c5 := if c4.record_info then htmlNodeInfoPush c4 else c4
        { c5 with instate := xmlParserInputState.XML_PARSER_CONTENT }
      else
        let c3 := htmlParseErr c2 xmlParserErrors.XML_ERR_GT_REQUIRED
          "Couldn't find end of Start Tag %s\n" (some name) none
        let c4 := if some name = c3.name then (htmlnamePop (nodePop c3)).1 else c3
        let c5 := if c4.record_info then htmlNodeInfoPush c4 else c4
        { c5 with instate := xmlParserInputState.XML_PARSER_CONTENT }

/-- The state `XML_PARSER_CONTENT` of `htmlParseTryOrFinish`. -/
def htmlParseTryOrFinish_content (lim : xmlLimits) (terminate : Bool) (ctxt : htmlParserCtxt)
    (avail : Nat) : htmlParserCtxt × Nat × Bool :=
  let cur := CUR ctxt
  let next := NXT ctxt 1
  if avail = 1 ∧ terminate ∧ cur ≠ 0x3c ∧ cur ≠ 0x26 then
    let c1 := match ctxt.sax with
      | none => ctxt
      | some h =>
        if IS_BLANK_CH cur then
          if ctxt.keepBlanks then
            (if h.characters then { ctxt with events := ctxt.events ++ [saxEvent.characters [cur]] }
             else ctxt)
          else
            (if h.ignorableWhitespace then
              { ctxt with events := ctxt.events ++ [saxEvent.ignorableWhitespace [cur]] }
             else ctxt)
        else
          let c0 := (htmlCheckParagraph ctxt).1
          if h.characters then { c0 with events := c0.events ++ [saxEvent.characters [cur]] }
          else c0
    ({ c1 with checkIndex := 0, input := c1.input.drop 1 }, avail, true)
  else if avail < 2 then (ctxt, avail, false)
  else if ctxt.name = some (bytes "script") ∨ ctxt.name = some (bytes "style") then
    let pre : htmlParserCtxt × Bool :=
      if terminate = false then
        let r := htmlParseLookupSequence lim ctxt 0x3c 0x2f 0 false
        match r.2 with
        | none => (r.1, false)
        | some idx =>
          if NXT r.1 (idx + 2) = 0 then ({ r.1 with checkIndex := idx }, false) else (r.1, true)
      else (ctxt, true)
    if pre.2 = false then (pre.1, avail, false)
    else
      let c1 := htmlParseScript pre.1
      if cur = 0x3c ∧ next = 0x2f then
        ({ c1 with instate := xmlParserInputState.XML_PARSER_END_TAG, checkIndex := 0 }, avail, true)
      else (c1, avail, true)
  else if cur = 0x3c ∧ next = 0x21 then
    if avail < 4 then (ctxt, avail, false)
    else if htmlIsDoctype ctxt cur next then
      let r : htmlParserCtxt × Bool :=
        if terminate = false then
          let l := htmlParseLookupSequence lim ctxt 0x3e 0 0 true
          (l.1, l.2.isSome)
        else (ctxt, true)
      if r.2 = false then (r.1, avail, false)
      else
        (htmlParseDocTypeDecl lim
          (htmlParseErr r.1 xmlParserErrors.XML_HTML_STRUCURE_ERROR
            "Misplaced DOCTYPE declaration\n" (some (bytes "DOCTYPE")) none), avail, true)
    else if NXT ctxt 2 = 0x2d ∧ NXT ctxt 3 = 0x2d then
      let r : htmlParserCtxt × Bool :=
        if terminate = false then
          let l := htmlParseLookupCommentEnd lim ctxt
          (l.1, l.2.isSome)
        else (ctxt, true)
      if r.2 = false then (r.1, avail, false)
      else
        ({ htmlParseComment lim r.1 with instate := xmlParserInputState.XML_PARSER_CONTENT },
          avail, true)
    else
      let r : htmlParserCtxt × Bool :=
        if terminate = false then
          let l := htmlParseLookupSequence lim ctxt 0x3e 0 0 false
          (l.1, l.2.isSome)
        else (ctxt, true)
      if r.2 = false then (r.1, avail, false)
      else (htmlSkipBogusComment r.1, avail, true)
  else if cur = 0x3c ∧ next = 0x3f then
    let r : htmlParserCtxt × Bool :=
      if terminate = false then
        let l := htmlParseLookupSequence lim ctxt 0x3e 0 0 false
        (l.1, l.2.isSome)
      else (ctxt, true)
    if r.2 = false then (r.1, avail, false)
    else
      ({ htmlParsePI lim r.1 with instate := xmlParserInputState.XML_PARSER_CONTENT }, avail, true)
  else if cur = 0x3c ∧ next = 0x2f then
    ({ ctxt with instate := xmlParserInputState.XML_PARSER_END_TAG, checkIndex := 0 }, avail, true)
  else if cur = 0x3c ∧ IS_ASCII_LETTER next then
    if terminate = false ∧ next = 0 then (ctxt, avail, false)
    else
      ({ ctxt with instate := xmlParserInputState.XML_PARSER_START_TAG, checkIndex := 0 },
        avail, true)
  else if cur = 0x3c then
    let c1 := saxCallEnabled ctxt (fun h => h.characters) (saxEvent.characters [0x3c])
    (xmlNextChar c1, avail, true)
  else
    let r : htmlParserCtxt × Bool :=
      if terminate = false then
        let l := htmlParseLookupSequence lim ctxt 0x3c 0 0 false
        (l.1, l.2.isSome)
      else (ctxt, true)
    if r.2 = false then (r.1, avail, false)
    else
      let c1 := { r.1 with checkIndex := 0 }
      (htmlParseTryOrFinish_text lim (2 * c1.input.length + 1) c1 cur, avail, true)

/-- One turn of the loop of `htmlParseTryOrFinish` (entered with the parser not
stopped): the context, the local `avail` and whether the loop goes on (`break`
of the switch) or control passes to the label `done`. -/
def htmlParseTryOrFinish_body (lim : xmlLimits) (terminate : Bool) (ctxt : htmlParserCtxt) :
    htmlParserCtxt × Nat × Bool :=
  let avail := ctxt.input.length
  let c0 := if avail = 0 ∧ terminate then htmlParseTryOrFinish_finish ctxt else ctxt
  if avail < 1 then (c0, avail, false)
  else if CUR c0 = 0 then (SKIP c0 1, avail, true)
  else
    match c0.instate with
    | xmlParserInputState.XML_PARSER_EOF => (c0, avail, false)
    | xmlParserInputState.XML_PARSER_START =>
      let c1 := if c0.hasEncoding = false ∧ c0.input.take 4 = bytes "<?xm" then
          xmlSwitchEncoding c0 xmlCharEncoding.XML_CHAR_ENCODING_UTF8 else c0
      let c2 := if IS_BLANK_CH (CUR c1) then (htmlSkipBlankChars lim c1).1 else c1
      let avail1 := if IS_BLANK_CH (CUR c1) then c2.input.length else avail
      let c3 := saxCall c2 (fun h => h.setDocumentLocator) saxEvent.setDocumentLocator
      let c4 := saxCallEnabled c3 (fun h => h.startDocument) saxEvent.startDocument
      if htmlIsDoctype c4 (CUR c4) (NXT c4 1) then
        let r : htmlParserCtxt × Bool :=
          if terminate = false then
            let l := htmlParseLookupSequence lim c4 0x3e 0 0 true
            (l.1, l.2.isSome)
          else (c4, true)
        if r.2 = false then (r.1, avail1, false)
        else
          ({ htmlParseDocTypeDecl lim r.1 with instate := xmlParserInputState.XML_PARSER_PROLOG },
            avail1, true)
      else ({ c4 with instate := xmlParserInputState.XML_PARSER_MISC }, avail1, true)
    | xmlParserInputState.XML_PARSER_MISC =>
      let c1 := (htmlSkipBlankChars lim c0).1
      let avail1 := c1.input.length
      if avail1 < 1 then (c1, avail1, false)
      else if avail1 < 2 ∧ terminate = false then (c1, avail1, false)
      else
        let next := if avail1 < 2 then 0x20 else NXT c1 1
        let cur := CUR c1
        match htmlParseTryOrFinish_misc lim terminate c1 cur next
            xmlParserInputState.XML_PARSER_MISC with
        | some r => (r.1, avail1, r.2)
        | none =>
          if htmlIsDoctype c1 cur next then
            let r : htmlParserCtxt × Bool :=
              if terminate = false then
                let l := htmlParseLookupSequence lim c1 0x3e 0 0 true
                (l.1, l.2.isSome)
              else (c1, true)
            if r.2 = false then (r.1, avail1, false)
            else
              ({ htmlParseDocTypeDecl lim r.1 with
                  instate := xmlParserInputState.XML_PARSER_PROLOG }, avail1, true)
          else if cur = 0x3c ∧ next = 0x21 ∧ avail1 < 9 then (c1, avail1, false)
          else ({ c1 with instate := xmlParserInputState.XML_PARSER_CONTENT }, avail1, true)
    | xmlParserInputState.XML_PARSER_PROLOG =>
      let c1 := (htmlSkipBlankChars lim c0).1
      let avail1 := c1.input.length
      if avail1 < 2 then (c1, avail1, false)
      else
        let cur := CUR c1
        let next := NXT c1 1
        match htmlParseTryOrFinish_misc lim terminate c1 cur next
            xmlParserInputState.XML_PARSER_PROLOG with
        | some r => (r.1, avail1, r.2)
        | none =>
          if cur = 0x3c ∧ next = 0x21 ∧ avail1 < 4 then (c1, avail1, false)
          else ({ c1 with instate := xmlParserInputState.XML_PARSER_CONTENT }, avail1, true)
    | xmlParserInputState.XML_PARSER_EPILOG =>
      let avail1 := c0.input.length
      let cur := CUR c0
      if IS_BLANK_CH cur then (htmlParseCharData c0, avail1, false)
      else if avail1 < 2 then (c0, avail1, false)
      else
        let next := NXT c0 1
        match htmlParseTryOrFinish_misc lim terminate c0 cur next
            xmlParserInputState.XML_PARSER_EPILOG with
        | some r => (r.1, avail1, r.2)
        | none =>
          if cur = 0x3c ∧ next = 0x21 ∧ avail1 < 4 then (c0, avail1, false)
          else
            let c1 := { c0 with errNo := some xmlParserErrors.XML_ERR_DOCUMENT_END,
                                wellFormed := false,
                                instate := xmlParserInputState.XML_PARSER_EOF }
            (saxCall c1 (fun h => h.endDocument) saxEvent.endDocument, avail1, false)
    | xmlParserInputState.XML_PARSER_START_TAG =>
      if avail < 2 ∧ terminate = false then (c0, avail, false)
      else
        let next := if avail < 2 then 0x20 else NXT c0 1
        let cur := CUR c0
        if cur ≠ 0x3c then
          ({ c0 with instate := xmlParserInputState.XML_PARSER_CONTENT }, avail, true)
        else if next = 0x2f then
          ({ c0 with instate := xmlParserInputState.XML_PARSER_END_TAG, checkIndex := 0 },
            avail, true)
        else
          let r : htmlParserCtxt × Bool :=
            if terminate = false then
              let l := htmlParseLookupSequence lim c0 0x3e 0 0 true
              (l.1, l.2.isSome)
            else (c0, true)
          if r.2 = false then (r.1, avail, false)
          else (htmlParseTryOrFinish_startTag lim r.1, avail, true)
    | xmlParserInputState.XML_PARSER_CONTENT =>
      htmlParseTryOrFinish_content lim terminate c0 avail
    | xmlParserInputState.XML_PARSER_END_TAG =>
      if avail < 2 then (c0, avail, false)
      else
        let r : htmlParserCtxt × Bool :=
          if terminate = false then
            let l := htmlParseLookupSequence lim c0 0x3e 0 0 false
            (l.1, l.2.isSome)
          else (c0, true)
        if r.2 = false then (r.1, avail, false)
        else
          let c1 := (htmlParseEndTag lim r.1).1
          ({ c1 with
              instate := if c1.nameNr = 0 then xmlParserInputState.XML_PARSER_EPILOG
                else xmlParserInputState.XML_PARSER_CONTENT,
              checkIndex := 0 }, avail, true)
    | _ =>
      ({ htmlParseErr c0 xmlParserErrors.XML_ERR_INTERNAL_ERROR "HPP: internal error\n" none none
          with instate := xmlParserInputState.XML_PARSER_EOF }, avail, true)

/-- The loop of `htmlParseTryOrFinish`: the context and the local `avail` on
arrival at the label `done`. -/
def htmlParseTryOrFinish_loop (lim : xmlLimits) (terminate : Bool) :
    Nat → htmlParserCtxt → Nat → htmlParserCtxt × Nat
  | 0, ctxt, avail => (ctxt, avail)
  | fuel + 1, ctxt, avail =>
    if PARSER_STOPPED ctxt = false then
      let r := htmlParseTryOrFinish_body lim terminate ctxt
      if r.2.2 then htmlParseTryOrFinish_loop lim terminate fuel r.1 r.2.1 else (r.1, r.2.1)
    else (ctxt, avail)

/-- Function `htmlParseTryOrFinish`. A turn of the loop consumes input or moves
to another state, and the buffered bytes count twice, since the converter that
`htmlCurrentChar` may plug in writes at most two bytes for one; the default DTD
given to `ctxt->myDoc` at the end lies outside this model. -/
def htmlParseTryOrFinish (lim : xmlLimits) (ctxt : htmlParserCtxt) (terminate : Bool) :
    htmlParserCtxt :=
  let r := htmlParseTryOrFinish_loop lim terminate (4 * (2 * ctxt.input.length + 2) + 4) ctxt 0
  if r.2 = 0 ∧ terminate then htmlParseTryOrFinish_finish r.1 else r.1

/-- Modelled from the spec: `xmlParserInputBufferPush` is defined in xmlIO.c,
which is not part of the sources at hand. Spec 4.1 and 4.5: the bytes pushed
join the end of the buffered input, read in the decode mode of the input, so
they pass through the converter plugged into the buffer, if there is one. -/
def xmlParserInputBufferPush (ctxt : htmlParserCtxt) (chunk : List Nat) : htmlParserCtxt :=
  { ctxt with input := ctxt.input ++
      (if ctxt.encoder = some xmlCharEncoding.XML_CHAR_ENCODING_8859_1 then isolat1ToUTF8 chunk
        else chunk) }

/-- Function `htmlParseChunk`: the chunk is appended to the input buffer
(`xmlParserInputBufferPush`), then the parser runs as far as it can. -/
def htmlParseChunk (lim : xmlLimits) (ctxt : htmlParserCtxt) (chunk : List Nat)
    (terminate : Bool) : htmlParserCtxt :=
  if PARSER_STOPPED ctxt then ctxt
  else
    let c1 := xmlParserInputBufferPush ctxt chunk
    let c2 := htmlParseTryOrFinish lim c1 terminate
    if terminate then
      let c3 := if c2.instate ≠ xmlParserInputState.XML_PARSER_EOF then
          saxCall c2 (fun h => h.endDocument) saxEvent.endDocument
        else c2
      { c3 with instate := xmlParserInputState.XML_PARSER_EOF }
    else c2

/-- Feeding a list of chunks through `htmlParseChunk`, `terminate` set on the
last one only. -/
def htmlParseChunks (lim : xmlLimits) : htmlParserCtxt → List (List Nat) → htmlParserCtxt
  | ctxt, [] => ctxt
  | ctxt, [chunk] => htmlParseChunk lim ctxt chunk true
  | ctxt, chunk :: rest => htmlParseChunks lim (htmlParseChunk lim ctxt chunk false) rest

/-! ## Parser contexts -/

/-- The handler block of a sink that takes every event of spec section 6:
all callbacks set except `cdataBlock`. -/
def htmlSinkHandler : htmlSAXHandler :=
  { setDocumentLocator := true, startDocument := true, endDocument := true,
    startElement := true, endElement := true, characters := true,
    ignorableWhitespace := true, cdataBlock := false, comment := true,
    processingInstruction := true, internalSubset := true }

/-- Functions `htmlNewSAXParserCtxt` / `htmlInitParserCtxt`: a fresh context
with the handler block `sax`, no input yet. -/
def htmlNewSAXParserCtxt (sax : htmlSAXHandler) : htmlParserCtxt :=
  { input := [], line := 1, col := 1, hasEncoding := false, encodingError := false,
    encoder := none, declaredEncoding := none, nameTab := [], nodeTab := [], dtdExternalID := none,
    nodeInfoNr := 0, html := 1, depth := 0,
    instate := xmlParserInputState.XML_PARSER_START, checkIndex := 0, endCheckState := 0,
    noImplied := false, huge := false, recovery := false, keepBlanks := true,
    record_info := false, disableSAX := 0, wellFormed := true, errNo := none,
    sax := some sax, events := [], errors := [] }

/-- Function `htmlCreateMemoryParserCtxt`, with a SAX handler block: a fresh
context over the whole buffer. -/
def htmlCreateMemoryParserCtxt (sax : htmlSAXHandler) (buffer : List Nat) : htmlParserCtxt :=
  { htmlNewSAXParserCtxt sax with input := buffer }

/-- Function `htmlCreatePushParserCtxt`: a fresh context whose input holds the
initial chunk. -/
def htmlCreatePushParserCtxt (sax : htmlSAXHandler) (chunk : List Nat) : htmlParserCtxt :=
  { htmlNewSAXParserCtxt sax with input := chunk }

/-- The limits of a stock libxml2 build on a platform with 32-bit `int`, and no
character groups from 0x100 on. -/
def xmlDefaultLimits : xmlLimits :=
  { XML_MAX_NAME_LENGTH := 50000, XML_MAX_TEXT_LENGTH := 10000000,
    XML_MAX_HUGE_LENGTH := 1000000000, INT_MAX := 2147483647,
    xmlIsBaseCharGroup := [], xmlIsIdeographicGroup := [], xmlIsDigitGroup := [],
    xmlIsCombiningGroup := [], xmlIsExtenderGroup := [] }

/-! ## Checks used in the proofs -/

/-- Boolean check that every element of a list is related to its successor. -/
def listChainB {α : Type} (R : α → α → Bool) : List α → Bool
  | [] => true
  | [_] => true
  | a :: b :: rest => R a b && listChainB R (b :: rest)


/-- The event is a startElement or an endElement. -/
def saxEvent.isElement : saxEvent → Bool
  | saxEvent.startElement _ _ => true
  | saxEvent.endElement _ => true
  | _ => false

/-- The text carried by a characters event, empty for any other event. -/
def saxEvent.charactersText : saxEvent → List Nat
  | saxEvent.characters ch => ch
  | _ => []

/-- The characters events of an event log. -/
def charactersEvents (evs : List saxEvent) : List saxEvent :=
  evs.filter (fun e => match e with | saxEvent.characters _ => true | _ => false)

/-- The concatenated text of the characters events of an event log. -/
def charactersText (evs : List saxEvent) : List Nat :=
  (evs.map saxEvent.charactersText).flatten

/-- The context `c1` differs from `c` at most in the scanner fields (cursor,
line, column, input flags) and in the error log. -/
def scanFrame (c c1 : htmlParserCtxt) : Prop :=
  c1 = { c with input := c1.input, line := c1.line, col := c1.col,
                hasEncoding := c1.hasEncoding, encodingError := c1.encodingError,
                encoder := c1.encoder, errors := c1.errors, errNo := c1.errNo }

/-- The context `c1` differs from `c` at most in the open-element stack, the
field `html` and by startElement / endElement events appended to the log. -/
def elementFrame (c c1 : htmlParserCtxt) : Prop :=
  ∃ evs : List saxEvent, (∀ e ∈ evs, e.isElement = true) ∧
    c1 = { c with nameTab := c1.nameTab, html := c1.html, events := c.events ++ evs }

/-- An ASCII name as the fast path of `htmlParseName` reads it: a letter, `_`
or `:` followed by letters, digits, `_`, `-`, `:` and `.`. -/
def htmlIsAsciiName : List Nat → Bool
  | [] => false
  | c :: cs =>
    ((0x61 ≤ c && c ≤ 0x7A) || (0x41 ≤ c && c ≤ 0x5A) || c == 0x5f || c == 0x3a) &&
      cs.all htmlNameFastChar

/-- What the comment loop knows of a character `cur` of length `l` read at the
input `inp`: it is 0 exactly at the end of the input, it takes at least one
byte otherwise, and a value below 0x80 other than the space is the byte at the
cursor, one byte long. -/
def htmlCharAt (inp : List Nat) (cur l : Nat) : Prop :=
  (inp = [] → cur = 0) ∧ (inp ≠ [] → cur ≠ 0 ∧ 1 ≤ l) ∧
    (cur < 0x80 → cur ≠ 0 → cur ≠ 0x20 → inp.head? = some cur ∧ l = 1)

/-- A bound on the bytes that the scanner still has to read: the buffered
bytes, counted twice as long as the input has no encoding, when the converter
of `htmlCurrentChar_switch` may still replace each of them by two. -/
def htmlInputBound (ctxt : htmlParserCtxt) : Nat :=
  if ctxt.hasEncoding then ctxt.input.length else 2 * ctxt.input.length

/-- The hyphens that the pair `q`, `r` of the comment loop holds right before
the cursor. -/
def htmlCommentWindow (q r : Nat) : List Nat :=
  if q = 0x2d ∧ r = 0x2d then [0x2d, 0x2d] else if r = 0x2d then [0x2d] else []

/-- The UTF-8 bytes that `xmlCopyChar` writes for a list of code points. -/
def xmlCopyChars (cs : List Nat) : List Nat :=
  (cs.map xmlCopyChar).flatten

/-- The two ways a comment is closed: `-->`, or `--!>` when `bang` is set. -/
def htmlCommentEnd (bang : Bool) : List Nat :=
  if bang then bytes "--!>" else bytes "-->"

/-- The report made for a comment closed by `--!>`. -/
def htmlCommentBangError : htmlError :=
  ⟨xmlParserErrors.XML_ERR_COMMENT_NOT_FINISHED, "Comment incorrectly closed by '--!>'",
    none, none, 0⟩

/-- The outcome of `htmlParseComment` on a closed comment with the text `text`,
relative to the event log `evs` and the error log `errs` at entry: when the
text fits the length limit the cursor is at `rest`, one comment event is added
and the only report is the one for `--!>`; when it does not fit no event is
added. -/
def htmlCommentOutcome (evs : List saxEvent) (errs : List htmlError) (res : htmlParserCtxt)
    (text rest : List Nat) (maxLength : Nat) (bang : Bool) : Prop :=
  (text.length ≤ maxLength →
      res.input = rest ∧ res.events = evs ++ [saxEvent.comment text] ∧
      res.errors = errs ++ (if bang then [htmlCommentBangError] else [])) ∧
    (maxLength < text.length → res.events = evs)

/-- An error report of the tokenizer: any report but the two that
`htmlParseStartTag` makes itself, for a repeated attribute and for a
misplaced html, head or body tag. -/
def htmlTokenizerError (e : htmlError) : Prop :=
  e.code ≠ xmlParserErrors.XML_ERR_ATTRIBUTE_REDEFINED ∧
    e.code ≠ xmlParserErrors.XML_HTML_STRUCURE_ERROR

/-- The context `c1` differs from `c` at most in the scanner fields (cursor,
line, column, input flags, declared encoding) and by reports appended to the
error log, each of which satisfies `P`. -/
def tokenFrame (P : htmlError → Prop) (c c1 : htmlParserCtxt) : Prop :=
  ∃ es : List htmlError, (∀ e ∈ es, P e) ∧
    c1 = { c with input := c1.input, line := c1.line, col := c1.col,
                  hasEncoding := c1.hasEncoding, encodingError := c1.encodingError,
                  encoder := c1.encoder, declaredEncoding := c1.declaredEncoding,
                  errors := c.errors ++ es, errNo := c1.errNo }

/-- The number of "misplaced" reports that `htmlParseStartTag` makes for a tag
named `name` read with the stack of `c`: one for html on a non-empty stack, one
for head on a stack of a depth other than 1, one per body entry of the stack
for body, none for any other name. -/
def htmlMisplacedCount (c : htmlParserCtxt) (name : List Nat) : Nat :=
  if name = bytes "html" then (if c.nameNr > 0 then 1 else 0)
  else if name = bytes "head" then (if c.nameNr ≠ 1 then 1 else 0)
  else if name = bytes "body" then (c.nameTab.filter (fun n => n = bytes "body")).length
  else 0

/-- The message of the "misplaced" report for a tag named `name`. -/
def htmlMisplacedMessage (name : List Nat) : String :=
  if name = bytes "html" then "htmlParseStartTag: misplaced <html> tag\n"
  else if name = bytes "head" then "htmlParseStartTag: misplaced <head> tag\n"
  else "htmlParseStartTag: misplaced <body> tag\n"

/-- The context after the `k` "misplaced" reports of `htmlParseStartTag`. -/
def htmlMisplacedReports (c : htmlParserCtxt) (name : List Nat) (k : Nat) : htmlParserCtxt :=
  { c with
    depth := c.depth + k,
    errors := c.errors ++ List.replicate k
      ⟨xmlParserErrors.XML_HTML_STRUCURE_ERROR, htmlMisplacedMessage name, some name, none, 0⟩,
    errNo := if k = 0 then c.errNo else some xmlParserErrors.XML_HTML_STRUCURE_ERROR }

/-- The context of `htmlParseStartTag` at the moment the tag is judged: the
name has been read, `htmlAutoClose` and `htmlCheckImplied` have run. -/
def htmlParseStartTag_judged (ctxt : htmlParserCtxt) (name : List Nat) : htmlParserCtxt :=
  htmlCheckImplied (htmlAutoClose (htmlParseHTMLName (xmlNextChar ctxt)).1 (some name)) name

/-- The context of `htmlParseStartTag` on entry to the attribute loop. -/
def htmlParseStartTag_attsStart (lim : xmlLimits) (ctxt : htmlParserCtxt) (name : List Nat) :
    htmlParserCtxt :=
  (htmlSkipBlankChars lim
    (htmlMisplacedReports (htmlParseStartTag_judged ctxt name) name
      (htmlMisplacedCount (htmlParseStartTag_judged ctxt name) name))).1

/-- The attribute list that `htmlParseStartTag` collects for a tag named `name`. -/
def htmlParseStartTag_attsOf (lim : xmlLimits) (ctxt : htmlParserCtxt) (name : List Nat) :
    List (List Nat × Option (List Nat)) :=
  (htmlParseStartTag_atts lim (2 * (htmlParseStartTag_attsStart lim ctxt name).input.length + 1)
    (htmlParseStartTag_attsStart lim ctxt name) []).2

/-- The context of `htmlParseStartTag` after the attribute loop and, for a meta
tag with attributes, after `htmlCheckMeta`. -/
def htmlParseStartTag_attsEnd (lim : xmlLimits) (ctxt : htmlParserCtxt) (name : List Nat) :
    htmlParserCtxt :=
  if decide (name = bytes "meta") = true ∧ htmlParseStartTag_attsOf lim ctxt name ≠ [] then
    htmlCheckMeta
      (htmlParseStartTag_atts lim (2 * (htmlParseStartTag_attsStart lim ctxt name).input.length + 1)
        (htmlParseStartTag_attsStart lim ctxt name) []).1
      (htmlParseStartTag_attsOf lim ctxt name)
  else
    (htmlParseStartTag_atts lim (2 * (htmlParseStartTag_attsStart lim ctxt name).input.length + 1)
      (htmlParseStartTag_attsStart lim ctxt name) []).1

/-- The attributes that the attribute loop of `htmlParseStartTag` reads, in the
order of the input and with repetitions: one pair per call of
`htmlParseAttribute` that returns a name. The loop is that of
`htmlParseStartTag_atts`, with the list of the names read as its result. -/
def htmlParseStartTag_attsRead (lim : xmlLimits) :
    Nat → htmlParserCtxt → List (List Nat × Option (List Nat)) →
      List (List Nat × Option (List Nat))
  | 0, _, _ => []
  | fuel + 1, ctxt, atts =>
    if CUR ctxt != 0 && CUR ctxt != 0x3e && (CUR ctxt != 0x2f || NXT ctxt 1 != 0x3e) &&
        !PARSER_STOPPED ctxt then
      let r := htmlParseAttribute lim ctxt
      match r.2.1 with
      | some attname =>
        if atts.any (fun a => a.1 = attname) then
          let c1 := htmlParseErr r.1 xmlParserErrors.XML_ERR_ATTRIBUTE_REDEFINED
            "Attribute %s redefined\n" (some attname) none
          (attname, r.2.2) :: htmlParseStartTag_attsRead lim fuel (htmlSkipBlankChars lim c1).1 atts
        else
          (attname, r.2.2) :: htmlParseStartTag_attsRead lim fuel (htmlSkipBlankChars lim r.1).1
            (atts ++ [(attname, r.2.2)])
      | none =>
        let c1 := htmlParseStartTag_dumpAttr (r.1.input.length + 1) r.1
        htmlParseStartTag_attsRead lim fuel (htmlSkipBlankChars lim c1).1 atts
    else []

/-- The first occurrence of every attribute name of a list of pairs, in the
order of the list. -/
def htmlFirstOccurrences :
    List (List Nat × Option (List Nat)) → List (List Nat × Option (List Nat))
  | [] => []
  | a :: rest => a :: (htmlFirstOccurrences rest).filter (fun b => b.1 ≠ a.1)

/-- The names of the pairs of a list whose name is in `seen` or occurs earlier
in the list: the later occurrences, in the order of the list. -/
def htmlRepeatedNames : List (List Nat) → List (List Nat × Option (List Nat)) → List (List Nat)
  | _, [] => []
  | seen, a :: rest =>
    if a.1 ∈ seen then a.1 :: htmlRepeatedNames seen rest
    else htmlRepeatedNames (seen ++ [a.1]) rest

/-- The report that `htmlParseStartTag` makes for a repeated attribute. -/
def htmlAttributeRedefined (attname : List Nat) : htmlError :=
  ⟨xmlParserErrors.XML_ERR_ATTRIBUTE_REDEFINED, "Attribute %s redefined\n", some attname, none, 0⟩

/-- The reports of a repeated attribute in an error log. -/
def htmlRedefinedReports (errs : List htmlError) : List htmlError :=
  errs.filter (fun e => e.code = xmlParserErrors.XML_ERR_ATTRIBUTE_REDEFINED)

/-- The attributes read by `htmlParseStartTag` for a tag named `name`, in the
order of the input and with repetitions. -/
def htmlParseStartTag_read (lim : xmlLimits) (ctxt : htmlParserCtxt) (name : List Nat) :
    List (List Nat × Option (List Nat)) :=
  htmlParseStartTag_attsRead lim (2 * (htmlParseStartTag_attsStart lim ctxt name).input.length + 1)
    (htmlParseStartTag_attsStart lim ctxt name) []

/-- The names that `htmlCheckImplied` takes as children of head: script, style,
meta, link, title and base. -/
def htmlIsHeadChild (t : List Nat) : Prop :=
  t = bytes "script" ∨ t = bytes "style" ∨ t = bytes "meta" ∨ t = bytes "link" ∨
    t = bytes "title" ∨ t = bytes "base"

/-- The stack on which `htmlCheckImplied` decides on head and body: the stack
itself, or the lone html that is implied for an empty stack. -/
def htmlImpliedRoot (stack : List (List Nat)) : List (List Nat) :=
  if stack = [] then [bytes "html"] else stack

/-- The startElement event of the html that is implied for an empty stack. -/
def htmlImpliedRootEvents (stack : List (List Nat)) : List saxEvent :=
  if stack = [] then [saxEvent.startElement (bytes "html") []] else []

/-- The context of `htmlParseStartTag` after the name has been read and
`htmlAutoClose` has run, before `htmlCheckImplied`. -/
def htmlParseStartTag_autoClosed (ctxt : htmlParserCtxt) (name : List Nat) : htmlParserCtxt :=
  htmlAutoClose (htmlParseHTMLName (xmlNextChar ctxt)).1 (some name)

/-- The "misplaced" reports of `htmlParseStartTag` in an error log. -/
def htmlStructureReports (errs : List htmlError) : List htmlError :=
  errs.filter (fun e => e.code = xmlParserErrors.XML_HTML_STRUCURE_ERROR)

/-! ## Linear scans of the static tables, as the specification words the lookups -/

/-- Specification of `htmlTagLookup`: the first descriptor of
`html40ElementTable`, scanned from the top, whose name compares equal to `t`
under the ASCII case-insensitive comparison. -/
def htmlTagLookup_scan (t : List Nat) : Option htmlElemDesc :=
  html40ElementTable.find? (fun e => decide (xmlStrcasecmp t e.name = 0))

/-- Specification of `htmlCheckAutoClose`: some entry of `htmlStartClose` is the
pair of `oldtag` and `newtag`. -/
def htmlCheckAutoClose_scan (newtag oldtag : List Nat) : Bool :=
  htmlStartClose.any (fun e => decide (e.1 = oldtag) && decide (e.2 = newtag))

/-! ## Scanner results, as the specification words them -/

/-- The column after a run of blanks has been skipped: a line feed restarts the
column at 1, every other blank adds one. -/
def htmlColAfterBlanks (col : Nat) (run : List Nat) : Nat :=
  run.foldl (fun k b => if b = 0x0a then 1 else k + 1) col

/-- The input is read as UTF-8 by `htmlCurrentChar`: it has its encoding, or
`htmlFindEncoding` finds a charset for the switch, which takes the buffered
bytes as they are. -/
def htmlReadsUTF8 (ctxt : htmlParserCtxt) : Bool :=
  ctxt.hasEncoding || (htmlFindEncoding ctxt).isSome

/-- The length handed back with a result `r` of the decoder is in range for the
input `inp`: 0 exactly at the end of the input, otherwise from 1 to 4 and at
most the number of bytes remaining; the cursor is where it was. -/
def htmlLengthInRange (inp : List Nat) (r : htmlParserCtxt × Nat × Nat) : Prop :=
  (r.2.2 = 0 ↔ inp = []) ∧
    (inp = [] ∨ (1 ≤ r.2.2 ∧ r.2.2 ≤ 4 ∧ r.2.2 ≤ inp.length)) ∧ r.1.input = inp

/-! ## Numeric character references, as the specification words them -/

/-- A decimal digit, `0` to `9`. -/
def htmlIsDecDigit (b : Nat) : Bool :=
  0x30 ≤ b && b ≤ 0x39

/-- A hexadecimal digit, `0` to `9`, `a` to `f` or `A` to `F`. -/
def htmlIsHexDigit (b : Nat) : Bool :=
  (0x30 ≤ b && b ≤ 0x39) || (0x61 ≤ b && b ≤ 0x66) || (0x41 ≤ b && b ≤ 0x46)

/-- The value of a digit. -/
def htmlDigitValue (b : Nat) : Nat :=
  if b ≤ 0x39 then b - 0x30 else if 0x61 ≤ b then b - 0x61 + 10 else b - 0x41 + 10

/-- The number that a digit string denotes in the base given, as a natural
number of any size. -/
def htmlNumericValue (base : Nat) (ds : List Nat) : Nat :=
  ds.foldl (fun v d => v * base + htmlDigitValue d) 0

/-- The accumulator of the digit loops of `htmlParseCharRef` after the digits
`ds`, started at `val`: a digit is added only while the accumulator is below
0x110000. -/
def htmlCharRefAccumulator (base : Nat) (val : Nat) (ds : List Nat) : Nat :=
  ds.foldl (fun a d => if a < 0x110000 then a * base + htmlDigitValue d else a) val

/-- The context in which `htmlParseCharRef` checks the value of the reference
`pre ++ ds` read in front of `rest`: past the `;` when `rest` starts with one,
and otherwise at `rest`, with the missing semicolon reported. -/
def htmlCharRefEnd (ctxt : htmlParserCtxt) (pre ds rest : List Nat) : htmlParserCtxt :=
  if rest.headD 0 = 0x3b then
    { ctxt with input := rest.tail, col := ctxt.col + pre.length + ds.length + 1 }
  else
    htmlParseErr { ctxt with input := rest, col := ctxt.col + pre.length + ds.length }
      (if pre = bytes "&#" then xmlParserErrors.XML_ERR_INVALID_DEC_CHARREF
        else xmlParserErrors.XML_ERR_INVALID_HEX_CHARREF)
      "htmlParseCharRef: missing semicolon\n" none none

/-- The document carries a strict HTML 4 document type: the external identifier
of its internal subset is one of the two public identifiers below (W3C DTD
HTML 4.01 and W3C DTD HTML 4), compared without regard to case. -/
def htmlStrictDtd (ctxt : htmlParserCtxt) : Bool :=
  match ctxt.dtdExternalID with
  | some id => decide (xmlStrcasecmp id (bytes "-//W3C//DTD HTML 4.01//EN") = 0) ||
      decide (xmlStrcasecmp id (bytes "-//W3C//DTD HTML 4//EN") = 0)
  | none => false

/-- Specification of `htmlEntityValueLookup`: the first entry of
`html40EntitiesTable`, scanned from the top, whose value is `v`. -/
def htmlEntityValueLookup_scan (v : Nat) : Option htmlEntityDesc :=
  html40EntitiesTable.find? (fun e => decide (e.value = v))

/-! ## The entity encoder `UTF8ToHtml` -/

/-- What `snprintf(nbuf, sizeof(nbuf), "#%u", c)` writes: `#` and the decimal
digits of `c`. -/
def htmlNumericEntityName (c : Nat) : List Nat :=
  0x23 :: (Nat.toDigits 10 c).map Char.toNat

/-- The lead-byte dispatch of `UTF8ToHtml`: the payload bits of `d` and the
number of trailing bytes, `none` where the code returns -2. -/
def UTF8ToHtml_lead (d : Nat) : Option (Nat × Nat) :=
  if d < 0x80 then some (d, 0)
  else if d < 0xC0 then none
  else if d < 0xE0 then some (d &&& 0x1F, 1)
  else if d < 0xF0 then some (d &&& 0x0F, 2)
  else if d < 0xF8 then some (d &&& 0x07, 3)
  else none

/-- The loop `for ( ; trailing; trailing--)` of `UTF8ToHtml`: the input left
(the byte that broke the loop has been read) and the value `c`. -/
def UTF8ToHtml_trailing : Nat → List Nat → Nat → List Nat × Nat
  | 0, inp, c => (inp, c)
  | trailing + 1, inp, c =>
    match inp with
    | [] => (inp, c)
    | d :: rest =>
      if d &&& 0xC0 ≠ 0x80 then (rest, c)
      else UTF8ToHtml_trailing trailing rest ((c <<< 6) ||| (d &&& 0x3F))

/-- The loop `while (in < inend)` of `UTF8ToHtml`. The arguments are the size
`outlen` of the output block, the input length `inlen`, the input left, the
number of octets processed and the bytes written; the result is the value
returned, the bytes written and the number stored in `*inlen`. -/
def UTF8ToHtml_loop (outlen inlen : Nat) :
    Nat → List Nat → Nat → List Nat → Int × List Nat × Nat
  | 0, _, processed, out => (0, out, processed)
  | fuel + 1, inp, processed, out =>
    match inp with
    | [] => (0, out, processed)
    | d :: rest =>
      match UTF8ToHtml_lead d with
      | none => (-2, out, processed)
      | some (c0, trailing) =>
        if rest.length < trailing then (0, out, processed)
        else
          let t := UTF8ToHtml_trailing trailing rest c0
          let c := t.2
          if c < 0x80 then
            if out.length + 1 ≥ outlen then (0, out, processed)
            else UTF8ToHtml_loop outlen inlen fuel t.1 (inlen - t.1.length) (out ++ [c])
          else
            let cp := match htmlEntityValueLookup c with
              | none => htmlNumericEntityName c
              | some ent => cstring ent.name
            if out.length + 2 + cp.length ≥ outlen then (0, out, processed)
            else
              UTF8ToHtml_loop outlen inlen fuel t.1 (inlen - t.1.length)
                (out ++ [0x26] ++ cp ++ [0x3b])

/-- Function `UTF8ToHtml`, called with `out`, `outlen` and `inlen` set (a NULL
among them gives -1): `outlen` is the size of the output block and `inp` the
input block, `none` for a NULL `in`. The result is the value returned, the
bytes written, whose number is stored in `*outlen`, and the number stored in
`*inlen`. Every turn of the loop reads a byte, so the input length bounds the
turns. -/
def UTF8ToHtml (outlen : Nat) (inp : Option (List Nat)) : Int × List Nat × Nat :=
  match inp with
  | none => (0, [], 0)
  | some bs => UTF8ToHtml_loop outlen bs.length (bs.length + 1) bs 0 []

/-! ## The sequence lookup, as the specification words it -/

/-- The quote state of a scan that skips attribute values, after one more byte
`b`: inside a quoted region the matching quote closes it, outside a quote opens
one. -/
def htmlQuoteStep (q b : Nat) : Nat :=
  if q ≠ 0 then (if b = q then 0 else q)
  else if b = 0x22 ∨ b = 0x27 then b
  else 0

/-- The quote state carried by a lookup that started at offset `k` in state `q`,
after `n` bytes: unchanged when attribute values are not skipped. -/
def htmlLookupQuote (ignoreattrval : Bool) (buf : List Nat) (k q : Nat) : Nat → Nat
  | 0 => q
  | n + 1 =>
    if ignoreattrval then
      htmlQuoteStep (htmlLookupQuote ignoreattrval buf k q n) (buf.getD (k + n) 0)
    else q

/-- The sought sequence (`first`, then `next` and `third` when they are not 0)
stands at offset `i` of the buffer. -/
def htmlSequenceAt (buf : List Nat) (first next third : Nat) (i : Nat) : Bool :=
  buf.getD i 0 == first &&
    (if third ≠ 0 then buf.getD (i + 1) 0 == next && buf.getD (i + 2) 0 == third
     else if next ≠ 0 then buf.getD (i + 1) 0 == next
     else true)

/-- The sequence stands at offset `i` and, when attribute values are skipped,
the byte at `i` is outside every quoted region as seen by a scan that started
at offset `k` in quote state `q`, and is no quote itself. -/
def htmlLookupHit (buf : List Nat) (first next third : Nat) (ignoreattrval : Bool)
    (k q : Nat) (i : Nat) : Bool :=
  (!ignoreattrval ||
      (htmlLookupQuote ignoreattrval buf k q (i - k) == 0 &&
        buf.getD i 0 != 0x22 && buf.getD i 0 != 0x27)) &&
    htmlSequenceAt buf first next third i

/-- The number of offsets at which the sequence can start in a buffer of `len0`
bytes. -/
def htmlLookupLen (len0 next third : Nat) : Nat :=
  if third ≠ 0 then len0 - 2 else if next ≠ 0 then len0 - 1 else len0

/-- Specification of `htmlParseLookupSequence`: the smallest offset from `k` on
at which the lookup has a hit. -/
def htmlLookupFirst (buf : List Nat) (first next third : Nat) (ignoreattrval : Bool)
    (k q : Nat) : Option Nat :=
  (List.range' k (htmlLookupLen buf.length next third - k)).find?
    (htmlLookupHit buf first next third ignoreattrval k q)


/-- The test on which the loop of `htmlParseScript` ends, on the bytes `inp` at
the cursor: `</`, followed in recovery mode by the name of the current element
(compared by `xmlStrncasecmp` over the length of that name), otherwise by an
ASCII letter. -/
def htmlScriptStop (recovery : Bool) (name : Option (List Nat)) (inp : List Nat) : Bool :=
  inp.getD 0 0 == 0x3c && inp.getD 1 0 == 0x2f &&
    (if recovery then
      decide (xmlStrncasecmp (name.getD []) (inp.drop 2) (cstring (name.getD [])).length = 0)
    else
      (decide (0x41 ≤ inp.getD 2 0) && decide (inp.getD 2 0 ≤ 0x5a)) ||
        (decide (0x61 ≤ inp.getD 2 0) && decide (inp.getD 2 0 ≤ 0x7a)))

/-- The report of `htmlParseScript` for a `</` that does not end the element. -/
def htmlScriptEmbedded (name : Option (List Nat)) : htmlError :=
  ⟨xmlParserErrors.XML_ERR_TAG_NAME_MISMATCH, "Element %s embeds close tag\n", name, none, 0⟩

/-- The reports of `htmlParseScript` over the characters `cs` that it copies
before the bytes `rest`: in recovery mode one for each `<` among them that is
followed by `/`. -/
def htmlScriptReports (recovery : Bool) (name : Option (List Nat)) :
    List Nat → List Nat → List htmlError
  | [], _ => []
  | v :: vs, rest =>
    (if recovery = true ∧ v = 0x3c ∧ (xmlCopyChars vs ++ rest).headD 0 = 0x2f then
        [htmlScriptEmbedded name]
      else []) ++ htmlScriptReports recovery name vs rest

/-- The pieces in which `htmlParseScript` hands over the characters `cs`, with
`buf` in the buffer already: a piece is handed over as soon as the buffer holds
`HTML_PARSER_BIG_BUFFER_SIZE` bytes; the second component is what the buffer
holds at the end. -/
def htmlScriptChunks : List Nat → List Nat → List (List Nat) × List Nat
  | buf, [] => ([], buf)
  | buf, v :: vs =>
    if (buf ++ xmlCopyChar v).length ≥ HTML_PARSER_BIG_BUFFER_SIZE then
      ((buf ++ xmlCopyChar v) :: (htmlScriptChunks [] vs).1, (htmlScriptChunks [] vs).2)
    else htmlScriptChunks (buf ++ xmlCopyChar v) vs

/-- The events by which the handler block `h` receives a piece of raw text:
`cdataBlock` when set, else `characters` when set. -/
def htmlScriptEvent (h : htmlSAXHandler) (buf : List Nat) : List saxEvent :=
  if h.cdataBlock then [saxEvent.cdataBlock buf]
  else if h.characters then [saxEvent.characters buf]
  else []

/-- The shape of the stack of open elements. `nameTab` lists the stack from the
top down, so index 0 of `ctxt->nameTab` (the bottom) is its last entry: the
name html stands nowhere but at the bottom, the name body stands at most once,
and with implied tags enabled (`noImplied` unset) a stack that is not empty has
html at the bottom. -/
def htmlStackShape (noImplied : Bool) (nameTab : List (List Nat)) : Bool :=
  !nameTab.dropLast.contains (bytes "html") &&
    decide ((nameTab.filter (fun n => n = bytes "body")).length ≤ 1) &&
    (noImplied || nameTab.isEmpty || nameTab.getLast? == some (bytes "html"))

/-- The stack of the context `ctxt` has the shape `htmlStackShape`, judged with
the option HTML_PARSE_NOIMPLIED of that context. -/
def htmlStackOK (ctxt : htmlParserCtxt) : Prop :=
  htmlStackShape ctxt.noImplied ctxt.nameTab = true

/-- The context `c1` has the option HTML_PARSE_NOIMPLIED of `c`, and its stack
has the shape `htmlStackShape` whenever the stack of `c` has it. -/
def stackFrame (c c1 : htmlParserCtxt) : Prop :=
  c1.noImplied = c.noImplied ∧ (htmlStackOK c → htmlStackOK c1)

/-! ## Nesting of tags -/

/-- The context `c` with the fields of the tree builder replaced: the stack of
open elements, the events sent, the counter `html` and the depth of the
node-info stack. -/
def htmlTreeSet (c : htmlParserCtxt) (t : List (List Nat)) (e : List saxEvent) (h k : Nat) :
    htmlParserCtxt :=
  { c with nameTab := t, events := e, html := h, nodeInfoNr := k }

/-- A tag of an input made of start and end tags only, as the scanner reads it:
the name that `htmlParseHTMLName` returns and, for a start tag, the attribute
list that the attribute loop of `htmlParseStartTag` collects. -/
inductive htmlTagToken where
  | start (name : List Nat) (atts : List (List Nat × Option (List Nat)))
  | stop (name : List Nat)
  deriving DecidableEq, Repr

/-- The SAX event that mirrors a tag. -/
def htmlTagToken.event : htmlTagToken → saxEvent
  | htmlTagToken.start n atts => saxEvent.startElement n atts
  | htmlTagToken.stop n => saxEvent.endElement n

/-- The attribute loop of `htmlParseStartTag` as the scanner runs it on a start
tag at the cursor of `c`: the `<` is passed, the name is read with
`htmlParseHTMLName`, blanks are skipped and the attributes are read. The result
is the context at the end of the loop and the attributes collected. -/
def htmlScanStartTag (lim : xmlLimits) (c : htmlParserCtxt) :
    htmlParserCtxt × List (List Nat × Option (List Nat)) :=
  htmlParseStartTag_atts lim
    (2 * (htmlSkipBlankChars lim (htmlParseHTMLName (xmlNextChar c)).1).1.input.length + 1)
    (htmlSkipBlankChars lim (htmlParseHTMLName (xmlNextChar c)).1).1 []

/-- The context in which the scanner of `htmlParseEndTag` looks for the closing
`>` of an end tag at the cursor of `c`: the `</` is passed, the name is read
with `htmlParseHTMLName` and blanks are skipped. -/
def htmlScanEndTag (lim : xmlLimits) (c : htmlParserCtxt) : htmlParserCtxt :=
  (htmlSkipBlankChars lim (htmlParseHTMLName (SKIP c 2)).1).1

/-- The scanner reads the input of `c` as the tags `tags` and nothing else. A
start tag is a `<` followed by a letter, the name that `htmlParseHTMLName`
reads, blanks, the attributes that the attribute loop of `htmlParseStartTag`
reads, and the `>` at which that loop stops; an end tag is `</`, the name that
`htmlParseHTMLName` reads, blanks and `>`. The next tag is read from the
context in which the scanner leaves the input. -/
def htmlReadsTags (lim : xmlLimits) : htmlParserCtxt → List htmlTagToken → Bool
  | c, [] => decide (c.input = [])
  | c, htmlTagToken.start n atts :: ts =>
    decide (CUR c = 0x3c) && IS_ASCII_LETTER (NXT c 1) &&
      decide ((htmlParseHTMLName (xmlNextChar c)).2 = some n) &&
      decide ((htmlScanStartTag lim c).2 = atts) &&
      decide (CUR (htmlScanStartTag lim c).1 = 0x3e) &&
      htmlReadsTags lim (xmlNextChar (htmlScanStartTag lim c).1) ts
  | c, htmlTagToken.stop n :: ts =>
    decide (CUR c = 0x3c) && decide (NXT c 1 = 0x2f) &&
      decide ((htmlParseHTMLName (SKIP c 2)).2 = some n) &&
      decide (CUR (htmlScanEndTag lim c) = 0x3e) &&
      htmlReadsTags lim (xmlNextChar (htmlScanEndTag lim c)) ts

/-- The names that `htmlCheckImplied` pushes in front of a start tag named `n`,
outermost first, when the counter `html` is `h` and the open elements are
`stack` (innermost first). -/
def htmlImpliedNames (noImplied : Bool) (h : Nat) (stack : List (List Nat)) (n : List Nat) :
    List (List Nat) :=
  if noImplied then []
  else if n = bytes "html" then []
  else
    let root := if stack = [] then [bytes "html"] else []
    if n = bytes "body" ∨ n = bytes "head" then root
    else if stack.length + root.length ≤ 1 ∧
        (n = bytes "script" ∨ n = bytes "style" ∨ n = bytes "meta" ∨
         n = bytes "link" ∨ n = bytes "title" ∨ n = bytes "base") then
      if h ≥ 3 then root else root ++ [bytes "head"]
    else if n ≠ bytes "noframes" ∧ n ≠ bytes "frame" ∧ n ≠ bytes "frameset" then
      if h ≥ 10 then root
      else if stack.any (fun x => x = bytes "body" ∨ x = bytes "head") then root
      else root ++ [bytes "body"]
    else root

/-- The counter `html` after `htmlnamePush` has pushed the name `n`. -/
def htmlPushedHtml (h : Nat) (n : List Nat) : Nat :=
  if h < 3 ∧ n = bytes "head" then 3
  else if h < 10 ∧ n = bytes "body" then 10
  else h

/-- A start tag named `n` is one that `htmlParseStartTag` discards as misplaced
when the open elements are `stack`: html with an element open, head with a
number of open elements other than one, body with a body open. -/
def htmlMisplacedIn (stack : List (List Nat)) (n : List Nat) : Bool :=
  (decide (n = bytes "html") && !stack.isEmpty) ||
    (decide (n = bytes "head") && decide (stack.length ≠ 1)) ||
    (decide (n = bytes "body") && stack.contains (bytes "body"))

/-- Proper nesting of a tag sequence for the parser. The open elements are kept
innermost first, each with a mark that tells an element of the input (`true`)
from an element that the parser has implied (`false`), next to the counter
`html`. A start tag must name an element of `html40ElementTable` that is not
void, must not stand inside script or style, must close no element of the
input through `htmlStartClose` (implied elements may be closed), and must not
be an html, head or body tag that the parser discards as misplaced; the
elements that `htmlCheckImplied` implies are opened below it. An end tag must
name the innermost open element of the input, with no implied element of
higher end priority above it. At the end no element of the input is open. -/
def htmlNested (noImplied : Bool) :
    Nat → List (List Nat × Bool) → List htmlTagToken → Bool
  | _, stack, [] => stack.all (fun e => !e.2)
  | h, stack, htmlTagToken.start n _ :: ts =>
    ((htmlTagLookup (some n)).map (fun i => i.empty) == some 0) &&
      (stack.takeWhile (fun e => htmlCheckAutoClose n e.1)).all (fun e => !e.2) &&
      !(((stack.dropWhile (fun e => htmlCheckAutoClose n e.1)).head?.map (fun e => e.1)) ==
          some (bytes "script") ||
        ((stack.dropWhile (fun e => htmlCheckAutoClose n e.1)).head?.map (fun e => e.1)) ==
          some (bytes "style")) &&
      !htmlMisplacedIn
        ((htmlImpliedNames noImplied h
            ((stack.dropWhile (fun e => htmlCheckAutoClose n e.1)).map (fun e => e.1)) n).reverse ++
          (stack.dropWhile (fun e => htmlCheckAutoClose n e.1)).map (fun e => e.1)) n &&
      htmlNested noImplied
        (htmlPushedHtml
          ((htmlImpliedNames noImplied h
            ((stack.dropWhile (fun e => htmlCheckAutoClose n e.1)).map (fun e => e.1)) n).foldl
              htmlPushedHtml h) n)
        ((n, true) ::
          ((htmlImpliedNames noImplied h
              ((stack.dropWhile (fun e => htmlCheckAutoClose n e.1)).map (fun e => e.1))
              n).reverse.map (fun x => (x, false)) ++
            stack.dropWhile (fun e => htmlCheckAutoClose n e.1)))
        ts
  | h, stack, htmlTagToken.stop n :: ts =>
    match stack.dropWhile (fun e => !e.2) with
    | [] => false
    | m :: below =>
      decide (m.1 = n) &&
        (stack.takeWhile (fun e => !e.2)).all
          (fun e => decide (htmlGetEndPriority e.1 ≤ htmlGetEndPriority n)) &&
        htmlNested noImplied h below ts

/-- An event for an element that the parser implies or closes on its own: a
startElement without attributes or an endElement for html, head or body. -/
def htmlImpliedEvent (e : saxEvent) : Bool :=
  [saxEvent.startElement (bytes "html") [], saxEvent.startElement (bytes "head") [],
    saxEvent.startElement (bytes "body") [], saxEvent.endElement (bytes "html"),
    saxEvent.endElement (bytes "head"), saxEvent.endElement (bytes "body")].contains e

/-- The events `evs` mirror the tags `tags`: they are the events of the tags, in
the order of the tags, with events for implied elements in between. -/
def htmlMirrors : List saxEvent → List htmlTagToken → Bool
  | [], [] => true
  | [], _ :: _ => false
  | e :: es, [] => htmlImpliedEvent e && htmlMirrors es []
  | e :: es, t :: ts =>
    (decide (e = t.event) && htmlMirrors es ts) || (htmlImpliedEvent e && htmlMirrors es (t :: ts))

/-- Proper nesting as the specification words it: every tag names an element
of `html40ElementTable`, every end tag names the innermost start tag that is
still open (`stack`, innermost first), and at the end no start tag is open. -/
def htmlSpecNested : List (List Nat) → List htmlTagToken → Bool
  | stack, [] => stack.isEmpty
  | stack, htmlTagToken.start n _ :: ts =>
    (htmlTagLookup (some n)).isSome && htmlSpecNested (n :: stack) ts
  | [], htmlTagToken.stop _ :: _ => false
  | top :: below, htmlTagToken.stop n :: ts =>
    decide (top = n) && (htmlTagLookup (some n)).isSome && htmlSpecNested below ts

/-! # Theorems -/

/-! ## Order properties of `strcmp` -/

theorem strcmp_self (a : List Nat) : strcmp a a = 0 := by
  induction a with
  | nil => simp [strcmp]
  | cons x xs ih => simp [strcmp, ih]

theorem strcmp_trans_le_lt : ∀ a b c : List Nat,
    strcmp a b ≤ 0 → strcmp b c < 0 → strcmp a c < 0 := by
  intro a
  induction a with
  | nil =>
    intro b c h1 h2
    cases b with
    | nil => exact h2
    | cons y ys =>
      cases c with
      | nil => simp only [strcmp] at h2; omega
      | cons z zs =>
        simp only [strcmp] at h1 h2 ⊢
        split_ifs at h2 <;> omega
  | cons x xs ih =>
    intro b c h1 h2
    cases b with
    | nil =>
      cases c with
      | nil => simp [strcmp] at h2
      | cons z zs =>
        simp only [strcmp] at h1 h2 ⊢
        split_ifs <;> omega
    | cons y ys =>
      cases c with
      | nil =>
        simp only [strcmp] at h1 h2 ⊢
        omega
      | cons z zs =>
        simp only [strcmp] at h1 h2 ⊢
        split_ifs at h1 h2 ⊢ <;> first | omega | (exact ih ys zs h1 h2)

theorem strcmp_trans_lt_le : ∀ a b c : List Nat,
    strcmp a b < 0 → strcmp b c ≤ 0 → strcmp a c < 0 := by
  intro a
  induction a with
  | nil =>
    intro b c h1 h2
    cases b with
    | nil => simp [strcmp] at h1
    | cons y ys =>
      cases c with
      | nil => simp only [strcmp] at h1 h2; omega
      | cons z zs =>
        simp only [strcmp] at h1 h2 ⊢
        split_ifs at h2 <;> omega
  | cons x xs ih =>
    intro b c h1 h2
    cases b with
    | nil => simp only [strcmp] at h1; omega
    | cons y ys =>
      cases c with
      | nil =>
        simp only [strcmp] at h1 h2 ⊢
        split_ifs at h1 <;> omega
      | cons z zs =>
        simp only [strcmp] at h1 h2 ⊢
        split_ifs at h1 h2 ⊢ <;> first | omega | (exact ih ys zs h1 h2)

theorem strcmp_trans_eq : ∀ a b c : List Nat,
    strcmp a b = 0 → strcmp b c = 0 → strcmp a c = 0 := by
  intro a
  induction a with
  | nil =>
    intro b c h1 h2
    cases b with
    | nil => exact h2
    | cons y ys =>
      cases c with
      | nil => simp [strcmp]
      | cons z zs =>
        simp only [strcmp] at h1 h2 ⊢
        split_ifs at h2 <;> omega
  | cons x xs ih =>
    intro b c h1 h2
    cases b with
    | nil =>
      cases c with
      | nil => simpa [strcmp] using h1
      | cons z zs =>
        simp only [strcmp] at h1 h2 ⊢
        split_ifs <;> omega
    | cons y ys =>
      cases c with
      | nil =>
        simp only [strcmp] at h1 h2 ⊢
        split_ifs at h1 <;> omega
      | cons z zs =>
        simp only [strcmp] at h1 h2 ⊢
        split_ifs at h1 h2 ⊢ <;> first | omega | (exact ih ys zs h1 h2)

/-- On NUL-free strings `strcmp` returns 0 only for equal strings. -/
theorem strcmp_eq_zero : ∀ a b : List Nat, 0 ∉ a → 0 ∉ b → strcmp a b = 0 → a = b := by
  intro a
  induction a with
  | nil =>
    intro b _ hb h
    cases b with
    | nil => rfl
    | cons y ys =>
      simp only [strcmp] at h
      simp only [List.mem_cons, not_or] at hb
      omega
  | cons x xs ih =>
    intro b ha hb h
    simp only [List.mem_cons, not_or] at ha
    cases b with
    | nil =>
      simp only [strcmp] at h
      omega
    | cons y ys =>
      simp only [List.mem_cons, not_or] at hb
      simp only [strcmp] at h
      split_ifs at h with h1 h2
      · omega
      · omega
      · have hxy : x = y := by simpa using h1
        rw [hxy, ih ys ha.2 hb.2 h]


/-! ## Correctness of `bsearch` on a table sorted for the comparison -/

theorem bsearch_loop_some {α β : Type} (compar : α → β → Int) (key : α) (base : List β) :
    ∀ (fuel l u : Nat) (p : β), bsearch_loop compar key base fuel l u = some p →
      p ∈ base ∧ compar key p = 0 := by
  intro fuel
  induction fuel with
  | zero => intro l u p h; simp [bsearch_loop] at h
  | succ n ih =>
    intro l u p h
    simp only [bsearch_loop] at h
    split_ifs at h with hlu
    cases hget : base[(l + u) / 2]? with
    | none => simp [hget] at h
    | some q =>
      simp only [hget] at h
      split_ifs at h with h1 h2
      · exact ih _ _ _ h
      · exact ih _ _ _ h
      · have hq : q = p := by simpa using h
        subst hq
        exact ⟨List.getElem?_mem hget, by omega⟩

theorem bsearch_loop_none {α β : Type} (compar : α → β → Int) (key : α) (base : List β)
    (mono : ∀ (i j : Nat) (a b : β), i < j → base[i]? = some a → base[j]? = some b →
      compar key a ≤ 0 → compar key b < 0) :
    ∀ (fuel l u : Nat), u ≤ base.length → u - l < fuel →
      (∀ (i : Nat) (a : β), i < l → base[i]? = some a → 0 < compar key a) →
      (∀ (i : Nat) (a : β), u ≤ i → base[i]? = some a → compar key a < 0) →
      bsearch_loop compar key base fuel l u = none →
      ∀ a ∈ base, compar key a ≠ 0 := by
  intro fuel
  induction fuel with
  | zero => intro l u _ hf; omega
  | succ n ih =>
    intro l u hu hf hlo hhi h a ha
    simp only [bsearch_loop] at h
    by_cases hlu : l < u
    · simp only [hlu, if_true] at h
      have hidx : (l + u) / 2 < base.length := by omega
      obtain ⟨q, hq⟩ : ∃ q, base[(l + u) / 2]? = some q :=
        ⟨base[(l + u) / 2], List.getElem?_eq_getElem hidx⟩
      simp only [hq] at h
      split_ifs at h with h1 h2
      · refine ih l ((l + u) / 2) (by omega) (by omega) hlo ?_ h a ha
        intro i b hi hb
        rcases Nat.eq_or_lt_of_le hi with heq | hlt
        · rw [← heq, hq] at hb
          cases hb
          exact h1
        · exact mono _ _ _ _ hlt hq hb (by omega)
      · refine ih ((l + u) / 2 + 1) u hu (by omega) ?_ hhi h a ha
        intro i b hi hb
        rcases Nat.eq_or_lt_of_le (Nat.lt_succ_iff.mp hi) with heq | hlt
        · rw [heq, hq] at hb
          cases hb
          exact h2
        · by_contra hcon
          have := mono _ _ _ _ hlt hb hq (by omega)
          omega
    · obtain ⟨i, hi⟩ := List.getElem?_of_mem ha
      by_cases hil : i < l
      · have := hlo i a hil hi
        omega
      · have := hhi i a (by omega) hi
        omega

theorem bsearch_isSome_iff {α β : Type} (compar : α → β → Int) (key : α) (base : List β)
    (mono : ∀ (i j : Nat) (a b : β), i < j → base[i]? = some a → base[j]? = some b →
      compar key a ≤ 0 → compar key b < 0) :
    (bsearch compar key base).isSome = true ↔ ∃ a ∈ base, compar key a = 0 := by
  constructor
  · intro h
    obtain ⟨p, hp⟩ := Option.isSome_iff_exists.mp h
    exact ⟨p, bsearch_loop_some compar key base _ _ _ p hp⟩
  · rintro ⟨a, ha, h0⟩
    by_contra hcon
    have hnone : bsearch compar key base = none := by
      cases hb : bsearch compar key base with
      | none => rfl
      | some p => simp [hb] at hcon
    have := bsearch_loop_none compar key base mono (base.length + 1) 0 base.length
      (le_refl _) (by omega) (by intro i a hi; omega)
      (by
        intro i b hi hb
        have := List.getElem?_eq_none hi
        rw [this] at hb
        cases hb)
      hnone a ha
    exact this h0


/-! ## `htmlCheckAutoClose` is membership in `htmlStartClose` -/

theorem htmlCompareStartClose_trans_le_lt (k a b : List Nat × List Nat)
    (h1 : htmlCompareStartClose k a ≤ 0) (h2 : htmlCompareStartClose a b < 0) :
    htmlCompareStartClose k b < 0 := by
  simp only [htmlCompareStartClose] at h1 h2 ⊢
  have f1 := strcmp_trans_eq k.1 a.1 b.1
  have f2 := strcmp_trans_le_lt k.1 a.1 b.1
  have f3 := strcmp_trans_lt_le k.1 a.1 b.1
  have f4 := strcmp_trans_le_lt k.2 a.2 b.2
  split_ifs at h1 h2 ⊢ <;> omega

/-- The table `htmlStartClose` is strictly increasing for `htmlCompareStartClose`. -/
theorem listChainB_chain {α : Type} (R : α → α → Bool) :
    ∀ l : List α, listChainB R l = true → List.Chain' (fun a b => R a b = true) l
  | [], _ => List.chain'_nil
  | [_], _ => List.chain'_singleton _
  | a :: b :: rest, h => by
    simp only [listChainB, Bool.and_eq_true] at h
    exact List.chain'_cons.mpr ⟨h.1, listChainB_chain R (b :: rest) h.2⟩

theorem htmlStartClose_chain :
    List.Chain' (fun a b => htmlCompareStartClose a b < 0) htmlStartClose := by
  have h : listChainB (fun a b => decide (htmlCompareStartClose a b < 0)) htmlStartClose = true := by
    decide!
  have := listChainB_chain _ _ h
  simpa using this

theorem htmlStartClose_pairwise :
    List.Pairwise (fun a b => htmlCompareStartClose a b < 0) htmlStartClose := by
  haveI : IsTrans (List Nat × List Nat) (fun a b => htmlCompareStartClose a b < 0) :=
    ⟨fun a b c h1 h2 => htmlCompareStartClose_trans_le_lt a b c (le_of_lt h1) h2⟩
  exact List.chain'_iff_pairwise.mp htmlStartClose_chain

/-- No name of `htmlStartClose` holds a NUL byte. -/
theorem htmlStartClose_nul_free :
    ∀ p ∈ htmlStartClose, 0 ∉ p.1 ∧ 0 ∉ p.2 := by
  decide!

/-- For NUL-free names, `htmlCheckAutoClose newtag oldtag` holds exactly when
the pair `(oldtag, newtag)` is an entry of `htmlStartClose`. -/
theorem htmlCheckAutoClose_iff (newtag oldtag : List Nat) (hn : 0 ∉ newtag) (ho : 0 ∉ oldtag) :
    htmlCheckAutoClose newtag oldtag = true ↔ (oldtag, newtag) ∈ htmlStartClose := by
  unfold htmlCheckAutoClose
  rw [bsearch_isSome_iff]
  · constructor
    · rintro ⟨a, ha, h0⟩
      have hnf := htmlStartClose_nul_free a ha
      simp only [htmlCompareStartClose] at h0
      split_ifs at h0 with h1
      · have e1 := strcmp_eq_zero _ _ ho hnf.1 h1
        have e2 := strcmp_eq_zero _ _ hn hnf.2 h0
        have : a = (oldtag, newtag) := by
          cases a
          simp only at e1 e2
          rw [e1, e2]
        rw [← this]
        exact ha
      · exact absurd h0 h1
    · intro h
      refine ⟨_, h, ?_⟩
      simp [htmlCompareStartClose, strcmp_self]
  · intro i j a b hij ha hb hle
    have hp := List.pairwise_iff_getElem.mp htmlStartClose_pairwise
    obtain ⟨hi, rfl⟩ := List.getElem?_eq_some.mp ha
    obtain ⟨hj, rfl⟩ := List.getElem?_eq_some.mp hb
    exact htmlCompareStartClose_trans_le_lt _ _ _ hle (hp i j hi hj hij)


/-! ## Start-tag auto-close -/

theorem saxCall_endElement (ctxt : htmlParserCtxt) (h : htmlSAXHandler)
    (hsax : ctxt.sax = some h) (hend : h.endElement = true) (n : List Nat) :
    saxCall ctxt (fun h => h.endElement) (saxEvent.endElement n) =
      { ctxt with events := ctxt.events ++ [saxEvent.endElement n] } := by
  simp [saxCall, hsax, hend]

theorem htmlAutoClose_loop_eq (t : List Nat) (h : htmlSAXHandler) (hend : h.endElement = true)
    (p : List Nat → Bool) :
    ∀ (stack : List (List Nat)) (ctxt : htmlParserCtxt) (fuel : Nat),
      ctxt.nameTab = stack → ctxt.sax = some h →
      (∀ e ∈ stack, htmlCheckAutoClose t e = p e) → stack.length ≤ fuel →
      htmlAutoClose_loop t fuel ctxt =
        { ctxt with
          nameTab := stack.dropWhile p,
          events := ctxt.events ++ (stack.takeWhile p).map saxEvent.endElement } := by
  intro stack
  induction stack with
  | nil =>
    intro ctxt fuel hs _ _ _
    cases ctxt
    simp only at hs
    subst hs
    cases fuel <;> simp [htmlAutoClose_loop, htmlParserCtxt.name]
  | cons e rest ih =>
    intro ctxt fuel hs hsax hp hfuel
    cases fuel with
    | zero => simp at hfuel
    | succ n =>
      have hpe := hp e (List.mem_cons_self _ _)
      have hrest : ∀ x ∈ rest, htmlCheckAutoClose t x = p x :=
        fun x hx => hp x (List.mem_cons_of_mem _ hx)
      have hn : rest.length ≤ n := by simpa using hfuel
      simp only [htmlAutoClose_loop, htmlParserCtxt.name, hs, List.head?_cons, hpe]
      cases hpv : p e with
      | true =>
        simp only [if_true]
        rw [saxCall_endElement ctxt h hsax hend]
        simp only [htmlnamePop, hs]
        rw [ih { ctxt with nameTab := rest, events := ctxt.events ++ [saxEvent.endElement e] } n
          rfl hsax hrest hn]
        simp [List.dropWhile_cons, List.takeWhile_cons, hpv]
      | false =>
        cases ctxt
        simp only at hs
        subst hs
        simp [List.dropWhile_cons, List.takeWhile_cons, hpv]


/-- C1. Start-tag auto-close. For every context with an endElement callback and
every new tag name `t` (names being NUL-free C strings), `htmlAutoClose` pops
exactly the elements that are successively on top while `(e, t)` is a pair of
`htmlStartClose`, appends one `endElement(e)` per pop in pop order, and changes
nothing else: the entries below stay as they were, and afterwards the stack is
empty or its top does not form an auto-close pair with `t`. In particular the
document `<p>a<p>b` yields, inside the implied html and body elements,
startElement(p), characters(a), endElement(p), startElement(p), characters(b):
the second p is a sibling of the first. -/
theorem C1_htmlAutoClose (ctxt : htmlParserCtxt) (t : List Nat) (h : htmlSAXHandler)
    (hsax : ctxt.sax = some h) (hend : h.endElement = true)
    (ht : 0 ∉ t) (hstack : ∀ e ∈ ctxt.nameTab, 0 ∉ e) :
    htmlAutoClose ctxt (some t) =
        { ctxt with
          nameTab := ctxt.nameTab.dropWhile (fun e => decide ((e, t) ∈ htmlStartClose)),
          events := ctxt.events ++
            (ctxt.nameTab.takeWhile (fun e => decide ((e, t) ∈ htmlStartClose))).map
              saxEvent.endElement } ∧
      (∀ e, (htmlAutoClose ctxt (some t)).name = some e → (e, t) ∉ htmlStartClose) ∧
      (htmlParseDocument xmlDefaultLimits
          (htmlCreateMemoryParserCtxt htmlSinkHandler (bytes "<p>a<p>b"))).1.events =
        [saxEvent.setDocumentLocator, saxEvent.startDocument,
         saxEvent.startElement (bytes "html") [], saxEvent.startElement (bytes "body") [],
         saxEvent.startElement (bytes "p") [], saxEvent.characters (bytes "a"),
         saxEvent.endElement (bytes "p"),
         saxEvent.startElement (bytes "p") [], saxEvent.characters (bytes "b"),
         saxEvent.endElement (bytes "p"), saxEvent.endElement (bytes "body"),
         saxEvent.endElement (bytes "html"), saxEvent.endDocument] := by
  have hmain := htmlAutoClose_loop_eq t h hend (fun e => decide ((e, t) ∈ htmlStartClose))
    ctxt.nameTab ctxt ctxt.nameNr rfl hsax
    (by
      intro e he
      have hiff := htmlCheckAutoClose_iff t e ht (hstack e he)
      by_cases hm : (e, t) ∈ htmlStartClose
      · simp [hm, hiff.mpr hm]
      · cases hx : htmlCheckAutoClose t e with
        | false => simp [hm]
        | true => exact absurd (hiff.mp hx) hm)
    (le_refl _)
  have heq : htmlAutoClose ctxt (some t) = htmlAutoClose_loop t ctxt.nameNr ctxt := rfl
  refine ⟨by rw [heq, hmain], ?_, by decide!⟩
  intro e he
  rw [heq, hmain] at he
  simp only [htmlParserCtxt.name] at he
  have hmem : e ∈ (ctxt.nameTab.dropWhile (fun e => decide ((e, t) ∈ htmlStartClose))).head? := he
  have := List.head?_dropWhile_not (fun e => decide ((e, t) ∈ htmlStartClose)) ctxt.nameTab
  rw [he] at this
  simpa using this

/-- Witness for C1: the stack p, body, html and the new tag p. -/
theorem C1_htmlAutoClose_witness :
    (htmlAutoClose
        { htmlNewSAXParserCtxt htmlSinkHandler with
          nameTab := [bytes "p", bytes "body", bytes "html"] }
        (some (bytes "p"))).nameTab = [bytes "body", bytes "html"] := by
  have h := (C1_htmlAutoClose
    { htmlNewSAXParserCtxt htmlSinkHandler with
      nameTab := [bytes "p", bytes "body", bytes "html"] }
    (bytes "p") htmlSinkHandler rfl rfl (by decide) (by decide)).1
  rw [h]
  decide!


/-- C2, as the code behaves. The document `<table><tr><td>x` yields the implied
html and body elements, then startElement for table, tr, td with no tbody in
between, characters(x), and at the end of the input endElement for td, tr,
table, body, html in that order. -/
theorem C2_table_events :
    (htmlParseDocument xmlDefaultLimits
        (htmlCreateMemoryParserCtxt htmlSinkHandler (bytes "<table><tr><td>x"))).1.events =
      [saxEvent.setDocumentLocator, saxEvent.startDocument,
       saxEvent.startElement (bytes "html") [], saxEvent.startElement (bytes "body") [],
       saxEvent.startElement (bytes "table") [], saxEvent.startElement (bytes "tr") [],
       saxEvent.startElement (bytes "td") [], saxEvent.characters (bytes "x"),
       saxEvent.endElement (bytes "td"), saxEvent.endElement (bytes "tr"),
       saxEvent.endElement (bytes "table"), saxEvent.endElement (bytes "body"),
       saxEvent.endElement (bytes "html"), saxEvent.endDocument] := by
  decide!

/-- C2, counterexample. Parsing `<table><tr><td>x` emits no startElement(tbody)
and no endElement(tbody). -/
theorem C2_no_tbody :
    ¬ (saxEvent.startElement (bytes "tbody") [] ∈
        (htmlParseDocument xmlDefaultLimits
          (htmlCreateMemoryParserCtxt htmlSinkHandler (bytes "<table><tr><td>x"))).1.events) ∧
    ¬ (saxEvent.endElement (bytes "tbody") ∈
        (htmlParseDocument xmlDefaultLimits
          (htmlCreateMemoryParserCtxt htmlSinkHandler (bytes "<table><tr><td>x"))).1.events) := by
  decide!

/-- C4, the code at the failing input. The document `<!DOCTYPE html>` fed in one
terminating chunk yields setDocumentLocator, startDocument, internalSubset,
endDocument; fed as `<!DOCTYPE ` and then `html>` (terminating) it yields
setDocumentLocator and startDocument twice: the first call leaves the state
`XML_PARSER_START` after it has emitted startDocument. -/
theorem C4_chunk_variance :
    (htmlParseChunks xmlDefaultLimits (htmlNewSAXParserCtxt htmlSinkHandler)
        [bytes "<!DOCTYPE html>"]).events =
      [saxEvent.setDocumentLocator, saxEvent.startDocument,
       saxEvent.internalSubset (some (bytes "html")) none none, saxEvent.endDocument] ∧
    (htmlParseChunks xmlDefaultLimits (htmlNewSAXParserCtxt htmlSinkHandler)
        [bytes "<!DOCTYPE ", bytes "html>"]).events =
      [saxEvent.setDocumentLocator, saxEvent.startDocument,
       saxEvent.setDocumentLocator, saxEvent.startDocument,
       saxEvent.internalSubset (some (bytes "html")) none none, saxEvent.endDocument] ∧
    (htmlParseChunk xmlDefaultLimits (htmlNewSAXParserCtxt htmlSinkHandler)
        (bytes "<!DOCTYPE ") false).instate = xmlParserInputState.XML_PARSER_START := by
  decide!


/-! ## Frame lemmas: what the scanner leaves alone -/

theorem scanFrame_refl (c : htmlParserCtxt) : scanFrame c c := rfl

theorem scanFrame_trans {a b c : htmlParserCtxt} (h1 : scanFrame a b) (h2 : scanFrame b c) :
    scanFrame a c := by
  unfold scanFrame at *
  rw [h2, h1]

theorem scanFrame_nameTab {c c1 : htmlParserCtxt} (h : scanFrame c c1) :
    c1.nameTab = c.nameTab := by rw [h]

theorem scanFrame_events {c c1 : htmlParserCtxt} (h : scanFrame c c1) :
    c1.events = c.events := by rw [h]

theorem scanFrame_sax {c c1 : htmlParserCtxt} (h : scanFrame c c1) :
    c1.sax = c.sax := by rw [h]

theorem scanFrame_depth {c c1 : htmlParserCtxt} (h : scanFrame c c1) :
    c1.depth = c.depth := by rw [h]

theorem scanFrame_html {c c1 : htmlParserCtxt} (h : scanFrame c c1) :
    c1.html = c.html := by rw [h]

theorem scanFrame_disableSAX {c c1 : htmlParserCtxt} (h : scanFrame c c1) :
    c1.disableSAX = c.disableSAX := by rw [h]

theorem scanFrame_nodeInfoNr {c c1 : htmlParserCtxt} (h : scanFrame c c1) :
    c1.nodeInfoNr = c.nodeInfoNr := by rw [h]

theorem scanFrame_name {c c1 : htmlParserCtxt} (h : scanFrame c c1) :
    c1.name = c.name := by
  unfold htmlParserCtxt.name
  rw [scanFrame_nameTab h]

theorem scanFrame_xmlNextChar (c : htmlParserCtxt) : scanFrame c (xmlNextChar c) := by
  unfold xmlNextChar
  cases hin : c.input with
  | nil => exact scanFrame_refl c
  | cons b rest =>
    simp only
    split_ifs <;> rfl

theorem scanFrame_SKIP (c : htmlParserCtxt) (n : Nat) : scanFrame c (SKIP c n) := rfl

theorem scanFrame_NEXTL (c : htmlParserCtxt) (l : Nat) : scanFrame c (NEXTL c l) := by
  unfold NEXTL
  split_ifs <;> rfl

theorem scanFrame_htmlParseErr (c : htmlParserCtxt) (e : xmlParserErrors) (m : String)
    (s1 s2 : Option (List Nat)) : scanFrame c (htmlParseErr c e m s1 s2) := rfl

theorem scanFrame_htmlParseErrInt (c : htmlParserCtxt) (e : xmlParserErrors) (m : String)
    (v : Nat) : scanFrame c (htmlParseErrInt c e m v) := rfl

theorem scanFrame_htmlSkipBlankChars_loop (lim : xmlLimits) :
    ∀ (fuel : Nat) (c : htmlParserCtxt) (res : Nat),
      scanFrame c (htmlSkipBlankChars_loop lim fuel c res).1 := by
  intro fuel
  induction fuel with
  | zero => intro c res; exact scanFrame_refl c
  | succ n ih =>
    intro c res
    simp only [htmlSkipBlankChars_loop]
    by_cases hb : IS_BLANK_CH (CUR c) = true
    · simp only [hb, if_true]
      refine scanFrame_trans ?_ (ih _ _)
      unfold scanFrame
      split_ifs <;> rfl
    · simp only [hb]
      exact scanFrame_refl c

theorem scanFrame_htmlSkipBlankChars (lim : xmlLimits) (c : htmlParserCtxt) :
    scanFrame c (htmlSkipBlankChars lim c).1 :=
  scanFrame_htmlSkipBlankChars_loop lim _ c 0

theorem scanFrame_htmlParseHTMLName_loop :
    ∀ (room : Nat) (c : htmlParserCtxt) (loc : List Nat),
      scanFrame c (htmlParseHTMLName_loop room c loc).1 := by
  intro room
  induction room with
  | zero => intro c loc; exact scanFrame_refl c
  | succ n ih =>
    intro c loc
    simp only [htmlParseHTMLName_loop]
    split_ifs
    · exact scanFrame_trans (scanFrame_xmlNextChar c) (ih _ _)
    · exact scanFrame_refl c

theorem scanFrame_htmlParseHTMLName (c : htmlParserCtxt) :
    scanFrame c (htmlParseHTMLName c).1 := by
  unfold htmlParseHTMLName
  split_ifs
  · exact scanFrame_refl c
  · exact scanFrame_htmlParseHTMLName_loop _ c []

theorem scanFrame_htmlParseEndTag_skip :
    ∀ (fuel : Nat) (c : htmlParserCtxt), scanFrame c (htmlParseEndTag_skip fuel c) := by
  intro fuel
  induction fuel with
  | zero => intro c; exact scanFrame_refl c
  | succ n ih =>
    intro c
    simp only [htmlParseEndTag_skip]
    split_ifs
    · exact scanFrame_trans (scanFrame_xmlNextChar c) (ih _)
    · exact scanFrame_refl c


/-! ## End tags -/

theorem scanFrame_htmlParseEndTag_gt (lim : xmlLimits) (c : htmlParserCtxt) :
    scanFrame c (htmlParseEndTag_gt lim c) := by
  unfold htmlParseEndTag_gt
  have f1 := scanFrame_htmlSkipBlankChars lim c
  simp only
  split_ifs <;> first
    | exact scanFrame_trans (scanFrame_trans (scanFrame_trans f1 (scanFrame_htmlParseErr _ _ _ _ _))
        (scanFrame_htmlParseEndTag_skip _ _)) (scanFrame_xmlNextChar _)
    | exact scanFrame_trans (scanFrame_trans f1 (scanFrame_htmlParseErr _ _ _ _ _))
        (scanFrame_htmlParseEndTag_skip _ _)
    | exact scanFrame_trans f1 (scanFrame_xmlNextChar _)

/-- The context in which `htmlParseEndTag` takes its decision: after the name,
the blanks and the closing `>` have been read. -/
theorem htmlParseEndTag_scan (lim : xmlLimits) (ctxt : htmlParserCtxt) (name : List Nat)
    (hlt : CUR ctxt = 0x3c) (hsl : NXT ctxt 1 = 0x2f)
    (hname : (htmlParseHTMLName (SKIP ctxt 2)).2 = some name) :
    ∃ c3 : htmlParserCtxt, scanFrame ctxt c3 ∧
      htmlParseEndTag lim ctxt = htmlParseEndTag_close c3 name := by
  refine ⟨htmlParseEndTag_gt lim (htmlParseHTMLName (SKIP ctxt 2)).1,
    scanFrame_trans (scanFrame_trans (scanFrame_SKIP ctxt 2) (scanFrame_htmlParseHTMLName _))
      (scanFrame_htmlParseEndTag_gt lim _), ?_⟩
  simp only [htmlParseEndTag, hlt, hsl, hname]
  simp

/-- C9. An end tag whose name is on no entry of the open-element stack, and
that the html/body/head depth guard does not absorb, makes `htmlParseEndTag`
report "Unexpected end tag" for that name, return 0, emit no event and leave
the stack, the depth counter and the current name as they were. -/
theorem C9_unexpected_end_tag (lim : xmlLimits) (ctxt : htmlParserCtxt) (name : List Nat)
    (hlt : CUR ctxt = 0x3c) (hsl : NXT ctxt 1 = 0x2f)
    (hname : (htmlParseHTMLName (SKIP ctxt 2)).2 = some name)
    (habsent : name ∉ ctxt.nameTab)
    (hguard : ¬ (ctxt.depth > 0 ∧
      (name = bytes "html" ∨ name = bytes "body" ∨ name = bytes "head"))) :
    (htmlParseEndTag lim ctxt).2 = 0 ∧
      (htmlParseEndTag lim ctxt).1.events = ctxt.events ∧
      (htmlParseEndTag lim ctxt).1.nameTab = ctxt.nameTab ∧
      (htmlParseEndTag lim ctxt).1.nameNr = ctxt.nameNr ∧
      (htmlParseEndTag lim ctxt).1.name = ctxt.name ∧
      (htmlParseEndTag lim ctxt).1.depth = ctxt.depth ∧
      (htmlParseEndTag lim ctxt).1.errors.getLast? =
        some ⟨xmlParserErrors.XML_ERR_TAG_NAME_MISMATCH, "Unexpected end tag : %s\n",
          some name, none, 0⟩ := by
  obtain ⟨c3, hf, heq⟩ := htmlParseEndTag_scan lim ctxt name hlt hsl hname
  have hd := scanFrame_depth hf
  have hn := scanFrame_nameTab hf
  have hres : htmlParseEndTag_close c3 name =
      (htmlParseErr c3 xmlParserErrors.XML_ERR_TAG_NAME_MISMATCH
        "Unexpected end tag : %s\n" (some name) none, 0) := by
    unfold htmlParseEndTag_close
    rw [hd, hn]
    simp only [hguard, habsent, if_false, not_false_eq_true, if_true]
  rw [heq, hres]
  have hf2 := scanFrame_trans hf (scanFrame_htmlParseErr c3
    xmlParserErrors.XML_ERR_TAG_NAME_MISMATCH "Unexpected end tag : %s\n" (some name) none)
  refine ⟨rfl, scanFrame_events hf2, scanFrame_nameTab hf2, ?_, scanFrame_name hf2,
    scanFrame_depth hf2, ?_⟩
  · unfold htmlParserCtxt.nameNr
    rw [scanFrame_nameTab hf2]
  · simp [htmlParseErr]

/-- Witness for C9: `</span>` read with the stack p, body, html. -/
theorem C9_unexpected_end_tag_witness :
    (htmlParseEndTag xmlDefaultLimits
        { htmlNewSAXParserCtxt htmlSinkHandler with
          input := bytes "</span>", nameTab := [bytes "p", bytes "body", bytes "html"] }).1.nameTab =
      [bytes "p", bytes "body", bytes "html"] :=
  (C9_unexpected_end_tag xmlDefaultLimits
    { htmlNewSAXParserCtxt htmlSinkHandler with
      input := bytes "</span>", nameTab := [bytes "p", bytes "body", bytes "html"] }
    (bytes "span") (by decide) (by decide) (by decide!) (by decide) (by decide)).2.2.1


theorem htmlAutoCloseOnClose_scan_found (name : List Nat) (below : List (List Nat)) :
    ∀ above : List (List Nat), name ∉ above →
      (∀ e ∈ above, htmlGetEndPriority e ≤ htmlGetEndPriority name) →
      htmlAutoCloseOnClose_scan name (htmlGetEndPriority name) (above ++ name :: below) = true := by
  intro above
  induction above with
  | nil => intro _ _; simp [htmlAutoCloseOnClose_scan]
  | cons e rest ih =>
    intro hnot hprio
    have hne : name ≠ e := fun h => hnot (h ▸ List.mem_cons_self _ _)
    have hp : ¬ htmlGetEndPriority e > htmlGetEndPriority name :=
      Nat.not_lt.mpr (hprio e (List.mem_cons_self _ _))
    simp only [List.cons_append, htmlAutoCloseOnClose_scan, hne, if_false, hp]
    exact ih (fun h => hnot (List.mem_cons_of_mem _ h))
      (fun x hx => hprio x (List.mem_cons_of_mem _ hx))

/-- The second loop of `htmlAutoCloseOnClose` pops the elements above the
nearest element named `name`, one endElement per pop. -/
theorem htmlAutoCloseOnClose_loop_spec (name : List Nat) (below : List (List Nat))
    (h : htmlSAXHandler) (hend : h.endElement = true) :
    ∀ (above : List (List Nat)) (ctxt : htmlParserCtxt) (fuel : Nat),
      ctxt.nameTab = above ++ name :: below → name ∉ above → ctxt.sax = some h →
      above.length ≤ fuel →
      (htmlAutoCloseOnClose_loop name fuel ctxt).nameTab = name :: below ∧
      (htmlAutoCloseOnClose_loop name fuel ctxt).events =
        ctxt.events ++ above.map saxEvent.endElement ∧
      (htmlAutoCloseOnClose_loop name fuel ctxt).sax = some h := by
  intro above
  induction above with
  | nil =>
    intro ctxt fuel hs _ hsax _
    have hn : ctxt.name = some name := by simp [htmlParserCtxt.name, hs]
    cases fuel with
    | zero => simp [htmlAutoCloseOnClose_loop, hs, hsax]
    | succ n => simp [htmlAutoCloseOnClose_loop, hn, hs, hsax]
  | cons e rest ih =>
    intro ctxt fuel hs hnot hsax hfuel
    cases fuel with
    | zero => simp at hfuel
    | succ n =>
      have hne : name ≠ e := fun hx => hnot (hx ▸ List.mem_cons_self _ _)
      have hn : ctxt.name = some e := by simp [htmlParserCtxt.name, hs]
      have hne2 : some name ≠ ctxt.name := by
        rw [hn]
        intro hx
        exact hne (Option.some.inj hx)
      simp only [htmlAutoCloseOnClose_loop, hne2, ne_eq, not_false_eq_true, if_true]
      -- the context after the optional mismatch report
      have key : ∀ c1 : htmlParserCtxt, scanFrame ctxt c1 →
          (htmlAutoCloseOnClose_loop name n
            (htmlnamePop (match c1.name with
              | some n => saxCall c1 (fun h => h.endElement) (saxEvent.endElement n)
              | none => saxCall c1 (fun h => h.endElement) (saxEvent.endElement []))).1).nameTab =
              name :: below ∧
          (htmlAutoCloseOnClose_loop name n
            (htmlnamePop (match c1.name with
              | some n => saxCall c1 (fun h => h.endElement) (saxEvent.endElement n)
              | none => saxCall c1 (fun h => h.endElement) (saxEvent.endElement []))).1).events =
              ctxt.events ++ (e :: rest).map saxEvent.endElement ∧
          (htmlAutoCloseOnClose_loop name n
            (htmlnamePop (match c1.name with
              | some n => saxCall c1 (fun h => h.endElement) (saxEvent.endElement n)
              | none => saxCall c1 (fun h => h.endElement) (saxEvent.endElement []))).1).sax =
              some h := by
        intro c1 hf
        have hn1 : c1.name = some e := by rw [scanFrame_name hf, hn]
        have hsax1 : c1.sax = some h := by rw [scanFrame_sax hf, hsax]
        have hs1 : c1.nameTab = e :: (rest ++ name :: below) := by
          rw [scanFrame_nameTab hf, hs]; rfl
        simp only [hn1]
        rw [saxCall_endElement c1 h hsax1 hend]
        simp only [htmlnamePop, hs1]
        have := ih { c1 with nameTab := rest ++ name :: below,
                             events := c1.events ++ [saxEvent.endElement e] } n rfl
          (fun hx => hnot (List.mem_cons_of_mem _ hx)) hsax1 (by simpa using hfuel)
        refine ⟨this.1, ?_, this.2.2⟩
        rw [this.2.1]
        simp [scanFrame_events hf]
      cases hinfo : htmlTagLookup ctxt.name with
      | none => exact key ctxt (scanFrame_refl ctxt)
      | some i =>
        simp only
        split_ifs
        · exact key _ (scanFrame_htmlParseErr _ _ _ _ _)
        · exact key ctxt (scanFrame_refl ctxt)

/-- C10, as the code behaves. When `htmlParseEndTag` reads an end tag whose name
is on the stack, no element above the nearest match has a strictly higher end
priority, and the end tag is not one that the depth guard discards (the
counter `depth` of ignored misplaced html, body and head start tags is 0, or
the name is none of html, body, head), every element from the top of the stack
down to and including that match is popped, one endElement is emitted per
popped element in top-down order with the popped element's own name, the
entries below the match stay as they were, and the function returns 1. -/
theorem C10_end_tag_closes (lim : xmlLimits) (ctxt : htmlParserCtxt) (h : htmlSAXHandler)
    (name : List Nat) (above below : List (List Nat))
    (hsax : ctxt.sax = some h) (hend : h.endElement = true)
    (hlt : CUR ctxt = 0x3c) (hsl : NXT ctxt 1 = 0x2f)
    (hname : (htmlParseHTMLName (SKIP ctxt 2)).2 = some name)
    (hstack : ctxt.nameTab = above ++ name :: below) (hnot : name ∉ above)
    (hprio : ∀ e ∈ above, htmlGetEndPriority e ≤ htmlGetEndPriority name)
    (hguard : ¬ (ctxt.depth > 0 ∧
      (name = bytes "html" ∨ name = bytes "body" ∨ name = bytes "head"))) :
    (htmlParseEndTag lim ctxt).2 = 1 ∧
      (htmlParseEndTag lim ctxt).1.nameTab = below ∧
      (htmlParseEndTag lim ctxt).1.events =
        ctxt.events ++ above.map saxEvent.endElement ++ [saxEvent.endElement name] := by
  obtain ⟨c3, hf, heq⟩ := htmlParseEndTag_scan lim ctxt name hlt hsl hname
  have hd := scanFrame_depth hf
  have hn := scanFrame_nameTab hf
  have hsax3 : c3.sax = some h := by rw [scanFrame_sax hf, hsax]
  have hs3 : c3.nameTab = above ++ name :: below := by rw [hn, hstack]
  have hmem : name ∈ c3.nameTab := by rw [hs3]; simp
  have hscan := htmlAutoCloseOnClose_scan_found name below above hnot hprio
  have hloop := htmlAutoCloseOnClose_loop_spec name below h hend above c3 c3.nameNr hs3 hnot
    hsax3 (by simp [htmlParserCtxt.nameNr, hs3])
  have hclose : htmlAutoCloseOnClose c3 name = htmlAutoCloseOnClose_loop name c3.nameNr c3 := by
    unfold htmlAutoCloseOnClose
    simp only [hs3, hscan, if_true]
  have hname4 : (htmlAutoCloseOnClose c3 name).name = some name := by
    rw [hclose]
    simp [htmlParserCtxt.name, hloop.1]
  have hres : htmlParseEndTag_close c3 name =
      ((htmlnamePop (htmlNodeInfoPop (saxCall (htmlAutoCloseOnClose c3 name)
        (fun h => h.endElement) (saxEvent.endElement name)))).1, 1) := by
    unfold htmlParseEndTag_close
    rw [hd]
    simp only [hguard, hmem, if_false, not_true_eq_false, hname4]
    simp [hname4]
  rw [heq, hres, hclose]
  rw [saxCall_endElement _ h hloop.2.2 hend]
  refine ⟨rfl, ?_, ?_⟩
  · unfold htmlNodeInfoPop htmlnamePop
    split_ifs <;> simp [hloop.1]
  · unfold htmlNodeInfoPop htmlnamePop
    split_ifs <;> simp [hloop.1, hloop.2.1, scanFrame_events hf]

/-- Witness for C10: `</div>` read with the stack b, i, div, body, html. -/
theorem C10_end_tag_closes_witness :
    (htmlParseEndTag xmlDefaultLimits
        { htmlNewSAXParserCtxt htmlSinkHandler with
          input := bytes "</div>",
          nameTab := [bytes "b", bytes "i", bytes "div", bytes "body", bytes "html"] }).1.events =
      [saxEvent.endElement (bytes "b"), saxEvent.endElement (bytes "i"),
       saxEvent.endElement (bytes "div")] :=
  (C10_end_tag_closes xmlDefaultLimits
    { htmlNewSAXParserCtxt htmlSinkHandler with
      input := bytes "</div>",
      nameTab := [bytes "b", bytes "i", bytes "div", bytes "body", bytes "html"] }
    htmlSinkHandler (bytes "div") [bytes "b", bytes "i"] [bytes "body", bytes "html"]
    rfl rfl (by decide) (by decide) (by decide!) (by decide) (by decide) (by decide!)
    (by decide)).2.2

/-- C10, counterexample. With body and html open and the depth counter at 1 (the
state after `<body><body>`, whose second tag is discarded), `</body>` names an
open element and nothing lies above it, yet `htmlParseEndTag` pops nothing and
emits no event: it lowers the depth counter and returns 0. -/
theorem C10_depth_guard_pops_nothing :
    (htmlParseEndTag xmlDefaultLimits
        { htmlNewSAXParserCtxt htmlSinkHandler with
          input := bytes "</body>", nameTab := [bytes "body", bytes "html"],
          depth := 1 }).2 = 0 ∧
      (htmlParseEndTag xmlDefaultLimits
        { htmlNewSAXParserCtxt htmlSinkHandler with
          input := bytes "</body>", nameTab := [bytes "body", bytes "html"],
          depth := 1 }).1.nameTab = [bytes "body", bytes "html"] ∧
      (htmlParseEndTag xmlDefaultLimits
        { htmlNewSAXParserCtxt htmlSinkHandler with
          input := bytes "</body>", nameTab := [bytes "body", bytes "html"],
          depth := 1 }).1.events = [] ∧
      (htmlParseEndTag xmlDefaultLimits
        { htmlNewSAXParserCtxt htmlSinkHandler with
          input := bytes "</body>", nameTab := [bytes "body", bytes "html"],
          depth := 1 }).1.depth = 0 ∧
      (htmlParseContentInternal xmlDefaultLimits
        { htmlNewSAXParserCtxt htmlSinkHandler with
          input := bytes "<body><body>" }).depth = 1 := by
  decide!


/-! ## What the element bookkeeping leaves alone -/

theorem elementFrame_refl (c : htmlParserCtxt) : elementFrame c c :=
  ⟨[], by simp, by simp⟩

theorem elementFrame_trans {a b c : htmlParserCtxt} (h1 : elementFrame a b)
    (h2 : elementFrame b c) : elementFrame a c := by
  obtain ⟨e1, he1, h1⟩ := h1
  obtain ⟨e2, he2, h2⟩ := h2
  refine ⟨e1 ++ e2, ?_, ?_⟩
  · intro e he
    rcases List.mem_append.mp he with h | h
    · exact he1 e h
    · exact he2 e h
  · rw [h2, h1]
    simp

theorem elementFrame_input {c c1 : htmlParserCtxt} (h : elementFrame c c1) :
    c1.input = c.input := by
  obtain ⟨e, _, h⟩ := h
  rw [h]

theorem elementFrame_sax {c c1 : htmlParserCtxt} (h : elementFrame c c1) :
    c1.sax = c.sax := by
  obtain ⟨e, _, h⟩ := h
  rw [h]

theorem elementFrame_disableSAX {c c1 : htmlParserCtxt} (h : elementFrame c c1) :
    c1.disableSAX = c.disableSAX := by
  obtain ⟨e, _, h⟩ := h
  rw [h]

theorem elementFrame_errors {c c1 : htmlParserCtxt} (h : elementFrame c c1) :
    c1.errors = c.errors := by
  obtain ⟨e, _, h⟩ := h
  rw [h]

theorem elementFrame_events {c c1 : htmlParserCtxt} (h : elementFrame c c1) :
    ∃ evs : List saxEvent, (∀ e ∈ evs, e.isElement = true) ∧ c1.events = c.events ++ evs := by
  obtain ⟨e, he, h⟩ := h
  exact ⟨e, he, by rw [h]⟩

theorem elementFrame_saxCall (c : htmlParserCtxt) (cb : htmlSAXHandler → Bool) (ev : saxEvent)
    (hev : ev.isElement = true) : elementFrame c (saxCall c cb ev) := by
  unfold saxCall
  split
  · exact elementFrame_refl c
  · split_ifs
    · exact ⟨[ev], by simpa using hev, rfl⟩
    · exact elementFrame_refl c

theorem elementFrame_htmlnamePush (c : htmlParserCtxt) (v : List Nat) :
    elementFrame c (htmlnamePush c v) := by
  refine ⟨[], by simp, ?_⟩
  unfold htmlnamePush
  simp only [List.append_nil]
  split_ifs <;> rfl

theorem elementFrame_htmlnamePop (c : htmlParserCtxt) :
    elementFrame c (htmlnamePop c).1 := by
  refine ⟨[], by simp, ?_⟩
  unfold htmlnamePop
  split <;> simp

theorem elementFrame_htmlAutoClose_loop (t : List Nat) :
    ∀ (fuel : Nat) (c : htmlParserCtxt), elementFrame c (htmlAutoClose_loop t fuel c) := by
  intro fuel
  induction fuel with
  | zero => intro c; exact elementFrame_refl c
  | succ n ih =>
    intro c
    unfold htmlAutoClose_loop
    split
    · exact elementFrame_refl c
    · split_ifs
      · exact elementFrame_trans (elementFrame_trans
          (elementFrame_saxCall c (fun h => h.endElement) (saxEvent.endElement _) rfl)
          (elementFrame_htmlnamePop _)) (ih _)
      · exact elementFrame_refl c

theorem elementFrame_htmlAutoClose (c : htmlParserCtxt) (t : Option (List Nat)) :
    elementFrame c (htmlAutoClose c t) := by
  unfold htmlAutoClose
  split
  · exact elementFrame_refl c
  · exact elementFrame_htmlAutoClose_loop _ _ _

theorem elementFrame_push_start (c : htmlParserCtxt) (v : List Nat) :
    elementFrame c (saxCall (htmlnamePush c v) (fun h => h.startElement)
      (saxEvent.startElement v [])) :=
  elementFrame_trans (elementFrame_htmlnamePush c v) (elementFrame_saxCall _ _ _ rfl)

theorem elementFrame_htmlCheckImplied (c : htmlParserCtxt) (t : List Nat) :
    elementFrame c (htmlCheckImplied c t) := by
  have h1 : elementFrame c (if c.nameNr = 0 then
        saxCall (htmlnamePush c (bytes "html")) (fun h => h.startElement)
          (saxEvent.startElement (bytes "html") [])
      else c) := by
    split_ifs
    · exact elementFrame_push_start c _
    · exact elementFrame_refl c
  unfold htmlCheckImplied
  simp only
  generalize (if c.nameNr = 0 then
        saxCall (htmlnamePush c (bytes "html")) (fun h => h.startElement)
          (saxEvent.startElement (bytes "html") [])
      else c) = c1 at h1 ⊢
  split_ifs <;>
    first
    | exact h1
    | exact elementFrame_refl c
    | exact elementFrame_trans h1 (elementFrame_push_start _ _)

theorem elementFrame_htmlCheckParagraph_insert (c : htmlParserCtxt) :
    elementFrame c (htmlCheckParagraph_insert c) := by
  unfold htmlCheckParagraph_insert
  exact elementFrame_trans (elementFrame_trans (elementFrame_htmlAutoClose c _)
    (elementFrame_htmlCheckImplied _ _)) (elementFrame_push_start _ _)

theorem elementFrame_htmlCheckParagraph (c : htmlParserCtxt) :
    elementFrame c (htmlCheckParagraph c).1 := by
  unfold htmlCheckParagraph
  split
  · exact elementFrame_htmlCheckParagraph_insert c
  · split_ifs
    · exact elementFrame_refl c
    · exact elementFrame_htmlCheckParagraph_insert c
    · exact elementFrame_refl c


/-! ## References in character data -/

theorem htmlParseName_ascii (lim : xmlLimits) (ctxt : htmlParserCtxt) (n : List Nat) (t : Nat)
    (rest : List Nat) (hn : htmlIsAsciiName n = true) (ht : htmlNameFastChar t = false)
    (ht0 : 0 < t ∧ t < 0x80) (hin : ctxt.input = n ++ t :: rest) :
    htmlParseName lim ctxt =
      ({ ctxt with input := t :: rest, col := ctxt.col + n.length }, some n) := by
  cases n with
  | nil => simp [htmlIsAsciiName] at hn
  | cons c cs =>
    simp only [htmlIsAsciiName, Bool.and_eq_true] at hn
    obtain ⟨hc, hcs⟩ := hn
    have htw : (cs ++ t :: rest).takeWhile htmlNameFastChar = cs := by
      clear hin hc
      induction cs with
      | nil => simp [List.takeWhile, ht]
      | cons x xs ih =>
        simp only [List.all_cons, Bool.and_eq_true] at hcs
        simp [List.takeWhile, hcs.1, ih hcs.2]
    have hcur : CUR ctxt = c := by simp [CUR, hin]
    have hget : ∀ xs : List Nat, (xs ++ t :: rest).getD xs.length 0 = t := by
      intro xs
      induction xs with
      | nil => rfl
      | cons x xs ih => simpa using ih
    have hdrop : ∀ xs : List Nat, (xs ++ t :: rest).drop xs.length = t :: rest := by
      intro xs
      induction xs with
      | nil => rfl
      | cons x xs ih => simp [ih]
    have htake : ∀ xs : List Nat, (xs ++ t :: rest).take xs.length = xs := by
      intro xs
      induction xs with
      | nil => rfl
      | cons x xs ih => simp [ih]
    have hnxt : NXT ctxt (1 + cs.length) = t := by
      have := hget (c :: cs)
      simpa [NXT, hin, Nat.add_comm 1] using this
    have hlen : ¬ (cs.length + 1 = (cs ++ t :: rest).length + 1) := by
      simp
    rw [Nat.add_comm 1] at hnxt
    have hd := hdrop (c :: cs)
    have hk := htake (c :: cs)
    simp only [List.length_cons, List.cons_append] at hd hk
    unfold htmlParseName
    simp only [hcur, hc, if_true, hin, List.cons_append, List.tail_cons, htw]
    simp only [hlen, if_false, hnxt, ht0, and_self, if_true, Nat.add_comm 1, hd, hk,
      List.length_cons]

theorem htmlParseReference_emit (c0 : htmlParserCtxt) (h : htmlSAXHandler) (ch : List Nat)
    (hsax : c0.sax = some h) (hch : h.characters = true) :
    (saxCall (htmlCheckParagraph c0).1 (fun h => h.characters) (saxEvent.characters ch)).input =
        c0.input ∧
      (saxCall (htmlCheckParagraph c0).1 (fun h => h.characters) (saxEvent.characters ch)).errors =
        c0.errors ∧
      (saxCall (htmlCheckParagraph c0).1 (fun h => h.characters) (saxEvent.characters ch)).sax =
        some h ∧
      ∃ evs : List saxEvent, (∀ e ∈ evs, e.isElement = true) ∧
        (saxCall (htmlCheckParagraph c0).1 (fun h => h.characters)
          (saxEvent.characters ch)).events = c0.events ++ evs ++ [saxEvent.characters ch] := by
  have hf := elementFrame_htmlCheckParagraph c0
  have hs : (htmlCheckParagraph c0).1.sax = some h := by rw [elementFrame_sax hf, hsax]
  obtain ⟨evs, hev, he⟩ := elementFrame_events hf
  simp only [saxCall, hs, hch, if_true]
  exact ⟨elementFrame_input hf, elementFrame_errors hf, trivial, evs, hev, by rw [he]⟩

theorem htmlParseReference_amp (lim : xmlLimits) (ctxt : htmlParserCtxt) (rest : List Nat) :
    htmlParseReference lim { ctxt with input := bytes "&amp;" ++ rest } =
      saxCall (htmlCheckParagraph { ctxt with input := rest, col := ctxt.col + 1 + 3 + 1 }).1
        (fun h => h.characters) (saxEvent.characters [0x26]) := by
  have hb : bytes "&amp;" = [0x26, 0x61, 0x6d, 0x70, 0x3b] := by decide
  have hE : htmlEntityLookup [0x61, 0x6d, 0x70] = some (htmlEntityDesc.mk 38 (bytes "amp")) := by
    decide!
  have hname := htmlParseName_ascii lim
    (xmlNextChar { ctxt with input := [0x26, 0x61, 0x6d, 0x70, 0x3b] ++ rest })
    [0x61, 0x6d, 0x70] 0x3b rest (by decide) (by decide) (by decide) (by simp [xmlNextChar])
  rw [hb]
  unfold htmlParseReference htmlParseEntityRef
  simp only [hname]
  simp [CUR, NXT, hE, xmlNextChar, htmlEncodeUTF8]

theorem htmlParseReference_dec (lim : xmlLimits) (ctxt : htmlParserCtxt) (rest : List Nat) :
    htmlParseReference lim { ctxt with input := bytes "&#38;" ++ rest } =
      saxCall (htmlCheckParagraph { ctxt with input := rest, col := ctxt.col + 2 + 1 + 1 + 1 }).1
        (fun h => h.characters) (saxEvent.characters [0x26]) := by
  have hb : bytes "&#38;" = [0x26, 0x23, 0x33, 0x38, 0x3b] := by decide
  rw [hb]
  unfold htmlParseReference htmlParseCharRef
  simp [CUR, NXT, SKIP, xmlNextChar, htmlEncodeUTF8, htmlParseCharRef_dec_loop, IS_CHAR,
    IS_CHAR_CH]

theorem htmlParseReference_hex (lim : xmlLimits) (ctxt : htmlParserCtxt) (rest : List Nat) :
    htmlParseReference lim { ctxt with input := bytes "&#x26;" ++ rest } =
      saxCall (htmlCheckParagraph { ctxt with input := rest, col := ctxt.col + 3 + 1 + 1 + 1 }).1
        (fun h => h.characters) (saxEvent.characters [0x26]) := by
  have hb : bytes "&#x26;" = [0x26, 0x23, 0x78, 0x32, 0x36, 0x3b] := by decide
  rw [hb]
  unfold htmlParseReference htmlParseCharRef
  simp [CUR, NXT, SKIP, xmlNextChar, htmlEncodeUTF8, htmlParseCharRef_hex_loop, IS_CHAR,
    IS_CHAR_CH]

/-- C5. In character data `htmlParseReference`, applied to an input that starts
with `&amp;`, with `&#38;` or with `&#x26;`, consumes the whole reference with
its semicolon (the input left is what followed the reference), reports no
error and appends one characters event whose text is the single byte 0x26,
preceded only by the element events of the paragraph that `htmlCheckParagraph`
may imply. -/
theorem C5_reference_ampersand (lim : xmlLimits) (ctxt : htmlParserCtxt) (h : htmlSAXHandler)
    (ref rest : List Nat) (hsax : ctxt.sax = some h) (hch : h.characters = true)
    (href : ref = bytes "&amp;" ∨ ref = bytes "&#38;" ∨ ref = bytes "&#x26;") :
    (htmlParseReference lim { ctxt with input := ref ++ rest }).input = rest ∧
      (htmlParseReference lim { ctxt with input := ref ++ rest }).errors = ctxt.errors ∧
      (∃ evs : List saxEvent, (∀ e ∈ evs, e.isElement = true) ∧
        (htmlParseReference lim { ctxt with input := ref ++ rest }).events =
          ctxt.events ++ evs ++ [saxEvent.characters [0x26]]) ∧
      charactersEvents (htmlParseReference lim { ctxt with input := ref ++ rest }).events =
        charactersEvents ctxt.events ++ [saxEvent.characters [0x26]] := by
  have key : ∀ k : Nat,
      htmlParseReference lim { ctxt with input := ref ++ rest } =
        saxCall (htmlCheckParagraph { ctxt with input := rest, col := k }).1
          (fun h => h.characters) (saxEvent.characters [0x26]) →
      (htmlParseReference lim { ctxt with input := ref ++ rest }).input = rest ∧
      (htmlParseReference lim { ctxt with input := ref ++ rest }).errors = ctxt.errors ∧
      (∃ evs : List saxEvent, (∀ e ∈ evs, e.isElement = true) ∧
        (htmlParseReference lim { ctxt with input := ref ++ rest }).events =
          ctxt.events ++ evs ++ [saxEvent.characters [0x26]]) ∧
      charactersEvents (htmlParseReference lim { ctxt with input := ref ++ rest }).events =
        charactersEvents ctxt.events ++ [saxEvent.characters [0x26]] := by
    intro k hk
    obtain ⟨h1, h2, _, evs, hev, h4⟩ :=
      htmlParseReference_emit { ctxt with input := rest, col := k } h [0x26] hsax hch
    rw [hk]
    refine ⟨h1, h2, ⟨evs, hev, h4⟩, ?_⟩
    rw [h4]
    have hnone : charactersEvents evs = [] := by
      unfold charactersEvents
      rw [List.filter_eq_nil_iff]
      intro e he
      have := hev e he
      cases e <;> simp_all [saxEvent.isElement]
    simp only [charactersEvents, List.filter_append] at hnone ⊢
    rw [hnone]
    simp
  rcases href with hr | hr | hr
  · subst hr; exact key _ (htmlParseReference_amp lim ctxt rest)
  · subst hr; exact key _ (htmlParseReference_dec lim ctxt rest)
  · subst hr; exact key _ (htmlParseReference_hex lim ctxt rest)

/-- Witness for C5: `&#x26;` followed by `<b>` inside an open `div`. -/
theorem C5_reference_ampersand_witness :
    (htmlParseReference xmlDefaultLimits
        { { htmlNewSAXParserCtxt htmlSinkHandler with
            nameTab := [bytes "div", bytes "body", bytes "html"] } with
          input := bytes "&#x26;" ++ bytes "<b>" }).input = bytes "<b>" :=
  (C5_reference_ampersand xmlDefaultLimits
    { htmlNewSAXParserCtxt htmlSinkHandler with
      nameTab := [bytes "div", bytes "body", bytes "html"] }
    htmlSinkHandler (bytes "&#x26;") (bytes "<b>") rfl rfl (Or.inr (Or.inr rfl))).1


theorem htmlEntityLookup_loop_none (n : List Nat) :
    ∀ tbl : List htmlEntityDesc, (∀ e ∈ tbl, e.name ≠ n) → htmlEntityLookup_loop n tbl = none := by
  intro tbl
  induction tbl with
  | nil => intro _; rfl
  | cons e rest ih =>
    intro h
    have h1 : n ≠ e.name := fun hx => h e (List.mem_cons_self _ _) hx.symm
    simp only [htmlEntityLookup_loop, h1, if_false]
    exact ih (fun x hx => h x (List.mem_cons_of_mem _ hx))

theorem htmlNameFastChar_ne_zero (c : Nat) (h : htmlNameFastChar c = true) : c ≠ 0 := by
  intro h0
  subst h0
  simp [htmlNameFastChar] at h

theorem cstring_ascii (n : List Nat) (hn : htmlIsAsciiName n = true) : cstring n = n := by
  cases n with
  | nil => rfl
  | cons c cs =>
    simp only [htmlIsAsciiName, Bool.and_eq_true] at hn
    obtain ⟨hc, hcs⟩ := hn
    have hc0 : c ≠ 0 := by
      intro h0
      subst h0
      simp at hc
    have key : ∀ x ∈ c :: cs, x ≠ 0 := by
      intro x hx
      rcases List.mem_cons.mp hx with h | h
      · rw [h]; exact hc0
      · exact htmlNameFastChar_ne_zero x (List.all_eq_true.mp hcs x h)
    simp only [cstring]
    rw [List.takeWhile_eq_self_iff]
    intro x hx
    simpa using key x hx

theorem htmlParseReference_unknown (lim : xmlLimits) (ctxt : htmlParserCtxt) (n rest : List Nat)
    (hn : htmlIsAsciiName n = true) (hent : htmlEntityLookup n = none)
    (hin : ctxt.input = 0x26 :: (n ++ 0x3b :: rest)) :
    htmlParseReference lim ctxt =
      saxCall (saxCall
        (htmlCheckParagraph { ctxt with input := 0x3b :: rest, col := ctxt.col + 1 + n.length }).1
        (fun h => h.characters) (saxEvent.characters [0x26]))
        (fun h => h.characters) (saxEvent.characters n) := by
  have hnext : xmlNextChar ctxt = { ctxt with input := n ++ 0x3b :: rest, col := ctxt.col + 1 } := by
    unfold xmlNextChar
    rw [hin]
    simp
  have hname := htmlParseName_ascii lim (xmlNextChar ctxt) n 0x3b rest hn (by decide) (by decide)
    (by rw [hnext])
  rw [hnext] at hname
  have hcur : CUR ctxt = 0x26 := by simp [CUR, hin]
  have hn1 : ¬ (NXT ctxt 1 = 0x23) := by
    cases n with
    | nil => simp [htmlIsAsciiName] at hn
    | cons c cs =>
      simp only [htmlIsAsciiName, Bool.and_eq_true] at hn
      intro hx
      have hx2 : c = 0x23 := by simpa [NXT, hin] using hx
      subst hx2
      simp at hn
  unfold htmlParseReference htmlParseEntityRef
  simp only [hcur, hn1, hnext, hname, hent]
  simp [CUR, cstring_ascii n hn]

theorem and_128_of_lt (c : Nat) (h : c < 128) : c &&& 128 = 0 := by
  have key : ∀ x : Fin 128, x.val &&& 128 = 0 := by decide
  exact key ⟨c, h⟩

theorem htmlCurrentChar_ascii (ctxt : htmlParserCtxt) (c : Nat) (hc : CUR ctxt = c)
    (h0 : c ≠ 0) (h1 : c < 0x80) : htmlCurrentChar ctxt = (ctxt, c, 1) := by
  have ha := and_128_of_lt c h1
  have hce : ∀ x : htmlParserCtxt, CUR x = c → htmlCurrentChar_utf8 x = (x, c, 1) := by
    intro x hx
    unfold htmlCurrentChar_utf8
    simp [hx, ha, h0]
  unfold htmlCurrentChar
  rw [hc]
  simp only [h1, h0, if_true, if_false]
  split_ifs
  · rfl
  · exact hce ctxt hc

theorem htmlCurrentChar_nil (ctxt : htmlParserCtxt) (h : ctxt.input = []) :
    htmlCurrentChar ctxt = (ctxt, 0, 0) := by
  unfold htmlCurrentChar htmlCurrentChar_utf8
  simp [CUR, h]

theorem htmlParseCharData_single (ctxt : htmlParserCtxt) (rest : List Nat)
    (hin : ctxt.input = 0x3b :: rest) (hrest : rest = [] ∨ rest.head? = some 0x3c)
    (hrun : ctxt.disableSAX = 0) :
    htmlParseCharData ctxt =
      htmlParseCharData_flush { ctxt with col := ctxt.col + 1, input := rest } [0x3b] := by
  have hcc : htmlCurrentChar ctxt = (ctxt, 0x3b, 1) :=
    htmlCurrentChar_ascii ctxt 0x3b (by simp [CUR, hin]) (by decide) (by decide)
  have hnl : NEXTL ctxt 1 = { ctxt with col := ctxt.col + 1, input := rest } := by
    simp [NEXTL, CUR, hin]
  have hstop : ∃ l : Nat, ∃ v : Nat, (v = 0 ∨ v = 0x3c) ∧
      htmlCurrentChar { ctxt with col := ctxt.col + 1, input := rest } =
        ({ ctxt with col := ctxt.col + 1, input := rest }, v, l) := by
    rcases hrest with h | h
    · subst h
      exact ⟨0, 0, Or.inl rfl, htmlCurrentChar_nil _ rfl⟩
    · cases rest with
      | nil => simp at h
      | cons x xs =>
        simp only [List.head?_cons, Option.some.injEq] at h
        subst h
        exact ⟨1, 0x3c, Or.inr rfl, htmlCurrentChar_ascii _ 0x3c rfl (by decide) (by decide)⟩
  obtain ⟨l, v, hv, hstop⟩ := hstop
  have hps : PARSER_STOPPED ctxt = false := by simp [PARSER_STOPPED, hrun]
  have hfuel : 2 * ctxt.input.length + 1 = (2 * rest.length + 1) + 1 + 1 := by
    simp [hin]
    omega
  have hic : IS_CHAR 0x3b = true := by decide
  have hbuf : COPY_BUF 1 0x3b = [0x3b] := by decide
  have hfl : decide ([0x3b].length ≥ HTML_PARSER_BIG_BUFFER_SIZE) = false := by decide
  unfold htmlParseCharData htmlParseCharDataInternal
  rw [hcc, hfuel]
  simp only [ne_eq, not_true_eq_false, if_false]
  rw [htmlParseCharDataInternal_loop]
  simp only [hps, hic, hbuf, if_true, List.nil_append, hnl, hfl, Bool.false_eq_true, if_false,
    hstop]
  rw [htmlParseCharDataInternal_loop]
  rcases hv with hv | hv <;> subst hv <;> simp


theorem charactersEvents_append (a b : List saxEvent) :
    charactersEvents (a ++ b) = charactersEvents a ++ charactersEvents b := by
  simp [charactersEvents]

theorem charactersEvents_elements (evs : List saxEvent) (h : ∀ e ∈ evs, e.isElement = true) :
    charactersEvents evs = [] := by
  unfold charactersEvents
  rw [List.filter_eq_nil_iff]
  intro e he
  have := h e he
  cases e <;> simp_all [saxEvent.isElement]

theorem charactersText_append (a b : List saxEvent) :
    charactersText (a ++ b) = charactersText a ++ charactersText b := by
  simp [charactersText]

theorem charactersText_elements (evs : List saxEvent) (h : ∀ e ∈ evs, e.isElement = true) :
    charactersText evs = [] := by
  induction evs with
  | nil => rfl
  | cons e rest ih =>
    have h1 := h e (List.mem_cons_self _ _)
    have h2 := ih (fun x hx => h x (List.mem_cons_of_mem _ hx))
    cases e <;>
      first
      | (simpa [charactersText, saxEvent.charactersText] using h2)
      | (simp [saxEvent.isElement] at h1)

/-- The flush of a buffer that holds a byte which is no blank: the paragraph
check runs and the buffer goes out as one characters event. -/
theorem htmlParseCharData_flush_text (c : htmlParserCtxt) (h : htmlSAXHandler) (buf : List Nat)
    (hsax : c.sax = some h) (hch : h.characters = true) (hen : c.disableSAX = 0)
    (hbuf : buf.any (fun b => !IS_BLANK_CH b) = true) :
    (htmlParseCharData_flush c buf).input = c.input ∧
      ∃ evs : List saxEvent, (∀ e ∈ evs, e.isElement = true) ∧
        (htmlParseCharData_flush c buf).events = c.events ++ evs ++ [saxEvent.characters buf] := by
  have hf := elementFrame_htmlCheckParagraph c
  obtain ⟨evs, hev, he⟩ := elementFrame_events hf
  have hb : areBlanks c buf = false := by
    unfold areBlanks
    simp only [hbuf, if_true]
  unfold htmlParseCharData_flush
  simp only [hsax, hen, hb, hch, if_true, Bool.false_eq_true, if_false]
  exact ⟨elementFrame_input hf, evs, hev, by rw [he]⟩

/-- C6. For every ASCII name `n` that is not a name of `html40EntitiesTable`,
the content loop reads `&n;` followed by `<` or by the end of the input in two
dispatches (`htmlParseReference`, then `htmlParseCharData` for the semicolon
left behind): both ask the loop to go on, the input left is what followed the
semicolon, and the characters events added are `&`, `n` and `;`, so that the
concatenated text added is exactly `&n;`. -/
theorem C6_unknown_entity_literal (lim : xmlLimits) (st : htmlContentState) (h : htmlSAXHandler)
    (n rest : List Nat)
    (hsax : st.ctxt.sax = some h) (hch : h.characters = true) (hen : st.ctxt.disableSAX = 0)
    (hnode : st.currentNode ≠ some (bytes "script") ∧ st.currentNode ≠ some (bytes "style"))
    (hn : htmlIsAsciiName n = true) (hent : ∀ e ∈ html40EntitiesTable, e.name ≠ n)
    (hrest : rest = [] ∨ rest.head? = some 0x3c)
    (hin : st.ctxt.input = 0x26 :: (n ++ 0x3b :: rest)) :
    (htmlParseContentInternal_dispatch lim st).2 = true ∧
      (htmlParseContentInternal_dispatch lim (htmlParseContentInternal_dispatch lim st).1).2 =
        true ∧
      (htmlParseContentInternal_dispatch lim
        (htmlParseContentInternal_dispatch lim st).1).1.ctxt.input = rest ∧
      charactersEvents (htmlParseContentInternal_dispatch lim
        (htmlParseContentInternal_dispatch lim st).1).1.ctxt.events =
          charactersEvents st.ctxt.events ++
            [saxEvent.characters [0x26], saxEvent.characters n, saxEvent.characters [0x3b]] ∧
      charactersText (htmlParseContentInternal_dispatch lim
        (htmlParseContentInternal_dispatch lim st).1).1.ctxt.events =
          charactersText st.ctxt.events ++ (0x26 :: (n ++ [0x3b])) := by
  have hlook : htmlEntityLookup n = none := htmlEntityLookup_loop_none n _ hent
  have href := htmlParseReference_unknown lim st.ctxt n rest hn hlook hin
  -- the first dispatch
  have hcur : CUR st.ctxt = 0x26 := by simp [CUR, hin]
  have hd1 : htmlParseContentInternal_dispatch lim st =
      ({ st with ctxt := htmlParseReference lim st.ctxt }, true) := by
    unfold htmlParseContentInternal_dispatch
    simp [hcur, hnode.1, hnode.2]
  -- the context after the reference
  obtain ⟨i1, _, s1, evs1, hev1, e1⟩ := htmlParseReference_emit
    { st.ctxt with input := 0x3b :: rest, col := st.ctxt.col + 1 + n.length } h [0x26] hsax hch
  have hdis1 : (saxCall (htmlCheckParagraph
      { st.ctxt with input := 0x3b :: rest, col := st.ctxt.col + 1 + n.length }).1
      (fun h => h.characters) (saxEvent.characters [0x26])).disableSAX = 0 := by
    have hf := elementFrame_htmlCheckParagraph
      { st.ctxt with input := 0x3b :: rest, col := st.ctxt.col + 1 + n.length }
    simp only [saxCall]
    split
    · rw [elementFrame_disableSAX hf]; exact hen
    · split_ifs
      · simp only; rw [elementFrame_disableSAX hf]; exact hen
      · rw [elementFrame_disableSAX hf]; exact hen
  have hc1 : (htmlParseReference lim st.ctxt).input = 0x3b :: rest ∧
      (htmlParseReference lim st.ctxt).sax = some h ∧
      (htmlParseReference lim st.ctxt).disableSAX = 0 ∧
      (htmlParseReference lim st.ctxt).events =
        st.ctxt.events ++ evs1 ++ [saxEvent.characters [0x26]] ++ [saxEvent.characters n] := by
    rw [href]
    generalize saxCall (htmlCheckParagraph
      { st.ctxt with input := 0x3b :: rest, col := st.ctxt.col + 1 + n.length }).1
      (fun h => h.characters) (saxEvent.characters [0x26]) = c at i1 s1 e1 hdis1
    simp only [saxCall, s1, hch, if_true]
    exact ⟨i1, trivial, hdis1, by rw [e1]⟩
  obtain ⟨i2, s2, d2, e2⟩ := hc1
  -- the second dispatch
  have hcur2 : CUR (htmlParseReference lim st.ctxt) = 0x3b := by simp [CUR, i2]
  have hd2 : htmlParseContentInternal_dispatch lim
      { st with ctxt := htmlParseReference lim st.ctxt } =
      ({ st with ctxt := htmlParseCharData (htmlParseReference lim st.ctxt) }, true) := by
    unfold htmlParseContentInternal_dispatch
    simp [hcur2, hnode.1, hnode.2]
  have hcd := htmlParseCharData_single (htmlParseReference lim st.ctxt) rest i2 hrest d2
  obtain ⟨i3, evs2, hev2, e3⟩ := htmlParseCharData_flush_text
    { htmlParseReference lim st.ctxt with
      col := (htmlParseReference lim st.ctxt).col + 1, input := rest } h [0x3b]
    s2 hch d2 (by decide)
  rw [hd1]
  simp only [hd2, hcd]
  refine ⟨trivial, trivial, i3, ?_, ?_⟩
  · rw [e3]
    simp only [e2, charactersEvents_append, charactersEvents_elements evs1 hev1,
      charactersEvents_elements evs2 hev2]
    simp [charactersEvents]
  · rw [e3]
    simp only [e2, charactersText_append, charactersText_elements evs1 hev1,
      charactersText_elements evs2 hev2]
    simp [charactersText, saxEvent.charactersText]

/-- Witness for C6: `&foo;<b>` read inside an open `div`. -/
theorem C6_unknown_entity_literal_witness :
    charactersText (htmlParseContentInternal_dispatch xmlDefaultLimits
        (htmlParseContentInternal_dispatch xmlDefaultLimits
          (htmlContentState.refresh
            { htmlNewSAXParserCtxt htmlSinkHandler with
              input := bytes "&foo;<b>",
              nameTab := [bytes "div", bytes "body", bytes "html"] })).1).1.ctxt.events =
      charactersText [] ++ (0x26 :: (bytes "foo" ++ [0x3b])) :=
  (C6_unknown_entity_literal xmlDefaultLimits
    (htmlContentState.refresh
      { htmlNewSAXParserCtxt htmlSinkHandler with
        input := bytes "&foo;<b>",
        nameTab := [bytes "div", bytes "body", bytes "html"] })
    htmlSinkHandler (bytes "foo") (bytes "<b>") rfl rfl rfl (by decide) (by decide)
    (by decide!) (Or.inr (by decide)) (by decide)).2.2.2.2


/-! ## Comments -/

theorem ge_128_of_and_128 (c : Nat) (h : c &&& 0x80 ≠ 0) : 128 ≤ c := by
  by_contra hlt
  exact h (and_128_of_lt c (by omega))

theorem scanFrame_input_eq {c c1 : htmlParserCtxt} (h : scanFrame c c1)
    (hi : c1.input = c.input) (hl : c1.line = c.line) (hc : c1.col = c.col) :
    c1 = { c with hasEncoding := c1.hasEncoding, encodingError := c1.encodingError,
                  encoder := c1.encoder, errors := c1.errors, errNo := c1.errNo } := by
  unfold scanFrame at h
  rw [h]
  simp [hi, hl, hc]

theorem htmlCharAt_end (inp : List Nat) (h : inp = []) : htmlCharAt inp 0 0 :=
  ⟨fun _ => rfl, fun hne => absurd h hne, fun _ hne => absurd rfl hne⟩

theorem htmlCharAt_space (inp : List Nat) (h : inp ≠ []) : htmlCharAt inp 0x20 1 :=
  ⟨fun he => absurd he h, fun _ => ⟨by decide, le_refl 1⟩, fun _ _ hne => absurd rfl hne⟩

theorem htmlCharAt_high (inp : List Nat) (v l : Nat) (hv : 128 ≤ v) (hl : 1 ≤ l)
    (h : inp ≠ []) : htmlCharAt inp v l :=
  ⟨fun he => absurd he h, fun _ => ⟨by omega, hl⟩, fun hlt => by omega⟩

theorem htmlCharAt_cur (c : htmlParserCtxt) (h : CUR c ≠ 0) : htmlCharAt c.input (CUR c) 1 := by
  cases hin : c.input with
  | nil => simp [CUR, hin] at h
  | cons b t =>
    have hb : CUR c = b := by simp [CUR, hin]
    rw [hb]
    rw [hb] at h
    exact ⟨fun he => by simp at he, fun _ => ⟨h, le_refl 1⟩, fun _ _ _ => ⟨rfl, rfl⟩⟩

theorem NEXTL_input (c : htmlParserCtxt) (l : Nat) : (NEXTL c l).input = c.input.drop l := by
  unfold NEXTL
  split_ifs <;> rfl

theorem htmlCommentWindow_shift (q r cur : Nat) (t : List Nat) (body : List Nat)
    (h : htmlCommentWindow q r ++ cur :: t <:+ body) (hcur : cur = 0x2d) :
    htmlCommentWindow r cur ++ t <:+ body := by
  subst hcur
  unfold htmlCommentWindow at h ⊢
  by_cases hr : r = 0x2d
  · subst hr
    simp only [and_self, if_true]
    by_cases hq : q = 0x2d
    · subst hq
      simp only [and_self, if_true] at h
      exact ( List.IsSuffix.trans ⟨[0x2d], rfl⟩ h)
    · simp only [hq, false_and, if_false, if_true] at h
      exact h
  · simp only [hr, false_and, and_false, if_false] at h ⊢
    simp only [and_true, hr, if_false, if_true]
    exact h


theorem ge_128_of_or (a x : Nat) (ha : a.testBit 7 = true) : 128 ≤ x ||| a := by
  have h : (x ||| a).testBit 7 = true := by
    rw [Nat.testBit_or, ha]
    simp
  exact Nat.testBit_implies_ge h

theorem isolat1ToUTF8_cons (b : Nat) (t : List Nat) :
    isolat1ToUTF8 (b :: t) =
      (if b < 0x80 then [b] else [(b >>> 6) ||| 0xC0, (b &&& 0x3F) ||| 0x80]) ++
        isolat1ToUTF8 t := by
  simp [isolat1ToUTF8]

theorem isolat1ToUTF8_append (a b : List Nat) :
    isolat1ToUTF8 (a ++ b) = isolat1ToUTF8 a ++ isolat1ToUTF8 b := by
  simp [isolat1ToUTF8]

theorem isolat1ToUTF8_length (x : List Nat) : (isolat1ToUTF8 x).length ≤ 2 * x.length := by
  induction x with
  | nil => simp [isolat1ToUTF8]
  | cons b t ih =>
    rw [isolat1ToUTF8_cons, List.length_append, List.length_cons]
    split_ifs <;> simp <;> omega

theorem isolat1ToUTF8_eq_nil (x : List Nat) : isolat1ToUTF8 x = [] ↔ x = [] := by
  cases x with
  | nil => simp [isolat1ToUTF8]
  | cons b t =>
    rw [isolat1ToUTF8_cons]
    split_ifs <;> simp

theorem isolat1ToUTF8_ascii (w : List Nat) (hw : ∀ b ∈ w, b < 0x80) : isolat1ToUTF8 w = w := by
  induction w with
  | nil => rfl
  | cons b t ih =>
    rw [isolat1ToUTF8_cons, if_pos (hw b (List.mem_cons_self _ _)),
      ih (fun x hx => hw x (List.mem_cons_of_mem _ hx))]
    rfl

theorem isolat1ToUTF8_initial (p : List Nat) (hp : ∀ b ∈ p, b < 0x80) :
    ∀ z : List Nat, p <+: isolat1ToUTF8 z → p <+: z := by
  induction p with
  | nil => intro z _; exact List.nil_prefix
  | cons a p ih =>
    intro z h
    have ha : a < 0x80 := hp a (List.mem_cons_self _ _)
    cases z with
    | nil => simp [isolat1ToUTF8] at h
    | cons b y =>
      rw [isolat1ToUTF8_cons] at h
      by_cases hb : b < 0x80
      · rw [if_pos hb, List.singleton_append, List.cons_prefix_cons] at h
        exact List.cons_prefix_cons.mpr
          ⟨h.1, ih (fun x hx => hp x (List.mem_cons_of_mem _ hx)) y h.2⟩
      · rw [if_neg hb, List.cons_append, List.cons_prefix_cons] at h
        have := ge_128_of_or 0xc0 (b >>> 6) (by decide)
        omega

theorem isolat1ToUTF8_inner (p : List Nat) (hp : ∀ b ∈ p, b < 0x80) :
    ∀ z : List Nat, p <:+: isolat1ToUTF8 z → p <:+: z := by
  intro z
  induction z with
  | nil =>
    intro h
    simpa [isolat1ToUTF8] using h
  | cons b y ih =>
    intro h
    cases p with
    | nil => exact List.nil_infix
    | cons a p1 =>
      have ha : a < 0x80 := hp a (List.mem_cons_self _ _)
      by_cases hb : b < 0x80
      · have e : isolat1ToUTF8 (b :: y) = b :: isolat1ToUTF8 y := by
          rw [isolat1ToUTF8_cons, if_pos hb]
          rfl
        rw [e, List.infix_cons_iff] at h
        rcases h with h | h
        · rw [← e] at h
          exact (isolat1ToUTF8_initial (a :: p1) hp (b :: y) h).isInfix
        · exact List.infix_cons (ih h)
      · have e : isolat1ToUTF8 (b :: y) =
            ((b >>> 6) ||| 0xC0) :: ((b &&& 0x3F) ||| 0x80) :: isolat1ToUTF8 y := by
          rw [isolat1ToUTF8_cons, if_neg hb]
          rfl
        rw [e, List.infix_cons_iff] at h
        rcases h with h | h
        · rw [List.cons_prefix_cons] at h
          have := ge_128_of_or 0xc0 (b >>> 6) (by decide)
          omega
        · rw [List.infix_cons_iff] at h
          rcases h with h | h
          · rw [List.cons_prefix_cons] at h
            have := ge_128_of_or 0x80 (b &&& 0x3f) (by decide)
            omega
          · exact List.infix_cons (ih h)

/-- What the scanner holds after a step keeps a pattern of ASCII bytes out:
when the pattern does not occur in `s`, and `w ++ t` is a suffix of `s` for a
window `w` of ASCII bytes, then it does not occur in `w ++ x` either, for `x`
the bytes `t` themselves or their conversion. -/
theorem htmlScan_no_inner (p w : List Nat) (hp : ∀ b ∈ p, b < 0x80)
    (hw : ∀ b ∈ w, b < 0x80) (s t x : List Nat) (hs : w ++ t <:+ s) (hno : ¬ (p <:+: s))
    (hx : x = t ∨ x = isolat1ToUTF8 t) : ¬ (p <:+: w ++ x) := by
  intro h
  apply hno
  have h2 : p <:+: w ++ t := by
    rcases hx with hx | hx
    · rw [hx] at h
      exact h
    · rw [hx] at h
      have e : w ++ isolat1ToUTF8 t = isolat1ToUTF8 (w ++ t) := by
        rw [isolat1ToUTF8_append, isolat1ToUTF8_ascii w hw]
      rw [e] at h
      exact isolat1ToUTF8_inner p hp _ h
  exact List.IsInfix.trans h2 hs.isInfix

theorem htmlScan_initial (p : List Nat) (hp : ∀ b ∈ p, b < 0x80) (t x : List Nat)
    (hx : x = t ∨ x = isolat1ToUTF8 t) (h : p <+: x) : p <+: t := by
  rcases hx with hx | hx
  · rw [hx] at h
    exact h
  · rw [hx] at h
    exact isolat1ToUTF8_initial p hp t h

theorem htmlInputBound_le (c : htmlParserCtxt) : c.input.length ≤ htmlInputBound c := by
  unfold htmlInputBound
  split_ifs <;> omega

theorem htmlInputBound_le_twice (c : htmlParserCtxt) : htmlInputBound c ≤ 2 * c.input.length := by
  unfold htmlInputBound
  split_ifs <;> omega

theorem htmlInputBound_congr {c c1 : htmlParserCtxt} (hi : c1.input = c.input)
    (he : c1.hasEncoding = c.hasEncoding) : htmlInputBound c1 = htmlInputBound c := by
  unfold htmlInputBound
  rw [hi, he]

theorem htmlInputBound_NEXTL (c : htmlParserCtxt) (l : Nat) (hne : c.input ≠ []) (hl : 1 ≤ l) :
    htmlInputBound (NEXTL c l) + 1 ≤ htmlInputBound c := by
  have hi : (NEXTL c l).input = c.input.drop l := NEXTL_input c l
  have he : (NEXTL c l).hasEncoding = c.hasEncoding := by
    unfold NEXTL
    split_ifs <;> rfl
  have hpos : 0 < c.input.length := List.length_pos.mpr hne
  unfold htmlInputBound
  rw [hi, he, List.length_drop]
  split_ifs <;> omega

theorem htmlCurrentChar_encoding_error_spec (c : htmlParserCtxt)
    (henc : c.hasEncoding = true) :
    scanFrame c (htmlCurrentChar_encoding_error c).1 ∧
      (htmlCurrentChar_encoding_error c).1.input = c.input ∧
      (htmlCurrentChar_encoding_error c).1.hasEncoding = true ∧
      (htmlCurrentChar_encoding_error c).2.1 = CUR c ∧
      (htmlCurrentChar_encoding_error c).2.2 = 1 := by
  simp [htmlCurrentChar_encoding_error, htmlEncodingError, henc, scanFrame, CUR]

theorem htmlCurrentChar_utf8_spec (c : htmlParserCtxt) (henc : c.hasEncoding = true) :
    scanFrame c (htmlCurrentChar_utf8 c).1 ∧ (htmlCurrentChar_utf8 c).1.input = c.input ∧
      (htmlCurrentChar_utf8 c).1.hasEncoding = true ∧
      htmlCharAt c.input (htmlCurrentChar_utf8 c).2.1 (htmlCurrentChar_utf8 c).2.2 := by
  have herr : 128 ≤ CUR c → c.input ≠ [] →
      scanFrame c (htmlCurrentChar_encoding_error c).1 ∧
      (htmlCurrentChar_encoding_error c).1.input = c.input ∧
      (htmlCurrentChar_encoding_error c).1.hasEncoding = true ∧
      htmlCharAt c.input (htmlCurrentChar_encoding_error c).2.1
        (htmlCurrentChar_encoding_error c).2.2 := by
    intro h128 hne
    obtain ⟨h1, h2, h5, h3, h4⟩ := htmlCurrentChar_encoding_error_spec c henc
    refine ⟨h1, h2, h5, ?_⟩
    rw [h3, h4]
    exact htmlCharAt_high _ _ _ h128 (le_refl 1) hne
  unfold htmlCurrentChar_utf8
  by_cases h80 : CUR c &&& 0x80 ≠ 0
  · have h128 := ge_128_of_and_128 _ h80
    have hne : c.input ≠ [] := by
      intro h
      simp [CUR, h] at h128
    have herr := herr h128 hne
    simp only [h80, if_true]
    split_ifs <;>
      first
      | exact herr
      | exact ⟨scanFrame_htmlParseErrInt _ _ _ _, rfl, henc,
          htmlCharAt_high _ _ _ (by dsimp only; omega) (by dsimp only; omega) hne⟩
      | exact ⟨scanFrame_refl _, rfl, henc,
          htmlCharAt_high _ _ _ (by dsimp only; omega) (by dsimp only; omega) hne⟩
  · simp only [h80, if_false]
    split_ifs with h0 hne
    · exact ⟨scanFrame_htmlParseErrInt _ _ _ _, rfl, henc, htmlCharAt_space _ hne⟩
    · exact ⟨scanFrame_refl _, rfl, henc, htmlCharAt_end _ (by simpa using hne)⟩
    · exact ⟨scanFrame_refl _, rfl, henc, htmlCharAt_cur c h0⟩

/-- The switch of `htmlCurrentChar` touches the input flags and, when it falls
back to ISO-8859-1, converts the buffered bytes. -/
theorem htmlCurrentChar_switch_spec (c : htmlParserCtxt) :
    scanFrame c (htmlCurrentChar_switch c) ∧ (htmlCurrentChar_switch c).hasEncoding = true ∧
      ((htmlCurrentChar_switch c).input = c.input ∨
        (htmlCurrentChar_switch c).input = isolat1ToUTF8 c.input) := by
  unfold htmlCurrentChar_switch
  cases htmlFindEncoding c with
  | none => exact ⟨rfl, rfl, Or.inr rfl⟩
  | some g => exact ⟨rfl, rfl, Or.inl rfl⟩

/-- What `htmlCurrentChar` does to the scanner: the input stays, or is
converted by the fallback; the bound on the bytes to read does not grow; and the
character returned is the one at the cursor. -/
theorem htmlCurrentChar_spec (c : htmlParserCtxt) :
    scanFrame c (htmlCurrentChar c).1 ∧
      ((htmlCurrentChar c).1.input = c.input ∨
        (htmlCurrentChar c).1.input = isolat1ToUTF8 c.input) ∧
      htmlInputBound (htmlCurrentChar c).1 ≤ htmlInputBound c ∧
      htmlCharAt (htmlCurrentChar c).1.input (htmlCurrentChar c).2.1
        (htmlCurrentChar c).2.2 := by
  unfold htmlCurrentChar
  split_ifs with h1 h2 h3 h4
  · exact ⟨scanFrame_htmlParseErrInt _ _ _ _, Or.inl rfl, le_refl _, htmlCharAt_space _ h4⟩
  · exact ⟨scanFrame_refl _, Or.inl rfl, le_refl _, htmlCharAt_end _ (by simpa using h4)⟩
  · exact ⟨scanFrame_refl _, Or.inl rfl, le_refl _, htmlCharAt_cur c h3⟩
  · obtain ⟨s1, s2, s3⟩ := htmlCurrentChar_switch_spec c
    obtain ⟨u1, u2, u3, u4⟩ := htmlCurrentChar_utf8_spec (htmlCurrentChar_switch c) s2
    refine ⟨scanFrame_trans s1 u1, ?_, ?_, ?_⟩
    · rw [u2]
      exact s3
    · have hb : htmlInputBound c = 2 * c.input.length := by
        unfold htmlInputBound
        rw [h1]
        rfl
      have hr : htmlInputBound (htmlCurrentChar_utf8 (htmlCurrentChar_switch c)).1 =
          (htmlCurrentChar_switch c).input.length := by
        unfold htmlInputBound
        rw [u3, u2]
        rfl
      rw [hb, hr]
      rcases s3 with s3 | s3
      · rw [s3]
        omega
      · rw [s3]
        exact isolat1ToUTF8_length _
    · rw [u2]
      exact u4
  · have henc : c.hasEncoding = true := by simpa using h1
    obtain ⟨u1, u2, u3, u4⟩ := htmlCurrentChar_utf8_spec c henc
    refine ⟨u1, Or.inl u2, ?_, ?_⟩
    · rw [htmlInputBound_congr u2 (by rw [u3, henc])]
    · rw [u2]
      exact u4

theorem htmlCommentWindow_ascii (q r : Nat) : ∀ b ∈ htmlCommentWindow q r, b < 0x80 := by
  unfold htmlCommentWindow
  split_ifs <;> simp

/-- One read of the comment loop, made at a character `cur` other than the
end of the input, with neither `-->` nor `--!>` in the hyphens of the window
and the bytes ahead: the cursor moves over `cur`, the next character is
decoded, the terminators stay out, and the bound on the bytes to read goes
down. The two tests of the loop for the end of the comment fail. -/
theorem htmlParseComment_advance (c : htmlParserCtxt) (q r cur l : Nat)
    (hat : htmlCharAt c.input cur l) (hc0 : cur ≠ 0)
    (h1 : ¬ (bytes "-->" <:+: htmlCommentWindow q r ++ c.input))
    (h2 : ¬ (bytes "--!>" <:+: htmlCommentWindow q r ++ c.input)) :
    scanFrame c (htmlCurrentChar (NEXTL c l)).1 ∧
      htmlCharAt (htmlCurrentChar (NEXTL c l)).1.input (htmlCurrentChar (NEXTL c l)).2.1
        (htmlCurrentChar (NEXTL c l)).2.2 ∧
      ¬ (bytes "-->" <:+: htmlCommentWindow r cur ++ (htmlCurrentChar (NEXTL c l)).1.input) ∧
      ¬ (bytes "--!>" <:+: htmlCommentWindow r cur ++ (htmlCurrentChar (NEXTL c l)).1.input) ∧
      htmlInputBound (htmlCurrentChar (NEXTL c l)).1 + 1 ≤ htmlInputBound c ∧
      ¬ (cur = 0x3e ∧ r = 0x2d ∧ q = 0x2d) ∧
      ¬ (q = 0x2d ∧ r = 0x2d ∧ cur = 0x21 ∧ (htmlCurrentChar (NEXTL c l)).2.1 = 0x3e) := by
  have hb1 : bytes "-->" = [0x2d, 0x2d, 0x3e] := by decide
  have hb2 : bytes "--!>" = [0x2d, 0x2d, 0x21, 0x3e] := by decide
  have hp1 : ∀ b ∈ bytes "-->", b < 0x80 := by decide
  have hp2 : ∀ b ∈ bytes "--!>", b < 0x80 := by decide
  have hne : c.input ≠ [] := fun h => hc0 (hat.1 h)
  obtain ⟨_, hl1⟩ := hat.2.1 hne
  obtain ⟨f1, i1, b1, a1⟩ := htmlCurrentChar_spec (NEXTL c l)
  rw [NEXTL_input] at i1
  have hbound := htmlInputBound_NEXTL c l hne hl1
  generalize htmlCurrentChar (NEXTL c l) = nx at f1 i1 b1 a1
  have hsuf : htmlCommentWindow r cur ++ c.input.drop l <:+ htmlCommentWindow q r ++ c.input := by
    by_cases hcd : cur = 0x2d
    · obtain ⟨hh, hl⟩ := hat.2.2 (by omega) (by omega) (by omega)
      cases hin : c.input with
      | nil => exact absurd hin hne
      | cons b t =>
        rw [hin] at hh
        simp only [List.head?_cons, Option.some.injEq] at hh
        subst hl
        simp only [List.drop_succ_cons, List.drop_zero]
        rw [hh]
        exact htmlCommentWindow_shift q r cur t _ (List.suffix_refl _) hcd
    · have hw : htmlCommentWindow r cur = [] := by
        simp [htmlCommentWindow, hcd]
      rw [hw, List.nil_append]
      exact ( List.IsSuffix.trans (List.drop_suffix l c.input) (List.suffix_append _ _))
  refine ⟨scanFrame_trans (scanFrame_NEXTL c l) f1, a1,
    htmlScan_no_inner _ _ hp1 (htmlCommentWindow_ascii r cur) _ _ _ hsuf h1 i1,
    htmlScan_no_inner _ _ hp2 (htmlCommentWindow_ascii r cur) _ _ _ hsuf h2 i1,
    by omega, ?_, ?_⟩
  · rintro ⟨hc, hr, hq⟩
    have hh := (hat.2.2 (by omega) (by omega) (by omega)).1
    cases hin : c.input with
    | nil => exact hne hin
    | cons b t =>
      rw [hin] at hh h1
      simp only [List.head?_cons, Option.some.injEq] at hh
      subst hh hr hq
      rw [hc, hb1] at h1
      simp only [htmlCommentWindow, and_self, if_true] at h1
      exact h1 ⟨[], t, by simp⟩
  · rintro ⟨hq, hr, hc, hnx⟩
    obtain ⟨hh, hl⟩ := hat.2.2 (by omega) (by omega) (by omega)
    cases hin : c.input with
    | nil => exact hne hin
    | cons b t =>
      rw [hin] at hh h2 i1
      simp only [List.head?_cons, Option.some.injEq] at hh
      subst hl
      simp only [List.drop_succ_cons, List.drop_zero] at i1
      subst hq hr
      rw [hh, hc] at h2
      simp only [htmlCommentWindow, and_self, if_true] at h2
      have hno := htmlScan_no_inner (bytes "--!>") [0x2d, 0x2d, 0x21] hp2 (by decide)
        ([0x2d, 0x2d] ++ 0x21 :: t) t nx.1.input (by simp) h2 i1
      have hh2 := (a1.2.2 (by omega) (by omega) (by omega)).1
      cases hx : nx.1.input with
      | nil => rw [hx] at hh2; simp at hh2
      | cons b2 t2 =>
        rw [hx] at hh2 hno
        simp only [List.head?_cons, Option.some.injEq] at hh2
        rw [hh2, hnx, hb2] at hno
        exact hno ⟨[], t2, by simp⟩

theorem htmlParseComment_loop_unfinished (maxLength : Nat) (state : xmlParserInputState) :
    ∀ (fuel : Nat) (ctxt : htmlParserCtxt) (buf : List Nat) (q ql r rl cur l : Nat),
      htmlCharAt ctxt.input cur l →
      ¬ (bytes "-->" <:+: htmlCommentWindow q r ++ ctxt.input) →
      ¬ (bytes "--!>" <:+: htmlCommentWindow q r ++ ctxt.input) →
      htmlInputBound ctxt < fuel →
      (htmlParseComment_loop maxLength state fuel ctxt buf q ql r rl cur l).events =
          ctxt.events ∧
        ∃ e, (htmlParseComment_loop maxLength state fuel ctxt buf q ql r rl cur l).errors.getLast? =
            some e ∧ e.code = xmlParserErrors.XML_ERR_COMMENT_NOT_FINISHED := by
  intro fuel
  induction fuel with
  | zero => intro ctxt buf q ql r rl cur l _ _ _ hf; omega
  | succ n ih =>
    intro ctxt buf q ql r rl cur l hat h1 h2 hf
    rw [htmlParseComment_loop]
    by_cases hc0 : cur = 0
    · subst hc0
      simp [htmlParseComment_finished, htmlParseComment_unfinished, htmlParseErr]
    · obtain ⟨f1, a1, w1, w2, hb, hend, hbang⟩ :=
        htmlParseComment_advance ctxt q r cur l hat hc0 h1 h2
      generalize htmlCurrentChar (NEXTL ctxt l) = nx at f1 a1 w1 w2 hb hend hbang
      have hcond : cur ≠ 0 ∧ (cur ≠ 0x3e ∨ r ≠ 0x2d ∨ q ≠ 0x2d) := by
        refine ⟨hc0, ?_⟩
        by_contra hx
        push_neg at hx
        exact hend hx
      rw [if_pos hcond]
      dsimp only
      rw [if_neg hbang]
      have key : ∀ (c2 : htmlParserCtxt) (buf1 : List Nat), scanFrame ctxt c2 →
          c2.input = nx.1.input → c2.hasEncoding = nx.1.hasEncoding →
          (if buf1.length > maxLength then
              { htmlParseErr c2 xmlParserErrors.XML_ERR_COMMENT_NOT_FINISHED
                  "comment too long" none none with instate := state }
            else htmlParseComment_loop maxLength state n c2 buf1 r rl cur l
              nx.2.1 nx.2.2).events = ctxt.events ∧
          ∃ e, (if buf1.length > maxLength then
              { htmlParseErr c2 xmlParserErrors.XML_ERR_COMMENT_NOT_FINISHED
                  "comment too long" none none with instate := state }
            else htmlParseComment_loop maxLength state n c2 buf1 r rl cur l
              nx.2.1 nx.2.2).errors.getLast? = some e ∧
            e.code = xmlParserErrors.XML_ERR_COMMENT_NOT_FINISHED := by
        intro c2 buf1 hf2 hi2 he2
        split_ifs
        · refine ⟨?_, ?_⟩
          · show c2.events = ctxt.events
            exact scanFrame_events hf2
          · simp [htmlParseErr]
        · have hbd : htmlInputBound c2 < n := by
            rw [htmlInputBound_congr hi2 he2]
            omega
          have := ih c2 buf1 r rl cur l nx.2.1 nx.2.2 (by rw [hi2]; exact a1)
            (by rw [hi2]; exact w1) (by rw [hi2]; exact w2) hbd
          rw [scanFrame_events hf2] at this
          exact this
      by_cases hq : IS_CHAR q = true
      · simp only [hq, if_true]
        exact key nx.1 _ f1 rfl rfl
      · simp only [hq, if_false]
        exact key _ _ (scanFrame_trans f1 (scanFrame_htmlParseErrInt _ _ _ _)) rfl rfl

/-- C8. For every input that starts with `<!--` and runs to the end of the
input with neither `-->` nor `--!>` after the opener, and whose body starts
neither with `>` nor with `->`, `htmlParseComment` emits no event at all and
the last error it reports has the code XML_ERR_COMMENT_NOT_FINISHED. -/
theorem C8_unterminated_comment (lim : xmlLimits) (ctxt : htmlParserCtxt) (body : List Nat)
    (hin : ctxt.input = bytes "<!--" ++ body)
    (h1 : ¬ (bytes "-->" <:+: body)) (h2 : ¬ (bytes "--!>" <:+: body))
    (h3 : ¬ (bytes ">" <+: body)) (h4 : ¬ (bytes "->" <+: body)) :
    (htmlParseComment lim ctxt).events = ctxt.events ∧
      ∃ e, (htmlParseComment lim ctxt).errors.getLast? = some e ∧
        e.code = xmlParserErrors.XML_ERR_COMMENT_NOT_FINISHED := by
  have hb0 : bytes "<!--" = [0x3c, 0x21, 0x2d, 0x2d] := by decide
  have hb3 : bytes ">" = [0x3e] := by decide
  have hb4 : bytes "->" = [0x2d, 0x3e] := by decide
  have hp1 : ∀ b ∈ bytes "-->", b < 0x80 := by decide
  have hp2 : ∀ b ∈ bytes "--!>", b < 0x80 := by decide
  rw [hb0] at hin
  rw [hb3] at h3
  rw [hb4] at h4
  have hopen : ¬ (CUR ctxt ≠ 0x3c ∨ NXT ctxt 1 ≠ 0x21 ∨ NXT ctxt 2 ≠ 0x2d ∨ NXT ctxt 3 ≠ 0x2d) := by
    simp [CUR, NXT, hin]
  unfold htmlParseComment
  simp only [hopen, if_false]
  -- the context after the opener
  generalize hc0 : SKIP { ctxt with instate := xmlParserInputState.XML_PARSER_COMMENT } 4 = c0
  have hi0 : c0.input = body := by rw [← hc0]; simp [SKIP, hin]
  have he0 : c0.events = ctxt.events := by rw [← hc0]; rfl
  have hbd0 : htmlInputBound c0 + 8 ≤ 2 * ctxt.input.length := by
    have := htmlInputBound_le_twice c0
    rw [hi0] at this
    have hl : ctxt.input.length = body.length + 4 := by
      rw [hin]
      rfl
    omega
  obtain ⟨fq, iq, bq, aq⟩ := htmlCurrentChar_spec c0
  generalize htmlCurrentChar c0 = rq at fq iq bq aq
  rw [hi0] at iq
  have wq1 : ¬ (bytes "-->" <:+: htmlCommentWindow 0 0 ++ rq.1.input) :=
    htmlScan_no_inner _ _ hp1 (htmlCommentWindow_ascii 0 0) body body _ (List.suffix_refl _) h1 iq
  have wq2 : ¬ (bytes "--!>" <:+: htmlCommentWindow 0 0 ++ rq.1.input) :=
    htmlScan_no_inner _ _ hp2 (htmlCommentWindow_ascii 0 0) body body _ (List.suffix_refl _) h2 iq
  by_cases hq0 : rq.2.1 = 0
  · simp only [hq0, if_true]
    refine ⟨?_, ?_⟩
    · show rq.1.events = ctxt.events
      rw [scanFrame_events fq, he0]
    · simp [htmlParseComment_unfinished, htmlParseErr]
  · simp only [hq0, if_false]
    have hne : rq.1.input ≠ [] := fun h => hq0 (aq.1 h)
    by_cases hqgt : rq.2.1 = 0x3e
    · exfalso
      have hh := (aq.2.2 (by omega) (by omega) (by omega)).1
      cases hbd : rq.1.input with
      | nil => exact hne hbd
      | cons b t =>
        rw [hbd] at hh iq
        simp only [List.head?_cons, Option.some.injEq] at hh
        rw [hqgt] at hh
        exact h3 (htmlScan_initial [0x3e] (by decide) body (b :: t) iq ⟨t, by rw [hh]; rfl⟩)
    · simp only [hqgt, if_false]
      obtain ⟨fr, ar, wr1, wr2, br, _, _⟩ :=
        htmlParseComment_advance rq.1 0 0 rq.2.1 rq.2.2 aq hq0 wq1 wq2
      have ir := (htmlCurrentChar_spec (NEXTL rq.1 rq.2.2)).2.1
      rw [NEXTL_input] at ir
      generalize htmlCurrentChar (NEXTL rq.1 rq.2.2) = rr at fr ar wr1 wr2 br ir
      by_cases hr0 : rr.2.1 = 0
      · simp only [hr0, if_true]
        refine ⟨?_, ?_⟩
        · show rr.1.events = ctxt.events
          rw [scanFrame_events fr, scanFrame_events fq, he0]
        · simp [htmlParseComment_unfinished, htmlParseErr]
      · simp only [hr0, if_false]
        by_cases habr : rq.2.1 = 0x2d ∧ rr.2.1 = 0x3e
        · exfalso
          obtain ⟨hq, hr⟩ := habr
          obtain ⟨hh, hl⟩ := aq.2.2 (by omega) (by omega) (by omega)
          have hne2 : rr.1.input ≠ [] := fun h => hr0 (ar.1 h)
          have hh2 := (ar.2.2 (by omega) (by omega) (by omega)).1
          cases hbd : rq.1.input with
          | nil => exact hne hbd
          | cons b t =>
            rw [hbd, hl] at ir
            rw [hbd] at hh iq
            simp only [List.head?_cons, Option.some.injEq] at hh
            simp only [List.drop_succ_cons, List.drop_zero] at ir
            cases ht : rr.1.input with
            | nil => exact hne2 ht
            | cons b2 t2 =>
              rw [ht] at hh2 ir
              simp only [List.head?_cons, Option.some.injEq] at hh2
              have p1 : [0x3e] <+: t :=
                htmlScan_initial [0x3e] (by decide) t (b2 :: t2) ir
                  ⟨t2, by rw [hh2, hr]; rfl⟩
              have p2 : [0x2d, 0x3e] <+: b :: t := by
                rw [hh, hq]
                exact List.cons_prefix_cons.mpr ⟨rfl, p1⟩
              exact h4 (htmlScan_initial [0x2d, 0x3e] (by decide) body (b :: t) iq p2)
        · simp only [habr, if_false]
          obtain ⟨fc, ac, wc1, wc2, bc, _, _⟩ :=
            htmlParseComment_advance rr.1 0 rq.2.1 rr.2.1 rr.2.2 ar hr0 wr1 wr2
          generalize htmlCurrentChar (NEXTL rr.1 rr.2.2) = rc at fc ac wc1 wc2 bc
          have hfuel : htmlInputBound rc.1 < 2 * ctxt.input.length + 1 := by omega
          have := htmlParseComment_loop_unfinished
            (if ctxt.huge then lim.XML_MAX_HUGE_LENGTH else lim.XML_MAX_TEXT_LENGTH)
            ctxt.instate (2 * ctxt.input.length + 1) rc.1 [] rq.2.1 rq.2.2 rr.2.1 rr.2.2
            rc.2.1 rc.2.2 ac wc1 wc2 hfuel
          rw [scanFrame_events fc, scanFrame_events fr, scanFrame_events fq, he0] at this
          exact this

/-- Witness for C8: `<!--x` at the end of the input. -/
theorem C8_unterminated_comment_witness :
    (htmlParseComment xmlDefaultLimits
      { htmlNewSAXParserCtxt htmlSinkHandler with input := bytes "<!--x" }).events = [] :=
  (C8_unterminated_comment xmlDefaultLimits
    { htmlNewSAXParserCtxt htmlSinkHandler with input := bytes "<!--x" } (bytes "x")
    (by decide) (by decide) (by decide) (by decide) (by decide)).1


/-! ## Decoding what `xmlCopyChar` wrote -/

theorem utf8_cont_byte (x : Nat) :
    ((x &&& 0x3F) ||| 0x80) &&& 0xc0 = 0x80 ∧ ((x &&& 0x3F) ||| 0x80) &&& 0x3f = x % 64 := by
  have hm : x &&& 0x3F = x % 64 := Nat.and_pow_two_sub_one_eq_mod x 6
  have key : ∀ m : Fin 64, (m.val ||| 0x80) &&& 0xc0 = 0x80 ∧ (m.val ||| 0x80) &&& 0x3f = m.val := by
    decide
  rw [hm]
  exact key ⟨x % 64, Nat.mod_lt _ (by decide)⟩

theorem utf8_lead2 (a : Nat) (h : a < 32) :
    (a ||| 0xC0) &&& 0x80 ≠ 0 ∧ (a ||| 0xC0) &&& 0x40 ≠ 0 ∧ (a ||| 0xC0) &&& 0xe0 ≠ 0xe0 ∧
      (a ||| 0xC0) &&& 0x1f = a := by
  have key : ∀ m : Fin 32, (m.val ||| 0xC0) &&& 0x80 ≠ 0 ∧ (m.val ||| 0xC0) &&& 0x40 ≠ 0 ∧
      (m.val ||| 0xC0) &&& 0xe0 ≠ 0xe0 ∧ (m.val ||| 0xC0) &&& 0x1f = m.val := by
    decide
  exact key ⟨a, h⟩

theorem utf8_lead3 (a : Nat) (h : a < 16) :
    (a ||| 0xE0) &&& 0x80 ≠ 0 ∧ (a ||| 0xE0) &&& 0x40 ≠ 0 ∧ (a ||| 0xE0) &&& 0xe0 = 0xe0 ∧
      (a ||| 0xE0) &&& 0xf0 ≠ 0xf0 ∧ (a ||| 0xE0) &&& 0xf = a := by
  have key : ∀ m : Fin 16, (m.val ||| 0xE0) &&& 0x80 ≠ 0 ∧ (m.val ||| 0xE0) &&& 0x40 ≠ 0 ∧
      (m.val ||| 0xE0) &&& 0xe0 = 0xe0 ∧ (m.val ||| 0xE0) &&& 0xf0 ≠ 0xf0 ∧
      (m.val ||| 0xE0) &&& 0xf = m.val := by
    decide
  exact key ⟨a, h⟩

theorem utf8_lead4 (a : Nat) (h : a < 8) :
    (a ||| 0xF0) &&& 0x80 ≠ 0 ∧ (a ||| 0xF0) &&& 0x40 ≠ 0 ∧ (a ||| 0xF0) &&& 0xe0 = 0xe0 ∧
      (a ||| 0xF0) &&& 0xf0 = 0xf0 ∧ (a ||| 0xF0) &&& 0xf8 = 0xf0 ∧ (a ||| 0xF0) &&& 0x7 = a := by
  have key : ∀ m : Fin 8, (m.val ||| 0xF0) &&& 0x80 ≠ 0 ∧ (m.val ||| 0xF0) &&& 0x40 ≠ 0 ∧
      (m.val ||| 0xF0) &&& 0xe0 = 0xe0 ∧ (m.val ||| 0xF0) &&& 0xf0 = 0xf0 ∧
      (m.val ||| 0xF0) &&& 0xf8 = 0xf0 ∧ (m.val ||| 0xF0) &&& 0x7 = m.val := by
    decide
  exact key ⟨a, h⟩

theorem utf8_join (x m : Nat) (i : Nat) (h : m < 2 ^ i) : (x <<< i) ||| m = x * 2 ^ i + m := by
  rw [Nat.shiftLeft_eq, Nat.mul_comm x, ← Nat.mul_add_lt_is_or h]

theorem htmlCurrentChar_utf8_two (c : htmlParserCtxt) (v : Nat) (tail : List Nat)
    (hv : IS_CHAR v = true) (h1 : 0x80 ≤ v) (h2 : v < 0x800)
    (hin : c.input = xmlCopyChar v ++ tail) : htmlCurrentChar_utf8 c = (c, v, 2) := by
  have hx : xmlCopyChar v = [(v >>> 6) ||| 0xC0, (v &&& 0x3F) ||| 0x80] := by
    unfold xmlCopyChar
    simp only [show ¬ v < 0x80 by omega, h2, if_true, if_false]
  rw [hx] at hin
  have ha : v >>> 6 < 32 := by rw [Nat.shiftRight_eq_div_pow]; omega
  obtain ⟨l1, l2, l3, l4⟩ := utf8_lead2 _ ha
  obtain ⟨k1, k2⟩ := utf8_cont_byte v
  have hcur : CUR c = (v >>> 6) ||| 0xC0 := by simp [CUR, hin]
  have hn1 : NXT c 1 = (v &&& 0x3F) ||| 0x80 := by simp [NXT, hin]
  have hlen : ¬ (c.input.length < 2) := by simp [hin]
  have hval : (((v >>> 6) ||| 0xC0) &&& 0x1f) <<< 6 ||| (((v &&& 0x3F) ||| 0x80) &&& 0x3f) = v := by
    rw [l4, k2, utf8_join (v >>> 6) (v % 64) 6 (show v % 64 < 2 ^ 6 from Nat.mod_lt _ (by decide)),
      Nat.shiftRight_eq_div_pow]
    omega
  unfold htmlCurrentChar_utf8
  simp only [hcur, hn1, l1, l2, l3, k1, hlen, hval, hv, ne_eq, not_true_eq_false, not_false_eq_true,
    if_true, if_false, false_or, or_self, show ¬ v < 0x80 by omega, Bool.true_eq_false]


theorem htmlCurrentChar_utf8_three (c : htmlParserCtxt) (v : Nat) (tail : List Nat)
    (hv : IS_CHAR v = true) (h1 : 0x800 ≤ v) (h2 : v < 0x10000)
    (hin : c.input = xmlCopyChar v ++ tail) : htmlCurrentChar_utf8 c = (c, v, 3) := by
  have hx : xmlCopyChar v =
      [(v >>> 12) ||| 0xE0, ((v >>> 6) &&& 0x3F) ||| 0x80, (v &&& 0x3F) ||| 0x80] := by
    unfold xmlCopyChar
    simp only [show ¬ v < 0x80 by omega, show ¬ v < 0x800 by omega, h2, if_true, if_false]
  rw [hx] at hin
  have ha : v >>> 12 < 16 := by rw [Nat.shiftRight_eq_div_pow]; omega
  obtain ⟨l1, l2, l3, l4, l5⟩ := utf8_lead3 _ ha
  obtain ⟨k1, k2⟩ := utf8_cont_byte (v >>> 6)
  obtain ⟨j1, j2⟩ := utf8_cont_byte v
  have hcur : CUR c = (v >>> 12) ||| 0xE0 := by simp [CUR, hin]
  have hn1 : NXT c 1 = ((v >>> 6) &&& 0x3F) ||| 0x80 := by simp [NXT, hin]
  have hn2 : NXT c 2 = (v &&& 0x3F) ||| 0x80 := by simp [NXT, hin]
  have hlen2 : ¬ (c.input.length < 2) := by simp [hin]
  have hlen3 : ¬ (c.input.length < 3) := by simp [hin]
  have hval : ((((v >>> 12) ||| 0xE0) &&& 0xf) <<< 12) |||
      (((((v >>> 6) &&& 0x3F) ||| 0x80) &&& 0x3f) <<< 6) |||
      (((v &&& 0x3F) ||| 0x80) &&& 0x3f) = v := by
    rw [l5, k2, j2]
    have e1 : (v >>> 12) <<< 12 ||| ((v >>> 6) % 64) <<< 6 =
        ((v >>> 12) * 64 + (v >>> 6) % 64) <<< 6 := by
      rw [Nat.shiftLeft_eq ((v >>> 6) % 64) 6,
        utf8_join (v >>> 12) ((v >>> 6) % 64 * 2 ^ 6) 12 (by omega), Nat.shiftLeft_eq]
      omega
    rw [e1, utf8_join _ (v % 64) 6 (show v % 64 < 2 ^ 6 from Nat.mod_lt _ (by decide)),
      Nat.shiftRight_eq_div_pow, Nat.shiftRight_eq_div_pow]
    omega
  unfold htmlCurrentChar_utf8
  simp only [hcur, hn1, hn2, l1, l2, l3, l4, k1, j1, hlen2, hlen3, hval, hv, ne_eq,
    not_true_eq_false, not_false_eq_true, if_true, if_false, false_or, or_self,
    show ¬ v < 0x800 by omega, Bool.true_eq_false]

theorem htmlCurrentChar_utf8_four (c : htmlParserCtxt) (v : Nat) (tail : List Nat)
    (hv : IS_CHAR v = true) (h1 : 0x10000 ≤ v) (h2 : v < 0x110000)
    (hin : c.input = xmlCopyChar v ++ tail) : htmlCurrentChar_utf8 c = (c, v, 4) := by
  have hx : xmlCopyChar v =
      [(v >>> 18) ||| 0xF0, ((v >>> 12) &&& 0x3F) ||| 0x80, ((v >>> 6) &&& 0x3F) ||| 0x80,
        (v &&& 0x3F) ||| 0x80] := by
    unfold xmlCopyChar
    simp only [show ¬ v < 0x80 by omega, show ¬ v < 0x800 by omega, show ¬ v < 0x10000 by omega,
      h2, if_true, if_false]
  rw [hx] at hin
  have ha : v >>> 18 < 8 := by rw [Nat.shiftRight_eq_div_pow]; omega
  obtain ⟨l1, l2, l3, l4, l5, l6⟩ := utf8_lead4 _ ha
  obtain ⟨i1, i2⟩ := utf8_cont_byte (v >>> 12)
  obtain ⟨k1, k2⟩ := utf8_cont_byte (v >>> 6)
  obtain ⟨j1, j2⟩ := utf8_cont_byte v
  have hcur : CUR c = (v >>> 18) ||| 0xF0 := by simp [CUR, hin]
  have hn1 : NXT c 1 = ((v >>> 12) &&& 0x3F) ||| 0x80 := by simp [NXT, hin]
  have hn2 : NXT c 2 = ((v >>> 6) &&& 0x3F) ||| 0x80 := by simp [NXT, hin]
  have hn3 : NXT c 3 = (v &&& 0x3F) ||| 0x80 := by simp [NXT, hin]
  have hlen2 : ¬ (c.input.length < 2) := by simp [hin]
  have hlen3 : ¬ (c.input.length < 3) := by simp [hin]
  have hlen4 : ¬ (c.input.length < 4) := by simp [hin]
  have hval : ((((v >>> 18) ||| 0xF0) &&& 0x7) <<< 18) |||
      (((((v >>> 12) &&& 0x3F) ||| 0x80) &&& 0x3f) <<< 12) |||
      (((((v >>> 6) &&& 0x3F) ||| 0x80) &&& 0x3f) <<< 6) |||
      (((v &&& 0x3F) ||| 0x80) &&& 0x3f) = v := by
    rw [l6, i2, k2, j2]
    have e1 : (v >>> 18) <<< 18 ||| ((v >>> 12) % 64) <<< 12 =
        ((v >>> 18) * 64 + (v >>> 12) % 64) <<< 12 := by
      rw [Nat.shiftLeft_eq ((v >>> 12) % 64) 12,
        utf8_join (v >>> 18) ((v >>> 12) % 64 * 2 ^ 12) 18 (by omega), Nat.shiftLeft_eq]
      omega
    have e2 : ((v >>> 18) * 64 + (v >>> 12) % 64) <<< 12 ||| ((v >>> 6) % 64) <<< 6 =
        (((v >>> 18) * 64 + (v >>> 12) % 64) * 64 + (v >>> 6) % 64) <<< 6 := by
      rw [Nat.shiftLeft_eq ((v >>> 6) % 64) 6,
        utf8_join _ ((v >>> 6) % 64 * 2 ^ 6) 12 (by omega), Nat.shiftLeft_eq]
      omega
    rw [e1, e2, utf8_join _ (v % 64) 6 (show v % 64 < 2 ^ 6 from Nat.mod_lt _ (by decide)),
      Nat.shiftRight_eq_div_pow, Nat.shiftRight_eq_div_pow, Nat.shiftRight_eq_div_pow]
    omega
  unfold htmlCurrentChar_utf8
  simp only [hcur, hn1, hn2, hn3, l1, l2, l3, l4, l5, i1, k1, j1, hlen2, hlen3, hlen4, hval, hv,
    ne_eq, not_true_eq_false, not_false_eq_true, if_true, if_false, false_or, or_self,
    show ¬ v < 0x10000 by omega, Bool.true_eq_false]

theorem IS_CHAR_bound (v : Nat) (hv : IS_CHAR v = true) : v ≠ 0 ∧ v < 0x110000 := by
  unfold IS_CHAR IS_CHAR_CH at hv
  split_ifs at hv with h
  · simp only [Bool.or_eq_true, Bool.and_eq_true, decide_eq_true_eq, beq_iff_eq] at hv
    omega
  · simp only [Bool.or_eq_true, Bool.and_eq_true, decide_eq_true_eq] at hv
    omega

theorem xmlCopyChar_length (v : Nat) (hv : IS_CHAR v = true) :
    1 ≤ (xmlCopyChar v).length ∧ ((xmlCopyChar v).length = 1 → xmlCopyChar v = [v]) := by
  have hb := (IS_CHAR_bound v hv).2
  unfold xmlCopyChar
  split_ifs <;> simp

/-- Reading back a legal character that `xmlCopyChar` wrote: the scanner
returns its value and the number of bytes written, and reports nothing. -/
theorem htmlCurrentChar_legal (c : htmlParserCtxt) (v : Nat) (tail : List Nat)
    (hv : IS_CHAR v = true) (henc : c.hasEncoding = true ∨ v < 0x80)
    (hin : c.input = xmlCopyChar v ++ tail) :
    htmlCurrentChar c = (c, v, (xmlCopyChar v).length) := by
  obtain ⟨h0, hmax⟩ := IS_CHAR_bound v hv
  by_cases h80 : v < 0x80
  · have hx : xmlCopyChar v = [v] := by unfold xmlCopyChar; simp only [h80, if_true]
    rw [hx] at hin ⊢
    exact htmlCurrentChar_ascii c v (by simp [CUR, hin]) h0 h80
  · have he : c.hasEncoding = true := by
      rcases henc with h | h
      · exact h
      · exact absurd h h80
    unfold htmlCurrentChar
    simp only [he, Bool.true_eq_false, if_false]
    by_cases h800 : v < 0x800
    · have hl : (xmlCopyChar v).length = 2 := by
        unfold xmlCopyChar; simp only [h80, h800, if_true, if_false]; rfl
      rw [hl]
      exact htmlCurrentChar_utf8_two c v tail hv (by omega) h800 hin
    · by_cases h10000 : v < 0x10000
      · have hl : (xmlCopyChar v).length = 3 := by
          unfold xmlCopyChar; simp only [h80, h800, h10000, if_true, if_false]; rfl
        rw [hl]
        exact htmlCurrentChar_utf8_three c v tail hv (by omega) h10000 hin
      · have hl : (xmlCopyChar v).length = 4 := by
          unfold xmlCopyChar; simp only [h80, h800, h10000, hmax, if_true, if_false]; rfl
        rw [hl]
        exact htmlCurrentChar_utf8_four c v tail hv (by omega) hmax hin


/-! ## Closed comments -/

theorem NEXTL_frame (c : htmlParserCtxt) (l : Nat) :
    (NEXTL c l).sax = c.sax ∧ (NEXTL c l).disableSAX = c.disableSAX ∧
      (NEXTL c l).events = c.events ∧ (NEXTL c l).errors = c.errors ∧
      (NEXTL c l).hasEncoding = c.hasEncoding := by
  unfold NEXTL
  split_ifs <;> exact ⟨rfl, rfl, rfl, rfl, rfl⟩

theorem xmlCopyChars_cons (v : Nat) (ws : List Nat) :
    xmlCopyChars (v :: ws) = xmlCopyChar v ++ xmlCopyChars ws := by
  simp [xmlCopyChars]

theorem xmlCopyChars_append (a b : List Nat) :
    xmlCopyChars (a ++ b) = xmlCopyChars a ++ xmlCopyChars b := by
  simp [xmlCopyChars]

theorem xmlCopyChars_length (cs : List Nat) (h : ∀ v ∈ cs, IS_CHAR v = true) :
    cs.length ≤ (xmlCopyChars cs).length := by
  induction cs with
  | nil => simp [xmlCopyChars]
  | cons v ws ih =>
    have h1 := (xmlCopyChar_length v (h v (List.mem_cons_self _ _))).1
    have h2 := ih (fun x hx => h x (List.mem_cons_of_mem _ hx))
    rw [xmlCopyChars_cons, List.length_append, List.length_cons]
    omega

theorem COPY_BUF_legal (v : Nat) (hv : IS_CHAR v = true) :
    COPY_BUF (xmlCopyChar v).length v = xmlCopyChar v := by
  unfold COPY_BUF
  split_ifs with h
  · exact ((xmlCopyChar_length v hv).2 h).symm
  · rfl

/-- One read of the comment loop on legal input: the cursor moves over the
bytes of `cur` and the next character is decoded. -/
theorem htmlCurrentChar_NEXTL_legal (c : htmlParserCtxt) (cur nxt : Nat) (ws rest : List Nat)
    (hin : c.input = xmlCopyChars (cur :: nxt :: ws) ++ rest)
    (hv : IS_CHAR nxt = true) (henc : c.hasEncoding = true ∨ nxt < 0x80) :
    htmlCurrentChar (NEXTL c (xmlCopyChar cur).length) =
        (NEXTL c (xmlCopyChar cur).length, nxt, (xmlCopyChar nxt).length) ∧
      (NEXTL c (xmlCopyChar cur).length).input = xmlCopyChars (nxt :: ws) ++ rest := by
  have hi : (NEXTL c (xmlCopyChar cur).length).input = xmlCopyChars (nxt :: ws) ++ rest := by
    rw [NEXTL_input, hin, xmlCopyChars_cons, List.append_assoc, List.drop_left]
  refine ⟨?_, hi⟩
  apply htmlCurrentChar_legal _ nxt (xmlCopyChars ws ++ rest) hv
  · rw [(NEXTL_frame c _).2.2.2.2]; exact henc
  · rw [hi, xmlCopyChars_cons, List.append_assoc]

theorem htmlParseComment_finished_gt (c : htmlParserCtxt) (state : xmlParserInputState)
    (h : htmlSAXHandler) (buf rest : List Nat) (hin : c.input = 0x3e :: rest)
    (hsax : c.sax = some h) (hcom : h.comment = true) (hen : c.disableSAX = 0) :
    (htmlParseComment_finished c state buf 0x3e).input = rest ∧
      (htmlParseComment_finished c state buf 0x3e).events = c.events ++ [saxEvent.comment buf] ∧
      (htmlParseComment_finished c state buf 0x3e).errors = c.errors := by
  have hn : xmlNextChar c = { c with input := rest, col := c.col + 1 } := by
    unfold xmlNextChar
    rw [hin]
    simp
  simp [htmlParseComment_finished, hn, saxCallEnabled, hen, saxCall, hsax, hcom]

theorem htmlCommentEnd_legal (bang : Bool) :
    ∀ v ∈ htmlCommentEnd bang, IS_CHAR v = true ∧ v < 0x80 := by
  cases bang <;> decide

/-- The shape of the character stream at a turn of the comment loop that still
has a character of the body in `q`. -/
theorem htmlComment_stream_step (bang : Bool) (b q r cur : Nat) (body ws : List Nat)
    (heq : q :: r :: cur :: ws = (b :: body) ++ htmlCommentEnd bang)
    (h1 : ¬ ([0x2d, 0x2d, 0x3e] <:+: b :: body))
    (h2 : ¬ ([0x2d, 0x2d, 0x21, 0x3e] <:+: b :: body)) :
    ∃ nxt ws1, ws = nxt :: ws1 ∧ ¬ (cur = 0x3e ∧ r = 0x2d ∧ q = 0x2d) ∧
      ¬ (q = 0x2d ∧ r = 0x2d ∧ cur = 0x21 ∧ nxt = 0x3e) := by
  have e1 : htmlCommentEnd true = [0x2d, 0x2d, 0x21, 0x3e] := by decide
  have e2 : htmlCommentEnd false = [0x2d, 0x2d, 0x3e] := by decide
  rcases body with _ | ⟨b1, _ | ⟨b2, _ | ⟨b3, t⟩⟩⟩ <;> cases bang <;>
    simp only [e1, e2, List.cons_append, List.nil_append, List.cons.injEq] at heq <;>
    obtain ⟨hq, hr, hc, hw⟩ := heq <;> subst hq hr hc hw
  · exact ⟨_, _, rfl, by simp, by simp⟩
  · exact ⟨_, _, rfl, by simp, by simp⟩
  · exact ⟨_, _, rfl, by simp, by simp⟩
  · exact ⟨_, _, rfl, by simp, by simp⟩
  · refine ⟨_, _, rfl, ?_, by simp⟩
    rintro ⟨hc, hr, hq⟩
    subst hc hr hq
    exact h1 ⟨[], [], rfl⟩
  · refine ⟨_, _, rfl, ?_, by simp⟩
    rintro ⟨hc, hr, hq⟩
    subst hc hr hq
    exact h1 ⟨[], [], rfl⟩
  · refine ⟨_, _, rfl, ?_, ?_⟩
    · rintro ⟨hc, hr, hq⟩
      subst hc hr hq
      exact h1 ⟨[], b3 :: t, rfl⟩
    · rintro ⟨hq, hr, hc, hn⟩
      subst hc hr hq hn
      exact h2 ⟨[], t, rfl⟩
  · refine ⟨_, _, rfl, ?_, ?_⟩
    · rintro ⟨hc, hr, hq⟩
      subst hc hr hq
      exact h1 ⟨[], b3 :: t, rfl⟩
    · rintro ⟨hq, hr, hc, hn⟩
      subst hc hr hq hn
      exact h2 ⟨[], t, rfl⟩


/-- The main loop of `htmlParseComment` on a closed comment: with `q`, `r`,
`cur` and the input holding the rest of the body followed by the closing
sequence, the loop copies the rest of the body after `buf`. -/
theorem htmlParseComment_loop_closed (maxLength : Nat) (state : xmlParserInputState)
    (rest : List Nat) (h : htmlSAXHandler) (bang : Bool) (hcom : h.comment = true) :
    ∀ (body : List Nat) (fuel : Nat) (ctxt : htmlParserCtxt) (buf : List Nat) (q r cur : Nat)
      (ws : List Nat),
      q :: r :: cur :: ws = body ++ htmlCommentEnd bang →
      ctxt.input = xmlCopyChars (cur :: ws) ++ rest →
      (∀ v ∈ body, IS_CHAR v = true) →
      (ctxt.hasEncoding = true ∨ ∀ v ∈ body, v < 0x80) →
      ¬ ([0x2d, 0x2d, 0x3e] <:+: body) → ¬ ([0x2d, 0x2d, 0x21, 0x3e] <:+: body) →
      body.length < fuel → buf.length ≤ maxLength →
      ctxt.sax = some h → ctxt.disableSAX = 0 →
      htmlCommentOutcome ctxt.events ctxt.errors
        (htmlParseComment_loop maxLength state fuel ctxt buf q (xmlCopyChar q).length
          r (xmlCopyChar r).length cur (xmlCopyChar cur).length)
        (buf ++ xmlCopyChars body) rest maxLength bang := by
  have e1 : htmlCommentEnd true = [0x2d, 0x2d, 0x21, 0x3e] := by decide
  have e2 : htmlCommentEnd false = [0x2d, 0x2d, 0x3e] := by decide
  have x1 : xmlCopyChar 0x21 = [0x21] := by decide
  have x2 : xmlCopyChar 0x3e = [0x3e] := by decide
  intro body
  induction body with
  | nil =>
    intro fuel ctxt buf q r cur ws heq hin _ _ _ _ hfuel hbuf hsax hen
    have hnil : buf ++ xmlCopyChars [] = buf := by simp [xmlCopyChars]
    rw [hnil]
    cases bang with
    | false =>
      simp only [e2, List.nil_append, List.cons.injEq] at heq
      obtain ⟨hq, hr, hc, hw⟩ := heq
      subst hq hr hc hw
      have hin2 : ctxt.input = 0x3e :: rest := by
        rw [hin]; simp [xmlCopyChars, x2]
      have hfin := htmlParseComment_finished_gt ctxt state h buf rest hin2 hsax hcom hen
      have hl : htmlParseComment_loop maxLength state fuel ctxt buf 0x2d (xmlCopyChar 0x2d).length
          0x2d (xmlCopyChar 0x2d).length 0x3e (xmlCopyChar 0x3e).length =
          htmlParseComment_finished ctxt state buf 0x3e := by
        cases fuel with
        | zero => rfl
        | succ n => simp [htmlParseComment_loop]
      rw [hl]
      refine ⟨fun _ => ⟨hfin.1, hfin.2.1, ?_⟩, fun hx => by omega⟩
      rw [hfin.2.2]
      simp
    | true =>
      simp only [e1, List.nil_append, List.cons.injEq] at heq
      obtain ⟨hq, hr, hc, hw⟩ := heq
      subst hq hr hc hw
      cases fuel with
      | zero => simp at hfuel
      | succ n =>
        obtain ⟨hrd, hi⟩ := htmlCurrentChar_NEXTL_legal ctxt 0x21 0x3e [] rest hin (by decide)
          (Or.inr (by decide))
        obtain ⟨f1, f2, f3, f4, _⟩ := NEXTL_frame ctxt (xmlCopyChar 0x21).length
        have hi2 : (htmlParseErr (NEXTL ctxt (xmlCopyChar 0x21).length)
            xmlParserErrors.XML_ERR_COMMENT_NOT_FINISHED
            "Comment incorrectly closed by '--!>'" none none).input = 0x3e :: rest := by
          show (NEXTL ctxt (xmlCopyChar 0x21).length).input = 0x3e :: rest
          rw [hi]; simp [xmlCopyChars, x2]
        have hfin := htmlParseComment_finished_gt _ state h buf rest hi2
          (by show (NEXTL ctxt (xmlCopyChar 0x21).length).sax = some h; rw [f1]; exact hsax) hcom
          (by show (NEXTL ctxt (xmlCopyChar 0x21).length).disableSAX = 0; rw [f2]; exact hen)
        rw [htmlParseComment_loop, if_pos (show (0x21 : Nat) ≠ 0 ∧
          ((0x21 : Nat) ≠ 0x3e ∨ (0x2d : Nat) ≠ 0x2d ∨ (0x2d : Nat) ≠ 0x2d) by decide)]
        rw [hrd]
        dsimp only
        rw [if_pos (show (0x2d : Nat) = 0x2d ∧ (0x2d : Nat) = 0x2d ∧ (0x21 : Nat) = 0x21 ∧
          (0x3e : Nat) = 0x3e by decide)]
        refine ⟨fun _ => ⟨hfin.1, ?_, ?_⟩, fun hx => by omega⟩
        · rw [hfin.2.1]
          show (NEXTL ctxt (xmlCopyChar 0x21).length).events ++ _ = _
          rw [f3]
        · rw [hfin.2.2]
          show (NEXTL ctxt (xmlCopyChar 0x21).length).errors ++ _ = _
          rw [f4]
          rfl
  | cons b body ih =>
    intro fuel ctxt buf q r cur ws heq hin hlegal henc h1 h2 hfuel hbuf hsax hen
    obtain ⟨nxt, ws1, hws, hnend, hnbang⟩ := htmlComment_stream_step bang b q r cur body ws heq h1 h2
    subst hws
    have hqb : q = b := by
      simp only [List.cons_append, List.cons.injEq] at heq
      exact heq.1
    have heq2 : r :: cur :: nxt :: ws1 = body ++ htmlCommentEnd bang := by
      simp only [List.cons_append, List.cons.injEq] at heq
      exact heq.2
    subst hqb
    -- every character of the stream can be read back
    have hread : ∀ v ∈ body ++ htmlCommentEnd bang,
        IS_CHAR v = true ∧ (ctxt.hasEncoding = true ∨ v < 0x80) := by
      intro v hv
      rcases List.mem_append.mp hv with hm | hm
      · refine ⟨hlegal v (List.mem_cons_of_mem _ hm), ?_⟩
        rcases henc with he | he
        · exact Or.inl he
        · exact Or.inr (he v (List.mem_cons_of_mem _ hm))
      · have := htmlCommentEnd_legal bang v hm
        exact ⟨this.1, Or.inr this.2⟩
    have hcur := hread cur (by rw [← heq2]; simp)
    have hnxt := hread nxt (by rw [← heq2]; simp)
    have hq : IS_CHAR q = true := hlegal q (List.mem_cons_self _ _)
    obtain ⟨hrd, hi⟩ := htmlCurrentChar_NEXTL_legal ctxt cur nxt ws1 rest hin hnxt.1 hnxt.2
    obtain ⟨f1, f2, f3, f4, f5⟩ := NEXTL_frame ctxt (xmlCopyChar cur).length
    cases fuel with
    | zero => simp at hfuel
    | succ n =>
      have hcond : cur ≠ 0 ∧ (cur ≠ 0x3e ∨ r ≠ 0x2d ∨ q ≠ 0x2d) := by
        refine ⟨(IS_CHAR_bound cur hcur.1).1, ?_⟩
        by_contra hx
        push_neg at hx
        exact hnend hx
      rw [htmlParseComment_loop, if_pos hcond]
      rw [hrd]
      dsimp only
      rw [if_neg hnbang]
      simp only [hq, if_true, COPY_BUF_legal q hq]
      have htext : buf ++ xmlCopyChars (q :: body) = (buf ++ xmlCopyChar q) ++ xmlCopyChars body := by
        rw [xmlCopyChars_cons, List.append_assoc]
      rw [htext]
      split_ifs with hlong
      · refine ⟨fun hfit => ?_, fun _ => ?_⟩
        · simp only [List.length_append] at hfit hlong
          omega
        · show (NEXTL ctxt (xmlCopyChar cur).length).events = ctxt.events
          exact f3
      · have := ih n (NEXTL ctxt (xmlCopyChar cur).length) (buf ++ xmlCopyChar q) r cur nxt ws1
          heq2 hi (fun v hv => hlegal v (List.mem_cons_of_mem _ hv))
          (by
            rw [f5]
            rcases henc with he | he
            · exact Or.inl he
            · exact Or.inr (fun v hv => he v (List.mem_cons_of_mem _ hv)))
          (fun hx => h1 (List.infix_cons hx)) (fun hx => h2 (List.infix_cons hx))
          (by simp only [List.length_cons] at hfuel; omega) (by omega)
          (by rw [f1]; exact hsax) (by rw [f2]; exact hen)
        rw [f3, f4] at this
        exact this


theorem htmlComment_stream_start (bang : Bool) (cs : List Nat)
    (h3 : ¬ ([0x3e] <+: cs)) (h4 : ¬ ([0x2d, 0x3e] <+: cs)) :
    ∃ q r cur ws, cs ++ htmlCommentEnd bang = q :: r :: cur :: ws ∧ q ≠ 0x3e ∧
      ¬ (q = 0x2d ∧ r = 0x3e) := by
  have e1 : htmlCommentEnd true = [0x2d, 0x2d, 0x21, 0x3e] := by decide
  have e2 : htmlCommentEnd false = [0x2d, 0x2d, 0x3e] := by decide
  rcases cs with _ | ⟨a, _ | ⟨b, _ | ⟨c, t⟩⟩⟩ <;> cases bang <;>
    simp only [e1, e2, List.cons_append, List.nil_append]
  · exact ⟨_, _, _, _, rfl, by decide, by decide⟩
  · exact ⟨_, _, _, _, rfl, by decide, by decide⟩
  · refine ⟨_, _, _, _, rfl, ?_, by simp⟩
    intro hx
    exact h3 ⟨[], by rw [hx]; rfl⟩
  · refine ⟨_, _, _, _, rfl, ?_, by simp⟩
    intro hx
    exact h3 ⟨[], by rw [hx]; rfl⟩
  · refine ⟨_, _, _, _, rfl, ?_, ?_⟩
    · intro hx
      exact h3 ⟨[b], by rw [hx]; rfl⟩
    · rintro ⟨hx, hy⟩
      exact h4 ⟨[], by rw [hx, hy]; rfl⟩
  · refine ⟨_, _, _, _, rfl, ?_, ?_⟩
    · intro hx
      exact h3 ⟨[b], by rw [hx]; rfl⟩
    · rintro ⟨hx, hy⟩
      exact h4 ⟨[], by rw [hx, hy]; rfl⟩
  · refine ⟨_, _, _, _, rfl, ?_, ?_⟩
    · intro hx
      exact h3 ⟨b :: c :: t, by rw [hx]; rfl⟩
    · rintro ⟨hx, hy⟩
      exact h4 ⟨c :: t, by rw [hx, hy]; rfl⟩
  · refine ⟨_, _, _, _, rfl, ?_, ?_⟩
    · intro hx
      exact h3 ⟨b :: c :: t, by rw [hx]; rfl⟩
    · rintro ⟨hx, hy⟩
      exact h4 ⟨c :: t, by rw [hx, hy]; rfl⟩

theorem xmlCopyChars_htmlCommentEnd (bang : Bool) :
    xmlCopyChars (htmlCommentEnd bang) = htmlCommentEnd bang := by
  cases bang <;> decide

/-- Function `htmlParseComment` on a closed comment whose body is the UTF-8
text of the legal characters `cs`. -/
theorem htmlParseComment_closed (lim : xmlLimits) (ctxt : htmlParserCtxt) (h : htmlSAXHandler)
    (cs rest : List Nat) (bang : Bool)
    (hsax : ctxt.sax = some h) (hcom : h.comment = true) (hen : ctxt.disableSAX = 0)
    (hlegal : ∀ v ∈ cs, IS_CHAR v = true)
    (henc : ctxt.hasEncoding = true ∨ ∀ v ∈ cs, v < 0x80)
    (h1 : ¬ (bytes "-->" <:+: cs)) (h2 : ¬ (bytes "--!>" <:+: cs))
    (h3 : ¬ (bytes ">" <+: cs)) (h4 : ¬ (bytes "->" <+: cs))
    (hin : ctxt.input = bytes "<!--" ++ xmlCopyChars cs ++ htmlCommentEnd bang ++ rest) :
    htmlCommentOutcome ctxt.events ctxt.errors (htmlParseComment lim ctxt) (xmlCopyChars cs) rest
      (if ctxt.huge then lim.XML_MAX_HUGE_LENGTH else lim.XML_MAX_TEXT_LENGTH) bang := by
  have hb0 : bytes "<!--" = [0x3c, 0x21, 0x2d, 0x2d] := by decide
  have hb1 : bytes "-->" = [0x2d, 0x2d, 0x3e] := by decide
  have hb2 : bytes "--!>" = [0x2d, 0x2d, 0x21, 0x3e] := by decide
  have hb3 : bytes ">" = [0x3e] := by decide
  have hb4 : bytes "->" = [0x2d, 0x3e] := by decide
  rw [hb1] at h1
  rw [hb2] at h2
  rw [hb3] at h3
  rw [hb4] at h4
  obtain ⟨q, r, cur, ws, hstream, hq1, hq2⟩ := htmlComment_stream_start bang cs h3 h4
  have hin2 : ctxt.input = [0x3c, 0x21, 0x2d, 0x2d] ++ (xmlCopyChars (q :: r :: cur :: ws) ++ rest) := by
    rw [hin, hb0, ← hstream, xmlCopyChars_append, xmlCopyChars_htmlCommentEnd]
    simp
  have hopen : ¬ (CUR ctxt ≠ 0x3c ∨ NXT ctxt 1 ≠ 0x21 ∨ NXT ctxt 2 ≠ 0x2d ∨ NXT ctxt 3 ≠ 0x2d) := by
    simp [CUR, NXT, hin2]
  have hread : ∀ v ∈ q :: r :: cur :: ws,
      IS_CHAR v = true ∧ (ctxt.hasEncoding = true ∨ v < 0x80) := by
    intro v hv
    rw [← hstream] at hv
    rcases List.mem_append.mp hv with hm | hm
    · refine ⟨hlegal v hm, ?_⟩
      rcases henc with he | he
      · exact Or.inl he
      · exact Or.inr (he v hm)
    · have := htmlCommentEnd_legal bang v hm
      exact ⟨this.1, Or.inr this.2⟩
  have rq := hread q (by simp)
  have rr := hread r (by simp)
  have rc := hread cur (by simp)
  unfold htmlParseComment
  simp only [hopen, if_false]
  generalize hc0 : SKIP { ctxt with instate := xmlParserInputState.XML_PARSER_COMMENT } 4 = c0
  have hi0 : c0.input = xmlCopyChars (q :: r :: cur :: ws) ++ rest := by
    rw [← hc0]; simp [SKIP, hin2]
  have he0 : c0.events = ctxt.events := by rw [← hc0]; rfl
  have hr0 : c0.errors = ctxt.errors := by rw [← hc0]; rfl
  have hs0 : c0.sax = some h := by rw [← hc0]; exact hsax
  have hd0 : c0.disableSAX = 0 := by rw [← hc0]; exact hen
  have hn0 : c0.hasEncoding = ctxt.hasEncoding := by rw [← hc0]; rfl
  have hlen : ctxt.input.length = (xmlCopyChars cs).length + (htmlCommentEnd bang).length +
      rest.length + 4 := by
    rw [hin, hb0]; simp; omega
  have hcs := xmlCopyChars_length cs hlegal
  -- the three reads before the loop
  have hrdq : htmlCurrentChar c0 = (c0, q, (xmlCopyChar q).length) := by
    apply htmlCurrentChar_legal c0 q (xmlCopyChars (r :: cur :: ws) ++ rest) rq.1
    · rw [hn0]; exact rq.2
    · rw [hi0, xmlCopyChars_cons, List.append_assoc]
  obtain ⟨hrdr, hi1⟩ := htmlCurrentChar_NEXTL_legal c0 q r (cur :: ws) rest hi0 rr.1
    (by rw [hn0]; exact rr.2)
  obtain ⟨g1, g2, g3, g4, g5⟩ := NEXTL_frame c0 (xmlCopyChar q).length
  obtain ⟨hrdc, hi2⟩ := htmlCurrentChar_NEXTL_legal (NEXTL c0 (xmlCopyChar q).length) r cur ws rest
    hi1 rc.1 (by rw [g5, hn0]; exact rc.2)
  obtain ⟨k1, k2, k3, k4, k5⟩ := NEXTL_frame (NEXTL c0 (xmlCopyChar q).length)
    (xmlCopyChar r).length
  rw [hrdq]
  dsimp only
  rw [if_neg (IS_CHAR_bound q rq.1).1, if_neg hq1, hrdr]
  dsimp only
  rw [if_neg (IS_CHAR_bound r rr.1).1, if_neg hq2, hrdc]
  dsimp only
  have := htmlParseComment_loop_closed
    (if ctxt.huge then lim.XML_MAX_HUGE_LENGTH else lim.XML_MAX_TEXT_LENGTH) ctxt.instate rest h
    bang hcom cs (2 * ctxt.input.length + 1)
    (NEXTL (NEXTL c0 (xmlCopyChar q).length) (xmlCopyChar r).length) [] q r cur ws hstream.symm
    hi2 hlegal
    (by
      rw [k5, g5, hn0]
      exact henc)
    h1 h2 (by omega) (Nat.zero_le _) (by rw [k1, g1]; exact hs0) (by rw [k2, g2]; exact hd0)
  rw [k3, g3, he0, k4, g4, hr0, List.nil_append] at this
  exact this


theorem xmlCopyChars_replicate (n : Nat) :
    xmlCopyChars (List.replicate n 0x78) = List.replicate n 0x78 := by
  induction n with
  | zero => rfl
  | succ k ih =>
    rw [List.replicate_succ, xmlCopyChars_cons, ih]
    rfl

/-- C7, as the code has it. For every list `cs` of legal characters whose UTF-8
text is at most `maxLength` bytes long (XML_MAX_TEXT_LENGTH, or
XML_MAX_HUGE_LENGTH with XML_PARSE_HUGE), that contains neither `-->` nor
`--!>` and begins neither with `>` nor with `->`, `htmlParseComment` on `<!--`,
the text, and `-->` or `--!>` leaves the cursor right after the closing `>`,
adds exactly one comment event that carries the text, and reports nothing when
the comment ends with `-->` and exactly the incorrectly-closed report when it
ends with `--!>`. The input is known to be UTF-8, or the text is ASCII. -/
theorem C7_comment_closed (lim : xmlLimits) (ctxt : htmlParserCtxt) (h : htmlSAXHandler)
    (cs rest : List Nat) (bang : Bool)
    (hsax : ctxt.sax = some h) (hcom : h.comment = true) (hen : ctxt.disableSAX = 0)
    (hlegal : ∀ v ∈ cs, IS_CHAR v = true)
    (henc : ctxt.hasEncoding = true ∨ ∀ v ∈ cs, v < 0x80)
    (h1 : ¬ (bytes "-->" <:+: cs)) (h2 : ¬ (bytes "--!>" <:+: cs))
    (h3 : ¬ (bytes ">" <+: cs)) (h4 : ¬ (bytes "->" <+: cs))
    (hlen : (xmlCopyChars cs).length ≤
      (if ctxt.huge then lim.XML_MAX_HUGE_LENGTH else lim.XML_MAX_TEXT_LENGTH))
    (hin : ctxt.input = bytes "<!--" ++ xmlCopyChars cs ++ htmlCommentEnd bang ++ rest) :
    (htmlParseComment lim ctxt).input = rest ∧
      (htmlParseComment lim ctxt).events =
        ctxt.events ++ [saxEvent.comment (xmlCopyChars cs)] ∧
      (htmlParseComment lim ctxt).errors =
        ctxt.errors ++ (if bang then [htmlCommentBangError] else []) :=
  (htmlParseComment_closed lim ctxt h cs rest bang hsax hcom hen hlegal henc h1 h2 h3 h4 hin).1 hlen

/-- Witness for C7: `<!--x--!>` gives the comment text `x`. -/
theorem C7_comment_closed_witness :
    (htmlParseComment xmlDefaultLimits
        { htmlNewSAXParserCtxt htmlSinkHandler with input := bytes "<!--x--!>" }).events =
      [saxEvent.comment (bytes "x")] :=
  (C7_comment_closed xmlDefaultLimits
    { htmlNewSAXParserCtxt htmlSinkHandler with input := bytes "<!--x--!>" } htmlSinkHandler
    (bytes "x") [] true rfl rfl rfl (by decide) (Or.inr (by decide)) (by decide) (by decide)
    (by decide) (by decide) (by decide) (by decide)).2.1

/-- Whatever the value of XML_MAX_TEXT_LENGTH, the comment `<!--x...x-->` with
XML_MAX_TEXT_LENGTH + 1 letters `x`, all legal and with no terminator among
them, gives no comment event. -/
theorem htmlParseComment_too_long (lim : xmlLimits) :
    (htmlParseComment lim
      { htmlNewSAXParserCtxt htmlSinkHandler with
        input := bytes "<!--" ++ List.replicate (lim.XML_MAX_TEXT_LENGTH + 1) 0x78 ++
          bytes "-->" }).events = [] := by
  have hmem : ∀ (p : List Nat), 0x2d ∈ p →
      ¬ (p <:+: List.replicate (lim.XML_MAX_TEXT_LENGTH + 1) 0x78) := by
    intro p hp hx
    have := List.eq_of_mem_replicate (( List.IsInfix.subset hx) hp)
    simp at this
  have hpre : ∀ (p : List Nat), 0x3e ∈ p →
      ¬ (p <+: List.replicate (lim.XML_MAX_TEXT_LENGTH + 1) 0x78) := by
    intro p hp hx
    have := List.eq_of_mem_replicate (( List.IsPrefix.subset hx) hp)
    simp at this
  have hout := htmlParseComment_closed lim
    { htmlNewSAXParserCtxt htmlSinkHandler with
      input := bytes "<!--" ++ List.replicate (lim.XML_MAX_TEXT_LENGTH + 1) 0x78 ++ bytes "-->" }
    htmlSinkHandler (List.replicate (lim.XML_MAX_TEXT_LENGTH + 1) 0x78) [] false rfl rfl rfl
    (by
      intro v hv
      rw [List.eq_of_mem_replicate hv]
      decide)
    (Or.inr (by
      intro v hv
      rw [List.eq_of_mem_replicate hv]
      decide))
    (hmem _ (by decide)) (hmem _ (by decide)) (hpre _ (by decide)) (hpre _ (by decide))
    (by
      rw [xmlCopyChars_replicate]
      simp [htmlCommentEnd])
  have hlong := hout.2 (by
    rw [xmlCopyChars_replicate, List.length_replicate]
    show lim.XML_MAX_TEXT_LENGTH < lim.XML_MAX_TEXT_LENGTH + 1
    omega)
  exact hlong

/-- C7 fails without the length limit: with the limits of a stock build the
comment `<!--x...x-->` with 10000001 letters `x`, all legal and with no
terminator among them, gives no comment event. -/
theorem C7_comment_too_long :
    (htmlParseComment xmlDefaultLimits
      { htmlNewSAXParserCtxt htmlSinkHandler with
        input := bytes "<!--" ++ List.replicate 10000001 0x78 ++ bytes "-->" }).events = [] :=
  htmlParseComment_too_long xmlDefaultLimits

/-! ## Single steps of the scanner and of the tree builder -/

theorem NXT_drop (c : htmlParserCtxt) (k : Nat) : NXT c k = (c.input.drop k).headD 0 := by
  unfold NXT
  rw [List.getD_eq_getElem?_getD, List.headD_eq_head?_getD, List.head?_drop]

theorem xmlNextChar_ascii (c : htmlParserCtxt) (b : Nat) (rest : List Nat)
    (hin : c.input = b :: rest) (h1 : b < 0x80) (h2 : b ≠ 0x0a) (h3 : b ≠ 0x0d) :
    xmlNextChar c = { c with input := rest, col := c.col + 1 } := by
  unfold xmlNextChar
  rw [hin]
  simp only [h1, h2, h3, if_true, if_false]

theorem htmlAutoClose_empty (c : htmlParserCtxt) (n : List Nat) (h : c.nameTab = []) :
    htmlAutoClose c (some n) = c := by
  simp [htmlAutoClose, htmlParserCtxt.nameNr, h, htmlAutoClose_loop]

theorem htmlAutoClose_no_pair (c : htmlParserCtxt) (n top : List Nat) (more : List (List Nat))
    (h : c.nameTab = top :: more) (hp : htmlCheckAutoClose n top = false) :
    htmlAutoClose c (some n) = c := by
  simp [htmlAutoClose, htmlParserCtxt.nameNr, h, htmlAutoClose_loop, htmlParserCtxt.name, hp]

theorem htmlnamePush_plain (c : htmlParserCtxt) (n : List Nat) (h2 : n ≠ bytes "head")
    (h3 : n ≠ bytes "body") : htmlnamePush c n = { c with nameTab := n :: c.nameTab } := by
  simp [htmlnamePush, h2, h3]

theorem saxCall_on (c : htmlParserCtxt) (h : htmlSAXHandler) (cb : htmlSAXHandler → Bool)
    (ev : saxEvent) (hs : c.sax = some h) (hcb : cb h = true) :
    saxCall c cb ev = { c with events := c.events ++ [ev] } := by
  simp [saxCall, hs, hcb]

/-! ## End tags and the end of the input -/

/-- The first loop of `htmlAutoCloseOnClose` returns early when an element of
higher priority than `name` is met before any element named `name`. -/
theorem htmlAutoCloseOnClose_scan_blocked (name blocker : List Nat) (below : List (List Nat))
    (hprio : htmlGetEndPriority name < htmlGetEndPriority blocker) :
    ∀ above : List (List Nat), name ∉ above →
      htmlAutoCloseOnClose_scan name (htmlGetEndPriority name) (above ++ blocker :: below) =
        false := by
  intro above
  induction above with
  | nil =>
    intro _
    have hne : name ≠ blocker := fun h => by rw [h] at hprio; exact Nat.lt_irrefl _ hprio
    simp [htmlAutoCloseOnClose_scan, hne, hprio]
  | cons e rest ih =>
    intro hnot
    have hne : name ≠ e := fun h => hnot (h ▸ List.mem_cons_self _ _)
    simp only [List.cons_append, htmlAutoCloseOnClose_scan, hne, if_false]
    split_ifs
    · rfl
    · exact ih (fun h => hnot (List.mem_cons_of_mem _ h))

/-- The values of `htmlGetEndPriority`: the eleven names of the table and the
default 100 of every other name. -/
theorem htmlGetEndPriority_values (n : List Nat) :
    htmlGetEndPriority n =
      if n = bytes "div" then 150
      else if n = bytes "td" ∨ n = bytes "th" then 160
      else if n = bytes "tr" then 170
      else if n = bytes "thead" ∨ n = bytes "tbody" ∨ n = bytes "tfoot" then 180
      else if n = bytes "table" then 190
      else if n = bytes "head" ∨ n = bytes "body" then 200
      else if n = bytes "html" then 220
      else 100 := by
  by_cases h0 : n = bytes "div"
  · subst h0; rfl
  by_cases h1 : n = bytes "td"
  · subst h1; rfl
  by_cases h2 : n = bytes "th"
  · subst h2; rfl
  by_cases h3 : n = bytes "tr"
  · subst h3; rfl
  by_cases h4 : n = bytes "thead"
  · subst h4; rfl
  by_cases h5 : n = bytes "tbody"
  · subst h5; rfl
  by_cases h6 : n = bytes "tfoot"
  · subst h6; rfl
  by_cases h7 : n = bytes "table"
  · subst h7; rfl
  by_cases h8 : n = bytes "head"
  · subst h8; rfl
  by_cases h9 : n = bytes "body"
  · subst h9; rfl
  by_cases h10 : n = bytes "html"
  · subst h10; rfl
  simp only [htmlGetEndPriority, htmlEndPriority, htmlGetEndPriority_loop, h0, h1, h2, h3, h4, h5, h6, h7, h8, h9, h10, Ne.symm h0, Ne.symm h1, Ne.symm h2, Ne.symm h3, Ne.symm h4, Ne.symm h5, Ne.symm h6, Ne.symm h7, Ne.symm h8, Ne.symm h9, Ne.symm h10,
    if_false, or_self]

/-- The tail of `htmlParseEndTag` pops nothing and emits nothing when the first
loop of `htmlAutoCloseOnClose` returns early. -/
theorem htmlParseEndTag_close_blocked (c : htmlParserCtxt) (name : List Nat)
    (hscan : htmlAutoCloseOnClose_scan name (htmlGetEndPriority name) c.nameTab = false)
    (htop : c.name ≠ some name) :
    (htmlParseEndTag_close c name).2 = 0 ∧
      (htmlParseEndTag_close c name).1.nameTab = c.nameTab ∧
      (htmlParseEndTag_close c name).1.events = c.events := by
  have hauto : htmlAutoCloseOnClose c name = c := by
    simp [htmlAutoCloseOnClose, hscan]
  unfold htmlParseEndTag_close
  split_ifs with h1 h2
  · exact ⟨rfl, rfl, rfl⟩
  · simp only [hauto]
    have hno : ¬ ((if c.name.isSome ∧ c.name ≠ some name then
        htmlParseErr c xmlParserErrors.XML_ERR_TAG_NAME_MISMATCH
          "Opening and ending tag mismatch: %s and %s\n" (some name) c.name
        else c).name = some name) := by
      split_ifs
      · exact htop
      · exact htop
    rw [if_neg hno]
    split_ifs
    · exact ⟨rfl, rfl, rfl⟩
    · exact ⟨rfl, rfl, rfl⟩
  · exact ⟨rfl, rfl, rfl⟩

/-- C11. End-tag priority blocking: when the scan of the open-element stack
from the top meets an element whose end priority is strictly greater than that
of the end tag's name before any element with that name, `htmlParseEndTag`
returns 0, emits no event and leaves the stack as it was; the priorities are
div 150, td/th 160, tr 170, thead/tbody/tfoot 180, table 190, head/body 200,
html 220 and 100 for every other name. -/
theorem C11_end_tag_priority_blocking (lim : xmlLimits) (ctxt : htmlParserCtxt)
    (name blocker : List Nat) (above below : List (List Nat))
    (hlt : CUR ctxt = 0x3c) (hsl : NXT ctxt 1 = 0x2f)
    (hname : (htmlParseHTMLName (SKIP ctxt 2)).2 = some name)
    (hstack : ctxt.nameTab = above ++ blocker :: below)
    (habove : name ∉ above)
    (hprio : htmlGetEndPriority name < htmlGetEndPriority blocker) :
    (htmlParseEndTag lim ctxt).2 = 0 ∧
      (htmlParseEndTag lim ctxt).1.nameTab = ctxt.nameTab ∧
      (htmlParseEndTag lim ctxt).1.events = ctxt.events ∧
      (∀ n : List Nat, htmlGetEndPriority n =
        if n = bytes "div" then 150
        else if n = bytes "td" ∨ n = bytes "th" then 160
        else if n = bytes "tr" then 170
        else if n = bytes "thead" ∨ n = bytes "tbody" ∨ n = bytes "tfoot" then 180
        else if n = bytes "table" then 190
        else if n = bytes "head" ∨ n = bytes "body" then 200
        else if n = bytes "html" then 220
        else 100) := by
  obtain ⟨c3, hf, heq⟩ := htmlParseEndTag_scan lim ctxt name hlt hsl hname
  have hn := scanFrame_nameTab hf
  have hscan : htmlAutoCloseOnClose_scan name (htmlGetEndPriority name) c3.nameTab = false := by
    rw [hn, hstack]
    exact htmlAutoCloseOnClose_scan_blocked name blocker below hprio above habove
  have htop : c3.name ≠ some name := by
    unfold htmlParserCtxt.name
    rw [hn, hstack]
    cases above with
    | nil =>
      intro h
      have hb : blocker = name := by simpa using h
      rw [hb] at hprio
      exact Nat.lt_irrefl _ hprio
    | cons e rest =>
      intro h
      have he : e = name := by simpa using h
      exact habove (he ▸ List.mem_cons_self _ _)
  obtain ⟨h1, h2, h3⟩ := htmlParseEndTag_close_blocked c3 name hscan htop
  rw [heq]
  exact ⟨h1, h2.trans hn, h3.trans (scanFrame_events hf), htmlGetEndPriority_values⟩

/-- Witness for C11: `</div>` read with the stack html, body, div, table, tr, td;
the innermost element td has priority 160 and blocks the end tag of priority 150. -/
theorem C11_end_tag_priority_blocking_witness :
    (htmlParseEndTag xmlDefaultLimits
        { htmlNewSAXParserCtxt htmlSinkHandler with
          input := bytes "</div>",
          nameTab := [bytes "td", bytes "tr", bytes "table", bytes "div", bytes "body",
            bytes "html"] }).1.nameTab =
      [bytes "td", bytes "tr", bytes "table", bytes "div", bytes "body", bytes "html"] :=
  (C11_end_tag_priority_blocking xmlDefaultLimits
    { htmlNewSAXParserCtxt htmlSinkHandler with
      input := bytes "</div>",
      nameTab := [bytes "td", bytes "tr", bytes "table", bytes "div", bytes "body",
        bytes "html"] }
    (bytes "div") (bytes "td") []
    [bytes "tr", bytes "table", bytes "div", bytes "body", bytes "html"]
    (by decide) (by decide) (by decide!) rfl (by decide) (by decide)).2.1


/-- The loop of `htmlAutoCloseOnEnd` run once per open element: every element
gets its endElement, innermost first, and the stack ends empty. -/
theorem htmlAutoCloseOnEnd_loop_all (h : htmlSAXHandler) (hend : h.endElement = true) :
    ∀ (stack : List (List Nat)) (c : htmlParserCtxt),
      c.nameTab = stack → c.sax = some h →
      htmlAutoCloseOnEnd_loop stack.length c =
        { c with nameTab := [], events := c.events ++ stack.map saxEvent.endElement } := by
  intro stack
  induction stack with
  | nil =>
    intro c htab _
    simp only [List.length_nil, htmlAutoCloseOnEnd_loop, List.map_nil, List.append_nil]
    rw [← htab]
  | cons n rest ih =>
    intro c htab hsax
    have hname : c.name = some n := by simp [htmlParserCtxt.name, htab]
    simp only [List.length_cons, htmlAutoCloseOnEnd_loop, hname]
    rw [saxCall_endElement c h hsax hend n]
    have hpop : (htmlnamePop { c with events := c.events ++ [saxEvent.endElement n] }).1 =
        { c with events := c.events ++ [saxEvent.endElement n], nameTab := rest } := by
      simp [htmlnamePop, htab]
    rw [hpop]
    have e := ih { c with events := c.events ++ [saxEvent.endElement n], nameTab := rest } rfl hsax
    rw [e]
    simp

/-- Function `htmlAutoCloseOnEnd` closes every open element. -/
theorem htmlAutoCloseOnEnd_all (h : htmlSAXHandler) (hend : h.endElement = true)
    (c : htmlParserCtxt) (hsax : c.sax = some h) :
    htmlAutoCloseOnEnd c =
      { c with nameTab := [], events := c.events ++ c.nameTab.map saxEvent.endElement } := by
  unfold htmlAutoCloseOnEnd
  split_ifs with h0
  · have : c.nameTab = [] := List.length_eq_zero.mp h0
    simp [this]
    rw [← this]
  · exact htmlAutoCloseOnEnd_loop_all h hend c.nameTab c rfl hsax

/-- The end-of-input block of `htmlParseTryOrFinish`. -/
theorem htmlParseTryOrFinish_finish_all (h : htmlSAXHandler) (hend : h.endElement = true)
    (hdoc : h.endDocument = true) (c : htmlParserCtxt) (hsax : c.sax = some h) :
    htmlParseTryOrFinish_finish c =
      { c with
        nameTab := [],
        instate := xmlParserInputState.XML_PARSER_EOF,
        events := c.events ++ c.nameTab.map saxEvent.endElement ++
          (if c.instate = xmlParserInputState.XML_PARSER_EOF then [] else [saxEvent.endDocument]) } := by
  unfold htmlParseTryOrFinish_finish
  rw [htmlAutoCloseOnEnd_all h hend c hsax]
  by_cases hst : c.instate = xmlParserInputState.XML_PARSER_EOF
  · simp [hst, htmlParserCtxt.nameNr]
  · simp [hst, htmlParserCtxt.nameNr, saxCall, hsax, hdoc]

/-- The end-of-input block changes nothing once the stack is empty and the
state is EOF. -/
theorem htmlParseTryOrFinish_finish_done (c : htmlParserCtxt) (htab : c.nameTab = [])
    (hst : c.instate = xmlParserInputState.XML_PARSER_EOF) :
    htmlParseTryOrFinish_finish c = c := by
  simp [htmlParseTryOrFinish_finish, htmlAutoCloseOnEnd, htmlParserCtxt.nameNr, htab, hst]

/-- A turn of the loop of `htmlParseTryOrFinish` in the state EOF with an empty
stack: the end-of-input block is idle, a NUL byte is skipped, anything else
ends the loop; no event is emitted. -/
theorem htmlParseTryOrFinish_body_eof (lim : xmlLimits) (terminate : Bool) (c : htmlParserCtxt)
    (htab : c.nameTab = []) (hst : c.instate = xmlParserInputState.XML_PARSER_EOF) :
    (htmlParseTryOrFinish_body lim terminate c).1.nameTab = [] ∧
      (htmlParseTryOrFinish_body lim terminate c).1.instate =
        xmlParserInputState.XML_PARSER_EOF ∧
      (htmlParseTryOrFinish_body lim terminate c).1.events = c.events := by
  unfold htmlParseTryOrFinish_body
  have h0 : (if c.input.length = 0 ∧ terminate = true then htmlParseTryOrFinish_finish c else c)
      = c := by
    split_ifs
    · exact htmlParseTryOrFinish_finish_done c htab hst
    · rfl
  simp only [h0]
  by_cases h1 : c.input.length < 1
  · rw [if_pos h1]
    exact ⟨htab, hst, rfl⟩
  · rw [if_neg h1]
    by_cases h2 : CUR c = 0
    · rw [if_pos h2]
      exact ⟨htab, hst, rfl⟩
    · rw [if_neg h2, hst]
      exact ⟨htab, hst, rfl⟩

/-- The loop of `htmlParseTryOrFinish` in the state EOF with an empty stack. -/
theorem htmlParseTryOrFinish_loop_eof (lim : xmlLimits) (terminate : Bool) :
    ∀ (fuel : Nat) (c : htmlParserCtxt) (avail : Nat),
      c.nameTab = [] → c.instate = xmlParserInputState.XML_PARSER_EOF →
      (htmlParseTryOrFinish_loop lim terminate fuel c avail).1.nameTab = [] ∧
        (htmlParseTryOrFinish_loop lim terminate fuel c avail).1.instate =
          xmlParserInputState.XML_PARSER_EOF ∧
        (htmlParseTryOrFinish_loop lim terminate fuel c avail).1.events = c.events := by
  intro fuel
  induction fuel with
  | zero => intro c avail htab hst; exact ⟨htab, hst, rfl⟩
  | succ k ih =>
    intro c avail htab hst
    obtain ⟨b1, b2, b3⟩ := htmlParseTryOrFinish_body_eof lim terminate c htab hst
    rw [htmlParseTryOrFinish_loop]
    dsimp only
    split_ifs with hs hgo
    · obtain ⟨i1, i2, i3⟩ := ih _ (htmlParseTryOrFinish_body lim terminate c).2.1 b1 b2
      exact ⟨i1, i2, i3.trans b3⟩
    · exact ⟨b1, b2, b3⟩
    · exact ⟨htab, hst, rfl⟩

/-- A call of `htmlParseChunk` made after the end of the document has been
processed (state EOF, empty stack) emits no event and stays in that state,
whatever the chunk and the terminate flag. -/
theorem htmlParseChunk_eof (lim : xmlLimits) (c : htmlParserCtxt) (chunk : List Nat)
    (terminate : Bool)
    (htab : c.nameTab = []) (hst : c.instate = xmlParserInputState.XML_PARSER_EOF) :
    (htmlParseChunk lim c chunk terminate).nameTab = [] ∧
      (htmlParseChunk lim c chunk terminate).instate = xmlParserInputState.XML_PARSER_EOF ∧
      (htmlParseChunk lim c chunk terminate).events = c.events := by
  unfold htmlParseChunk
  split_ifs with hs ht
  · exact ⟨htab, hst, rfl⟩
  · obtain ⟨l1, l2, l3⟩ := htmlParseTryOrFinish_loop_eof lim terminate
      (4 * (2 * (xmlParserInputBufferPush c chunk).input.length + 2) + 4)
      (xmlParserInputBufferPush c chunk) 0 htab hst
    have hfin : (htmlParseTryOrFinish lim (xmlParserInputBufferPush c chunk) terminate).nameTab
          = [] ∧
        (htmlParseTryOrFinish lim (xmlParserInputBufferPush c chunk) terminate).instate =
          xmlParserInputState.XML_PARSER_EOF ∧
        (htmlParseTryOrFinish lim (xmlParserInputBufferPush c chunk) terminate).events =
          c.events := by
      unfold htmlParseTryOrFinish
      dsimp only
      split_ifs
      · rw [htmlParseTryOrFinish_finish_done _ l1 l2]
        exact ⟨l1, l2, l3⟩
      · exact ⟨l1, l2, l3⟩
    obtain ⟨f1, f2, f3⟩ := hfin
    dsimp only
    rw [if_neg (not_not.mpr f2)]
    exact ⟨f1, rfl, f3⟩
  · obtain ⟨l1, l2, l3⟩ := htmlParseTryOrFinish_loop_eof lim terminate
      (4 * (2 * (xmlParserInputBufferPush c chunk).input.length + 2) + 4)
      (xmlParserInputBufferPush c chunk) 0 htab hst
    unfold htmlParseTryOrFinish
    dsimp only
    split_ifs
    · rw [htmlParseTryOrFinish_finish_done _ l1 l2]
      exact ⟨l1, l2, l3⟩
    · exact ⟨l1, l2, l3⟩

/-- Any sequence of calls of `htmlParseChunk` made after the end of the document
has been processed emits no event. -/
theorem htmlParseChunk_eof_calls (lim : xmlLimits) :
    ∀ (calls : List (List Nat × Bool)) (c : htmlParserCtxt),
      c.nameTab = [] → c.instate = xmlParserInputState.XML_PARSER_EOF →
      (calls.foldl (fun s x => htmlParseChunk lim s x.1 x.2) c).events = c.events := by
  intro calls
  induction calls with
  | nil => intro c _ _; rfl
  | cons x rest ih =>
    intro c htab hst
    obtain ⟨e1, e2, e3⟩ := htmlParseChunk_eof lim c x.1 x.2 htab hst
    rw [List.foldl_cons, ih _ e1 e2, e3]

/-- The final call `htmlParseChunk(ctxt, NULL, 0, 1)` on a context without
pending input. -/
theorem htmlParseChunk_terminate_empty (lim : xmlLimits) (c : htmlParserCtxt)
    (h : htmlSAXHandler) (hsax : c.sax = some h) (hend : h.endElement = true)
    (hdoc : h.endDocument = true) (hrun : PARSER_STOPPED c = false) (hin : c.input = []) :
    htmlParseChunk lim c [] true =
      { c with
        nameTab := [],
        instate := xmlParserInputState.XML_PARSER_EOF,
        events := c.events ++ c.nameTab.map saxEvent.endElement ++
          (if c.instate = xmlParserInputState.XML_PARSER_EOF then []
           else [saxEvent.endDocument]) } := by
  have hbody : htmlParseTryOrFinish_body lim true c = (htmlParseTryOrFinish_finish c, 0, false) := by
    simp [htmlParseTryOrFinish_body, hin]
  have hfin := htmlParseTryOrFinish_finish_all h hend hdoc c hsax
  have hloop : htmlParseTryOrFinish lim c true = htmlParseTryOrFinish_finish c := by
    unfold htmlParseTryOrFinish
    simp only [hin, List.length_nil]
    rw [htmlParseTryOrFinish_loop]
    simp only [hrun, hbody, if_true]
    simp only [Bool.false_eq_true, if_false, and_self, if_true]
    apply htmlParseTryOrFinish_finish_done
    · rw [hfin]
    · rw [hfin]
  have hc : xmlParserInputBufferPush c [] = c := by
    unfold xmlParserInputBufferPush
    have hnil : (if c.encoder = some xmlCharEncoding.XML_CHAR_ENCODING_8859_1 then
        isolat1ToUTF8 [] else ([] : List Nat)) = [] := by
      split_ifs <;> rfl
    rw [hnil, List.append_nil]
  unfold htmlParseChunk
  simp only [hrun, Bool.false_eq_true, if_false, if_true]
  rw [hc, hloop, hfin]
  simp

/-- C12. End of input: a call of `htmlParseChunk` with terminate set, on a
running parser with no input left, gives every element still on the stack one
endElement, innermost first, empties the stack and emits endDocument once
(not at all when the state is already EOF, where the end of the document has
been processed); no later call of `htmlParseChunk` emits any event, so no
second endDocument follows. -/
theorem C12_end_of_input (lim : xmlLimits) (ctxt : htmlParserCtxt) (h : htmlSAXHandler)
    (hsax : ctxt.sax = some h) (hend : h.endElement = true) (hdoc : h.endDocument = true)
    (hrun : PARSER_STOPPED ctxt = false) (hin : ctxt.input = []) :
    (htmlParseChunk lim ctxt [] true).nameTab = [] ∧
      (htmlParseChunk lim ctxt [] true).instate = xmlParserInputState.XML_PARSER_EOF ∧
      (htmlParseChunk lim ctxt [] true).events =
        ctxt.events ++ ctxt.nameTab.map saxEvent.endElement ++
          (if ctxt.instate = xmlParserInputState.XML_PARSER_EOF then []
           else [saxEvent.endDocument]) ∧
      ∀ calls : List (List Nat × Bool),
        (calls.foldl (fun s x => htmlParseChunk lim s x.1 x.2)
          (htmlParseChunk lim ctxt [] true)).events =
          (htmlParseChunk lim ctxt [] true).events := by
  have e := htmlParseChunk_terminate_empty lim ctxt h hsax hend hdoc hrun hin
  have h1 : (htmlParseChunk lim ctxt [] true).nameTab = [] := by rw [e]
  have h2 : (htmlParseChunk lim ctxt [] true).instate = xmlParserInputState.XML_PARSER_EOF := by
    rw [e]
  refine ⟨h1, h2, by rw [e], fun calls => htmlParseChunk_eof_calls lim calls _ h1 h2⟩

/-- Witness for C12: the final call with the stack html, body, p open and the
parser in the content state. -/
theorem C12_end_of_input_witness :
    (htmlParseChunk xmlDefaultLimits
        { htmlNewSAXParserCtxt htmlSinkHandler with
          nameTab := [bytes "p", bytes "body", bytes "html"],
          instate := xmlParserInputState.XML_PARSER_CONTENT } [] true).events =
      [saxEvent.endElement (bytes "p"), saxEvent.endElement (bytes "body"),
        saxEvent.endElement (bytes "html"), saxEvent.endDocument] :=
  (C12_end_of_input xmlDefaultLimits
    { htmlNewSAXParserCtxt htmlSinkHandler with
      nameTab := [bytes "p", bytes "body", bytes "html"],
      instate := xmlParserInputState.XML_PARSER_CONTENT }
    htmlSinkHandler rfl rfl rfl (by decide) rfl).2.2.1


/-! ## What the tokenizer leaves alone -/

theorem tokenFrame_refl (P : htmlError → Prop) (c : htmlParserCtxt) : tokenFrame P c c :=
  ⟨[], by simp, by simp⟩

theorem tokenFrame_trans {P : htmlError → Prop} {a b c : htmlParserCtxt}
    (h1 : tokenFrame P a b) (h2 : tokenFrame P b c) : tokenFrame P a c := by
  obtain ⟨e1, he1, h1⟩ := h1
  obtain ⟨e2, he2, h2⟩ := h2
  refine ⟨e1 ++ e2, ?_, ?_⟩
  · intro e he
    rcases List.mem_append.mp he with h | h
    · exact he1 e h
    · exact he2 e h
  · rw [h2, h1]
    simp

theorem tokenFrame_mono {P Q : htmlError → Prop} {a b : htmlParserCtxt}
    (hPQ : ∀ e, P e → Q e) (h : tokenFrame P a b) : tokenFrame Q a b := by
  obtain ⟨es, hes, h⟩ := h
  exact ⟨es, fun e he => hPQ e (hes e he), h⟩

theorem tokenFrame_nameTab {P : htmlError → Prop} {c c1 : htmlParserCtxt}
    (h : tokenFrame P c c1) : c1.nameTab = c.nameTab := by
  obtain ⟨e, _, h⟩ := h
  rw [h]

theorem tokenFrame_nameNr {P : htmlError → Prop} {c c1 : htmlParserCtxt}
    (h : tokenFrame P c c1) : c1.nameNr = c.nameNr := by
  unfold htmlParserCtxt.nameNr
  rw [tokenFrame_nameTab h]

theorem tokenFrame_name {P : htmlError → Prop} {c c1 : htmlParserCtxt}
    (h : tokenFrame P c c1) : c1.name = c.name := by
  unfold htmlParserCtxt.name
  rw [tokenFrame_nameTab h]

theorem tokenFrame_events {P : htmlError → Prop} {c c1 : htmlParserCtxt}
    (h : tokenFrame P c c1) : c1.events = c.events := by
  obtain ⟨e, _, h⟩ := h
  rw [h]

theorem tokenFrame_sax {P : htmlError → Prop} {c c1 : htmlParserCtxt}
    (h : tokenFrame P c c1) : c1.sax = c.sax := by
  obtain ⟨e, _, h⟩ := h
  rw [h]

theorem tokenFrame_depth {P : htmlError → Prop} {c c1 : htmlParserCtxt}
    (h : tokenFrame P c c1) : c1.depth = c.depth := by
  obtain ⟨e, _, h⟩ := h
  rw [h]

theorem tokenFrame_html {P : htmlError → Prop} {c c1 : htmlParserCtxt}
    (h : tokenFrame P c c1) : c1.html = c.html := by
  obtain ⟨e, _, h⟩ := h
  rw [h]

theorem tokenFrame_disableSAX {P : htmlError → Prop} {c c1 : htmlParserCtxt}
    (h : tokenFrame P c c1) : c1.disableSAX = c.disableSAX := by
  obtain ⟨e, _, h⟩ := h
  rw [h]

theorem tokenFrame_noImplied {P : htmlError → Prop} {c c1 : htmlParserCtxt}
    (h : tokenFrame P c c1) : c1.noImplied = c.noImplied := by
  obtain ⟨e, _, h⟩ := h
  rw [h]

theorem tokenFrame_errors {P : htmlError → Prop} {c c1 : htmlParserCtxt}
    (h : tokenFrame P c c1) :
    ∃ es : List htmlError, (∀ e ∈ es, P e) ∧ c1.errors = c.errors ++ es := by
  obtain ⟨e, he, h⟩ := h
  exact ⟨e, he, by rw [h]⟩

theorem tokenFrame_htmlParseErr (P : htmlError → Prop) (c : htmlParserCtxt)
    (e : xmlParserErrors) (m : String) (s1 s2 : Option (List Nat))
    (hP : P ⟨e, m, s1, s2, 0⟩) : tokenFrame P c (htmlParseErr c e m s1 s2) :=
  ⟨[⟨e, m, s1, s2, 0⟩], by simpa using hP, rfl⟩

theorem tokenFrame_htmlParseErrInt (P : htmlError → Prop) (c : htmlParserCtxt)
    (e : xmlParserErrors) (m : String) (v : Nat)
    (hP : P ⟨e, m, none, none, v⟩) : tokenFrame P c (htmlParseErrInt c e m v) :=
  ⟨[⟨e, m, none, none, v⟩], by simpa using hP, rfl⟩

theorem tokenFrame_scan {c c1 : htmlParserCtxt}
    (h : c1 = { c with input := c1.input, line := c1.line, col := c1.col,
                       hasEncoding := c1.hasEncoding, encodingError := c1.encodingError,
                       encoder := c1.encoder, declaredEncoding := c1.declaredEncoding }) :
    tokenFrame htmlTokenizerError c c1 :=
  ⟨[], by simp, by rw [h]; simp⟩

theorem tokenFrame_htmlEncodingError (c : htmlParserCtxt) :
    tokenFrame htmlTokenizerError c (htmlEncodingError c) :=
  ⟨[⟨xmlParserErrors.XML_ERR_INVALID_ENCODING, "", none, none, 0⟩],
    by simp [htmlTokenizerError], rfl⟩

theorem tokenFrame_xmlSwitchEncoding (c : htmlParserCtxt) (enc : xmlCharEncoding) :
    tokenFrame htmlTokenizerError c (xmlSwitchEncoding c enc) := by
  cases enc <;> exact tokenFrame_scan rfl

theorem tokenFrame_xmlSwitchEncodingName (c : htmlParserCtxt) (encoding : List Nat) :
    tokenFrame htmlTokenizerError c (xmlSwitchEncodingName c encoding) :=
  tokenFrame_scan rfl

theorem tokenFrame_htmlCurrentChar_switch (c : htmlParserCtxt) :
    tokenFrame htmlTokenizerError c (htmlCurrentChar_switch c) := by
  unfold htmlCurrentChar_switch
  cases htmlFindEncoding c with
  | none =>
    exact tokenFrame_trans (tokenFrame_xmlSwitchEncoding c _) (tokenFrame_scan rfl)
  | some guess =>
    exact tokenFrame_trans (tokenFrame_xmlSwitchEncodingName c guess) (tokenFrame_scan rfl)

theorem tokenFrame_SKIP (c : htmlParserCtxt) (n : Nat) :
    tokenFrame htmlTokenizerError c (SKIP c n) :=
  tokenFrame_scan rfl

theorem tokenFrame_NEXTL (c : htmlParserCtxt) (l : Nat) :
    tokenFrame htmlTokenizerError c (NEXTL c l) := by
  unfold NEXTL
  split_ifs <;> exact tokenFrame_scan rfl

theorem tokenFrame_xmlNextChar (c : htmlParserCtxt) :
    tokenFrame htmlTokenizerError c (xmlNextChar c) := by
  unfold xmlNextChar
  cases hin : c.input with
  | nil => exact tokenFrame_refl _ c
  | cons b rest =>
    simp only
    split_ifs <;> first
      | exact tokenFrame_scan rfl
      | exact tokenFrame_trans (tokenFrame_htmlEncodingError c) (tokenFrame_scan rfl)

theorem tokenFrame_htmlCurrentChar_encoding_error (c : htmlParserCtxt) :
    tokenFrame htmlTokenizerError c (htmlCurrentChar_encoding_error c).1 := by
  unfold htmlCurrentChar_encoding_error
  simp only
  split_ifs
  · exact tokenFrame_trans (tokenFrame_htmlEncodingError c) (tokenFrame_xmlSwitchEncoding _ _)
  · exact tokenFrame_htmlEncodingError c

theorem tokenFrame_htmlCurrentChar_utf8 (c : htmlParserCtxt) :
    tokenFrame htmlTokenizerError c (htmlCurrentChar_utf8 c).1 := by
  unfold htmlCurrentChar_utf8
  lift_lets
  intros
  split_ifs <;> first
    | exact tokenFrame_refl _ c
    | exact tokenFrame_htmlCurrentChar_encoding_error c
    | exact tokenFrame_htmlParseErrInt _ c _ _ _ (by simp [htmlTokenizerError])

theorem tokenFrame_htmlCurrentChar (c : htmlParserCtxt) :
    tokenFrame htmlTokenizerError c (htmlCurrentChar c).1 := by
  unfold htmlCurrentChar
  split_ifs <;> first
    | exact tokenFrame_refl _ c
    | exact tokenFrame_htmlCurrentChar_utf8 c
    | exact tokenFrame_htmlParseErrInt _ c _ _ _ (by simp [htmlTokenizerError])
    | exact tokenFrame_trans (tokenFrame_htmlCurrentChar_switch c)
        (tokenFrame_htmlCurrentChar_utf8 _)

theorem tokenFrame_htmlSkipBlankChars_loop (lim : xmlLimits) :
    ∀ (fuel : Nat) (c : htmlParserCtxt) (res : Nat),
      tokenFrame htmlTokenizerError c (htmlSkipBlankChars_loop lim fuel c res).1 := by
  intro fuel
  induction fuel with
  | zero => intro c res; exact tokenFrame_refl _ c
  | succ n ih =>
    intro c res
    simp only [htmlSkipBlankChars_loop]
    by_cases hb : IS_BLANK_CH (CUR c) = true
    · simp only [hb, if_true]
      refine tokenFrame_trans ?_ (ih _ _)
      split_ifs <;> exact tokenFrame_scan rfl
    · simp only [hb]
      exact tokenFrame_refl _ c

theorem tokenFrame_htmlSkipBlankChars (lim : xmlLimits) (c : htmlParserCtxt) :
    tokenFrame htmlTokenizerError c (htmlSkipBlankChars lim c).1 :=
  tokenFrame_htmlSkipBlankChars_loop lim _ c 0

theorem tokenFrame_htmlParseHTMLName_loop :
    ∀ (room : Nat) (c : htmlParserCtxt) (loc : List Nat),
      tokenFrame htmlTokenizerError c (htmlParseHTMLName_loop room c loc).1 := by
  intro room
  induction room with
  | zero => intro c loc; exact tokenFrame_refl _ c
  | succ n ih =>
    intro c loc
    simp only [htmlParseHTMLName_loop]
    split_ifs
    · exact tokenFrame_trans (tokenFrame_xmlNextChar c) (ih _ _)
    · exact tokenFrame_refl _ c

theorem tokenFrame_htmlParseHTMLName (c : htmlParserCtxt) :
    tokenFrame htmlTokenizerError c (htmlParseHTMLName c).1 := by
  unfold htmlParseHTMLName
  split_ifs
  · exact tokenFrame_refl _ c
  · exact tokenFrame_htmlParseHTMLName_loop _ c []

theorem tokenFrame_htmlParseNameComplex_loop (lim : xmlLimits) (maxLength : Nat) :
    ∀ (fuel : Nat) (c : htmlParserCtxt) (acc : List Nat) (ch l : Nat),
      tokenFrame htmlTokenizerError c
        (htmlParseNameComplex_loop lim maxLength fuel c acc ch l).1 := by
  intro fuel
  induction fuel with
  | zero => intro c acc ch l; exact tokenFrame_refl _ c
  | succ n ih =>
    intro c acc ch l
    simp only [htmlParseNameComplex_loop]
    split_ifs
    · exact tokenFrame_htmlParseErr _ c _ _ _ _ (by simp [htmlTokenizerError])
    · exact tokenFrame_trans (tokenFrame_trans (tokenFrame_NEXTL c l)
        (tokenFrame_htmlCurrentChar _)) (ih _ _ _ _)
    · exact tokenFrame_refl _ c

theorem tokenFrame_htmlParseNameComplex (lim : xmlLimits) (c : htmlParserCtxt) :
    tokenFrame htmlTokenizerError c (htmlParseNameComplex lim c).1 := by
  unfold htmlParseNameComplex
  simp only
  split_ifs <;> first
    | exact tokenFrame_htmlCurrentChar c
    | exact tokenFrame_trans (tokenFrame_htmlCurrentChar c)
        (tokenFrame_htmlParseNameComplex_loop lim _ _ _ _ _ _)

theorem tokenFrame_htmlParseName (lim : xmlLimits) (c : htmlParserCtxt) :
    tokenFrame htmlTokenizerError c (htmlParseName lim c).1 := by
  unfold htmlParseName
  simp only
  split_ifs <;> first
    | exact tokenFrame_refl _ c
    | exact tokenFrame_htmlParseNameComplex lim c
    | exact tokenFrame_scan rfl

theorem tokenFrame_htmlParseEntityRef (lim : xmlLimits) (c : htmlParserCtxt) :
    tokenFrame htmlTokenizerError c (htmlParseEntityRef lim c).1 := by
  have h1 := tokenFrame_trans (tokenFrame_xmlNextChar c) (tokenFrame_htmlParseName lim _)
  unfold htmlParseEntityRef
  split_ifs
  · dsimp only
    split
    · exact tokenFrame_trans h1
        (tokenFrame_htmlParseErr _ _ _ _ _ _ (by simp [htmlTokenizerError]))
    · split_ifs <;> first
        | exact h1
        | exact tokenFrame_trans h1 (tokenFrame_xmlNextChar _)
        | exact tokenFrame_trans h1
            (tokenFrame_htmlParseErr _ _ _ _ _ _ (by simp [htmlTokenizerError]))
  · exact tokenFrame_refl _ c

theorem tokenFrame_htmlParseCharRef_hex_loop :
    ∀ (fuel : Nat) (c : htmlParserCtxt) (val : Nat),
      tokenFrame htmlTokenizerError c (htmlParseCharRef_hex_loop fuel c val).1 := by
  intro fuel
  induction fuel with
  | zero => intro c val; exact tokenFrame_refl _ c
  | succ n ih =>
    intro c val
    simp only [htmlParseCharRef_hex_loop]
    split_ifs <;> first
      | exact tokenFrame_refl _ c
      | exact tokenFrame_trans (tokenFrame_xmlNextChar c) (ih _ _)
      | exact tokenFrame_htmlParseErr _ c _ _ _ _ (by simp [htmlTokenizerError])

theorem tokenFrame_htmlParseCharRef_dec_loop :
    ∀ (fuel : Nat) (c : htmlParserCtxt) (val : Nat),
      tokenFrame htmlTokenizerError c (htmlParseCharRef_dec_loop fuel c val).1 := by
  intro fuel
  induction fuel with
  | zero => intro c val; exact tokenFrame_refl _ c
  | succ n ih =>
    intro c val
    simp only [htmlParseCharRef_dec_loop]
    split_ifs <;> first
      | exact tokenFrame_refl _ c
      | exact tokenFrame_trans (tokenFrame_xmlNextChar c) (ih _ _)
      | exact tokenFrame_htmlParseErr _ c _ _ _ _ (by simp [htmlTokenizerError])

theorem tokenFrame_htmlParseCharRef (c : htmlParserCtxt) :
    tokenFrame htmlTokenizerError c (htmlParseCharRef c).1 := by
  have hx := tokenFrame_trans (tokenFrame_SKIP c 3)
    (tokenFrame_htmlParseCharRef_hex_loop (c.input.length + 1) (SKIP c 3) 0)
  have hd := tokenFrame_trans (tokenFrame_SKIP c 2)
    (tokenFrame_htmlParseCharRef_dec_loop (c.input.length + 1) (SKIP c 2) 0)
  have he : tokenFrame htmlTokenizerError c
      (htmlParseErr c xmlParserErrors.XML_ERR_INVALID_CHARREF
        "htmlParseCharRef: invalid value\n" none none) :=
    tokenFrame_htmlParseErr _ c _ _ _ _ (by simp [htmlTokenizerError])
  have hr : tokenFrame htmlTokenizerError c
      (if CUR c = 0x26 ∧ NXT c 1 = 0x23 ∧ (NXT c 2 = 0x78 ∨ NXT c 2 = 0x58) then
        ((if CUR (htmlParseCharRef_hex_loop (c.input.length + 1) (SKIP c 3) 0).1 = 0x3b then
            xmlNextChar (htmlParseCharRef_hex_loop (c.input.length + 1) (SKIP c 3) 0).1
          else (htmlParseCharRef_hex_loop (c.input.length + 1) (SKIP c 3) 0).1,
          (htmlParseCharRef_hex_loop (c.input.length + 1) (SKIP c 3) 0).2) :
            htmlParserCtxt × Nat)
      else if CUR c = 0x26 ∧ NXT c 1 = 0x23 then
        (if CUR (htmlParseCharRef_dec_loop (c.input.length + 1) (SKIP c 2) 0).1 = 0x3b then
            xmlNextChar (htmlParseCharRef_dec_loop (c.input.length + 1) (SKIP c 2) 0).1
          else (htmlParseCharRef_dec_loop (c.input.length + 1) (SKIP c 2) 0).1,
          (htmlParseCharRef_dec_loop (c.input.length + 1) (SKIP c 2) 0).2)
      else
        (htmlParseErr c xmlParserErrors.XML_ERR_INVALID_CHARREF
          "htmlParseCharRef: invalid value\n" none none, 0)).1 := by
    split_ifs <;> first
      | exact he
      | exact hx
      | exact hd
      | exact tokenFrame_trans hx (tokenFrame_xmlNextChar _)
      | exact tokenFrame_trans hd (tokenFrame_xmlNextChar _)
  unfold htmlParseCharRef
  simp only
  generalize (if CUR c = 0x26 ∧ NXT c 1 = 0x23 ∧ (NXT c 2 = 0x78 ∨ NXT c 2 = 0x58) then
        ((if CUR (htmlParseCharRef_hex_loop (c.input.length + 1) (SKIP c 3) 0).1 = 0x3b then
            xmlNextChar (htmlParseCharRef_hex_loop (c.input.length + 1) (SKIP c 3) 0).1
          else (htmlParseCharRef_hex_loop (c.input.length + 1) (SKIP c 3) 0).1,
          (htmlParseCharRef_hex_loop (c.input.length + 1) (SKIP c 3) 0).2) :
            htmlParserCtxt × Nat)
      else if CUR c = 0x26 ∧ NXT c 1 = 0x23 then
        (if CUR (htmlParseCharRef_dec_loop (c.input.length + 1) (SKIP c 2) 0).1 = 0x3b then
            xmlNextChar (htmlParseCharRef_dec_loop (c.input.length + 1) (SKIP c 2) 0).1
          else (htmlParseCharRef_dec_loop (c.input.length + 1) (SKIP c 2) 0).1,
          (htmlParseCharRef_dec_loop (c.input.length + 1) (SKIP c 2) 0).2)
      else
        (htmlParseErr c xmlParserErrors.XML_ERR_INVALID_CHARREF
          "htmlParseCharRef: invalid value\n" none none, 0)) = r at hr ⊢
  split_ifs <;> first
    | exact hr
    | exact tokenFrame_trans hr
        (tokenFrame_htmlParseErr _ _ _ _ _ _ (by simp [htmlTokenizerError]))
    | exact tokenFrame_trans hr
        (tokenFrame_htmlParseErrInt _ _ _ _ _ (by simp [htmlTokenizerError]))


theorem tokenFrame_htmlParseHTMLAttribute_step (lim : xmlLimits) (c : htmlParserCtxt) :
    tokenFrame htmlTokenizerError c (htmlParseHTMLAttribute_step lim c).1 := by
  unfold htmlParseHTMLAttribute_step
  split_ifs
  · exact tokenFrame_htmlParseCharRef c
  · dsimp only
    split
    · exact tokenFrame_htmlParseEntityRef lim c
    · split <;> exact tokenFrame_htmlParseEntityRef lim c
  · exact tokenFrame_trans (tokenFrame_htmlCurrentChar c) (tokenFrame_NEXTL _ _)

theorem tokenFrame_htmlParseHTMLAttribute_loop (lim : xmlLimits) (stop maxLength : Nat) :
    ∀ (fuel : Nat) (c : htmlParserCtxt) (out : List Nat),
      tokenFrame htmlTokenizerError c
        (htmlParseHTMLAttribute_loop lim stop maxLength fuel c out).1 := by
  intro fuel
  induction fuel with
  | zero => intro c out; exact tokenFrame_refl _ c
  | succ n ih =>
    intro c out
    simp only [htmlParseHTMLAttribute_loop]
    split_ifs <;> first
      | exact tokenFrame_refl _ c
      | exact tokenFrame_trans (tokenFrame_htmlParseHTMLAttribute_step lim c)
          (tokenFrame_htmlParseErr _ _ _ _ _ _ (by simp [htmlTokenizerError]))
      | exact tokenFrame_trans (tokenFrame_htmlParseHTMLAttribute_step lim c) (ih _ _)

theorem tokenFrame_htmlParseHTMLAttribute (lim : xmlLimits) (c : htmlParserCtxt) (stop : Nat) :
    tokenFrame htmlTokenizerError c (htmlParseHTMLAttribute lim c stop).1 :=
  tokenFrame_htmlParseHTMLAttribute_loop lim stop _ _ c []

theorem tokenFrame_htmlParseAttValue (lim : xmlLimits) (c : htmlParserCtxt) :
    tokenFrame htmlTokenizerError c (htmlParseAttValue lim c).1 := by
  have hq : ∀ stop, tokenFrame htmlTokenizerError c
      (htmlParseHTMLAttribute lim (xmlNextChar c) stop).1 := fun stop =>
    tokenFrame_trans (tokenFrame_xmlNextChar c) (tokenFrame_htmlParseHTMLAttribute lim _ stop)
  unfold htmlParseAttValue
  split_ifs
  · dsimp only
    split_ifs
    · exact tokenFrame_trans (hq _)
        (tokenFrame_htmlParseErr _ _ _ _ _ _ (by simp [htmlTokenizerError]))
    · exact tokenFrame_trans (hq _) (tokenFrame_xmlNextChar _)
  · dsimp only
    split_ifs
    · exact tokenFrame_trans (hq _)
        (tokenFrame_htmlParseErr _ _ _ _ _ _ (by simp [htmlTokenizerError]))
    · exact tokenFrame_trans (hq _) (tokenFrame_xmlNextChar _)
  · dsimp only
    split
    · exact tokenFrame_trans (tokenFrame_htmlParseHTMLAttribute lim c 0)
        (tokenFrame_htmlParseErr _ _ _ _ _ _ (by simp [htmlTokenizerError]))
    · exact tokenFrame_htmlParseHTMLAttribute lim c 0

theorem tokenFrame_htmlParseAttribute (lim : xmlLimits) (c : htmlParserCtxt) :
    tokenFrame htmlTokenizerError c (htmlParseAttribute lim c).1 := by
  have h1 := tokenFrame_htmlParseHTMLName c
  unfold htmlParseAttribute
  dsimp only
  split
  · exact tokenFrame_trans h1
      (tokenFrame_htmlParseErr _ _ _ _ _ _ (by simp [htmlTokenizerError]))
  · have h2 := tokenFrame_trans h1 (tokenFrame_htmlSkipBlankChars lim _)
    split_ifs
    · exact tokenFrame_trans (tokenFrame_trans (tokenFrame_trans h2 (tokenFrame_xmlNextChar _))
        (tokenFrame_htmlSkipBlankChars lim _)) (tokenFrame_htmlParseAttValue lim _)
    · exact h2

theorem tokenFrame_htmlParseStartTag_dumpAttr :
    ∀ (fuel : Nat) (c : htmlParserCtxt),
      tokenFrame htmlTokenizerError c (htmlParseStartTag_dumpAttr fuel c) := by
  intro fuel
  induction fuel with
  | zero => intro c; exact tokenFrame_refl _ c
  | succ n ih =>
    intro c
    simp only [htmlParseStartTag_dumpAttr]
    split_ifs
    · exact tokenFrame_trans (tokenFrame_xmlNextChar c) (ih _)
    · exact tokenFrame_refl _ c

theorem tokenFrame_htmlParseStartTag_dump :
    ∀ (fuel : Nat) (c : htmlParserCtxt),
      tokenFrame htmlTokenizerError c (htmlParseStartTag_dump fuel c) := by
  intro fuel
  induction fuel with
  | zero => intro c; exact tokenFrame_refl _ c
  | succ n ih =>
    intro c
    simp only [htmlParseStartTag_dump]
    split_ifs
    · exact tokenFrame_trans (tokenFrame_xmlNextChar c) (ih _)
    · exact tokenFrame_refl _ c

theorem tokenFrame_xmlSetDeclaredEncoding (c : htmlParserCtxt) (enc : List Nat) :
    tokenFrame htmlTokenizerError c (xmlSetDeclaredEncoding c enc) := by
  unfold xmlSetDeclaredEncoding
  split_ifs
  · exact tokenFrame_scan rfl
  · exact tokenFrame_refl _ c

theorem tokenFrame_htmlCheckEncoding (c : htmlParserCtxt) (v : Option (List Nat)) :
    tokenFrame htmlTokenizerError c (htmlCheckEncoding c v) := by
  unfold htmlCheckEncoding
  split
  · exact tokenFrame_refl _ c
  · dsimp only
    split
    · split_ifs
      · exact tokenFrame_xmlSetDeclaredEncoding c _
      · exact tokenFrame_refl _ c
    · exact tokenFrame_refl _ c

theorem tokenFrame_htmlCheckMeta_loop :
    ∀ (atts : List (List Nat × Option (List Nat))) (c : htmlParserCtxt) (http : Bool)
      (content : Option (List Nat)),
      tokenFrame htmlTokenizerError c (htmlCheckMeta_loop atts c http content).1 := by
  intro atts
  induction atts with
  | nil => intro c http content; exact tokenFrame_refl _ c
  | cons a rest ih =>
    intro c http content
    obtain ⟨att, value⟩ := a
    cases value with
    | none => simp only [htmlCheckMeta_loop]; exact ih _ _ _
    | some v =>
      simp only [htmlCheckMeta_loop]
      split_ifs <;> first
        | exact ih _ _ _
        | exact tokenFrame_trans (tokenFrame_xmlSetDeclaredEncoding c v) (ih _ _ _)

theorem tokenFrame_htmlCheckMeta (c : htmlParserCtxt)
    (atts : List (List Nat × Option (List Nat))) :
    tokenFrame htmlTokenizerError c (htmlCheckMeta c atts) := by
  unfold htmlCheckMeta
  dsimp only
  split_ifs
  · exact tokenFrame_trans (tokenFrame_htmlCheckMeta_loop atts c false none)
      (tokenFrame_htmlCheckEncoding _ _)
  · exact tokenFrame_htmlCheckMeta_loop atts c false none

/-- The attribute loop of `htmlParseStartTag` changes the scanner fields and
the error log only. -/
theorem tokenFrame_htmlParseStartTag_atts (lim : xmlLimits) :
    ∀ (fuel : Nat) (c : htmlParserCtxt) (atts : List (List Nat × Option (List Nat))),
      tokenFrame (fun e => e.code ≠ xmlParserErrors.XML_HTML_STRUCURE_ERROR) c
        (htmlParseStartTag_atts lim fuel c atts).1 := by
  have hm : ∀ {a b : htmlParserCtxt}, tokenFrame htmlTokenizerError a b →
      tokenFrame (fun e => e.code ≠ xmlParserErrors.XML_HTML_STRUCURE_ERROR) a b :=
    fun h => tokenFrame_mono (fun e he => he.2) h
  intro fuel
  induction fuel with
  | zero => intro c atts; exact tokenFrame_refl _ c
  | succ n ih =>
    intro c atts
    rw [htmlParseStartTag_atts]
    split_ifs
    · dsimp only
      split
      · split_ifs
        · exact tokenFrame_trans (tokenFrame_trans (tokenFrame_trans
            (hm (tokenFrame_htmlParseAttribute lim c))
            (tokenFrame_htmlParseErr _ _ _ _ _ _ (by simp)))
            (hm (tokenFrame_htmlSkipBlankChars lim _))) (ih _ _)
        · exact tokenFrame_trans (tokenFrame_trans (hm (tokenFrame_htmlParseAttribute lim c))
            (hm (tokenFrame_htmlSkipBlankChars lim _))) (ih _ _)
      · exact tokenFrame_trans (tokenFrame_trans (tokenFrame_trans
          (hm (tokenFrame_htmlParseAttribute lim c))
          (hm (tokenFrame_htmlParseStartTag_dumpAttr _ _)))
          (hm (tokenFrame_htmlSkipBlankChars lim _))) (ih _ _)
    · exact tokenFrame_refl _ c


/-! ## The decisions of `htmlParseStartTag` -/

theorem htmlMisplacedReports_zero (c : htmlParserCtxt) (name : List Nat) :
    htmlMisplacedReports c name 0 = c := by
  simp [htmlMisplacedReports]

/-- The loop over the stack that reports a misplaced body tag once per body
entry. -/
theorem htmlParseStartTag_body_fold (name : List Nat) (msg : String) :
    ∀ (n : Nat) (c : htmlParserCtxt),
      (List.range n).foldl (fun c _ =>
          { htmlParseErr c xmlParserErrors.XML_HTML_STRUCURE_ERROR msg (some name) none
            with depth := c.depth + 1 }) c =
        { c with
          depth := c.depth + n,
          errors := c.errors ++ List.replicate n
            ⟨xmlParserErrors.XML_HTML_STRUCURE_ERROR, msg, some name, none, 0⟩,
          errNo := if n = 0 then c.errNo else some xmlParserErrors.XML_HTML_STRUCURE_ERROR } := by
  intro n
  induction n with
  | zero => intro c; simp
  | succ k ih =>
    intro c
    rw [List.range_succ, List.foldl_append, ih]
    simp [htmlParseErr, List.replicate_succ', Nat.add_assoc]

/-- The attributes of a start tag touch the scanner fields and the error log
only, and make no "misplaced" report. -/
theorem tokenFrame_htmlParseStartTag_attsEnd (lim : xmlLimits) (ctxt : htmlParserCtxt)
    (name : List Nat) :
    tokenFrame (fun e => e.code ≠ xmlParserErrors.XML_HTML_STRUCURE_ERROR)
      (htmlMisplacedReports (htmlParseStartTag_judged ctxt name) name
        (htmlMisplacedCount (htmlParseStartTag_judged ctxt name) name))
      (htmlParseStartTag_attsEnd lim ctxt name) := by
  have hm : ∀ {a b : htmlParserCtxt}, tokenFrame htmlTokenizerError a b →
      tokenFrame (fun e => e.code ≠ xmlParserErrors.XML_HTML_STRUCURE_ERROR) a b :=
    fun h => tokenFrame_mono (fun e he => he.2) h
  have h1 : tokenFrame (fun e => e.code ≠ xmlParserErrors.XML_HTML_STRUCURE_ERROR)
      (htmlMisplacedReports (htmlParseStartTag_judged ctxt name) name
        (htmlMisplacedCount (htmlParseStartTag_judged ctxt name) name))
      (htmlParseStartTag_atts lim (2 * (htmlParseStartTag_attsStart lim ctxt name).input.length + 1)
        (htmlParseStartTag_attsStart lim ctxt name) []).1 :=
    tokenFrame_trans (hm (tokenFrame_htmlSkipBlankChars lim _))
      (tokenFrame_htmlParseStartTag_atts lim _ _ [])
  unfold htmlParseStartTag_attsEnd
  split_ifs
  · exact tokenFrame_trans h1 (hm (tokenFrame_htmlCheckMeta _ _))
  · exact h1

/-- The equation of `htmlParseStartTag` on a tag with a name: auto-close and
implied tags come first, then the "misplaced" reports, then the attributes;
the tag is pushed and announced exactly when no "misplaced" report was made. -/
theorem htmlParseStartTag_eq (lim : xmlLimits) (ctxt : htmlParserCtxt) (name : List Nat)
    (hlt : CUR ctxt = 0x3c)
    (hname : (htmlParseHTMLName (xmlNextChar ctxt)).2 = some name) :
    htmlParseStartTag lim ctxt =
      if htmlMisplacedCount (htmlParseStartTag_judged ctxt name) name = 0 then
        (saxCall (htmlnamePush (htmlParseStartTag_attsEnd lim ctxt name) name)
          (fun h => h.startElement)
          (saxEvent.startElement name (htmlParseStartTag_attsOf lim ctxt name)), 0)
      else (htmlParseStartTag_attsEnd lim ctxt name, 1) := by
  unfold htmlParseStartTag_attsEnd htmlParseStartTag_attsOf htmlParseStartTag_attsStart
    htmlParseStartTag_judged
  unfold htmlParseStartTag
  rw [if_neg (not_not.mpr hlt)]
  lift_lets
  intro rn
  have hrn : rn.2 = some name := hname
  split
  · rename_i hnone
    rw [hrn] at hnone
    exact absurd hnone (by simp)
  · rename_i nm hsome
    have hnm : nm = name := by
      rw [hrn] at hsome
      exact (Option.some.inj hsome).symm
    subst hnm
    lift_lets
    intro ismeta c1 c2 e3 c3 d3 e4 c4 d4 nbody c5 discardtag c6 ra atts c7 c8
    have key : c5 = htmlMisplacedReports c2 nm (htmlMisplacedCount c2 nm) ∧
        discardtag = decide (htmlMisplacedCount c2 nm ≠ 0) := by
      by_cases hh : nm = bytes "html"
      · have e1 : ¬ (bytes "html" = bytes "head") := by decide
        have e2 : ¬ (bytes "html" = bytes "body") := by decide
        by_cases hn : c2.nameNr > 0
        · simp [c5, nbody, c4, c3, e3, e4, d3, d4, discardtag, htmlMisplacedCount,
            htmlMisplacedReports, htmlMisplacedMessage, hh, e1, e2, hn, htmlParseErr]
        · simp [c5, nbody, c4, c3, e3, e4, d3, d4, discardtag, htmlMisplacedCount,
            htmlMisplacedReports, htmlMisplacedMessage, hh, e1, e2, hn, htmlParseErr]
      · by_cases hd : nm = bytes "head"
        · have e2 : ¬ (bytes "head" = bytes "body") := by decide
          have e1 : ¬ (bytes "head" = bytes "html") := by decide
          by_cases hn : c2.nameNr = 1
          · simp [c5, nbody, c4, c3, e3, e4, d3, d4, discardtag, htmlMisplacedCount,
              htmlMisplacedReports, htmlMisplacedMessage, hd, e1, e2, hn, htmlParseErr]
          · simp [c5, nbody, c4, c3, e3, e4, d3, d4, discardtag, htmlMisplacedCount,
              htmlMisplacedReports, htmlMisplacedMessage, hd, e1, e2, hn, htmlParseErr]
        · by_cases hb : nm = bytes "body"
          · have e2 : ¬ (bytes "body" = bytes "head") := by decide
            have e1 : ¬ (bytes "body" = bytes "html") := by decide
            have h3 : c3 = c2 := by simp [c3, hb, e1]
            have h4 : c4 = c2 := by simp [c4, h3, hb, e2]
            have hnb : nbody = htmlMisplacedCount c2 nm := by
              simp [nbody, htmlMisplacedCount, hb, e1, e2, h4]
            constructor
            · show (List.range nbody).foldl _ c4 = _
              rw [htmlParseStartTag_body_fold nm _ nbody c4, hnb, h4]
              simp [htmlMisplacedReports, htmlMisplacedMessage, hb, e1, e2]
            · simp [discardtag, d3, d4, hb, e1, e2, hnb, Nat.pos_iff_ne_zero]
          · simp [c5, nbody, c4, c3, e3, e4, d3, d4, discardtag, htmlMisplacedCount,
              htmlMisplacedReports, hh, hd, hb]
    rw [← key.1]
    by_cases hk : htmlMisplacedCount c2 nm = 0
    · have hdt : discardtag = false := by rw [key.2]; simp [hk]
      simp [c8, c7, atts, ra, c6, ismeta, hdt, hk]
    · have hdt : discardtag = true := by rw [key.2]; simp [hk]
      simp [c8, c7, atts, ra, c6, ismeta, hdt, hk]

/-- The shape of `htmlParseStartTag` on a tag with a name, with the context
after the attributes left abstract. -/
theorem htmlParseStartTag_shape (lim : xmlLimits) (ctxt : htmlParserCtxt) (name : List Nat)
    (hlt : CUR ctxt = 0x3c)
    (hname : (htmlParseHTMLName (xmlNextChar ctxt)).2 = some name) :
    ∃ c7 : htmlParserCtxt,
      tokenFrame (fun e => e.code ≠ xmlParserErrors.XML_HTML_STRUCURE_ERROR)
        (htmlMisplacedReports (htmlParseStartTag_judged ctxt name) name
          (htmlMisplacedCount (htmlParseStartTag_judged ctxt name) name)) c7 ∧
      htmlParseStartTag lim ctxt =
        if htmlMisplacedCount (htmlParseStartTag_judged ctxt name) name = 0 then
          (saxCall (htmlnamePush c7 name) (fun h => h.startElement)
            (saxEvent.startElement name (htmlParseStartTag_attsOf lim ctxt name)), 0)
        else (c7, 1) :=
  ⟨htmlParseStartTag_attsEnd lim ctxt name, tokenFrame_htmlParseStartTag_attsEnd lim ctxt name,
    htmlParseStartTag_eq lim ctxt name hlt hname⟩

/-- An accepted start tag: `htmlParseStartTag` returns 0 only for a tag with a
name on which no "misplaced" report was made. -/
theorem htmlParseStartTag_accepted (lim : xmlLimits) (ctxt : htmlParserCtxt)
    (hacc : (htmlParseStartTag lim ctxt).2 = 0) :
    CUR ctxt = 0x3c ∧ ∃ name : List Nat,
      (htmlParseHTMLName (xmlNextChar ctxt)).2 = some name ∧
      htmlMisplacedCount (htmlParseStartTag_judged ctxt name) name = 0 := by
  by_cases hlt : CUR ctxt = 0x3c
  · refine ⟨hlt, ?_⟩
    cases hn : (htmlParseHTMLName (xmlNextChar ctxt)).2 with
    | none =>
      exfalso
      unfold htmlParseStartTag at hacc
      rw [if_neg (not_not.mpr hlt)] at hacc
      simp only [hn] at hacc
      exact absurd hacc (show ((-1 : Int) = 0) → False by decide)
    | some name =>
      refine ⟨name, rfl, ?_⟩
      obtain ⟨c7, _, heq⟩ := htmlParseStartTag_shape lim ctxt name hlt hn
      by_contra hk
      rw [heq, if_neg hk] at hacc
      exact absurd hacc (show ((1 : Int) = 0) → False by decide)
  · exfalso
    unfold htmlParseStartTag at hacc
    rw [if_pos hlt] at hacc
    exact absurd hacc (show ((-1 : Int) = 0) → False by decide)

/-- The handler block is the same at the moment a start tag is judged. -/
theorem htmlParseStartTag_judged_sax (ctxt : htmlParserCtxt) (name : List Nat) :
    (htmlParseStartTag_judged ctxt name).sax = ctxt.sax := by
  unfold htmlParseStartTag_judged
  rw [elementFrame_sax (elementFrame_htmlCheckImplied _ _),
    elementFrame_sax (elementFrame_htmlAutoClose _ _),
    tokenFrame_sax (tokenFrame_htmlParseHTMLName _), tokenFrame_sax (tokenFrame_xmlNextChar _)]

/-- The end of an element that is closed by its own start tag: after an
accepted start tag that stops at `/>`, or at `>` for an element whose descriptor
has the empty flag, endElement is called and the name is popped. -/
theorem htmlParseElementInternal_void (lim : xmlLimits) (ctxt c8 : htmlParserCtxt)
    (name : List Nat) (stack : List (List Nat)) (h : htmlSAXHandler)
    (hrs : htmlParseStartTag lim ctxt = (c8, 0))
    (htab : c8.nameTab = name :: stack) (hsax : c8.sax = some h) (hend : h.endElement = true)
    (hclose : (CUR c8 = 0x2f ∧ NXT c8 1 = 0x3e) ∨
      (CUR c8 = 0x3e ∧ ∃ i : htmlElemDesc, htmlTagLookup (some name) = some i ∧ i.empty ≠ 0)) :
    (htmlParseElementInternal lim ctxt).events = c8.events ++ [saxEvent.endElement name] ∧
      (htmlParseElementInternal lim ctxt).nameTab = stack := by
  have hnm : c8.name = some name := by simp [htmlParserCtxt.name, htab]
  unfold htmlParseElementInternal
  rw [hrs]
  simp only [hnm]
  rw [if_neg (by decide)]
  have hc2 : ∀ c2 : htmlParserCtxt,
      (if (htmlTagLookup (some name)).isNone = true then
        htmlParseErr c8 xmlParserErrors.XML_HTML_UNKNOWN_TAG "Tag %s invalid\n" (some name) none
      else c8) = c2 →
      c2.input = c8.input ∧ c2.sax = c8.sax ∧ c2.events = c8.events ∧
        c2.nameTab = c8.nameTab := by
    intro c2 h2
    rw [← h2]
    split_ifs <;> exact ⟨rfl, rfl, rfl, rfl⟩
  generalize h2 : (if (htmlTagLookup (some name)).isNone = true then
        htmlParseErr c8 xmlParserErrors.XML_HTML_UNKNOWN_TAG "Tag %s invalid\n" (some name) none
      else c8) = c2
  obtain ⟨hi, hs, he, hn⟩ := hc2 c2 h2
  have hcur : CUR c2 = CUR c8 := by simp [CUR, hi]
  have hnxt : NXT c2 1 = NXT c8 1 := by simp [NXT, hi]
  by_cases hsl : CUR c8 = 0x2f ∧ NXT c8 1 = 0x3e
  · rw [if_pos (by rw [hcur, hnxt]; exact hsl)]
    rw [saxCall_endElement (SKIP c2 2) h (by simp [SKIP, hs, hsax]) hend name]
    simp [htmlnamePop, SKIP, hn, htab, he]
  · rcases hclose with hc | ⟨hgt, i, hlook, hempty⟩
    · exact absurd hc hsl
    · rw [if_neg (by rw [hcur, hnxt]; exact hsl), if_pos (by rw [hcur]; exact hgt)]
      have hf := tokenFrame_xmlNextChar c2
      have e4 : saxCall (xmlNextChar c2) (fun h => h.endElement) (saxEvent.endElement name) =
          { xmlNextChar c2 with
            events := (xmlNextChar c2).events ++ [saxEvent.endElement name] } :=
        saxCall_endElement _ h (by rw [tokenFrame_sax hf, hs, hsax]) hend name
      simp only [hlook, hempty, ne_eq, not_false_eq_true, decide_True, if_true]
      rw [e4]
      have hn3 : (xmlNextChar c2).nameTab = name :: stack := by
        rw [tokenFrame_nameTab hf, hn, htab]
      have he3 : (xmlNextChar c2).events = c8.events := by rw [tokenFrame_events hf, he]
      simp [htmlnamePop, hn3, he3]

/-- The same element closed by its own start tag, in the state START_TAG of the
push parser. -/
theorem htmlParseTryOrFinish_startTag_void (lim : xmlLimits) (ctxt c8 : htmlParserCtxt)
    (name : List Nat) (stack : List (List Nat)) (h : htmlSAXHandler)
    (hrs : htmlParseStartTag lim ctxt = (c8, 0))
    (htab : c8.nameTab = name :: stack) (hsax : c8.sax = some h) (hend : h.endElement = true)
    (hclose : (CUR c8 = 0x2f ∧ NXT c8 1 = 0x3e) ∨
      (CUR c8 = 0x3e ∧ ∃ i : htmlElemDesc, htmlTagLookup (some name) = some i ∧ i.empty ≠ 0)) :
    (htmlParseTryOrFinish_startTag lim ctxt).events =
        c8.events ++ [saxEvent.endElement name] ∧
      (htmlParseTryOrFinish_startTag lim ctxt).nameTab = stack := by
  have hnm : c8.name = some name := by simp [htmlParserCtxt.name, htab]
  unfold htmlParseTryOrFinish_startTag
  rw [hrs]
  simp only [hnm]
  rw [if_neg (by decide)]
  have hc2 : ∀ c2 : htmlParserCtxt,
      (if (htmlTagLookup (some name)).isNone = true then
        htmlParseErr c8 xmlParserErrors.XML_HTML_UNKNOWN_TAG "Tag %s invalid\n" (some name) none
      else c8) = c2 →
      c2.input = c8.input ∧ c2.sax = c8.sax ∧ c2.events = c8.events ∧
        c2.nameTab = c8.nameTab := by
    intro c2 h2
    rw [← h2]
    split_ifs <;> exact ⟨rfl, rfl, rfl, rfl⟩
  generalize h2 : (if (htmlTagLookup (some name)).isNone = true then
        htmlParseErr c8 xmlParserErrors.XML_HTML_UNKNOWN_TAG "Tag %s invalid\n" (some name) none
      else c8) = c2
  obtain ⟨hi, hs, he, hn⟩ := hc2 c2 h2
  have hcur : CUR c2 = CUR c8 := by simp [CUR, hi]
  have hnxt : NXT c2 1 = NXT c8 1 := by simp [NXT, hi]
  by_cases hsl : CUR c8 = 0x2f ∧ NXT c8 1 = 0x3e
  · rw [if_pos (by rw [hcur, hnxt]; exact hsl)]
    rw [saxCall_endElement (SKIP c2 2) h (by simp [SKIP, hs, hsax]) hend name]
    simp [htmlnamePop, SKIP, hn, htab, he]
  · rcases hclose with hc | ⟨hgt, i, hlook, hempty⟩
    · exact absurd hc hsl
    · rw [if_neg (by rw [hcur, hnxt]; exact hsl), if_pos (by rw [hcur]; exact hgt)]
      have hf := tokenFrame_xmlNextChar c2
      have e4 : saxCall (xmlNextChar c2) (fun h => h.endElement) (saxEvent.endElement name) =
          { xmlNextChar c2 with
            events := (xmlNextChar c2).events ++ [saxEvent.endElement name] } :=
        saxCall_endElement _ h (by rw [tokenFrame_sax hf, hs, hsax]) hend name
      simp only [hlook, hempty, ne_eq, not_false_eq_true, decide_True, if_true]
      rw [e4]
      have hn3 : (xmlNextChar c2).nameTab = name :: stack := by
        rw [tokenFrame_nameTab hf, hn, htab]
      have he3 : (xmlNextChar c2).events = c8.events := by rw [tokenFrame_events hf, he]
      simp only [htmlnamePop, hn3]
      split_ifs <;> simp [htmlNodeInfoPush, he3]

/-- C13. Void and self-closed elements: for an accepted start tag that ends
with `/>`, or that ends with `>` and names an element whose descriptor has the
empty flag set, startElement(name) is directly followed by endElement(name) and
the stack is left as it was just before the element was pushed; this holds for
`htmlParseElementInternal` and for the state START_TAG of the push parser. The
descriptors with the empty flag are those of area, base, basefont, br, col,
frame, hr, img, input, isindex, link, meta and param. -/
theorem C13_void_and_self_closed (lim : xmlLimits) (ctxt : htmlParserCtxt)
    (name : List Nat) (h : htmlSAXHandler)
    (hsax : ctxt.sax = some h) (hstart : h.startElement = true) (hend : h.endElement = true)
    (hname : (htmlParseHTMLName (xmlNextChar ctxt)).2 = some name)
    (hacc : (htmlParseStartTag lim ctxt).2 = 0)
    (hclose : (CUR (htmlParseStartTag lim ctxt).1 = 0x2f ∧
        NXT (htmlParseStartTag lim ctxt).1 1 = 0x3e) ∨
      (CUR (htmlParseStartTag lim ctxt).1 = 0x3e ∧
        ∃ i : htmlElemDesc, htmlTagLookup (some name) = some i ∧ i.empty ≠ 0)) :
    (∃ (before : htmlParserCtxt) (atts : List (List Nat × Option (List Nat))),
      (htmlParseStartTag lim ctxt).1 =
        { htmlnamePush before name with
          events := before.events ++ [saxEvent.startElement name atts] } ∧
      (htmlParseElementInternal lim ctxt).events =
        before.events ++ [saxEvent.startElement name atts, saxEvent.endElement name] ∧
      (htmlParseElementInternal lim ctxt).nameTab = before.nameTab ∧
      (htmlParseTryOrFinish_startTag lim ctxt).events =
        before.events ++ [saxEvent.startElement name atts, saxEvent.endElement name] ∧
      (htmlParseTryOrFinish_startTag lim ctxt).nameTab = before.nameTab) ∧
    (html40ElementTable.filter (fun e => e.empty ≠ 0)).map (fun e => e.name) =
      [bytes "area", bytes "base", bytes "basefont", bytes "br", bytes "col", bytes "frame",
        bytes "hr", bytes "img", bytes "input", bytes "isindex", bytes "link", bytes "meta",
        bytes "param"] ∧
    ∀ n ∈ [bytes "area", bytes "base", bytes "basefont", bytes "br", bytes "col",
        bytes "frame", bytes "hr", bytes "img", bytes "input", bytes "isindex", bytes "link",
        bytes "meta", bytes "param"],
      ∃ i : htmlElemDesc, htmlTagLookup (some n) = some i ∧ i.empty ≠ 0 := by
  obtain ⟨hlt, nm, hnm, hk⟩ := htmlParseStartTag_accepted lim ctxt hacc
  have hnn : nm = name := by
    rw [hname] at hnm
    exact (Option.some.inj hnm).symm
  subst hnn
  obtain ⟨c7, hf, heq⟩ := htmlParseStartTag_shape lim ctxt nm hlt hname
  rw [if_pos hk] at heq
  rw [hk, htmlMisplacedReports_zero] at hf
  have hs7 : c7.sax = some h := by
    rw [tokenFrame_sax hf, htmlParseStartTag_judged_sax, hsax]
  have hpush : (htmlnamePush c7 nm).sax = some h := by
    rw [elementFrame_sax (elementFrame_htmlnamePush c7 nm), hs7]
  have hev : (htmlnamePush c7 nm).events = c7.events := by
    unfold htmlnamePush
    dsimp only
    split_ifs <;> rfl
  have htab : (htmlnamePush c7 nm).nameTab = nm :: c7.nameTab := by
    unfold htmlnamePush
    dsimp only
    split_ifs <;> rfl
  have hc8 : saxCall (htmlnamePush c7 nm) (fun h => h.startElement)
      (saxEvent.startElement nm (htmlParseStartTag_attsOf lim ctxt nm)) =
      { htmlnamePush c7 nm with
        events := c7.events ++ [saxEvent.startElement nm (htmlParseStartTag_attsOf lim ctxt nm)] } := by
    rw [saxCall_on _ h _ _ hpush hstart, hev]
  rw [hc8] at heq
  rw [heq] at hclose
  refine ⟨⟨c7, htmlParseStartTag_attsOf lim ctxt nm, by rw [heq], ?_⟩, by decide, by decide⟩
  obtain ⟨a1, a2⟩ := htmlParseElementInternal_void lim ctxt _ nm c7.nameTab h heq htab hpush
    hend hclose
  obtain ⟨b1, b2⟩ := htmlParseTryOrFinish_startTag_void lim ctxt _ nm c7.nameTab h heq htab
    hpush hend hclose
  refine ⟨?_, a2, ?_, b2⟩
  · rw [a1]; simp
  · rw [b1]; simp

/-- Witness for C13: `<br>` read with the stack html, body; the events are
startElement(br), endElement(br) and the stack is html, body again. -/
theorem C13_void_and_self_closed_witness :
    ∃ (before : htmlParserCtxt) (atts : List (List Nat × Option (List Nat))),
      (htmlParseStartTag xmlDefaultLimits
        { htmlNewSAXParserCtxt htmlSinkHandler with
          input := bytes "<br>x", nameTab := [bytes "body", bytes "html"], html := 10 }).1 =
        { htmlnamePush before (bytes "br") with
          events := before.events ++ [saxEvent.startElement (bytes "br") atts] } ∧
      (htmlParseElementInternal xmlDefaultLimits
        { htmlNewSAXParserCtxt htmlSinkHandler with
          input := bytes "<br>x", nameTab := [bytes "body", bytes "html"], html := 10 }).events =
        before.events ++
          [saxEvent.startElement (bytes "br") atts, saxEvent.endElement (bytes "br")] ∧
      (htmlParseElementInternal xmlDefaultLimits
        { htmlNewSAXParserCtxt htmlSinkHandler with
          input := bytes "<br>x", nameTab := [bytes "body", bytes "html"], html := 10 }).nameTab =
        before.nameTab ∧
      (htmlParseTryOrFinish_startTag xmlDefaultLimits
        { htmlNewSAXParserCtxt htmlSinkHandler with
          input := bytes "<br>x", nameTab := [bytes "body", bytes "html"], html := 10 }).events =
        before.events ++
          [saxEvent.startElement (bytes "br") atts, saxEvent.endElement (bytes "br")] ∧
      (htmlParseTryOrFinish_startTag xmlDefaultLimits
        { htmlNewSAXParserCtxt htmlSinkHandler with
          input := bytes "<br>x", nameTab := [bytes "body", bytes "html"], html := 10 }).nameTab =
        before.nameTab :=
  (C13_void_and_self_closed xmlDefaultLimits
    { htmlNewSAXParserCtxt htmlSinkHandler with
      input := bytes "<br>x", nameTab := [bytes "body", bytes "html"], html := 10 }
    (bytes "br") htmlSinkHandler rfl rfl rfl (by decide!) (by decide!)
    (Or.inr ⟨by decide!,
      htmlElemDesc.mk (bytes "br") 0 2 2 1 0 0 1 none, by decide!, by decide⟩)).1


/-! ## Attributes of a start tag -/

theorem htmlRedefinedReports_append (a b : List htmlError) :
    htmlRedefinedReports (a ++ b) = htmlRedefinedReports a ++ htmlRedefinedReports b := by
  simp [htmlRedefinedReports]

/-- The tokenizer makes no report of a repeated attribute. -/
theorem htmlRedefinedReports_tokenFrame {c c1 : htmlParserCtxt}
    (h : tokenFrame htmlTokenizerError c c1) :
    htmlRedefinedReports c1.errors = htmlRedefinedReports c.errors := by
  obtain ⟨es, hes, he⟩ := tokenFrame_errors h
  rw [he, htmlRedefinedReports_append]
  have : htmlRedefinedReports es = [] := by
    unfold htmlRedefinedReports
    rw [List.filter_eq_nil_iff]
    intro e hmem
    simpa using (hes e hmem).1
  rw [this, List.append_nil]

/-- The attribute loop of `htmlParseStartTag` against the attributes it reads:
an attribute whose name is new is appended to the list, and a repeated
attribute is reported and dropped. -/
theorem htmlParseStartTag_atts_spec (lim : xmlLimits) :
    ∀ (fuel : Nat) (c : htmlParserCtxt) (atts : List (List Nat × Option (List Nat))),
      (htmlParseStartTag_atts lim fuel c atts).2 =
        atts ++ (htmlFirstOccurrences (htmlParseStartTag_attsRead lim fuel c atts)).filter
          (fun a => !(atts.any (fun b => b.1 = a.1))) ∧
      htmlRedefinedReports (htmlParseStartTag_atts lim fuel c atts).1.errors =
        htmlRedefinedReports c.errors ++
          (htmlRepeatedNames (atts.map Prod.fst)
            (htmlParseStartTag_attsRead lim fuel c atts)).map htmlAttributeRedefined := by
  intro fuel
  induction fuel with
  | zero =>
    intro c atts
    simp [htmlParseStartTag_atts, htmlParseStartTag_attsRead, htmlFirstOccurrences,
      htmlRepeatedNames]
  | succ n ih =>
    intro c atts
    rw [htmlParseStartTag_atts, htmlParseStartTag_attsRead]
    split_ifs with hcond
    · dsimp only
      have hfa := tokenFrame_htmlParseAttribute lim c
      cases hr : (htmlParseAttribute lim c).2.1 with
      | none =>
        dsimp only
        obtain ⟨i1, i2⟩ := ih (htmlSkipBlankChars lim
          (htmlParseStartTag_dumpAttr ((htmlParseAttribute lim c).1.input.length + 1)
            (htmlParseAttribute lim c).1)).1 atts
        refine ⟨i1, ?_⟩
        rw [i2, htmlRedefinedReports_tokenFrame (tokenFrame_trans (tokenFrame_trans hfa
          (tokenFrame_htmlParseStartTag_dumpAttr _ _)) (tokenFrame_htmlSkipBlankChars lim _))]
      | some attname =>
        dsimp only
        by_cases hdup : atts.any (fun a => decide (a.1 = attname)) = true
        · rw [if_pos hdup, if_pos hdup]
          obtain ⟨i1, i2⟩ := ih (htmlSkipBlankChars lim
            (htmlParseErr (htmlParseAttribute lim c).1 xmlParserErrors.XML_ERR_ATTRIBUTE_REDEFINED
              "Attribute %s redefined\n" (some attname) none)).1 atts
          have hmem : attname ∈ atts.map Prod.fst := by
            rw [List.any_eq_true] at hdup
            obtain ⟨a, ha, hn⟩ := hdup
            exact List.mem_map.mpr ⟨a, ha, by simpa using hn⟩
          constructor
          · rw [i1]
            congr 1
            simp only [htmlFirstOccurrences, List.filter_cons, hdup, Bool.not_true,
              Bool.false_eq_true, if_false, List.filter_filter]
            apply List.filter_congr
            intro x _
            by_cases hx : x.1 = attname
            · have : atts.any (fun b => decide (b.1 = x.1)) = true := by rw [hx]; exact hdup
              simp [this]
            · simp [hx]
          · rw [i2, htmlRedefinedReports_tokenFrame (tokenFrame_htmlSkipBlankChars lim _)]
            simp only [htmlRepeatedNames, hmem, if_true, List.map_cons]
            have : htmlRedefinedReports (htmlParseErr (htmlParseAttribute lim c).1
                xmlParserErrors.XML_ERR_ATTRIBUTE_REDEFINED "Attribute %s redefined\n"
                (some attname) none).errors =
                htmlRedefinedReports c.errors ++ [htmlAttributeRedefined attname] := by
              simp only [htmlParseErr]
              rw [htmlRedefinedReports_append, htmlRedefinedReports_tokenFrame hfa]
              simp [htmlRedefinedReports, htmlAttributeRedefined]
            rw [this]
            simp
        · rw [if_neg hdup, if_neg hdup]
          obtain ⟨i1, i2⟩ := ih (htmlSkipBlankChars lim (htmlParseAttribute lim c).1).1
            (atts ++ [(attname, (htmlParseAttribute lim c).2.2)])
          have hmem : attname ∉ atts.map Prod.fst := by
            intro hm
            apply hdup
            obtain ⟨a, ha, hn⟩ := List.mem_map.mp hm
            exact List.any_eq_true.mpr ⟨a, ha, by simpa using hn⟩
          constructor
          · rw [i1]
            simp only [htmlFirstOccurrences, List.filter_cons, hdup, Bool.not_false, if_true,
              List.filter_filter, List.append_assoc, List.singleton_append]
            congr 2
            apply List.filter_congr
            intro x _
            have hx2 : ¬ attname = x.1 ↔ ¬ x.1 = attname := by
              constructor <;> intro h e <;> exact h e.symm
            by_cases hx : x.1 = attname
            · simp [hx]
            · simp [hx, hx2.mpr hx, List.any_append]
          · rw [i2, htmlRedefinedReports_tokenFrame (tokenFrame_trans hfa
              (tokenFrame_htmlSkipBlankChars lim _))]
            simp [htmlRepeatedNames, hmem]
    · simp [htmlFirstOccurrences, htmlRepeatedNames]

/-- No attribute name occurs twice among the first occurrences. -/
theorem htmlFirstOccurrences_nodup :
    ∀ l : List (List Nat × Option (List Nat)), ((htmlFirstOccurrences l).map Prod.fst).Nodup := by
  intro l
  induction l with
  | nil => simp [htmlFirstOccurrences]
  | cons a rest ih =>
    simp only [htmlFirstOccurrences, List.map_cons, List.nodup_cons]
    constructor
    · intro hmem
      obtain ⟨b, hb, hn⟩ := List.mem_map.mp hmem
      have := (List.mem_filter.mp hb).2
      simp at this
      exact this hn
    · exact List.Nodup.sublist (List.Sublist.map _ (List.filter_sublist _)) ih

/-- The pair kept for a name is the first pair of the list with that name. -/
theorem htmlFirstOccurrences_find (n : List Nat) :
    ∀ l : List (List Nat × Option (List Nat)),
      (htmlFirstOccurrences l).find? (fun a => a.1 = n) = l.find? (fun a => a.1 = n) := by
  intro l
  induction l with
  | nil => simp [htmlFirstOccurrences]
  | cons a rest ih =>
    by_cases ha : a.1 = n
    · simp [htmlFirstOccurrences, ha]
    · simp only [htmlFirstOccurrences, List.find?_cons, ha, decide_False]
      rw [← ih, List.find?_filter]
      congr 1
      funext x
      by_cases hx : x.1 = n
      · have hna : ¬ n = a.1 := fun e => ha e.symm
        simp [hx, hna]
      · simp [hx]

/-- The attribute list that `htmlParseStartTag` collects is the list of the
first occurrences of the attributes read. -/
theorem htmlParseStartTag_attsOf_eq (lim : xmlLimits) (ctxt : htmlParserCtxt)
    (name : List Nat) :
    htmlParseStartTag_attsOf lim ctxt name =
      htmlFirstOccurrences (htmlParseStartTag_read lim ctxt name) := by
  unfold htmlParseStartTag_attsOf htmlParseStartTag_read
  rw [(htmlParseStartTag_atts_spec lim _ _ []).1]
  simp

/-- The error log at the moment a start tag is judged holds the reports of a
repeated attribute that it held before the tag. -/
theorem htmlParseStartTag_judged_redefined (ctxt : htmlParserCtxt) (name : List Nat) :
    htmlRedefinedReports (htmlParseStartTag_judged ctxt name).errors =
      htmlRedefinedReports ctxt.errors := by
  unfold htmlParseStartTag_judged
  rw [elementFrame_errors (elementFrame_htmlCheckImplied _ _),
    elementFrame_errors (elementFrame_htmlAutoClose _ _),
    htmlRedefinedReports_tokenFrame (tokenFrame_trans (tokenFrame_xmlNextChar ctxt)
      (tokenFrame_htmlParseHTMLName _))]

/-- C14. Duplicate attributes: the attribute list that an accepted start tag
passes to startElement is the list of the first occurrences of the attributes
read, in the order read; it holds each name at most once, with the value of
the first occurrence; every later occurrence of a name is reported with
XML_ERR_ATTRIBUTE_REDEFINED, in the order read, and no other report of that
code is made. -/
theorem C14_duplicate_attributes (lim : xmlLimits) (ctxt : htmlParserCtxt) (name : List Nat)
    (h : htmlSAXHandler) (hsax : ctxt.sax = some h) (hstart : h.startElement = true)
    (hname : (htmlParseHTMLName (xmlNextChar ctxt)).2 = some name)
    (hacc : (htmlParseStartTag lim ctxt).2 = 0) :
    (htmlParseStartTag lim ctxt).1.events.getLast? =
        some (saxEvent.startElement name
          (htmlFirstOccurrences (htmlParseStartTag_read lim ctxt name))) ∧
      ((htmlFirstOccurrences (htmlParseStartTag_read lim ctxt name)).map Prod.fst).Nodup ∧
      (∀ n : List Nat,
        (htmlFirstOccurrences (htmlParseStartTag_read lim ctxt name)).find? (fun a => a.1 = n) =
          (htmlParseStartTag_read lim ctxt name).find? (fun a => a.1 = n)) ∧
      htmlRedefinedReports (htmlParseStartTag lim ctxt).1.errors =
        htmlRedefinedReports ctxt.errors ++
          (htmlRepeatedNames [] (htmlParseStartTag_read lim ctxt name)).map
            htmlAttributeRedefined := by
  obtain ⟨hlt, nm, hnm, hk⟩ := htmlParseStartTag_accepted lim ctxt hacc
  have hnn : nm = name := by
    rw [hname] at hnm
    exact (Option.some.inj hnm).symm
  subst hnn
  have heq := htmlParseStartTag_eq lim ctxt nm hlt hname
  rw [if_pos hk] at heq
  have hf := tokenFrame_htmlParseStartTag_attsEnd lim ctxt nm
  rw [hk, htmlMisplacedReports_zero] at hf
  have hs7 : (htmlParseStartTag_attsEnd lim ctxt nm).sax = some h := by
    rw [tokenFrame_sax hf, htmlParseStartTag_judged_sax, hsax]
  have hpush : (htmlnamePush (htmlParseStartTag_attsEnd lim ctxt nm) nm).sax = some h := by
    rw [elementFrame_sax (elementFrame_htmlnamePush _ nm), hs7]
  have herr : (htmlnamePush (htmlParseStartTag_attsEnd lim ctxt nm) nm).errors =
      (htmlParseStartTag_attsEnd lim ctxt nm).errors :=
    elementFrame_errors (elementFrame_htmlnamePush _ nm)
  rw [saxCall_on _ h _ _ hpush hstart, htmlParseStartTag_attsOf_eq] at heq
  refine ⟨?_, htmlFirstOccurrences_nodup _, fun n => htmlFirstOccurrences_find n _, ?_⟩
  · rw [heq]
    simp
  · rw [heq]
    show htmlRedefinedReports (htmlnamePush (htmlParseStartTag_attsEnd lim ctxt nm) nm).errors = _
    rw [herr]
    have hloop := (htmlParseStartTag_atts_spec lim
      (2 * (htmlParseStartTag_attsStart lim ctxt nm).input.length + 1)
      (htmlParseStartTag_attsStart lim ctxt nm) []).2
    have hstartErr : htmlRedefinedReports (htmlParseStartTag_attsStart lim ctxt nm).errors =
        htmlRedefinedReports ctxt.errors := by
      unfold htmlParseStartTag_attsStart
      rw [hk, htmlMisplacedReports_zero,
        htmlRedefinedReports_tokenFrame (tokenFrame_htmlSkipBlankChars lim _),
        htmlParseStartTag_judged_redefined]
    have hend : htmlRedefinedReports (htmlParseStartTag_attsEnd lim ctxt nm).errors =
        htmlRedefinedReports (htmlParseStartTag_atts lim
          (2 * (htmlParseStartTag_attsStart lim ctxt nm).input.length + 1)
          (htmlParseStartTag_attsStart lim ctxt nm) []).1.errors := by
      unfold htmlParseStartTag_attsEnd
      split_ifs
      · exact htmlRedefinedReports_tokenFrame (tokenFrame_htmlCheckMeta _ _)
      · rfl
    rw [hend, hloop, hstartErr]
    rfl

/-- Witness for C14: `<p a=1 b=2 a=3>` read with the stack html, body; the list
passed to startElement is a=1, b=2 and the repeated a is reported once. -/
theorem C14_duplicate_attributes_witness :
    (htmlParseStartTag xmlDefaultLimits
        { htmlNewSAXParserCtxt htmlSinkHandler with
          input := bytes "<p a=1 b=2 a=3>", nameTab := [bytes "body", bytes "html"],
          html := 10 }).1.events.getLast? =
      some (saxEvent.startElement (bytes "p")
        (htmlFirstOccurrences (htmlParseStartTag_read xmlDefaultLimits
          { htmlNewSAXParserCtxt htmlSinkHandler with
            input := bytes "<p a=1 b=2 a=3>", nameTab := [bytes "body", bytes "html"],
            html := 10 } (bytes "p")))) ∧
    htmlFirstOccurrences (htmlParseStartTag_read xmlDefaultLimits
        { htmlNewSAXParserCtxt htmlSinkHandler with
          input := bytes "<p a=1 b=2 a=3>", nameTab := [bytes "body", bytes "html"],
          html := 10 } (bytes "p")) =
      [(bytes "a", some (bytes "1")), (bytes "b", some (bytes "2"))] ∧
    htmlParseStartTag_read xmlDefaultLimits
        { htmlNewSAXParserCtxt htmlSinkHandler with
          input := bytes "<p a=1 b=2 a=3>", nameTab := [bytes "body", bytes "html"],
          html := 10 } (bytes "p") =
      [(bytes "a", some (bytes "1")), (bytes "b", some (bytes "2")),
        (bytes "a", some (bytes "3"))] :=
  ⟨(C14_duplicate_attributes xmlDefaultLimits
    { htmlNewSAXParserCtxt htmlSinkHandler with
      input := bytes "<p a=1 b=2 a=3>", nameTab := [bytes "body", bytes "html"], html := 10 }
    (bytes "p") htmlSinkHandler rfl rfl (by decide!) (by decide!)).1, by decide!, by decide!⟩


/-! ## Implied elements -/

theorem htmlAutoClose_loop_html (t : List Nat) :
    ∀ (fuel : Nat) (c : htmlParserCtxt), (htmlAutoClose_loop t fuel c).html = c.html := by
  intro fuel
  induction fuel with
  | zero => intro c; rfl
  | succ n ih =>
    intro c
    unfold htmlAutoClose_loop
    split
    · rfl
    · split_ifs
      · rw [ih]
        have h1 : ∀ d : htmlParserCtxt, (htmlnamePop d).1.html = d.html := by
          intro d; unfold htmlnamePop; split <;> rfl
        rw [h1]
        unfold saxCall
        split
        · rfl
        · split_ifs <;> rfl
      · rfl

theorem htmlAutoClose_html (c : htmlParserCtxt) (t : Option (List Nat)) :
    (htmlAutoClose c t).html = c.html := by
  unfold htmlAutoClose
  split
  · rfl
  · exact htmlAutoClose_loop_html _ _ _

/-- The html element that `htmlCheckImplied` synthesizes on an empty stack. -/
theorem htmlCheckImplied_root (c : htmlParserCtxt) (h : htmlSAXHandler)
    (hsax : c.sax = some h) (hstart : h.startElement = true) :
    (if c.nameNr = 0 then
        saxCall (htmlnamePush c (bytes "html")) (fun h => h.startElement)
          (saxEvent.startElement (bytes "html") [])
      else c) =
      { c with nameTab := htmlImpliedRoot c.nameTab,
               events := c.events ++ htmlImpliedRootEvents c.nameTab } := by
  cases htab : c.nameTab with
  | nil =>
    have h0 : c.nameNr = 0 := by simp [htmlParserCtxt.nameNr, htab]
    rw [if_pos h0, htmlnamePush_plain c _ (by decide) (by decide),
      saxCall_on _ h _ _ (by simpa using hsax) hstart]
    simp [htmlImpliedRoot, htmlImpliedRootEvents, htab]
  | cons a rest =>
    have h0 : ¬ c.nameNr = 0 := by simp [htmlParserCtxt.nameNr, htab]
    rw [if_neg h0]
    simp [htmlImpliedRoot, htmlImpliedRootEvents]
    rw [← htab]

theorem htmlIsHeadChild_facts {t : List Nat} (ht : htmlIsHeadChild t) :
    t ≠ bytes "html" ∧ t ≠ bytes "body" ∧ t ≠ bytes "head" ∧ t ≠ bytes "noframes" ∧
      t ≠ bytes "frame" ∧ t ≠ bytes "frameset" := by
  rcases ht with h | h | h | h | h | h <;> subst h <;> decide

theorem htmlnamePush_head (c : htmlParserCtxt) (h : c.html < 3) :
    htmlnamePush c (bytes "head") =
      { c with html := 3, nameTab := bytes "head" :: c.nameTab } := by
  unfold htmlnamePush
  have e : ¬ (bytes "head" = bytes "body") := by decide
  simp [h, e]

theorem htmlnamePush_body (c : htmlParserCtxt) (h : c.html < 10) :
    htmlnamePush c (bytes "body") =
      { c with html := 10, nameTab := bytes "body" :: c.nameTab } := by
  unfold htmlnamePush
  have e : ¬ (bytes "body" = bytes "head") := by decide
  simp [h, e]

/-- The implied head: `htmlCheckImplied` on a child of head, with implied tags
enabled, no head or body opened so far and at most one open element. -/
theorem htmlCheckImplied_head (c : htmlParserCtxt) (t : List Nat) (h : htmlSAXHandler)
    (hsax : c.sax = some h) (hstart : h.startElement = true)
    (hni : c.noImplied = false) (ht : htmlIsHeadChild t) (hhtml : c.html < 3)
    (hnr : c.nameNr ≤ 1) :
    htmlCheckImplied c t =
      { c with html := 3,
               nameTab := bytes "head" :: htmlImpliedRoot c.nameTab,
               events := c.events ++ htmlImpliedRootEvents c.nameTab ++
                 [saxEvent.startElement (bytes "head") []] } := by
  obtain ⟨t1, t2, t3, _, _, _⟩ := htmlIsHeadChild_facts ht
  have ht' : t = bytes "script" ∨ t = bytes "style" ∨ t = bytes "meta" ∨ t = bytes "link" ∨
      t = bytes "title" ∨ t = bytes "base" := ht
  unfold htmlCheckImplied
  rw [if_neg (by simp [hni]), if_neg (by decide), if_neg t1,
    htmlCheckImplied_root c h hsax hstart]
  have hlen : (htmlImpliedRoot c.nameTab).length ≤ 1 := by
    unfold htmlImpliedRoot
    split_ifs
    · simp
    · exact hnr
  generalize hc1 : ({ c with
    nameTab := htmlImpliedRoot c.nameTab,
    events := c.events ++ htmlImpliedRootEvents c.nameTab } : htmlParserCtxt) = c1
  have f1 : c1.html = c.html := by rw [← hc1]
  have f2 : c1.sax = some h := by rw [← hc1]; exact hsax
  have f3 : c1.nameNr ≤ 1 := by rw [← hc1]; exact hlen
  dsimp only
  rw [if_neg (not_or.mpr ⟨t2, t3⟩), if_pos ⟨f3, ht'⟩, if_neg (by omega),
    htmlnamePush_head c1 (by omega)]
  simp only [saxCall, f2, hstart, if_true]
  rw [← hc1]
  simp [hsax]

/-- The implied body: `htmlCheckImplied` on a tag that is neither structural nor
frame-related, where the head rule does not apply, with implied tags enabled,
no body opened so far and neither head nor body on the stack. -/
theorem htmlCheckImplied_body (c : htmlParserCtxt) (t : List Nat) (h : htmlSAXHandler)
    (hsax : c.sax = some h) (hstart : h.startElement = true)
    (hni : c.noImplied = false)
    (ht : t ≠ bytes "html" ∧ t ≠ bytes "head" ∧ t ≠ bytes "body" ∧ t ≠ bytes "frame" ∧
      t ≠ bytes "frameset" ∧ t ≠ bytes "noframes")
    (hhead : ¬ (c.nameNr ≤ 1 ∧ htmlIsHeadChild t))
    (hhtml : c.html < 10)
    (hstack : ∀ n ∈ c.nameTab, n ≠ bytes "body" ∧ n ≠ bytes "head") :
    htmlCheckImplied c t =
      { c with html := 10,
               nameTab := bytes "body" :: htmlImpliedRoot c.nameTab,
               events := c.events ++ htmlImpliedRootEvents c.nameTab ++
                 [saxEvent.startElement (bytes "body") []] } := by
  obtain ⟨t1, t2, t3, t4, t5, t6⟩ := ht
  unfold htmlCheckImplied
  rw [if_neg (by simp [hni]), if_neg (by decide), if_neg t1,
    htmlCheckImplied_root c h hsax hstart]
  have hlen : (htmlImpliedRoot c.nameTab).length ≤ 1 → c.nameNr ≤ 1 := by
    unfold htmlImpliedRoot htmlParserCtxt.nameNr
    split_ifs with h0
    · intro _; rw [h0]; simp
    · exact id
  have hany : (htmlImpliedRoot c.nameTab).any
      (fun n => decide (n = bytes "body" ∨ n = bytes "head")) = false := by
    unfold htmlImpliedRoot
    split_ifs
    · decide
    · rw [List.any_eq_false]
      intro n hn
      have := hstack n hn
      simp [this.1, this.2]
  generalize hc1 : ({ c with
    nameTab := htmlImpliedRoot c.nameTab,
    events := c.events ++ htmlImpliedRootEvents c.nameTab } : htmlParserCtxt) = c1
  have f1 : c1.html = c.html := by rw [← hc1]
  have f2 : c1.sax = some h := by rw [← hc1]; exact hsax
  have f3 : c1.nameNr ≤ 1 → c.nameNr ≤ 1 := by rw [← hc1]; exact hlen
  have f4 : c1.nameTab.any (fun n => decide (n = bytes "body" ∨ n = bytes "head")) = false := by
    rw [← hc1]; exact hany
  dsimp only
  rw [if_neg (not_or.mpr ⟨t3, t2⟩), if_neg (fun hc => hhead ⟨f3 hc.1, hc.2⟩),
    if_pos ⟨t6, t4, t5⟩, if_neg (by omega), if_neg (by rw [f4]; simp),
    htmlnamePush_body c1 (by omega)]
  simp only [saxCall, f2, hstart, if_true]
  rw [← hc1]
  simp [hsax]

theorem elementFrame_noImplied {c c1 : htmlParserCtxt} (h : elementFrame c c1) :
    c1.noImplied = c.noImplied := by
  obtain ⟨e, _, h⟩ := h
  rw [h]

theorem elementFrame_depth {c c1 : htmlParserCtxt} (h : elementFrame c c1) :
    c1.depth = c.depth := by
  obtain ⟨e, _, h⟩ := h
  rw [h]

theorem htmlParseStartTag_judged_eq (ctxt : htmlParserCtxt) (name : List Nat) :
    htmlParseStartTag_judged ctxt name =
      htmlCheckImplied (htmlParseStartTag_autoClosed ctxt name) name := rfl

/-- What `htmlAutoClose` leaves of the fields that `htmlCheckImplied` reads. -/
theorem htmlParseStartTag_autoClosed_fields (ctxt : htmlParserCtxt) (name : List Nat) :
    (htmlParseStartTag_autoClosed ctxt name).sax = ctxt.sax ∧
      (htmlParseStartTag_autoClosed ctxt name).noImplied = ctxt.noImplied ∧
      (htmlParseStartTag_autoClosed ctxt name).html = ctxt.html ∧
      (htmlParseStartTag_autoClosed ctxt name).depth = ctxt.depth := by
  have hf := tokenFrame_trans (tokenFrame_xmlNextChar ctxt) (tokenFrame_htmlParseHTMLName _)
  have he := elementFrame_htmlAutoClose (htmlParseHTMLName (xmlNextChar ctxt)).1 (some name)
  unfold htmlParseStartTag_autoClosed
  refine ⟨?_, ?_, ?_, ?_⟩
  · rw [elementFrame_sax he, tokenFrame_sax hf]
  · rw [elementFrame_noImplied he, tokenFrame_noImplied hf]
  · rw [htmlAutoClose_html, tokenFrame_html hf]
  · rw [elementFrame_depth he, tokenFrame_depth hf]

/-- An accepted start tag whose name is none of html, head and body: the tag
is pushed on the stack that `htmlCheckImplied` left and announced after the
events that `htmlCheckImplied` emitted. -/
theorem htmlParseStartTag_plain (lim : xmlLimits) (ctxt : htmlParserCtxt) (name : List Nat)
    (h : htmlSAXHandler) (hsax : ctxt.sax = some h) (hstart : h.startElement = true)
    (hlt : CUR ctxt = 0x3c)
    (hname : (htmlParseHTMLName (xmlNextChar ctxt)).2 = some name)
    (t1 : name ≠ bytes "html") (t2 : name ≠ bytes "head") (t3 : name ≠ bytes "body") :
    (htmlParseStartTag lim ctxt).2 = 0 ∧
      (htmlParseStartTag lim ctxt).1.nameTab =
        name :: (htmlParseStartTag_judged ctxt name).nameTab ∧
      (htmlParseStartTag lim ctxt).1.events =
        (htmlParseStartTag_judged ctxt name).events ++
          [saxEvent.startElement name (htmlParseStartTag_attsOf lim ctxt name)] ∧
      (htmlParseStartTag lim ctxt).1.html = (htmlParseStartTag_judged ctxt name).html := by
  have hk : htmlMisplacedCount (htmlParseStartTag_judged ctxt name) name = 0 := by
    simp [htmlMisplacedCount, t1, t2, t3]
  have heq := htmlParseStartTag_eq lim ctxt name hlt hname
  rw [if_pos hk] at heq
  have hf := tokenFrame_htmlParseStartTag_attsEnd lim ctxt name
  rw [hk, htmlMisplacedReports_zero] at hf
  have hs7 : (htmlParseStartTag_attsEnd lim ctxt name).sax = some h := by
    rw [tokenFrame_sax hf, htmlParseStartTag_judged_sax, hsax]
  rw [htmlnamePush_plain _ _ t2 t3, saxCall_on _ h _ _ (by simpa using hs7) hstart] at heq
  rw [heq]
  refine ⟨rfl, ?_, ?_, ?_⟩
  · simp [tokenFrame_nameTab hf]
  · simp [tokenFrame_events hf]
  · simp [tokenFrame_html hf]

theorem saxCall_nameTab (c : htmlParserCtxt) (cb : htmlSAXHandler → Bool) (ev : saxEvent) :
    (saxCall c cb ev).nameTab = c.nameTab := by
  unfold saxCall
  split
  · rfl
  · split_ifs <;> rfl

theorem htmlnamePush_nameTab (c : htmlParserCtxt) (v : List Nat) :
    (htmlnamePush c v).nameTab = v :: c.nameTab := by
  unfold htmlnamePush
  dsimp only
  split_ifs <;> rfl

/-- With two or more open elements `htmlCheckImplied` pushes no head for a
child of head: it leaves the stack alone or pushes body. -/
theorem htmlCheckImplied_deep (c : htmlParserCtxt) (t : List Nat) (ht : htmlIsHeadChild t)
    (hc : 1 < c.nameNr) :
    (htmlCheckImplied c t).nameTab = c.nameTab ∨
      (htmlCheckImplied c t).nameTab = bytes "body" :: c.nameTab := by
  obtain ⟨u1, u2, u3, u4, u5, u6⟩ := htmlIsHeadChild_facts ht
  have h0 : ¬ c.nameNr = 0 := by omega
  unfold htmlCheckImplied
  by_cases a : c.noImplied = true
  · rw [if_pos a]
    exact Or.inl rfl
  · rw [if_neg a, if_neg (by decide), if_neg u1, if_neg h0]
    dsimp only
    rw [if_neg (not_or.mpr ⟨u2, u3⟩), if_neg (fun hh => by omega), if_pos ⟨u4, u5, u6⟩]
    split_ifs
    · exact Or.inl rfl
    · exact Or.inl rfl
    · right
      rw [saxCall_nameTab, htmlnamePush_nameTab]

/-- C15, as the code behaves. Implied head: when a start tag named script, style, meta,
link, title or base is read with implied tags enabled, no head or body opened
so far in the document (`ctxt->html` below 3) and at most one element left
open by auto-close, `htmlCheckImplied` synthesizes a head element (after the
html element it implies for an empty stack) before the tag is pushed; with two
or more open elements `htmlCheckImplied` pushes no head for such a tag: it
leaves the stack alone or pushes body. -/
theorem C15_implied_head (lim : xmlLimits) (ctxt : htmlParserCtxt) (name : List Nat)
    (h : htmlSAXHandler) (hsax : ctxt.sax = some h) (hstart : h.startElement = true)
    (hlt : CUR ctxt = 0x3c)
    (hname : (htmlParseHTMLName (xmlNextChar ctxt)).2 = some name)
    (ht : htmlIsHeadChild name) (hni : ctxt.noImplied = false) (hhtml : ctxt.html < 3)
    (hnr : (htmlParseStartTag_autoClosed ctxt name).nameNr ≤ 1) :
    (htmlParseStartTag lim ctxt).2 = 0 ∧
      (htmlParseStartTag lim ctxt).1.nameTab =
        name :: bytes "head" ::
          htmlImpliedRoot (htmlParseStartTag_autoClosed ctxt name).nameTab ∧
      (htmlParseStartTag lim ctxt).1.events =
        (htmlParseStartTag_autoClosed ctxt name).events ++
          htmlImpliedRootEvents (htmlParseStartTag_autoClosed ctxt name).nameTab ++
          [saxEvent.startElement (bytes "head") [],
            saxEvent.startElement name (htmlParseStartTag_attsOf lim ctxt name)] ∧
      (htmlParseStartTag lim ctxt).1.html = 3 ∧
      ∀ (c : htmlParserCtxt) (t : List Nat), htmlIsHeadChild t → 1 < c.nameNr →
        (htmlCheckImplied c t).nameTab = c.nameTab ∨
          (htmlCheckImplied c t).nameTab = bytes "body" :: c.nameTab := by
  obtain ⟨t1, t3, t2, _, _, _⟩ := htmlIsHeadChild_facts ht
  obtain ⟨f1, f2, f3, _⟩ := htmlParseStartTag_autoClosed_fields ctxt name
  obtain ⟨p1, p2, p3, p4⟩ := htmlParseStartTag_plain lim ctxt name h hsax hstart hlt hname
    t1 t2 t3
  have hj := htmlCheckImplied_head (htmlParseStartTag_autoClosed ctxt name) name h
    (by rw [f1, hsax]) hstart (by rw [f2, hni]) ht (by rw [f3]; exact hhtml) hnr
  have j1 : (htmlParseStartTag_judged ctxt name).nameTab =
      bytes "head" :: htmlImpliedRoot (htmlParseStartTag_autoClosed ctxt name).nameTab := by
    rw [htmlParseStartTag_judged_eq, hj]
  have j2 : (htmlParseStartTag_judged ctxt name).events =
      (htmlParseStartTag_autoClosed ctxt name).events ++
        htmlImpliedRootEvents (htmlParseStartTag_autoClosed ctxt name).nameTab ++
        [saxEvent.startElement (bytes "head") []] := by
    rw [htmlParseStartTag_judged_eq, hj]
  have j3 : (htmlParseStartTag_judged ctxt name).html = 3 := by
    rw [htmlParseStartTag_judged_eq, hj]
  refine ⟨p1, by rw [p2, j1], ?_, by rw [p4, j3], ?_⟩
  · rw [p3, j2, List.append_assoc _ [saxEvent.startElement (bytes "head") []]]
    rfl
  · intro c t hct hc
    exact htmlCheckImplied_deep c t hct hc

/-- Witness for C15: `<title>` as the first tag of a document; html and head
are implied before title is pushed. -/
theorem C15_implied_head_witness :
    (htmlParseStartTag xmlDefaultLimits
        (htmlCreateMemoryParserCtxt htmlSinkHandler (bytes "<title>x"))).1.nameTab =
      [bytes "title", bytes "head", bytes "html"] :=
  (C15_implied_head xmlDefaultLimits
    (htmlCreateMemoryParserCtxt htmlSinkHandler (bytes "<title>x")) (bytes "title")
    htmlSinkHandler rfl rfl (by decide) (by decide!)
    (Or.inr (Or.inr (Or.inr (Or.inr (Or.inl rfl))))) rfl (by decide) (by decide!)).2.1.trans
    (by decide!)

/-- C15, counterexample. In `<frameset><script>x</script>`, when script
is read no head or body has been opened, yet with html and frameset open the
parser synthesizes body, not head, before script. -/
theorem C15_frameset_script_gets_body :
    (htmlParseDocument xmlDefaultLimits
        (htmlCreateMemoryParserCtxt htmlSinkHandler
          (bytes "<frameset><script>x</script>"))).1.events =
      [saxEvent.setDocumentLocator, saxEvent.startDocument,
        saxEvent.startElement (bytes "html") [], saxEvent.startElement (bytes "frameset") [],
        saxEvent.startElement (bytes "body") [], saxEvent.startElement (bytes "script") [],
        saxEvent.characters (bytes "x"), saxEvent.endElement (bytes "script"),
        saxEvent.endElement (bytes "body"), saxEvent.endElement (bytes "frameset"),
        saxEvent.endElement (bytes "html"), saxEvent.endDocument] := by
  decide!


/-- Once a body has been opened in the document (`ctxt->html` is 10),
`htmlCheckImplied` synthesizes neither head nor body: at most the html element
of an empty stack is pushed. -/
theorem htmlCheckImplied_after_body (c : htmlParserCtxt) (t : List Nat) (hh : 10 ≤ c.html) :
    (htmlCheckImplied c t).nameTab = c.nameTab ∨
      (htmlCheckImplied c t).nameTab = [bytes "html"] := by
  have hroot : ∀ c1 : htmlParserCtxt,
      (if c.nameNr = 0 then
        saxCall (htmlnamePush c (bytes "html")) (fun h => h.startElement)
          (saxEvent.startElement (bytes "html") [])
      else c) = c1 →
      c1.html = c.html ∧ (c1.nameTab = c.nameTab ∨ c1.nameTab = [bytes "html"]) := by
    intro c1 h1
    rw [← h1]
    split_ifs with h0
    · have hnil : c.nameTab = [] := List.length_eq_zero.mp h0
      constructor
      · have e : (saxCall (htmlnamePush c (bytes "html")) (fun h => h.startElement)
            (saxEvent.startElement (bytes "html") [])).html =
            (htmlnamePush c (bytes "html")).html := by
          unfold saxCall
          split
          · rfl
          · split_ifs <;> rfl
        rw [e, htmlnamePush_plain c _ (by decide) (by decide)]
      · right
        rw [saxCall_nameTab, htmlnamePush_nameTab, hnil]
    · exact ⟨rfl, Or.inl rfl⟩
  unfold htmlCheckImplied
  by_cases a : c.noImplied = true
  · rw [if_pos a]
    exact Or.inl rfl
  · rw [if_neg a, if_neg (by decide)]
    by_cases b : t = bytes "html"
    · rw [if_pos b]
      exact Or.inl rfl
    · rw [if_neg b]
      generalize h1 : (if c.nameNr = 0 then
        saxCall (htmlnamePush c (bytes "html")) (fun h => h.startElement)
          (saxEvent.startElement (bytes "html") [])
        else c) = c1
      obtain ⟨r1, r2⟩ := hroot c1 h1
      dsimp only
      split_ifs <;> first
        | exact r2
        | exact absurd (by assumption : ¬ c1.html ≥ 3) (by omega)
        | exact absurd (by assumption : ¬ c1.html ≥ 10) (by omega)

/-- C16, as the code behaves. Implied body: when a start tag that is none of html, head,
body, frame, frameset and noframes is read with implied tags enabled, the
implied-head rule does not apply (the tag is no child of head, or more than one
element is open), no body has been opened so far in the document
(`ctxt->html` below 10) and neither head nor body is on the stack left by
auto-close, `htmlCheckImplied` synthesizes a body element (after the html
element it implies for an empty stack) before the tag is pushed; once a body
has been opened in the document, `htmlCheckImplied` pushes no body, whatever
the stack holds. -/
theorem C16_implied_body (lim : xmlLimits) (ctxt : htmlParserCtxt) (name : List Nat)
    (h : htmlSAXHandler) (hsax : ctxt.sax = some h) (hstart : h.startElement = true)
    (hlt : CUR ctxt = 0x3c)
    (hname : (htmlParseHTMLName (xmlNextChar ctxt)).2 = some name)
    (ht : name ≠ bytes "html" ∧ name ≠ bytes "head" ∧ name ≠ bytes "body" ∧
      name ≠ bytes "frame" ∧ name ≠ bytes "frameset" ∧ name ≠ bytes "noframes")
    (hni : ctxt.noImplied = false)
    (hhead : ¬ ((htmlParseStartTag_autoClosed ctxt name).nameNr ≤ 1 ∧ htmlIsHeadChild name))
    (hhtml : ctxt.html < 10)
    (hstack : ∀ n ∈ (htmlParseStartTag_autoClosed ctxt name).nameTab,
      n ≠ bytes "body" ∧ n ≠ bytes "head") :
    (htmlParseStartTag lim ctxt).2 = 0 ∧
      (htmlParseStartTag lim ctxt).1.nameTab =
        name :: bytes "body" ::
          htmlImpliedRoot (htmlParseStartTag_autoClosed ctxt name).nameTab ∧
      (htmlParseStartTag lim ctxt).1.events =
        (htmlParseStartTag_autoClosed ctxt name).events ++
          htmlImpliedRootEvents (htmlParseStartTag_autoClosed ctxt name).nameTab ++
          [saxEvent.startElement (bytes "body") [],
            saxEvent.startElement name (htmlParseStartTag_attsOf lim ctxt name)] ∧
      (htmlParseStartTag lim ctxt).1.html = 10 ∧
      ∀ (c : htmlParserCtxt) (t : List Nat), 10 ≤ c.html →
        (htmlCheckImplied c t).nameTab = c.nameTab ∨
          (htmlCheckImplied c t).nameTab = [bytes "html"] := by
  obtain ⟨f1, f2, f3, _⟩ := htmlParseStartTag_autoClosed_fields ctxt name
  obtain ⟨p1, p2, p3, p4⟩ := htmlParseStartTag_plain lim ctxt name h hsax hstart hlt hname
    ht.1 ht.2.1 ht.2.2.1
  have hj := htmlCheckImplied_body (htmlParseStartTag_autoClosed ctxt name) name h
    (by rw [f1, hsax]) hstart (by rw [f2, hni]) ht hhead (by rw [f3]; exact hhtml) hstack
  have j1 : (htmlParseStartTag_judged ctxt name).nameTab =
      bytes "body" :: htmlImpliedRoot (htmlParseStartTag_autoClosed ctxt name).nameTab := by
    rw [htmlParseStartTag_judged_eq, hj]
  have j2 : (htmlParseStartTag_judged ctxt name).events =
      (htmlParseStartTag_autoClosed ctxt name).events ++
        htmlImpliedRootEvents (htmlParseStartTag_autoClosed ctxt name).nameTab ++
        [saxEvent.startElement (bytes "body") []] := by
    rw [htmlParseStartTag_judged_eq, hj]
  have j3 : (htmlParseStartTag_judged ctxt name).html = 10 := by
    rw [htmlParseStartTag_judged_eq, hj]
  refine ⟨p1, by rw [p2, j1], ?_, by rw [p4, j3], htmlCheckImplied_after_body⟩
  rw [p3, j2, List.append_assoc _ [saxEvent.startElement (bytes "body") []]]
  rfl

/-- Witness for C16: `<div>` as the first tag of a document; html and body are
implied before div is pushed. -/
theorem C16_implied_body_witness :
    (htmlParseStartTag xmlDefaultLimits
        (htmlCreateMemoryParserCtxt htmlSinkHandler (bytes "<div>x"))).1.nameTab =
      [bytes "div", bytes "body", bytes "html"] :=
  (C16_implied_body xmlDefaultLimits
    (htmlCreateMemoryParserCtxt htmlSinkHandler (bytes "<div>x")) (bytes "div")
    htmlSinkHandler rfl rfl (by decide) (by decide!)
    (by decide) rfl
    (fun hc => by
      rcases hc.2 with e | e | e | e | e | e <;> exact absurd e (by decide))
    (by decide) (by decide!)).2.1.trans (by decide!)

/-- C16, counterexample. In `<body></body><div>x</div>`, when div is read,
neither head nor body is on the stack, yet no body is synthesized, because a
body has been opened before. -/
theorem C16_div_after_body_gets_no_body :
    (htmlParseDocument xmlDefaultLimits
        (htmlCreateMemoryParserCtxt htmlSinkHandler
          (bytes "<body></body><div>x</div>"))).1.events =
      [saxEvent.setDocumentLocator, saxEvent.startDocument,
        saxEvent.startElement (bytes "html") [], saxEvent.startElement (bytes "body") [],
        saxEvent.endElement (bytes "body"), saxEvent.startElement (bytes "div") [],
        saxEvent.characters (bytes "x"), saxEvent.endElement (bytes "div"),
        saxEvent.endElement (bytes "html"), saxEvent.endDocument] := by
  decide!


/-! ## Misplaced html, head and body tags -/

theorem htmlAutoClose_loop_suffix (t : List Nat) :
    ∀ (fuel : Nat) (c : htmlParserCtxt), (htmlAutoClose_loop t fuel c).nameTab <:+ c.nameTab := by
  intro fuel
  induction fuel with
  | zero => intro c; exact List.suffix_refl _
  | succ n ih =>
    intro c
    unfold htmlAutoClose_loop
    split
    · exact List.suffix_refl _
    · rename_i nm _
      split_ifs
      · refine List.IsSuffix.trans (ih _) ?_
        have hp : ∀ d : htmlParserCtxt, (htmlnamePop d).1.nameTab <:+ d.nameTab := by
          intro d
          unfold htmlnamePop
          split
          · exact List.suffix_refl _
          · rename_i ret rest hd
            rw [hd]
            exact List.suffix_cons _ _
        have := hp (saxCall c (fun h => h.endElement) (saxEvent.endElement nm))
        rw [saxCall_nameTab] at this
        exact this
      · exact List.suffix_refl _

theorem htmlAutoClose_suffix (c : htmlParserCtxt) (t : Option (List Nat)) :
    (htmlAutoClose c t).nameTab <:+ c.nameTab := by
  unfold htmlAutoClose
  split
  · exact List.suffix_refl _
  · exact htmlAutoClose_loop_suffix _ _ _

/-- The stack on which a body tag is judged holds no more body entries than the
stack before the tag. -/
theorem htmlParseStartTag_judged_body (ctxt : htmlParserCtxt) :
    ((htmlParseStartTag_judged ctxt (bytes "body")).nameTab.filter
        (fun n => n = bytes "body")).length ≤
      (ctxt.nameTab.filter (fun n => n = bytes "body")).length := by
  have hs : (htmlParseStartTag_autoClosed ctxt (bytes "body")).nameTab <:+ ctxt.nameTab := by
    have h1 := htmlAutoClose_suffix (htmlParseHTMLName (xmlNextChar ctxt)).1
      (some (bytes "body"))
    rw [tokenFrame_nameTab (tokenFrame_trans (tokenFrame_xmlNextChar ctxt)
      (tokenFrame_htmlParseHTMLName _))] at h1
    exact h1
  have hle : ((htmlParseStartTag_autoClosed ctxt (bytes "body")).nameTab.filter
      (fun n => n = bytes "body")).length ≤
      (ctxt.nameTab.filter (fun n => n = bytes "body")).length :=
    List.Sublist.length_le (List.Sublist.filter _ hs.sublist)
  refine le_trans ?_ hle
  rw [htmlParseStartTag_judged_eq]
  generalize htmlParseStartTag_autoClosed ctxt (bytes "body") = c
  unfold htmlCheckImplied
  by_cases a : c.noImplied = true
  · rw [if_pos a]
  · rw [if_neg a, if_neg (by decide), if_neg (by decide)]
    dsimp only
    rw [if_pos (Or.inl rfl)]
    split_ifs with h0
    · rw [saxCall_nameTab, htmlnamePush_nameTab]
      have hnil : c.nameTab = [] := List.length_eq_zero.mp h0
      rw [hnil]
      decide
    · exact le_refl _

theorem htmlStructureReports_append (a b : List htmlError) :
    htmlStructureReports (a ++ b) = htmlStructureReports a ++ htmlStructureReports b := by
  simp [htmlStructureReports]

/-- A function that makes no "misplaced" report leaves their list alone. -/
theorem htmlStructureReports_tokenFrame {c c1 : htmlParserCtxt}
    (h : tokenFrame (fun e => e.code ≠ xmlParserErrors.XML_HTML_STRUCURE_ERROR) c c1) :
    htmlStructureReports c1.errors = htmlStructureReports c.errors := by
  obtain ⟨es, hes, he⟩ := tokenFrame_errors h
  rw [he, htmlStructureReports_append]
  have : htmlStructureReports es = [] := by
    unfold htmlStructureReports
    rw [List.filter_eq_nil_iff]
    intro e hmem
    simpa using hes e hmem
  rw [this, List.append_nil]

/-- The moment a start tag is judged: the depth counter and the "misplaced"
reports are those of the context before the tag. -/
theorem htmlParseStartTag_judged_fields (ctxt : htmlParserCtxt) (name : List Nat) :
    (htmlParseStartTag_judged ctxt name).depth = ctxt.depth ∧
      htmlStructureReports (htmlParseStartTag_judged ctxt name).errors =
        htmlStructureReports ctxt.errors := by
  have hf := tokenFrame_trans (tokenFrame_xmlNextChar ctxt) (tokenFrame_htmlParseHTMLName _)
  unfold htmlParseStartTag_judged
  constructor
  · rw [elementFrame_depth (elementFrame_htmlCheckImplied _ _),
      elementFrame_depth (elementFrame_htmlAutoClose _ _), tokenFrame_depth hf]
  · rw [elementFrame_errors (elementFrame_htmlCheckImplied _ _),
      elementFrame_errors (elementFrame_htmlAutoClose _ _),
      htmlStructureReports_tokenFrame (tokenFrame_mono (fun e he => he.2) hf)]

/-- A discarded start tag: with `k` "misplaced" reports, `k` not 0, the tag is
not pushed and not announced, the depth counter goes up by `k`, the reports
are added to the log and 1 is returned. -/
theorem htmlParseStartTag_discarded (lim : xmlLimits) (ctxt : htmlParserCtxt) (name : List Nat)
    (hlt : CUR ctxt = 0x3c)
    (hname : (htmlParseHTMLName (xmlNextChar ctxt)).2 = some name)
    (hk : htmlMisplacedCount (htmlParseStartTag_judged ctxt name) name ≠ 0) :
    (htmlParseStartTag lim ctxt).2 = 1 ∧
      (htmlParseStartTag lim ctxt).1.nameTab = (htmlParseStartTag_judged ctxt name).nameTab ∧
      (htmlParseStartTag lim ctxt).1.events = (htmlParseStartTag_judged ctxt name).events ∧
      (htmlParseStartTag lim ctxt).1.depth =
        ctxt.depth + htmlMisplacedCount (htmlParseStartTag_judged ctxt name) name ∧
      htmlStructureReports (htmlParseStartTag lim ctxt).1.errors =
        htmlStructureReports ctxt.errors ++
          List.replicate (htmlMisplacedCount (htmlParseStartTag_judged ctxt name) name)
            ⟨xmlParserErrors.XML_HTML_STRUCURE_ERROR, htmlMisplacedMessage name, some name,
              none, 0⟩ := by
  have heq := htmlParseStartTag_eq lim ctxt name hlt hname
  rw [if_neg hk] at heq
  have hf := tokenFrame_htmlParseStartTag_attsEnd lim ctxt name
  obtain ⟨j1, j2⟩ := htmlParseStartTag_judged_fields ctxt name
  rw [heq]
  refine ⟨rfl, ?_, ?_, ?_, ?_⟩
  · show (htmlParseStartTag_attsEnd lim ctxt name).nameTab = _
    rw [tokenFrame_nameTab hf]
    rfl
  · show (htmlParseStartTag_attsEnd lim ctxt name).events = _
    rw [tokenFrame_events hf]
    rfl
  · show (htmlParseStartTag_attsEnd lim ctxt name).depth = _
    rw [tokenFrame_depth hf, ← j1]
    rfl
  · show htmlStructureReports (htmlParseStartTag_attsEnd lim ctxt name).errors = _
    rw [htmlStructureReports_tokenFrame hf, ← j2]
    unfold htmlMisplacedReports
    dsimp only
    rw [htmlStructureReports_append]
    congr 1
    unfold htmlStructureReports
    rw [List.filter_eq_self]
    intro e he
    rw [List.eq_of_mem_replicate he]
    simp

/-- C17. Misplaced structural tags: when `htmlParseStartTag` reads an html tag
while the stack left by auto-close and implied-tag processing is not empty, a
body tag while a body is on that stack, or a head tag while the depth of that
stack is not 1, in a state whose stack holds at most one body, it makes exactly
one XML_HTML_STRUCURE_ERROR report for the tag, emits no event for it, leaves
the stack as auto-close and implied-tag processing left it, adds exactly 1 to
the depth counter and returns 1. -/
theorem C17_misplaced_structural_tags (lim : xmlLimits) (ctxt : htmlParserCtxt)
    (name : List Nat) (hlt : CUR ctxt = 0x3c)
    (hname : (htmlParseHTMLName (xmlNextChar ctxt)).2 = some name)
    (hmis : (name = bytes "html" ∧ 0 < (htmlParseStartTag_judged ctxt name).nameNr) ∨
      (name = bytes "body" ∧ bytes "body" ∈ (htmlParseStartTag_judged ctxt name).nameTab) ∨
      (name = bytes "head" ∧ (htmlParseStartTag_judged ctxt name).nameNr ≠ 1))
    (hbody : (ctxt.nameTab.filter (fun n => n = bytes "body")).length ≤ 1) :
    (htmlParseStartTag lim ctxt).2 = 1 ∧
      (htmlParseStartTag lim ctxt).1.nameTab = (htmlParseStartTag_judged ctxt name).nameTab ∧
      (htmlParseStartTag lim ctxt).1.events = (htmlParseStartTag_judged ctxt name).events ∧
      (htmlParseStartTag lim ctxt).1.depth = ctxt.depth + 1 ∧
      htmlStructureReports (htmlParseStartTag lim ctxt).1.errors =
        htmlStructureReports ctxt.errors ++
          [⟨xmlParserErrors.XML_HTML_STRUCURE_ERROR, htmlMisplacedMessage name, some name,
            none, 0⟩] := by
  have hk : htmlMisplacedCount (htmlParseStartTag_judged ctxt name) name = 1 := by
    rcases hmis with ⟨hn, hpos⟩ | ⟨hn, hmem⟩ | ⟨hn, hne⟩
    · subst hn
      simp [htmlMisplacedCount, hpos]
    · subst hn
      have e1 : ¬ (bytes "body" = bytes "html") := by decide
      have e2 : ¬ (bytes "body" = bytes "head") := by decide
      have hle := le_trans (htmlParseStartTag_judged_body ctxt) hbody
      have hge : 0 < ((htmlParseStartTag_judged ctxt (bytes "body")).nameTab.filter
          (fun n => n = bytes "body")).length :=
        List.length_pos_of_mem (List.mem_filter.mpr ⟨hmem, by simp⟩)
      simp only [htmlMisplacedCount, e1, e2, if_false, if_true]
      omega
    · subst hn
      have e1 : ¬ (bytes "head" = bytes "html") := by decide
      simp [htmlMisplacedCount, e1, hne]
  obtain ⟨d1, d2, d3, d4, d5⟩ := htmlParseStartTag_discarded lim ctxt name hlt hname
    (by rw [hk]; decide)
  rw [hk] at d4 d5
  exact ⟨d1, d2, d3, d4, d5⟩

/-- Witness for C17: `<body>` read with the stack html, body. -/
theorem C17_misplaced_structural_tags_witness :
    (htmlParseStartTag xmlDefaultLimits
        { htmlNewSAXParserCtxt htmlSinkHandler with
          input := bytes "<body>x", nameTab := [bytes "body", bytes "html"],
          html := 10 }).1.depth = 0 + 1 :=
  (C17_misplaced_structural_tags xmlDefaultLimits
    { htmlNewSAXParserCtxt htmlSinkHandler with
      input := bytes "<body>x", nameTab := [bytes "body", bytes "html"], html := 10 }
    (bytes "body") (by decide) (by decide!) (Or.inr (Or.inl ⟨rfl, by decide!⟩))
    (by decide)).2.2.2.1


/-- The stack on which a head tag is judged: with implied tags enabled, the
stack left by auto-close, or the lone html implied for an empty stack. -/
theorem htmlParseStartTag_judged_head (ctxt : htmlParserCtxt) (hni : ctxt.noImplied = false) :
    (htmlParseStartTag_judged ctxt (bytes "head")).nameTab =
      htmlImpliedRoot (htmlParseStartTag_autoClosed ctxt (bytes "head")).nameTab := by
  obtain ⟨_, f2, _, _⟩ := htmlParseStartTag_autoClosed_fields ctxt (bytes "head")
  rw [htmlParseStartTag_judged_eq]
  generalize htmlParseStartTag_autoClosed ctxt (bytes "head") = c at f2 ⊢
  unfold htmlCheckImplied
  rw [if_neg (by rw [f2, hni]; simp), if_neg (by decide), if_neg (by decide)]
  dsimp only
  rw [if_pos (Or.inr rfl)]
  unfold htmlImpliedRoot
  by_cases h0 : c.nameTab = []
  · rw [if_pos (by simp [htmlParserCtxt.nameNr, h0]), if_pos h0, saxCall_nameTab,
      htmlnamePush_nameTab, h0]
  · rw [if_neg (by simpa [htmlParserCtxt.nameNr] using h0), if_neg h0]

/-- C18, as the code behaves. A head start tag is accepted exactly when the stack on which
it is judged, after auto-close and implied-tag processing, holds exactly one
element, whatever its name; in every other case the tag is discarded. With
implied tags enabled an empty stack first receives the implied html, so the
head tag is accepted there and pushed on html; and on a stack with html at its
bottom an accepted head tag finds html as the innermost open element. -/
theorem C18_head_accepted_at_depth_one (lim : xmlLimits) (ctxt : htmlParserCtxt)
    (hlt : CUR ctxt = 0x3c)
    (hname : (htmlParseHTMLName (xmlNextChar ctxt)).2 = some (bytes "head")) :
    (htmlParseStartTag lim ctxt).2 =
        (if (htmlParseStartTag_judged ctxt (bytes "head")).nameNr = 1 then 0 else 1) ∧
      (ctxt.noImplied = false →
        (htmlParseStartTag_autoClosed ctxt (bytes "head")).nameTab = [] →
        (htmlParseStartTag lim ctxt).2 = 0 ∧
          (htmlParseStartTag lim ctxt).1.nameTab = [bytes "head", bytes "html"]) ∧
      ((htmlParseStartTag_judged ctxt (bytes "head")).nameTab.getLast? = some (bytes "html") →
        (htmlParseStartTag lim ctxt).2 = 0 →
        (htmlParseStartTag_judged ctxt (bytes "head")).name = some (bytes "html")) := by
  have heq := htmlParseStartTag_eq lim ctxt (bytes "head") hlt hname
  have e1 : ¬ (bytes "head" = bytes "html") := by decide
  have hkdef : htmlMisplacedCount (htmlParseStartTag_judged ctxt (bytes "head")) (bytes "head") =
      if (htmlParseStartTag_judged ctxt (bytes "head")).nameNr ≠ 1 then 1 else 0 := by
    simp [htmlMisplacedCount, e1]
  have hret : (htmlParseStartTag lim ctxt).2 =
      (if (htmlParseStartTag_judged ctxt (bytes "head")).nameNr = 1 then 0 else 1) := by
    rw [heq, hkdef]
    by_cases h1 : (htmlParseStartTag_judged ctxt (bytes "head")).nameNr = 1
    · simp [h1]
    · simp [h1]
  refine ⟨hret, ?_, ?_⟩
  · intro hni hnil
    have hj := htmlParseStartTag_judged_head ctxt hni
    rw [hnil] at hj
    have hnr : (htmlParseStartTag_judged ctxt (bytes "head")).nameNr = 1 := by
      unfold htmlParserCtxt.nameNr
      rw [hj]
      rfl
    refine ⟨by rw [hret, if_pos hnr], ?_⟩
    have hk : htmlMisplacedCount (htmlParseStartTag_judged ctxt (bytes "head")) (bytes "head")
        = 0 := by rw [hkdef]; simp [hnr]
    have hf := tokenFrame_htmlParseStartTag_attsEnd lim ctxt (bytes "head")
    rw [hk, htmlMisplacedReports_zero] at hf
    rw [heq, if_pos hk]
    show (saxCall _ _ _).nameTab = _
    rw [saxCall_nameTab, htmlnamePush_nameTab, tokenFrame_nameTab hf, hj]
    rfl
  · intro hlast hacc
    rw [hret] at hacc
    have hnr : (htmlParseStartTag_judged ctxt (bytes "head")).nameNr = 1 := by
      by_contra hne
      rw [if_neg hne] at hacc
      exact absurd hacc (by decide)
    unfold htmlParserCtxt.nameNr at hnr
    unfold htmlParserCtxt.name
    match hs : (htmlParseStartTag_judged ctxt (bytes "head")).nameTab, hnr, hlast with
    | [a], _, hl => simpa using hl

/-- Witness for C18: `<head>` read with the stack html is accepted. -/
theorem C18_head_accepted_at_depth_one_witness :
    (htmlParseStartTag xmlDefaultLimits
        { htmlNewSAXParserCtxt htmlSinkHandler with
          input := bytes "<head>x", nameTab := [bytes "html"] }).2 = 0 :=
  (C18_head_accepted_at_depth_one xmlDefaultLimits
    { htmlNewSAXParserCtxt htmlSinkHandler with
      input := bytes "<head>x", nameTab := [bytes "html"] }
    (by decide) (by decide!)).1.trans (by decide!)

/-- C18, counterexample. With implied tags disabled, in
`<div><head>x</head></div>`, when head is read, the innermost open element is
div, not html, yet the stack holds exactly one element and the head tag is
accepted, pushed and announced. -/
theorem C18_head_accepted_on_div :
    (htmlParseDocument xmlDefaultLimits
        { htmlCreateMemoryParserCtxt htmlSinkHandler (bytes "<div><head>x</head></div>") with
          noImplied := true }).1.events =
      [saxEvent.setDocumentLocator, saxEvent.startDocument,
        saxEvent.startElement (bytes "div") [], saxEvent.startElement (bytes "head") [],
        saxEvent.endElement (bytes "head"), saxEvent.startElement (bytes "p") [],
        saxEvent.characters (bytes "x"), saxEvent.endElement (bytes "p"),
        saxEvent.endElement (bytes "div"), saxEvent.endDocument] := by
  decide!


/-! ## The depth counter of discarded tags -/

theorem saxCall_depth (c : htmlParserCtxt) (cb : htmlSAXHandler → Bool) (ev : saxEvent) :
    (saxCall c cb ev).depth = c.depth := by
  unfold saxCall
  split
  · rfl
  · split_ifs <;> rfl

theorem htmlnamePop_depth (c : htmlParserCtxt) : (htmlnamePop c).1.depth = c.depth := by
  unfold htmlnamePop
  split <;> rfl

theorem htmlNodeInfoPop_depth (c : htmlParserCtxt) : (htmlNodeInfoPop c).depth = c.depth := by
  unfold htmlNodeInfoPop
  split_ifs <;> rfl

theorem htmlAutoCloseOnClose_loop_depth (t : List Nat) :
    ∀ (fuel : Nat) (c : htmlParserCtxt), (htmlAutoCloseOnClose_loop t fuel c).depth = c.depth := by
  intro fuel
  induction fuel with
  | zero => intro c; rfl
  | succ n ih =>
    intro c
    unfold htmlAutoCloseOnClose_loop
    split_ifs
    · dsimp only
      rw [ih, htmlnamePop_depth]
      split <;> rw [saxCall_depth] <;> split <;> first | rfl | (split_ifs <;> rfl)
    · rfl

theorem htmlAutoCloseOnClose_depth (c : htmlParserCtxt) (t : List Nat) :
    (htmlAutoCloseOnClose c t).depth = c.depth := by
  unfold htmlAutoCloseOnClose
  dsimp only
  split_ifs
  · exact htmlAutoCloseOnClose_loop_depth _ _ _
  · rfl

/-- The tail of `htmlParseEndTag` lowers the depth counter by one when the depth
guard applies and leaves it alone otherwise. -/
theorem htmlParseEndTag_close_depth (c : htmlParserCtxt) (name : List Nat) :
    (htmlParseEndTag_close c name).1.depth + (if c.depth > 0 ∧
        (name = bytes "html" ∨ name = bytes "body" ∨ name = bytes "head") then 1 else 0) =
      c.depth := by
  unfold htmlParseEndTag_close
  by_cases hg : c.depth > 0 ∧ (name = bytes "html" ∨ name = bytes "body" ∨ name = bytes "head")
  · rw [if_pos hg, if_pos hg]
    show c.depth - 1 + 1 = c.depth
    omega
  · rw [if_neg hg, if_neg hg, Nat.add_zero]
    split_ifs with h2
    · dsimp only
      split_ifs <;> (try rw [htmlnamePop_depth, htmlNodeInfoPop_depth, saxCall_depth]) <;>
        exact htmlAutoCloseOnClose_depth c name
    · rfl

/-- The depth counter after `htmlParseEndTag`, on every path: it is lowered by
one when it is positive and the tag read is html, body or head, and is left as
it was otherwise. -/
theorem htmlParseEndTag_depth (lim : xmlLimits) (c : htmlParserCtxt) :
    (htmlParseEndTag lim c).1.depth = c.depth ∨
      (0 < c.depth ∧ (htmlParseEndTag lim c).1.depth + 1 = c.depth) := by
  unfold htmlParseEndTag
  split_ifs with h1
  · exact Or.inl rfl
  · have hlt : CUR c = 0x3c := by
      by_contra hne
      exact h1 (Or.inl hne)
    have hsl : NXT c 1 = 0x2f := by
      by_contra hne
      exact h1 (Or.inr hne)
    dsimp only
    cases hn : (htmlParseHTMLName (SKIP c 2)).2 with
    | none =>
      left
      exact scanFrame_depth (scanFrame_trans (scanFrame_SKIP c 2)
        (scanFrame_htmlParseHTMLName _))
    | some name =>
      dsimp only
      have hf := scanFrame_trans (scanFrame_trans (scanFrame_SKIP c 2)
        (scanFrame_htmlParseHTMLName _))
        (scanFrame_htmlParseEndTag_gt lim (htmlParseHTMLName (SKIP c 2)).1)
      have hd := htmlParseEndTag_close_depth
        (htmlParseEndTag_gt lim (htmlParseHTMLName (SKIP c 2)).1) name
      rw [scanFrame_depth hf] at hd
      split_ifs at hd with hg
      · right
        exact ⟨hg.1, hd⟩
      · left
        simpa using hd

/-- C19. Depth guard: for an end tag named html, body or head read while the
depth counter is greater than 0, `htmlParseEndTag` lowers the counter by
exactly 1, returns 0, emits no event and leaves the stack as it was; and on
every path of `htmlParseEndTag` the counter is either left as it was or
lowered by 1 from a positive value, so it never goes below 0. -/
theorem C19_depth_guard (lim : xmlLimits) (ctxt : htmlParserCtxt) (name : List Nat)
    (hlt : CUR ctxt = 0x3c) (hsl : NXT ctxt 1 = 0x2f)
    (hname : (htmlParseHTMLName (SKIP ctxt 2)).2 = some name)
    (hn : name = bytes "html" ∨ name = bytes "body" ∨ name = bytes "head")
    (hd : 0 < ctxt.depth) :
    (htmlParseEndTag lim ctxt).2 = 0 ∧
      (htmlParseEndTag lim ctxt).1.depth + 1 = ctxt.depth ∧
      (htmlParseEndTag lim ctxt).1.events = ctxt.events ∧
      (htmlParseEndTag lim ctxt).1.nameTab = ctxt.nameTab ∧
      ∀ c : htmlParserCtxt,
        (htmlParseEndTag lim c).1.depth = c.depth ∨
          (0 < c.depth ∧ (htmlParseEndTag lim c).1.depth + 1 = c.depth) := by
  obtain ⟨c3, hf, heq⟩ := htmlParseEndTag_scan lim ctxt name hlt hsl hname
  have hd3 : c3.depth > 0 := by rw [scanFrame_depth hf]; exact hd
  have hres : htmlParseEndTag_close c3 name = ({ c3 with depth := c3.depth - 1 }, 0) := by
    unfold htmlParseEndTag_close
    rw [if_pos ⟨hd3, hn⟩]
  rw [heq, hres]
  refine ⟨rfl, ?_, ?_, ?_, htmlParseEndTag_depth lim⟩
  · show c3.depth - 1 + 1 = ctxt.depth
    rw [← scanFrame_depth hf]
    omega
  · show c3.events = ctxt.events
    exact scanFrame_events hf
  · show c3.nameTab = ctxt.nameTab
    exact scanFrame_nameTab hf

/-- Witness for C19: `</body>` read with the depth counter at 1 and the stack
html, body. -/
theorem C19_depth_guard_witness :
    (htmlParseEndTag xmlDefaultLimits
        { htmlNewSAXParserCtxt htmlSinkHandler with
          input := bytes "</body>", nameTab := [bytes "body", bytes "html"], html := 10,
          depth := 1 }).1.nameTab = [bytes "body", bytes "html"] :=
  (C19_depth_guard xmlDefaultLimits
    { htmlNewSAXParserCtxt htmlSinkHandler with
      input := bytes "</body>", nameTab := [bytes "body", bytes "html"], html := 10,
      depth := 1 }
    (bytes "body") (by decide) (by decide) (by decide!) (Or.inr (Or.inl rfl))
    (by decide)).2.2.2.1


/-! ## Whitespace in head -/

/-- C20, as the code behaves. Whitespace in head: for a whitespace-only text run flushed
while the innermost open element is head or html (or no element is open),
`areBlanks` returns 1 exactly when the byte at the cursor, which follows the
run, is `<` or the NUL that ends the input; before any other byte it
returns 0. -/
theorem C20_blanks_in_head (ctxt : htmlParserCtxt) (str : List Nat)
    (hws : ∀ b ∈ str, IS_BLANK_CH b = true)
    (hname : ctxt.name = none ∨ ctxt.name = some (bytes "html") ∨
      ctxt.name = some (bytes "head")) :
    areBlanks ctxt str = decide (CUR ctxt = 0 ∨ CUR ctxt = 0x3c) := by
  have hany : str.any (fun b => !IS_BLANK_CH b) = false := by
    rw [List.any_eq_false]
    intro b hb
    simp [hws b hb]
  unfold areBlanks
  rw [hany]
  simp only [Bool.false_eq_true, if_false]
  by_cases h0 : CUR ctxt = 0
  · simp [h0]
  · rw [if_neg h0]
    by_cases hlt : CUR ctxt = 0x3c
    · rw [if_neg (not_not.mpr hlt)]
      rcases hname with hn | hn | hn
      · rw [hn]
        simp [hlt]
      · rw [hn]
        simp [hlt]
      · rw [hn]
        have e : ¬ (bytes "head" = bytes "html") := by decide
        simp [hlt, e]
    · rw [if_pos hlt]
      simp [h0, hlt]

/-- Witness for C20: a blank flushed inside head in front of `<title>`. -/
theorem C20_blanks_in_head_witness :
    areBlanks
        { htmlNewSAXParserCtxt htmlSinkHandler with
          input := bytes "<title>", nameTab := [bytes "head", bytes "html"], html := 3 }
        (bytes " ") = true :=
  (C20_blanks_in_head
    { htmlNewSAXParserCtxt htmlSinkHandler with
      input := bytes "<title>", nameTab := [bytes "head", bytes "html"], html := 3 }
    (bytes " ") (by decide) (Or.inr (Or.inr rfl))).trans (by decide)

/-- C20, counterexample. When a reference follows the run: for a blank
flushed inside head in front of `&amp;`, `areBlanks` returns 0; in the document
`<head> &amp;</head>` the blank is therefore character data, for which head is
closed and body and p are opened. -/
theorem C20_blank_before_reference :
    areBlanks
        { htmlNewSAXParserCtxt htmlSinkHandler with
          input := bytes "&amp;</head>", nameTab := [bytes "head", bytes "html"], html := 3 }
        (bytes " ") = false ∧
    (htmlParseDocument xmlDefaultLimits
        (htmlCreateMemoryParserCtxt htmlSinkHandler (bytes "<head> &amp;</head>"))).1.events =
      [saxEvent.setDocumentLocator, saxEvent.startDocument,
        saxEvent.startElement (bytes "html") [], saxEvent.startElement (bytes "head") [],
        saxEvent.endElement (bytes "head"), saxEvent.startElement (bytes "body") [],
        saxEvent.startElement (bytes "p") [], saxEvent.characters (bytes " "),
        saxEvent.characters (bytes "&"), saxEvent.endElement (bytes "p"),
        saxEvent.endElement (bytes "body"), saxEvent.endElement (bytes "html"),
        saxEvent.endDocument] := by
  constructor
  · decide
  · decide!


/-! ## The lookups against linear scans -/

theorem bsearch_eq_find {α β : Type} (compar : α → β → Int) (key : α) (base : List β)
    (mono : ∀ (i j : Nat) (a b : β), i < j → base[i]? = some a → base[j]? = some b →
      compar key a ≤ 0 → compar key b < 0) :
    bsearch compar key base = base.find? (fun a => decide (compar key a = 0)) := by
  cases hb : bsearch compar key base with
  | none =>
    have hne := bsearch_loop_none compar key base mono (base.length + 1) 0 base.length
      (le_refl _) (by omega) (by intro i a hi; omega)
      (by
        intro i b hi hb
        have := List.getElem?_eq_none hi
        rw [this] at hb
        cases hb)
      hb
    symm
    rw [List.find?_eq_none]
    intro a ha
    simpa using hne a ha
  | some p =>
    obtain ⟨hp, h0⟩ := bsearch_loop_some compar key base _ _ _ p hb
    cases hf : base.find? (fun a => decide (compar key a = 0)) with
    | none =>
      rw [List.find?_eq_none] at hf
      have := hf p hp
      simp [h0] at this
    | some q =>
      have hq0 : compar key q = 0 := by simpa using List.find?_some hf
      have hq := List.mem_of_find?_eq_some hf
      obtain ⟨i, hi, hiq⟩ := List.getElem_of_mem hq
      obtain ⟨j, hj, hjp⟩ := List.getElem_of_mem hp
      have gi : base[i]? = some q := by rw [List.getElem?_eq_getElem hi, hiq]
      have gj : base[j]? = some p := by rw [List.getElem?_eq_getElem hj, hjp]
      rcases Nat.lt_trichotomy i j with hlt | heq | hgt
      · have := mono i j q p hlt gi gj (by omega)
        omega
      · subst heq
        rw [gi] at gj
        exact gj.symm
      · have := mono j i p q hgt gj gi (by omega)
        omega

theorem casemap_eq_zero (b : Nat) : casemap b = 0 ↔ b = 0 := by
  unfold casemap
  by_cases hc : 0x41 ≤ b ∧ b ≤ 0x5A
  · rw [if_pos hc]
    omega
  · rw [if_neg hc]

theorem xmlStrcasecmp_eq_strcmp : ∀ a b : List Nat,
    xmlStrcasecmp a b = strcmp (a.map casemap) (b.map casemap) := by
  intro a
  induction a with
  | nil =>
    intro b
    cases b with
    | nil => simp [xmlStrcasecmp, strcmp]
    | cons y ys => simp [xmlStrcasecmp, strcmp]
  | cons x xs ih =>
    intro b
    cases b with
    | nil => simp [xmlStrcasecmp, strcmp]
    | cons y ys =>
      simp only [xmlStrcasecmp, strcmp, List.map_cons, casemap_eq_zero, ih ys]

theorem htmlCompareTags_trans_le_lt (k : List Nat) (a b : htmlElemDesc)
    (h1 : htmlCompareTags k a ≤ 0) (h2 : htmlCompareTags a.name b < 0) :
    htmlCompareTags k b < 0 := by
  simp only [htmlCompareTags, xmlStrcasecmp_eq_strcmp] at h1 h2 ⊢
  exact strcmp_trans_le_lt _ _ _ h1 h2

/-- The table `html40ElementTable` is strictly increasing for `htmlCompareTags`. -/
theorem html40ElementTable_chain :
    List.Chain' (fun a b => htmlCompareTags a.name b < 0) html40ElementTable := by
  have h : listChainB (fun a b => decide (htmlCompareTags a.name b < 0))
      html40ElementTable = true := by
    decide!
  have := listChainB_chain _ _ h
  simpa using this

theorem html40ElementTable_pairwise :
    List.Pairwise (fun a b => htmlCompareTags a.name b < 0) html40ElementTable := by
  haveI : IsTrans htmlElemDesc (fun a b => htmlCompareTags a.name b < 0) :=
    ⟨fun a b c h1 h2 => htmlCompareTags_trans_le_lt a.name b c (le_of_lt h1) h2⟩
  exact List.chain'_iff_pairwise.mp html40ElementTable_chain

theorem htmlTagLookup_eq_scan (t : List Nat) :
    htmlTagLookup (some t) = htmlTagLookup_scan t := by
  unfold htmlTagLookup htmlTagLookup_scan
  apply bsearch_eq_find
  intro i j a b hij ha hb hle
  have hp := List.pairwise_iff_getElem.mp html40ElementTable_pairwise
  obtain ⟨hi, rfl⟩ := List.getElem?_eq_some.mp ha
  obtain ⟨hj, rfl⟩ := List.getElem?_eq_some.mp hb
  exact htmlCompareTags_trans_le_lt _ _ _ hle (hp i j hi hj hij)

/-- C29. Tag lookup against a linear scan. For every name `t`, `htmlTagLookup`
returns what the scan of `html40ElementTable` from the top returns: the
descriptor whose name equals `t` under the ASCII case-insensitive comparison
when there is one (it is in the table and compares equal), and NULL when no
descriptor compares equal, as for the NULL name. The binary search is right
because the table is strictly increasing in the order of `htmlCompareTags`. -/
theorem C29_htmlTagLookup_scan (t : List Nat) :
    htmlTagLookup (some t) = htmlTagLookup_scan t ∧
      (∀ e, htmlTagLookup (some t) = some e ↔
        (e ∈ html40ElementTable ∧ xmlStrcasecmp t e.name = 0)) ∧
      (htmlTagLookup (some t) = none ↔
        ∀ e ∈ html40ElementTable, xmlStrcasecmp t e.name ≠ 0) ∧
      htmlTagLookup none = none ∧
      List.Chain' (fun a b => htmlCompareTags a.name b < 0) html40ElementTable := by
  refine ⟨htmlTagLookup_eq_scan t, ?_, ?_, rfl, html40ElementTable_chain⟩
  · intro e
    rw [htmlTagLookup_eq_scan]
    unfold htmlTagLookup_scan
    constructor
    · intro h
      exact ⟨List.mem_of_find?_eq_some h, by simpa using List.find?_some h⟩
    · rintro ⟨he, h0⟩
      cases hf : html40ElementTable.find? (fun e => decide (xmlStrcasecmp t e.name = 0)) with
      | none =>
        rw [List.find?_eq_none] at hf
        have := hf e he
        simp [h0] at this
      | some q =>
        have hq0 : xmlStrcasecmp t q.name = 0 := by simpa using List.find?_some hf
        have hq := List.mem_of_find?_eq_some hf
        have hp := List.pairwise_iff_getElem.mp html40ElementTable_pairwise
        obtain ⟨i, hi, hiq⟩ := List.getElem_of_mem hq
        obtain ⟨j, hj, hje⟩ := List.getElem_of_mem he
        rcases Nat.lt_trichotomy i j with hlt | heq | hgt
        · have h1 := hp i j hi hj hlt
          rw [hiq, hje] at h1
          have := htmlCompareTags_trans_le_lt t q e (by simp [htmlCompareTags, hq0]) h1
          simp only [htmlCompareTags] at this
          omega
        · subst heq
          rw [← hiq, ← hje]
        · have h1 := hp j i hj hi hgt
          rw [hiq, hje] at h1
          have := htmlCompareTags_trans_le_lt t e q (by simp [htmlCompareTags, h0]) h1
          simp only [htmlCompareTags] at this
          omega
  · rw [htmlTagLookup_eq_scan]
    unfold htmlTagLookup_scan
    rw [List.find?_eq_none]
    simp

/-- Witness for C29: the upper-case name DIV finds the descriptor of div. -/
theorem C29_htmlTagLookup_scan_witness :
    (htmlTagLookup (some (bytes "DIV"))).map (fun e => e.name) = some (bytes "div") := by
  rw [(C29_htmlTagLookup_scan (bytes "DIV")).1]
  decide!

theorem htmlCheckAutoClose_eq_scan (newtag oldtag : List Nat)
    (hn : 0 ∉ newtag) (ho : 0 ∉ oldtag) :
    htmlCheckAutoClose newtag oldtag = htmlCheckAutoClose_scan newtag oldtag := by
  have hiff := htmlCheckAutoClose_iff newtag oldtag hn ho
  have hscan : htmlCheckAutoClose_scan newtag oldtag = true ↔
      (oldtag, newtag) ∈ htmlStartClose := by
    unfold htmlCheckAutoClose_scan
    simp only [List.any_eq_true, Bool.and_eq_true, decide_eq_true_eq]
    constructor
    · rintro ⟨⟨a, b⟩, hm, h1, h2⟩
      simp only at h1 h2
      rw [← h1, ← h2]
      exact hm
    · intro hm
      exact ⟨_, hm, rfl, rfl⟩
  rw [Bool.eq_iff_iff, hiff, hscan]

/-- C30. Auto-close lookup against a linear scan. For all names `newtag` and
`oldtag` (NUL-free C strings), `htmlCheckAutoClose newtag oldtag` returns 1
exactly when the pair of `oldtag` and `newtag` is an entry of `htmlStartClose`,
as a scan of the table finds it. The binary search is right because the pair
table is strictly increasing in the lexicographic byte order of
`htmlCompareStartClose`. -/
theorem C30_htmlCheckAutoClose_scan (newtag oldtag : List Nat)
    (hn : 0 ∉ newtag) (ho : 0 ∉ oldtag) :
    htmlCheckAutoClose newtag oldtag = htmlCheckAutoClose_scan newtag oldtag ∧
      (htmlCheckAutoClose newtag oldtag = true ↔ (oldtag, newtag) ∈ htmlStartClose) ∧
      List.Chain' (fun a b => htmlCompareStartClose a b < 0) htmlStartClose :=
  ⟨htmlCheckAutoClose_eq_scan newtag oldtag hn ho,
    htmlCheckAutoClose_iff newtag oldtag hn ho, htmlStartClose_chain⟩

/-- Witness for C30: the start tag div closes an open p, as the table says. -/
theorem C30_htmlCheckAutoClose_scan_witness :
    htmlCheckAutoClose (bytes "div") (bytes "p") = true ∧
      htmlCheckAutoClose_scan (bytes "div") (bytes "p") = true :=
  ⟨(C30_htmlCheckAutoClose_scan (bytes "div") (bytes "p") (by decide) (by decide)).2.1.mpr
      (by decide!),
    by decide!⟩


/-! ## Blank skipping -/

theorem htmlColAfterBlanks_cons (col b : Nat) (run : List Nat) :
    htmlColAfterBlanks col (b :: run) =
      htmlColAfterBlanks (if b = 0x0a then 1 else col + 1) run := rfl

theorem htmlSkipBlankChars_loop_run (lim : xmlLimits) :
    ∀ (fuel : Nat) (c : htmlParserCtxt) (res : Nat), c.input.length ≤ fuel →
      htmlSkipBlankChars_loop lim fuel c res =
        ({ c with
            input := c.input.dropWhile IS_BLANK_CH,
            line := c.line + (c.input.takeWhile IS_BLANK_CH).count 0x0a,
            col := htmlColAfterBlanks c.col (c.input.takeWhile IS_BLANK_CH) },
          min (res + (c.input.takeWhile IS_BLANK_CH).length) (max res lim.INT_MAX)) := by
  intro fuel
  induction fuel with
  | zero =>
    intro c res hlen
    have hin : c.input = [] := List.length_eq_zero.mp (Nat.le_zero.mp hlen)
    simp only [htmlSkipBlankChars_loop, hin, List.dropWhile_nil, List.takeWhile_nil,
      List.count_nil, List.length_nil, Nat.add_zero, htmlColAfterBlanks, List.foldl_nil]
    refine Prod.ext ?_ ?_
    · simp only
      rw [← hin]
    · simp
  | succ k ih =>
    intro c res hlen
    cases hin : c.input with
    | nil =>
      have hcur : CUR c = 0 := by simp [CUR, hin]
      simp only [htmlSkipBlankChars_loop, hcur, List.dropWhile_nil, List.takeWhile_nil,
        List.count_nil, List.length_nil, Nat.add_zero, htmlColAfterBlanks, List.foldl_nil]
      rw [if_neg (by decide)]
      refine Prod.ext ?_ ?_
      · simp only
        rw [← hin]
      · simp
    | cons b rest =>
      have hcur : CUR c = b := by simp [CUR, hin]
      rw [hin] at hlen
      simp only [List.length_cons] at hlen
      by_cases hb : IS_BLANK_CH b = true
      · simp only [htmlSkipBlankChars_loop, hcur, hb, if_true, List.dropWhile_cons,
          List.takeWhile_cons, List.length_cons, htmlColAfterBlanks_cons]
        by_cases hnl : b = 0x0a
        · subst hnl
          simp only [if_true]
          rw [ih _ _ (by simp only [hin, List.drop_succ_cons, List.drop_zero]; omega)]
          simp only [hin, List.drop_succ_cons, List.drop_zero, List.count_cons_self]
          refine Prod.ext ?_ ?_
          · simp only
            congr 1
            omega
          · simp only
            split_ifs <;> omega
        · simp only [hnl, if_false]
          rw [ih _ _ (by simp only [hin, List.drop_succ_cons, List.drop_zero]; omega)]
          simp only [hin, List.drop_succ_cons, List.drop_zero]
          rw [List.count_cons_of_ne (Ne.symm hnl)]
          refine Prod.ext rfl ?_
          simp only
          split_ifs <;> omega
      · simp only [Bool.not_eq_true] at hb
        simp only [htmlSkipBlankChars_loop, hcur, hb, Bool.false_eq_true, if_false,
          List.dropWhile_cons, List.takeWhile_cons, List.count_nil, List.length_nil,
          Nat.add_zero, htmlColAfterBlanks, List.foldl_nil]
        refine Prod.ext ?_ ?_
        · simp only
          rw [← hin]
        · simp

theorem IS_BLANK_CH_iff (b : Nat) :
    IS_BLANK_CH b = true ↔ (b = 0x20 ∨ b = 0x09 ∨ b = 0x0a ∨ b = 0x0d) := by
  simp only [IS_BLANK_CH, Bool.or_eq_true, Bool.and_eq_true, decide_eq_true_eq, beq_iff_eq]
  omega

/-- C28, as the code behaves. For every context, `htmlSkipBlankChars` advances
the cursor over the maximal run of blanks at the cursor, where a blank is a
space, a tab, a line feed or a carriage return (the form feed 0x0C is not one),
and stops at the first other byte or at the end of the input. It adds to `line`
exactly the number of line feeds skipped, leaves every field but the cursor,
the line and the column as it was, and returns the number of bytes skipped,
capped at `INT_MAX`. -/
theorem C28_htmlSkipBlankChars (lim : xmlLimits) (ctxt : htmlParserCtxt) :
    htmlSkipBlankChars lim ctxt =
        ({ ctxt with
            input := ctxt.input.dropWhile IS_BLANK_CH,
            line := ctxt.line + (ctxt.input.takeWhile IS_BLANK_CH).count 0x0a,
            col := htmlColAfterBlanks ctxt.col (ctxt.input.takeWhile IS_BLANK_CH) },
          min (ctxt.input.takeWhile IS_BLANK_CH).length lim.INT_MAX) ∧
      ctxt.input =
        ctxt.input.takeWhile IS_BLANK_CH ++ (htmlSkipBlankChars lim ctxt).1.input ∧
      IS_BLANK_CH (CUR (htmlSkipBlankChars lim ctxt).1) = false ∧
      (∀ b : Nat, IS_BLANK_CH b = true ↔ (b = 0x20 ∨ b = 0x09 ∨ b = 0x0a ∨ b = 0x0d)) := by
  have h := htmlSkipBlankChars_loop_run lim ctxt.input.length ctxt 0 (le_refl _)
  have heq : htmlSkipBlankChars lim ctxt =
      ({ ctxt with
          input := ctxt.input.dropWhile IS_BLANK_CH,
          line := ctxt.line + (ctxt.input.takeWhile IS_BLANK_CH).count 0x0a,
          col := htmlColAfterBlanks ctxt.col (ctxt.input.takeWhile IS_BLANK_CH) },
        min (ctxt.input.takeWhile IS_BLANK_CH).length lim.INT_MAX) := by
    unfold htmlSkipBlankChars
    rw [h]
    simp
  refine ⟨heq, ?_, ?_, IS_BLANK_CH_iff⟩
  · rw [heq]
    exact (List.takeWhile_append_dropWhile _ _).symm
  · rw [heq]
    simp only [CUR]
    cases hd : ctxt.input.dropWhile IS_BLANK_CH with
    | nil => rfl
    | cons x xs =>
      have := List.head?_dropWhile_not IS_BLANK_CH ctxt.input
      rw [hd] at this
      simpa using this

/-- C28, counterexample. A form feed is not skipped: on the input 0x0C `A` the
cursor stays on the form feed and the count returned is 0. -/
theorem C28_form_feed_not_skipped :
    htmlSkipBlankChars xmlDefaultLimits
        { htmlNewSAXParserCtxt htmlSinkHandler with input := [0x0c, 0x41] } =
      ({ htmlNewSAXParserCtxt htmlSinkHandler with input := [0x0c, 0x41] }, 0) := by
  decide!

/-! ## Names longer than the name buffer -/

theorem htmlNameChar_facts (b : Nat) (h : htmlNameChar b = true) :
    b < 0x80 ∧ b ≠ 0x0a ∧ b ≠ 0x0d := by
  simp only [htmlNameChar, IS_ASCII_LETTER, IS_ASCII_DIGIT, Bool.or_eq_true, Bool.and_eq_true,
    decide_eq_true_eq, beq_iff_eq] at h
  omega

theorem htmlParseHTMLName_loop_full (rest : List Nat) :
    ∀ (n : List Nat) (room : Nat) (c : htmlParserCtxt) (loc : List Nat),
      n.all htmlNameChar = true → n.length = room → c.input = n ++ rest →
      htmlParseHTMLName_loop room c loc =
        ({ c with input := rest, col := c.col + n.length }, loc ++ n.map htmlLowerByte) := by
  intro n
  induction n with
  | nil =>
    intro room c loc _ hroom hin
    simp only [List.length_nil] at hroom
    subst hroom
    simp only [htmlParseHTMLName_loop, List.map_nil, List.append_nil, List.length_nil,
      Nat.add_zero]
    rw [List.nil_append] at hin
    rw [← hin]
  | cons b bs ih =>
    intro room c loc hall hroom hin
    simp only [List.all_cons, Bool.and_eq_true] at hall
    obtain ⟨f4, f5, f6⟩ := htmlNameChar_facts b hall.1
    have hcur : CUR c = b := by simp [CUR, hin]
    simp only [List.length_cons] at hroom
    subst hroom
    simp only [htmlParseHTMLName_loop, hcur, hall.1, if_true]
    rw [xmlNextChar_ascii c b (bs ++ rest) hin f4 f5 f6]
    rw [ih _ _ _ hall.2 rfl rfl]
    simp only [List.length_cons, List.map_cons, List.append_assoc, List.singleton_append]
    congr 2
    omega

/-- C24, as the code behaves. When the name at the cursor is longer than the
name buffer, that is when `HTML_PARSER_BUFFER_SIZE` (100) name bytes `n` are
followed by whatever `rest` (more name bytes included), `htmlParseHTMLName`
reports nothing and does not yield NULL: it yields the first 100 bytes in lower
case and leaves the cursor right behind them, every other field being as it
was. -/
theorem C24_htmlParseHTMLName_truncates (ctxt : htmlParserCtxt) (n rest : List Nat)
    (hstart : IS_ASCII_LETTER (n.headD 0) = true ∨ n.headD 0 = 0x5f ∨ n.headD 0 = 0x3a ∨
      n.headD 0 = 0x2e)
    (hall : n.all htmlNameChar = true) (hlen : n.length = HTML_PARSER_BUFFER_SIZE)
    (hin : ctxt.input = n ++ rest) :
    htmlParseHTMLName ctxt =
        ({ ctxt with input := rest, col := ctxt.col + HTML_PARSER_BUFFER_SIZE },
          some (n.map htmlLowerByte)) ∧
      (htmlParseHTMLName ctxt).1.errors = ctxt.errors := by
  have hcur : CUR ctxt = n.headD 0 := by
    cases n with
    | nil => simp [HTML_PARSER_BUFFER_SIZE] at hlen
    | cons b bs => simp [CUR, hin]
  have heq : htmlParseHTMLName ctxt =
      ({ ctxt with input := rest, col := ctxt.col + HTML_PARSER_BUFFER_SIZE },
        some (n.map htmlLowerByte)) := by
    unfold htmlParseHTMLName
    rw [if_neg]
    · simp only
      rw [htmlParseHTMLName_loop_full rest n _ ctxt [] hall hlen hin, hlen]
      simp
    · rw [hcur]
      generalize n.headD 0 = x at hstart
      rcases hstart with h | h | h | h
      · simp [h]
      · subst h
        decide
      · subst h
        decide
      · subst h
        decide
  exact ⟨heq, by rw [heq]⟩

/-- Witness for C24: one hundred letters `A` followed by `b>`. -/
theorem C24_htmlParseHTMLName_truncates_witness :
    htmlParseHTMLName
        { htmlNewSAXParserCtxt htmlSinkHandler with
          input := List.replicate 100 0x41 ++ bytes "b>" } =
      ({ htmlNewSAXParserCtxt htmlSinkHandler with
          input := bytes "b>",
          col := (htmlNewSAXParserCtxt htmlSinkHandler).col + HTML_PARSER_BUFFER_SIZE },
        some ((List.replicate 100 0x41).map htmlLowerByte)) :=
  (C24_htmlParseHTMLName_truncates
    { htmlNewSAXParserCtxt htmlSinkHandler with
      input := List.replicate 100 0x41 ++ bytes "b>" }
    (List.replicate 100 0x41) (bytes "b>") (Or.inl (by decide)) (by decide) (by decide) rfl).1

/-- C24, counterexample. A name of 101 letters `a` followed by `>`: no error is
reported and the result is not NULL but the first 100 letters, with the cursor
on the last `a`. -/
theorem C24_long_name_truncated :
    (htmlParseHTMLName
        { htmlNewSAXParserCtxt htmlSinkHandler with
          input := List.replicate 101 0x61 ++ [0x3e] }).2 = some (List.replicate 100 0x61) ∧
      (htmlParseHTMLName
        { htmlNewSAXParserCtxt htmlSinkHandler with
          input := List.replicate 101 0x61 ++ [0x3e] }).1.errors = [] ∧
      (htmlParseHTMLName
        { htmlNewSAXParserCtxt htmlSinkHandler with
          input := List.replicate 101 0x61 ++ [0x3e] }).1.input = [0x61, 0x3e] := by
  decide!


/-! ## The decoder of `htmlCurrentChar` -/

theorem htmlLengthInRange_mk (inp : List Nat) (c1 : htmlParserCtxt) (v k : Nat)
    (hi : c1.input = inp) (h1 : 1 ≤ k) (h4 : k ≤ 4) (hlen : k ≤ inp.length) :
    htmlLengthInRange inp (c1, v, k) := by
  refine ⟨⟨fun h => ?_, fun h => ?_⟩, Or.inr ⟨h1, h4, hlen⟩, hi⟩
  · have h0 : k = 0 := h
    omega
  · rw [h] at hlen
    simp only [List.length_nil] at hlen
    omega

theorem htmlLengthInRange_end (c1 : htmlParserCtxt) (v : Nat) (h : c1.input = []) :
    htmlLengthInRange c1.input (c1, v, 0) :=
  ⟨⟨fun _ => h, fun _ => rfl⟩, Or.inl h, rfl⟩

theorem htmlCurrentChar_switch_latin1 (c : htmlParserCtxt) (hf : htmlFindEncoding c = none) :
    htmlCurrentChar_switch c =
      { c with hasEncoding := true, input := isolat1ToUTF8 c.input,
               encoder := some xmlCharEncoding.XML_CHAR_ENCODING_8859_1 } := by
  unfold htmlCurrentChar_switch
  rw [hf]
  rfl

set_option maxHeartbeats 1000000 in
theorem htmlCurrentChar_utf8_length (c : htmlParserCtxt) (henc : c.hasEncoding = true) :
    htmlLengthInRange c.input (htmlCurrentChar_utf8 c) := by
  have hlen : c.input ≠ [] → 1 ≤ c.input.length := by
    intro h
    cases hin : c.input with
    | nil => exact absurd hin h
    | cons x xs => simp
  have herr : c.input ≠ [] → htmlLengthInRange c.input (htmlCurrentChar_encoding_error c) := by
    intro hne
    obtain ⟨_, h2, _, _, h4⟩ := htmlCurrentChar_encoding_error_spec c henc
    have := hlen hne
    have e : htmlCurrentChar_encoding_error c =
        ((htmlCurrentChar_encoding_error c).1, (htmlCurrentChar_encoding_error c).2.1, 1) := by
      rw [← h4]
    rw [e]
    exact htmlLengthInRange_mk _ _ _ _ h2 (le_refl _) (by decide) this
  unfold htmlCurrentChar_utf8
  by_cases h80 : CUR c &&& 0x80 ≠ 0
  · have h128 := ge_128_of_and_128 _ h80
    have hne : c.input ≠ [] := by
      intro h
      simp [CUR, h] at h128
    have herr := herr hne
    have := hlen hne
    simp only [h80, if_true]
    generalize htmlCurrentChar_encoding_error c = e at herr ⊢
    split_ifs with k1 k2 k3 k4 k5 k6 <;>
      first
      | exact herr
      | exact htmlLengthInRange_mk _ _ _ _ rfl (by decide) (by decide) (by omega)
  · simp only [h80, if_false]
    split_ifs with h0 hne
    · exact htmlLengthInRange_mk _ _ _ _ rfl (le_refl _) (by decide) (hlen hne)
    · exact htmlLengthInRange_end _ _ (by simpa using hne)
    · have hne : c.input ≠ [] := by
        intro h
        simp [CUR, h] at h0
      exact htmlLengthInRange_mk _ _ _ _ rfl (le_refl _) (by decide) (hlen hne)

/-- The length that `htmlCurrentChar` hands back is in range for the input as
the call leaves it, which is the input as it was unless the fallback converts
it. -/
theorem htmlCurrentChar_length (ctxt : htmlParserCtxt) :
    ((htmlCurrentChar ctxt).2.2 = 0 ↔ ctxt.input = []) ∧
      (ctxt.input = [] ∨ (1 ≤ (htmlCurrentChar ctxt).2.2 ∧ (htmlCurrentChar ctxt).2.2 ≤ 4 ∧
        (htmlCurrentChar ctxt).2.2 ≤ (htmlCurrentChar ctxt).1.input.length)) ∧
      ((htmlCurrentChar ctxt).1.input = ctxt.input ∨
        (htmlReadsUTF8 ctxt = false ∧ 0x80 ≤ CUR ctxt ∧
          (htmlCurrentChar ctxt).1.input = isolat1ToUTF8 ctxt.input)) := by
  have key : ∀ (r : htmlParserCtxt × Nat × Nat), htmlLengthInRange r.1.input r →
      (r.1.input = [] ↔ ctxt.input = []) →
      (r.2.2 = 0 ↔ ctxt.input = []) ∧
        (ctxt.input = [] ∨ (1 ≤ r.2.2 ∧ r.2.2 ≤ 4 ∧ r.2.2 ≤ r.1.input.length)) := by
    intro r hr hiff
    obtain ⟨h1, h2, _⟩ := hr
    refine ⟨h1.trans hiff, ?_⟩
    rcases h2 with h2 | h2
    · exact Or.inl (hiff.mp h2)
    · exact Or.inr h2
  have same : ∀ (r : htmlParserCtxt × Nat × Nat), htmlLengthInRange ctxt.input r →
      (r.2.2 = 0 ↔ ctxt.input = []) ∧
        (ctxt.input = [] ∨ (1 ≤ r.2.2 ∧ r.2.2 ≤ 4 ∧ r.2.2 ≤ r.1.input.length)) ∧
        (r.1.input = ctxt.input ∨
          (htmlReadsUTF8 ctxt = false ∧ 0x80 ≤ CUR ctxt ∧
            r.1.input = isolat1ToUTF8 ctxt.input)) := by
    intro r hr
    have h3 := hr.2.2
    have := key r (by rw [h3]; exact hr) (by rw [h3])
    exact ⟨this.1, this.2, Or.inl h3⟩
  have hlen : ctxt.input ≠ [] → 1 ≤ ctxt.input.length := by
    intro h
    cases hin : ctxt.input with
    | nil => exact absurd hin h
    | cons x xs => simp
  have fin : ∀ (r : htmlParserCtxt × Nat × Nat), htmlCurrentChar ctxt = r →
      htmlLengthInRange ctxt.input r →
      ((htmlCurrentChar ctxt).2.2 = 0 ↔ ctxt.input = []) ∧
        (ctxt.input = [] ∨ (1 ≤ (htmlCurrentChar ctxt).2.2 ∧ (htmlCurrentChar ctxt).2.2 ≤ 4 ∧
          (htmlCurrentChar ctxt).2.2 ≤ (htmlCurrentChar ctxt).1.input.length)) ∧
        ((htmlCurrentChar ctxt).1.input = ctxt.input ∨
          (htmlReadsUTF8 ctxt = false ∧ 0x80 ≤ CUR ctxt ∧
            (htmlCurrentChar ctxt).1.input = isolat1ToUTF8 ctxt.input)) := by
    intro r hr h
    rw [hr]
    exact same r h
  by_cases h1 : ctxt.hasEncoding = false
  · by_cases h2 : CUR ctxt < 0x80
    · by_cases h3 : CUR ctxt = 0
      · by_cases h4 : ctxt.input ≠ []
        · refine fin _ (by unfold htmlCurrentChar; rw [if_pos h1, if_pos h2, if_pos h3, if_pos h4])
            ?_
          exact htmlLengthInRange_mk _ _ _ _ rfl (le_refl _) (by decide) (hlen h4)
        · refine fin _ (by unfold htmlCurrentChar; rw [if_pos h1, if_pos h2, if_pos h3, if_neg h4])
            ?_
          exact htmlLengthInRange_end _ _ (by simpa using h4)
      · have hne : ctxt.input ≠ [] := by
          intro h
          simp [CUR, h] at h3
        refine fin _ (by unfold htmlCurrentChar; rw [if_pos h1, if_pos h2, if_neg h3]) ?_
        exact htmlLengthInRange_mk _ _ _ _ rfl (le_refl _) (by decide) (hlen hne)
    · rw [show htmlCurrentChar ctxt = htmlCurrentChar_utf8 (htmlCurrentChar_switch ctxt) by
        unfold htmlCurrentChar; rw [if_pos h1, if_neg h2]]
      obtain ⟨_, s2, s3⟩ := htmlCurrentChar_switch_spec ctxt
      have hu := htmlCurrentChar_utf8_length (htmlCurrentChar_switch ctxt) s2
      have hi := hu.2.2
      cases hf : htmlFindEncoding ctxt with
      | some g =>
        have hsame : (htmlCurrentChar_switch ctxt).input = ctxt.input := by
          unfold htmlCurrentChar_switch
          rw [hf]
          rfl
        rw [hsame] at hu
        exact same _ hu
      | none =>
        have hconv : (htmlCurrentChar_switch ctxt).input = isolat1ToUTF8 ctxt.input := by
          rw [htmlCurrentChar_switch_latin1 ctxt hf]
        have := key _ (by rw [hi]; exact hu) (by rw [hi, hconv]; exact isolat1ToUTF8_eq_nil _)
        refine ⟨this.1, this.2, Or.inr ⟨?_, by omega, by rw [hi, hconv]⟩⟩
        simp [htmlReadsUTF8, h1, hf]
  · have henc : ctxt.hasEncoding = true := by simpa using h1
    refine fin _ (by unfold htmlCurrentChar; rw [if_neg h1]) ?_
    exact htmlCurrentChar_utf8_length ctxt henc

/-- C26. Length of the current character. `htmlCurrentChar` is total and hands
back a length on every path: the length is 0 exactly at the end of the input,
and before the end it is at least 1, at most 4, and never more than the number
of bytes in the input as the call leaves it. The cursor itself is not moved,
and the input is as it was, except where the fallback for a byte from 0x80 on
in an input without encoding and without a charset to find has converted the
buffered bytes from ISO-8859-1. -/
theorem C26_htmlCurrentChar_length (ctxt : htmlParserCtxt) :
    ((htmlCurrentChar ctxt).2.2 = 0 ↔ ctxt.input = []) ∧
      (ctxt.input = [] ∨ (1 ≤ (htmlCurrentChar ctxt).2.2 ∧ (htmlCurrentChar ctxt).2.2 ≤ 4 ∧
        (htmlCurrentChar ctxt).2.2 ≤ (htmlCurrentChar ctxt).1.input.length)) ∧
      ((htmlCurrentChar ctxt).1.input = ctxt.input ∨
        (htmlReadsUTF8 ctxt = false ∧ 0x80 ≤ CUR ctxt ∧
          (htmlCurrentChar ctxt).1.input = isolat1ToUTF8 ctxt.input)) := by
  exact htmlCurrentChar_length ctxt

theorem htmlParseCharRef_dec_loop_digits (rest : List Nat) :
    ∀ (ds : List Nat) (fuel : Nat) (c : htmlParserCtxt) (val : Nat),
      ds.all htmlIsDecDigit = true → ds.length < fuel → c.input = ds ++ 0x3b :: rest →
      htmlParseCharRef_dec_loop fuel c val =
        ({ c with input := 0x3b :: rest, col := c.col + ds.length },
          htmlCharRefAccumulator 10 val ds) := by
  intro ds
  induction ds with
  | nil =>
    intro fuel c val _ hf hin
    have hcur : CUR c = 0x3b := by simp [CUR, hin]
    cases fuel with
    | zero => simp at hf
    | succ k =>
      simp only [htmlParseCharRef_dec_loop, hcur, ne_eq, not_true_eq_false, if_false,
        List.length_nil, Nat.add_zero, htmlCharRefAccumulator, List.foldl_nil]
      rw [List.nil_append] at hin
      rw [← hin]
  | cons d ds ih =>
    intro fuel c val hall hf hin
    simp only [List.all_cons, Bool.and_eq_true] at hall
    have hd := hall.1
    simp only [htmlIsDecDigit, Bool.and_eq_true, decide_eq_true_eq] at hd
    have hcur : CUR c = d := by simp [CUR, hin]
    cases fuel with
    | zero => simp at hf
    | succ k =>
      simp only [htmlParseCharRef_dec_loop, hcur]
      rw [if_pos (by omega), if_pos hd]
      rw [xmlNextChar_ascii c d (ds ++ 0x3b :: rest) hin (by omega) (by omega) (by omega)]
      rw [ih k _ _ hall.2 (by simp only [List.length_cons] at hf; omega) rfl]
      have hv : htmlDigitValue d = d - 0x30 := by
        unfold htmlDigitValue
        rw [if_pos (by omega)]
      simp only [htmlCharRefAccumulator, List.foldl_cons, hv, List.length_cons]
      congr 2
      omega

theorem htmlParseCharRef_hex_loop_digits (rest : List Nat) :
    ∀ (ds : List Nat) (fuel : Nat) (c : htmlParserCtxt) (val : Nat),
      ds.all htmlIsHexDigit = true → ds.length < fuel → c.input = ds ++ 0x3b :: rest →
      htmlParseCharRef_hex_loop fuel c val =
        ({ c with input := 0x3b :: rest, col := c.col + ds.length },
          htmlCharRefAccumulator 16 val ds) := by
  intro ds
  induction ds with
  | nil =>
    intro fuel c val _ hf hin
    have hcur : CUR c = 0x3b := by simp [CUR, hin]
    cases fuel with
    | zero => simp at hf
    | succ k =>
      simp only [htmlParseCharRef_hex_loop, hcur, ne_eq, not_true_eq_false, if_false,
        List.length_nil, Nat.add_zero, htmlCharRefAccumulator, List.foldl_nil]
      rw [List.nil_append] at hin
      rw [← hin]
  | cons d ds ih =>
    intro fuel c val hall hf hin
    simp only [List.all_cons, Bool.and_eq_true] at hall
    have hd := hall.1
    simp only [htmlIsHexDigit, Bool.and_eq_true, Bool.or_eq_true, decide_eq_true_eq] at hd
    have hcur : CUR c = d := by simp [CUR, hin]
    have hnext := xmlNextChar_ascii c d (ds ++ 0x3b :: rest) hin (by omega) (by omega)
      (by omega)
    cases fuel with
    | zero => simp at hf
    | succ k =>
      have hk : ds.length < k := by simp only [List.length_cons] at hf; omega
      simp only [htmlParseCharRef_hex_loop, hcur]
      rw [if_pos (by omega)]
      by_cases h1 : 0x30 ≤ d ∧ d ≤ 0x39
      · rw [if_pos h1, hnext, ih k _ _ hall.2 hk rfl]
        have hv : htmlDigitValue d = d - 0x30 := by
          unfold htmlDigitValue
          rw [if_pos (by omega)]
        simp only [htmlCharRefAccumulator, List.foldl_cons, hv, List.length_cons]
        congr 2
        omega
      · rw [if_neg h1]
        by_cases h2 : 0x61 ≤ d ∧ d ≤ 0x66
        · rw [if_pos h2, hnext, ih k _ _ hall.2 hk rfl]
          have hv : htmlDigitValue d = d - 0x61 + 10 := by
            unfold htmlDigitValue
            rw [if_neg (by omega), if_pos (by omega)]
          simp only [htmlCharRefAccumulator, List.foldl_cons, hv, List.length_cons]
          congr 2
          omega
        · rw [if_neg h2, if_pos (by omega), hnext, ih k _ _ hall.2 hk rfl]
          have hv : htmlDigitValue d = d - 0x41 + 10 := by
            unfold htmlDigitValue
            rw [if_neg (by omega), if_neg (by omega)]
          simp only [htmlCharRefAccumulator, List.foldl_cons, hv, List.length_cons]
          congr 2
          omega

theorem htmlDigitValue_le (d : Nat) (h : htmlIsHexDigit d = true) : htmlDigitValue d ≤ 15 := by
  simp only [htmlIsHexDigit, Bool.and_eq_true, Bool.or_eq_true, decide_eq_true_eq] at h
  unfold htmlDigitValue
  split_ifs <;> omega

theorem htmlDigitValue_le_dec (d : Nat) (h : htmlIsDecDigit d = true) :
    htmlDigitValue d ≤ 9 := by
  simp only [htmlIsDecDigit, Bool.and_eq_true, decide_eq_true_eq] at h
  unfold htmlDigitValue
  split_ifs <;> omega

/-- The accumulator against the number denoted: equal while the number is below
0x110000, and stuck between 0x110000 and 0x10FFFFF from then on. -/
theorem htmlCharRefAccumulator_spec (base : Nat) (hb : 1 ≤ base) (hb16 : base ≤ 16) :
    ∀ (ds : List Nat) (a p : Nat), (∀ d ∈ ds, htmlDigitValue d < base) →
      ((p < 0x110000 ∧ a = p) ∨ (0x110000 ≤ p ∧ 0x110000 ≤ a ∧ a ≤ 0x10FFFFF)) →
      ((ds.foldl (fun v d => v * base + htmlDigitValue d) p < 0x110000 ∧
          htmlCharRefAccumulator base a ds =
            ds.foldl (fun v d => v * base + htmlDigitValue d) p) ∨
        (0x110000 ≤ ds.foldl (fun v d => v * base + htmlDigitValue d) p ∧
          0x110000 ≤ htmlCharRefAccumulator base a ds ∧
          htmlCharRefAccumulator base a ds ≤ 0x10FFFFF)) := by
  intro ds
  induction ds with
  | nil =>
    intro a p _ h
    simpa [htmlCharRefAccumulator] using h
  | cons d ds ih =>
    intro a p hd h
    have hdv := hd d (List.mem_cons_self _ _)
    have hrest : ∀ x ∈ ds, htmlDigitValue x < base := fun x hx => hd x (List.mem_cons_of_mem _ hx)
    simp only [List.foldl_cons, htmlCharRefAccumulator]
    have key := ih (if a < 0x110000 then a * base + htmlDigitValue d else a)
      (p * base + htmlDigitValue d) hrest
    simp only [htmlCharRefAccumulator] at key
    apply key
    rcases h with ⟨h1, h2⟩ | ⟨h1, h2, h3⟩
    · subst h2
      rw [if_pos h1]
      by_cases hlt : a * base + htmlDigitValue d < 0x110000
      · exact Or.inl ⟨hlt, rfl⟩
      · refine Or.inr ⟨by omega, by omega, ?_⟩
        have : a * base ≤ 0x10FFFF * 16 := Nat.mul_le_mul (by omega) hb16
        omega
    · rw [if_neg (by omega)]
      refine Or.inr ⟨?_, h2, h3⟩
      have : p * 1 ≤ p * base := Nat.mul_le_mul (le_refl _) hb
      omega

theorem htmlParseCharRef_dec_loop_bound :
    ∀ (fuel : Nat) (c : htmlParserCtxt) (val : Nat), val ≤ 0x10FFFFF →
      (htmlParseCharRef_dec_loop fuel c val).2 ≤ 0x10FFFFF := by
  intro fuel
  induction fuel with
  | zero => intro c val h; exact h
  | succ k ih =>
    intro c val h
    simp only [htmlParseCharRef_dec_loop]
    split_ifs
    · exact ih _ _ (by omega)
    · exact ih _ _ h
    · exact h
    · exact h

theorem htmlParseCharRef_hex_loop_bound :
    ∀ (fuel : Nat) (c : htmlParserCtxt) (val : Nat), val ≤ 0x10FFFFF →
      (htmlParseCharRef_hex_loop fuel c val).2 ≤ 0x10FFFFF := by
  intro fuel
  induction fuel with
  | zero => intro c val h; exact h
  | succ k ih =>
    intro c val h
    simp only [htmlParseCharRef_hex_loop]
    split_ifs <;> first | exact h | exact ih _ _ h | exact ih _ _ (by omega)


theorem htmlParseCharRef_check (c1 : htmlParserCtxt) (acc v : Nat)
    (h : (v < 0x110000 ∧ acc = v) ∨ (0x110000 ≤ v ∧ 0x110000 ≤ acc ∧ acc ≤ 0x10FFFFF)) :
    (if IS_CHAR acc = true then (c1, acc)
      else if acc ≥ 0x110000 then
        (htmlParseErr c1 xmlParserErrors.XML_ERR_INVALID_CHAR
          "htmlParseCharRef: value too large\n" none none, 0)
      else
        (htmlParseErrInt c1 xmlParserErrors.XML_ERR_INVALID_CHAR
          "htmlParseCharRef: invalid xmlChar value %d\n" acc, 0)) =
      (if v < 0x110000 ∧ IS_CHAR v = true then (c1, v)
        else if 0x110000 ≤ v then
          (htmlParseErr c1 xmlParserErrors.XML_ERR_INVALID_CHAR
            "htmlParseCharRef: value too large\n" none none, 0)
        else
          (htmlParseErrInt c1 xmlParserErrors.XML_ERR_INVALID_CHAR
            "htmlParseCharRef: invalid xmlChar value %d\n" v, 0)) := by
  rcases h with ⟨h1, h2⟩ | ⟨h1, h2, h3⟩
  · subst h2
    by_cases hc : IS_CHAR acc = true
    · rw [if_pos hc, if_pos (show acc < 0x110000 ∧ IS_CHAR acc = true from ⟨h1, hc⟩)]
    · rw [if_neg hc, if_neg (show ¬ (acc < 0x110000 ∧ IS_CHAR acc = true) from fun h => hc h.2),
        if_neg (show ¬ (acc ≥ 0x110000) by omega)]
  · have hc : ¬ (IS_CHAR acc = true) := fun h => by
      have := (IS_CHAR_bound acc h).2
      omega
    rw [if_neg hc, if_pos (show acc ≥ 0x110000 from h2),
      if_neg (show ¬ (v < 0x110000 ∧ IS_CHAR v = true) from fun h => by omega), if_pos h1]

theorem htmlParseCharRef_of_dec_loop (c c2 : htmlParserCtxt) (acc : Nat)
    (hcur : CUR c = 0x26) (hn1 : NXT c 1 = 0x23) (hn2 : ¬ (NXT c 2 = 0x78 ∨ NXT c 2 = 0x58))
    (hloop : htmlParseCharRef_dec_loop (c.input.length + 1) (SKIP c 2) 0 = (c2, acc))
    (hc2 : CUR c2 = 0x3b) :
    htmlParseCharRef c =
      (if IS_CHAR acc = true then (xmlNextChar c2, acc)
      else if acc ≥ 0x110000 then
        (htmlParseErr (xmlNextChar c2) xmlParserErrors.XML_ERR_INVALID_CHAR
          "htmlParseCharRef: value too large\n" none none, 0)
      else
        (htmlParseErrInt (xmlNextChar c2) xmlParserErrors.XML_ERR_INVALID_CHAR
          "htmlParseCharRef: invalid xmlChar value %d\n" acc, 0)) := by
  unfold htmlParseCharRef
  simp only [hcur, hn1, hn2, and_false, and_self, if_false, if_true, hloop, hc2]

theorem htmlParseCharRef_of_hex_loop (c c2 : htmlParserCtxt) (acc : Nat)
    (hcur : CUR c = 0x26) (hn1 : NXT c 1 = 0x23) (hn2 : NXT c 2 = 0x78 ∨ NXT c 2 = 0x58)
    (hloop : htmlParseCharRef_hex_loop (c.input.length + 1) (SKIP c 3) 0 = (c2, acc))
    (hc2 : CUR c2 = 0x3b) :
    htmlParseCharRef c =
      (if IS_CHAR acc = true then (xmlNextChar c2, acc)
      else if acc ≥ 0x110000 then
        (htmlParseErr (xmlNextChar c2) xmlParserErrors.XML_ERR_INVALID_CHAR
          "htmlParseCharRef: value too large\n" none none, 0)
      else
        (htmlParseErrInt (xmlNextChar c2) xmlParserErrors.XML_ERR_INVALID_CHAR
          "htmlParseCharRef: invalid xmlChar value %d\n" acc, 0)) := by
  unfold htmlParseCharRef
  simp only [hcur, hn1, hn2, and_self, if_true, hloop, hc2]

theorem htmlParseCharRef_dec (c : htmlParserCtxt) (ds rest : List Nat)
    (hall : ds.all htmlIsDecDigit = true) (hin : c.input = bytes "&#" ++ ds ++ 0x3b :: rest) :
    htmlParseCharRef c =
      (if htmlNumericValue 10 ds < 0x110000 ∧ IS_CHAR (htmlNumericValue 10 ds) = true then
        ({ c with input := rest, col := c.col + 2 + ds.length + 1 }, htmlNumericValue 10 ds)
      else if 0x110000 ≤ htmlNumericValue 10 ds then
        (htmlParseErr { c with input := rest, col := c.col + 2 + ds.length + 1 }
          xmlParserErrors.XML_ERR_INVALID_CHAR "htmlParseCharRef: value too large\n" none none, 0)
      else
        (htmlParseErrInt { c with input := rest, col := c.col + 2 + ds.length + 1 }
          xmlParserErrors.XML_ERR_INVALID_CHAR "htmlParseCharRef: invalid xmlChar value %d\n"
          (htmlNumericValue 10 ds), 0)) := by
  have hb : bytes "&#" = [0x26, 0x23] := by decide
  rw [hb] at hin
  have hcur : CUR c = 0x26 := by simp [CUR, hin]
  have hn1 : NXT c 1 = 0x23 := by simp [NXT, hin]
  have hn2 : ¬ (NXT c 2 = 0x78 ∨ NXT c 2 = 0x58) := by
    cases ds with
    | nil => simp [NXT, hin]
    | cons d ds =>
      simp only [List.all_cons, Bool.and_eq_true, htmlIsDecDigit, decide_eq_true_eq] at hall
      have : NXT c 2 = d := by simp [NXT, hin]
      rw [this]
      omega
  have hskip : (SKIP c 2).input = ds ++ 0x3b :: rest := by simp [SKIP, hin]
  have hloop := htmlParseCharRef_dec_loop_digits rest ds (c.input.length + 1) (SKIP c 2) 0 hall
    (by simp [hin]; omega) hskip
  have hacc := htmlCharRefAccumulator_spec 10 (by decide) (by decide) ds 0 0
    (fun d hd => by
      have := htmlDigitValue_le_dec d (List.all_eq_true.mp hall d hd)
      omega)
    (Or.inl ⟨by decide, rfl⟩)
  have hnext : xmlNextChar
      { SKIP c 2 with input := 0x3b :: rest, col := (SKIP c 2).col + ds.length } =
      { c with input := rest, col := c.col + 2 + ds.length + 1 } := by
    rw [xmlNextChar_ascii _ 0x3b rest rfl (by decide) (by decide) (by decide)]
    rfl
  rw [htmlParseCharRef_of_dec_loop c _ _ hcur hn1 hn2 hloop rfl, hnext]
  exact htmlParseCharRef_check _ _ _ hacc

theorem htmlParseCharRef_hex (c : htmlParserCtxt) (x : Nat) (ds rest : List Nat)
    (hx : x = 0x78 ∨ x = 0x58) (hall : ds.all htmlIsHexDigit = true)
    (hin : c.input = [0x26, 0x23, x] ++ ds ++ 0x3b :: rest) :
    htmlParseCharRef c =
      (if htmlNumericValue 16 ds < 0x110000 ∧ IS_CHAR (htmlNumericValue 16 ds) = true then
        ({ c with input := rest, col := c.col + 3 + ds.length + 1 }, htmlNumericValue 16 ds)
      else if 0x110000 ≤ htmlNumericValue 16 ds then
        (htmlParseErr { c with input := rest, col := c.col + 3 + ds.length + 1 }
          xmlParserErrors.XML_ERR_INVALID_CHAR "htmlParseCharRef: value too large\n" none none, 0)
      else
        (htmlParseErrInt { c with input := rest, col := c.col + 3 + ds.length + 1 }
          xmlParserErrors.XML_ERR_INVALID_CHAR "htmlParseCharRef: invalid xmlChar value %d\n"
          (htmlNumericValue 16 ds), 0)) := by
  have hcur : CUR c = 0x26 := by simp [CUR, hin]
  have hn1 : NXT c 1 = 0x23 := by simp [NXT, hin]
  have hn2 : NXT c 2 = 0x78 ∨ NXT c 2 = 0x58 := by
    have : NXT c 2 = x := by simp [NXT, hin]
    rw [this]
    exact hx
  have hskip : (SKIP c 3).input = ds ++ 0x3b :: rest := by simp [SKIP, hin]
  have hloop := htmlParseCharRef_hex_loop_digits rest ds (c.input.length + 1) (SKIP c 3) 0 hall
    (by simp [hin]; omega) hskip
  have hacc := htmlCharRefAccumulator_spec 16 (by decide) (by decide) ds 0 0
    (fun d hd => by
      have := htmlDigitValue_le d (List.all_eq_true.mp hall d hd)
      omega)
    (Or.inl ⟨by decide, rfl⟩)
  have hnext : xmlNextChar
      { SKIP c 3 with input := 0x3b :: rest, col := (SKIP c 3).col + ds.length } =
      { c with input := rest, col := c.col + 3 + ds.length + 1 } := by
    rw [xmlNextChar_ascii _ 0x3b rest rfl (by decide) (by decide) (by decide)]
    rfl
  rw [htmlParseCharRef_of_hex_loop c _ _ hcur hn1 hn2 hloop rfl, hnext]
  exact htmlParseCharRef_check _ _ _ hacc

theorem htmlParseCharRef_dec_loop_run (rest : List Nat)
    (hrest : htmlIsDecDigit (rest.headD 0) = false) :
    ∀ (ds : List Nat) (fuel : Nat) (c : htmlParserCtxt) (val : Nat),
      ds.all htmlIsDecDigit = true → ds.length < fuel → c.input = ds ++ rest →
      htmlParseCharRef_dec_loop fuel c val =
        (if rest.headD 0 = 0x3b then { c with input := rest, col := c.col + ds.length }
          else htmlParseErr { c with input := rest, col := c.col + ds.length }
            xmlParserErrors.XML_ERR_INVALID_DEC_CHARREF
            "htmlParseCharRef: missing semicolon\n" none none,
          htmlCharRefAccumulator 10 val ds) := by
  simp only [htmlIsDecDigit, Bool.and_eq_false_iff, decide_eq_false_iff_not] at hrest
  intro ds
  induction ds with
  | nil =>
    intro fuel c val _ hf hin
    rw [List.nil_append] at hin
    have hcur : CUR c = rest.headD 0 := by simp [CUR, hin]
    have hc : { c with input := rest, col := c.col + ([] : List Nat).length } = c := by
      rw [← hin]
      rfl
    cases fuel with
    | zero => simp at hf
    | succ k =>
      rw [hc]
      generalize rest.headD 0 = x at hrest hcur
      simp only [htmlParseCharRef_dec_loop, hcur, htmlCharRefAccumulator, List.foldl_nil]
      split_ifs <;> first | rfl | (exfalso; omega)
  | cons d ds ih =>
    intro fuel c val hall hf hin
    simp only [List.all_cons, Bool.and_eq_true] at hall
    have hd := hall.1
    simp only [htmlIsDecDigit, Bool.and_eq_true, decide_eq_true_eq] at hd
    have hcur : CUR c = d := by simp [CUR, hin]
    cases fuel with
    | zero => simp at hf
    | succ k =>
      simp only [htmlParseCharRef_dec_loop, hcur]
      rw [if_pos (by omega), if_pos hd]
      rw [xmlNextChar_ascii c d (ds ++ rest) hin (by omega) (by omega) (by omega)]
      rw [ih k _ _ hall.2 (by simp only [List.length_cons] at hf; omega) rfl]
      have hv : htmlDigitValue d = d - 0x30 := by
        unfold htmlDigitValue
        rw [if_pos (by omega)]
      simp only [htmlCharRefAccumulator, List.foldl_cons, hv, List.length_cons]
      have e : c.col + 1 + ds.length = c.col + (ds.length + 1) := by omega
      simp only [e]

theorem htmlParseCharRef_hex_loop_run (rest : List Nat)
    (hrest : htmlIsHexDigit (rest.headD 0) = false) :
    ∀ (ds : List Nat) (fuel : Nat) (c : htmlParserCtxt) (val : Nat),
      ds.all htmlIsHexDigit = true → ds.length < fuel → c.input = ds ++ rest →
      htmlParseCharRef_hex_loop fuel c val =
        (if rest.headD 0 = 0x3b then { c with input := rest, col := c.col + ds.length }
          else htmlParseErr { c with input := rest, col := c.col + ds.length }
            xmlParserErrors.XML_ERR_INVALID_HEX_CHARREF
            "htmlParseCharRef: missing semicolon\n" none none,
          htmlCharRefAccumulator 16 val ds) := by
  simp only [htmlIsHexDigit, Bool.or_eq_false_iff, Bool.and_eq_false_iff,
    decide_eq_false_iff_not] at hrest
  intro ds
  induction ds with
  | nil =>
    intro fuel c val _ hf hin
    rw [List.nil_append] at hin
    have hcur : CUR c = rest.headD 0 := by simp [CUR, hin]
    have hc : { c with input := rest, col := c.col + ([] : List Nat).length } = c := by
      rw [← hin]
      rfl
    cases fuel with
    | zero => simp at hf
    | succ k =>
      rw [hc]
      generalize rest.headD 0 = x at hrest hcur
      simp only [htmlParseCharRef_hex_loop, hcur, htmlCharRefAccumulator, List.foldl_nil]
      split_ifs <;> first | rfl | (exfalso; omega)
  | cons d ds ih =>
    intro fuel c val hall hf hin
    simp only [List.all_cons, Bool.and_eq_true] at hall
    have hd := hall.1
    simp only [htmlIsHexDigit, Bool.and_eq_true, Bool.or_eq_true, decide_eq_true_eq] at hd
    have hcur : CUR c = d := by simp [CUR, hin]
    have hnext := xmlNextChar_ascii c d (ds ++ rest) hin (by omega) (by omega) (by omega)
    have e : c.col + 1 + ds.length = c.col + (ds.length + 1) := by omega
    cases fuel with
    | zero => simp at hf
    | succ k =>
      have hk : ds.length < k := by simp only [List.length_cons] at hf; omega
      simp only [htmlParseCharRef_hex_loop, hcur]
      rw [if_pos (by omega)]
      by_cases h1 : 0x30 ≤ d ∧ d ≤ 0x39
      · rw [if_pos h1, hnext, ih k _ _ hall.2 hk rfl]
        have hv : htmlDigitValue d = d - 0x30 := by
          unfold htmlDigitValue
          rw [if_pos (by omega)]
        simp only [htmlCharRefAccumulator, List.foldl_cons, hv, List.length_cons, e]
      · rw [if_neg h1]
        by_cases h2 : 0x61 ≤ d ∧ d ≤ 0x66
        · rw [if_pos h2, hnext, ih k _ _ hall.2 hk rfl]
          have hv : htmlDigitValue d = d - 0x61 + 10 := by
            unfold htmlDigitValue
            rw [if_neg (by omega), if_pos (by omega)]
          have e2 : val * 16 + (d - 0x61) + 10 = val * 16 + (d - 0x61 + 10) := by omega
          simp only [htmlCharRefAccumulator, List.foldl_cons, hv, List.length_cons, e, e2]
        · rw [if_neg h2, if_pos (by omega), hnext, ih k _ _ hall.2 hk rfl]
          have hv : htmlDigitValue d = d - 0x41 + 10 := by
            unfold htmlDigitValue
            rw [if_neg (by omega), if_neg (by omega)]
          have e2 : val * 16 + (d - 0x41) + 10 = val * 16 + (d - 0x41 + 10) := by omega
          simp only [htmlCharRefAccumulator, List.foldl_cons, hv, List.length_cons, e, e2]

/-- The optional `NEXT` over the `;` after a digit loop of `htmlParseCharRef`. -/
theorem htmlParseCharRef_semicolon (c0 : htmlParserCtxt) (rest : List Nat)
    (e : xmlParserErrors) (hin : c0.input = rest) :
    (if CUR (if rest.headD 0 = 0x3b then c0
          else htmlParseErr c0 e "htmlParseCharRef: missing semicolon\n" none none) = 0x3b then
        xmlNextChar (if rest.headD 0 = 0x3b then c0
          else htmlParseErr c0 e "htmlParseCharRef: missing semicolon\n" none none)
      else (if rest.headD 0 = 0x3b then c0
          else htmlParseErr c0 e "htmlParseCharRef: missing semicolon\n" none none)) =
      (if rest.headD 0 = 0x3b then { c0 with input := rest.tail, col := c0.col + 1 }
        else htmlParseErr c0 e "htmlParseCharRef: missing semicolon\n" none none) := by
  by_cases h3 : rest.headD 0 = 0x3b
  · simp only [h3, if_true]
    cases rest with
    | nil => simp at h3
    | cons b t =>
      simp only [List.headD_cons] at h3
      subst h3
      have hcur : CUR c0 = 0x3b := by simp [CUR, hin]
      rw [if_pos hcur, xmlNextChar_ascii c0 0x3b t hin (by decide) (by decide) (by decide)]
      rfl
  · simp only [h3, if_false]
    have hcur : CUR (htmlParseErr c0 e "htmlParseCharRef: missing semicolon\n" none none) =
        rest.headD 0 := by
      simp [CUR, htmlParseErr, hin]
    rw [if_neg (by rw [hcur]; exact h3)]

theorem htmlParseCharRef_dec_run (c : htmlParserCtxt) (ds rest : List Nat)
    (hall : ds.all htmlIsDecDigit = true) (hrest : htmlIsDecDigit (rest.headD 0) = false)
    (hx : ds = [] → rest.headD 0 ≠ 0x78 ∧ rest.headD 0 ≠ 0x58)
    (hin : c.input = bytes "&#" ++ ds ++ rest) :
    htmlParseCharRef c =
      (if htmlNumericValue 10 ds < 0x110000 ∧ IS_CHAR (htmlNumericValue 10 ds) = true then
        (htmlCharRefEnd c (bytes "&#") ds rest, htmlNumericValue 10 ds)
      else if 0x110000 ≤ htmlNumericValue 10 ds then
        (htmlParseErr (htmlCharRefEnd c (bytes "&#") ds rest)
          xmlParserErrors.XML_ERR_INVALID_CHAR "htmlParseCharRef: value too large\n" none none, 0)
      else
        (htmlParseErrInt (htmlCharRefEnd c (bytes "&#") ds rest)
          xmlParserErrors.XML_ERR_INVALID_CHAR "htmlParseCharRef: invalid xmlChar value %d\n"
          (htmlNumericValue 10 ds), 0)) := by
  have hb : bytes "&#" = [0x26, 0x23] := by decide
  rw [hb] at hin
  have hcur : CUR c = 0x26 := by simp [CUR, hin]
  have hn1 : NXT c 1 = 0x23 := by simp [NXT, hin]
  have hn2 : ¬ (NXT c 2 = 0x78 ∨ NXT c 2 = 0x58) := by
    cases ds with
    | nil =>
      have h := hx rfl
      have : NXT c 2 = rest.headD 0 := by
        cases rest <;> simp [NXT, hin]
      rw [this]
      omega
    | cons d ds =>
      simp only [List.all_cons, Bool.and_eq_true, htmlIsDecDigit, decide_eq_true_eq] at hall
      have : NXT c 2 = d := by simp [NXT, hin]
      rw [this]
      omega
  have hskip : (SKIP c 2).input = ds ++ rest := by simp [SKIP, hin]
  have hloop := htmlParseCharRef_dec_loop_run rest hrest ds (c.input.length + 1) (SKIP c 2) 0 hall
    (by simp [hin]; omega) hskip
  have hacc := htmlCharRefAccumulator_spec 10 (by decide) (by decide) ds 0 0
    (fun d hd => by
      have := htmlDigitValue_le_dec d (List.all_eq_true.mp hall d hd)
      omega)
    (Or.inl ⟨by decide, rfl⟩)
  have hsemi := htmlParseCharRef_semicolon
    { SKIP c 2 with input := rest, col := (SKIP c 2).col + ds.length } rest
    xmlParserErrors.XML_ERR_INVALID_DEC_CHARREF rfl
  have hend : (if rest.headD 0 = 0x3b then
        { ({ SKIP c 2 with input := rest, col := (SKIP c 2).col + ds.length } : htmlParserCtxt)
          with input := rest.tail,
               col := ({ SKIP c 2 with input := rest, col := (SKIP c 2).col + ds.length } :
                 htmlParserCtxt).col + 1 }
      else htmlParseErr { SKIP c 2 with input := rest, col := (SKIP c 2).col + ds.length }
        xmlParserErrors.XML_ERR_INVALID_DEC_CHARREF
        "htmlParseCharRef: missing semicolon\n" none none) =
      htmlCharRefEnd c (bytes "&#") ds rest := by
    unfold htmlCharRefEnd
    rw [hb]
    simp only [if_true, List.length_cons, List.length_nil]
    rfl
  rw [hend] at hsemi
  unfold htmlParseCharRef
  simp only [hcur, hn1, hn2, and_false, and_self, if_false, if_true, hloop, hsemi]
  exact htmlParseCharRef_check _ _ _ hacc

theorem htmlParseCharRef_hex_run (c : htmlParserCtxt) (pre ds rest : List Nat)
    (hp : pre = bytes "&#x" ∨ pre = bytes "&#X")
    (hall : ds.all htmlIsHexDigit = true) (hrest : htmlIsHexDigit (rest.headD 0) = false)
    (hin : c.input = pre ++ ds ++ rest) :
    htmlParseCharRef c =
      (if htmlNumericValue 16 ds < 0x110000 ∧ IS_CHAR (htmlNumericValue 16 ds) = true then
        (htmlCharRefEnd c pre ds rest, htmlNumericValue 16 ds)
      else if 0x110000 ≤ htmlNumericValue 16 ds then
        (htmlParseErr (htmlCharRefEnd c pre ds rest)
          xmlParserErrors.XML_ERR_INVALID_CHAR "htmlParseCharRef: value too large\n" none none, 0)
      else
        (htmlParseErrInt (htmlCharRefEnd c pre ds rest)
          xmlParserErrors.XML_ERR_INVALID_CHAR "htmlParseCharRef: invalid xmlChar value %d\n"
          (htmlNumericValue 16 ds), 0)) := by
  have hpre : ∃ x, (x = 0x78 ∨ x = 0x58) ∧ pre = [0x26, 0x23, x] := by
    rcases hp with hp | hp
    · exact ⟨0x78, Or.inl rfl, by rw [hp]; decide⟩
    · exact ⟨0x58, Or.inr rfl, by rw [hp]; decide⟩
  obtain ⟨x, hx, hpx⟩ := hpre
  have hne : ¬ (pre = bytes "&#") := by
    rcases hp with hp | hp <;> rw [hp] <;> decide
  rw [hpx] at hin
  have hcur : CUR c = 0x26 := by simp [CUR, hin]
  have hn1 : NXT c 1 = 0x23 := by simp [NXT, hin]
  have hn2 : NXT c 2 = 0x78 ∨ NXT c 2 = 0x58 := by
    have : NXT c 2 = x := by simp [NXT, hin]
    rw [this]
    exact hx
  have hskip : (SKIP c 3).input = ds ++ rest := by simp [SKIP, hin]
  have hloop := htmlParseCharRef_hex_loop_run rest hrest ds (c.input.length + 1) (SKIP c 3) 0 hall
    (by simp [hin]; omega) hskip
  have hacc := htmlCharRefAccumulator_spec 16 (by decide) (by decide) ds 0 0
    (fun d hd => by
      have := htmlDigitValue_le d (List.all_eq_true.mp hall d hd)
      omega)
    (Or.inl ⟨by decide, rfl⟩)
  have hsemi := htmlParseCharRef_semicolon
    { SKIP c 3 with input := rest, col := (SKIP c 3).col + ds.length } rest
    xmlParserErrors.XML_ERR_INVALID_HEX_CHARREF rfl
  have hend : (if rest.headD 0 = 0x3b then
        { ({ SKIP c 3 with input := rest, col := (SKIP c 3).col + ds.length } : htmlParserCtxt)
          with input := rest.tail,
               col := ({ SKIP c 3 with input := rest, col := (SKIP c 3).col + ds.length } :
                 htmlParserCtxt).col + 1 }
      else htmlParseErr { SKIP c 3 with input := rest, col := (SKIP c 3).col + ds.length }
        xmlParserErrors.XML_ERR_INVALID_HEX_CHARREF
        "htmlParseCharRef: missing semicolon\n" none none) =
      htmlCharRefEnd c pre ds rest := by
    unfold htmlCharRefEnd
    rw [if_neg hne, hpx]
    simp only [List.length_cons, List.length_nil]
    rfl
  rw [hend] at hsemi
  unfold htmlParseCharRef
  simp only [hcur, hn1, hn2, and_self, if_true, hloop, hsemi]
  exact htmlParseCharRef_check _ _ _ hacc

/-- C23. Numeric character references. For every string `ds` of decimal digits
after `&#`, and for every string of hexadecimal digits after `&#x` or `&#X`, of
any length and followed by anything that is not a further digit (a `;`, another
byte or the end of the input), `htmlParseCharRef` reads the digits, takes the
`;` when there is one and reports the missing semicolon when there is none, and
returns the number `v` that the digits denote when `v` is below 0x110000 and a
legal XML character; in every other case it reports an error (value too large
from 0x110000 on, invalid xmlChar value below) and returns 0. The accumulator
of either digit loop, once at 0x110000 or more, no longer grows: from any state
below 0x10FFFFF + 1 it never exceeds 0x10FFFFF, which is below 2^31. -/
theorem C23_htmlParseCharRef (ctxt : htmlParserCtxt) (pre ds rest : List Nat)
    (hpre : (pre = bytes "&#" ∧ ds.all htmlIsDecDigit = true ∧
        htmlIsDecDigit (rest.headD 0) = false ∧
        (ds = [] → rest.headD 0 ≠ 0x78 ∧ rest.headD 0 ≠ 0x58)) ∨
      ((pre = bytes "&#x" ∨ pre = bytes "&#X") ∧ ds.all htmlIsHexDigit = true ∧
        htmlIsHexDigit (rest.headD 0) = false))
    (hin : ctxt.input = pre ++ ds ++ rest) :
    htmlParseCharRef ctxt =
        (if htmlNumericValue (if pre = bytes "&#" then 10 else 16) ds < 0x110000 ∧
            IS_CHAR (htmlNumericValue (if pre = bytes "&#" then 10 else 16) ds) = true then
          (htmlCharRefEnd ctxt pre ds rest,
            htmlNumericValue (if pre = bytes "&#" then 10 else 16) ds)
        else if 0x110000 ≤ htmlNumericValue (if pre = bytes "&#" then 10 else 16) ds then
          (htmlParseErr (htmlCharRefEnd ctxt pre ds rest)
            xmlParserErrors.XML_ERR_INVALID_CHAR "htmlParseCharRef: value too large\n"
            none none, 0)
        else
          (htmlParseErrInt (htmlCharRefEnd ctxt pre ds rest)
            xmlParserErrors.XML_ERR_INVALID_CHAR "htmlParseCharRef: invalid xmlChar value %d\n"
            (htmlNumericValue (if pre = bytes "&#" then 10 else 16) ds), 0)) ∧
      (∀ (fuel : Nat) (c : htmlParserCtxt) (val : Nat), val ≤ 0x10FFFFF →
        (htmlParseCharRef_dec_loop fuel c val).2 ≤ 0x10FFFFF ∧
        (htmlParseCharRef_hex_loop fuel c val).2 ≤ 0x10FFFFF) ∧
      0x10FFFFF < 2 ^ 31 := by
  refine ⟨?_, fun fuel c val h =>
    ⟨htmlParseCharRef_dec_loop_bound fuel c val h, htmlParseCharRef_hex_loop_bound fuel c val h⟩,
    by decide⟩
  rcases hpre with ⟨hp, hall, hrest, hx⟩ | ⟨hp, hall, hrest⟩
  · subst hp
    simp only [if_true]
    exact htmlParseCharRef_dec_run ctxt ds rest hall hrest hx hin
  · have hne : ¬ (pre = bytes "&#") := by
      rcases hp with hp | hp <;> rw [hp] <;> decide
    simp only [hne, if_false]
    exact htmlParseCharRef_hex_run ctxt pre ds rest hp hall hrest hin

/-- Witness for C23: the reference `&#x41;` in front of `b`, and the reference
`&#65` in front of `x`, which has no semicolon. -/
theorem C23_htmlParseCharRef_witness :
    htmlParseCharRef { htmlNewSAXParserCtxt htmlSinkHandler with input := bytes "&#x41;b" } =
        ({ htmlNewSAXParserCtxt htmlSinkHandler with
            input := bytes "b", col := (htmlNewSAXParserCtxt htmlSinkHandler).col + 6 }, 0x41) ∧
      (htmlParseCharRef
        { htmlNewSAXParserCtxt htmlSinkHandler with input := bytes "&#65x" }).2 = 0x41 :=
  ⟨((C23_htmlParseCharRef
      { htmlNewSAXParserCtxt htmlSinkHandler with input := bytes "&#x41;b" }
      (bytes "&#x") (bytes "41") (bytes ";b") (Or.inr ⟨Or.inl rfl, by decide, by decide⟩)
      (by decide)).1).trans (by decide!),
    (congrArg Prod.snd (C23_htmlParseCharRef
      { htmlNewSAXParserCtxt htmlSinkHandler with input := bytes "&#65x" }
      (bytes "&#") (bytes "65") (bytes "x")
      (Or.inl ⟨rfl, by decide, by decide, by decide⟩) (by decide)).1).trans (by decide!)⟩


/-! ## Blanks between siblings in body -/

/-- C21, as the code behaves. For a whitespace-only run flushed in front of a
`<`, whose innermost open element is body and whose preceding sibling (the last
child of the current node that is not a comment) is an element named `nm`,
`areBlanks` returns 0 exactly when the document type is not one of the two
strict HTML 4 types and `nm` is in `allowPCData`; otherwise it returns 1. The
inline elements b, i and span are in `allowPCData`; the elements marked inline
that are not are basefont, br, embed, img, input, map, script, select, sub, sup
and textarea. -/
theorem C21_blanks_between_siblings (ctxt : htmlParserCtxt) (str nm : List Nat)
    (node : xmlNodeView)
    (hstr : str.all IS_BLANK_CH = true) (hcur : CUR ctxt = 0x3c)
    (hname : ctxt.name = some (bytes "body")) (hnode : ctxt.node = some node)
    (hlast : (node.children.reverse.dropWhile (fun ch => ch.1 = 8)).head? = some (1, nm)) :
    areBlanks ctxt str = (htmlStrictDtd ctxt || !allowPCData.contains nm) ∧
      (html40ElementTable.filter
          (fun e => e.isinline != 0 && !allowPCData.contains e.name)).map (fun e => e.name) =
        [bytes "basefont", bytes "br", bytes "embed", bytes "img", bytes "input", bytes "map",
          bytes "script", bytes "select", bytes "sub", bytes "sup", bytes "textarea"] := by
  refine ⟨?_, by decide!⟩
  have h1 : str.any (fun b => !IS_BLANK_CH b) = false := by
    rw [List.any_eq_false]
    intro b hb
    have := List.all_eq_true.mp hstr b hb
    simp [this]
  have e1 : ¬ (bytes "body" = bytes "html") := by decide
  have e2 : ¬ (bytes "body" = bytes "head") := by decide
  unfold areBlanks htmlStrictDtd
  rw [h1, hcur, hname, hnode]
  simp only [Bool.false_eq_true, if_false, ne_eq, not_true_eq_false, e1, e2, decide_True,
    Bool.true_and, hlast]
  cases hd : ctxt.dtdExternalID with
  | none => simp
  | some id =>
    simp only
    by_cases hs : (decide (xmlStrcasecmp id (bytes "-//W3C//DTD HTML 4.01//EN") = 0) ||
        decide (xmlStrcasecmp id (bytes "-//W3C//DTD HTML 4//EN") = 0)) = true
    · rw [if_pos hs, hs]
      rfl
    · rw [if_neg hs]
      simp only [Bool.not_eq_true] at hs
      rw [hs]
      simp

/-- Witness for C21: body holding a b element, in front of `<i>`, with no
document type. -/
theorem C21_blanks_between_siblings_witness :
    areBlanks
        { htmlNewSAXParserCtxt htmlSinkHandler with
          input := bytes "<i>", nameTab := [bytes "body", bytes "html"],
          nodeTab := [⟨1, false, bytes "body", [(1, bytes "b")]⟩] }
        (bytes " ") = false :=
  (C21_blanks_between_siblings
    { htmlNewSAXParserCtxt htmlSinkHandler with
      input := bytes "<i>", nameTab := [bytes "body", bytes "html"],
      nodeTab := [⟨1, false, bytes "body", [(1, bytes "b")]⟩] }
    (bytes " ") (bytes "b") ⟨1, false, bytes "body", [(1, bytes "b")]⟩
    (by decide) (by decide) rfl rfl (by decide)).1.trans (by decide!)

/-- C21, counterexample. In body, in front of `<i>`: after a b element in a
document whose type has the public identifier of W3C DTD HTML 4.01, and after an img element in a
document with no document type, `areBlanks` returns 1 for a blank. -/
theorem C21_blank_ignorable_in_body :
    areBlanks
        { htmlNewSAXParserCtxt htmlSinkHandler with
          input := bytes "<i>", nameTab := [bytes "body", bytes "html"],
          nodeTab := [⟨1, false, bytes "body", [(1, bytes "b")]⟩],
          dtdExternalID := some (bytes "-//W3C//DTD HTML 4.01//EN") }
        (bytes " ") = true ∧
      areBlanks
        { htmlNewSAXParserCtxt htmlSinkHandler with
          input := bytes "<i>", nameTab := [bytes "body", bytes "html"],
          nodeTab := [⟨1, false, bytes "body", [(1, bytes "img")]⟩] }
        (bytes " ") = true ∧
      (htmlTagLookup (some (bytes "img"))).map (fun e => e.isinline) = some 1 ∧
      (htmlTagLookup (some (bytes "b"))).map (fun e => e.isinline) = some 1 ∧
      (htmlTagLookup (some (bytes "i"))).map (fun e => e.isinline) = some 1 := by
  decide!


/-! ## Entity references in attribute values -/

theorem htmlIsAsciiName_head (n : List Nat) (hn : htmlIsAsciiName n = true) :
    n.headD 0 ≠ 0x23 ∧ n ≠ [] := by
  cases n with
  | nil => simp [htmlIsAsciiName] at hn
  | cons c cs =>
    simp only [htmlIsAsciiName, Bool.and_eq_true, Bool.or_eq_true, decide_eq_true_eq,
      beq_iff_eq] at hn
    refine ⟨?_, by simp⟩
    simp only [List.headD_cons]
    omega

theorem htmlParseEntityRef_ascii (lim : xmlLimits) (ctxt : htmlParserCtxt) (n : List Nat)
    (t : Nat) (rest : List Nat) (hn : htmlIsAsciiName n = true)
    (ht : htmlNameFastChar t = false) (ht0 : 0 < t ∧ t < 0x80)
    (hin : ctxt.input = 0x26 :: (n ++ t :: rest)) :
    htmlParseEntityRef lim ctxt =
      (if t = 0x3b then
        (if (htmlEntityLookup n).isSome then
            { ctxt with input := rest, col := ctxt.col + 1 + n.length + 1 }
          else { ctxt with input := 0x3b :: rest, col := ctxt.col + 1 + n.length },
          htmlEntityLookup n, some n)
      else
        (htmlParseErr { ctxt with input := t :: rest, col := ctxt.col + 1 + n.length }
          xmlParserErrors.XML_ERR_ENTITYREF_SEMICOL_MISSING
          "htmlParseEntityRef: expecting ';'\n" none none, none, some n)) := by
  have hnext : xmlNextChar ctxt = { ctxt with input := n ++ t :: rest, col := ctxt.col + 1 } := by
    unfold xmlNextChar
    rw [hin]
    simp
  have hname := htmlParseName_ascii lim (xmlNextChar ctxt) n t rest hn ht ht0 (by rw [hnext])
  rw [hnext] at hname
  have hcur : CUR ctxt = 0x26 := by simp [CUR, hin]
  unfold htmlParseEntityRef
  simp only [hcur, hnext, hname, if_true]
  by_cases h3 : t = 0x3b
  · subst h3
    simp only [CUR, List.headD_cons, if_true]
    cases hl : htmlEntityLookup n with
    | none => simp
    | some e =>
      simp only [Option.isSome_some, if_true]
      rw [xmlNextChar_ascii _ 0x3b rest rfl (by decide) (by decide) (by decide)]
  · simp only [CUR, List.headD_cons, h3, if_false]

theorem htmlParseHTMLAttribute_step_entity (lim : xmlLimits) (ctxt : htmlParserCtxt)
    (n : List Nat) (t : Nat) (rest : List Nat) (hn : htmlIsAsciiName n = true)
    (ht : htmlNameFastChar t = false) (ht0 : 0 < t ∧ t < 0x80)
    (hin : ctxt.input = 0x26 :: (n ++ t :: rest)) :
    htmlParseHTMLAttribute_step lim ctxt =
      (if t = 0x3b then
        match htmlEntityLookup n with
        | none => ({ ctxt with input := 0x3b :: rest, col := ctxt.col + 1 + n.length }, 0x26 :: n)
        | some ent =>
          ({ ctxt with input := rest, col := ctxt.col + 1 + n.length + 1 },
            htmlEncodeUTF8 ent.value)
      else
        (htmlParseErr { ctxt with input := t :: rest, col := ctxt.col + 1 + n.length }
          xmlParserErrors.XML_ERR_ENTITYREF_SEMICOL_MISSING
          "htmlParseEntityRef: expecting ';'\n" none none, 0x26 :: n)) := by
  have hcur : CUR ctxt = 0x26 := by simp [CUR, hin]
  have hn1 : ¬ (NXT ctxt 1 = 0x23) := by
    have h := (htmlIsAsciiName_head n hn).1
    cases n with
    | nil => simp [htmlIsAsciiName] at hn
    | cons c cs =>
      have : NXT ctxt 1 = c := by simp [NXT, hin]
      rw [this]
      simpa using h
  unfold htmlParseHTMLAttribute_step
  simp only [hcur, hn1, if_true, if_false, htmlParseEntityRef_ascii lim ctxt n t rest hn ht ht0 hin]
  by_cases h3 : t = 0x3b
  · simp only [h3, if_true]
    cases hl : htmlEntityLookup n with
    | none => simp [cstring_ascii n hn]
    | some e => simp
  · simp only [h3, if_false, cstring_ascii n hn]

theorem htmlParseHTMLAttribute_step_char (lim : xmlLimits) (ctxt : htmlParserCtxt) (b : Nat)
    (rest : List Nat) (hin : ctxt.input = b :: rest) (h0 : b ≠ 0) (h1 : b < 0x80)
    (h26 : b ≠ 0x26) (hnl : b ≠ 0x0a) :
    htmlParseHTMLAttribute_step lim ctxt =
      ({ ctxt with col := ctxt.col + 1, input := rest }, [b]) := by
  have hcur : CUR ctxt = b := by simp [CUR, hin]
  unfold htmlParseHTMLAttribute_step
  rw [if_neg (by rw [hcur]; exact h26)]
  simp only [htmlCurrentChar_ascii ctxt b hcur h0 h1]
  unfold NEXTL htmlEncodeUTF8
  rw [if_neg (by rw [hcur]; exact hnl), if_pos h1, hin]
  rfl

theorem htmlParseHTMLAttribute_loop_turn (lim : xmlLimits) (stop maxLength fuel : Nat)
    (ctxt : htmlParserCtxt) (out : List Nat)
    (hrun : PARSER_STOPPED ctxt = false) (h0 : CUR ctxt ≠ 0) (hstop : CUR ctxt ≠ stop)
    (hgt : CUR ctxt ≠ 0x3e) (hblank : IS_BLANK_CH (CUR ctxt) = false)
    (hlen : (out ++ (htmlParseHTMLAttribute_step lim ctxt).2).length ≤ maxLength) :
    htmlParseHTMLAttribute_loop lim stop maxLength (fuel + 1) ctxt out =
      htmlParseHTMLAttribute_loop lim stop maxLength fuel (htmlParseHTMLAttribute_step lim ctxt).1
        (out ++ (htmlParseHTMLAttribute_step lim ctxt).2) := by
  rw [htmlParseHTMLAttribute_loop]
  rw [if_pos (by simp [hrun, h0, hstop])]
  rw [if_neg (fun h => hgt h.2), if_neg (fun h => by simp [hblank] at h)]
  simp only
  rw [if_neg (by omega)]


/-- C22. References in attribute values. In the loop of `htmlParseHTMLAttribute`,
at a reference `&n` whose name `n` is an ASCII name, with `out` the value bytes
written so far (the turns are taken while the parser is not stopped, the stop
character is not `&`, and the value stays within `maxLength`):
when the name is followed by a byte `t` other than `;` (an ASCII byte that ends
the name), one turn appends exactly `&n`, reports the missing `;` and leaves the
cursor on `t`;
when the name is followed by `;` and is not in the entity table, two turns
append exactly `&n;` and leave the cursor behind the `;`;
when the name is followed by `;` and names the entity `ent`, one turn appends
the UTF-8 encoding of the code point of `ent` and consumes the `;`. -/
theorem C22_attribute_references (lim : xmlLimits) (ctxt : htmlParserCtxt)
    (stop maxLength fuel : Nat) (out n rest : List Nat)
    (hn : htmlIsAsciiName n = true) (hrun : PARSER_STOPPED ctxt = false)
    (hstop : stop ≠ 0x26) :
    (∀ t : Nat, htmlNameFastChar t = false → 0 < t ∧ t < 0x80 → t ≠ 0x3b →
        ctxt.input = 0x26 :: (n ++ t :: rest) → out.length + (n.length + 1) ≤ maxLength →
        htmlParseHTMLAttribute_loop lim stop maxLength (fuel + 1) ctxt out =
          htmlParseHTMLAttribute_loop lim stop maxLength fuel
            (htmlParseErr { ctxt with input := t :: rest, col := ctxt.col + 1 + n.length }
              xmlParserErrors.XML_ERR_ENTITYREF_SEMICOL_MISSING
              "htmlParseEntityRef: expecting ';'\n" none none)
            (out ++ 0x26 :: n)) ∧
      (htmlEntityLookup n = none → stop ≠ 0x3b →
        ctxt.input = 0x26 :: (n ++ 0x3b :: rest) → out.length + (n.length + 2) ≤ maxLength →
        htmlParseHTMLAttribute_loop lim stop maxLength (fuel + 2) ctxt out =
          htmlParseHTMLAttribute_loop lim stop maxLength fuel
            { ctxt with input := rest, col := ctxt.col + 1 + n.length + 1 }
            (out ++ 0x26 :: n ++ [0x3b])) ∧
      (∀ ent : htmlEntityDesc, htmlEntityLookup n = some ent →
        ctxt.input = 0x26 :: (n ++ 0x3b :: rest) →
        out.length + (htmlEncodeUTF8 ent.value).length ≤ maxLength →
        htmlParseHTMLAttribute_loop lim stop maxLength (fuel + 1) ctxt out =
          htmlParseHTMLAttribute_loop lim stop maxLength fuel
            { ctxt with input := rest, col := ctxt.col + 1 + n.length + 1 }
            (out ++ htmlEncodeUTF8 ent.value)) := by
  have hturn : ∀ (k : Nat) (t : Nat), ctxt.input = 0x26 :: (n ++ t :: rest) →
      (out ++ (htmlParseHTMLAttribute_step lim ctxt).2).length ≤ maxLength →
      htmlParseHTMLAttribute_loop lim stop maxLength (k + 1) ctxt out =
        htmlParseHTMLAttribute_loop lim stop maxLength k (htmlParseHTMLAttribute_step lim ctxt).1
          (out ++ (htmlParseHTMLAttribute_step lim ctxt).2) := by
    intro k t hin hlen
    have hcur : CUR ctxt = 0x26 := by simp [CUR, hin]
    exact htmlParseHTMLAttribute_loop_turn lim stop maxLength k ctxt out hrun
      (by rw [hcur]; decide) (by rw [hcur]; exact Ne.symm hstop) (by rw [hcur]; decide)
      (by rw [hcur]; decide) hlen
  refine ⟨?_, ?_, ?_⟩
  · intro t ht ht0 h3 hin hlen
    have hs := htmlParseHTMLAttribute_step_entity lim ctxt n t rest hn ht ht0 hin
    rw [if_neg h3] at hs
    rw [hturn fuel t hin (by rw [hs]; simp only [List.length_append, List.length_cons]; omega), hs]
  · intro hl hstop2 hin hlen
    have hs := htmlParseHTMLAttribute_step_entity lim ctxt n 0x3b rest hn (by decide)
      (by decide) hin
    rw [if_pos rfl, hl] at hs
    simp only at hs
    have e1 : htmlParseHTMLAttribute_loop lim stop maxLength (fuel + 1 + 1) ctxt out =
        htmlParseHTMLAttribute_loop lim stop maxLength (fuel + 1)
          { ctxt with input := 0x3b :: rest, col := ctxt.col + 1 + n.length }
          (out ++ 0x26 :: n) := by
      rw [hturn (fuel + 1) 0x3b hin
        (by rw [hs]; simp only [List.length_append, List.length_cons]; omega), hs]
    have hs2 := htmlParseHTMLAttribute_step_char lim
      { ctxt with input := 0x3b :: rest, col := ctxt.col + 1 + n.length } 0x3b rest rfl
      (by decide) (by decide) (by decide) (by decide)
    have hc1 : CUR { ctxt with input := 0x3b :: rest, col := ctxt.col + 1 + n.length } = 0x3b :=
      rfl
    have e2 : htmlParseHTMLAttribute_loop lim stop maxLength (fuel + 1)
          { ctxt with input := 0x3b :: rest, col := ctxt.col + 1 + n.length }
          (out ++ 0x26 :: n) =
        htmlParseHTMLAttribute_loop lim stop maxLength fuel
          { ctxt with input := rest, col := ctxt.col + 1 + n.length + 1 }
          (out ++ 0x26 :: n ++ [0x3b]) := by
      rw [htmlParseHTMLAttribute_loop_turn lim stop maxLength fuel
        { ctxt with input := 0x3b :: rest, col := ctxt.col + 1 + n.length } _ hrun
        (by rw [hc1]; decide) (by rw [hc1]; exact Ne.symm hstop2) (by rw [hc1]; decide)
        (by rw [hc1]; decide)
        (by
          rw [hs2]
          simp only [List.length_append, List.length_cons, List.length_nil]
          omega), hs2]
    exact e1.trans e2
  · intro ent hl hin hlen
    have hs := htmlParseHTMLAttribute_step_entity lim ctxt n 0x3b rest hn (by decide)
      (by decide) hin
    rw [if_pos rfl, hl] at hs
    simp only at hs
    rw [hturn fuel 0x3b hin (by rw [hs]; simp only [List.length_append]; omega), hs]

/-- Witness for C22: a quoted value that starts with `&foo` and a blank, with
`&foo;`, or with `&lt;`, where `foo` is no entity and `lt` is the entity
U+003C. -/
theorem C22_attribute_references_witness :
    htmlParseHTMLAttribute_loop xmlDefaultLimits 0x22 100 4
        { htmlNewSAXParserCtxt htmlSinkHandler with input := bytes "&foo \"" } [] =
      htmlParseHTMLAttribute_loop xmlDefaultLimits 0x22 100 3
        (htmlParseErr
          { htmlNewSAXParserCtxt htmlSinkHandler with
            input := bytes " \"", col := (htmlNewSAXParserCtxt htmlSinkHandler).col + 1 + 3 }
          xmlParserErrors.XML_ERR_ENTITYREF_SEMICOL_MISSING
          "htmlParseEntityRef: expecting ';'\n" none none)
        (bytes "&foo") ∧
      (htmlParseHTMLAttribute_loop xmlDefaultLimits 0x22 100 3
        { htmlNewSAXParserCtxt htmlSinkHandler with input := bytes "&foo;\"" } []).2 =
        some (bytes "&foo;") ∧
      (htmlParseHTMLAttribute_loop xmlDefaultLimits 0x22 100 2
        { htmlNewSAXParserCtxt htmlSinkHandler with input := bytes "&lt;\"" } []).2 =
        some (bytes "<") :=
  ⟨(C22_attribute_references xmlDefaultLimits
      { htmlNewSAXParserCtxt htmlSinkHandler with input := bytes "&foo \"" }
      0x22 100 3 [] (bytes "foo") (bytes "\"") (by decide) (by decide) (by decide)).1
      0x20 (by decide) (by decide) (by decide) (by decide) (by decide),
    by
      rw [(C22_attribute_references xmlDefaultLimits
        { htmlNewSAXParserCtxt htmlSinkHandler with input := bytes "&foo;\"" }
        0x22 100 1 [] (bytes "foo") (bytes "\"") (by decide) (by decide) (by decide)).2.1
        (by decide!) (by decide) (by decide) (by decide)]
      decide!,
    by
      rw [(C22_attribute_references xmlDefaultLimits
        { htmlNewSAXParserCtxt htmlSinkHandler with input := bytes "&lt;\"" }
        0x22 100 1 [] (bytes "lt") (bytes "\"") (by decide) (by decide) (by decide)).2.2
        (htmlEntityDesc.mk 60 (bytes "lt")) (by decide!) (by decide) (by decide)]
      decide!⟩


/-! ## The inline UTF-8 writer against the decoder -/

theorem htmlEncodeUTF8_eq_xmlCopyChar (c : Nat) (h : c < 0x110000) :
    htmlEncodeUTF8 c = xmlCopyChar c := by
  have m5 : ∀ x : Nat, x < 32 → x &&& 0x1F = x := fun x hx => by
    rw [show (0x1F : Nat) = 2 ^ 5 - 1 from rfl, Nat.and_pow_two_sub_one_eq_mod]
    exact Nat.mod_eq_of_lt hx
  have m4 : ∀ x : Nat, x < 16 → x &&& 0x0F = x := fun x hx => by
    rw [show (0x0F : Nat) = 2 ^ 4 - 1 from rfl, Nat.and_pow_two_sub_one_eq_mod]
    exact Nat.mod_eq_of_lt hx
  have m3 : ∀ x : Nat, x < 8 → x &&& 0x07 = x := fun x hx => by
    rw [show (0x07 : Nat) = 2 ^ 3 - 1 from rfl, Nat.and_pow_two_sub_one_eq_mod]
    exact Nat.mod_eq_of_lt hx
  unfold htmlEncodeUTF8 xmlCopyChar
  simp only [Nat.shiftRight_zero]
  by_cases h1 : c < 0x80
  · simp only [h1, if_true]
  · by_cases h2 : c < 0x800
    · simp only [h1, h2, if_true, if_false]
      rw [m5 (c >>> 6) (by rw [Nat.shiftRight_eq_div_pow]; omega)]
    · by_cases h3 : c < 0x10000
      · simp only [h1, h2, h3, if_true, if_false]
        rw [m4 (c >>> 12) (by rw [Nat.shiftRight_eq_div_pow]; omega)]
      · simp only [h1, h2, h3, h, if_true, if_false]
        rw [m3 (c >>> 18) (by rw [Nat.shiftRight_eq_div_pow]; omega)]

theorem htmlEncodeUTF8_length (c : Nat) :
    1 ≤ (htmlEncodeUTF8 c).length ∧ (htmlEncodeUTF8 c).length ≤ 4 := by
  unfold htmlEncodeUTF8
  split_ifs <;> simp

/-- C40. UTF-8 round trip. For every code point `c` that is a legal XML
character (hence not 0, below 0x110000 and no surrogate), the bytes that the
inline UTF-8 writer of `htmlParseReference` and `htmlParseHTMLAttribute` writes
for `c` number between 1 and 4, and `htmlCurrentChar`, in UTF-8 mode and
positioned at those bytes (whatever follows them), returns exactly `c` with a
length equal to the number of bytes written, reports nothing and leaves the
context as it was. -/
theorem C40_utf8_round_trip (ctxt : htmlParserCtxt) (c : Nat) (tail : List Nat)
    (hc : IS_CHAR c = true) (henc : ctxt.hasEncoding = true)
    (hin : ctxt.input = htmlEncodeUTF8 c ++ tail) :
    htmlCurrentChar ctxt = (ctxt, c, (htmlEncodeUTF8 c).length) ∧
      1 ≤ (htmlEncodeUTF8 c).length ∧ (htmlEncodeUTF8 c).length ≤ 4 ∧
      (0 < c ∧ c < 0x110000 ∧ ¬ (0xd800 ≤ c ∧ c ≤ 0xdfff)) := by
  obtain ⟨h0, hmax⟩ := IS_CHAR_bound c hc
  have he := htmlEncodeUTF8_eq_xmlCopyChar c hmax
  rw [he] at hin ⊢
  refine ⟨htmlCurrentChar_legal ctxt c tail hc (Or.inl henc) hin, ?_, ?_, by omega, hmax, ?_⟩
  · rw [← he]; exact (htmlEncodeUTF8_length c).1
  · rw [← he]; exact (htmlEncodeUTF8_length c).2
  · intro hs
    unfold IS_CHAR at hc
    rw [if_neg (by omega)] at hc
    simp only [Bool.or_eq_true, Bool.and_eq_true, decide_eq_true_eq] at hc
    omega

/-- Witness for C40: the euro sign U+20AC, written as E2 82 AC, in front of
the letter `x`. -/
theorem C40_utf8_round_trip_witness :
    htmlCurrentChar
        { htmlNewSAXParserCtxt htmlSinkHandler with
          input := [0xe2, 0x82, 0xac, 0x78], hasEncoding := true } =
      ({ htmlNewSAXParserCtxt htmlSinkHandler with
          input := [0xe2, 0x82, 0xac, 0x78], hasEncoding := true }, 0x20ac, 3) :=
  (C40_utf8_round_trip
    { htmlNewSAXParserCtxt htmlSinkHandler with
      input := [0xe2, 0x82, 0xac, 0x78], hasEncoding := true }
    0x20ac [0x78] (by decide) rfl (by decide)).1


/-! ## The entity lookups -/

theorem find?_congr_mem {α : Type} (p q : α → Bool) :
    ∀ l : List α, (∀ a ∈ l, p a = q a) → l.find? p = l.find? q
  | [], _ => rfl
  | a :: l, h => by
    have ha := h a (List.mem_cons_self _ _)
    have ih := find?_congr_mem p q l (fun x hx => h x (List.mem_cons_of_mem _ hx))
    simp only [List.find?_cons, ha, ih]

theorem intOfUnsigned_small (x : Nat) (h : x < 2 ^ 31) : intOfUnsigned x = (x : Int) := by
  unfold intOfUnsigned
  have e : x % 2 ^ 32 = x := Nat.mod_eq_of_lt (by omega)
  rw [e, if_pos h]

theorem intOfUnsigned_eq (x y : Nat) (hx : x < 2 ^ 32) (hy : y < 2 ^ 31) :
    intOfUnsigned x - intOfUnsigned y = 0 ↔ y = x := by
  rw [intOfUnsigned_small y hy]
  unfold intOfUnsigned
  have e : x % 2 ^ 32 = x := Nat.mod_eq_of_lt hx
  rw [e]
  split_ifs <;> omega

/-- The table `html40EntitiesTable` is strictly increasing by value, and its
values are below 2^31. -/
theorem html40EntitiesTable_chain :
    List.Chain' (fun a b => a.value < b.value) html40EntitiesTable ∧
      ∀ e ∈ html40EntitiesTable, e.value < 2 ^ 31 := by
  have h : listChainB (fun a b => decide (a.value < b.value)) html40EntitiesTable = true := by
    decide!
  have := listChainB_chain _ _ h
  exact ⟨by simpa using this, by decide!⟩

theorem html40EntitiesTable_pairwise :
    List.Pairwise (fun a b => a.value < b.value) html40EntitiesTable := by
  haveI : IsTrans htmlEntityDesc (fun a b => a.value < b.value) :=
    ⟨fun a b c h1 h2 => Nat.lt_trans h1 h2⟩
  exact List.chain'_iff_pairwise.mp html40EntitiesTable_chain.1

theorem htmlEntityValueLookup_eq_scan (v : Nat) (hv : v < 2 ^ 32) :
    htmlEntityValueLookup v = htmlEntityValueLookup_scan v := by
  have hsmall := html40EntitiesTable_chain.2
  have hb : htmlEntityValueLookup v =
      html40EntitiesTable.find? (fun a => decide (htmlCompareEntityDesc v a = 0)) := by
    unfold htmlEntityValueLookup
    apply bsearch_eq_find
    intro i j a b hij ha hb hle
    have hp := List.pairwise_iff_getElem.mp html40EntitiesTable_pairwise
    obtain ⟨hi, rfl⟩ := List.getElem?_eq_some.mp ha
    obtain ⟨hj, rfl⟩ := List.getElem?_eq_some.mp hb
    have hlt := hp i j hi hj hij
    have s1 := hsmall _ (List.getElem_mem hi)
    have s2 := hsmall _ (List.getElem_mem hj)
    simp only [htmlCompareEntityDesc] at hle ⊢
    rw [intOfUnsigned_small _ s1] at hle
    rw [intOfUnsigned_small _ s2]
    omega
  rw [hb]
  unfold htmlEntityValueLookup_scan
  apply find?_congr_mem
  intro a ha
  have := intOfUnsigned_eq v a.value hv (hsmall a ha)
  simp only [htmlCompareEntityDesc]
  by_cases h : a.value = v
  · simp [h, this.mpr h]
  · simp only [h, decide_False, decide_eq_false_iff_not]
    exact fun h0 => h (this.mp h0)

theorem html40EntitiesTable_lookups :
    ∀ e ∈ html40EntitiesTable,
      htmlEntityLookup e.name = some e ∧ htmlEntityValueLookup e.value = some e := by
  have h : html40EntitiesTable.all (fun e => decide (htmlEntityLookup e.name = some e) &&
      decide (htmlEntityValueLookup e.value = some e)) = true := by
    decide!
  intro e he
  have := List.all_eq_true.mp h e he
  simpa using this

theorem html40EntitiesTable_names :
    (html40EntitiesTable.map (fun e => e.name)).Nodup := by
  decide!

/-- C31. The entity lookups on the table. For every entry of
`html40EntitiesTable`, `htmlEntityLookup` of its name and
`htmlEntityValueLookup` of its value both return that very entry, so the two
lookups are inverse to each other on the table. For every name that no entry
carries `htmlEntityLookup` returns NULL, and for every value (an `unsigned`,
below 2^32) that no entry carries `htmlEntityValueLookup` returns NULL. The
names are pairwise different and the table is strictly increasing by value, so
the binary search by value returns what a linear scan returns. -/
theorem C31_entity_lookups (n : List Nat) (v : Nat) (hv : v < 2 ^ 32) :
    (∀ e ∈ html40EntitiesTable,
        htmlEntityLookup e.name = some e ∧ htmlEntityValueLookup e.value = some e) ∧
      ((∀ e ∈ html40EntitiesTable, e.name ≠ n) → htmlEntityLookup n = none) ∧
      ((∀ e ∈ html40EntitiesTable, e.value ≠ v) → htmlEntityValueLookup v = none) ∧
      htmlEntityValueLookup v = htmlEntityValueLookup_scan v ∧
      (html40EntitiesTable.map (fun e => e.name)).Nodup ∧
      List.Chain' (fun a b => a.value < b.value) html40EntitiesTable := by
  refine ⟨html40EntitiesTable_lookups, fun h => htmlEntityLookup_loop_none n _ h, ?_,
    htmlEntityValueLookup_eq_scan v hv, html40EntitiesTable_names, html40EntitiesTable_chain.1⟩
  intro h
  rw [htmlEntityValueLookup_eq_scan v hv]
  unfold htmlEntityValueLookup_scan
  rw [List.find?_eq_none]
  intro e he
  simpa using h e he

/-- Witness for C31: the name `bogus` and the value 0x41 are not in the table,
and the value 0x3C is the entity lt. -/
theorem C31_entity_lookups_witness :
    htmlEntityLookup (bytes "bogus") = none ∧ htmlEntityValueLookup 0x41 = none ∧
      (htmlEntityValueLookup 0x3c).map (fun e => e.name) = some (bytes "lt") :=
  ⟨(C31_entity_lookups (bytes "bogus") 0x41 (by decide)).2.1 (by decide!),
    (C31_entity_lookups (bytes "bogus") 0x41 (by decide)).2.2.1 (by decide!),
    by
      rw [(C31_entity_lookups (bytes "bogus") 0x3c (by decide)).2.2.2.1]
      decide!⟩


/-! ## Divergences found by evaluation -/

/-- C36, failing input. With div, body, html open, the misplaced tag `<html/>`
is discarded by `htmlParseStartTag` (result 1, stack untouched), but
`htmlParseElementInternal` and the START_TAG case of `htmlParseTryOrFinish`
then take the name of the innermost open element for the self-closing
terminator: they emit endElement(div) and pop div. With the terminator `>` the
stack stays as it was and no event is emitted. -/
theorem C36_discarded_self_closing_tag_pops :
    (htmlParseStartTag xmlDefaultLimits
        { htmlNewSAXParserCtxt htmlSinkHandler with
          input := bytes "<html/>x", nameTab := [bytes "div", bytes "body", bytes "html"],
          html := 10 }).2 = 1 ∧
      (htmlParseStartTag xmlDefaultLimits
        { htmlNewSAXParserCtxt htmlSinkHandler with
          input := bytes "<html/>x", nameTab := [bytes "div", bytes "body", bytes "html"],
          html := 10 }).1.nameTab = [bytes "div", bytes "body", bytes "html"] ∧
      (htmlParseElementInternal xmlDefaultLimits
        { htmlNewSAXParserCtxt htmlSinkHandler with
          input := bytes "<html/>x", nameTab := [bytes "div", bytes "body", bytes "html"],
          html := 10 }).nameTab = [bytes "body", bytes "html"] ∧
      (htmlParseElementInternal xmlDefaultLimits
        { htmlNewSAXParserCtxt htmlSinkHandler with
          input := bytes "<html/>x", nameTab := [bytes "div", bytes "body", bytes "html"],
          html := 10 }).events = [saxEvent.endElement (bytes "div")] ∧
      (htmlParseTryOrFinish_startTag xmlDefaultLimits
        { htmlNewSAXParserCtxt htmlSinkHandler with
          input := bytes "<html/>x", nameTab := [bytes "div", bytes "body", bytes "html"],
          html := 10 }).nameTab = [bytes "body", bytes "html"] ∧
      (htmlParseTryOrFinish_startTag xmlDefaultLimits
        { htmlNewSAXParserCtxt htmlSinkHandler with
          input := bytes "<html/>x", nameTab := [bytes "div", bytes "body", bytes "html"],
          html := 10 }).events = [saxEvent.endElement (bytes "div")] ∧
      (htmlParseElementInternal xmlDefaultLimits
        { htmlNewSAXParserCtxt htmlSinkHandler with
          input := bytes "<html>x", nameTab := [bytes "div", bytes "body", bytes "html"],
          html := 10 }).nameTab = [bytes "div", bytes "body", bytes "html"] ∧
      (htmlParseElementInternal xmlDefaultLimits
        { htmlNewSAXParserCtxt htmlSinkHandler with
          input := bytes "<html>x", nameTab := [bytes "div", bytes "body", bytes "html"],
          html := 10 }).events = [] ∧
      (htmlParseDocument xmlDefaultLimits
        (htmlCreateMemoryParserCtxt htmlSinkHandler (bytes "<div><html/>x</div>"))).1.events =
        [saxEvent.setDocumentLocator, saxEvent.startDocument,
          saxEvent.startElement (bytes "html") [], saxEvent.startElement (bytes "body") [],
          saxEvent.startElement (bytes "div") [], saxEvent.endElement (bytes "div"),
          saxEvent.characters (bytes "x"), saxEvent.endElement (bytes "body"),
          saxEvent.endElement (bytes "html"), saxEvent.endDocument] := by
  decide!

/-- C38, failing input. On `<a.b>` the look-ahead
`htmlParseHTMLName_nonInvasive` returns `a`, for it does not take the dot, while
`htmlParseHTMLName`, applied behind the `<`, returns `a.b`. In the document
`<p><div.x>y` the open p is therefore closed for the looked-ahead name `div`,
although the element then opened is `div.x`, which closes no p. -/
theorem C38_lookahead_stops_at_dot :
    htmlParseHTMLName_nonInvasive
        { htmlNewSAXParserCtxt htmlSinkHandler with input := bytes "<a.b>" } =
        some (bytes "a") ∧
      (htmlParseHTMLName
        { htmlNewSAXParserCtxt htmlSinkHandler with input := bytes "a.b>" }).2 =
        some (bytes "a.b") ∧
      htmlCheckAutoClose (bytes "div") (bytes "p") = true ∧
      htmlCheckAutoClose (bytes "div.x") (bytes "p") = false ∧
      (htmlParseDocument xmlDefaultLimits
        (htmlCreateMemoryParserCtxt htmlSinkHandler (bytes "<p><div.x>y"))).1.events =
        [saxEvent.setDocumentLocator, saxEvent.startDocument,
          saxEvent.startElement (bytes "html") [], saxEvent.startElement (bytes "body") [],
          saxEvent.startElement (bytes "p") [], saxEvent.endElement (bytes "p"),
          saxEvent.startElement (bytes "div.x") [], saxEvent.characters (bytes "y"),
          saxEvent.endElement (bytes "div.x"), saxEvent.endElement (bytes "body"),
          saxEvent.endElement (bytes "html"), saxEvent.endDocument] := by
  decide!

/-- C39, failing input. On the available bytes `<!--!>x`
`htmlParseLookupCommentEnd` returns the offset 2, for it scans from the opener
on and takes the two hyphens of `<!--` followed by `!>` for a terminator, while
`htmlParseComment` on the same bytes reads the body `!>x`, runs to the end of
the input, emits no comment event and reports that the comment is not
terminated. -/
theorem C39_lookup_finds_end_in_opener :
    (htmlParseLookupCommentEnd xmlDefaultLimits
        { htmlNewSAXParserCtxt htmlSinkHandler with input := bytes "<!--!>x" }).2 = some 2 ∧
      (htmlParseComment xmlDefaultLimits
        { htmlNewSAXParserCtxt htmlSinkHandler with input := bytes "<!--!>x" }).events = [] ∧
      ((htmlParseComment xmlDefaultLimits
        { htmlNewSAXParserCtxt htmlSinkHandler with input := bytes "<!--!>x" }).errors.map
          (fun e => e.code)) = [xmlParserErrors.XML_ERR_COMMENT_NOT_FINISHED] ∧
      (htmlParseComment xmlDefaultLimits
        { htmlNewSAXParserCtxt htmlSinkHandler with input := bytes "<!--!>x" }).input = [] := by
  decide!


/-- C34, failing input. On the input C3 41, a lead byte followed by the letter
`A`, which is no continuation byte, `UTF8ToHtml` returns 0, not -2: the loop
over the trailing bytes only stops, the byte 0x03 is written for the malformed
sequence, and both input bytes count as consumed. A stray continuation byte in
lead position does give -2. -/
theorem C34_bad_continuation_returns_zero :
    UTF8ToHtml 100 (some [0xc3, 0x41]) = (0, [0x03], 2) ∧
      UTF8ToHtml 100 (some [0x41, 0x80, 0x42]) = (-2, [0x41], 1) := by
  decide!

/-! ## The sequence lookup -/

theorem htmlSequenceAt_step {α : Type} (b0 b1 b2 first next third : Nat) (x y : α) :
    (if b0 = first then
        if third ≠ 0 then (if b1 ≠ next ∨ b2 ≠ third then x else y)
        else if next ≠ 0 then (if b1 ≠ next then x else y)
        else y
      else x) =
      (if (b0 == first &&
          (if third ≠ 0 then b1 == next && b2 == third
           else if next ≠ 0 then b1 == next
           else true)) = true then y else x) := by
  by_cases h0 : b0 = first <;> by_cases h3 : third ≠ 0 <;> by_cases h2 : next ≠ 0 <;>
    by_cases h1 : b1 = next <;> by_cases h4 : b2 = third <;>
    simp [h0, h1, h2, h3, h4]

theorem htmlParseLookupSequence_loop_step (lim : xmlLimits) (buf : List Nat)
    (first next third : Nat) (ignoreattrval : Bool) (fuel base quote : Nat)
    (hb : base < lim.INT_MAX / 2) :
    htmlParseLookupSequence_loop lim buf first next third ignoreattrval (fuel + 1) base quote =
      if ignoreattrval = true ∧ quote ≠ 0 then
        htmlParseLookupSequence_loop lim buf first next third ignoreattrval fuel (base + 1)
          (if buf.getD base 0 = quote then 0 else quote)
      else if ignoreattrval = true ∧ (buf.getD base 0 = 0x22 ∨ buf.getD base 0 = 0x27) then
        htmlParseLookupSequence_loop lim buf first next third ignoreattrval fuel (base + 1)
          (buf.getD base 0)
      else if htmlSequenceAt buf first next third base = true then Sum.inl base
      else
        htmlParseLookupSequence_loop lim buf first next third ignoreattrval fuel (base + 1) quote := by
  rw [htmlParseLookupSequence_loop, if_neg (by omega)]
  unfold htmlSequenceAt
  rw [← htmlSequenceAt_step]

theorem htmlLookupQuote_false (buf : List Nat) (k q : Nat) :
    ∀ m, htmlLookupQuote false buf k q m = q
  | 0 => rfl
  | _ + 1 => rfl

theorem htmlLookupQuote_succ (buf : List Nat) (k q n : Nat) :
    htmlLookupQuote true buf k q (n + 1) =
      htmlQuoteStep (htmlLookupQuote true buf k q n) (buf.getD (k + n) 0) := rfl

theorem htmlParseLookupSequence_loop_spec (lim : xmlLimits) (buf : List Nat)
    (first next third : Nat) (ignoreattrval : Bool) (k q : Nat) :
    ∀ (fuel n : Nat), k + n + fuel ≤ lim.INT_MAX / 2 →
      htmlParseLookupSequence_loop lim buf first next third ignoreattrval fuel (k + n)
          (htmlLookupQuote ignoreattrval buf k q n) =
        match (List.range' (k + n) fuel).find?
            (htmlLookupHit buf first next third ignoreattrval k q) with
        | some i => Sum.inl i
        | none => Sum.inr (k + n + fuel, htmlLookupQuote ignoreattrval buf k q (n + fuel)) := by
  intro fuel
  induction fuel with
  | zero =>
    intro n _
    simp [htmlParseLookupSequence_loop]
  | succ f ih =>
    intro n hle
    have hnext := ih (n + 1) (by omega)
    rw [show k + (n + 1) = k + n + 1 from rfl] at hnext
    have hsub : k + n - k = n := by omega
    rw [htmlParseLookupSequence_loop_step lim buf first next third ignoreattrval f (k + n) _
      (by omega)]
    simp only [List.range'_succ, List.find?_cons, htmlLookupHit, hsub]
    rw [show n + (f + 1) = n + 1 + f by omega, show k + n + (f + 1) = k + n + 1 + f by omega]
    generalize hS : htmlSequenceAt buf first next third (k + n) = sq at *
    generalize hB : buf.getD (k + n) 0 = b at *
    cases hig : ignoreattrval with
    | false =>
      subst hig
      simp only [htmlLookupQuote_false] at hnext ⊢
      simp only [Bool.false_eq_true, false_and, if_false, Bool.not_false, Bool.true_or,
        Bool.true_and]
      cases sq with
      | true => simp
      | false => simp [hnext]
    | true =>
      subst hig
      have hq1 := htmlLookupQuote_succ buf k q n
      rw [hB] at hq1
      generalize htmlLookupQuote true buf k q n = qn at *
      simp only [true_and, Bool.not_true, Bool.false_or]
      by_cases hq0 : qn ≠ 0
      · rw [if_pos hq0]
        have hs : htmlQuoteStep qn b = (if b = qn then 0 else qn) := by
          simp [htmlQuoteStep, hq0]
        rw [hq1, hs] at hnext
        rw [hnext]
        have : (qn == 0) = false := by simp [hq0]
        simp only [this, Bool.false_and]
      · rw [if_neg hq0]
        simp only [not_not] at hq0
        subst hq0
        by_cases hqc : b = 0x22 ∨ b = 0x27
        · rw [if_pos hqc]
          have hs : htmlQuoteStep 0 b = b := by
            simp [htmlQuoteStep, hqc]
          rw [hq1, hs] at hnext
          rw [hnext]
          have : (b != 0x22 && b != 0x27) = false := by
            rcases hqc with h | h <;> simp [h]
          simp only [Bool.and_assoc, this, Bool.and_false, Bool.false_and]
        · rw [if_neg hqc]
          have hs : htmlQuoteStep 0 b = 0 := by
            simp [htmlQuoteStep, hqc]
          rw [hq1, hs] at hnext
          simp only [not_or] at hqc
          have hfree : ((0 : Nat) == 0 && b != 0x22 && b != 0x27) = true := by
            simp [hqc.1, hqc.2]
          simp only [hfree, Bool.true_and]
          cases sq with
          | true => simp
          | false => simp [hnext]


theorem htmlParseLookupSequence_spec (lim : xmlLimits) (ctxt : htmlParserCtxt)
    (first next third : Nat) (ignoreattrval : Bool)
    (hmax : htmlLookupLen ctxt.input.length next third ≤ lim.INT_MAX / 2) :
    htmlParseLookupSequence lim ctxt first next third ignoreattrval =
      match htmlLookupFirst ctxt.input first next third ignoreattrval ctxt.checkIndex
          ctxt.endCheckState with
      | some i => ({ ctxt with checkIndex := 0, endCheckState := 0 }, some i)
      | none =>
        ({ ctxt with
            checkIndex := max ctxt.checkIndex (htmlLookupLen ctxt.input.length next third),
            endCheckState := htmlLookupQuote ignoreattrval ctxt.input ctxt.checkIndex
              ctxt.endCheckState
              (htmlLookupLen ctxt.input.length next third - ctxt.checkIndex) }, none) := by
  unfold htmlParseLookupSequence htmlLookupFirst
  simp only
  have hlen : (if third ≠ 0 then ctxt.input.length - 2
      else if next ≠ 0 then ctxt.input.length - 1 else ctxt.input.length) =
      htmlLookupLen ctxt.input.length next third := rfl
  rw [hlen]
  generalize hL : htmlLookupLen ctxt.input.length next third = len at *
  by_cases hk : ctxt.checkIndex ≤ len
  · have h := htmlParseLookupSequence_loop_spec lim ctxt.input first next third ignoreattrval
      ctxt.checkIndex ctxt.endCheckState (len - ctxt.checkIndex) 0 (by omega)
    simp only [Nat.add_zero, Nat.zero_add] at h
    have hq0 : htmlLookupQuote ignoreattrval ctxt.input ctxt.checkIndex ctxt.endCheckState 0 =
        ctxt.endCheckState := rfl
    rw [hq0] at h
    rw [h]
    cases (List.range' ctxt.checkIndex (len - ctxt.checkIndex)).find?
        (htmlLookupHit ctxt.input first next third ignoreattrval ctxt.checkIndex
          ctxt.endCheckState) with
    | some i => rfl
    | none =>
      simp only
      rw [show ctxt.checkIndex + (len - ctxt.checkIndex) = max ctxt.checkIndex len by omega]
  · have h0 : len - ctxt.checkIndex = 0 := by omega
    rw [h0]
    simp only [htmlParseLookupSequence_loop, List.range'_zero, List.find?_nil]
    rw [show max ctxt.checkIndex len = ctxt.checkIndex by omega]
    rfl

theorem getD_append_left (buf more : List Nat) (i : Nat) (h : i < buf.length) :
    (buf ++ more).getD i 0 = buf.getD i 0 := by
  rw [List.getD_eq_getElem?_getD, List.getD_eq_getElem?_getD, List.getElem?_append_left h]

theorem htmlLookupQuote_append (ignoreattrval : Bool) (buf more : List Nat) (k q : Nat) :
    ∀ n, k + n ≤ buf.length →
      htmlLookupQuote ignoreattrval (buf ++ more) k q n = htmlLookupQuote ignoreattrval buf k q n
  | 0, _ => rfl
  | n + 1, h => by
    simp only [htmlLookupQuote]
    rw [htmlLookupQuote_append ignoreattrval buf more k q n (by omega),
      getD_append_left buf more (k + n) (by omega)]

theorem htmlLookupQuote_add (ignoreattrval : Bool) (buf : List Nat) (k q a : Nat) :
    ∀ b, htmlLookupQuote ignoreattrval buf k q (a + b) =
      htmlLookupQuote ignoreattrval buf (k + a)
        (htmlLookupQuote ignoreattrval buf k q a) b
  | 0 => rfl
  | b + 1 => by
    cases ignoreattrval with
    | false => simp [htmlLookupQuote_false]
    | true =>
      rw [show a + (b + 1) = (a + b) + 1 from rfl, htmlLookupQuote_succ, htmlLookupQuote_succ,
        htmlLookupQuote_add true buf k q a b, Nat.add_assoc]

theorem htmlLookupLen_le (len0 next third : Nat) : htmlLookupLen len0 next third ≤ len0 := by
  unfold htmlLookupLen
  split_ifs <;> omega

theorem htmlLookupLen_mono (a b next third : Nat) (h : a ≤ b) :
    htmlLookupLen a next third ≤ htmlLookupLen b next third := by
  unfold htmlLookupLen
  split_ifs <;> omega

theorem htmlSequenceAt_append (buf more : List Nat) (first next third i : Nat)
    (hi : i < htmlLookupLen buf.length next third) :
    htmlSequenceAt (buf ++ more) first next third i = htmlSequenceAt buf first next third i := by
  unfold htmlLookupLen at hi
  unfold htmlSequenceAt
  by_cases h3 : third ≠ 0
  · rw [if_pos h3] at hi
    simp only [h3, if_true, ne_eq, not_false_eq_true]
    rw [getD_append_left buf more i (by omega), getD_append_left buf more (i + 1) (by omega),
      getD_append_left buf more (i + 2) (by omega)]
  · rw [if_neg h3] at hi
    simp only [h3, if_false]
    by_cases h2 : next ≠ 0
    · rw [if_pos h2] at hi
      simp only [h2, if_true, ne_eq, not_false_eq_true]
      rw [getD_append_left buf more i (by omega), getD_append_left buf more (i + 1) (by omega)]
    · rw [if_neg h2] at hi
      simp only [h2, if_false]
      rw [getD_append_left buf more i (by omega)]

theorem htmlLookupHit_append (buf more : List Nat) (first next third : Nat)
    (ignoreattrval : Bool) (k q i : Nat) (hk : k ≤ i)
    (hi : i < htmlLookupLen buf.length next third) :
    htmlLookupHit (buf ++ more) first next third ignoreattrval k q i =
      htmlLookupHit buf first next third ignoreattrval k q i := by
  have hle := htmlLookupLen_le buf.length next third
  unfold htmlLookupHit
  rw [htmlSequenceAt_append buf more first next third i hi,
    htmlLookupQuote_append ignoreattrval buf more k q (i - k) (by omega),
    getD_append_left buf more i (by omega)]

theorem htmlLookupHit_shift (buf : List Nat) (first next third : Nat)
    (ignoreattrval : Bool) (k q a i : Nat) (hi : k + a ≤ i) :
    htmlLookupHit buf first next third ignoreattrval (k + a)
        (htmlLookupQuote ignoreattrval buf k q a) i =
      htmlLookupHit buf first next third ignoreattrval k q i := by
  unfold htmlLookupHit
  rw [← htmlLookupQuote_add, show a + (i - (k + a)) = i - k by omega]

/-- Resuming a lookup that found nothing: on a longer buffer, the lookup from
the stored offset and quote state finds what the lookup from the old offset
finds. -/
theorem htmlLookupFirst_resume (buf more : List Nat) (first next third : Nat)
    (ignoreattrval : Bool) (k q : Nat)
    (hnone : htmlLookupFirst buf first next third ignoreattrval k q = none) :
    htmlLookupFirst (buf ++ more) first next third ignoreattrval
        (max k (htmlLookupLen buf.length next third))
        (htmlLookupQuote ignoreattrval buf k q (htmlLookupLen buf.length next third - k)) =
      htmlLookupFirst (buf ++ more) first next third ignoreattrval k q := by
  have hmono := htmlLookupLen_mono buf.length (buf ++ more).length next third (by simp)
  have hle := htmlLookupLen_le buf.length next third
  unfold htmlLookupFirst at hnone ⊢
  generalize hL : htmlLookupLen buf.length next third = len at *
  generalize hL2 : htmlLookupLen (buf ++ more).length next third = len2 at *
  by_cases hk : k ≤ len
  · rw [show max k len = k + (len - k) by omega]
    rw [← htmlLookupQuote_append ignoreattrval buf more k q (len - k) (by omega)]
    have hsplit : List.range' k (len2 - k) =
        List.range' k (len - k) ++ List.range' (k + (len - k)) (len2 - (k + (len - k))) := by
      rw [List.range'_append_1]
      congr 1
      omega
    rw [hsplit, List.find?_append]
    have hfirst : (List.range' k (len - k)).find?
        (htmlLookupHit (buf ++ more) first next third ignoreattrval k q) = none := by
      rw [List.find?_eq_none] at hnone ⊢
      intro i hi
      have hr := List.mem_range'_1.mp hi
      rw [htmlLookupHit_append buf more first next third ignoreattrval k q i hr.1
        (by rw [hL]; omega)]
      exact hnone i hi
    rw [hfirst, Option.none_or]
    apply find?_congr_mem
    intro i hi
    have hr := List.mem_range'_1.mp hi
    exact htmlLookupHit_shift (buf ++ more) first next third ignoreattrval k q (len - k) i hr.1
  · rw [show max k len = k by omega, show len - k = 0 by omega]
    rfl


theorem find?_range'_some (p : Nat → Bool) :
    ∀ (n s i : Nat), (List.range' s n).find? p = some i →
      s ≤ i ∧ i < s + n ∧ p i = true ∧ ∀ j, s ≤ j → j < i → p j = false := by
  intro n
  induction n with
  | zero => intro s i h; simp at h
  | succ m ih =>
    intro s i h
    rw [List.range'_succ, List.find?_cons] at h
    cases hp : p s with
    | true =>
      rw [hp] at h
      have e : s = i := by simpa using h
      subst e
      exact ⟨le_refl _, by omega, hp, fun j h1 h2 => by omega⟩
    | false =>
      rw [hp] at h
      obtain ⟨h1, h2, h3, h4⟩ := ih (s + 1) i h
      refine ⟨by omega, by omega, h3, ?_⟩
      intro j hj1 hj2
      by_cases e : j = s
      · rw [e]; exact hp
      · exact h4 j (by omega) hj2

theorem find?_range'_none (p : Nat → Bool) (n s : Nat)
    (h : (List.range' s n).find? p = none) : ∀ j, s ≤ j → j < s + n → p j = false := by
  rw [List.find?_eq_none] at h
  intro j h1 h2
  have := h j (List.mem_range'_1.mpr ⟨h1, h2⟩)
  simpa using this

theorem htmlParseLookupSequence_loop_giveup (lim : xmlLimits) (buf : List Nat)
    (first next third : Nat)
    (hno : ∀ i, htmlSequenceAt buf first next third i = false) :
    ∀ (fuel base quote : Nat), base ≤ lim.INT_MAX / 2 → lim.INT_MAX / 2 < base + fuel →
      htmlParseLookupSequence_loop lim buf first next third false fuel base quote =
        Sum.inl (lim.INT_MAX / 2 - 2) := by
  intro fuel
  induction fuel with
  | zero => intro base quote h1 h2; omega
  | succ f ih =>
    intro base quote h1 h2
    by_cases hb : base = lim.INT_MAX / 2
    · rw [htmlParseLookupSequence_loop, if_pos (by omega), hb]
    · rw [htmlParseLookupSequence_loop_step lim buf first next third false f base quote
        (by omega)]
      simp only [Bool.false_eq_true, false_and, if_false, hno]
      exact ih (base + 1) quote (by omega) (by omega)

theorem htmlParseLookupSequence_giveup (lim : xmlLimits) (ctxt : htmlParserCtxt) (n : Nat)
    (hin : ctxt.input = List.replicate n 0x61) (hk : ctxt.checkIndex = 0)
    (hn : lim.INT_MAX / 2 < n) :
    (htmlParseLookupSequence lim ctxt 0x3e 0 0 false).2 = some (lim.INT_MAX / 2 - 2) := by
  have hno : ∀ i, htmlSequenceAt ctxt.input 0x3e 0 0 i = false := by
    intro i
    unfold htmlSequenceAt
    rw [hin, List.getD_eq_getElem?_getD, List.getElem?_replicate]
    split_ifs <;> simp
  have hl : ctxt.input.length = n := by rw [hin, List.length_replicate]
  unfold htmlParseLookupSequence
  simp only [hk, hl, ne_eq, not_true_eq_false, if_false, Nat.sub_zero]
  rw [htmlParseLookupSequence_loop_giveup lim ctxt.input 0x3e 0 0 hno n 0 _ (Nat.zero_le _)
    (by omega)]

/-- C35, as the code behaves. For an available input that holds the sought
sequence's length less one at least and whose scan stays below the offset
`INT_MAX / 2`, `htmlParseLookupSequence`, started with `checkIndex = k` and the
quote state `endCheckState`, returns the smallest offset `i >= k` at which the
sequence stands (when `ignoreattrval` is set: outside the quoted regions, as
the quote state carried from `k` on tells them) and resets `checkIndex` and
`endCheckState` to 0. When there is no such offset it returns -1, does not lower
`checkIndex`, and stores the first offset not examined with the quote state
reached there; resumed from that state on an input grown by `more`, the lookup
gives what the lookup from `k` gives on the grown input, so no byte before the
stored offset is examined again. -/
theorem C35_lookup_resume (lim : xmlLimits) (ctxt : htmlParserCtxt)
    (first next third : Nat) (ignoreattrval : Bool) (more : List Nat)
    (_hseq : (third ≠ 0 → 2 ≤ ctxt.input.length) ∧ (next ≠ 0 → 1 ≤ ctxt.input.length))
    (hmax : htmlLookupLen (ctxt.input ++ more).length next third ≤ lim.INT_MAX / 2) :
    htmlParseLookupSequence lim ctxt first next third ignoreattrval =
        (match htmlLookupFirst ctxt.input first next third ignoreattrval ctxt.checkIndex
            ctxt.endCheckState with
        | some i => ({ ctxt with checkIndex := 0, endCheckState := 0 }, some i)
        | none =>
          ({ ctxt with
              checkIndex := max ctxt.checkIndex (htmlLookupLen ctxt.input.length next third),
              endCheckState := htmlLookupQuote ignoreattrval ctxt.input ctxt.checkIndex
                ctxt.endCheckState
                (htmlLookupLen ctxt.input.length next third - ctxt.checkIndex) }, none)) ∧
      (∀ i, (htmlParseLookupSequence lim ctxt first next third ignoreattrval).2 = some i →
        ctxt.checkIndex ≤ i ∧ i < htmlLookupLen ctxt.input.length next third ∧
        htmlLookupHit ctxt.input first next third ignoreattrval ctxt.checkIndex
          ctxt.endCheckState i = true ∧
        ∀ j, ctxt.checkIndex ≤ j → j < i →
          htmlLookupHit ctxt.input first next third ignoreattrval ctxt.checkIndex
            ctxt.endCheckState j = false) ∧
      ((htmlParseLookupSequence lim ctxt first next third ignoreattrval).2 = none →
        (∀ j, ctxt.checkIndex ≤ j → j < htmlLookupLen ctxt.input.length next third →
          htmlLookupHit ctxt.input first next third ignoreattrval ctxt.checkIndex
            ctxt.endCheckState j = false) ∧
        ctxt.checkIndex ≤
          (htmlParseLookupSequence lim ctxt first next third ignoreattrval).1.checkIndex ∧
        htmlParseLookupSequence lim
            { (htmlParseLookupSequence lim ctxt first next third ignoreattrval).1 with
              input := ctxt.input ++ more }
            first next third ignoreattrval =
          htmlParseLookupSequence lim { ctxt with input := ctxt.input ++ more }
            first next third ignoreattrval) := by
  have hmono := htmlLookupLen_mono ctxt.input.length (ctxt.input ++ more).length next third
    (by simp)
  have hspec := htmlParseLookupSequence_spec lim ctxt first next third ignoreattrval
    (by omega)
  refine ⟨hspec, ?_, ?_⟩
  · intro i hi
    rw [hspec] at hi
    cases hf : htmlLookupFirst ctxt.input first next third ignoreattrval ctxt.checkIndex
        ctxt.endCheckState with
    | none => rw [hf] at hi; cases hi
    | some i0 =>
      rw [hf] at hi
      have e : i0 = i := by simpa using hi
      subst e
      unfold htmlLookupFirst at hf
      obtain ⟨h1, h2, h3, h4⟩ := find?_range'_some _ _ _ _ hf
      exact ⟨h1, by omega, h3, h4⟩
  · intro hn
    rw [hspec] at hn
    cases hf : htmlLookupFirst ctxt.input first next third ignoreattrval ctxt.checkIndex
        ctxt.endCheckState with
    | some i0 => rw [hf] at hn; cases hn
    | none =>
      have hf2 := hf
      unfold htmlLookupFirst at hf2
      have hnone := find?_range'_none _ _ _ hf2
      refine ⟨fun j h1 h2 => hnone j h1 (by omega), ?_, ?_⟩
      · rw [hspec, hf]
        exact Nat.le_max_left _ _
      · rw [hspec, hf]
        simp only
        rw [htmlParseLookupSequence_spec lim _ first next third ignoreattrval hmax,
          htmlParseLookupSequence_spec lim _ first next third ignoreattrval hmax]
        simp only
        rw [htmlLookupFirst_resume ctxt.input more first next third ignoreattrval
          ctxt.checkIndex ctxt.endCheckState hf]
        cases hf3 : htmlLookupFirst (ctxt.input ++ more) first next third ignoreattrval
            ctxt.checkIndex ctxt.endCheckState with
        | some i => rfl
        | none =>
          simp only
          have hle := htmlLookupLen_le ctxt.input.length next third
          have hA : max (max ctxt.checkIndex (htmlLookupLen ctxt.input.length next third))
                (htmlLookupLen (ctxt.input ++ more).length next third) =
              max ctxt.checkIndex (htmlLookupLen (ctxt.input ++ more).length next third) := by
            omega
          have hB : htmlLookupQuote ignoreattrval (ctxt.input ++ more)
                (max ctxt.checkIndex (htmlLookupLen ctxt.input.length next third))
                (htmlLookupQuote ignoreattrval ctxt.input ctxt.checkIndex ctxt.endCheckState
                  (htmlLookupLen ctxt.input.length next third - ctxt.checkIndex))
                (htmlLookupLen (ctxt.input ++ more).length next third -
                  max ctxt.checkIndex (htmlLookupLen ctxt.input.length next third)) =
              htmlLookupQuote ignoreattrval (ctxt.input ++ more) ctxt.checkIndex
                ctxt.endCheckState
                (htmlLookupLen (ctxt.input ++ more).length next third - ctxt.checkIndex) := by
            by_cases hk : ctxt.checkIndex ≤ htmlLookupLen ctxt.input.length next third
            · rw [show max ctxt.checkIndex (htmlLookupLen ctxt.input.length next third) =
                  ctxt.checkIndex +
                    (htmlLookupLen ctxt.input.length next third - ctxt.checkIndex) by omega]
              rw [← htmlLookupQuote_append ignoreattrval ctxt.input more ctxt.checkIndex
                ctxt.endCheckState _ (by omega)]
              rw [← htmlLookupQuote_add]
              congr 1
              omega
            · rw [show max ctxt.checkIndex (htmlLookupLen ctxt.input.length next third) =
                  ctxt.checkIndex by omega,
                show htmlLookupLen ctxt.input.length next third - ctxt.checkIndex = 0 by
                  omega]
              rfl
          rw [hA, hB]

/-- Witness for C35: the lookup of the closing angle bracket outside quoted
values in the four bytes of an unfinished start tag, resumed after two more
bytes have arrived. -/
theorem C35_lookup_resume_witness :
    ((0 ≠ 0 → 2 ≤ ({ htmlNewSAXParserCtxt htmlSinkHandler with
        input := bytes "<a b" }).input.length) ∧
      (0 ≠ 0 → 1 ≤ ({ htmlNewSAXParserCtxt htmlSinkHandler with
        input := bytes "<a b" }).input.length)) ∧
      htmlLookupLen (({ htmlNewSAXParserCtxt htmlSinkHandler with
        input := bytes "<a b" }).input ++ bytes "c>").length 0 0 ≤
          xmlDefaultLimits.INT_MAX / 2 ∧
      htmlParseLookupSequence xmlDefaultLimits
          { (htmlParseLookupSequence xmlDefaultLimits
              { htmlNewSAXParserCtxt htmlSinkHandler with input := bytes "<a b" }
              0x3e 0 0 true).1 with
            input := ({ htmlNewSAXParserCtxt htmlSinkHandler with
              input := bytes "<a b" }).input ++ bytes "c>" }
          0x3e 0 0 true =
        htmlParseLookupSequence xmlDefaultLimits
          { { htmlNewSAXParserCtxt htmlSinkHandler with input := bytes "<a b" } with
            input := ({ htmlNewSAXParserCtxt htmlSinkHandler with
              input := bytes "<a b" }).input ++ bytes "c>" }
          0x3e 0 0 true :=
  ⟨⟨by decide, by decide⟩, by decide,
    ((C35_lookup_resume xmlDefaultLimits
      { htmlNewSAXParserCtxt htmlSinkHandler with input := bytes "<a b" }
      0x3e 0 0 true (bytes "c>") ⟨by decide, by decide⟩ (by decide)).2.2 (by decide!)).2.2⟩

/-- Counterexample to C35 as stated: in an input of 2^30 letters `a`, which
holds no closing angle bracket, the lookup of that bracket does not return -1:
at the offset `INT_MAX / 2` it gives up and returns that offset less 2. -/
theorem C35_lookup_gives_up_at_half_int_max :
    (htmlParseLookupSequence xmlDefaultLimits
        { htmlNewSAXParserCtxt htmlSinkHandler with input := List.replicate 1073741824 0x61 }
        0x3e 0 0 false).2 = some 1073741821 ∧
      ∀ i, (List.replicate 1073741824 0x61).getD i 0 ≠ 0x3e := by
  refine ⟨htmlParseLookupSequence_giveup xmlDefaultLimits _ 1073741824 rfl rfl (by decide), ?_⟩
  intro i
  rw [List.getD_eq_getElem?_getD, List.getElem?_replicate]
  split_ifs <;> simp


theorem htmlParseTryOrFinish_body_incomplete_tag (lim : xmlLimits) (ctxt : htmlParserCtxt)
    (b : Nat) (rest : List Nat)
    (hstate : ctxt.instate = xmlParserInputState.XML_PARSER_START_TAG)
    (hin : ctxt.input = 0x3c :: b :: rest) (hb : b ≠ 0x2f)
    (hno : htmlLookupFirst ctxt.input 0x3e 0 0 true ctxt.checkIndex ctxt.endCheckState = none)
    (hmax : ctxt.input.length ≤ lim.INT_MAX / 2) :
    htmlParseTryOrFinish_body lim false ctxt =
      ({ ctxt with
          checkIndex := max ctxt.checkIndex ctxt.input.length,
          endCheckState := htmlLookupQuote true ctxt.input ctxt.checkIndex ctxt.endCheckState
            (ctxt.input.length - ctxt.checkIndex) }, ctxt.input.length, false) := by
  have hspec := htmlParseLookupSequence_spec lim ctxt 0x3e 0 0 true
    (by simpa [htmlLookupLen] using hmax)
  rw [hno] at hspec
  have hlen : ctxt.input.length = rest.length + 2 := by rw [hin]; rfl
  have hcur : CUR ctxt = 0x3c := by unfold CUR; rw [hin]; rfl
  have hnxt : NXT ctxt 1 = b := by unfold NXT; rw [hin]; rfl
  unfold htmlParseTryOrFinish_body
  simp only [Bool.false_eq_true, and_false, if_false, hstate, hcur, hnxt, hspec,
    show ¬ (ctxt.input.length < 1) by omega, show ¬ (ctxt.input.length < 2) by omega,
    show ¬ ((0x3c : Nat) = 0) by decide, false_and, ne_eq, not_true_eq_false, hb,
    if_true, Option.isSome_none, htmlLookupLen]

/-- C32: no event for an incomplete start tag. When a non-terminating call of
`htmlParseTryOrFinish` stands in the state START_TAG at a `<` that is not
followed by `/`, and the lookup of `>` outside quoted regions (resumed from
`checkIndex` with the quote state `endCheckState`) finds no offset among the
available bytes, the loop is left at once, with whatever number of turns
remains: no SAX event and no error is added, the input is where it was, the
stack of open elements is the same and the state is still START_TAG. Only the
resume offset and the quote state are stored. -/
theorem C32_incomplete_start_tag (lim : xmlLimits) (ctxt : htmlParserCtxt)
    (b : Nat) (rest : List Nat)
    (hstop : PARSER_STOPPED ctxt = false)
    (hstate : ctxt.instate = xmlParserInputState.XML_PARSER_START_TAG)
    (hin : ctxt.input = 0x3c :: b :: rest) (hb : b ≠ 0x2f)
    (hno : htmlLookupFirst ctxt.input 0x3e 0 0 true ctxt.checkIndex ctxt.endCheckState = none)
    (hmax : ctxt.input.length ≤ lim.INT_MAX / 2) :
    (∀ fuel avail, htmlParseTryOrFinish_loop lim false (fuel + 1) ctxt avail =
        ({ ctxt with
            checkIndex := max ctxt.checkIndex ctxt.input.length,
            endCheckState := htmlLookupQuote true ctxt.input ctxt.checkIndex
              ctxt.endCheckState (ctxt.input.length - ctxt.checkIndex) },
          ctxt.input.length)) ∧
      htmlParseTryOrFinish lim ctxt false =
        { ctxt with
          checkIndex := max ctxt.checkIndex ctxt.input.length,
          endCheckState := htmlLookupQuote true ctxt.input ctxt.checkIndex
            ctxt.endCheckState (ctxt.input.length - ctxt.checkIndex) } ∧
      (htmlParseTryOrFinish lim ctxt false).events = ctxt.events ∧
      (htmlParseTryOrFinish lim ctxt false).errors = ctxt.errors ∧
      (htmlParseTryOrFinish lim ctxt false).input = ctxt.input ∧
      (htmlParseTryOrFinish lim ctxt false).nameTab = ctxt.nameTab ∧
      (htmlParseTryOrFinish lim ctxt false).instate =
        xmlParserInputState.XML_PARSER_START_TAG := by
  have hbody := htmlParseTryOrFinish_body_incomplete_tag lim ctxt b rest hstate hin hb hno hmax
  have hloop : ∀ fuel avail, htmlParseTryOrFinish_loop lim false (fuel + 1) ctxt avail =
      ({ ctxt with
          checkIndex := max ctxt.checkIndex ctxt.input.length,
          endCheckState := htmlLookupQuote true ctxt.input ctxt.checkIndex
            ctxt.endCheckState (ctxt.input.length - ctxt.checkIndex) },
        ctxt.input.length) := by
    intro fuel avail
    rw [htmlParseTryOrFinish_loop]
    simp only [hstop, hbody, if_true, Bool.false_eq_true, if_false]
  have hfun : htmlParseTryOrFinish lim ctxt false =
      { ctxt with
        checkIndex := max ctxt.checkIndex ctxt.input.length,
        endCheckState := htmlLookupQuote true ctxt.input ctxt.checkIndex
          ctxt.endCheckState (ctxt.input.length - ctxt.checkIndex) } := by
    unfold htmlParseTryOrFinish
    rw [show 4 * (2 * ctxt.input.length + 2) + 4 =
        (4 * (2 * ctxt.input.length + 2) + 3) + 1 from rfl,
      hloop]
    simp only [Bool.false_eq_true, and_false, if_false]
  refine ⟨hloop, hfun, ?_, ?_, ?_, ?_, ?_⟩
  · rw [hfun]
  · rw [hfun]
  · rw [hfun]
  · rw [hfun]
  · rw [hfun]; exact hstate

/-- Witness for C32: the bytes of a start tag whose closing bracket stands
inside a quoted value only. -/
theorem C32_incomplete_start_tag_witness :
    (htmlParseTryOrFinish xmlDefaultLimits
        { htmlNewSAXParserCtxt htmlSinkHandler with
          input := bytes "<a b='>", instate := xmlParserInputState.XML_PARSER_START_TAG,
          nameTab := [bytes "body", bytes "html"] } false).events = [] ∧
      (htmlParseTryOrFinish xmlDefaultLimits
        { htmlNewSAXParserCtxt htmlSinkHandler with
          input := bytes "<a b='>", instate := xmlParserInputState.XML_PARSER_START_TAG,
          nameTab := [bytes "body", bytes "html"] } false).input = bytes "<a b='>" ∧
      (htmlParseTryOrFinish xmlDefaultLimits
        { htmlNewSAXParserCtxt htmlSinkHandler with
          input := bytes "<a b='>", instate := xmlParserInputState.XML_PARSER_START_TAG,
          nameTab := [bytes "body", bytes "html"] } false).nameTab =
        [bytes "body", bytes "html"] :=
  have h := C32_incomplete_start_tag xmlDefaultLimits
    { htmlNewSAXParserCtxt htmlSinkHandler with
      input := bytes "<a b='>", instate := xmlParserInputState.XML_PARSER_START_TAG,
      nameTab := [bytes "body", bytes "html"] }
    0x61 (bytes " b='>") (by decide) rfl (by decide) (by decide) (by decide!) (by decide)
  ⟨h.2.2.1, h.2.2.2.2.1, h.2.2.2.2.2.1⟩


theorem htmlParseScript_flush_eq (c : htmlParserCtxt) (h : htmlSAXHandler) (buf : List Nat)
    (hsax : c.sax = some h) :
    htmlParseScript_flush c buf = { c with events := c.events ++ htmlScriptEvent h buf } := by
  unfold htmlParseScript_flush htmlScriptEvent
  rw [hsax]
  simp only
  split_ifs
  · rfl
  · rfl
  · cases c; simpa using hsax

theorem htmlScriptChunks_flatten :
    ∀ (cs buf : List Nat),
      (htmlScriptChunks buf cs).1.flatten ++ (htmlScriptChunks buf cs).2 =
        buf ++ xmlCopyChars cs
  | [], buf => by simp [htmlScriptChunks, xmlCopyChars]
  | v :: vs, buf => by
    rw [htmlScriptChunks, xmlCopyChars_cons]
    split_ifs with hf
    · have := htmlScriptChunks_flatten vs []
      simp only [List.flatten_cons, List.append_assoc, List.nil_append] at this ⊢
      rw [this]
    · rw [htmlScriptChunks_flatten vs (buf ++ xmlCopyChar v), List.append_assoc]

theorem htmlParseScript_stop_false (c : htmlParserCtxt) (v : Nat) (t : List Nat)
    (hin : c.input = xmlCopyChar v ++ t)
    (hns : htmlScriptStop c.recovery c.name c.input = false) :
    (if v = 0x3c ∧ NXT c 1 = 0x2f then
        if c.recovery then
          if xmlStrncasecmp (c.name.getD []) (c.input.drop 2) (cstring (c.name.getD [])).length = 0
          then (true, c)
          else
            (false, htmlParseErr c xmlParserErrors.XML_ERR_TAG_NAME_MISMATCH
              "Element %s embeds close tag\n" c.name none)
        else if (0x41 ≤ NXT c 2 ∧ NXT c 2 ≤ 0x5a) ∨ (0x61 ≤ NXT c 2 ∧ NXT c 2 ≤ 0x7a) then
          (true, c)
        else (false, c)
      else (false, c)) =
      (false,
        if c.recovery = true ∧ v = 0x3c ∧ t.headD 0 = 0x2f then
          htmlParseErr c xmlParserErrors.XML_ERR_TAG_NAME_MISMATCH
            "Element %s embeds close tag\n" c.name none
        else c) := by
  by_cases hv : v = 0x3c
  · subst hv
    have hin1 : c.input = 0x3c :: t := by rw [hin]; rfl
    have hn1 : NXT c 1 = t.headD 0 := by
      unfold NXT; rw [hin1]; cases t <;> rfl
    have hn2 : NXT c 2 = c.input.getD 2 0 := rfl
    by_cases hsl : t.headD 0 = 0x2f
    · have h0 : c.input.getD 0 0 = 0x3c := by rw [hin1]; rfl
      have h1 : c.input.getD 1 0 = 0x2f := by rw [← hsl, ← hn1]; rfl
      unfold htmlScriptStop at hns
      rw [h0, h1] at hns
      simp only [beq_self_eq_true, Bool.true_and] at hns
      rw [hn1, hn2]
      generalize c.input.getD 2 0 = x at hns
      cases hr : c.recovery with
      | true =>
        rw [hr] at hns
        simp only [if_true, decide_eq_false_iff_not] at hns
        simp only [hsl, and_self, if_true, if_neg hns]
      | false =>
        rw [hr] at hns
        simp only [Bool.false_eq_true, if_false, Bool.or_eq_false_iff, Bool.and_eq_false_imp,
          decide_eq_true_eq, decide_eq_false_iff_not] at hns
        have hn : ¬ ((0x41 ≤ x ∧ x ≤ 0x5a) ∨ (0x61 ≤ x ∧ x ≤ 0x7a)) := by
          rintro (⟨a, b⟩ | ⟨a, b⟩)
          · exact hns.1 a b
          · exact hns.2 a b
        simp only [hsl, and_self, if_true, Bool.false_eq_true, if_false, if_neg hn, false_and]
    · rw [hn1]
      simp only [hsl, and_false, if_false]
  · simp only [hv, false_and, and_false, if_false]

theorem htmlParseScript_loop_step (c : htmlParserCtxt) (h : htmlSAXHandler) (buf : List Nat)
    (v : Nat) (t : List Nat) (fuel : Nat) (hv : IS_CHAR v = true)
    (hin : c.input = xmlCopyChar v ++ t) (hsax : c.sax = some h)
    (hns : htmlScriptStop c.recovery c.name c.input = false) :
    ∃ c3 : htmlParserCtxt,
      htmlParseScript_loop (fuel + 1) c buf v (xmlCopyChar v).length =
        htmlParseScript_loop fuel (htmlCurrentChar c3).1
          (if (buf ++ xmlCopyChar v).length ≥ HTML_PARSER_BIG_BUFFER_SIZE then []
            else buf ++ xmlCopyChar v)
          (htmlCurrentChar c3).2.1 (htmlCurrentChar c3).2.2 ∧
      c3.input = t ∧
      c3.events = c.events ++
        (if (buf ++ xmlCopyChar v).length ≥ HTML_PARSER_BIG_BUFFER_SIZE then
          htmlScriptEvent h (buf ++ xmlCopyChar v) else []) ∧
      c3.errors = c.errors ++
        (if c.recovery = true ∧ v = 0x3c ∧ t.headD 0 = 0x2f then
          [htmlScriptEmbedded c.name] else []) ∧
      c3.sax = c.sax ∧ c3.disableSAX = c.disableSAX ∧ c3.nameTab = c.nameTab ∧
      c3.recovery = c.recovery ∧ c3.hasEncoding = c.hasEncoding := by
  have hv0 := (IS_CHAR_bound v hv).1
  have hstop := htmlParseScript_stop_false c v t hin hns
  rw [htmlParseScript_loop, if_pos hv0, hstop]
  simp only [Bool.false_eq_true, if_false, hv, if_true, COPY_BUF_legal v hv]
  generalize hc1 : (if c.recovery = true ∧ v = 0x3c ∧ t.headD 0 = 0x2f then
      htmlParseErr c xmlParserErrors.XML_ERR_TAG_NAME_MISMATCH
        "Element %s embeds close tag\n" c.name none
    else c) = c1
  have f1 : c1.input = c.input ∧ c1.events = c.events ∧ c1.sax = c.sax ∧
      c1.disableSAX = c.disableSAX ∧ c1.nameTab = c.nameTab ∧ c1.recovery = c.recovery ∧
      c1.hasEncoding = c.hasEncoding ∧
      c1.errors = c.errors ++
        (if c.recovery = true ∧ v = 0x3c ∧ t.headD 0 = 0x2f then
          [htmlScriptEmbedded c.name] else []) := by
    rw [← hc1]
    split_ifs
    · exact ⟨rfl, rfl, rfl, rfl, rfl, rfl, rfl, rfl⟩
    · exact ⟨rfl, rfl, rfl, rfl, rfl, rfl, rfl, by simp⟩
  obtain ⟨g1, g2, g3, g4, g5, g6, g7, g8⟩ := f1
  have f2 : (NEXTL c1 (xmlCopyChar v).length).input = t ∧
      (NEXTL c1 (xmlCopyChar v).length).nameTab = c1.nameTab ∧
      (NEXTL c1 (xmlCopyChar v).length).recovery = c1.recovery := by
    refine ⟨?_, ?_, ?_⟩
    · rw [NEXTL_input, g1, hin, List.drop_left]
    · unfold NEXTL; split_ifs <;> rfl
    · unfold NEXTL; split_ifs <;> rfl
  obtain ⟨n1, n2, n3⟩ := f2
  obtain ⟨m1, m2, m3, m4, m5⟩ := NEXTL_frame c1 (xmlCopyChar v).length
  by_cases hfl : (buf ++ xmlCopyChar v).length ≥ HTML_PARSER_BIG_BUFFER_SIZE
  · refine ⟨htmlParseScript_flush (NEXTL c1 (xmlCopyChar v).length) (buf ++ xmlCopyChar v),
      ?_, ?_⟩
    · simp only [hfl, decide_True, if_true]
    · rw [htmlParseScript_flush_eq _ h _ (by rw [m1, g3, hsax])]
      simp only [hfl, if_true]
      exact ⟨n1, by rw [m3, g2], by rw [m4, g8], by rw [m1, g3], by rw [m2, g4],
        by rw [n2, g5], by rw [n3, g6], by rw [m5, g7]⟩
  · refine ⟨NEXTL c1 (xmlCopyChar v).length, ?_, ?_⟩
    · simp only [hfl, decide_False, Bool.false_eq_true, if_false]
    · simp only [hfl, if_false, List.append_nil]
      exact ⟨n1, by rw [m3, g2], by rw [m4, g8], by rw [m1, g3], by rw [m2, g4],
        by rw [n2, g5], by rw [n3, g6], by rw [m5, g7]⟩

theorem htmlParseScript_loop_run (h : htmlSAXHandler) (rest : List Nat) (rec : Bool)
    (nt : List (List Nat)) (enc : Bool) :
    ∀ (cs : List Nat) (fuel : Nat) (c : htmlParserCtxt) (buf : List Nat),
      cs.length < fuel → c.input = xmlCopyChars cs ++ rest →
      (∀ v ∈ cs, IS_CHAR v = true ∧ (enc = true ∨ v < 0x80)) →
      (rest = [] ∨ htmlScriptStop rec nt.head? rest = true) →
      (∀ i, i < cs.length →
        htmlScriptStop rec nt.head? (xmlCopyChars (cs.drop i) ++ rest) = false) →
      c.sax = some h → c.recovery = rec → c.nameTab = nt → c.hasEncoding = enc →
      (htmlParseScript_loop fuel (htmlCurrentChar c).1 buf (htmlCurrentChar c).2.1
          (htmlCurrentChar c).2.2).1.input = rest ∧
        (htmlParseScript_loop fuel (htmlCurrentChar c).1 buf (htmlCurrentChar c).2.1
          (htmlCurrentChar c).2.2).1.events =
          c.events ++ ((htmlScriptChunks buf cs).1.map (htmlScriptEvent h)).flatten ∧
        (htmlParseScript_loop fuel (htmlCurrentChar c).1 buf (htmlCurrentChar c).2.1
          (htmlCurrentChar c).2.2).2 = (htmlScriptChunks buf cs).2 ∧
        (htmlParseScript_loop fuel (htmlCurrentChar c).1 buf (htmlCurrentChar c).2.1
          (htmlCurrentChar c).2.2).1.errors =
          c.errors ++ htmlScriptReports rec nt.head? cs rest ∧
        (htmlParseScript_loop fuel (htmlCurrentChar c).1 buf (htmlCurrentChar c).2.1
          (htmlCurrentChar c).2.2).1.sax = c.sax ∧
        (htmlParseScript_loop fuel (htmlCurrentChar c).1 buf (htmlCurrentChar c).2.1
          (htmlCurrentChar c).2.2).1.disableSAX = c.disableSAX ∧
        (htmlParseScript_loop fuel (htmlCurrentChar c).1 buf (htmlCurrentChar c).2.1
          (htmlCurrentChar c).2.2).1.nameTab = c.nameTab := by
  intro cs
  induction cs with
  | nil =>
    intro fuel c buf hf hin _ hrest _ hsax hrec hnt henc
    have hin2 : c.input = rest := by simpa [xmlCopyChars] using hin
    obtain ⟨f, rfl⟩ : ∃ f, fuel = f + 1 := ⟨fuel - 1, by simp at hf; omega⟩
    rcases hrest with h0 | hs
    · rw [htmlCurrentChar_nil c (by rw [hin2, h0])]
      rw [htmlParseScript_loop]
      simp [htmlScriptChunks, htmlScriptReports, hin2, h0]
    · unfold htmlScriptStop at hs
      simp only [Bool.and_eq_true, beq_iff_eq] at hs
      obtain ⟨⟨hs0, hs1⟩, hs2⟩ := hs
      have hcur : CUR c = 0x3c := by
        unfold CUR; rw [hin2]
        cases rest with
        | nil => simp at hs0
        | cons a t => simpa using hs0
      have hnxt : NXT c 1 = 0x2f := by unfold NXT; rw [hin2]; exact hs1
      rw [htmlCurrentChar_ascii c 0x3c hcur (by decide) (by decide)]
      rw [htmlParseScript_loop]
      have hname : c.name = nt.head? := by unfold htmlParserCtxt.name; rw [hnt]
      cases rec with
      | true =>
        simp only [if_true, decide_eq_true_eq] at hs2
        simp [hnxt, hrec, hname, hin2, hs2, htmlScriptChunks, htmlScriptReports]
      | false =>
        simp only [Bool.false_eq_true, if_false, Bool.or_eq_true, Bool.and_eq_true,
          decide_eq_true_eq] at hs2
        have hn2 : NXT c 2 = rest.getD 2 0 := by unfold NXT; rw [hin2]
        generalize rest.getD 2 0 = x at hs2 hn2
        simp [hnxt, hrec, hn2, hin2, hs2, htmlScriptChunks, htmlScriptReports]
  | cons v vs ih =>
    intro fuel c buf hf hin hleg hrest hns hsax hrec hnt henc
    obtain ⟨f, rfl⟩ : ∃ f, fuel = f + 1 := ⟨fuel - 1, by simp at hf; omega⟩
    obtain ⟨hv, hve⟩ := hleg v (List.mem_cons_self _ _)
    have hv0 := (IS_CHAR_bound v hv).1
    have hin1 : c.input = xmlCopyChar v ++ (xmlCopyChars vs ++ rest) := by
      rw [hin, xmlCopyChars_cons, List.append_assoc]
    rw [htmlCurrentChar_legal c v (xmlCopyChars vs ++ rest) hv (by rw [henc]; exact hve) hin1]
    have hname : c.name = nt.head? := by unfold htmlParserCtxt.name; rw [hnt]
    have hns0 := hns 0 (by simp)
    rw [List.drop_zero, ← hin] at hns0
    obtain ⟨c3, e, k1, k2, k3, k4, k5, k6, k7, k8⟩ :=
      htmlParseScript_loop_step c h buf v (xmlCopyChars vs ++ rest) f hv hin1 hsax
        (by rw [hrec, hname]; exact hns0)
    rw [e]
    have hns1 : ∀ i, i < vs.length →
        htmlScriptStop rec nt.head? (xmlCopyChars (vs.drop i) ++ rest) = false := by
      intro i hi
      have := hns (i + 1) (by simp; omega)
      simpa using this
    have hleg1 : ∀ w ∈ vs, IS_CHAR w = true ∧ (enc = true ∨ w < 0x80) :=
      fun w hw => hleg w (List.mem_cons_of_mem _ hw)
    have hf1 : vs.length < f := by simp at hf; omega
    obtain ⟨r1, r2, r3, r4, r5, r6, r7⟩ := ih f c3
      (if (buf ++ xmlCopyChar v).length ≥ HTML_PARSER_BIG_BUFFER_SIZE then []
        else buf ++ xmlCopyChar v)
      hf1 k1 hleg1 hrest hns1 (by rw [k4, hsax]) (by rw [k7, hrec]) (by rw [k6, hnt])
      (by rw [k8, henc])
    refine ⟨r1, ?_, ?_, ?_, by rw [r5, k4], by rw [r6, k5], by rw [r7, k6]⟩
    · rw [r2, k2, htmlScriptChunks]
      by_cases hfl : (buf ++ xmlCopyChar v).length ≥ HTML_PARSER_BIG_BUFFER_SIZE
      · simp only [hfl, if_true, List.map_cons, List.flatten_cons, List.append_assoc]
      · simp only [hfl, if_false, List.append_nil]
    · rw [r3, htmlScriptChunks]
      by_cases hfl : (buf ++ xmlCopyChar v).length ≥ HTML_PARSER_BIG_BUFFER_SIZE
      · simp only [hfl, if_true]
      · simp only [hfl, if_false]
    · rw [r4, k3, htmlScriptReports, hrec, hname, List.append_assoc]

/-- C33, as the code behaves: raw text of script and style. Let the input at
the call of `htmlParseScript` be the UTF-8 bytes of legal characters `cs`, those
that `IS_CHAR` accepts (beyond ASCII only when the encoding is set), followed
by `rest`, where `rest` is empty or starts
with `</` followed, in recovery mode, by the name of the current element
(compared without regard to ASCII case over the length of that name) or,
outside recovery mode, by an ASCII letter, and where no position inside `cs`
meets that test. Then the function stops exactly at `rest`; the text handed to
the handler, in pieces cut whenever the buffer reaches
`HTML_PARSER_BIG_BUFFER_SIZE` bytes, is byte for byte the text of `cs`, with
nothing expanded; the only reports are, in recovery mode, one
`embeds close tag` for each `</` inside `cs`, none at all outside recovery
mode; the stack of open elements is untouched. -/
theorem C33_htmlParseScript_verbatim (ctxt : htmlParserCtxt) (h : htmlSAXHandler)
    (cs rest : List Nat)
    (hsax : ctxt.sax = some h) (hen : ctxt.disableSAX = 0)
    (hin : ctxt.input = xmlCopyChars cs ++ rest)
    (hleg : ∀ v ∈ cs, IS_CHAR v = true ∧ (ctxt.hasEncoding = true ∨ v < 0x80))
    (hrest : rest = [] ∨ htmlScriptStop ctxt.recovery ctxt.name rest = true)
    (hns : ∀ i, i < cs.length →
      htmlScriptStop ctxt.recovery ctxt.name (xmlCopyChars (cs.drop i) ++ rest) = false) :
    (htmlParseScript ctxt).input = rest ∧
      (htmlParseScript ctxt).events =
        ctxt.events ++
          (((htmlScriptChunks [] cs).1 ++
              (if (htmlScriptChunks [] cs).2 = [] then [] else [(htmlScriptChunks [] cs).2])).map
            (htmlScriptEvent h)).flatten ∧
      (htmlScriptChunks [] cs).1.flatten ++ (htmlScriptChunks [] cs).2 = xmlCopyChars cs ∧
      (htmlParseScript ctxt).errors =
        ctxt.errors ++ htmlScriptReports ctxt.recovery ctxt.name cs rest ∧
      (ctxt.recovery = false → (htmlParseScript ctxt).errors = ctxt.errors) ∧
      (htmlParseScript ctxt).nameTab = ctxt.nameTab := by
  have hlen : cs.length < 2 * ctxt.input.length + 1 := by
    have := xmlCopyChars_length cs (fun v hv => (hleg v hv).1)
    rw [hin, List.length_append]
    omega
  obtain ⟨r1, r2, r3, r4, r5, r6, r7⟩ :=
    htmlParseScript_loop_run h rest ctxt.recovery ctxt.nameTab ctxt.hasEncoding cs
      (2 * ctxt.input.length + 1) ctxt [] hlen hin hleg hrest hns hsax rfl rfl rfl
  have hnorep : ∀ (l : List Nat), htmlScriptReports false ctxt.name l rest = [] := by
    intro l
    induction l with
    | nil => rfl
    | cons a t ih => simp [htmlScriptReports, ih]
  have key : (htmlParseScript ctxt).input = rest ∧
      (htmlParseScript ctxt).events =
        ctxt.events ++
          (((htmlScriptChunks [] cs).1 ++
              (if (htmlScriptChunks [] cs).2 = [] then [] else [(htmlScriptChunks [] cs).2])).map
            (htmlScriptEvent h)).flatten ∧
      (htmlParseScript ctxt).errors =
        ctxt.errors ++ htmlScriptReports ctxt.recovery ctxt.name cs rest ∧
      (htmlParseScript ctxt).nameTab = ctxt.nameTab := by
    unfold htmlParseScript
    simp only
    generalize htmlParseScript_loop (2 * ctxt.input.length + 1) (htmlCurrentChar ctxt).1 []
      (htmlCurrentChar ctxt).2.1 (htmlCurrentChar ctxt).2.2 = r at r1 r2 r3 r4 r5 r6 r7
    by_cases hb : r.2 = []
    · rw [if_neg (by simp [hb])]
      rw [← r3, hb]
      simp only [if_true, List.append_nil]
      exact ⟨r1, r2, r4, r7⟩
    · rw [if_pos ⟨hb, by rw [r5, hsax]; rfl, by rw [r6, hen]⟩]
      rw [htmlParseScript_flush_eq _ h _ (by rw [r5, hsax])]
      rw [← r3]
      simp only [hb, if_false, List.map_append, List.flatten_append, List.map_cons, List.map_nil,
        List.flatten_cons, List.flatten_nil, List.append_nil]
      exact ⟨r1, by rw [r2, List.append_assoc], r4, r7⟩
  refine ⟨key.1, key.2.1, ?_, key.2.2.1, ?_, key.2.2.2⟩
  · simpa using htmlScriptChunks_flatten cs []
  · intro hr
    rw [key.2.2.1, hr, hnorep, List.append_nil]

/-- Witness for C33: in recovery mode, inside a script element, a text with a
character reference and an end tag of another element, up to the end tag of
the script element in mixed case. -/
theorem C33_htmlParseScript_verbatim_witness :
    (htmlParseScript
        { htmlNewSAXParserCtxt htmlSinkHandler with
          input := bytes "a&lt;</b>x</ScRiPt>", recovery := true,
          nameTab := [bytes "script", bytes "head", bytes "html"] }).input =
        bytes "</ScRiPt>" ∧
      (htmlParseScript
        { htmlNewSAXParserCtxt htmlSinkHandler with
          input := bytes "a&lt;</b>x</ScRiPt>", recovery := true,
          nameTab := [bytes "script", bytes "head", bytes "html"] }).events =
        [saxEvent.characters (bytes "a&lt;</b>x")] ∧
      (htmlParseScript
        { htmlNewSAXParserCtxt htmlSinkHandler with
          input := bytes "a&lt;</b>x</ScRiPt>", recovery := true,
          nameTab := [bytes "script", bytes "head", bytes "html"] }).errors =
        [htmlScriptEmbedded (some (bytes "script"))] :=
  have h := C33_htmlParseScript_verbatim
    { htmlNewSAXParserCtxt htmlSinkHandler with
      input := bytes "a&lt;</b>x</ScRiPt>", recovery := true,
      nameTab := [bytes "script", bytes "head", bytes "html"] }
    htmlSinkHandler (bytes "a&lt;</b>x") (bytes "</ScRiPt>") rfl rfl (by decide!) (by decide!)
    (Or.inr (by decide!)) (by decide!)
  ⟨h.1, h.2.1.trans (by decide!), h.2.2.2.1.trans (by decide!)⟩

/-- Counterexample to C33 as stated: inside a script element the byte 0x01,
which `IS_CHAR` rejects, is not copied. The text handed over for the input
`a`, 0x01, `b` is `ab`, and the byte is reported as an invalid character. -/
theorem C33_invalid_char_dropped :
    (htmlParseScript
        { htmlNewSAXParserCtxt htmlSinkHandler with
          input := [0x61, 0x01, 0x62] ++ bytes "</script>",
          nameTab := [bytes "script", bytes "head", bytes "html"] }).events =
        [saxEvent.characters (bytes "ab")] ∧
      (htmlParseScript
        { htmlNewSAXParserCtxt htmlSinkHandler with
          input := [0x61, 0x01, 0x62] ++ bytes "</script>",
          nameTab := [bytes "script", bytes "head", bytes "html"] }).errors =
        [⟨xmlParserErrors.XML_ERR_INVALID_CHAR, "Invalid char in CDATA 0x%X\n", none, none, 1⟩] ∧
      (htmlParseScript
        { htmlNewSAXParserCtxt htmlSinkHandler with
          input := [0x61, 0x01, 0x62] ++ bytes "</script>",
          nameTab := [bytes "script", bytes "head", bytes "html"] }).input =
        bytes "</script>" := by
  decide!


/-! ## The shape of the stack of open elements -/

theorem htmlStackShape_iff (ni : Bool) (nt : List (List Nat)) :
    htmlStackShape ni nt = true ↔
      (bytes "html" ∉ nt.dropLast) ∧
        (nt.filter (fun n => n = bytes "body")).length ≤ 1 ∧
        (ni = false → nt ≠ [] → nt.getLast? = some (bytes "html")) := by
  unfold htmlStackShape
  simp only [Bool.and_eq_true, Bool.not_eq_true', Bool.or_eq_true, decide_eq_true_eq,
    List.isEmpty_iff, beq_iff_eq, List.contains_eq_any_beq, List.any_eq_false]
  constructor
  · rintro ⟨⟨h1, h2⟩, h3⟩
    refine ⟨fun hm => h1 _ hm (by simp), h2, fun hni hne => ?_⟩
    rcases h3 with (h | h) | h
    · rw [hni] at h; cases h
    · exact absurd h hne
    · exact h
  · rintro ⟨h1, h2, h3⟩
    refine ⟨⟨fun x hx hxe => h1 ?_, h2⟩, ?_⟩
    · have : bytes "html" = x := by simpa using hxe
      rw [this]; exact hx
    · cases ni with
      | true => exact Or.inl (Or.inl rfl)
      | false =>
        by_cases hne : nt = []
        · exact Or.inl (Or.inr hne)
        · exact Or.inr (h3 rfl hne)

theorem htmlStackShape_nil (ni : Bool) : htmlStackShape ni [] = true := by
  cases ni <;> rfl

theorem htmlStackShape_tail (ni : Bool) (a : List Nat) (nt : List (List Nat))
    (h : htmlStackShape ni (a :: nt) = true) : htmlStackShape ni nt = true := by
  rw [htmlStackShape_iff] at h ⊢
  obtain ⟨h1, h2, h3⟩ := h
  cases nt with
  | nil => simp
  | cons b t =>
    refine ⟨?_, ?_, ?_⟩
    · intro hm
      apply h1
      rw [List.dropLast_cons₂]
      exact List.mem_cons_of_mem _ hm
    · have : ((b :: t).filter (fun n => n = bytes "body")).length ≤
          ((a :: b :: t).filter (fun n => n = bytes "body")).length :=
        ((List.sublist_cons_self a (b :: t)).filter _).length_le
      omega
    · intro hni _
      have := h3 hni (by simp)
      rw [List.getLast?_cons_cons] at this
      exact this

theorem htmlStackShape_suffix (ni : Bool) :
    ∀ (l2 l1 : List (List Nat)), l1 <:+ l2 → htmlStackShape ni l2 = true →
      htmlStackShape ni l1 = true
  | [], l1, hs, _ => by
    have : l1 = [] := List.suffix_nil.mp hs
    rw [this]; exact htmlStackShape_nil ni
  | a :: t, l1, hs, h => by
    rcases List.suffix_cons_iff.mp hs with e | hs1
    · rw [e]; exact h
    · exact htmlStackShape_suffix ni t l1 hs1 (htmlStackShape_tail ni a t h)

theorem htmlStackShape_push (ni : Bool) (name : List Nat) (nt : List (List Nat))
    (h : htmlStackShape ni nt = true)
    (hhtml : name = bytes "html" → nt = [])
    (hbody : name = bytes "body" → bytes "body" ∉ nt)
    (hbot : ni = false → nt = [] → name = bytes "html") :
    htmlStackShape ni (name :: nt) = true := by
  rw [htmlStackShape_iff] at h ⊢
  obtain ⟨h1, h2, h3⟩ := h
  cases nt with
  | nil =>
    refine ⟨by simp, ?_, ?_⟩
    · rw [List.filter_cons]; split_ifs <;> simp
    · intro hni _
      rw [hbot hni rfl]; rfl
  | cons b t =>
    refine ⟨?_, ?_, ?_⟩
    · rw [List.dropLast_cons₂]
      intro hm
      rcases List.mem_cons.mp hm with e | hm1
      · exact absurd (hhtml e.symm) (by simp)
      · exact h1 hm1
    · rw [List.filter_cons]
      split_ifs with hb
      · have hb1 : name = bytes "body" := by simpa using hb
        have hnot := hbody hb1
        have : (b :: t).filter (fun n => n = bytes "body") = [] := by
          rw [List.filter_eq_nil_iff]
          intro x hx hxe
          have : x = bytes "body" := by simpa using hxe
          exact hnot (this ▸ hx)
        rw [this]; simp
      · exact h2
    · intro hni _
      rw [List.getLast?_cons_cons]
      exact h3 hni (by simp)

theorem stackFrame_refl (c : htmlParserCtxt) : stackFrame c c := ⟨rfl, id⟩

theorem stackFrame.trans {a b c : htmlParserCtxt} (h1 : stackFrame a b) (h2 : stackFrame b c) :
    stackFrame a c :=
  ⟨h2.1.trans h1.1, fun h => h2.2 (h1.2 h)⟩

theorem stackFrame_keep {c c1 : htmlParserCtxt} (h1 : c1.nameTab = c.nameTab)
    (h2 : c1.noImplied = c.noImplied) : stackFrame c c1 :=
  ⟨h2, fun h => by unfold htmlStackOK at h ⊢; rw [h1, h2]; exact h⟩

theorem stackFrame_token {P : htmlError → Prop} {c c1 : htmlParserCtxt}
    (h : tokenFrame P c c1) : stackFrame c c1 :=
  stackFrame_keep (tokenFrame_nameTab h) (tokenFrame_noImplied h)

theorem stackFrame_scan {c c1 : htmlParserCtxt} (h : scanFrame c c1) : stackFrame c c1 :=
  stackFrame_keep (scanFrame_nameTab h) (by rw [h])

theorem stackFrame_suffix {c c1 : htmlParserCtxt} (h1 : c1.nameTab <:+ c.nameTab)
    (h2 : c1.noImplied = c.noImplied) : stackFrame c c1 :=
  ⟨h2, fun h => by
    unfold htmlStackOK at h ⊢
    rw [h2]
    exact htmlStackShape_suffix _ _ _ h1 h⟩

theorem stackFrame_htmlParseErr (c : htmlParserCtxt) (e : xmlParserErrors) (m : String)
    (s1 s2 : Option (List Nat)) : stackFrame c (htmlParseErr c e m s1 s2) :=
  stackFrame_keep rfl rfl

theorem stackFrame_htmlParseErrInt (c : htmlParserCtxt) (e : xmlParserErrors) (m : String)
    (v : Nat) : stackFrame c (htmlParseErrInt c e m v) :=
  stackFrame_keep rfl rfl

theorem stackFrame_SKIP (c : htmlParserCtxt) (n : Nat) : stackFrame c (SKIP c n) :=
  stackFrame_keep rfl rfl

theorem stackFrame_NEXTL (c : htmlParserCtxt) (l : Nat) : stackFrame c (NEXTL c l) :=
  stackFrame_scan (scanFrame_NEXTL c l)

theorem stackFrame_xmlNextChar (c : htmlParserCtxt) : stackFrame c (xmlNextChar c) :=
  stackFrame_token (tokenFrame_xmlNextChar c)

theorem stackFrame_saxCall (c : htmlParserCtxt) (cb : htmlSAXHandler → Bool) (ev : saxEvent) :
    stackFrame c (saxCall c cb ev) := by
  unfold saxCall
  split
  · exact stackFrame_refl c
  · split_ifs
    · exact stackFrame_keep rfl rfl
    · exact stackFrame_refl c

theorem stackFrame_saxCallEnabled (c : htmlParserCtxt) (cb : htmlSAXHandler → Bool)
    (ev : saxEvent) : stackFrame c (saxCallEnabled c cb ev) := by
  unfold saxCallEnabled
  split_ifs
  · exact stackFrame_saxCall c cb ev
  · exact stackFrame_refl c

theorem stackFrame_htmlCurrentChar (c : htmlParserCtxt) : stackFrame c (htmlCurrentChar c).1 :=
  stackFrame_token (tokenFrame_htmlCurrentChar c)

theorem stackFrame_htmlSkipBlankChars (lim : xmlLimits) (c : htmlParserCtxt) :
    stackFrame c (htmlSkipBlankChars lim c).1 :=
  stackFrame_token (tokenFrame_htmlSkipBlankChars lim c)

theorem stackFrame_htmlParseName (lim : xmlLimits) (c : htmlParserCtxt) :
    stackFrame c (htmlParseName lim c).1 :=
  stackFrame_token (tokenFrame_htmlParseName lim c)

theorem stackFrame_htmlParseHTMLName (c : htmlParserCtxt) :
    stackFrame c (htmlParseHTMLName c).1 :=
  stackFrame_token (tokenFrame_htmlParseHTMLName c)

theorem stackFrame_htmlParseCharRef (c : htmlParserCtxt) :
    stackFrame c (htmlParseCharRef c).1 :=
  stackFrame_token (tokenFrame_htmlParseCharRef c)

theorem stackFrame_htmlParseEntityRef (lim : xmlLimits) (c : htmlParserCtxt) :
    stackFrame c (htmlParseEntityRef lim c).1 :=
  stackFrame_token (tokenFrame_htmlParseEntityRef lim c)

theorem stackFrame_htmlNodeInfoPop (c : htmlParserCtxt) : stackFrame c (htmlNodeInfoPop c) := by
  unfold htmlNodeInfoPop
  split_ifs
  · exact stackFrame_refl c
  · exact stackFrame_keep rfl rfl

theorem stackFrame_htmlnamePop (c : htmlParserCtxt) : stackFrame c (htmlnamePop c).1 := by
  unfold htmlnamePop
  split
  · exact stackFrame_refl c
  · rename_i ret rest heq
    exact stackFrame_suffix (by simp only [heq]; exact List.suffix_cons ret rest) rfl

theorem htmlnamePush_noImplied (c : htmlParserCtxt) (v : List Nat) :
    (htmlnamePush c v).noImplied = c.noImplied := by
  unfold htmlnamePush
  simp only
  split_ifs <;> rfl

/-- A push keeps the shape when the name is html only on an empty stack, body
only on a stack without body, and, with implied tags enabled, nothing but html
goes on an empty stack. -/
theorem stackFrame_htmlnamePush (c : htmlParserCtxt) (v : List Nat)
    (hhtml : v = bytes "html" → c.nameTab = [])
    (hbody : v = bytes "body" → bytes "body" ∉ c.nameTab)
    (hbot : c.noImplied = false → c.nameTab = [] → v = bytes "html") :
    stackFrame c (htmlnamePush c v) :=
  ⟨htmlnamePush_noImplied c v, fun h => by
    unfold htmlStackOK at h ⊢
    rw [htmlnamePush_noImplied, htmlnamePush_nameTab]
    exact htmlStackShape_push _ _ _ h hhtml hbody hbot⟩

theorem stackFrame_htmlAutoClose (c : htmlParserCtxt) (t : Option (List Nat)) :
    stackFrame c (htmlAutoClose c t) :=
  stackFrame_suffix (htmlAutoClose_suffix c t) (elementFrame_noImplied (elementFrame_htmlAutoClose c t))

theorem stackFrame_endElement_top (x : htmlParserCtxt) :
    stackFrame x (match x.name with
      | some n => saxCall x (fun h => h.endElement) (saxEvent.endElement n)
      | none => saxCall x (fun h => h.endElement) (saxEvent.endElement [])) := by
  split <;> exact stackFrame_saxCall _ _ _

theorem stackFrame_htmlAutoCloseOnClose_loop (t : List Nat) :
    ∀ (fuel : Nat) (c : htmlParserCtxt), stackFrame c (htmlAutoCloseOnClose_loop t fuel c) := by
  intro fuel
  induction fuel with
  | zero => intro c; exact stackFrame_refl c
  | succ n ih =>
    intro c
    rw [htmlAutoCloseOnClose_loop]
    split_ifs
    · simp only
      refine stackFrame.trans ?_ (ih _)
      refine stackFrame.trans ?_ (stackFrame_htmlnamePop _)
      have h1 : stackFrame c (match htmlTagLookup c.name with
          | some i =>
            if i.endTag = 3 then
              htmlParseErr c xmlParserErrors.XML_ERR_TAG_NAME_MISMATCH
                "Opening and ending tag mismatch: %s and %s\n" (some t) c.name
            else c
          | none => c) := by
        split
        · split_ifs
          · exact stackFrame_htmlParseErr _ _ _ _ _
          · exact stackFrame_refl c
        · exact stackFrame_refl c
      exact stackFrame.trans h1 (stackFrame_endElement_top _)
    · exact stackFrame_refl c

theorem stackFrame_htmlAutoCloseOnClose (c : htmlParserCtxt) (t : List Nat) :
    stackFrame c (htmlAutoCloseOnClose c t) := by
  unfold htmlAutoCloseOnClose
  simp only
  split_ifs
  · exact stackFrame_htmlAutoCloseOnClose_loop t _ c
  · exact stackFrame_refl c

theorem stackFrame_htmlAutoCloseOnEnd_loop :
    ∀ (fuel : Nat) (c : htmlParserCtxt), stackFrame c (htmlAutoCloseOnEnd_loop fuel c) := by
  intro fuel
  induction fuel with
  | zero => intro c; exact stackFrame_refl c
  | succ n ih =>
    intro c
    rw [htmlAutoCloseOnEnd_loop]
    refine stackFrame.trans ?_ (ih _)
    exact stackFrame.trans (stackFrame_endElement_top _) (stackFrame_htmlnamePop _)

theorem stackFrame_htmlAutoCloseOnEnd (c : htmlParserCtxt) :
    stackFrame c (htmlAutoCloseOnEnd c) := by
  unfold htmlAutoCloseOnEnd
  split_ifs
  · exact stackFrame_refl c
  · exact stackFrame_htmlAutoCloseOnEnd_loop _ c

theorem stackFrame_push_start (c : htmlParserCtxt) (v : List Nat)
    (atts : List (List Nat × Option (List Nat)))
    (hhtml : v = bytes "html" → c.nameTab = [])
    (hbody : v = bytes "body" → bytes "body" ∉ c.nameTab)
    (hbot : c.noImplied = false → c.nameTab = [] → v = bytes "html") :
    stackFrame c (saxCall (htmlnamePush c v) (fun h => h.startElement)
      (saxEvent.startElement v atts)) :=
  stackFrame.trans (stackFrame_htmlnamePush c v hhtml hbody hbot) (stackFrame_saxCall _ _ _)

/-- The function `htmlCheckImplied` keeps the shape of the stack, and with
implied tags enabled it leaves a stack that is not empty for every tag but
html. -/
theorem htmlCheckImplied_stack (c : htmlParserCtxt) (t : List Nat) :
    stackFrame c (htmlCheckImplied c t) ∧
      (c.noImplied = false → t ≠ bytes "html" → (htmlCheckImplied c t).nameTab ≠ []) := by
  have h1 : stackFrame c (if c.nameNr = 0 then
        saxCall (htmlnamePush c (bytes "html")) (fun h => h.startElement)
          (saxEvent.startElement (bytes "html") [])
      else c) ∧
      (if c.nameNr = 0 then
        saxCall (htmlnamePush c (bytes "html")) (fun h => h.startElement)
          (saxEvent.startElement (bytes "html") [])
      else c).nameTab ≠ [] := by
    split_ifs with h0
    · have hnil : c.nameTab = [] := List.length_eq_zero.mp h0
      refine ⟨stackFrame_push_start c _ _ (fun _ => hnil) (fun hb => absurd hb (by decide))
        (fun _ _ => rfl), ?_⟩
      rw [saxCall_nameTab, htmlnamePush_nameTab]
      simp
    · exact ⟨stackFrame_refl c, fun hnil => h0 (by unfold htmlParserCtxt.nameNr; rw [hnil]; rfl)⟩
  unfold htmlCheckImplied
  simp only
  generalize (if c.nameNr = 0 then
        saxCall (htmlnamePush c (bytes "html")) (fun h => h.startElement)
          (saxEvent.startElement (bytes "html") [])
      else c) = c1 at h1 ⊢
  obtain ⟨hf, hne⟩ := h1
  have hpush : ∀ v : List Nat, v ≠ bytes "html" →
      (v = bytes "body" → bytes "body" ∉ c1.nameTab) →
      stackFrame c (saxCall (htmlnamePush c1 v) (fun h => h.startElement)
          (saxEvent.startElement v [])) ∧
        (saxCall (htmlnamePush c1 v) (fun h => h.startElement)
          (saxEvent.startElement v [])).nameTab ≠ [] := by
    intro v hv hb
    refine ⟨stackFrame.trans hf (stackFrame_push_start c1 v []
      (fun e => absurd e hv) hb (fun _ e => absurd e hne)), ?_⟩
    rw [saxCall_nameTab, htmlnamePush_nameTab]
    simp
  split_ifs with a1 a2 a3 a4 a5 a6 a7 a8 a9
  · exact ⟨stackFrame_refl c, fun h => by rw [h] at a1; cases a1⟩
  · exact absurd a2 (by decide)
  · exact ⟨stackFrame_refl c, fun _ h => absurd a3 h⟩
  · exact ⟨hf, fun _ _ => hne⟩
  · exact ⟨hf, fun _ _ => hne⟩
  · have := hpush (bytes "head") (by decide) (fun e => absurd e (by decide))
    exact ⟨this.1, fun _ _ => this.2⟩
  · exact ⟨hf, fun _ _ => hne⟩
  · exact ⟨hf, fun _ _ => hne⟩
  · have hnb : bytes "body" ∉ c1.nameTab := by
      intro hm
      apply a9
      rw [List.any_eq_true]
      exact ⟨bytes "body", hm, by simp⟩
    have := hpush (bytes "body") (by decide) (fun _ => hnb)
    exact ⟨this.1, fun _ _ => this.2⟩
  · exact ⟨hf, fun _ _ => hne⟩

theorem stackFrame_htmlCheckImplied (c : htmlParserCtxt) (t : List Nat) :
    stackFrame c (htmlCheckImplied c t) :=
  (htmlCheckImplied_stack c t).1

theorem stackFrame_htmlCheckParagraph_insert (c : htmlParserCtxt) :
    stackFrame c (htmlCheckParagraph_insert c) := by
  unfold htmlCheckParagraph_insert
  simp only
  have h1 := stackFrame_htmlAutoClose c (some (bytes "p"))
  have h2 := htmlCheckImplied_stack (htmlAutoClose c (some (bytes "p"))) (bytes "p")
  refine stackFrame.trans h1 (stackFrame.trans h2.1 ?_)
  refine stackFrame_push_start _ _ _ (fun e => absurd e (by decide))
    (fun e => absurd e (by decide)) (fun hni hnil => ?_)
  exact absurd hnil (h2.2 (by rw [← h2.1.1]; exact hni) (by decide))

theorem stackFrame_htmlCheckParagraph (c : htmlParserCtxt) :
    stackFrame c (htmlCheckParagraph c).1 := by
  unfold htmlCheckParagraph
  split
  · exact stackFrame_htmlCheckParagraph_insert c
  · split_ifs
    · exact stackFrame_refl c
    · exact stackFrame_htmlCheckParagraph_insert c
    · exact stackFrame_refl c

theorem stackFrame_htmlParseStartTag (lim : xmlLimits) (ctxt : htmlParserCtxt) :
    stackFrame ctxt (htmlParseStartTag lim ctxt).1 := by
  by_cases hlt : CUR ctxt = 0x3c
  · have hrn : stackFrame ctxt (htmlParseHTMLName (xmlNextChar ctxt)).1 :=
      stackFrame.trans (stackFrame_xmlNextChar ctxt) (stackFrame_htmlParseHTMLName _)
    cases hn : (htmlParseHTMLName (xmlNextChar ctxt)).2 with
    | none =>
      unfold htmlParseStartTag
      rw [if_neg (not_not.mpr hlt)]
      simp only [hn]
      exact stackFrame.trans hrn (stackFrame.trans (stackFrame_htmlParseErr _ _ _ _ _)
        (stackFrame_token (tokenFrame_htmlParseStartTag_dump _ _)))
    | some name =>
      rw [htmlParseStartTag_eq lim ctxt name hlt hn]
      have hj1 := stackFrame_htmlAutoClose (htmlParseHTMLName (xmlNextChar ctxt)).1 (some name)
      have hj2 := htmlCheckImplied_stack
        (htmlAutoClose (htmlParseHTMLName (xmlNextChar ctxt)).1 (some name)) name
      have hj : stackFrame ctxt (htmlParseStartTag_judged ctxt name) :=
        stackFrame.trans hrn (stackFrame.trans hj1 hj2.1)
      have hr : stackFrame (htmlParseStartTag_judged ctxt name)
          (htmlMisplacedReports (htmlParseStartTag_judged ctxt name) name
            (htmlMisplacedCount (htmlParseStartTag_judged ctxt name) name)) :=
        stackFrame_keep rfl rfl
      have ht := tokenFrame_htmlParseStartTag_attsEnd lim ctxt name
      have hnt : (htmlParseStartTag_attsEnd lim ctxt name).nameTab =
          (htmlParseStartTag_judged ctxt name).nameTab := (tokenFrame_nameTab ht).trans rfl
      have hni : (htmlParseStartTag_attsEnd lim ctxt name).noImplied =
          (htmlParseStartTag_judged ctxt name).noImplied := (tokenFrame_noImplied ht).trans rfl
      have he : stackFrame ctxt (htmlParseStartTag_attsEnd lim ctxt name) :=
        stackFrame.trans hj (stackFrame.trans hr (stackFrame_token ht))
      split_ifs with hk
      · refine stackFrame.trans he (stackFrame_push_start _ _ _ ?_ ?_ ?_)
        · intro e
          rw [hnt]
          unfold htmlMisplacedCount at hk
          rw [if_pos e] at hk
          by_cases h0 : (htmlParseStartTag_judged ctxt name).nameNr > 0
          · rw [if_pos h0] at hk; cases hk
          · exact List.length_eq_zero.mp (by unfold htmlParserCtxt.nameNr at h0; omega)
        · intro e
          rw [hnt]
          unfold htmlMisplacedCount at hk
          rw [e, if_neg (by decide), if_neg (by decide), if_pos rfl] at hk
          intro hm
          have : bytes "body" ∈ (htmlParseStartTag_judged ctxt (bytes "body")).nameTab.filter
              (fun n => n = bytes "body") := by
            rw [List.mem_filter]
            exact ⟨e ▸ hm, by simp⟩
          rw [List.length_eq_zero.mp hk] at this
          cases this
        · intro hni0 hnil
          by_contra hne
          rw [hnt] at hnil
          rw [hni] at hni0
          exact hj2.2 (by rw [← hj2.1.1]; exact hni0) hne hnil
      · exact he
  · unfold htmlParseStartTag
    rw [if_pos hlt]
    exact stackFrame_refl ctxt

theorem stackFrame_htmlParseEndTag_close (c : htmlParserCtxt) (name : List Nat) :
    stackFrame c (htmlParseEndTag_close c name).1 := by
  have h4 := stackFrame_htmlAutoCloseOnClose c name
  have tail : ∀ x : htmlParserCtxt, stackFrame c x →
      stackFrame c (htmlnamePop (htmlNodeInfoPop
        (saxCall x (fun h => h.endElement) (saxEvent.endElement name)))).1 :=
    fun x hx => stackFrame.trans hx (stackFrame.trans (stackFrame_saxCall _ _ _)
      (stackFrame.trans (stackFrame_htmlNodeInfoPop _) (stackFrame_htmlnamePop _)))
  unfold htmlParseEndTag_close
  dsimp only
  split_ifs <;> first
    | exact stackFrame_keep rfl rfl
    | exact stackFrame_htmlParseErr _ _ _ _ _
    | exact tail _ (stackFrame.trans h4 (stackFrame_htmlParseErr _ _ _ _ _))
    | exact tail _ h4
    | exact stackFrame.trans h4 (stackFrame_htmlParseErr _ _ _ _ _)
    | exact h4

theorem stackFrame_htmlParseEndTag (lim : xmlLimits) (c : htmlParserCtxt) :
    stackFrame c (htmlParseEndTag lim c).1 := by
  unfold htmlParseEndTag
  split_ifs
  · exact stackFrame_htmlParseErr _ _ _ _ _
  · simp only
    have h1 : stackFrame c (htmlParseHTMLName (SKIP c 2)).1 :=
      stackFrame.trans (stackFrame_SKIP c 2) (stackFrame_htmlParseHTMLName _)
    split
    · exact h1
    · exact stackFrame.trans h1 (stackFrame.trans
        (stackFrame_scan (scanFrame_htmlParseEndTag_gt lim _))
        (stackFrame_htmlParseEndTag_close _ _))

theorem stackFrame_htmlParseReference (lim : xmlLimits) (c : htmlParserCtxt) :
    stackFrame c (htmlParseReference lim c) := by
  have hp : ∀ (x : htmlParserCtxt) (ev : saxEvent), stackFrame c x →
      stackFrame c (saxCall (htmlCheckParagraph x).1 (fun h => h.characters) ev) :=
    fun x ev hx => stackFrame.trans hx (stackFrame.trans (stackFrame_htmlCheckParagraph x)
      (stackFrame_saxCall _ _ _))
  have hp2 : ∀ (x : htmlParserCtxt) (ev ev2 : saxEvent), stackFrame c x →
      stackFrame c (saxCall (saxCall (htmlCheckParagraph x).1 (fun h => h.characters) ev)
        (fun h => h.characters) ev2) :=
    fun x ev ev2 hx => stackFrame.trans (hp x ev hx) (stackFrame_saxCall _ _ _)
  unfold htmlParseReference
  split_ifs
  · exact stackFrame_refl c
  · simp only
    split_ifs
    · exact stackFrame_htmlParseCharRef c
    · exact hp _ _ (stackFrame_htmlParseCharRef c)
  · simp only
    split
    · exact hp _ _ (stackFrame_htmlParseEntityRef lim c)
    · split
      · exact hp2 _ _ _ (stackFrame_htmlParseEntityRef lim c)
      · split_ifs
        · exact hp _ _ (stackFrame_htmlParseEntityRef lim c)
        · exact hp2 _ _ _ (stackFrame_htmlParseEntityRef lim c)

theorem stackFrame_htmlParserFinishElementParsing (c : htmlParserCtxt) :
    stackFrame c (htmlParserFinishElementParsing c) := by
  unfold htmlParserFinishElementParsing
  dsimp only
  split_ifs <;> first
    | exact stackFrame.trans (stackFrame_htmlNodeInfoPop c) (stackFrame_htmlAutoCloseOnEnd _)
    | exact stackFrame_htmlNodeInfoPop c
    | exact stackFrame_htmlAutoCloseOnEnd c
    | exact stackFrame_refl c


theorem stackFrame_instate {c x : htmlParserCtxt} (s : xmlParserInputState)
    (h : stackFrame c x) : stackFrame c { x with instate := s } := h

theorem stackFrame_checkIndex {c x : htmlParserCtxt} (n : Nat)
    (h : stackFrame c x) : stackFrame c { x with checkIndex := n } := h

theorem stackFrame_fields {c x : htmlParserCtxt} (h : stackFrame c x)
    (a1 : List Nat) (a2 a3 : Nat) (a4 a5 : Bool) (a5e : Option xmlCharEncoding)
    (a6 : Option (List Nat))
    (a8 : List xmlNodeView) (a9 : Option (List Nat)) (a10 a11 a12 : Nat)
    (a13 : xmlParserInputState) (a14 a15 : Nat) (a17 a18 a19 a20 : Bool) (a21 : Nat)
    (a22 : Bool) (a23 : Option xmlParserErrors) (a24 : Option htmlSAXHandler)
    (a25 : List saxEvent) (a26 : List htmlError) :
    stackFrame c ⟨a1, a2, a3, a4, a5, a5e, a6, x.nameTab, a8, a9, a10, a11, a12, a13, a14, a15,
      x.noImplied, a17, a18, a19, a20, a21, a22, a23, a24, a25, a26⟩ := h

theorem stackFrame_htmlNodeInfoPush (c : htmlParserCtxt) : stackFrame c (htmlNodeInfoPush c) :=
  stackFrame_keep rfl rfl

theorem stackFrame_nodePop (c : htmlParserCtxt) : stackFrame c (nodePop c) :=
  stackFrame_keep rfl rfl

theorem stackFrame_xmlSwitchEncoding (c : htmlParserCtxt) (enc : xmlCharEncoding) :
    stackFrame c (xmlSwitchEncoding c enc) := by
  cases enc <;> exact stackFrame_keep rfl rfl

theorem stackFrame_htmlParseElementInternal (lim : xmlLimits) (c : htmlParserCtxt) :
    stackFrame c (htmlParseElementInternal lim c) := by
  have hs := stackFrame_htmlParseStartTag lim c
  unfold htmlParseElementInternal
  dsimp only
  split
  · split_ifs
    · exact stackFrame.trans hs (stackFrame_xmlNextChar _)
    · exact hs
  · split_ifs <;>
      repeat first
        | with_reducible exact hs
        | with_reducible refine stackFrame.trans ?_ (stackFrame_htmlParserFinishElementParsing _)
        | with_reducible refine stackFrame.trans ?_ (stackFrame_htmlNodeInfoPush _)
        | with_reducible refine stackFrame.trans ?_ (stackFrame_htmlnamePop _)
        | with_reducible refine stackFrame.trans ?_ (stackFrame_nodePop _)
        | with_reducible refine stackFrame.trans ?_ (stackFrame_saxCall _ _ _)
        | with_reducible refine stackFrame.trans ?_ (stackFrame_xmlNextChar _)
        | with_reducible refine stackFrame.trans ?_ (stackFrame_SKIP _ _)
        | with_reducible refine stackFrame.trans ?_ (stackFrame_htmlParseErr _ _ _ _ _)

theorem stackFrame_htmlParseTryOrFinish_startTag (lim : xmlLimits) (c : htmlParserCtxt) :
    stackFrame c (htmlParseTryOrFinish_startTag lim c) := by
  have hs := stackFrame_htmlParseStartTag lim c
  unfold htmlParseTryOrFinish_startTag
  dsimp only
  split
  · split_ifs
    · exact stackFrame.trans hs (stackFrame_xmlNextChar _)
    · exact hs
  · split_ifs <;> (try with_reducible refine stackFrame_instate _ ?_) <;>
      repeat first
        | with_reducible exact hs
        | with_reducible refine stackFrame.trans ?_ (stackFrame_htmlNodeInfoPush _)
        | with_reducible refine stackFrame.trans ?_ (stackFrame_htmlnamePop _)
        | with_reducible refine stackFrame.trans ?_ (stackFrame_nodePop _)
        | with_reducible refine stackFrame.trans ?_ (stackFrame_saxCall _ _ _)
        | with_reducible refine stackFrame.trans ?_ (stackFrame_xmlNextChar _)
        | with_reducible refine stackFrame.trans ?_ (stackFrame_SKIP _ _)
        | with_reducible refine stackFrame.trans ?_ (stackFrame_htmlParseErr _ _ _ _ _)


set_option linter.unreachableTactic false
set_option linter.unusedTactic false

theorem stackFrame_htmlSkipBogusComment_loop :
    ∀ (fuel : Nat) (c : htmlParserCtxt), stackFrame c (htmlSkipBogusComment_loop fuel c) := by
  intro fuel
  induction fuel with
  | zero => intro c; exact stackFrame_refl c
  | succ n ih =>
    intro c
    rw [htmlSkipBogusComment_loop]
    dsimp only
    repeat' first
      | dsimp only
      | split_ifs
      | split
      | fail_if_no_progress with_reducible refine stackFrame_fields ?_ _ _ _ _ _ _ _ _ _ _ _ _ _ _ _ _ _ _ _ _ _ _ _ _ _
      | with_reducible refine stackFrame.trans ?_ (ih _)
      | with_reducible exact stackFrame_refl _
      | with_reducible assumption
      | with_reducible refine stackFrame.trans ?_ (stackFrame_saxCall _ _ _)
      | with_reducible refine stackFrame.trans ?_ (stackFrame_saxCallEnabled _ _ _)
      | with_reducible refine stackFrame.trans ?_ (stackFrame_htmlnamePop _)
      | with_reducible refine stackFrame.trans ?_ (stackFrame_xmlNextChar _)
      | with_reducible refine stackFrame.trans ?_ (stackFrame_SKIP _ _)
      | with_reducible refine stackFrame.trans ?_ (stackFrame_NEXTL _ _)
      | with_reducible refine stackFrame.trans ?_ (stackFrame_htmlParseErr _ _ _ _ _)
      | with_reducible refine stackFrame.trans ?_ (stackFrame_htmlParseErrInt _ _ _ _)
      | with_reducible refine stackFrame.trans ?_ (stackFrame_htmlNodeInfoPush _)
      | with_reducible refine stackFrame.trans ?_ (stackFrame_htmlNodeInfoPop _)
      | with_reducible refine stackFrame.trans ?_ (stackFrame_nodePop _)
      | with_reducible refine stackFrame.trans ?_ (stackFrame_xmlSwitchEncoding _ _)
      | with_reducible refine stackFrame.trans ?_ (stackFrame_htmlCurrentChar _)
      | with_reducible refine stackFrame.trans ?_ (stackFrame_htmlSkipBlankChars _ _)
      | with_reducible refine stackFrame.trans ?_ (stackFrame_htmlParseName _ _)
      | with_reducible refine stackFrame.trans ?_ (stackFrame_htmlParseHTMLName _)
      | with_reducible refine stackFrame.trans ?_ (stackFrame_htmlParseCharRef _)
      | with_reducible refine stackFrame.trans ?_ (stackFrame_htmlParseEntityRef _ _)
      | with_reducible refine stackFrame.trans ?_ (stackFrame_htmlAutoClose _ _)
      | with_reducible refine stackFrame.trans ?_ (stackFrame_htmlAutoCloseOnEnd _)
      | with_reducible refine stackFrame.trans ?_ (stackFrame_htmlCheckParagraph _)
      | with_reducible refine stackFrame.trans ?_ (stackFrame_htmlParserFinishElementParsing _)

theorem stackFrame_htmlSkipBogusComment (c : htmlParserCtxt) :
    stackFrame c (htmlSkipBogusComment c) :=
  stackFrame.trans (stackFrame_htmlParseErr c _ _ _ _) (stackFrame_htmlSkipBogusComment_loop _ _)

theorem stackFrame_htmlParseComment_unfinished (c : htmlParserCtxt) (buf : List Nat) :
    stackFrame c (htmlParseComment_unfinished c buf) :=
  stackFrame_htmlParseErr c _ _ _ _

theorem stackFrame_htmlParseComment_finished (c : htmlParserCtxt) (state : xmlParserInputState)
    (buf : List Nat) (cur : Nat) : stackFrame c (htmlParseComment_finished c state buf cur) := by
  unfold htmlParseComment_finished
  dsimp only
  repeat' first
    | dsimp only
    | split_ifs
    | split
    | fail_if_no_progress with_reducible refine stackFrame_fields ?_ _ _ _ _ _ _ _ _ _ _ _ _ _ _ _ _ _ _ _ _ _ _ _ _ _
    | with_reducible refine stackFrame.trans ?_ (stackFrame_htmlParseComment_unfinished _ _)
    | with_reducible exact stackFrame_refl _
    | with_reducible assumption
    | with_reducible refine stackFrame.trans ?_ (stackFrame_saxCall _ _ _)
    | with_reducible refine stackFrame.trans ?_ (stackFrame_saxCallEnabled _ _ _)
    | with_reducible refine stackFrame.trans ?_ (stackFrame_htmlnamePop _)
    | with_reducible refine stackFrame.trans ?_ (stackFrame_xmlNextChar _)
    | with_reducible refine stackFrame.trans ?_ (stackFrame_SKIP _ _)
    | with_reducible refine stackFrame.trans ?_ (stackFrame_NEXTL _ _)
    | with_reducible refine stackFrame.trans ?_ (stackFrame_htmlParseErr _ _ _ _ _)
    | with_reducible refine stackFrame.trans ?_ (stackFrame_htmlParseErrInt _ _ _ _)
    | with_reducible refine stackFrame.trans ?_ (stackFrame_htmlNodeInfoPush _)
    | with_reducible refine stackFrame.trans ?_ (stackFrame_htmlNodeInfoPop _)
    | with_reducible refine stackFrame.trans ?_ (stackFrame_nodePop _)
    | with_reducible refine stackFrame.trans ?_ (stackFrame_xmlSwitchEncoding _ _)
    | with_reducible refine stackFrame.trans ?_ (stackFrame_htmlCurrentChar _)
    | with_reducible refine stackFrame.trans ?_ (stackFrame_htmlSkipBlankChars _ _)
    | with_reducible refine stackFrame.trans ?_ (stackFrame_htmlParseName _ _)
    | with_reducible refine stackFrame.trans ?_ (stackFrame_htmlParseHTMLName _)
    | with_reducible refine stackFrame.trans ?_ (stackFrame_htmlParseCharRef _)
    | with_reducible refine stackFrame.trans ?_ (stackFrame_htmlParseEntityRef _ _)
    | with_reducible refine stackFrame.trans ?_ (stackFrame_htmlAutoClose _ _)
    | with_reducible refine stackFrame.trans ?_ (stackFrame_htmlAutoCloseOnEnd _)
    | with_reducible refine stackFrame.trans ?_ (stackFrame_htmlCheckParagraph _)
    | with_reducible refine stackFrame.trans ?_ (stackFrame_htmlParserFinishElementParsing _)

theorem stackFrame_htmlParseComment_loop (maxLength : Nat) (state : xmlParserInputState) :
    ∀ (fuel : Nat) (c : htmlParserCtxt) (buf : List Nat) (q ql r rl cur l : Nat),
      stackFrame c (htmlParseComment_loop maxLength state fuel c buf q ql r rl cur l) := by
  intro fuel
  induction fuel with
  | zero => intro c buf q ql r rl cur l; exact stackFrame_htmlParseComment_finished c _ _ _
  | succ n ih =>
    intro c buf q ql r rl cur l
    rw [htmlParseComment_loop]
    dsimp only
    repeat' first
      | dsimp only
      | split_ifs
      | split
      | fail_if_no_progress with_reducible refine stackFrame_fields ?_ _ _ _ _ _ _ _ _ _ _ _ _ _ _ _ _ _ _ _ _ _ _ _ _ _
      | with_reducible refine stackFrame.trans ?_ (stackFrame_htmlParseComment_finished _ _ _ _)
      | with_reducible refine stackFrame.trans ?_ (ih _ _ _ _ _ _ _ _)
      | with_reducible exact stackFrame_refl _
      | with_reducible assumption
      | with_reducible refine stackFrame.trans ?_ (stackFrame_saxCall _ _ _)
      | with_reducible refine stackFrame.trans ?_ (stackFrame_saxCallEnabled _ _ _)
      | with_reducible refine stackFrame.trans ?_ (stackFrame_htmlnamePop _)
      | with_reducible refine stackFrame.trans ?_ (stackFrame_xmlNextChar _)
      | with_reducible refine stackFrame.trans ?_ (stackFrame_SKIP _ _)
      | with_reducible refine stackFrame.trans ?_ (stackFrame_NEXTL _ _)
      | with_reducible refine stackFrame.trans ?_ (stackFrame_htmlParseErr _ _ _ _ _)
      | with_reducible refine stackFrame.trans ?_ (stackFrame_htmlParseErrInt _ _ _ _)
      | with_reducible refine stackFrame.trans ?_ (stackFrame_htmlNodeInfoPush _)
      | with_reducible refine stackFrame.trans ?_ (stackFrame_htmlNodeInfoPop _)
      | with_reducible refine stackFrame.trans ?_ (stackFrame_nodePop _)
      | with_reducible refine stackFrame.trans ?_ (stackFrame_xmlSwitchEncoding _ _)
      | with_reducible refine stackFrame.trans ?_ (stackFrame_htmlCurrentChar _)
      | with_reducible refine stackFrame.trans ?_ (stackFrame_htmlSkipBlankChars _ _)
      | with_reducible refine stackFrame.trans ?_ (stackFrame_htmlParseName _ _)
      | with_reducible refine stackFrame.trans ?_ (stackFrame_htmlParseHTMLName _)
      | with_reducible refine stackFrame.trans ?_ (stackFrame_htmlParseCharRef _)
      | with_reducible refine stackFrame.trans ?_ (stackFrame_htmlParseEntityRef _ _)
      | with_reducible refine stackFrame.trans ?_ (stackFrame_htmlAutoClose _ _)
      | with_reducible refine stackFrame.trans ?_ (stackFrame_htmlAutoCloseOnEnd _)
      | with_reducible refine stackFrame.trans ?_ (stackFrame_htmlCheckParagraph _)
      | with_reducible refine stackFrame.trans ?_ (stackFrame_htmlParserFinishElementParsing _)

theorem stackFrame_htmlParseComment (lim : xmlLimits) (c : htmlParserCtxt) :
    stackFrame c (htmlParseComment lim c) := by
  unfold htmlParseComment
  dsimp only
  repeat' first
    | dsimp only
    | split_ifs
    | split
    | fail_if_no_progress with_reducible refine stackFrame_fields ?_ _ _ _ _ _ _ _ _ _ _ _ _ _ _ _ _ _ _ _ _ _ _ _ _ _
    | with_reducible refine stackFrame.trans ?_ (stackFrame_htmlParseComment_unfinished _ _)
    | with_reducible refine stackFrame.trans ?_ (stackFrame_htmlParseComment_finished _ _ _ _)
    | with_reducible refine stackFrame.trans ?_ (stackFrame_htmlParseComment_loop _ _ _ _ _ _ _ _ _ _ _)
    | with_reducible exact stackFrame_refl _
    | with_reducible assumption
    | with_reducible refine stackFrame.trans ?_ (stackFrame_saxCall _ _ _)
    | with_reducible refine stackFrame.trans ?_ (stackFrame_saxCallEnabled _ _ _)
    | with_reducible refine stackFrame.trans ?_ (stackFrame_htmlnamePop _)
    | with_reducible refine stackFrame.trans ?_ (stackFrame_xmlNextChar _)
    | with_reducible refine stackFrame.trans ?_ (stackFrame_SKIP _ _)
    | with_reducible refine stackFrame.trans ?_ (stackFrame_NEXTL _ _)
    | with_reducible refine stackFrame.trans ?_ (stackFrame_htmlParseErr _ _ _ _ _)
    | with_reducible refine stackFrame.trans ?_ (stackFrame_htmlParseErrInt _ _ _ _)
    | with_reducible refine stackFrame.trans ?_ (stackFrame_htmlNodeInfoPush _)
    | with_reducible refine stackFrame.trans ?_ (stackFrame_htmlNodeInfoPop _)
    | with_reducible refine stackFrame.trans ?_ (stackFrame_nodePop _)
    | with_reducible refine stackFrame.trans ?_ (stackFrame_xmlSwitchEncoding _ _)
    | with_reducible refine stackFrame.trans ?_ (stackFrame_htmlCurrentChar _)
    | with_reducible refine stackFrame.trans ?_ (stackFrame_htmlSkipBlankChars _ _)
    | with_reducible refine stackFrame.trans ?_ (stackFrame_htmlParseName _ _)
    | with_reducible refine stackFrame.trans ?_ (stackFrame_htmlParseHTMLName _)
    | with_reducible refine stackFrame.trans ?_ (stackFrame_htmlParseCharRef _)
    | with_reducible refine stackFrame.trans ?_ (stackFrame_htmlParseEntityRef _ _)
    | with_reducible refine stackFrame.trans ?_ (stackFrame_htmlAutoClose _ _)
    | with_reducible refine stackFrame.trans ?_ (stackFrame_htmlAutoCloseOnEnd _)
    | with_reducible refine stackFrame.trans ?_ (stackFrame_htmlCheckParagraph _)
    | with_reducible refine stackFrame.trans ?_ (stackFrame_htmlParserFinishElementParsing _)

theorem stackFrame_htmlParsePI_loop (maxLength : Nat) (target : List Nat) :
    ∀ (fuel : Nat) (c : htmlParserCtxt) (buf : List Nat) (cur l : Nat),
      stackFrame c (htmlParsePI_loop maxLength target fuel c buf cur l).1 := by
  intro fuel
  induction fuel with
  | zero => intro c buf cur l; exact stackFrame_refl c
  | succ n ih =>
    intro c buf cur l
    rw [htmlParsePI_loop]
    dsimp only
    repeat' first
      | dsimp only
      | split_ifs
      | split
      | fail_if_no_progress with_reducible refine stackFrame_fields ?_ _ _ _ _ _ _ _ _ _ _ _ _ _ _ _ _ _ _ _ _ _ _ _ _ _
      | with_reducible refine stackFrame.trans ?_ (ih _ _ _ _)
      | with_reducible exact stackFrame_refl _
      | with_reducible assumption
      | with_reducible refine stackFrame.trans ?_ (stackFrame_saxCall _ _ _)
      | with_reducible refine stackFrame.trans ?_ (stackFrame_saxCallEnabled _ _ _)
      | with_reducible refine stackFrame.trans ?_ (stackFrame_htmlnamePop _)
      | with_reducible refine stackFrame.trans ?_ (stackFrame_xmlNextChar _)
      | with_reducible refine stackFrame.trans ?_ (stackFrame_SKIP _ _)
      | with_reducible refine stackFrame.trans ?_ (stackFrame_NEXTL _ _)
      | with_reducible refine stackFrame.trans ?_ (stackFrame_htmlParseErr _ _ _ _ _)
      | with_reducible refine stackFrame.trans ?_ (stackFrame_htmlParseErrInt _ _ _ _)
      | with_reducible refine stackFrame.trans ?_ (stackFrame_htmlNodeInfoPush _)
      | with_reducible refine stackFrame.trans ?_ (stackFrame_htmlNodeInfoPop _)
      | with_reducible refine stackFrame.trans ?_ (stackFrame_nodePop _)
      | with_reducible refine stackFrame.trans ?_ (stackFrame_xmlSwitchEncoding _ _)
      | with_reducible refine stackFrame.trans ?_ (stackFrame_htmlCurrentChar _)
      | with_reducible refine stackFrame.trans ?_ (stackFrame_htmlSkipBlankChars _ _)
      | with_reducible refine stackFrame.trans ?_ (stackFrame_htmlParseName _ _)
      | with_reducible refine stackFrame.trans ?_ (stackFrame_htmlParseHTMLName _)
      | with_reducible refine stackFrame.trans ?_ (stackFrame_htmlParseCharRef _)
      | with_reducible refine stackFrame.trans ?_ (stackFrame_htmlParseEntityRef _ _)
      | with_reducible refine stackFrame.trans ?_ (stackFrame_htmlAutoClose _ _)
      | with_reducible refine stackFrame.trans ?_ (stackFrame_htmlAutoCloseOnEnd _)
      | with_reducible refine stackFrame.trans ?_ (stackFrame_htmlCheckParagraph _)
      | with_reducible refine stackFrame.trans ?_ (stackFrame_htmlParserFinishElementParsing _)

theorem stackFrame_htmlParsePI (lim : xmlLimits) (c : htmlParserCtxt) :
    stackFrame c (htmlParsePI lim c) := by
  unfold htmlParsePI
  dsimp only
  repeat' first
    | dsimp only
    | split_ifs
    | split
    | fail_if_no_progress with_reducible refine stackFrame_fields ?_ _ _ _ _ _ _ _ _ _ _ _ _ _ _ _ _ _ _ _ _ _ _ _ _ _
    | with_reducible refine stackFrame.trans ?_ (stackFrame_htmlParsePI_loop _ _ _ _ _ _ _)
    | with_reducible exact stackFrame_refl _
    | with_reducible assumption
    | with_reducible refine stackFrame.trans ?_ (stackFrame_saxCall _ _ _)
    | with_reducible refine stackFrame.trans ?_ (stackFrame_saxCallEnabled _ _ _)
    | with_reducible refine stackFrame.trans ?_ (stackFrame_htmlnamePop _)
    | with_reducible refine stackFrame.trans ?_ (stackFrame_xmlNextChar _)
    | with_reducible refine stackFrame.trans ?_ (stackFrame_SKIP _ _)
    | with_reducible refine stackFrame.trans ?_ (stackFrame_NEXTL _ _)
    | with_reducible refine stackFrame.trans ?_ (stackFrame_htmlParseErr _ _ _ _ _)
    | with_reducible refine stackFrame.trans ?_ (stackFrame_htmlParseErrInt _ _ _ _)
    | with_reducible refine stackFrame.trans ?_ (stackFrame_htmlNodeInfoPush _)
    | with_reducible refine stackFrame.trans ?_ (stackFrame_htmlNodeInfoPop _)
    | with_reducible refine stackFrame.trans ?_ (stackFrame_nodePop _)
    | with_reducible refine stackFrame.trans ?_ (stackFrame_xmlSwitchEncoding _ _)
    | with_reducible refine stackFrame.trans ?_ (stackFrame_htmlCurrentChar _)
    | with_reducible refine stackFrame.trans ?_ (stackFrame_htmlSkipBlankChars _ _)
    | with_reducible refine stackFrame.trans ?_ (stackFrame_htmlParseName _ _)
    | with_reducible refine stackFrame.trans ?_ (stackFrame_htmlParseHTMLName _)
    | with_reducible refine stackFrame.trans ?_ (stackFrame_htmlParseCharRef _)
    | with_reducible refine stackFrame.trans ?_ (stackFrame_htmlParseEntityRef _ _)
    | with_reducible refine stackFrame.trans ?_ (stackFrame_htmlAutoClose _ _)
    | with_reducible refine stackFrame.trans ?_ (stackFrame_htmlAutoCloseOnEnd _)
    | with_reducible refine stackFrame.trans ?_ (stackFrame_htmlCheckParagraph _)
    | with_reducible refine stackFrame.trans ?_ (stackFrame_htmlParserFinishElementParsing _)


theorem stackFrame_htmlParseLiteral_loop (ok : Nat → Bool) (msg : String) (quote : Nat) :
    ∀ (fuel : Nat) (c : htmlParserCtxt) (acc : List Nat) (err : Bool),
      stackFrame c (htmlParseLiteral_loop ok msg quote fuel c acc err).1 := by
  intro fuel
  induction fuel with
  | zero => intro c acc err; exact stackFrame_refl c
  | succ n ih =>
    intro c acc err
    rw [htmlParseLiteral_loop]
    repeat' first
      | dsimp only
      | split_ifs
      | split
      | fail_if_no_progress with_reducible refine stackFrame_fields ?_ _ _ _ _ _ _ _ _ _ _ _ _ _ _ _ _ _ _ _ _ _ _ _ _ _
      | with_reducible refine stackFrame.trans ?_ (ih _ _ _)
      | with_reducible exact stackFrame_refl _
      | with_reducible assumption
      | with_reducible refine stackFrame.trans ?_ (stackFrame_saxCall _ _ _)
      | with_reducible refine stackFrame.trans ?_ (stackFrame_saxCallEnabled _ _ _)
      | with_reducible refine stackFrame.trans ?_ (stackFrame_htmlnamePop _)
      | with_reducible refine stackFrame.trans ?_ (stackFrame_xmlNextChar _)
      | with_reducible refine stackFrame.trans ?_ (stackFrame_SKIP _ _)
      | with_reducible refine stackFrame.trans ?_ (stackFrame_NEXTL _ _)
      | with_reducible refine stackFrame.trans ?_ (stackFrame_htmlParseErr _ _ _ _ _)
      | with_reducible refine stackFrame.trans ?_ (stackFrame_htmlParseErrInt _ _ _ _)
      | with_reducible refine stackFrame.trans ?_ (stackFrame_htmlNodeInfoPush _)
      | with_reducible refine stackFrame.trans ?_ (stackFrame_htmlNodeInfoPop _)
      | with_reducible refine stackFrame.trans ?_ (stackFrame_nodePop _)
      | with_reducible refine stackFrame.trans ?_ (stackFrame_xmlSwitchEncoding _ _)
      | with_reducible refine stackFrame.trans ?_ (stackFrame_htmlCurrentChar _)
      | with_reducible refine stackFrame.trans ?_ (stackFrame_htmlSkipBlankChars _ _)
      | with_reducible refine stackFrame.trans ?_ (stackFrame_htmlParseName _ _)
      | with_reducible refine stackFrame.trans ?_ (stackFrame_htmlParseHTMLName _)
      | with_reducible refine stackFrame.trans ?_ (stackFrame_htmlParseCharRef _)
      | with_reducible refine stackFrame.trans ?_ (stackFrame_htmlParseEntityRef _ _)
      | with_reducible refine stackFrame.trans ?_ (stackFrame_htmlAutoClose _ _)
      | with_reducible refine stackFrame.trans ?_ (stackFrame_htmlAutoCloseOnEnd _)
      | with_reducible refine stackFrame.trans ?_ (stackFrame_htmlCheckParagraph _)
      | with_reducible refine stackFrame.trans ?_ (stackFrame_htmlParserFinishElementParsing _)

theorem stackFrame_htmlParseSystemLiteral (c : htmlParserCtxt) :
    stackFrame c (htmlParseSystemLiteral c).1 := by
  unfold htmlParseSystemLiteral
  repeat' first
    | dsimp only
    | split_ifs
    | split
    | fail_if_no_progress with_reducible refine stackFrame_fields ?_ _ _ _ _ _ _ _ _ _ _ _ _ _ _ _ _ _ _ _ _ _ _ _ _ _
    | with_reducible refine stackFrame.trans ?_ (stackFrame_htmlParseLiteral_loop _ _ _ _ _ _ _)
    | with_reducible exact stackFrame_refl _
    | with_reducible assumption
    | with_reducible refine stackFrame.trans ?_ (stackFrame_saxCall _ _ _)
    | with_reducible refine stackFrame.trans ?_ (stackFrame_saxCallEnabled _ _ _)
    | with_reducible refine stackFrame.trans ?_ (stackFrame_htmlnamePop _)
    | with_reducible refine stackFrame.trans ?_ (stackFrame_xmlNextChar _)
    | with_reducible refine stackFrame.trans ?_ (stackFrame_SKIP _ _)
    | with_reducible refine stackFrame.trans ?_ (stackFrame_NEXTL _ _)
    | with_reducible refine stackFrame.trans ?_ (stackFrame_htmlParseErr _ _ _ _ _)
    | with_reducible refine stackFrame.trans ?_ (stackFrame_htmlParseErrInt _ _ _ _)
    | with_reducible refine stackFrame.trans ?_ (stackFrame_htmlNodeInfoPush _)
    | with_reducible refine stackFrame.trans ?_ (stackFrame_htmlNodeInfoPop _)
    | with_reducible refine stackFrame.trans ?_ (stackFrame_nodePop _)
    | with_reducible refine stackFrame.trans ?_ (stackFrame_xmlSwitchEncoding _ _)
    | with_reducible refine stackFrame.trans ?_ (stackFrame_htmlCurrentChar _)
    | with_reducible refine stackFrame.trans ?_ (stackFrame_htmlSkipBlankChars _ _)
    | with_reducible refine stackFrame.trans ?_ (stackFrame_htmlParseName _ _)
    | with_reducible refine stackFrame.trans ?_ (stackFrame_htmlParseHTMLName _)
    | with_reducible refine stackFrame.trans ?_ (stackFrame_htmlParseCharRef _)
    | with_reducible refine stackFrame.trans ?_ (stackFrame_htmlParseEntityRef _ _)
    | with_reducible refine stackFrame.trans ?_ (stackFrame_htmlAutoClose _ _)
    | with_reducible refine stackFrame.trans ?_ (stackFrame_htmlAutoCloseOnEnd _)
    | with_reducible refine stackFrame.trans ?_ (stackFrame_htmlCheckParagraph _)
    | with_reducible refine stackFrame.trans ?_ (stackFrame_htmlParserFinishElementParsing _)

theorem stackFrame_htmlParsePubidLiteral (c : htmlParserCtxt) :
    stackFrame c (htmlParsePubidLiteral c).1 := by
  unfold htmlParsePubidLiteral
  repeat' first
    | dsimp only
    | split_ifs
    | split
    | fail_if_no_progress with_reducible refine stackFrame_fields ?_ _ _ _ _ _ _ _ _ _ _ _ _ _ _ _ _ _ _ _ _ _ _ _ _ _
    | with_reducible refine stackFrame.trans ?_ (stackFrame_htmlParseLiteral_loop _ _ _ _ _ _ _)
    | with_reducible exact stackFrame_refl _
    | with_reducible assumption
    | with_reducible refine stackFrame.trans ?_ (stackFrame_saxCall _ _ _)
    | with_reducible refine stackFrame.trans ?_ (stackFrame_saxCallEnabled _ _ _)
    | with_reducible refine stackFrame.trans ?_ (stackFrame_htmlnamePop _)
    | with_reducible refine stackFrame.trans ?_ (stackFrame_xmlNextChar _)
    | with_reducible refine stackFrame.trans ?_ (stackFrame_SKIP _ _)
    | with_reducible refine stackFrame.trans ?_ (stackFrame_NEXTL _ _)
    | with_reducible refine stackFrame.trans ?_ (stackFrame_htmlParseErr _ _ _ _ _)
    | with_reducible refine stackFrame.trans ?_ (stackFrame_htmlParseErrInt _ _ _ _)
    | with_reducible refine stackFrame.trans ?_ (stackFrame_htmlNodeInfoPush _)
    | with_reducible refine stackFrame.trans ?_ (stackFrame_htmlNodeInfoPop _)
    | with_reducible refine stackFrame.trans ?_ (stackFrame_nodePop _)
    | with_reducible refine stackFrame.trans ?_ (stackFrame_xmlSwitchEncoding _ _)
    | with_reducible refine stackFrame.trans ?_ (stackFrame_htmlCurrentChar _)
    | with_reducible refine stackFrame.trans ?_ (stackFrame_htmlSkipBlankChars _ _)
    | with_reducible refine stackFrame.trans ?_ (stackFrame_htmlParseName _ _)
    | with_reducible refine stackFrame.trans ?_ (stackFrame_htmlParseHTMLName _)
    | with_reducible refine stackFrame.trans ?_ (stackFrame_htmlParseCharRef _)
    | with_reducible refine stackFrame.trans ?_ (stackFrame_htmlParseEntityRef _ _)
    | with_reducible refine stackFrame.trans ?_ (stackFrame_htmlAutoClose _ _)
    | with_reducible refine stackFrame.trans ?_ (stackFrame_htmlAutoCloseOnEnd _)
    | with_reducible refine stackFrame.trans ?_ (stackFrame_htmlCheckParagraph _)
    | with_reducible refine stackFrame.trans ?_ (stackFrame_htmlParserFinishElementParsing _)

theorem stackFrame_htmlParseExternalID (lim : xmlLimits) (c : htmlParserCtxt) :
    stackFrame c (htmlParseExternalID lim c).1 := by
  unfold htmlParseExternalID
  repeat' first
    | dsimp only
    | split_ifs
    | split
    | fail_if_no_progress with_reducible refine stackFrame_fields ?_ _ _ _ _ _ _ _ _ _ _ _ _ _ _ _ _ _ _ _ _ _ _ _ _ _
    | with_reducible refine stackFrame.trans ?_ (stackFrame_htmlParseSystemLiteral _)
    | with_reducible refine stackFrame.trans ?_ (stackFrame_htmlParsePubidLiteral _)
    | with_reducible exact stackFrame_refl _
    | with_reducible assumption
    | with_reducible refine stackFrame.trans ?_ (stackFrame_saxCall _ _ _)
    | with_reducible refine stackFrame.trans ?_ (stackFrame_saxCallEnabled _ _ _)
    | with_reducible refine stackFrame.trans ?_ (stackFrame_htmlnamePop _)
    | with_reducible refine stackFrame.trans ?_ (stackFrame_xmlNextChar _)
    | with_reducible refine stackFrame.trans ?_ (stackFrame_SKIP _ _)
    | with_reducible refine stackFrame.trans ?_ (stackFrame_NEXTL _ _)
    | with_reducible refine stackFrame.trans ?_ (stackFrame_htmlParseErr _ _ _ _ _)
    | with_reducible refine stackFrame.trans ?_ (stackFrame_htmlParseErrInt _ _ _ _)
    | with_reducible refine stackFrame.trans ?_ (stackFrame_htmlNodeInfoPush _)
    | with_reducible refine stackFrame.trans ?_ (stackFrame_htmlNodeInfoPop _)
    | with_reducible refine stackFrame.trans ?_ (stackFrame_nodePop _)
    | with_reducible refine stackFrame.trans ?_ (stackFrame_xmlSwitchEncoding _ _)
    | with_reducible refine stackFrame.trans ?_ (stackFrame_htmlCurrentChar _)
    | with_reducible refine stackFrame.trans ?_ (stackFrame_htmlSkipBlankChars _ _)
    | with_reducible refine stackFrame.trans ?_ (stackFrame_htmlParseName _ _)
    | with_reducible refine stackFrame.trans ?_ (stackFrame_htmlParseHTMLName _)
    | with_reducible refine stackFrame.trans ?_ (stackFrame_htmlParseCharRef _)
    | with_reducible refine stackFrame.trans ?_ (stackFrame_htmlParseEntityRef _ _)
    | with_reducible refine stackFrame.trans ?_ (stackFrame_htmlAutoClose _ _)
    | with_reducible refine stackFrame.trans ?_ (stackFrame_htmlAutoCloseOnEnd _)
    | with_reducible refine stackFrame.trans ?_ (stackFrame_htmlCheckParagraph _)
    | with_reducible refine stackFrame.trans ?_ (stackFrame_htmlParserFinishElementParsing _)

theorem stackFrame_htmlParseDocTypeDecl_skip :
    ∀ (fuel : Nat) (c : htmlParserCtxt), stackFrame c (htmlParseDocTypeDecl_skip fuel c) := by
  intro fuel
  induction fuel with
  | zero => intro c; exact stackFrame_refl c
  | succ n ih =>
    intro c
    rw [htmlParseDocTypeDecl_skip]
    repeat' first
      | dsimp only
      | split_ifs
      | split
      | fail_if_no_progress with_reducible refine stackFrame_fields ?_ _ _ _ _ _ _ _ _ _ _ _ _ _ _ _ _ _ _ _ _ _ _ _ _ _
      | with_reducible refine stackFrame.trans ?_ (ih _)
      | with_reducible exact stackFrame_refl _
      | with_reducible assumption
      | with_reducible refine stackFrame.trans ?_ (stackFrame_saxCall _ _ _)
      | with_reducible refine stackFrame.trans ?_ (stackFrame_saxCallEnabled _ _ _)
      | with_reducible refine stackFrame.trans ?_ (stackFrame_htmlnamePop _)
      | with_reducible refine stackFrame.trans ?_ (stackFrame_xmlNextChar _)
      | with_reducible refine stackFrame.trans ?_ (stackFrame_SKIP _ _)
      | with_reducible refine stackFrame.trans ?_ (stackFrame_NEXTL _ _)
      | with_reducible refine stackFrame.trans ?_ (stackFrame_htmlParseErr _ _ _ _ _)
      | with_reducible refine stackFrame.trans ?_ (stackFrame_htmlParseErrInt _ _ _ _)
      | with_reducible refine stackFrame.trans ?_ (stackFrame_htmlNodeInfoPush _)
      | with_reducible refine stackFrame.trans ?_ (stackFrame_htmlNodeInfoPop _)
      | with_reducible refine stackFrame.trans ?_ (stackFrame_nodePop _)
      | with_reducible refine stackFrame.trans ?_ (stackFrame_xmlSwitchEncoding _ _)
      | with_reducible refine stackFrame.trans ?_ (stackFrame_htmlCurrentChar _)
      | with_reducible refine stackFrame.trans ?_ (stackFrame_htmlSkipBlankChars _ _)
      | with_reducible refine stackFrame.trans ?_ (stackFrame_htmlParseName _ _)
      | with_reducible refine stackFrame.trans ?_ (stackFrame_htmlParseHTMLName _)
      | with_reducible refine stackFrame.trans ?_ (stackFrame_htmlParseCharRef _)
      | with_reducible refine stackFrame.trans ?_ (stackFrame_htmlParseEntityRef _ _)
      | with_reducible refine stackFrame.trans ?_ (stackFrame_htmlAutoClose _ _)
      | with_reducible refine stackFrame.trans ?_ (stackFrame_htmlAutoCloseOnEnd _)
      | with_reducible refine stackFrame.trans ?_ (stackFrame_htmlCheckParagraph _)
      | with_reducible refine stackFrame.trans ?_ (stackFrame_htmlParserFinishElementParsing _)

theorem stackFrame_htmlParseDocTypeDecl (lim : xmlLimits) (c : htmlParserCtxt) :
    stackFrame c (htmlParseDocTypeDecl lim c) := by
  unfold htmlParseDocTypeDecl
  repeat' first
    | dsimp only
    | split_ifs
    | split
    | fail_if_no_progress with_reducible refine stackFrame_fields ?_ _ _ _ _ _ _ _ _ _ _ _ _ _ _ _ _ _ _ _ _ _ _ _ _ _
    | with_reducible refine stackFrame.trans ?_ (stackFrame_htmlParseDocTypeDecl_skip _ _)
    | with_reducible refine stackFrame.trans ?_ (stackFrame_htmlParseExternalID _ _)
    | with_reducible exact stackFrame_refl _
    | with_reducible assumption
    | with_reducible refine stackFrame.trans ?_ (stackFrame_saxCall _ _ _)
    | with_reducible refine stackFrame.trans ?_ (stackFrame_saxCallEnabled _ _ _)
    | with_reducible refine stackFrame.trans ?_ (stackFrame_htmlnamePop _)
    | with_reducible refine stackFrame.trans ?_ (stackFrame_xmlNextChar _)
    | with_reducible refine stackFrame.trans ?_ (stackFrame_SKIP _ _)
    | with_reducible refine stackFrame.trans ?_ (stackFrame_NEXTL _ _)
    | with_reducible refine stackFrame.trans ?_ (stackFrame_htmlParseErr _ _ _ _ _)
    | with_reducible refine stackFrame.trans ?_ (stackFrame_htmlParseErrInt _ _ _ _)
    | with_reducible refine stackFrame.trans ?_ (stackFrame_htmlNodeInfoPush _)
    | with_reducible refine stackFrame.trans ?_ (stackFrame_htmlNodeInfoPop _)
    | with_reducible refine stackFrame.trans ?_ (stackFrame_nodePop _)
    | with_reducible refine stackFrame.trans ?_ (stackFrame_xmlSwitchEncoding _ _)
    | with_reducible refine stackFrame.trans ?_ (stackFrame_htmlCurrentChar _)
    | with_reducible refine stackFrame.trans ?_ (stackFrame_htmlSkipBlankChars _ _)
    | with_reducible refine stackFrame.trans ?_ (stackFrame_htmlParseName _ _)
    | with_reducible refine stackFrame.trans ?_ (stackFrame_htmlParseHTMLName _)
    | with_reducible refine stackFrame.trans ?_ (stackFrame_htmlParseCharRef _)
    | with_reducible refine stackFrame.trans ?_ (stackFrame_htmlParseEntityRef _ _)
    | with_reducible refine stackFrame.trans ?_ (stackFrame_htmlAutoClose _ _)
    | with_reducible refine stackFrame.trans ?_ (stackFrame_htmlAutoCloseOnEnd _)
    | with_reducible refine stackFrame.trans ?_ (stackFrame_htmlCheckParagraph _)
    | with_reducible refine stackFrame.trans ?_ (stackFrame_htmlParserFinishElementParsing _)

theorem stackFrame_htmlParseScript_flush (c : htmlParserCtxt) (buf : List Nat) :
    stackFrame c (htmlParseScript_flush c buf) := by
  unfold htmlParseScript_flush
  repeat' first
    | dsimp only
    | split_ifs
    | split
    | fail_if_no_progress with_reducible refine stackFrame_fields ?_ _ _ _ _ _ _ _ _ _ _ _ _ _ _ _ _ _ _ _ _ _ _ _ _ _
    | with_reducible exact stackFrame_refl _
    | with_reducible assumption
    | with_reducible refine stackFrame.trans ?_ (stackFrame_saxCall _ _ _)
    | with_reducible refine stackFrame.trans ?_ (stackFrame_saxCallEnabled _ _ _)
    | with_reducible refine stackFrame.trans ?_ (stackFrame_htmlnamePop _)
    | with_reducible refine stackFrame.trans ?_ (stackFrame_xmlNextChar _)
    | with_reducible refine stackFrame.trans ?_ (stackFrame_SKIP _ _)
    | with_reducible refine stackFrame.trans ?_ (stackFrame_NEXTL _ _)
    | with_reducible refine stackFrame.trans ?_ (stackFrame_htmlParseErr _ _ _ _ _)
    | with_reducible refine stackFrame.trans ?_ (stackFrame_htmlParseErrInt _ _ _ _)
    | with_reducible refine stackFrame.trans ?_ (stackFrame_htmlNodeInfoPush _)
    | with_reducible refine stackFrame.trans ?_ (stackFrame_htmlNodeInfoPop _)
    | with_reducible refine stackFrame.trans ?_ (stackFrame_nodePop _)
    | with_reducible refine stackFrame.trans ?_ (stackFrame_xmlSwitchEncoding _ _)
    | with_reducible refine stackFrame.trans ?_ (stackFrame_htmlCurrentChar _)
    | with_reducible refine stackFrame.trans ?_ (stackFrame_htmlSkipBlankChars _ _)
    | with_reducible refine stackFrame.trans ?_ (stackFrame_htmlParseName _ _)
    | with_reducible refine stackFrame.trans ?_ (stackFrame_htmlParseHTMLName _)
    | with_reducible refine stackFrame.trans ?_ (stackFrame_htmlParseCharRef _)
    | with_reducible refine stackFrame.trans ?_ (stackFrame_htmlParseEntityRef _ _)
    | with_reducible refine stackFrame.trans ?_ (stackFrame_htmlAutoClose _ _)
    | with_reducible refine stackFrame.trans ?_ (stackFrame_htmlAutoCloseOnEnd _)
    | with_reducible refine stackFrame.trans ?_ (stackFrame_htmlCheckParagraph _)
    | with_reducible refine stackFrame.trans ?_ (stackFrame_htmlParserFinishElementParsing _)

theorem stackFrame_htmlParseScript_loop :
    ∀ (fuel : Nat) (c : htmlParserCtxt) (buf : List Nat) (cur l : Nat),
      stackFrame c (htmlParseScript_loop fuel c buf cur l).1 := by
  intro fuel
  induction fuel with
  | zero => intro c buf cur l; exact stackFrame_refl c
  | succ n ih =>
    intro c buf cur l
    rw [htmlParseScript_loop]
    repeat' first
      | dsimp only
      | split_ifs
      | split
      | fail_if_no_progress with_reducible refine stackFrame_fields ?_ _ _ _ _ _ _ _ _ _ _ _ _ _ _ _ _ _ _ _ _ _ _ _ _ _
      | with_reducible refine stackFrame.trans ?_ (ih _ _ _ _)
      | with_reducible refine stackFrame.trans ?_ (stackFrame_htmlParseScript_flush _ _)
      | with_reducible exact stackFrame_refl _
      | with_reducible assumption
      | with_reducible refine stackFrame.trans ?_ (stackFrame_saxCall _ _ _)
      | with_reducible refine stackFrame.trans ?_ (stackFrame_saxCallEnabled _ _ _)
      | with_reducible refine stackFrame.trans ?_ (stackFrame_htmlnamePop _)
      | with_reducible refine stackFrame.trans ?_ (stackFrame_xmlNextChar _)
      | with_reducible refine stackFrame.trans ?_ (stackFrame_SKIP _ _)
      | with_reducible refine stackFrame.trans ?_ (stackFrame_NEXTL _ _)
      | with_reducible refine stackFrame.trans ?_ (stackFrame_htmlParseErr _ _ _ _ _)
      | with_reducible refine stackFrame.trans ?_ (stackFrame_htmlParseErrInt _ _ _ _)
      | with_reducible refine stackFrame.trans ?_ (stackFrame_htmlNodeInfoPush _)
      | with_reducible refine stackFrame.trans ?_ (stackFrame_htmlNodeInfoPop _)
      | with_reducible refine stackFrame.trans ?_ (stackFrame_nodePop _)
      | with_reducible refine stackFrame.trans ?_ (stackFrame_xmlSwitchEncoding _ _)
      | with_reducible refine stackFrame.trans ?_ (stackFrame_htmlCurrentChar _)
      | with_reducible refine stackFrame.trans ?_ (stackFrame_htmlSkipBlankChars _ _)
      | with_reducible refine stackFrame.trans ?_ (stackFrame_htmlParseName _ _)
      | with_reducible refine stackFrame.trans ?_ (stackFrame_htmlParseHTMLName _)
      | with_reducible refine stackFrame.trans ?_ (stackFrame_htmlParseCharRef _)
      | with_reducible refine stackFrame.trans ?_ (stackFrame_htmlParseEntityRef _ _)
      | with_reducible refine stackFrame.trans ?_ (stackFrame_htmlAutoClose _ _)
      | with_reducible refine stackFrame.trans ?_ (stackFrame_htmlAutoCloseOnEnd _)
      | with_reducible refine stackFrame.trans ?_ (stackFrame_htmlCheckParagraph _)
      | with_reducible refine stackFrame.trans ?_ (stackFrame_htmlParserFinishElementParsing _)

theorem stackFrame_htmlParseScript (c : htmlParserCtxt) : stackFrame c (htmlParseScript c) := by
  unfold htmlParseScript
  repeat' first
    | dsimp only
    | split_ifs
    | split
    | fail_if_no_progress with_reducible refine stackFrame_fields ?_ _ _ _ _ _ _ _ _ _ _ _ _ _ _ _ _ _ _ _ _ _ _ _ _ _
    | with_reducible refine stackFrame.trans ?_ (stackFrame_htmlParseScript_loop _ _ _ _ _)
    | with_reducible refine stackFrame.trans ?_ (stackFrame_htmlParseScript_flush _ _)
    | with_reducible exact stackFrame_refl _
    | with_reducible assumption
    | with_reducible refine stackFrame.trans ?_ (stackFrame_saxCall _ _ _)
    | with_reducible refine stackFrame.trans ?_ (stackFrame_saxCallEnabled _ _ _)
    | with_reducible refine stackFrame.trans ?_ (stackFrame_htmlnamePop _)
    | with_reducible refine stackFrame.trans ?_ (stackFrame_xmlNextChar _)
    | with_reducible refine stackFrame.trans ?_ (stackFrame_SKIP _ _)
    | with_reducible refine stackFrame.trans ?_ (stackFrame_NEXTL _ _)
    | with_reducible refine stackFrame.trans ?_ (stackFrame_htmlParseErr _ _ _ _ _)
    | with_reducible refine stackFrame.trans ?_ (stackFrame_htmlParseErrInt _ _ _ _)
    | with_reducible refine stackFrame.trans ?_ (stackFrame_htmlNodeInfoPush _)
    | with_reducible refine stackFrame.trans ?_ (stackFrame_htmlNodeInfoPop _)
    | with_reducible refine stackFrame.trans ?_ (stackFrame_nodePop _)
    | with_reducible refine stackFrame.trans ?_ (stackFrame_xmlSwitchEncoding _ _)
    | with_reducible refine stackFrame.trans ?_ (stackFrame_htmlCurrentChar _)
    | with_reducible refine stackFrame.trans ?_ (stackFrame_htmlSkipBlankChars _ _)
    | with_reducible refine stackFrame.trans ?_ (stackFrame_htmlParseName _ _)
    | with_reducible refine stackFrame.trans ?_ (stackFrame_htmlParseHTMLName _)
    | with_reducible refine stackFrame.trans ?_ (stackFrame_htmlParseCharRef _)
    | with_reducible refine stackFrame.trans ?_ (stackFrame_htmlParseEntityRef _ _)
    | with_reducible refine stackFrame.trans ?_ (stackFrame_htmlAutoClose _ _)
    | with_reducible refine stackFrame.trans ?_ (stackFrame_htmlAutoCloseOnEnd _)
    | with_reducible refine stackFrame.trans ?_ (stackFrame_htmlCheckParagraph _)
    | with_reducible refine stackFrame.trans ?_ (stackFrame_htmlParserFinishElementParsing _)

theorem stackFrame_htmlParseCharData_flush (c : htmlParserCtxt) (buf : List Nat) :
    stackFrame c (htmlParseCharData_flush c buf) := by
  unfold htmlParseCharData_flush
  repeat' first
    | dsimp only
    | split_ifs
    | split
    | fail_if_no_progress with_reducible refine stackFrame_fields ?_ _ _ _ _ _ _ _ _ _ _ _ _ _ _ _ _ _ _ _ _ _ _ _ _ _
    | with_reducible exact stackFrame_refl _
    | with_reducible assumption
    | with_reducible refine stackFrame.trans ?_ (stackFrame_saxCall _ _ _)
    | with_reducible refine stackFrame.trans ?_ (stackFrame_saxCallEnabled _ _ _)
    | with_reducible refine stackFrame.trans ?_ (stackFrame_htmlnamePop _)
    | with_reducible refine stackFrame.trans ?_ (stackFrame_xmlNextChar _)
    | with_reducible refine stackFrame.trans ?_ (stackFrame_SKIP _ _)
    | with_reducible refine stackFrame.trans ?_ (stackFrame_NEXTL _ _)
    | with_reducible refine stackFrame.trans ?_ (stackFrame_htmlParseErr _ _ _ _ _)
    | with_reducible refine stackFrame.trans ?_ (stackFrame_htmlParseErrInt _ _ _ _)
    | with_reducible refine stackFrame.trans ?_ (stackFrame_htmlNodeInfoPush _)
    | with_reducible refine stackFrame.trans ?_ (stackFrame_htmlNodeInfoPop _)
    | with_reducible refine stackFrame.trans ?_ (stackFrame_nodePop _)
    | with_reducible refine stackFrame.trans ?_ (stackFrame_xmlSwitchEncoding _ _)
    | with_reducible refine stackFrame.trans ?_ (stackFrame_htmlCurrentChar _)
    | with_reducible refine stackFrame.trans ?_ (stackFrame_htmlSkipBlankChars _ _)
    | with_reducible refine stackFrame.trans ?_ (stackFrame_htmlParseName _ _)
    | with_reducible refine stackFrame.trans ?_ (stackFrame_htmlParseHTMLName _)
    | with_reducible refine stackFrame.trans ?_ (stackFrame_htmlParseCharRef _)
    | with_reducible refine stackFrame.trans ?_ (stackFrame_htmlParseEntityRef _ _)
    | with_reducible refine stackFrame.trans ?_ (stackFrame_htmlAutoClose _ _)
    | with_reducible refine stackFrame.trans ?_ (stackFrame_htmlAutoCloseOnEnd _)
    | with_reducible refine stackFrame.trans ?_ (stackFrame_htmlCheckParagraph _)
    | with_reducible refine stackFrame.trans ?_ (stackFrame_htmlParserFinishElementParsing _)

theorem stackFrame_htmlParseCharDataInternal_loop :
    ∀ (fuel : Nat) (c : htmlParserCtxt) (buf : List Nat) (cur l : Nat),
      stackFrame c (htmlParseCharDataInternal_loop fuel c buf cur l).1 := by
  intro fuel
  induction fuel with
  | zero => intro c buf cur l; exact stackFrame_refl c
  | succ n ih =>
    intro c buf cur l
    rw [htmlParseCharDataInternal_loop]
    repeat' first
      | dsimp only
      | split_ifs
      | split
      | fail_if_no_progress with_reducible refine stackFrame_fields ?_ _ _ _ _ _ _ _ _ _ _ _ _ _ _ _ _ _ _ _ _ _ _ _ _ _
      | with_reducible refine stackFrame.trans ?_ (ih _ _ _ _)
      | with_reducible refine stackFrame.trans ?_ (stackFrame_htmlParseCharData_flush _ _)
      | with_reducible exact stackFrame_refl _
      | with_reducible assumption
      | with_reducible refine stackFrame.trans ?_ (stackFrame_saxCall _ _ _)
      | with_reducible refine stackFrame.trans ?_ (stackFrame_saxCallEnabled _ _ _)
      | with_reducible refine stackFrame.trans ?_ (stackFrame_htmlnamePop _)
      | with_reducible refine stackFrame.trans ?_ (stackFrame_xmlNextChar _)
      | with_reducible refine stackFrame.trans ?_ (stackFrame_SKIP _ _)
      | with_reducible refine stackFrame.trans ?_ (stackFrame_NEXTL _ _)
      | with_reducible refine stackFrame.trans ?_ (stackFrame_htmlParseErr _ _ _ _ _)
      | with_reducible refine stackFrame.trans ?_ (stackFrame_htmlParseErrInt _ _ _ _)
      | with_reducible refine stackFrame.trans ?_ (stackFrame_htmlNodeInfoPush _)
      | with_reducible refine stackFrame.trans ?_ (stackFrame_htmlNodeInfoPop _)
      | with_reducible refine stackFrame.trans ?_ (stackFrame_nodePop _)
      | with_reducible refine stackFrame.trans ?_ (stackFrame_xmlSwitchEncoding _ _)
      | with_reducible refine stackFrame.trans ?_ (stackFrame_htmlCurrentChar _)
      | with_reducible refine stackFrame.trans ?_ (stackFrame_htmlSkipBlankChars _ _)
      | with_reducible refine stackFrame.trans ?_ (stackFrame_htmlParseName _ _)
      | with_reducible refine stackFrame.trans ?_ (stackFrame_htmlParseHTMLName _)
      | with_reducible refine stackFrame.trans ?_ (stackFrame_htmlParseCharRef _)
      | with_reducible refine stackFrame.trans ?_ (stackFrame_htmlParseEntityRef _ _)
      | with_reducible refine stackFrame.trans ?_ (stackFrame_htmlAutoClose _ _)
      | with_reducible refine stackFrame.trans ?_ (stackFrame_htmlAutoCloseOnEnd _)
      | with_reducible refine stackFrame.trans ?_ (stackFrame_htmlCheckParagraph _)
      | with_reducible refine stackFrame.trans ?_ (stackFrame_htmlParserFinishElementParsing _)

theorem stackFrame_htmlParseCharDataInternal (c : htmlParserCtxt) (readahead : Nat) :
    stackFrame c (htmlParseCharDataInternal c readahead) := by
  unfold htmlParseCharDataInternal
  repeat' first
    | dsimp only
    | split_ifs
    | split
    | fail_if_no_progress with_reducible refine stackFrame_fields ?_ _ _ _ _ _ _ _ _ _ _ _ _ _ _ _ _ _ _ _ _ _ _ _ _ _
    | with_reducible refine stackFrame.trans ?_ (stackFrame_htmlParseCharDataInternal_loop _ _ _ _ _)
    | with_reducible refine stackFrame.trans ?_ (stackFrame_htmlParseCharData_flush _ _)
    | with_reducible exact stackFrame_refl _
    | with_reducible assumption
    | with_reducible refine stackFrame.trans ?_ (stackFrame_saxCall _ _ _)
    | with_reducible refine stackFrame.trans ?_ (stackFrame_saxCallEnabled _ _ _)
    | with_reducible refine stackFrame.trans ?_ (stackFrame_htmlnamePop _)
    | with_reducible refine stackFrame.trans ?_ (stackFrame_xmlNextChar _)
    | with_reducible refine stackFrame.trans ?_ (stackFrame_SKIP _ _)
    | with_reducible refine stackFrame.trans ?_ (stackFrame_NEXTL _ _)
    | with_reducible refine stackFrame.trans ?_ (stackFrame_htmlParseErr _ _ _ _ _)
    | with_reducible refine stackFrame.trans ?_ (stackFrame_htmlParseErrInt _ _ _ _)
    | with_reducible refine stackFrame.trans ?_ (stackFrame_htmlNodeInfoPush _)
    | with_reducible refine stackFrame.trans ?_ (stackFrame_htmlNodeInfoPop _)
    | with_reducible refine stackFrame.trans ?_ (stackFrame_nodePop _)
    | with_reducible refine stackFrame.trans ?_ (stackFrame_xmlSwitchEncoding _ _)
    | with_reducible refine stackFrame.trans ?_ (stackFrame_htmlCurrentChar _)
    | with_reducible refine stackFrame.trans ?_ (stackFrame_htmlSkipBlankChars _ _)
    | with_reducible refine stackFrame.trans ?_ (stackFrame_htmlParseName _ _)
    | with_reducible refine stackFrame.trans ?_ (stackFrame_htmlParseHTMLName _)
    | with_reducible refine stackFrame.trans ?_ (stackFrame_htmlParseCharRef _)
    | with_reducible refine stackFrame.trans ?_ (stackFrame_htmlParseEntityRef _ _)
    | with_reducible refine stackFrame.trans ?_ (stackFrame_htmlAutoClose _ _)
    | with_reducible refine stackFrame.trans ?_ (stackFrame_htmlAutoCloseOnEnd _)
    | with_reducible refine stackFrame.trans ?_ (stackFrame_htmlCheckParagraph _)
    | with_reducible refine stackFrame.trans ?_ (stackFrame_htmlParserFinishElementParsing _)

theorem stackFrame_htmlParseCharData (c : htmlParserCtxt) :
    stackFrame c (htmlParseCharData c) :=
  stackFrame_htmlParseCharDataInternal c 0


theorem stackFrame_htmlParseContentInternal_dump :
    ∀ (fuel : Nat) (c : htmlParserCtxt), stackFrame c (htmlParseContentInternal_dump fuel c) := by
  intro fuel
  induction fuel with
  | zero => intro c; exact stackFrame_refl c
  | succ n ih =>
    intro c
    rw [htmlParseContentInternal_dump]
    repeat' first
      | dsimp only
      | split_ifs
      | split
      | fail_if_no_progress with_reducible refine stackFrame_fields ?_ _ _ _ _ _ _ _ _ _ _ _ _ _ _ _ _ _ _ _ _ _ _ _ _ _
      | with_reducible refine stackFrame.trans ?_ (ih _)
      | with_reducible exact stackFrame_refl _
      | with_reducible assumption
      | with_reducible refine stackFrame.trans ?_ (stackFrame_saxCall _ _ _)
      | with_reducible refine stackFrame.trans ?_ (stackFrame_saxCallEnabled _ _ _)
      | with_reducible refine stackFrame.trans ?_ (stackFrame_htmlnamePop _)
      | with_reducible refine stackFrame.trans ?_ (stackFrame_xmlNextChar _)
      | with_reducible refine stackFrame.trans ?_ (stackFrame_SKIP _ _)
      | with_reducible refine stackFrame.trans ?_ (stackFrame_NEXTL _ _)
      | with_reducible refine stackFrame.trans ?_ (stackFrame_htmlParseErr _ _ _ _ _)
      | with_reducible refine stackFrame.trans ?_ (stackFrame_htmlParseErrInt _ _ _ _)
      | with_reducible refine stackFrame.trans ?_ (stackFrame_htmlNodeInfoPush _)
      | with_reducible refine stackFrame.trans ?_ (stackFrame_htmlNodeInfoPop _)
      | with_reducible refine stackFrame.trans ?_ (stackFrame_nodePop _)
      | with_reducible refine stackFrame.trans ?_ (stackFrame_xmlSwitchEncoding _ _)
      | with_reducible refine stackFrame.trans ?_ (stackFrame_htmlCurrentChar _)
      | with_reducible refine stackFrame.trans ?_ (stackFrame_htmlSkipBlankChars _ _)
      | with_reducible refine stackFrame.trans ?_ (stackFrame_htmlParseName _ _)
      | with_reducible refine stackFrame.trans ?_ (stackFrame_htmlParseHTMLName _)
      | with_reducible refine stackFrame.trans ?_ (stackFrame_htmlParseCharRef _)
      | with_reducible refine stackFrame.trans ?_ (stackFrame_htmlParseEntityRef _ _)
      | with_reducible refine stackFrame.trans ?_ (stackFrame_htmlAutoClose _ _)
      | with_reducible refine stackFrame.trans ?_ (stackFrame_htmlAutoCloseOnEnd _)
      | with_reducible refine stackFrame.trans ?_ (stackFrame_htmlCheckParagraph _)
      | with_reducible refine stackFrame.trans ?_ (stackFrame_htmlParserFinishElementParsing _)

theorem stackFrame_htmlParseContentInternal_dispatch (lim : xmlLimits) (st : htmlContentState) :
    stackFrame st.ctxt (htmlParseContentInternal_dispatch lim st).1.ctxt := by
  unfold htmlParseContentInternal_dispatch htmlContentState.refresh
  repeat' first
    | dsimp only
    | split_ifs
    | split
    | fail_if_no_progress with_reducible refine stackFrame_fields ?_ _ _ _ _ _ _ _ _ _ _ _ _ _ _ _ _ _ _ _ _ _ _ _ _ _
    | with_reducible refine stackFrame.trans ?_ (stackFrame_htmlParseScript _)
    | with_reducible refine stackFrame.trans ?_ (stackFrame_htmlParseDocTypeDecl _ _)
    | with_reducible refine stackFrame.trans ?_ (stackFrame_htmlParseComment _ _)
    | with_reducible refine stackFrame.trans ?_ (stackFrame_htmlSkipBogusComment _)
    | with_reducible refine stackFrame.trans ?_ (stackFrame_htmlParsePI _ _)
    | with_reducible refine stackFrame.trans ?_ (stackFrame_htmlParseElementInternal _ _)
    | with_reducible refine stackFrame.trans ?_ (stackFrame_htmlParseReference _ _)
    | with_reducible refine stackFrame.trans ?_ (stackFrame_htmlParseCharData _)
    | with_reducible exact stackFrame_refl _
    | with_reducible assumption
    | with_reducible refine stackFrame.trans ?_ (stackFrame_saxCall _ _ _)
    | with_reducible refine stackFrame.trans ?_ (stackFrame_saxCallEnabled _ _ _)
    | with_reducible refine stackFrame.trans ?_ (stackFrame_htmlnamePop _)
    | with_reducible refine stackFrame.trans ?_ (stackFrame_xmlNextChar _)
    | with_reducible refine stackFrame.trans ?_ (stackFrame_SKIP _ _)
    | with_reducible refine stackFrame.trans ?_ (stackFrame_NEXTL _ _)
    | with_reducible refine stackFrame.trans ?_ (stackFrame_htmlParseErr _ _ _ _ _)
    | with_reducible refine stackFrame.trans ?_ (stackFrame_htmlParseErrInt _ _ _ _)
    | with_reducible refine stackFrame.trans ?_ (stackFrame_htmlNodeInfoPush _)
    | with_reducible refine stackFrame.trans ?_ (stackFrame_htmlNodeInfoPop _)
    | with_reducible refine stackFrame.trans ?_ (stackFrame_nodePop _)
    | with_reducible refine stackFrame.trans ?_ (stackFrame_xmlSwitchEncoding _ _)
    | with_reducible refine stackFrame.trans ?_ (stackFrame_htmlCurrentChar _)
    | with_reducible refine stackFrame.trans ?_ (stackFrame_htmlSkipBlankChars _ _)
    | with_reducible refine stackFrame.trans ?_ (stackFrame_htmlParseName _ _)
    | with_reducible refine stackFrame.trans ?_ (stackFrame_htmlParseHTMLName _)
    | with_reducible refine stackFrame.trans ?_ (stackFrame_htmlParseCharRef _)
    | with_reducible refine stackFrame.trans ?_ (stackFrame_htmlParseEntityRef _ _)
    | with_reducible refine stackFrame.trans ?_ (stackFrame_htmlAutoClose _ _)
    | with_reducible refine stackFrame.trans ?_ (stackFrame_htmlAutoCloseOnEnd _)
    | with_reducible refine stackFrame.trans ?_ (stackFrame_htmlCheckParagraph _)
    | with_reducible refine stackFrame.trans ?_ (stackFrame_htmlParserFinishElementParsing _)

theorem stackFrame_htmlParseContentInternal_auto (st st1 : htmlContentState)
    (h : (match htmlParseHTMLName_nonInvasive st.ctxt with
        | none =>
          some (htmlContentState.refresh (htmlParserFinishElementParsing
            (htmlParseContentInternal_dump
              ((htmlParseErr st.ctxt xmlParserErrors.XML_ERR_NAME_REQUIRED
                "htmlParseStartTag: invalid element name\n" none none).input.length + 1)
              (htmlParseErr st.ctxt xmlParserErrors.XML_ERR_NAME_REQUIRED
                "htmlParseStartTag: invalid element name\n" none none))))
        | some name =>
          match st.ctxt.name with
          | some top =>
            if htmlCheckAutoClose name top then
              some { st with ctxt := htmlAutoClose st.ctxt (some name) }
            else none
          | none => none) = some st1) :
    stackFrame st.ctxt st1.ctxt := by
  unfold htmlContentState.refresh at h
  (repeat' first | split at h | cases h) <;>
    repeat' first
      | dsimp only
      | split_ifs
      | split
      | fail_if_no_progress with_reducible refine stackFrame_fields ?_ _ _ _ _ _ _ _ _ _ _ _ _ _ _ _ _ _ _ _ _ _ _ _ _ _
      | with_reducible refine stackFrame.trans ?_ (stackFrame_htmlParseContentInternal_dump _ _)
      | with_reducible exact stackFrame_refl _
      | with_reducible assumption
      | with_reducible refine stackFrame.trans ?_ (stackFrame_saxCall _ _ _)
      | with_reducible refine stackFrame.trans ?_ (stackFrame_saxCallEnabled _ _ _)
      | with_reducible refine stackFrame.trans ?_ (stackFrame_htmlnamePop _)
      | with_reducible refine stackFrame.trans ?_ (stackFrame_xmlNextChar _)
      | with_reducible refine stackFrame.trans ?_ (stackFrame_SKIP _ _)
      | with_reducible refine stackFrame.trans ?_ (stackFrame_NEXTL _ _)
      | with_reducible refine stackFrame.trans ?_ (stackFrame_htmlParseErr _ _ _ _ _)
      | with_reducible refine stackFrame.trans ?_ (stackFrame_htmlParseErrInt _ _ _ _)
      | with_reducible refine stackFrame.trans ?_ (stackFrame_htmlNodeInfoPush _)
      | with_reducible refine stackFrame.trans ?_ (stackFrame_htmlNodeInfoPop _)
      | with_reducible refine stackFrame.trans ?_ (stackFrame_nodePop _)
      | with_reducible refine stackFrame.trans ?_ (stackFrame_xmlSwitchEncoding _ _)
      | with_reducible refine stackFrame.trans ?_ (stackFrame_htmlCurrentChar _)
      | with_reducible refine stackFrame.trans ?_ (stackFrame_htmlSkipBlankChars _ _)
      | with_reducible refine stackFrame.trans ?_ (stackFrame_htmlParseName _ _)
      | with_reducible refine stackFrame.trans ?_ (stackFrame_htmlParseHTMLName _)
      | with_reducible refine stackFrame.trans ?_ (stackFrame_htmlParseCharRef _)
      | with_reducible refine stackFrame.trans ?_ (stackFrame_htmlParseEntityRef _ _)
      | with_reducible refine stackFrame.trans ?_ (stackFrame_htmlAutoClose _ _)
      | with_reducible refine stackFrame.trans ?_ (stackFrame_htmlAutoCloseOnEnd _)
      | with_reducible refine stackFrame.trans ?_ (stackFrame_htmlCheckParagraph _)
      | with_reducible refine stackFrame.trans ?_ (stackFrame_htmlParserFinishElementParsing _)

theorem stackFrame_htmlParseContentInternal_body (lim : xmlLimits) (st : htmlContentState) :
    stackFrame st.ctxt (htmlParseContentInternal_body lim st).1.ctxt := by
  unfold htmlParseContentInternal_body
  repeat' first
    | dsimp only
    | split_ifs
    | split
    | fail_if_no_progress with_reducible refine stackFrame_fields ?_ _ _ _ _ _ _ _ _ _ _ _ _ _ _ _ _ _ _ _ _ _ _ _ _ _
    | exact stackFrame_htmlParseContentInternal_auto _ _ (by assumption)
    | with_reducible exact stackFrame_htmlParseContentInternal_dispatch _ _
    | with_reducible unfold htmlContentState.refresh
    | with_reducible refine stackFrame.trans ?_ (stackFrame_htmlParseEndTag _ _)
    | with_reducible exact stackFrame_refl _
    | with_reducible assumption
    | with_reducible refine stackFrame.trans ?_ (stackFrame_saxCall _ _ _)
    | with_reducible refine stackFrame.trans ?_ (stackFrame_saxCallEnabled _ _ _)
    | with_reducible refine stackFrame.trans ?_ (stackFrame_htmlnamePop _)
    | with_reducible refine stackFrame.trans ?_ (stackFrame_xmlNextChar _)
    | with_reducible refine stackFrame.trans ?_ (stackFrame_SKIP _ _)
    | with_reducible refine stackFrame.trans ?_ (stackFrame_NEXTL _ _)
    | with_reducible refine stackFrame.trans ?_ (stackFrame_htmlParseErr _ _ _ _ _)
    | with_reducible refine stackFrame.trans ?_ (stackFrame_htmlParseErrInt _ _ _ _)
    | with_reducible refine stackFrame.trans ?_ (stackFrame_htmlNodeInfoPush _)
    | with_reducible refine stackFrame.trans ?_ (stackFrame_htmlNodeInfoPop _)
    | with_reducible refine stackFrame.trans ?_ (stackFrame_nodePop _)
    | with_reducible refine stackFrame.trans ?_ (stackFrame_xmlSwitchEncoding _ _)
    | with_reducible refine stackFrame.trans ?_ (stackFrame_htmlCurrentChar _)
    | with_reducible refine stackFrame.trans ?_ (stackFrame_htmlSkipBlankChars _ _)
    | with_reducible refine stackFrame.trans ?_ (stackFrame_htmlParseName _ _)
    | with_reducible refine stackFrame.trans ?_ (stackFrame_htmlParseHTMLName _)
    | with_reducible refine stackFrame.trans ?_ (stackFrame_htmlParseCharRef _)
    | with_reducible refine stackFrame.trans ?_ (stackFrame_htmlParseEntityRef _ _)
    | with_reducible refine stackFrame.trans ?_ (stackFrame_htmlAutoClose _ _)
    | with_reducible refine stackFrame.trans ?_ (stackFrame_htmlAutoCloseOnEnd _)
    | with_reducible refine stackFrame.trans ?_ (stackFrame_htmlCheckParagraph _)
    | with_reducible refine stackFrame.trans ?_ (stackFrame_htmlParserFinishElementParsing _)

theorem stackFrame_htmlParseContentInternal_loop (lim : xmlLimits) :
    ∀ (fuel : Nat) (st : htmlContentState),
      stackFrame st.ctxt (htmlParseContentInternal_loop lim fuel st).ctxt := by
  intro fuel
  induction fuel with
  | zero => intro st; exact stackFrame_refl _
  | succ n ih =>
    intro st
    rw [htmlParseContentInternal_loop]
    have hb := stackFrame_htmlParseContentInternal_body lim st
    repeat' first
      | dsimp only
      | split_ifs
      | split
      | fail_if_no_progress with_reducible refine stackFrame_fields ?_ _ _ _ _ _ _ _ _ _ _ _ _ _ _ _ _ _ _ _ _ _ _ _ _ _
      | with_reducible exact stackFrame.trans hb (ih _)
      | with_reducible exact stackFrame_refl _
      | with_reducible assumption
      | with_reducible refine stackFrame.trans ?_ (stackFrame_saxCall _ _ _)
      | with_reducible refine stackFrame.trans ?_ (stackFrame_saxCallEnabled _ _ _)
      | with_reducible refine stackFrame.trans ?_ (stackFrame_htmlnamePop _)
      | with_reducible refine stackFrame.trans ?_ (stackFrame_xmlNextChar _)
      | with_reducible refine stackFrame.trans ?_ (stackFrame_SKIP _ _)
      | with_reducible refine stackFrame.trans ?_ (stackFrame_NEXTL _ _)
      | with_reducible refine stackFrame.trans ?_ (stackFrame_htmlParseErr _ _ _ _ _)
      | with_reducible refine stackFrame.trans ?_ (stackFrame_htmlParseErrInt _ _ _ _)
      | with_reducible refine stackFrame.trans ?_ (stackFrame_htmlNodeInfoPush _)
      | with_reducible refine stackFrame.trans ?_ (stackFrame_htmlNodeInfoPop _)
      | with_reducible refine stackFrame.trans ?_ (stackFrame_nodePop _)
      | with_reducible refine stackFrame.trans ?_ (stackFrame_xmlSwitchEncoding _ _)
      | with_reducible refine stackFrame.trans ?_ (stackFrame_htmlCurrentChar _)
      | with_reducible refine stackFrame.trans ?_ (stackFrame_htmlSkipBlankChars _ _)
      | with_reducible refine stackFrame.trans ?_ (stackFrame_htmlParseName _ _)
      | with_reducible refine stackFrame.trans ?_ (stackFrame_htmlParseHTMLName _)
      | with_reducible refine stackFrame.trans ?_ (stackFrame_htmlParseCharRef _)
      | with_reducible refine stackFrame.trans ?_ (stackFrame_htmlParseEntityRef _ _)
      | with_reducible refine stackFrame.trans ?_ (stackFrame_htmlAutoClose _ _)
      | with_reducible refine stackFrame.trans ?_ (stackFrame_htmlAutoCloseOnEnd _)
      | with_reducible refine stackFrame.trans ?_ (stackFrame_htmlCheckParagraph _)
      | with_reducible refine stackFrame.trans ?_ (stackFrame_htmlParserFinishElementParsing _)

theorem stackFrame_htmlParseContentInternal (lim : xmlLimits) (c : htmlParserCtxt) :
    stackFrame c (htmlParseContentInternal lim c) :=
  stackFrame_htmlParseContentInternal_loop lim _ (htmlContentState.refresh c)

theorem stackFrame_htmlParseDocument_misc (lim : xmlLimits) (checkStopped : Bool) :
    ∀ (fuel : Nat) (c : htmlParserCtxt),
      stackFrame c (htmlParseDocument_misc lim checkStopped fuel c) := by
  intro fuel
  induction fuel with
  | zero => intro c; exact stackFrame_refl c
  | succ n ih =>
    intro c
    rw [htmlParseDocument_misc]
    repeat' first
      | dsimp only
      | split_ifs
      | split
      | fail_if_no_progress with_reducible refine stackFrame_fields ?_ _ _ _ _ _ _ _ _ _ _ _ _ _ _ _ _ _ _ _ _ _ _ _ _ _
      | with_reducible refine stackFrame.trans ?_ (ih _)
      | with_reducible refine stackFrame.trans ?_ (stackFrame_htmlParsePI _ _)
      | with_reducible refine stackFrame.trans ?_ (stackFrame_htmlParseComment _ _)
      | with_reducible exact stackFrame_refl _
      | with_reducible assumption
      | with_reducible refine stackFrame.trans ?_ (stackFrame_saxCall _ _ _)
      | with_reducible refine stackFrame.trans ?_ (stackFrame_saxCallEnabled _ _ _)
      | with_reducible refine stackFrame.trans ?_ (stackFrame_htmlnamePop _)
      | with_reducible refine stackFrame.trans ?_ (stackFrame_xmlNextChar _)
      | with_reducible refine stackFrame.trans ?_ (stackFrame_SKIP _ _)
      | with_reducible refine stackFrame.trans ?_ (stackFrame_NEXTL _ _)
      | with_reducible refine stackFrame.trans ?_ (stackFrame_htmlParseErr _ _ _ _ _)
      | with_reducible refine stackFrame.trans ?_ (stackFrame_htmlParseErrInt _ _ _ _)
      | with_reducible refine stackFrame.trans ?_ (stackFrame_htmlNodeInfoPush _)
      | with_reducible refine stackFrame.trans ?_ (stackFrame_htmlNodeInfoPop _)
      | with_reducible refine stackFrame.trans ?_ (stackFrame_nodePop _)
      | with_reducible refine stackFrame.trans ?_ (stackFrame_xmlSwitchEncoding _ _)
      | with_reducible refine stackFrame.trans ?_ (stackFrame_htmlCurrentChar _)
      | with_reducible refine stackFrame.trans ?_ (stackFrame_htmlSkipBlankChars _ _)
      | with_reducible refine stackFrame.trans ?_ (stackFrame_htmlParseName _ _)
      | with_reducible refine stackFrame.trans ?_ (stackFrame_htmlParseHTMLName _)
      | with_reducible refine stackFrame.trans ?_ (stackFrame_htmlParseCharRef _)
      | with_reducible refine stackFrame.trans ?_ (stackFrame_htmlParseEntityRef _ _)
      | with_reducible refine stackFrame.trans ?_ (stackFrame_htmlAutoClose _ _)
      | with_reducible refine stackFrame.trans ?_ (stackFrame_htmlAutoCloseOnEnd _)
      | with_reducible refine stackFrame.trans ?_ (stackFrame_htmlCheckParagraph _)
      | with_reducible refine stackFrame.trans ?_ (stackFrame_htmlParserFinishElementParsing _)

theorem stackFrame_htmlParseDocument (lim : xmlLimits) (c : htmlParserCtxt) :
    stackFrame c (htmlParseDocument lim c).1 := by
  unfold htmlParseDocument
  repeat' first
    | dsimp only
    | split_ifs
    | split
    | fail_if_no_progress with_reducible refine stackFrame_fields ?_ _ _ _ _ _ _ _ _ _ _ _ _ _ _ _ _ _ _ _ _ _ _ _ _ _
    | with_reducible refine stackFrame.trans ?_ (stackFrame_htmlParseContentInternal _ _)
    | with_reducible refine stackFrame.trans ?_ (stackFrame_htmlParseDocument_misc _ _ _ _)
    | with_reducible refine stackFrame.trans ?_ (stackFrame_htmlParseDocTypeDecl _ _)
    | with_reducible exact stackFrame_refl _
    | with_reducible assumption
    | with_reducible refine stackFrame.trans ?_ (stackFrame_saxCall _ _ _)
    | with_reducible refine stackFrame.trans ?_ (stackFrame_saxCallEnabled _ _ _)
    | with_reducible refine stackFrame.trans ?_ (stackFrame_htmlnamePop _)
    | with_reducible refine stackFrame.trans ?_ (stackFrame_xmlNextChar _)
    | with_reducible refine stackFrame.trans ?_ (stackFrame_SKIP _ _)
    | with_reducible refine stackFrame.trans ?_ (stackFrame_NEXTL _ _)
    | with_reducible refine stackFrame.trans ?_ (stackFrame_htmlParseErr _ _ _ _ _)
    | with_reducible refine stackFrame.trans ?_ (stackFrame_htmlParseErrInt _ _ _ _)
    | with_reducible refine stackFrame.trans ?_ (stackFrame_htmlNodeInfoPush _)
    | with_reducible refine stackFrame.trans ?_ (stackFrame_htmlNodeInfoPop _)
    | with_reducible refine stackFrame.trans ?_ (stackFrame_nodePop _)
    | with_reducible refine stackFrame.trans ?_ (stackFrame_xmlSwitchEncoding _ _)
    | with_reducible refine stackFrame.trans ?_ (stackFrame_htmlCurrentChar _)
    | with_reducible refine stackFrame.trans ?_ (stackFrame_htmlSkipBlankChars _ _)
    | with_reducible refine stackFrame.trans ?_ (stackFrame_htmlParseName _ _)
    | with_reducible refine stackFrame.trans ?_ (stackFrame_htmlParseHTMLName _)
    | with_reducible refine stackFrame.trans ?_ (stackFrame_htmlParseCharRef _)
    | with_reducible refine stackFrame.trans ?_ (stackFrame_htmlParseEntityRef _ _)
    | with_reducible refine stackFrame.trans ?_ (stackFrame_htmlAutoClose _ _)
    | with_reducible refine stackFrame.trans ?_ (stackFrame_htmlAutoCloseOnEnd _)
    | with_reducible refine stackFrame.trans ?_ (stackFrame_htmlCheckParagraph _)
    | with_reducible refine stackFrame.trans ?_ (stackFrame_htmlParserFinishElementParsing _)

theorem stackFrame_htmlParseLookupSequence (lim : xmlLimits) (c : htmlParserCtxt)
    (first next third : Nat) (ignoreattrval : Bool) :
    stackFrame c (htmlParseLookupSequence lim c first next third ignoreattrval).1 := by
  unfold htmlParseLookupSequence
  repeat' first
    | dsimp only
    | split_ifs
    | split
    | fail_if_no_progress with_reducible refine stackFrame_fields ?_ _ _ _ _ _ _ _ _ _ _ _ _ _ _ _ _ _ _ _ _ _ _ _ _ _
    | with_reducible exact stackFrame_refl _
    | with_reducible assumption
    | with_reducible refine stackFrame.trans ?_ (stackFrame_saxCall _ _ _)
    | with_reducible refine stackFrame.trans ?_ (stackFrame_saxCallEnabled _ _ _)
    | with_reducible refine stackFrame.trans ?_ (stackFrame_htmlnamePop _)
    | with_reducible refine stackFrame.trans ?_ (stackFrame_xmlNextChar _)
    | with_reducible refine stackFrame.trans ?_ (stackFrame_SKIP _ _)
    | with_reducible refine stackFrame.trans ?_ (stackFrame_NEXTL _ _)
    | with_reducible refine stackFrame.trans ?_ (stackFrame_htmlParseErr _ _ _ _ _)
    | with_reducible refine stackFrame.trans ?_ (stackFrame_htmlParseErrInt _ _ _ _)
    | with_reducible refine stackFrame.trans ?_ (stackFrame_htmlNodeInfoPush _)
    | with_reducible refine stackFrame.trans ?_ (stackFrame_htmlNodeInfoPop _)
    | with_reducible refine stackFrame.trans ?_ (stackFrame_nodePop _)
    | with_reducible refine stackFrame.trans ?_ (stackFrame_xmlSwitchEncoding _ _)
    | with_reducible refine stackFrame.trans ?_ (stackFrame_htmlCurrentChar _)
    | with_reducible refine stackFrame.trans ?_ (stackFrame_htmlSkipBlankChars _ _)
    | with_reducible refine stackFrame.trans ?_ (stackFrame_htmlParseName _ _)
    | with_reducible refine stackFrame.trans ?_ (stackFrame_htmlParseHTMLName _)
    | with_reducible refine stackFrame.trans ?_ (stackFrame_htmlParseCharRef _)
    | with_reducible refine stackFrame.trans ?_ (stackFrame_htmlParseEntityRef _ _)
    | with_reducible refine stackFrame.trans ?_ (stackFrame_htmlAutoClose _ _)
    | with_reducible refine stackFrame.trans ?_ (stackFrame_htmlAutoCloseOnEnd _)
    | with_reducible refine stackFrame.trans ?_ (stackFrame_htmlCheckParagraph _)
    | with_reducible refine stackFrame.trans ?_ (stackFrame_htmlParserFinishElementParsing _)

theorem stackFrame_htmlParseLookupCommentEnd_loop (lim : xmlLimits) :
    ∀ (fuel : Nat) (c : htmlParserCtxt),
      stackFrame c (htmlParseLookupCommentEnd_loop lim fuel c).1 := by
  intro fuel
  induction fuel with
  | zero => intro c; exact stackFrame_refl c
  | succ n ih =>
    intro c
    rw [htmlParseLookupCommentEnd_loop]
    repeat' first
      | dsimp only
      | split_ifs
      | split
      | fail_if_no_progress with_reducible refine stackFrame_fields ?_ _ _ _ _ _ _ _ _ _ _ _ _ _ _ _ _ _ _ _ _ _ _ _ _ _
      | with_reducible refine stackFrame.trans ?_ (ih _)
      | with_reducible refine stackFrame.trans ?_ (stackFrame_htmlParseLookupSequence _ _ _ _ _ _)
      | with_reducible exact stackFrame_refl _
      | with_reducible assumption
      | with_reducible refine stackFrame.trans ?_ (stackFrame_saxCall _ _ _)
      | with_reducible refine stackFrame.trans ?_ (stackFrame_saxCallEnabled _ _ _)
      | with_reducible refine stackFrame.trans ?_ (stackFrame_htmlnamePop _)
      | with_reducible refine stackFrame.trans ?_ (stackFrame_xmlNextChar _)
      | with_reducible refine stackFrame.trans ?_ (stackFrame_SKIP _ _)
      | with_reducible refine stackFrame.trans ?_ (stackFrame_NEXTL _ _)
      | with_reducible refine stackFrame.trans ?_ (stackFrame_htmlParseErr _ _ _ _ _)
      | with_reducible refine stackFrame.trans ?_ (stackFrame_htmlParseErrInt _ _ _ _)
      | with_reducible refine stackFrame.trans ?_ (stackFrame_htmlNodeInfoPush _)
      | with_reducible refine stackFrame.trans ?_ (stackFrame_htmlNodeInfoPop _)
      | with_reducible refine stackFrame.trans ?_ (stackFrame_nodePop _)
      | with_reducible refine stackFrame.trans ?_ (stackFrame_xmlSwitchEncoding _ _)
      | with_reducible refine stackFrame.trans ?_ (stackFrame_htmlCurrentChar _)
      | with_reducible refine stackFrame.trans ?_ (stackFrame_htmlSkipBlankChars _ _)
      | with_reducible refine stackFrame.trans ?_ (stackFrame_htmlParseName _ _)
      | with_reducible refine stackFrame.trans ?_ (stackFrame_htmlParseHTMLName _)
      | with_reducible refine stackFrame.trans ?_ (stackFrame_htmlParseCharRef _)
      | with_reducible refine stackFrame.trans ?_ (stackFrame_htmlParseEntityRef _ _)
      | with_reducible refine stackFrame.trans ?_ (stackFrame_htmlAutoClose _ _)
      | with_reducible refine stackFrame.trans ?_ (stackFrame_htmlAutoCloseOnEnd _)
      | with_reducible refine stackFrame.trans ?_ (stackFrame_htmlCheckParagraph _)
      | with_reducible refine stackFrame.trans ?_ (stackFrame_htmlParserFinishElementParsing _)

theorem stackFrame_htmlParseLookupCommentEnd (lim : xmlLimits) (c : htmlParserCtxt) :
    stackFrame c (htmlParseLookupCommentEnd lim c).1 :=
  stackFrame_htmlParseLookupCommentEnd_loop lim _ c

theorem stackFrame_htmlParseTryOrFinish_finish (c : htmlParserCtxt) :
    stackFrame c (htmlParseTryOrFinish_finish c) := by
  unfold htmlParseTryOrFinish_finish
  repeat' first
    | dsimp only
    | split_ifs
    | split
    | fail_if_no_progress with_reducible refine stackFrame_fields ?_ _ _ _ _ _ _ _ _ _ _ _ _ _ _ _ _ _ _ _ _ _ _ _ _ _
    | with_reducible exact stackFrame_refl _
    | with_reducible assumption
    | with_reducible refine stackFrame.trans ?_ (stackFrame_saxCall _ _ _)
    | with_reducible refine stackFrame.trans ?_ (stackFrame_saxCallEnabled _ _ _)
    | with_reducible refine stackFrame.trans ?_ (stackFrame_htmlnamePop _)
    | with_reducible refine stackFrame.trans ?_ (stackFrame_xmlNextChar _)
    | with_reducible refine stackFrame.trans ?_ (stackFrame_SKIP _ _)
    | with_reducible refine stackFrame.trans ?_ (stackFrame_NEXTL _ _)
    | with_reducible refine stackFrame.trans ?_ (stackFrame_htmlParseErr _ _ _ _ _)
    | with_reducible refine stackFrame.trans ?_ (stackFrame_htmlParseErrInt _ _ _ _)
    | with_reducible refine stackFrame.trans ?_ (stackFrame_htmlNodeInfoPush _)
    | with_reducible refine stackFrame.trans ?_ (stackFrame_htmlNodeInfoPop _)
    | with_reducible refine stackFrame.trans ?_ (stackFrame_nodePop _)
    | with_reducible refine stackFrame.trans ?_ (stackFrame_xmlSwitchEncoding _ _)
    | with_reducible refine stackFrame.trans ?_ (stackFrame_htmlCurrentChar _)
    | with_reducible refine stackFrame.trans ?_ (stackFrame_htmlSkipBlankChars _ _)
    | with_reducible refine stackFrame.trans ?_ (stackFrame_htmlParseName _ _)
    | with_reducible refine stackFrame.trans ?_ (stackFrame_htmlParseHTMLName _)
    | with_reducible refine stackFrame.trans ?_ (stackFrame_htmlParseCharRef _)
    | with_reducible refine stackFrame.trans ?_ (stackFrame_htmlParseEntityRef _ _)
    | with_reducible refine stackFrame.trans ?_ (stackFrame_htmlAutoClose _ _)
    | with_reducible refine stackFrame.trans ?_ (stackFrame_htmlAutoCloseOnEnd _)
    | with_reducible refine stackFrame.trans ?_ (stackFrame_htmlCheckParagraph _)
    | with_reducible refine stackFrame.trans ?_ (stackFrame_htmlParserFinishElementParsing _)

theorem stackFrame_htmlParseTryOrFinish_text (lim : xmlLimits) :
    ∀ (fuel : Nat) (c : htmlParserCtxt) (cur : Nat),
      stackFrame c (htmlParseTryOrFinish_text lim fuel c cur) := by
  intro fuel
  induction fuel with
  | zero => intro c cur; exact stackFrame_refl c
  | succ n ih =>
    intro c cur
    rw [htmlParseTryOrFinish_text]
    repeat' first
      | dsimp only
      | split_ifs
      | split
      | fail_if_no_progress with_reducible refine stackFrame_fields ?_ _ _ _ _ _ _ _ _ _ _ _ _ _ _ _ _ _ _ _ _ _ _ _ _ _
      | with_reducible refine stackFrame.trans ?_ (ih _ _)
      | with_reducible refine stackFrame.trans ?_ (stackFrame_htmlParseReference _ _)
      | with_reducible refine stackFrame.trans ?_ (stackFrame_htmlParseCharData _)
      | with_reducible exact stackFrame_refl _
      | with_reducible assumption
      | with_reducible refine stackFrame.trans ?_ (stackFrame_saxCall _ _ _)
      | with_reducible refine stackFrame.trans ?_ (stackFrame_saxCallEnabled _ _ _)
      | with_reducible refine stackFrame.trans ?_ (stackFrame_htmlnamePop _)
      | with_reducible refine stackFrame.trans ?_ (stackFrame_xmlNextChar _)
      | with_reducible refine stackFrame.trans ?_ (stackFrame_SKIP _ _)
      | with_reducible refine stackFrame.trans ?_ (stackFrame_NEXTL _ _)
      | with_reducible refine stackFrame.trans ?_ (stackFrame_htmlParseErr _ _ _ _ _)
      | with_reducible refine stackFrame.trans ?_ (stackFrame_htmlParseErrInt _ _ _ _)
      | with_reducible refine stackFrame.trans ?_ (stackFrame_htmlNodeInfoPush _)
      | with_reducible refine stackFrame.trans ?_ (stackFrame_htmlNodeInfoPop _)
      | with_reducible refine stackFrame.trans ?_ (stackFrame_nodePop _)
      | with_reducible refine stackFrame.trans ?_ (stackFrame_xmlSwitchEncoding _ _)
      | with_reducible refine stackFrame.trans ?_ (stackFrame_htmlCurrentChar _)
      | with_reducible refine stackFrame.trans ?_ (stackFrame_htmlSkipBlankChars _ _)
      | with_reducible refine stackFrame.trans ?_ (stackFrame_htmlParseName _ _)
      | with_reducible refine stackFrame.trans ?_ (stackFrame_htmlParseHTMLName _)
      | with_reducible refine stackFrame.trans ?_ (stackFrame_htmlParseCharRef _)
      | with_reducible refine stackFrame.trans ?_ (stackFrame_htmlParseEntityRef _ _)
      | with_reducible refine stackFrame.trans ?_ (stackFrame_htmlAutoClose _ _)
      | with_reducible refine stackFrame.trans ?_ (stackFrame_htmlAutoCloseOnEnd _)
      | with_reducible refine stackFrame.trans ?_ (stackFrame_htmlCheckParagraph _)
      | with_reducible refine stackFrame.trans ?_ (stackFrame_htmlParserFinishElementParsing _)

theorem stackFrame_htmlParseTryOrFinish_misc (lim : xmlLimits) (terminate : Bool)
    (c : htmlParserCtxt) (cur next : Nat) (back : xmlParserInputState)
    (r : htmlParserCtxt × Bool)
    (h : htmlParseTryOrFinish_misc lim terminate c cur next back = some r) :
    stackFrame c r.1 := by
  unfold htmlParseTryOrFinish_misc at h
  have hc := stackFrame_htmlParseLookupCommentEnd lim c
  have hl := stackFrame_htmlParseLookupSequence lim c 0x3e 0 0 false
  dsimp only at h
  split_ifs at h <;> cases h <;>
    repeat' first
      | dsimp only
      | split_ifs
      | split
      | fail_if_no_progress with_reducible refine stackFrame_fields ?_ _ _ _ _ _ _ _ _ _ _ _ _ _ _ _ _ _ _ _ _ _ _ _ _ _
      | with_reducible refine stackFrame.trans ?_ (stackFrame_htmlParsePI _ _)
      | with_reducible refine stackFrame.trans ?_ (stackFrame_htmlParseComment _ _)
      | with_reducible exact stackFrame_refl _
      | with_reducible assumption
      | with_reducible refine stackFrame.trans ?_ (stackFrame_saxCall _ _ _)
      | with_reducible refine stackFrame.trans ?_ (stackFrame_saxCallEnabled _ _ _)
      | with_reducible refine stackFrame.trans ?_ (stackFrame_htmlnamePop _)
      | with_reducible refine stackFrame.trans ?_ (stackFrame_xmlNextChar _)
      | with_reducible refine stackFrame.trans ?_ (stackFrame_SKIP _ _)
      | with_reducible refine stackFrame.trans ?_ (stackFrame_NEXTL _ _)
      | with_reducible refine stackFrame.trans ?_ (stackFrame_htmlParseErr _ _ _ _ _)
      | with_reducible refine stackFrame.trans ?_ (stackFrame_htmlParseErrInt _ _ _ _)
      | with_reducible refine stackFrame.trans ?_ (stackFrame_htmlNodeInfoPush _)
      | with_reducible refine stackFrame.trans ?_ (stackFrame_htmlNodeInfoPop _)
      | with_reducible refine stackFrame.trans ?_ (stackFrame_nodePop _)
      | with_reducible refine stackFrame.trans ?_ (stackFrame_xmlSwitchEncoding _ _)
      | with_reducible refine stackFrame.trans ?_ (stackFrame_htmlCurrentChar _)
      | with_reducible refine stackFrame.trans ?_ (stackFrame_htmlSkipBlankChars _ _)
      | with_reducible refine stackFrame.trans ?_ (stackFrame_htmlParseName _ _)
      | with_reducible refine stackFrame.trans ?_ (stackFrame_htmlParseHTMLName _)
      | with_reducible refine stackFrame.trans ?_ (stackFrame_htmlParseCharRef _)
      | with_reducible refine stackFrame.trans ?_ (stackFrame_htmlParseEntityRef _ _)
      | with_reducible refine stackFrame.trans ?_ (stackFrame_htmlAutoClose _ _)
      | with_reducible refine stackFrame.trans ?_ (stackFrame_htmlAutoCloseOnEnd _)
      | with_reducible refine stackFrame.trans ?_ (stackFrame_htmlCheckParagraph _)
      | with_reducible refine stackFrame.trans ?_ (stackFrame_htmlParserFinishElementParsing _)


theorem stackFrame_ite_fst {α : Type} {p : Prop} [Decidable p] (c : htmlParserCtxt)
    (a b : htmlParserCtxt × α) (ha : stackFrame c a.1) (hb : stackFrame c b.1) :
    stackFrame c (if p then a else b).1 := by
  split_ifs
  · exact ha
  · exact hb

set_option maxHeartbeats 4000000 in
theorem stackFrame_htmlParseTryOrFinish_content (lim : xmlLimits) (terminate : Bool)
    (c : htmlParserCtxt) (avail : Nat) :
    stackFrame c (htmlParseTryOrFinish_content lim terminate c avail).1 := by
  unfold htmlParseTryOrFinish_content
  lift_lets
  intro v1
  clear_value v1
  intro v2
  clear_value v2
  intro v3
  have h3 : stackFrame c v3 := by
    simp only [v3]
    repeat' first
      | dsimp only
      | split_ifs
      | split
      | fail_if_no_progress with_reducible refine stackFrame_fields ?_ _ _ _ _ _ _ _ _ _ _ _ _ _ _ _ _ _ _ _ _ _ _ _ _ _
      | with_reducible refine stackFrame.trans ?_ (stackFrame_htmlCheckParagraph _)
      | with_reducible refine stackFrame.trans ?_ (stackFrame_htmlParseLookupSequence _ _ _ _ _ _)
      | with_reducible refine stackFrame.trans ?_ (stackFrame_htmlParseLookupCommentEnd _ _)
      | with_reducible refine stackFrame.trans ?_ (stackFrame_htmlParseScript _)
      | with_reducible refine stackFrame.trans ?_ (stackFrame_htmlParseComment _ _)
      | with_reducible refine stackFrame.trans ?_ (stackFrame_htmlParsePI _ _)
      | with_reducible refine stackFrame.trans ?_ (stackFrame_saxCallEnabled _ _ _)
      | with_reducible exact stackFrame_refl _
      | with_reducible assumption
  clear_value v3
  intro v4
  have h4 : stackFrame c v4 := by
    simp only [v4]
    repeat' first
      | dsimp only
      | split_ifs
      | split
      | fail_if_no_progress with_reducible refine stackFrame_fields ?_ _ _ _ _ _ _ _ _ _ _ _ _ _ _ _ _ _ _ _ _ _ _ _ _ _
      | with_reducible refine stackFrame.trans ?_ (stackFrame_htmlCheckParagraph _)
      | with_reducible refine stackFrame.trans ?_ (stackFrame_htmlParseLookupSequence _ _ _ _ _ _)
      | with_reducible refine stackFrame.trans ?_ (stackFrame_htmlParseLookupCommentEnd _ _)
      | with_reducible refine stackFrame.trans ?_ (stackFrame_htmlParseScript _)
      | with_reducible refine stackFrame.trans ?_ (stackFrame_htmlParseComment _ _)
      | with_reducible refine stackFrame.trans ?_ (stackFrame_htmlParsePI _ _)
      | with_reducible refine stackFrame.trans ?_ (stackFrame_saxCallEnabled _ _ _)
      | with_reducible exact stackFrame_refl _
      | with_reducible assumption
  clear_value v4
  intro v5
  have h5 : stackFrame c v5.1 := by
    simp only [v5]
    repeat' first
      | dsimp only
      | split_ifs
      | split
      | fail_if_no_progress with_reducible refine stackFrame_fields ?_ _ _ _ _ _ _ _ _ _ _ _ _ _ _ _ _ _ _ _ _ _ _ _ _ _
      | with_reducible refine stackFrame.trans ?_ (stackFrame_htmlCheckParagraph _)
      | with_reducible refine stackFrame.trans ?_ (stackFrame_htmlParseLookupSequence _ _ _ _ _ _)
      | with_reducible refine stackFrame.trans ?_ (stackFrame_htmlParseLookupCommentEnd _ _)
      | with_reducible refine stackFrame.trans ?_ (stackFrame_htmlParseScript _)
      | with_reducible refine stackFrame.trans ?_ (stackFrame_htmlParseComment _ _)
      | with_reducible refine stackFrame.trans ?_ (stackFrame_htmlParsePI _ _)
      | with_reducible refine stackFrame.trans ?_ (stackFrame_saxCallEnabled _ _ _)
      | with_reducible exact stackFrame_refl _
      | with_reducible assumption
  clear_value v5
  intro v6
  have h6 : stackFrame c v6 := by
    simp only [v6]
    repeat' first
      | dsimp only
      | split_ifs
      | split
      | fail_if_no_progress with_reducible refine stackFrame_fields ?_ _ _ _ _ _ _ _ _ _ _ _ _ _ _ _ _ _ _ _ _ _ _ _ _ _
      | with_reducible refine stackFrame.trans ?_ (stackFrame_htmlCheckParagraph _)
      | with_reducible refine stackFrame.trans ?_ (stackFrame_htmlParseLookupSequence _ _ _ _ _ _)
      | with_reducible refine stackFrame.trans ?_ (stackFrame_htmlParseLookupCommentEnd _ _)
      | with_reducible refine stackFrame.trans ?_ (stackFrame_htmlParseScript _)
      | with_reducible refine stackFrame.trans ?_ (stackFrame_htmlParseComment _ _)
      | with_reducible refine stackFrame.trans ?_ (stackFrame_htmlParsePI _ _)
      | with_reducible refine stackFrame.trans ?_ (stackFrame_saxCallEnabled _ _ _)
      | with_reducible exact stackFrame_refl _
      | with_reducible assumption
  clear_value v6
  intro v7
  have h7 : stackFrame c v7.1 := by
    simp only [v7]
    repeat' first
      | dsimp only
      | split_ifs
      | split
      | fail_if_no_progress with_reducible refine stackFrame_fields ?_ _ _ _ _ _ _ _ _ _ _ _ _ _ _ _ _ _ _ _ _ _ _ _ _ _
      | with_reducible refine stackFrame.trans ?_ (stackFrame_htmlCheckParagraph _)
      | with_reducible refine stackFrame.trans ?_ (stackFrame_htmlParseLookupSequence _ _ _ _ _ _)
      | with_reducible refine stackFrame.trans ?_ (stackFrame_htmlParseLookupCommentEnd _ _)
      | with_reducible refine stackFrame.trans ?_ (stackFrame_htmlParseScript _)
      | with_reducible refine stackFrame.trans ?_ (stackFrame_htmlParseComment _ _)
      | with_reducible refine stackFrame.trans ?_ (stackFrame_htmlParsePI _ _)
      | with_reducible refine stackFrame.trans ?_ (stackFrame_saxCallEnabled _ _ _)
      | with_reducible exact stackFrame_refl _
      | with_reducible assumption
  clear_value v7
  intro v8
  have h8 : stackFrame c v8 := by
    simp only [v8]
    repeat' first
      | dsimp only
      | split_ifs
      | split
      | fail_if_no_progress with_reducible refine stackFrame_fields ?_ _ _ _ _ _ _ _ _ _ _ _ _ _ _ _ _ _ _ _ _ _ _ _ _ _
      | with_reducible refine stackFrame.trans ?_ (stackFrame_htmlCheckParagraph _)
      | with_reducible refine stackFrame.trans ?_ (stackFrame_htmlParseLookupSequence _ _ _ _ _ _)
      | with_reducible refine stackFrame.trans ?_ (stackFrame_htmlParseLookupCommentEnd _ _)
      | with_reducible refine stackFrame.trans ?_ (stackFrame_htmlParseScript _)
      | with_reducible refine stackFrame.trans ?_ (stackFrame_htmlParseComment _ _)
      | with_reducible refine stackFrame.trans ?_ (stackFrame_htmlParsePI _ _)
      | with_reducible refine stackFrame.trans ?_ (stackFrame_saxCallEnabled _ _ _)
      | with_reducible exact stackFrame_refl _
      | with_reducible assumption
  clear_value v8
  intro v9
  have h9 : stackFrame c v9.1 := by
    simp only [v9]
    repeat' first
      | dsimp only
      | split_ifs
      | split
      | fail_if_no_progress with_reducible refine stackFrame_fields ?_ _ _ _ _ _ _ _ _ _ _ _ _ _ _ _ _ _ _ _ _ _ _ _ _ _
      | with_reducible refine stackFrame.trans ?_ (stackFrame_htmlCheckParagraph _)
      | with_reducible refine stackFrame.trans ?_ (stackFrame_htmlParseLookupSequence _ _ _ _ _ _)
      | with_reducible refine stackFrame.trans ?_ (stackFrame_htmlParseLookupCommentEnd _ _)
      | with_reducible refine stackFrame.trans ?_ (stackFrame_htmlParseScript _)
      | with_reducible refine stackFrame.trans ?_ (stackFrame_htmlParseComment _ _)
      | with_reducible refine stackFrame.trans ?_ (stackFrame_htmlParsePI _ _)
      | with_reducible refine stackFrame.trans ?_ (stackFrame_saxCallEnabled _ _ _)
      | with_reducible exact stackFrame_refl _
      | with_reducible assumption
  clear_value v9
  intro v10
  have h10 : stackFrame c v10.1 := by
    simp only [v10]
    repeat' first
      | dsimp only
      | split_ifs
      | split
      | fail_if_no_progress with_reducible refine stackFrame_fields ?_ _ _ _ _ _ _ _ _ _ _ _ _ _ _ _ _ _ _ _ _ _ _ _ _ _
      | with_reducible refine stackFrame.trans ?_ (stackFrame_htmlCheckParagraph _)
      | with_reducible refine stackFrame.trans ?_ (stackFrame_htmlParseLookupSequence _ _ _ _ _ _)
      | with_reducible refine stackFrame.trans ?_ (stackFrame_htmlParseLookupCommentEnd _ _)
      | with_reducible refine stackFrame.trans ?_ (stackFrame_htmlParseScript _)
      | with_reducible refine stackFrame.trans ?_ (stackFrame_htmlParseComment _ _)
      | with_reducible refine stackFrame.trans ?_ (stackFrame_htmlParsePI _ _)
      | with_reducible refine stackFrame.trans ?_ (stackFrame_saxCallEnabled _ _ _)
      | with_reducible exact stackFrame_refl _
      | with_reducible assumption
  clear_value v10
  intro v11
  have h11 : stackFrame c v11.1 := by
    simp only [v11]
    repeat' first
      | dsimp only
      | split_ifs
      | split
      | fail_if_no_progress with_reducible refine stackFrame_fields ?_ _ _ _ _ _ _ _ _ _ _ _ _ _ _ _ _ _ _ _ _ _ _ _ _ _
      | with_reducible refine stackFrame.trans ?_ (stackFrame_htmlCheckParagraph _)
      | with_reducible refine stackFrame.trans ?_ (stackFrame_htmlParseLookupSequence _ _ _ _ _ _)
      | with_reducible refine stackFrame.trans ?_ (stackFrame_htmlParseLookupCommentEnd _ _)
      | with_reducible refine stackFrame.trans ?_ (stackFrame_htmlParseScript _)
      | with_reducible refine stackFrame.trans ?_ (stackFrame_htmlParseComment _ _)
      | with_reducible refine stackFrame.trans ?_ (stackFrame_htmlParsePI _ _)
      | with_reducible refine stackFrame.trans ?_ (stackFrame_saxCallEnabled _ _ _)
      | with_reducible exact stackFrame_refl _
      | with_reducible assumption
  clear_value v11
  intro v12
  have h12 : stackFrame c v12.1 := by
    simp only [v12]
    repeat' first
      | dsimp only
      | split_ifs
      | split
      | fail_if_no_progress with_reducible refine stackFrame_fields ?_ _ _ _ _ _ _ _ _ _ _ _ _ _ _ _ _ _ _ _ _ _ _ _ _ _
      | with_reducible refine stackFrame.trans ?_ (stackFrame_htmlCheckParagraph _)
      | with_reducible refine stackFrame.trans ?_ (stackFrame_htmlParseLookupSequence _ _ _ _ _ _)
      | with_reducible refine stackFrame.trans ?_ (stackFrame_htmlParseLookupCommentEnd _ _)
      | with_reducible refine stackFrame.trans ?_ (stackFrame_htmlParseScript _)
      | with_reducible refine stackFrame.trans ?_ (stackFrame_htmlParseComment _ _)
      | with_reducible refine stackFrame.trans ?_ (stackFrame_htmlParsePI _ _)
      | with_reducible refine stackFrame.trans ?_ (stackFrame_saxCallEnabled _ _ _)
      | with_reducible exact stackFrame_refl _
      | with_reducible assumption
  clear_value v12
  intro v13
  have h13 : stackFrame c v13 := by
    simp only [v13]
    repeat' first
      | dsimp only
      | split_ifs
      | split
      | fail_if_no_progress with_reducible refine stackFrame_fields ?_ _ _ _ _ _ _ _ _ _ _ _ _ _ _ _ _ _ _ _ _ _ _ _ _ _
      | with_reducible refine stackFrame.trans ?_ (stackFrame_htmlCheckParagraph _)
      | with_reducible refine stackFrame.trans ?_ (stackFrame_htmlParseLookupSequence _ _ _ _ _ _)
      | with_reducible refine stackFrame.trans ?_ (stackFrame_htmlParseLookupCommentEnd _ _)
      | with_reducible refine stackFrame.trans ?_ (stackFrame_htmlParseScript _)
      | with_reducible refine stackFrame.trans ?_ (stackFrame_htmlParseComment _ _)
      | with_reducible refine stackFrame.trans ?_ (stackFrame_htmlParsePI _ _)
      | with_reducible refine stackFrame.trans ?_ (stackFrame_saxCallEnabled _ _ _)
      | with_reducible exact stackFrame_refl _
      | with_reducible assumption
  clear_value v13
  intro v14
  have h14 : stackFrame c v14.1 := by
    simp only [v14]
    repeat' first
      | dsimp only
      | split_ifs
      | split
      | fail_if_no_progress with_reducible refine stackFrame_fields ?_ _ _ _ _ _ _ _ _ _ _ _ _ _ _ _ _ _ _ _ _ _ _ _ _ _
      | with_reducible refine stackFrame.trans ?_ (stackFrame_htmlCheckParagraph _)
      | with_reducible refine stackFrame.trans ?_ (stackFrame_htmlParseLookupSequence _ _ _ _ _ _)
      | with_reducible refine stackFrame.trans ?_ (stackFrame_htmlParseLookupCommentEnd _ _)
      | with_reducible refine stackFrame.trans ?_ (stackFrame_htmlParseScript _)
      | with_reducible refine stackFrame.trans ?_ (stackFrame_htmlParseComment _ _)
      | with_reducible refine stackFrame.trans ?_ (stackFrame_htmlParsePI _ _)
      | with_reducible refine stackFrame.trans ?_ (stackFrame_saxCallEnabled _ _ _)
      | with_reducible exact stackFrame_refl _
      | with_reducible assumption
  clear_value v14
  intro v15
  have h15 : stackFrame c v15.1 := by
    simp only [v15]
    repeat' first
      | dsimp only
      | split_ifs
      | split
      | fail_if_no_progress with_reducible refine stackFrame_fields ?_ _ _ _ _ _ _ _ _ _ _ _ _ _ _ _ _ _ _ _ _ _ _ _ _ _
      | with_reducible refine stackFrame.trans ?_ (stackFrame_htmlCheckParagraph _)
      | with_reducible refine stackFrame.trans ?_ (stackFrame_htmlParseLookupSequence _ _ _ _ _ _)
      | with_reducible refine stackFrame.trans ?_ (stackFrame_htmlParseLookupCommentEnd _ _)
      | with_reducible refine stackFrame.trans ?_ (stackFrame_htmlParseScript _)
      | with_reducible refine stackFrame.trans ?_ (stackFrame_htmlParseComment _ _)
      | with_reducible refine stackFrame.trans ?_ (stackFrame_htmlParsePI _ _)
      | with_reducible refine stackFrame.trans ?_ (stackFrame_saxCallEnabled _ _ _)
      | with_reducible exact stackFrame_refl _
      | with_reducible assumption
  clear_value v15
  intro v16
  have h16 : stackFrame c v16 := by
    simp only [v16]
    repeat' first
      | dsimp only
      | split_ifs
      | split
      | fail_if_no_progress with_reducible refine stackFrame_fields ?_ _ _ _ _ _ _ _ _ _ _ _ _ _ _ _ _ _ _ _ _ _ _ _ _ _
      | with_reducible refine stackFrame.trans ?_ (stackFrame_htmlCheckParagraph _)
      | with_reducible refine stackFrame.trans ?_ (stackFrame_htmlParseLookupSequence _ _ _ _ _ _)
      | with_reducible refine stackFrame.trans ?_ (stackFrame_htmlParseLookupCommentEnd _ _)
      | with_reducible refine stackFrame.trans ?_ (stackFrame_htmlParseScript _)
      | with_reducible refine stackFrame.trans ?_ (stackFrame_htmlParseComment _ _)
      | with_reducible refine stackFrame.trans ?_ (stackFrame_htmlParsePI _ _)
      | with_reducible refine stackFrame.trans ?_ (stackFrame_saxCallEnabled _ _ _)
      | with_reducible exact stackFrame_refl _
      | with_reducible assumption
  clear_value v16
  intro v17
  have h17 : stackFrame c v17 := by
    simp only [v17]
    repeat' first
      | dsimp only
      | split_ifs
      | split
      | fail_if_no_progress with_reducible refine stackFrame_fields ?_ _ _ _ _ _ _ _ _ _ _ _ _ _ _ _ _ _ _ _ _ _ _ _ _ _
      | with_reducible refine stackFrame.trans ?_ (stackFrame_htmlCheckParagraph _)
      | with_reducible refine stackFrame.trans ?_ (stackFrame_htmlParseLookupSequence _ _ _ _ _ _)
      | with_reducible refine stackFrame.trans ?_ (stackFrame_htmlParseLookupCommentEnd _ _)
      | with_reducible refine stackFrame.trans ?_ (stackFrame_htmlParseScript _)
      | with_reducible refine stackFrame.trans ?_ (stackFrame_htmlParseComment _ _)
      | with_reducible refine stackFrame.trans ?_ (stackFrame_htmlParsePI _ _)
      | with_reducible refine stackFrame.trans ?_ (stackFrame_saxCallEnabled _ _ _)
      | with_reducible exact stackFrame_refl _
      | with_reducible assumption
  clear_value v17
  intro v18
  have h18 : stackFrame c v18.1 := by
    simp only [v18]
    repeat' first
      | dsimp only
      | split_ifs
      | split
      | fail_if_no_progress with_reducible refine stackFrame_fields ?_ _ _ _ _ _ _ _ _ _ _ _ _ _ _ _ _ _ _ _ _ _ _ _ _ _
      | with_reducible refine stackFrame.trans ?_ (stackFrame_htmlCheckParagraph _)
      | with_reducible refine stackFrame.trans ?_ (stackFrame_htmlParseLookupSequence _ _ _ _ _ _)
      | with_reducible refine stackFrame.trans ?_ (stackFrame_htmlParseLookupCommentEnd _ _)
      | with_reducible refine stackFrame.trans ?_ (stackFrame_htmlParseScript _)
      | with_reducible refine stackFrame.trans ?_ (stackFrame_htmlParseComment _ _)
      | with_reducible refine stackFrame.trans ?_ (stackFrame_htmlParsePI _ _)
      | with_reducible refine stackFrame.trans ?_ (stackFrame_saxCallEnabled _ _ _)
      | with_reducible exact stackFrame_refl _
      | with_reducible assumption
  clear_value v18
  intro v19
  have h19 : stackFrame c v19.1 := by
    simp only [v19]
    repeat' first
      | dsimp only
      | split_ifs
      | split
      | fail_if_no_progress with_reducible refine stackFrame_fields ?_ _ _ _ _ _ _ _ _ _ _ _ _ _ _ _ _ _ _ _ _ _ _ _ _ _
      | with_reducible refine stackFrame.trans ?_ (stackFrame_htmlCheckParagraph _)
      | with_reducible refine stackFrame.trans ?_ (stackFrame_htmlParseLookupSequence _ _ _ _ _ _)
      | with_reducible refine stackFrame.trans ?_ (stackFrame_htmlParseLookupCommentEnd _ _)
      | with_reducible refine stackFrame.trans ?_ (stackFrame_htmlParseScript _)
      | with_reducible refine stackFrame.trans ?_ (stackFrame_htmlParseComment _ _)
      | with_reducible refine stackFrame.trans ?_ (stackFrame_htmlParsePI _ _)
      | with_reducible refine stackFrame.trans ?_ (stackFrame_saxCallEnabled _ _ _)
      | with_reducible exact stackFrame_refl _
      | with_reducible assumption
  clear_value v19
  intro v20
  have h20 : stackFrame c v20 := by
    simp only [v20]
    repeat' first
      | dsimp only
      | split_ifs
      | split
      | fail_if_no_progress with_reducible refine stackFrame_fields ?_ _ _ _ _ _ _ _ _ _ _ _ _ _ _ _ _ _ _ _ _ _ _ _ _ _
      | with_reducible refine stackFrame.trans ?_ (stackFrame_htmlCheckParagraph _)
      | with_reducible refine stackFrame.trans ?_ (stackFrame_htmlParseLookupSequence _ _ _ _ _ _)
      | with_reducible refine stackFrame.trans ?_ (stackFrame_htmlParseLookupCommentEnd _ _)
      | with_reducible refine stackFrame.trans ?_ (stackFrame_htmlParseScript _)
      | with_reducible refine stackFrame.trans ?_ (stackFrame_htmlParseComment _ _)
      | with_reducible refine stackFrame.trans ?_ (stackFrame_htmlParsePI _ _)
      | with_reducible refine stackFrame.trans ?_ (stackFrame_saxCallEnabled _ _ _)
      | with_reducible exact stackFrame_refl _
      | with_reducible assumption
  clear_value v20
  intro v21
  have h21 : stackFrame c v21 := by
    simp only [v21]
    repeat' first
      | dsimp only
      | split_ifs
      | split
      | fail_if_no_progress with_reducible refine stackFrame_fields ?_ _ _ _ _ _ _ _ _ _ _ _ _ _ _ _ _ _ _ _ _ _ _ _ _ _
      | with_reducible refine stackFrame.trans ?_ (stackFrame_htmlCheckParagraph _)
      | with_reducible refine stackFrame.trans ?_ (stackFrame_htmlParseLookupSequence _ _ _ _ _ _)
      | with_reducible refine stackFrame.trans ?_ (stackFrame_htmlParseLookupCommentEnd _ _)
      | with_reducible refine stackFrame.trans ?_ (stackFrame_htmlParseScript _)
      | with_reducible refine stackFrame.trans ?_ (stackFrame_htmlParseComment _ _)
      | with_reducible refine stackFrame.trans ?_ (stackFrame_htmlParsePI _ _)
      | with_reducible refine stackFrame.trans ?_ (stackFrame_saxCallEnabled _ _ _)
      | with_reducible exact stackFrame_refl _
      | with_reducible assumption
  clear_value v21
  repeat' first
    | dsimp only
    | with_reducible refine stackFrame_ite_fst _ _ _ ?_ ?_
    | split_ifs
    | split
    | fail_if_no_progress with_reducible refine stackFrame_fields ?_ _ _ _ _ _ _ _ _ _ _ _ _ _ _ _ _ _ _ _ _ _ _ _ _ _
    | with_reducible refine stackFrame.trans ?_ (stackFrame_htmlParseTryOrFinish_text _ _ _ _)
    | with_reducible refine stackFrame.trans ?_ (stackFrame_htmlSkipBogusComment _)
    | with_reducible refine stackFrame.trans ?_ (stackFrame_htmlParseDocTypeDecl _ _)
    | with_reducible refine stackFrame.trans ?_ (stackFrame_htmlParseErr _ _ _ _ _)
    | with_reducible refine stackFrame.trans ?_ (stackFrame_xmlNextChar _)
    | with_reducible exact stackFrame_refl _
    | with_reducible assumption

set_option maxHeartbeats 4000000 in
theorem stackFrame_htmlParseTryOrFinish_body (lim : xmlLimits) (terminate : Bool)
    (c : htmlParserCtxt) :
    stackFrame c (htmlParseTryOrFinish_body lim terminate c).1 := by
  unfold htmlParseTryOrFinish_body
  lift_lets
  intro v1
  clear_value v1
  intro v2
  have h2 : stackFrame c v2 := by
    simp only [v2]
    repeat' first
      | dsimp only
      | split_ifs
      | split
      | fail_if_no_progress with_reducible refine stackFrame_fields ?_ _ _ _ _ _ _ _ _ _ _ _ _ _ _ _ _ _ _ _ _ _ _ _ _ _
      | with_reducible refine stackFrame.trans ?_ (stackFrame_htmlParseTryOrFinish_finish _)
      | with_reducible refine stackFrame.trans ?_ (stackFrame_xmlSwitchEncoding _ _)
      | with_reducible refine stackFrame.trans ?_ (stackFrame_htmlSkipBlankChars _ _)
      | with_reducible refine stackFrame.trans ?_ (stackFrame_saxCall _ _ _)
      | with_reducible refine stackFrame.trans ?_ (stackFrame_saxCallEnabled _ _ _)
      | with_reducible refine stackFrame.trans ?_ (stackFrame_htmlParseLookupSequence _ _ _ _ _ _)
      | with_reducible refine stackFrame.trans ?_ (stackFrame_htmlParseDocTypeDecl _ _)
      | with_reducible refine stackFrame.trans ?_ (stackFrame_htmlParseEndTag _ _)
      | with_reducible refine stackFrame.trans ?_ (stackFrame_htmlParseErr _ _ _ _ _)
      | with_reducible exact stackFrame_refl _
      | with_reducible assumption
  clear_value v2
  intro v3
  have h3 : stackFrame c v3 := by
    simp only [v3]
    repeat' first
      | dsimp only
      | split_ifs
      | split
      | fail_if_no_progress with_reducible refine stackFrame_fields ?_ _ _ _ _ _ _ _ _ _ _ _ _ _ _ _ _ _ _ _ _ _ _ _ _ _
      | with_reducible refine stackFrame.trans ?_ (stackFrame_htmlParseTryOrFinish_finish _)
      | with_reducible refine stackFrame.trans ?_ (stackFrame_xmlSwitchEncoding _ _)
      | with_reducible refine stackFrame.trans ?_ (stackFrame_htmlSkipBlankChars _ _)
      | with_reducible refine stackFrame.trans ?_ (stackFrame_saxCall _ _ _)
      | with_reducible refine stackFrame.trans ?_ (stackFrame_saxCallEnabled _ _ _)
      | with_reducible refine stackFrame.trans ?_ (stackFrame_htmlParseLookupSequence _ _ _ _ _ _)
      | with_reducible refine stackFrame.trans ?_ (stackFrame_htmlParseDocTypeDecl _ _)
      | with_reducible refine stackFrame.trans ?_ (stackFrame_htmlParseEndTag _ _)
      | with_reducible refine stackFrame.trans ?_ (stackFrame_htmlParseErr _ _ _ _ _)
      | with_reducible exact stackFrame_refl _
      | with_reducible assumption
  clear_value v3
  intro v4
  have h4 : stackFrame c v4 := by
    simp only [v4]
    repeat' first
      | dsimp only
      | split_ifs
      | split
      | fail_if_no_progress with_reducible refine stackFrame_fields ?_ _ _ _ _ _ _ _ _ _ _ _ _ _ _ _ _ _ _ _ _ _ _ _ _ _
      | with_reducible refine stackFrame.trans ?_ (stackFrame_htmlParseTryOrFinish_finish _)
      | with_reducible refine stackFrame.trans ?_ (stackFrame_xmlSwitchEncoding _ _)
      | with_reducible refine stackFrame.trans ?_ (stackFrame_htmlSkipBlankChars _ _)
      | with_reducible refine stackFrame.trans ?_ (stackFrame_saxCall _ _ _)
      | with_reducible refine stackFrame.trans ?_ (stackFrame_saxCallEnabled _ _ _)
      | with_reducible refine stackFrame.trans ?_ (stackFrame_htmlParseLookupSequence _ _ _ _ _ _)
      | with_reducible refine stackFrame.trans ?_ (stackFrame_htmlParseDocTypeDecl _ _)
      | with_reducible refine stackFrame.trans ?_ (stackFrame_htmlParseEndTag _ _)
      | with_reducible refine stackFrame.trans ?_ (stackFrame_htmlParseErr _ _ _ _ _)
      | with_reducible exact stackFrame_refl _
      | with_reducible assumption
  clear_value v4
  intro v5
  clear_value v5
  intro v6
  have h6 : stackFrame c v6 := by
    simp only [v6]
    repeat' first
      | dsimp only
      | split_ifs
      | split
      | fail_if_no_progress with_reducible refine stackFrame_fields ?_ _ _ _ _ _ _ _ _ _ _ _ _ _ _ _ _ _ _ _ _ _ _ _ _ _
      | with_reducible refine stackFrame.trans ?_ (stackFrame_htmlParseTryOrFinish_finish _)
      | with_reducible refine stackFrame.trans ?_ (stackFrame_xmlSwitchEncoding _ _)
      | with_reducible refine stackFrame.trans ?_ (stackFrame_htmlSkipBlankChars _ _)
      | with_reducible refine stackFrame.trans ?_ (stackFrame_saxCall _ _ _)
      | with_reducible refine stackFrame.trans ?_ (stackFrame_saxCallEnabled _ _ _)
      | with_reducible refine stackFrame.trans ?_ (stackFrame_htmlParseLookupSequence _ _ _ _ _ _)
      | with_reducible refine stackFrame.trans ?_ (stackFrame_htmlParseDocTypeDecl _ _)
      | with_reducible refine stackFrame.trans ?_ (stackFrame_htmlParseEndTag _ _)
      | with_reducible refine stackFrame.trans ?_ (stackFrame_htmlParseErr _ _ _ _ _)
      | with_reducible exact stackFrame_refl _
      | with_reducible assumption
  clear_value v6
  intro v7
  have h7 : stackFrame c v7 := by
    simp only [v7]
    repeat' first
      | dsimp only
      | split_ifs
      | split
      | fail_if_no_progress with_reducible refine stackFrame_fields ?_ _ _ _ _ _ _ _ _ _ _ _ _ _ _ _ _ _ _ _ _ _ _ _ _ _
      | with_reducible refine stackFrame.trans ?_ (stackFrame_htmlParseTryOrFinish_finish _)
      | with_reducible refine stackFrame.trans ?_ (stackFrame_xmlSwitchEncoding _ _)
      | with_reducible refine stackFrame.trans ?_ (stackFrame_htmlSkipBlankChars _ _)
      | with_reducible refine stackFrame.trans ?_ (stackFrame_saxCall _ _ _)
      | with_reducible refine stackFrame.trans ?_ (stackFrame_saxCallEnabled _ _ _)
      | with_reducible refine stackFrame.trans ?_ (stackFrame_htmlParseLookupSequence _ _ _ _ _ _)
      | with_reducible refine stackFrame.trans ?_ (stackFrame_htmlParseDocTypeDecl _ _)
      | with_reducible refine stackFrame.trans ?_ (stackFrame_htmlParseEndTag _ _)
      | with_reducible refine stackFrame.trans ?_ (stackFrame_htmlParseErr _ _ _ _ _)
      | with_reducible exact stackFrame_refl _
      | with_reducible assumption
  clear_value v7
  intro v8
  have h8 : stackFrame c v8.1 := by
    simp only [v8]
    repeat' first
      | dsimp only
      | split_ifs
      | split
      | fail_if_no_progress with_reducible refine stackFrame_fields ?_ _ _ _ _ _ _ _ _ _ _ _ _ _ _ _ _ _ _ _ _ _ _ _ _ _
      | with_reducible refine stackFrame.trans ?_ (stackFrame_htmlParseTryOrFinish_finish _)
      | with_reducible refine stackFrame.trans ?_ (stackFrame_xmlSwitchEncoding _ _)
      | with_reducible refine stackFrame.trans ?_ (stackFrame_htmlSkipBlankChars _ _)
      | with_reducible refine stackFrame.trans ?_ (stackFrame_saxCall _ _ _)
      | with_reducible refine stackFrame.trans ?_ (stackFrame_saxCallEnabled _ _ _)
      | with_reducible refine stackFrame.trans ?_ (stackFrame_htmlParseLookupSequence _ _ _ _ _ _)
      | with_reducible refine stackFrame.trans ?_ (stackFrame_htmlParseDocTypeDecl _ _)
      | with_reducible refine stackFrame.trans ?_ (stackFrame_htmlParseEndTag _ _)
      | with_reducible refine stackFrame.trans ?_ (stackFrame_htmlParseErr _ _ _ _ _)
      | with_reducible exact stackFrame_refl _
      | with_reducible assumption
  clear_value v8
  intro v9
  have h9 : stackFrame c v9.1 := by
    simp only [v9]
    repeat' first
      | dsimp only
      | split_ifs
      | split
      | fail_if_no_progress with_reducible refine stackFrame_fields ?_ _ _ _ _ _ _ _ _ _ _ _ _ _ _ _ _ _ _ _ _ _ _ _ _ _
      | with_reducible refine stackFrame.trans ?_ (stackFrame_htmlParseTryOrFinish_finish _)
      | with_reducible refine stackFrame.trans ?_ (stackFrame_xmlSwitchEncoding _ _)
      | with_reducible refine stackFrame.trans ?_ (stackFrame_htmlSkipBlankChars _ _)
      | with_reducible refine stackFrame.trans ?_ (stackFrame_saxCall _ _ _)
      | with_reducible refine stackFrame.trans ?_ (stackFrame_saxCallEnabled _ _ _)
      | with_reducible refine stackFrame.trans ?_ (stackFrame_htmlParseLookupSequence _ _ _ _ _ _)
      | with_reducible refine stackFrame.trans ?_ (stackFrame_htmlParseDocTypeDecl _ _)
      | with_reducible refine stackFrame.trans ?_ (stackFrame_htmlParseEndTag _ _)
      | with_reducible refine stackFrame.trans ?_ (stackFrame_htmlParseErr _ _ _ _ _)
      | with_reducible exact stackFrame_refl _
      | with_reducible assumption
  clear_value v9
  intro v10
  have h10 : stackFrame c v10 := by
    simp only [v10]
    repeat' first
      | dsimp only
      | split_ifs
      | split
      | fail_if_no_progress with_reducible refine stackFrame_fields ?_ _ _ _ _ _ _ _ _ _ _ _ _ _ _ _ _ _ _ _ _ _ _ _ _ _
      | with_reducible refine stackFrame.trans ?_ (stackFrame_htmlParseTryOrFinish_finish _)
      | with_reducible refine stackFrame.trans ?_ (stackFrame_xmlSwitchEncoding _ _)
      | with_reducible refine stackFrame.trans ?_ (stackFrame_htmlSkipBlankChars _ _)
      | with_reducible refine stackFrame.trans ?_ (stackFrame_saxCall _ _ _)
      | with_reducible refine stackFrame.trans ?_ (stackFrame_saxCallEnabled _ _ _)
      | with_reducible refine stackFrame.trans ?_ (stackFrame_htmlParseLookupSequence _ _ _ _ _ _)
      | with_reducible refine stackFrame.trans ?_ (stackFrame_htmlParseDocTypeDecl _ _)
      | with_reducible refine stackFrame.trans ?_ (stackFrame_htmlParseEndTag _ _)
      | with_reducible refine stackFrame.trans ?_ (stackFrame_htmlParseErr _ _ _ _ _)
      | with_reducible exact stackFrame_refl _
      | with_reducible assumption
  clear_value v10
  intro v11
  have h11 : stackFrame c v11 := by
    simp only [v11]
    repeat' first
      | dsimp only
      | split_ifs
      | split
      | fail_if_no_progress with_reducible refine stackFrame_fields ?_ _ _ _ _ _ _ _ _ _ _ _ _ _ _ _ _ _ _ _ _ _ _ _ _ _
      | with_reducible refine stackFrame.trans ?_ (stackFrame_htmlParseTryOrFinish_finish _)
      | with_reducible refine stackFrame.trans ?_ (stackFrame_xmlSwitchEncoding _ _)
      | with_reducible refine stackFrame.trans ?_ (stackFrame_htmlSkipBlankChars _ _)
      | with_reducible refine stackFrame.trans ?_ (stackFrame_saxCall _ _ _)
      | with_reducible refine stackFrame.trans ?_ (stackFrame_saxCallEnabled _ _ _)
      | with_reducible refine stackFrame.trans ?_ (stackFrame_htmlParseLookupSequence _ _ _ _ _ _)
      | with_reducible refine stackFrame.trans ?_ (stackFrame_htmlParseDocTypeDecl _ _)
      | with_reducible refine stackFrame.trans ?_ (stackFrame_htmlParseEndTag _ _)
      | with_reducible refine stackFrame.trans ?_ (stackFrame_htmlParseErr _ _ _ _ _)
      | with_reducible exact stackFrame_refl _
      | with_reducible assumption
  clear_value v11
  intro v12
  clear_value v12
  intro v13
  clear_value v13
  intro v14
  clear_value v14
  intro v15
  have h15 : stackFrame c v15.1 := by
    simp only [v15]
    repeat' first
      | dsimp only
      | split_ifs
      | split
      | fail_if_no_progress with_reducible refine stackFrame_fields ?_ _ _ _ _ _ _ _ _ _ _ _ _ _ _ _ _ _ _ _ _ _ _ _ _ _
      | with_reducible refine stackFrame.trans ?_ (stackFrame_htmlParseTryOrFinish_finish _)
      | with_reducible refine stackFrame.trans ?_ (stackFrame_xmlSwitchEncoding _ _)
      | with_reducible refine stackFrame.trans ?_ (stackFrame_htmlSkipBlankChars _ _)
      | with_reducible refine stackFrame.trans ?_ (stackFrame_saxCall _ _ _)
      | with_reducible refine stackFrame.trans ?_ (stackFrame_saxCallEnabled _ _ _)
      | with_reducible refine stackFrame.trans ?_ (stackFrame_htmlParseLookupSequence _ _ _ _ _ _)
      | with_reducible refine stackFrame.trans ?_ (stackFrame_htmlParseDocTypeDecl _ _)
      | with_reducible refine stackFrame.trans ?_ (stackFrame_htmlParseEndTag _ _)
      | with_reducible refine stackFrame.trans ?_ (stackFrame_htmlParseErr _ _ _ _ _)
      | with_reducible exact stackFrame_refl _
      | with_reducible assumption
  clear_value v15
  intro v16
  have h16 : stackFrame c v16.1 := by
    simp only [v16]
    repeat' first
      | dsimp only
      | split_ifs
      | split
      | fail_if_no_progress with_reducible refine stackFrame_fields ?_ _ _ _ _ _ _ _ _ _ _ _ _ _ _ _ _ _ _ _ _ _ _ _ _ _
      | with_reducible refine stackFrame.trans ?_ (stackFrame_htmlParseTryOrFinish_finish _)
      | with_reducible refine stackFrame.trans ?_ (stackFrame_xmlSwitchEncoding _ _)
      | with_reducible refine stackFrame.trans ?_ (stackFrame_htmlSkipBlankChars _ _)
      | with_reducible refine stackFrame.trans ?_ (stackFrame_saxCall _ _ _)
      | with_reducible refine stackFrame.trans ?_ (stackFrame_saxCallEnabled _ _ _)
      | with_reducible refine stackFrame.trans ?_ (stackFrame_htmlParseLookupSequence _ _ _ _ _ _)
      | with_reducible refine stackFrame.trans ?_ (stackFrame_htmlParseDocTypeDecl _ _)
      | with_reducible refine stackFrame.trans ?_ (stackFrame_htmlParseEndTag _ _)
      | with_reducible refine stackFrame.trans ?_ (stackFrame_htmlParseErr _ _ _ _ _)
      | with_reducible exact stackFrame_refl _
      | with_reducible assumption
  clear_value v16
  intro v17
  have h17 : stackFrame c v17 := by
    simp only [v17]
    repeat' first
      | dsimp only
      | split_ifs
      | split
      | fail_if_no_progress with_reducible refine stackFrame_fields ?_ _ _ _ _ _ _ _ _ _ _ _ _ _ _ _ _ _ _ _ _ _ _ _ _ _
      | with_reducible refine stackFrame.trans ?_ (stackFrame_htmlParseTryOrFinish_finish _)
      | with_reducible refine stackFrame.trans ?_ (stackFrame_xmlSwitchEncoding _ _)
      | with_reducible refine stackFrame.trans ?_ (stackFrame_htmlSkipBlankChars _ _)
      | with_reducible refine stackFrame.trans ?_ (stackFrame_saxCall _ _ _)
      | with_reducible refine stackFrame.trans ?_ (stackFrame_saxCallEnabled _ _ _)
      | with_reducible refine stackFrame.trans ?_ (stackFrame_htmlParseLookupSequence _ _ _ _ _ _)
      | with_reducible refine stackFrame.trans ?_ (stackFrame_htmlParseDocTypeDecl _ _)
      | with_reducible refine stackFrame.trans ?_ (stackFrame_htmlParseEndTag _ _)
      | with_reducible refine stackFrame.trans ?_ (stackFrame_htmlParseErr _ _ _ _ _)
      | with_reducible exact stackFrame_refl _
      | with_reducible assumption
  clear_value v17
  intro v18
  clear_value v18
  intro v19
  clear_value v19
  intro v20
  clear_value v20
  intro v21
  clear_value v21
  intro v22
  have h22 : stackFrame c v22 := by
    simp only [v22]
    repeat' first
      | dsimp only
      | split_ifs
      | split
      | fail_if_no_progress with_reducible refine stackFrame_fields ?_ _ _ _ _ _ _ _ _ _ _ _ _ _ _ _ _ _ _ _ _ _ _ _ _ _
      | with_reducible refine stackFrame.trans ?_ (stackFrame_htmlParseTryOrFinish_finish _)
      | with_reducible refine stackFrame.trans ?_ (stackFrame_xmlSwitchEncoding _ _)
      | with_reducible refine stackFrame.trans ?_ (stackFrame_htmlSkipBlankChars _ _)
      | with_reducible refine stackFrame.trans ?_ (stackFrame_saxCall _ _ _)
      | with_reducible refine stackFrame.trans ?_ (stackFrame_saxCallEnabled _ _ _)
      | with_reducible refine stackFrame.trans ?_ (stackFrame_htmlParseLookupSequence _ _ _ _ _ _)
      | with_reducible refine stackFrame.trans ?_ (stackFrame_htmlParseDocTypeDecl _ _)
      | with_reducible refine stackFrame.trans ?_ (stackFrame_htmlParseEndTag _ _)
      | with_reducible refine stackFrame.trans ?_ (stackFrame_htmlParseErr _ _ _ _ _)
      | with_reducible exact stackFrame_refl _
      | with_reducible assumption
  clear_value v22
  intro v23
  clear_value v23
  intro v24
  have h24 : stackFrame c v24.1 := by
    simp only [v24]
    repeat' first
      | dsimp only
      | split_ifs
      | split
      | fail_if_no_progress with_reducible refine stackFrame_fields ?_ _ _ _ _ _ _ _ _ _ _ _ _ _ _ _ _ _ _ _ _ _ _ _ _ _
      | with_reducible refine stackFrame.trans ?_ (stackFrame_htmlParseTryOrFinish_finish _)
      | with_reducible refine stackFrame.trans ?_ (stackFrame_xmlSwitchEncoding _ _)
      | with_reducible refine stackFrame.trans ?_ (stackFrame_htmlSkipBlankChars _ _)
      | with_reducible refine stackFrame.trans ?_ (stackFrame_saxCall _ _ _)
      | with_reducible refine stackFrame.trans ?_ (stackFrame_saxCallEnabled _ _ _)
      | with_reducible refine stackFrame.trans ?_ (stackFrame_htmlParseLookupSequence _ _ _ _ _ _)
      | with_reducible refine stackFrame.trans ?_ (stackFrame_htmlParseDocTypeDecl _ _)
      | with_reducible refine stackFrame.trans ?_ (stackFrame_htmlParseEndTag _ _)
      | with_reducible refine stackFrame.trans ?_ (stackFrame_htmlParseErr _ _ _ _ _)
      | with_reducible exact stackFrame_refl _
      | with_reducible assumption
  clear_value v24
  intro v25
  have h25 : stackFrame c v25.1 := by
    simp only [v25]
    repeat' first
      | dsimp only
      | split_ifs
      | split
      | fail_if_no_progress with_reducible refine stackFrame_fields ?_ _ _ _ _ _ _ _ _ _ _ _ _ _ _ _ _ _ _ _ _ _ _ _ _ _
      | with_reducible refine stackFrame.trans ?_ (stackFrame_htmlParseTryOrFinish_finish _)
      | with_reducible refine stackFrame.trans ?_ (stackFrame_xmlSwitchEncoding _ _)
      | with_reducible refine stackFrame.trans ?_ (stackFrame_htmlSkipBlankChars _ _)
      | with_reducible refine stackFrame.trans ?_ (stackFrame_saxCall _ _ _)
      | with_reducible refine stackFrame.trans ?_ (stackFrame_saxCallEnabled _ _ _)
      | with_reducible refine stackFrame.trans ?_ (stackFrame_htmlParseLookupSequence _ _ _ _ _ _)
      | with_reducible refine stackFrame.trans ?_ (stackFrame_htmlParseDocTypeDecl _ _)
      | with_reducible refine stackFrame.trans ?_ (stackFrame_htmlParseEndTag _ _)
      | with_reducible refine stackFrame.trans ?_ (stackFrame_htmlParseErr _ _ _ _ _)
      | with_reducible exact stackFrame_refl _
      | with_reducible assumption
  clear_value v25
  intro v26
  have h26 : stackFrame c v26.1 := by
    simp only [v26]
    repeat' first
      | dsimp only
      | split_ifs
      | split
      | fail_if_no_progress with_reducible refine stackFrame_fields ?_ _ _ _ _ _ _ _ _ _ _ _ _ _ _ _ _ _ _ _ _ _ _ _ _ _
      | with_reducible refine stackFrame.trans ?_ (stackFrame_htmlParseTryOrFinish_finish _)
      | with_reducible refine stackFrame.trans ?_ (stackFrame_xmlSwitchEncoding _ _)
      | with_reducible refine stackFrame.trans ?_ (stackFrame_htmlSkipBlankChars _ _)
      | with_reducible refine stackFrame.trans ?_ (stackFrame_saxCall _ _ _)
      | with_reducible refine stackFrame.trans ?_ (stackFrame_saxCallEnabled _ _ _)
      | with_reducible refine stackFrame.trans ?_ (stackFrame_htmlParseLookupSequence _ _ _ _ _ _)
      | with_reducible refine stackFrame.trans ?_ (stackFrame_htmlParseDocTypeDecl _ _)
      | with_reducible refine stackFrame.trans ?_ (stackFrame_htmlParseEndTag _ _)
      | with_reducible refine stackFrame.trans ?_ (stackFrame_htmlParseErr _ _ _ _ _)
      | with_reducible exact stackFrame_refl _
      | with_reducible assumption
  clear_value v26
  intro v27
  have h27 : stackFrame c v27.1 := by
    simp only [v27]
    repeat' first
      | dsimp only
      | split_ifs
      | split
      | fail_if_no_progress with_reducible refine stackFrame_fields ?_ _ _ _ _ _ _ _ _ _ _ _ _ _ _ _ _ _ _ _ _ _ _ _ _ _
      | with_reducible refine stackFrame.trans ?_ (stackFrame_htmlParseTryOrFinish_finish _)
      | with_reducible refine stackFrame.trans ?_ (stackFrame_xmlSwitchEncoding _ _)
      | with_reducible refine stackFrame.trans ?_ (stackFrame_htmlSkipBlankChars _ _)
      | with_reducible refine stackFrame.trans ?_ (stackFrame_saxCall _ _ _)
      | with_reducible refine stackFrame.trans ?_ (stackFrame_saxCallEnabled _ _ _)
      | with_reducible refine stackFrame.trans ?_ (stackFrame_htmlParseLookupSequence _ _ _ _ _ _)
      | with_reducible refine stackFrame.trans ?_ (stackFrame_htmlParseDocTypeDecl _ _)
      | with_reducible refine stackFrame.trans ?_ (stackFrame_htmlParseEndTag _ _)
      | with_reducible refine stackFrame.trans ?_ (stackFrame_htmlParseErr _ _ _ _ _)
      | with_reducible exact stackFrame_refl _
      | with_reducible assumption
  clear_value v27
  intro v28
  have h28 : stackFrame c v28 := by
    simp only [v28]
    repeat' first
      | dsimp only
      | split_ifs
      | split
      | fail_if_no_progress with_reducible refine stackFrame_fields ?_ _ _ _ _ _ _ _ _ _ _ _ _ _ _ _ _ _ _ _ _ _ _ _ _ _
      | with_reducible refine stackFrame.trans ?_ (stackFrame_htmlParseTryOrFinish_finish _)
      | with_reducible refine stackFrame.trans ?_ (stackFrame_xmlSwitchEncoding _ _)
      | with_reducible refine stackFrame.trans ?_ (stackFrame_htmlSkipBlankChars _ _)
      | with_reducible refine stackFrame.trans ?_ (stackFrame_saxCall _ _ _)
      | with_reducible refine stackFrame.trans ?_ (stackFrame_saxCallEnabled _ _ _)
      | with_reducible refine stackFrame.trans ?_ (stackFrame_htmlParseLookupSequence _ _ _ _ _ _)
      | with_reducible refine stackFrame.trans ?_ (stackFrame_htmlParseDocTypeDecl _ _)
      | with_reducible refine stackFrame.trans ?_ (stackFrame_htmlParseEndTag _ _)
      | with_reducible refine stackFrame.trans ?_ (stackFrame_htmlParseErr _ _ _ _ _)
      | with_reducible exact stackFrame_refl _
      | with_reducible assumption
  clear_value v28
  intro v29
  have h29 : stackFrame c v29 := by
    simp only [v29]
    repeat' first
      | dsimp only
      | split_ifs
      | split
      | fail_if_no_progress with_reducible refine stackFrame_fields ?_ _ _ _ _ _ _ _ _ _ _ _ _ _ _ _ _ _ _ _ _ _ _ _ _ _
      | with_reducible refine stackFrame.trans ?_ (stackFrame_htmlParseTryOrFinish_finish _)
      | with_reducible refine stackFrame.trans ?_ (stackFrame_xmlSwitchEncoding _ _)
      | with_reducible refine stackFrame.trans ?_ (stackFrame_htmlSkipBlankChars _ _)
      | with_reducible refine stackFrame.trans ?_ (stackFrame_saxCall _ _ _)
      | with_reducible refine stackFrame.trans ?_ (stackFrame_saxCallEnabled _ _ _)
      | with_reducible refine stackFrame.trans ?_ (stackFrame_htmlParseLookupSequence _ _ _ _ _ _)
      | with_reducible refine stackFrame.trans ?_ (stackFrame_htmlParseDocTypeDecl _ _)
      | with_reducible refine stackFrame.trans ?_ (stackFrame_htmlParseEndTag _ _)
      | with_reducible refine stackFrame.trans ?_ (stackFrame_htmlParseErr _ _ _ _ _)
      | with_reducible exact stackFrame_refl _
      | with_reducible assumption
  clear_value v29
  by_cases ha : v1 < 1
  · rw [if_pos ha]
    exact h2
  rw [if_neg ha]
  by_cases hc : CUR v2 = 0
  · rw [if_pos hc]
    exact stackFrame.trans h2 (stackFrame_SKIP _ _)
  rw [if_neg hc]
  split <;>
    repeat' first
      | dsimp only
      | split_ifs
      | split
      | fail_if_no_progress with_reducible refine stackFrame_fields ?_ _ _ _ _ _ _ _ _ _ _ _ _ _ _ _ _ _ _ _ _ _ _ _ _ _
      | with_reducible refine stackFrame.trans ?_ (stackFrame_htmlParseTryOrFinish_misc _ _ _ _ _ _ _ (by assumption))
      | with_reducible refine stackFrame.trans ?_ (stackFrame_htmlParseTryOrFinish_content _ _ _ _)
      | with_reducible refine stackFrame.trans ?_ (stackFrame_htmlParseTryOrFinish_startTag _ _)
      | with_reducible refine stackFrame.trans ?_ (stackFrame_htmlParseCharData _)
      | with_reducible refine stackFrame.trans ?_ (stackFrame_saxCall _ _ _)
      | with_reducible exact stackFrame_refl _
      | with_reducible assumption

theorem stackFrame_htmlParseTryOrFinish_loop (lim : xmlLimits) (terminate : Bool) :
    ∀ (fuel : Nat) (c : htmlParserCtxt) (avail : Nat),
      stackFrame c (htmlParseTryOrFinish_loop lim terminate fuel c avail).1 := by
  intro fuel
  induction fuel with
  | zero => intro c avail; exact stackFrame_refl c
  | succ n ih =>
    intro c avail
    rw [htmlParseTryOrFinish_loop]
    have hb := stackFrame_htmlParseTryOrFinish_body lim terminate c
    repeat' first
      | dsimp only
      | split_ifs
      | split
      | fail_if_no_progress with_reducible refine stackFrame_fields ?_ _ _ _ _ _ _ _ _ _ _ _ _ _ _ _ _ _ _ _ _ _ _ _ _ _
      | with_reducible exact stackFrame.trans hb (ih _ _)
      | with_reducible exact stackFrame_refl _
      | with_reducible assumption
      | with_reducible refine stackFrame.trans ?_ (stackFrame_saxCall _ _ _)
      | with_reducible refine stackFrame.trans ?_ (stackFrame_saxCallEnabled _ _ _)
      | with_reducible refine stackFrame.trans ?_ (stackFrame_htmlnamePop _)
      | with_reducible refine stackFrame.trans ?_ (stackFrame_xmlNextChar _)
      | with_reducible refine stackFrame.trans ?_ (stackFrame_SKIP _ _)
      | with_reducible refine stackFrame.trans ?_ (stackFrame_NEXTL _ _)
      | with_reducible refine stackFrame.trans ?_ (stackFrame_htmlParseErr _ _ _ _ _)
      | with_reducible refine stackFrame.trans ?_ (stackFrame_htmlParseErrInt _ _ _ _)
      | with_reducible refine stackFrame.trans ?_ (stackFrame_htmlNodeInfoPush _)
      | with_reducible refine stackFrame.trans ?_ (stackFrame_htmlNodeInfoPop _)
      | with_reducible refine stackFrame.trans ?_ (stackFrame_nodePop _)
      | with_reducible refine stackFrame.trans ?_ (stackFrame_xmlSwitchEncoding _ _)
      | with_reducible refine stackFrame.trans ?_ (stackFrame_htmlCurrentChar _)
      | with_reducible refine stackFrame.trans ?_ (stackFrame_htmlSkipBlankChars _ _)
      | with_reducible refine stackFrame.trans ?_ (stackFrame_htmlParseName _ _)
      | with_reducible refine stackFrame.trans ?_ (stackFrame_htmlParseHTMLName _)
      | with_reducible refine stackFrame.trans ?_ (stackFrame_htmlParseCharRef _)
      | with_reducible refine stackFrame.trans ?_ (stackFrame_htmlParseEntityRef _ _)
      | with_reducible refine stackFrame.trans ?_ (stackFrame_htmlAutoClose _ _)
      | with_reducible refine stackFrame.trans ?_ (stackFrame_htmlAutoCloseOnEnd _)
      | with_reducible refine stackFrame.trans ?_ (stackFrame_htmlCheckParagraph _)
      | with_reducible refine stackFrame.trans ?_ (stackFrame_htmlParserFinishElementParsing _)

theorem stackFrame_htmlParseTryOrFinish (lim : xmlLimits) (c : htmlParserCtxt)
    (terminate : Bool) : stackFrame c (htmlParseTryOrFinish lim c terminate) := by
  unfold htmlParseTryOrFinish
  repeat' first
    | dsimp only
    | split_ifs
    | split
    | fail_if_no_progress with_reducible refine stackFrame_fields ?_ _ _ _ _ _ _ _ _ _ _ _ _ _ _ _ _ _ _ _ _ _ _ _ _ _
    | with_reducible refine stackFrame.trans ?_ (stackFrame_htmlParseTryOrFinish_finish _)
    | with_reducible refine stackFrame.trans ?_ (stackFrame_htmlParseTryOrFinish_loop _ _ _ _ _)
    | with_reducible exact stackFrame_refl _
    | with_reducible assumption
    | with_reducible refine stackFrame.trans ?_ (stackFrame_saxCall _ _ _)
    | with_reducible refine stackFrame.trans ?_ (stackFrame_saxCallEnabled _ _ _)
    | with_reducible refine stackFrame.trans ?_ (stackFrame_htmlnamePop _)
    | with_reducible refine stackFrame.trans ?_ (stackFrame_xmlNextChar _)
    | with_reducible refine stackFrame.trans ?_ (stackFrame_SKIP _ _)
    | with_reducible refine stackFrame.trans ?_ (stackFrame_NEXTL _ _)
    | with_reducible refine stackFrame.trans ?_ (stackFrame_htmlParseErr _ _ _ _ _)
    | with_reducible refine stackFrame.trans ?_ (stackFrame_htmlParseErrInt _ _ _ _)
    | with_reducible refine stackFrame.trans ?_ (stackFrame_htmlNodeInfoPush _)
    | with_reducible refine stackFrame.trans ?_ (stackFrame_htmlNodeInfoPop _)
    | with_reducible refine stackFrame.trans ?_ (stackFrame_nodePop _)
    | with_reducible refine stackFrame.trans ?_ (stackFrame_xmlSwitchEncoding _ _)
    | with_reducible refine stackFrame.trans ?_ (stackFrame_htmlCurrentChar _)
    | with_reducible refine stackFrame.trans ?_ (stackFrame_htmlSkipBlankChars _ _)
    | with_reducible refine stackFrame.trans ?_ (stackFrame_htmlParseName _ _)
    | with_reducible refine stackFrame.trans ?_ (stackFrame_htmlParseHTMLName _)
    | with_reducible refine stackFrame.trans ?_ (stackFrame_htmlParseCharRef _)
    | with_reducible refine stackFrame.trans ?_ (stackFrame_htmlParseEntityRef _ _)
    | with_reducible refine stackFrame.trans ?_ (stackFrame_htmlAutoClose _ _)
    | with_reducible refine stackFrame.trans ?_ (stackFrame_htmlAutoCloseOnEnd _)
    | with_reducible refine stackFrame.trans ?_ (stackFrame_htmlCheckParagraph _)
    | with_reducible refine stackFrame.trans ?_ (stackFrame_htmlParserFinishElementParsing _)

theorem stackFrame_xmlParserInputBufferPush (c : htmlParserCtxt) (chunk : List Nat) :
    stackFrame c (xmlParserInputBufferPush c chunk) :=
  stackFrame_keep rfl rfl

theorem stackFrame_htmlParseChunk (lim : xmlLimits) (c : htmlParserCtxt) (chunk : List Nat)
    (terminate : Bool) : stackFrame c (htmlParseChunk lim c chunk terminate) := by
  unfold htmlParseChunk
  repeat' first
    | dsimp only
    | split_ifs
    | split
    | fail_if_no_progress with_reducible refine stackFrame_fields ?_ _ _ _ _ _ _ _ _ _ _ _ _ _ _ _ _ _ _ _ _ _ _ _ _ _
    | with_reducible refine stackFrame.trans ?_ (stackFrame_htmlParseTryOrFinish _ _ _)
    | with_reducible exact stackFrame_xmlParserInputBufferPush _ _
    | with_reducible exact stackFrame_refl _
    | with_reducible assumption
    | with_reducible refine stackFrame.trans ?_ (stackFrame_saxCall _ _ _)
    | with_reducible refine stackFrame.trans ?_ (stackFrame_saxCallEnabled _ _ _)
    | with_reducible refine stackFrame.trans ?_ (stackFrame_htmlnamePop _)
    | with_reducible refine stackFrame.trans ?_ (stackFrame_xmlNextChar _)
    | with_reducible refine stackFrame.trans ?_ (stackFrame_SKIP _ _)
    | with_reducible refine stackFrame.trans ?_ (stackFrame_NEXTL _ _)
    | with_reducible refine stackFrame.trans ?_ (stackFrame_htmlParseErr _ _ _ _ _)
    | with_reducible refine stackFrame.trans ?_ (stackFrame_htmlParseErrInt _ _ _ _)
    | with_reducible refine stackFrame.trans ?_ (stackFrame_htmlNodeInfoPush _)
    | with_reducible refine stackFrame.trans ?_ (stackFrame_htmlNodeInfoPop _)
    | with_reducible refine stackFrame.trans ?_ (stackFrame_nodePop _)
    | with_reducible refine stackFrame.trans ?_ (stackFrame_xmlSwitchEncoding _ _)
    | with_reducible refine stackFrame.trans ?_ (stackFrame_htmlCurrentChar _)
    | with_reducible refine stackFrame.trans ?_ (stackFrame_htmlSkipBlankChars _ _)
    | with_reducible refine stackFrame.trans ?_ (stackFrame_htmlParseName _ _)
    | with_reducible refine stackFrame.trans ?_ (stackFrame_htmlParseHTMLName _)
    | with_reducible refine stackFrame.trans ?_ (stackFrame_htmlParseCharRef _)
    | with_reducible refine stackFrame.trans ?_ (stackFrame_htmlParseEntityRef _ _)
    | with_reducible refine stackFrame.trans ?_ (stackFrame_htmlAutoClose _ _)
    | with_reducible refine stackFrame.trans ?_ (stackFrame_htmlAutoCloseOnEnd _)
    | with_reducible refine stackFrame.trans ?_ (stackFrame_htmlCheckParagraph _)
    | with_reducible refine stackFrame.trans ?_ (stackFrame_htmlParserFinishElementParsing _)

theorem stackFrame_htmlParseChunks (lim : xmlLimits) :
    ∀ (chunks : List (List Nat)) (c : htmlParserCtxt),
      stackFrame c (htmlParseChunks lim c chunks)
  | [], c => stackFrame_refl c
  | [chunk], c => stackFrame_htmlParseChunk lim c chunk true
  | chunk :: b :: rest, c => by
    rw [htmlParseChunks]
    · exact stackFrame.trans (stackFrame_htmlParseChunk lim c chunk false)
        (stackFrame_htmlParseChunks lim (b :: rest) _)
    · simp


/-- C37: the shape of the stack of open elements. A context with an empty
stack, such as a freshly initialised one, has the shape `htmlStackShape`: html
nowhere but at the bottom (index 0 of `nameTab`), body at most once and, with
implied tags enabled, html at the bottom of a stack that is not empty. From a
context `ctxt` that has the shape, every function through which the parser
pushes or pops leads to a context that has it: `htmlnamePop`, the three
auto-close functions, `htmlCheckImplied`, `htmlCheckParagraph`,
`htmlParseStartTag`, `htmlParseEndTag`, `htmlParseElementInternal`, the content
loop, a whole `htmlParseDocument`, a call of `htmlParseChunk` and any sequence
of such calls. -/
theorem C37_stack_shape (lim : xmlLimits) (ctxt : htmlParserCtxt) (h : htmlStackOK ctxt) :
    (htmlStackOK ctxt ↔
        (bytes "html" ∉ ctxt.nameTab.dropLast) ∧
          (ctxt.nameTab.filter (fun n => n = bytes "body")).length ≤ 1 ∧
          (ctxt.noImplied = false → ctxt.nameTab ≠ [] →
            ctxt.nameTab.getLast? = some (bytes "html"))) ∧
      (∀ c : htmlParserCtxt, c.nameTab = [] → htmlStackOK c) ∧
      htmlStackOK (htmlnamePop ctxt).1 ∧
      (∀ t, htmlStackOK (htmlAutoClose ctxt t)) ∧
      (∀ t, htmlStackOK (htmlAutoCloseOnClose ctxt t)) ∧
      htmlStackOK (htmlAutoCloseOnEnd ctxt) ∧
      (∀ t, htmlStackOK (htmlCheckImplied ctxt t)) ∧
      htmlStackOK (htmlCheckParagraph ctxt).1 ∧
      htmlStackOK (htmlParseStartTag lim ctxt).1 ∧
      htmlStackOK (htmlParseEndTag lim ctxt).1 ∧
      htmlStackOK (htmlParseElementInternal lim ctxt) ∧
      htmlStackOK (htmlParseContentInternal lim ctxt) ∧
      htmlStackOK (htmlParseDocument lim ctxt).1 ∧
      (∀ chunk terminate, htmlStackOK (htmlParseChunk lim ctxt chunk terminate)) ∧
      (∀ chunks, htmlStackOK (htmlParseChunks lim ctxt chunks)) :=
  ⟨htmlStackShape_iff _ _,
    fun c hc => by unfold htmlStackOK; rw [hc]; exact htmlStackShape_nil _,
    (stackFrame_htmlnamePop ctxt).2 h,
    fun t => (stackFrame_htmlAutoClose ctxt t).2 h,
    fun t => (stackFrame_htmlAutoCloseOnClose ctxt t).2 h,
    (stackFrame_htmlAutoCloseOnEnd ctxt).2 h,
    fun t => (stackFrame_htmlCheckImplied ctxt t).2 h,
    (stackFrame_htmlCheckParagraph ctxt).2 h,
    (stackFrame_htmlParseStartTag lim ctxt).2 h,
    (stackFrame_htmlParseEndTag lim ctxt).2 h,
    (stackFrame_htmlParseElementInternal lim ctxt).2 h,
    (stackFrame_htmlParseContentInternal lim ctxt).2 h,
    (stackFrame_htmlParseDocument lim ctxt).2 h,
    fun chunk terminate => (stackFrame_htmlParseChunk lim ctxt chunk terminate).2 h,
    fun chunks => (stackFrame_htmlParseChunks lim chunks ctxt).2 h⟩

/-- Witness for C37: a fresh context, and the state it reaches over two chunks
that hold a misplaced html tag and a body tag. -/
theorem C37_stack_shape_witness :
    htmlStackOK (htmlNewSAXParserCtxt htmlSinkHandler) ∧
      htmlStackOK (htmlParseChunks xmlDefaultLimits (htmlNewSAXParserCtxt htmlSinkHandler)
        [bytes "<div><ht", bytes "ml><body><p>x"]) :=
  ⟨rfl, (C37_stack_shape xmlDefaultLimits (htmlNewSAXParserCtxt htmlSinkHandler) rfl).2.2.2.2.2.2.2.2.2.2.2.2.2.2
    [bytes "<div><ht", bytes "ml><body><p>x"]⟩

/-! ## Nesting round trip -/

/-! ### The scanner and the fields of the tree builder -/

theorem htmlTreeSet_CUR (c : htmlParserCtxt) (t : List (List Nat)) (e : List saxEvent)
    (h k : Nat) : CUR (htmlTreeSet c t e h k) = CUR c := rfl

theorem htmlTreeSet_NXT (c : htmlParserCtxt) (t : List (List Nat)) (e : List saxEvent)
    (h k : Nat) (i : Nat) : NXT (htmlTreeSet c t e h k) i = NXT c i := rfl

theorem htmlTreeSet_input (c : htmlParserCtxt) (t : List (List Nat)) (e : List saxEvent)
    (h k : Nat) : (htmlTreeSet c t e h k).input = c.input := rfl

theorem htmlTreeSet_stopped (c : htmlParserCtxt) (t : List (List Nat)) (e : List saxEvent)
    (h k : Nat) : PARSER_STOPPED (htmlTreeSet c t e h k) = PARSER_STOPPED c := rfl

theorem htmlTreeSet_htmlParseErr (c : htmlParserCtxt) (t : List (List Nat)) (e : List saxEvent)
    (h k : Nat) (er : xmlParserErrors) (m : String) (s1 s2 : Option (List Nat)) :
    htmlParseErr (htmlTreeSet c t e h k) er m s1 s2 = htmlTreeSet (htmlParseErr c er m s1 s2) t e h k :=
  rfl

theorem htmlTreeSet_htmlParseErrInt (c : htmlParserCtxt) (t : List (List Nat))
    (e : List saxEvent) (h k : Nat) (er : xmlParserErrors) (m : String) (v : Nat) :
    htmlParseErrInt (htmlTreeSet c t e h k) er m v = htmlTreeSet (htmlParseErrInt c er m v) t e h k :=
  rfl

theorem htmlTreeSet_SKIP (c : htmlParserCtxt) (t : List (List Nat)) (e : List saxEvent)
    (h k : Nat) (n : Nat) : SKIP (htmlTreeSet c t e h k) n = htmlTreeSet (SKIP c n) t e h k := rfl

theorem htmlTreeSet_NEXTL (c : htmlParserCtxt) (t : List (List Nat)) (e : List saxEvent)
    (h k : Nat) (l : Nat) : NEXTL (htmlTreeSet c t e h k) l = htmlTreeSet (NEXTL c l) t e h k := by
  unfold NEXTL
  rw [htmlTreeSet_CUR]
  split_ifs <;> rfl

theorem htmlTreeSet_xmlNextChar (c : htmlParserCtxt) (t : List (List Nat)) (e : List saxEvent)
    (h k : Nat) : xmlNextChar (htmlTreeSet c t e h k) = htmlTreeSet (xmlNextChar c) t e h k := by
  unfold xmlNextChar
  rw [htmlTreeSet_input]
  cases hin : c.input with
  | nil => rfl
  | cons b rest =>
    have he : (htmlTreeSet c t e h k).encodingError = c.encodingError := rfl
    simp only [htmlTreeSet_NXT, htmlTreeSet_input, he]
    by_cases hee : c.encodingError = false
    · simp only [hee, if_true, apply_ite (fun x => htmlTreeSet x t e h k)]
      rfl
    · simp only [hee, if_false, apply_ite (fun x => htmlTreeSet x t e h k)]
      rfl

theorem htmlTreeSet_htmlCurrentChar_encoding_error (c : htmlParserCtxt) (t : List (List Nat))
    (e : List saxEvent) (h k : Nat) :
    htmlCurrentChar_encoding_error (htmlTreeSet c t e h k) =
      (htmlTreeSet (htmlCurrentChar_encoding_error c).1 t e h k,
        (htmlCurrentChar_encoding_error c).2) := by
  unfold htmlCurrentChar_encoding_error
  simp only
  by_cases hh : c.hasEncoding = false
  · have h1 : (htmlEncodingError (htmlTreeSet c t e h k)).hasEncoding = false := hh
    have h2 : (htmlEncodingError c).hasEncoding = false := hh
    rw [if_pos h1, if_pos h2]
    rfl
  · have h1 : ¬ (htmlEncodingError (htmlTreeSet c t e h k)).hasEncoding = false := hh
    have h2 : ¬ (htmlEncodingError c).hasEncoding = false := hh
    rw [if_neg h1, if_neg h2]
    rfl

theorem htmlTreeSet_htmlCurrentChar_utf8 (c : htmlParserCtxt) (t : List (List Nat))
    (e : List saxEvent) (h k : Nat) :
    htmlCurrentChar_utf8 (htmlTreeSet c t e h k) =
      (htmlTreeSet (htmlCurrentChar_utf8 c).1 t e h k, (htmlCurrentChar_utf8 c).2) := by
  show htmlCurrentChar_utf8 (htmlTreeSet c t e h k) =
    (fun r : htmlParserCtxt × Nat × Nat => (htmlTreeSet r.1 t e h k, r.2)) (htmlCurrentChar_utf8 c)
  unfold htmlCurrentChar_utf8
  simp only [htmlTreeSet_htmlCurrentChar_encoding_error,
    apply_ite (fun r : htmlParserCtxt × Nat × Nat => (htmlTreeSet r.1 t e h k, r.2))]
  rfl

theorem htmlTreeSet_htmlCurrentChar_switch (c : htmlParserCtxt) (t : List (List Nat))
    (e : List saxEvent) (h k : Nat) :
    htmlCurrentChar_switch (htmlTreeSet c t e h k) =
      htmlTreeSet (htmlCurrentChar_switch c) t e h k := by
  unfold htmlCurrentChar_switch
  have hf : htmlFindEncoding (htmlTreeSet c t e h k) = htmlFindEncoding c := rfl
  rw [hf]
  cases htmlFindEncoding c <;> rfl

theorem htmlTreeSet_htmlCurrentChar (c : htmlParserCtxt) (t : List (List Nat))
    (e : List saxEvent) (h k : Nat) :
    htmlCurrentChar (htmlTreeSet c t e h k) =
      (htmlTreeSet (htmlCurrentChar c).1 t e h k, (htmlCurrentChar c).2) := by
  show htmlCurrentChar (htmlTreeSet c t e h k) =
    (fun r : htmlParserCtxt × Nat × Nat => (htmlTreeSet r.1 t e h k, r.2)) (htmlCurrentChar c)
  unfold htmlCurrentChar
  simp only [htmlTreeSet_htmlCurrentChar_switch, htmlTreeSet_htmlCurrentChar_utf8,
    apply_ite (fun r : htmlParserCtxt × Nat × Nat => (htmlTreeSet r.1 t e h k, r.2))]
  rfl

theorem htmlTreeSet_htmlSkipBlankChars_loop (lim : xmlLimits) (t : List (List Nat))
    (e : List saxEvent) (h k : Nat) :
    ∀ (fuel : Nat) (c : htmlParserCtxt) (res : Nat),
      htmlSkipBlankChars_loop lim fuel (htmlTreeSet c t e h k) res =
        (htmlTreeSet (htmlSkipBlankChars_loop lim fuel c res).1 t e h k,
          (htmlSkipBlankChars_loop lim fuel c res).2) := by
  intro fuel
  induction fuel with
  | zero => intro c res; rfl
  | succ n ih =>
    intro c res
    simp only [htmlSkipBlankChars_loop, htmlTreeSet_CUR]
    by_cases hb : IS_BLANK_CH (CUR c) = true
    · simp only [hb, if_true]
      by_cases hn : CUR c = 0x0a
      · simp only [hn, if_true]
        exact ih { c with line := c.line + 1, col := 1, input := c.input.drop 1 } _
      · simp only [hn, if_false]
        exact ih { c with col := c.col + 1, input := c.input.drop 1 } _
    · simp only [hb]
      rfl

theorem htmlTreeSet_htmlSkipBlankChars (lim : xmlLimits) (c : htmlParserCtxt)
    (t : List (List Nat)) (e : List saxEvent) (h k : Nat) :
    htmlSkipBlankChars lim (htmlTreeSet c t e h k) =
      (htmlTreeSet (htmlSkipBlankChars lim c).1 t e h k, (htmlSkipBlankChars lim c).2) :=
  htmlTreeSet_htmlSkipBlankChars_loop lim t e h k _ c 0

theorem htmlTreeSet_htmlParseHTMLName_loop (t : List (List Nat)) (e : List saxEvent)
    (h k : Nat) :
    ∀ (room : Nat) (c : htmlParserCtxt) (loc : List Nat),
      htmlParseHTMLName_loop room (htmlTreeSet c t e h k) loc =
        (htmlTreeSet (htmlParseHTMLName_loop room c loc).1 t e h k,
          (htmlParseHTMLName_loop room c loc).2) := by
  intro room
  induction room with
  | zero => intro c loc; rfl
  | succ n ih =>
    intro c loc
    simp only [htmlParseHTMLName_loop, htmlTreeSet_CUR, htmlTreeSet_xmlNextChar]
    split_ifs
    · exact ih _ _
    · rfl

theorem htmlTreeSet_htmlParseHTMLName (c : htmlParserCtxt) (t : List (List Nat))
    (e : List saxEvent) (h k : Nat) :
    htmlParseHTMLName (htmlTreeSet c t e h k) =
      (htmlTreeSet (htmlParseHTMLName c).1 t e h k, (htmlParseHTMLName c).2) := by
  unfold htmlParseHTMLName
  simp only [htmlTreeSet_CUR, htmlTreeSet_htmlParseHTMLName_loop]
  split_ifs <;> rfl

theorem htmlTreeSet_htmlParseNameComplex_loop (lim : xmlLimits) (maxLength : Nat)
    (t : List (List Nat)) (e : List saxEvent) (h k : Nat) :
    ∀ (fuel : Nat) (c : htmlParserCtxt) (acc : List Nat) (ch l : Nat),
      htmlParseNameComplex_loop lim maxLength fuel (htmlTreeSet c t e h k) acc ch l =
        (htmlTreeSet (htmlParseNameComplex_loop lim maxLength fuel c acc ch l).1 t e h k,
          (htmlParseNameComplex_loop lim maxLength fuel c acc ch l).2) := by
  intro fuel
  induction fuel with
  | zero => intro c acc ch l; rfl
  | succ n ih =>
    intro c acc ch l
    simp only [htmlParseNameComplex_loop, htmlTreeSet_input, htmlTreeSet_NEXTL,
      htmlTreeSet_htmlCurrentChar, htmlTreeSet_htmlParseErr]
    split_ifs
    · rfl
    · exact ih _ _ _ _
    · rfl

theorem htmlTreeSet_htmlParseNameComplex (lim : xmlLimits) (c : htmlParserCtxt)
    (t : List (List Nat)) (e : List saxEvent) (h k : Nat) :
    htmlParseNameComplex lim (htmlTreeSet c t e h k) =
      (htmlTreeSet (htmlParseNameComplex lim c).1 t e h k, (htmlParseNameComplex lim c).2) := by
  unfold htmlParseNameComplex
  have hh : (htmlTreeSet c t e h k).huge = c.huge := rfl
  simp only [htmlTreeSet_htmlCurrentChar, htmlTreeSet_input, hh,
    htmlTreeSet_htmlParseNameComplex_loop]
  split_ifs <;> rfl

theorem htmlTreeSet_htmlParseName (lim : xmlLimits) (c : htmlParserCtxt)
    (t : List (List Nat)) (e : List saxEvent) (h k : Nat) :
    htmlParseName lim (htmlTreeSet c t e h k) =
      (htmlTreeSet (htmlParseName lim c).1 t e h k, (htmlParseName lim c).2) := by
  unfold htmlParseName
  simp only [htmlTreeSet_CUR, htmlTreeSet_NXT, htmlTreeSet_input, htmlTreeSet_htmlParseNameComplex]
  split_ifs <;> rfl

theorem htmlTreeSet_htmlParseEntityRef (lim : xmlLimits) (c : htmlParserCtxt)
    (t : List (List Nat)) (e : List saxEvent) (h k : Nat) :
    htmlParseEntityRef lim (htmlTreeSet c t e h k) =
      (htmlTreeSet (htmlParseEntityRef lim c).1 t e h k, (htmlParseEntityRef lim c).2) := by
  unfold htmlParseEntityRef
  simp only [htmlTreeSet_CUR, htmlTreeSet_xmlNextChar, htmlTreeSet_htmlParseName,
    htmlTreeSet_htmlParseErr]
  generalize htmlParseName lim (xmlNextChar c) = r
  rcases r with ⟨r1, _ | name⟩
  · split_ifs <;> rfl
  · simp only
    split_ifs <;> rfl

theorem htmlTreeSet_htmlParseCharRef_hex_loop (t : List (List Nat)) (e : List saxEvent)
    (h k : Nat) :
    ∀ (fuel : Nat) (c : htmlParserCtxt) (val : Nat),
      htmlParseCharRef_hex_loop fuel (htmlTreeSet c t e h k) val =
        (htmlTreeSet (htmlParseCharRef_hex_loop fuel c val).1 t e h k,
          (htmlParseCharRef_hex_loop fuel c val).2) := by
  intro fuel
  induction fuel with
  | zero => intro c val; rfl
  | succ n ih =>
    intro c val
    simp only [htmlParseCharRef_hex_loop, htmlTreeSet_CUR, htmlTreeSet_xmlNextChar,
      htmlTreeSet_htmlParseErr]
    split_ifs <;> first
      | rfl
      | exact ih _ _

theorem htmlTreeSet_htmlParseCharRef_dec_loop (t : List (List Nat)) (e : List saxEvent)
    (h k : Nat) :
    ∀ (fuel : Nat) (c : htmlParserCtxt) (val : Nat),
      htmlParseCharRef_dec_loop fuel (htmlTreeSet c t e h k) val =
        (htmlTreeSet (htmlParseCharRef_dec_loop fuel c val).1 t e h k,
          (htmlParseCharRef_dec_loop fuel c val).2) := by
  intro fuel
  induction fuel with
  | zero => intro c val; rfl
  | succ n ih =>
    intro c val
    simp only [htmlParseCharRef_dec_loop, htmlTreeSet_CUR, htmlTreeSet_xmlNextChar,
      htmlTreeSet_htmlParseErr]
    split_ifs <;> first
      | rfl
      | exact ih _ _

theorem htmlTreeSet_htmlParseCharRef (c : htmlParserCtxt) (t : List (List Nat))
    (e : List saxEvent) (h k : Nat) :
    htmlParseCharRef (htmlTreeSet c t e h k) =
      (htmlTreeSet (htmlParseCharRef c).1 t e h k, (htmlParseCharRef c).2) := by
  show htmlParseCharRef (htmlTreeSet c t e h k) =
    (fun r : htmlParserCtxt × Nat => (htmlTreeSet r.1 t e h k, r.2)) (htmlParseCharRef c)
  unfold htmlParseCharRef
  simp only [htmlTreeSet_CUR, htmlTreeSet_NXT, htmlTreeSet_input, htmlTreeSet_SKIP,
    htmlTreeSet_htmlParseCharRef_hex_loop, htmlTreeSet_htmlParseCharRef_dec_loop,
    htmlTreeSet_htmlParseErr, htmlTreeSet_xmlNextChar]
  split_ifs <;> rfl

theorem htmlTreeSet_htmlParseHTMLAttribute_step (lim : xmlLimits) (c : htmlParserCtxt)
    (t : List (List Nat)) (e : List saxEvent) (h k : Nat) :
    htmlParseHTMLAttribute_step lim (htmlTreeSet c t e h k) =
      (htmlTreeSet (htmlParseHTMLAttribute_step lim c).1 t e h k,
        (htmlParseHTMLAttribute_step lim c).2) := by
  unfold htmlParseHTMLAttribute_step
  simp only [htmlTreeSet_CUR, htmlTreeSet_NXT, htmlTreeSet_htmlParseCharRef,
    htmlTreeSet_htmlParseEntityRef, htmlTreeSet_htmlCurrentChar, htmlTreeSet_NEXTL]
  split_ifs
  · rfl
  · cases (htmlParseEntityRef lim c).2.2 with
    | none => rfl
    | some name =>
      cases (htmlParseEntityRef lim c).2.1 <;> rfl
  · rfl

theorem htmlTreeSet_htmlParseHTMLAttribute_loop (lim : xmlLimits) (stop maxLength : Nat)
    (t : List (List Nat)) (e : List saxEvent) (h k : Nat) :
    ∀ (fuel : Nat) (c : htmlParserCtxt) (out : List Nat),
      htmlParseHTMLAttribute_loop lim stop maxLength fuel (htmlTreeSet c t e h k) out =
        (htmlTreeSet (htmlParseHTMLAttribute_loop lim stop maxLength fuel c out).1 t e h k,
          (htmlParseHTMLAttribute_loop lim stop maxLength fuel c out).2) := by
  intro fuel
  induction fuel with
  | zero => intro c out; rfl
  | succ n ih =>
    intro c out
    simp only [htmlParseHTMLAttribute_loop, htmlTreeSet_CUR, htmlTreeSet_stopped,
      htmlTreeSet_htmlParseHTMLAttribute_step, htmlTreeSet_htmlParseErr]
    split_ifs <;> first
      | rfl
      | exact ih _ _

theorem htmlTreeSet_htmlParseHTMLAttribute (lim : xmlLimits) (c : htmlParserCtxt) (stop : Nat)
    (t : List (List Nat)) (e : List saxEvent) (h k : Nat) :
    htmlParseHTMLAttribute lim (htmlTreeSet c t e h k) stop =
      (htmlTreeSet (htmlParseHTMLAttribute lim c stop).1 t e h k,
        (htmlParseHTMLAttribute lim c stop).2) :=
  htmlTreeSet_htmlParseHTMLAttribute_loop lim stop _ t e h k _ c []

theorem htmlTreeSet_htmlParseAttValue (lim : xmlLimits) (c : htmlParserCtxt)
    (t : List (List Nat)) (e : List saxEvent) (h k : Nat) :
    htmlParseAttValue lim (htmlTreeSet c t e h k) =
      (htmlTreeSet (htmlParseAttValue lim c).1 t e h k, (htmlParseAttValue lim c).2) := by
  unfold htmlParseAttValue
  simp only [htmlTreeSet_CUR, htmlTreeSet_xmlNextChar, htmlTreeSet_htmlParseHTMLAttribute,
    htmlTreeSet_htmlParseErr]
  split_ifs
  · rfl
  · rfl
  · rfl
  · rfl
  · cases (htmlParseHTMLAttribute lim c 0).2 <;> rfl

theorem htmlTreeSet_htmlParseAttribute (lim : xmlLimits) (c : htmlParserCtxt)
    (t : List (List Nat)) (e : List saxEvent) (h k : Nat) :
    htmlParseAttribute lim (htmlTreeSet c t e h k) =
      (htmlTreeSet (htmlParseAttribute lim c).1 t e h k, (htmlParseAttribute lim c).2) := by
  unfold htmlParseAttribute
  simp only [htmlTreeSet_htmlParseHTMLName, htmlTreeSet_htmlParseErr]
  cases (htmlParseHTMLName c).2 with
  | none => rfl
  | some name =>
    simp only [htmlTreeSet_htmlSkipBlankChars, htmlTreeSet_CUR, htmlTreeSet_xmlNextChar,
      htmlTreeSet_htmlParseAttValue]
    split_ifs <;> rfl

theorem htmlTreeSet_htmlParseStartTag_dumpAttr (t : List (List Nat)) (e : List saxEvent)
    (h k : Nat) :
    ∀ (fuel : Nat) (c : htmlParserCtxt),
      htmlParseStartTag_dumpAttr fuel (htmlTreeSet c t e h k) =
        htmlTreeSet (htmlParseStartTag_dumpAttr fuel c) t e h k := by
  intro fuel
  induction fuel with
  | zero => intro c; rfl
  | succ n ih =>
    intro c
    simp only [htmlParseStartTag_dumpAttr, htmlTreeSet_CUR, htmlTreeSet_NXT,
      htmlTreeSet_stopped, htmlTreeSet_xmlNextChar]
    split_ifs
    · exact ih _
    · rfl

theorem htmlTreeSet_htmlParseStartTag_atts (lim : xmlLimits) (t : List (List Nat))
    (e : List saxEvent) (h k : Nat) :
    ∀ (fuel : Nat) (c : htmlParserCtxt) (atts : List (List Nat × Option (List Nat))),
      htmlParseStartTag_atts lim fuel (htmlTreeSet c t e h k) atts =
        (htmlTreeSet (htmlParseStartTag_atts lim fuel c atts).1 t e h k,
          (htmlParseStartTag_atts lim fuel c atts).2) := by
  intro fuel
  induction fuel with
  | zero => intro c atts; rfl
  | succ n ih =>
    intro c atts
    simp only [htmlParseStartTag_atts, htmlTreeSet_CUR, htmlTreeSet_NXT, htmlTreeSet_stopped,
      htmlTreeSet_htmlParseAttribute]
    split_ifs
    · cases (htmlParseAttribute lim c).2.1 with
      | none =>
        simp only [htmlTreeSet_input, htmlTreeSet_htmlParseStartTag_dumpAttr,
          htmlTreeSet_htmlSkipBlankChars]
        exact ih _ _
      | some attname =>
        simp only [htmlTreeSet_htmlParseErr, htmlTreeSet_htmlSkipBlankChars]
        split_ifs <;> exact ih _ _
    · rfl

/-! ### The scanner and the input bound -/

theorem htmlInputBound_of_le {c c1 : htmlParserCtxt} (hi : c1.input.length ≤ c.input.length)
    (he : c1.hasEncoding = c.hasEncoding) : htmlInputBound c1 ≤ htmlInputBound c := by
  unfold htmlInputBound
  rw [he]
  split_ifs <;> omega

theorem htmlInputBound_htmlParseErr (c : htmlParserCtxt) (er : xmlParserErrors) (m : String)
    (s1 s2 : Option (List Nat)) :
    htmlInputBound (htmlParseErr c er m s1 s2) = htmlInputBound c := rfl

theorem htmlInputBound_htmlParseErrInt (c : htmlParserCtxt) (er : xmlParserErrors) (m : String)
    (v : Nat) : htmlInputBound (htmlParseErrInt c er m v) = htmlInputBound c := rfl

theorem htmlInputBound_SKIP (c : htmlParserCtxt) (n : Nat) :
    htmlInputBound (SKIP c n) ≤ htmlInputBound c :=
  htmlInputBound_of_le (by simp [SKIP]) rfl

theorem htmlInputBound_NEXTL_le (c : htmlParserCtxt) (l : Nat) :
    htmlInputBound (NEXTL c l) ≤ htmlInputBound c := by
  unfold NEXTL
  split_ifs <;> exact htmlInputBound_of_le (by simp) rfl

theorem htmlInputBound_xmlNextChar (c : htmlParserCtxt) :
    htmlInputBound (xmlNextChar c) ≤ htmlInputBound c := by
  unfold xmlNextChar
  cases hin : c.input with
  | nil => exact le_refl _
  | cons b rest =>
    simp only
    split_ifs <;> exact htmlInputBound_of_le (by simp [hin] <;> omega) rfl

theorem htmlInputBound_xmlNextChar_lt (c : htmlParserCtxt) (hne : c.input ≠ []) :
    htmlInputBound (xmlNextChar c) + 1 ≤ htmlInputBound c := by
  have key : ∀ c1 : htmlParserCtxt, c1.input.length + 1 ≤ c.input.length →
      c1.hasEncoding = c.hasEncoding → htmlInputBound c1 + 1 ≤ htmlInputBound c := by
    intro c1 hi he
    unfold htmlInputBound
    rw [he]
    split_ifs <;> omega
  unfold xmlNextChar
  cases hin : c.input with
  | nil => exact absurd hin hne
  | cons b rest =>
    simp only
    split_ifs <;> first
      | (exfalso; omega)
      | exact key _ (by simp [hin] <;> omega) rfl

theorem htmlInputBound_htmlCurrentChar (c : htmlParserCtxt) :
    htmlInputBound (htmlCurrentChar c).1 ≤ htmlInputBound c :=
  (htmlCurrentChar_spec c).2.2.1

theorem htmlInputBound_htmlSkipBlankChars_loop (lim : xmlLimits) :
    ∀ (fuel : Nat) (c : htmlParserCtxt) (res : Nat),
      htmlInputBound (htmlSkipBlankChars_loop lim fuel c res).1 ≤ htmlInputBound c := by
  intro fuel
  induction fuel with
  | zero => intro c res; exact le_refl _
  | succ n ih =>
    intro c res
    simp only [htmlSkipBlankChars_loop]
    by_cases hb : IS_BLANK_CH (CUR c) = true
    · simp only [hb, if_true]
      refine le_trans (ih _ _) ?_
      split_ifs <;> exact htmlInputBound_of_le (by simp) rfl
    · simp only [hb]
      exact le_refl _

theorem htmlInputBound_htmlSkipBlankChars (lim : xmlLimits) (c : htmlParserCtxt) :
    htmlInputBound (htmlSkipBlankChars lim c).1 ≤ htmlInputBound c :=
  htmlInputBound_htmlSkipBlankChars_loop lim _ c 0

theorem htmlInputBound_htmlParseHTMLName_loop :
    ∀ (room : Nat) (c : htmlParserCtxt) (loc : List Nat),
      htmlInputBound (htmlParseHTMLName_loop room c loc).1 ≤ htmlInputBound c := by
  intro room
  induction room with
  | zero => intro c loc; exact le_refl _
  | succ n ih =>
    intro c loc
    simp only [htmlParseHTMLName_loop]
    split_ifs
    · exact le_trans (ih _ _) (htmlInputBound_xmlNextChar c)
    · exact le_refl _

theorem htmlInputBound_htmlParseHTMLName (c : htmlParserCtxt) :
    htmlInputBound (htmlParseHTMLName c).1 ≤ htmlInputBound c := by
  unfold htmlParseHTMLName
  split_ifs
  · exact le_refl _
  · exact htmlInputBound_htmlParseHTMLName_loop _ c []

theorem htmlInputBound_htmlParseNameComplex_loop (lim : xmlLimits) (maxLength : Nat) :
    ∀ (fuel : Nat) (c : htmlParserCtxt) (acc : List Nat) (ch l : Nat),
      htmlInputBound (htmlParseNameComplex_loop lim maxLength fuel c acc ch l).1 ≤
        htmlInputBound c := by
  intro fuel
  induction fuel with
  | zero => intro c acc ch l; exact le_refl _
  | succ n ih =>
    intro c acc ch l
    simp only [htmlParseNameComplex_loop]
    split_ifs
    · exact le_refl _
    · exact le_trans (ih _ _ _ _)
        (le_trans (htmlInputBound_htmlCurrentChar _) (htmlInputBound_NEXTL_le c l))
    · exact le_refl _

theorem htmlInputBound_htmlParseNameComplex (lim : xmlLimits) (c : htmlParserCtxt) :
    htmlInputBound (htmlParseNameComplex lim c).1 ≤ htmlInputBound c := by
  unfold htmlParseNameComplex
  simp only
  split_ifs <;> first
    | exact htmlInputBound_htmlCurrentChar c
    | exact le_trans (htmlInputBound_htmlParseNameComplex_loop lim _ _ _ _ _ _)
        (htmlInputBound_htmlCurrentChar c)

theorem htmlInputBound_htmlParseName (lim : xmlLimits) (c : htmlParserCtxt) :
    htmlInputBound (htmlParseName lim c).1 ≤ htmlInputBound c := by
  unfold htmlParseName
  simp only
  split_ifs <;> first
    | exact le_refl _
    | exact htmlInputBound_htmlParseNameComplex lim c
    | exact htmlInputBound_of_le (by simp) rfl

theorem htmlInputBound_htmlParseEntityRef (lim : xmlLimits) (c : htmlParserCtxt) :
    htmlInputBound (htmlParseEntityRef lim c).1 ≤ htmlInputBound c := by
  have h1 := le_trans (htmlInputBound_htmlParseName lim (xmlNextChar c))
    (htmlInputBound_xmlNextChar c)
  unfold htmlParseEntityRef
  split_ifs
  · dsimp only
    split
    · exact h1
    · split_ifs <;> first
        | exact h1
        | exact le_trans (htmlInputBound_xmlNextChar _) h1
  · exact le_refl _

theorem htmlInputBound_htmlParseCharRef_hex_loop :
    ∀ (fuel : Nat) (c : htmlParserCtxt) (val : Nat),
      htmlInputBound (htmlParseCharRef_hex_loop fuel c val).1 ≤ htmlInputBound c := by
  intro fuel
  induction fuel with
  | zero => intro c val; exact le_refl _
  | succ n ih =>
    intro c val
    simp only [htmlParseCharRef_hex_loop]
    split_ifs <;> first
      | exact le_refl _
      | exact le_trans (ih _ _) (htmlInputBound_xmlNextChar c)

theorem htmlInputBound_htmlParseCharRef_dec_loop :
    ∀ (fuel : Nat) (c : htmlParserCtxt) (val : Nat),
      htmlInputBound (htmlParseCharRef_dec_loop fuel c val).1 ≤ htmlInputBound c := by
  intro fuel
  induction fuel with
  | zero => intro c val; exact le_refl _
  | succ n ih =>
    intro c val
    simp only [htmlParseCharRef_dec_loop]
    split_ifs <;> first
      | exact le_refl _
      | exact le_trans (ih _ _) (htmlInputBound_xmlNextChar c)

theorem htmlInputBound_htmlParseCharRef (c : htmlParserCtxt) :
    htmlInputBound (htmlParseCharRef c).1 ≤ htmlInputBound c := by
  have hx := le_trans (htmlInputBound_htmlParseCharRef_hex_loop (c.input.length + 1) (SKIP c 3) 0)
    (htmlInputBound_SKIP c 3)
  have hd := le_trans (htmlInputBound_htmlParseCharRef_dec_loop (c.input.length + 1) (SKIP c 2) 0)
    (htmlInputBound_SKIP c 2)
  unfold htmlParseCharRef
  simp only
  split_ifs <;> first
    | exact le_refl _
    | exact hx
    | exact hd
    | exact le_trans (htmlInputBound_xmlNextChar _) hx
    | exact le_trans (htmlInputBound_xmlNextChar _) hd

theorem htmlInputBound_htmlParseHTMLAttribute_step (lim : xmlLimits) (c : htmlParserCtxt) :
    htmlInputBound (htmlParseHTMLAttribute_step lim c).1 ≤ htmlInputBound c := by
  unfold htmlParseHTMLAttribute_step
  split_ifs
  · exact htmlInputBound_htmlParseCharRef c
  · dsimp only
    split
    · exact htmlInputBound_htmlParseEntityRef lim c
    · split <;> exact htmlInputBound_htmlParseEntityRef lim c
  · exact le_trans (htmlInputBound_NEXTL_le _ _) (htmlInputBound_htmlCurrentChar c)

theorem htmlInputBound_htmlParseHTMLAttribute_loop (lim : xmlLimits) (stop maxLength : Nat) :
    ∀ (fuel : Nat) (c : htmlParserCtxt) (out : List Nat),
      htmlInputBound (htmlParseHTMLAttribute_loop lim stop maxLength fuel c out).1 ≤
        htmlInputBound c := by
  intro fuel
  induction fuel with
  | zero => intro c out; exact le_refl _
  | succ n ih =>
    intro c out
    simp only [htmlParseHTMLAttribute_loop]
    split_ifs <;> first
      | exact le_refl _
      | exact htmlInputBound_htmlParseHTMLAttribute_step lim c
      | exact le_trans (ih _ _) (htmlInputBound_htmlParseHTMLAttribute_step lim c)

theorem htmlInputBound_htmlParseHTMLAttribute (lim : xmlLimits) (c : htmlParserCtxt)
    (stop : Nat) : htmlInputBound (htmlParseHTMLAttribute lim c stop).1 ≤ htmlInputBound c :=
  htmlInputBound_htmlParseHTMLAttribute_loop lim stop _ _ c []

theorem htmlInputBound_htmlParseAttValue (lim : xmlLimits) (c : htmlParserCtxt) :
    htmlInputBound (htmlParseAttValue lim c).1 ≤ htmlInputBound c := by
  have hq : ∀ stop, htmlInputBound (htmlParseHTMLAttribute lim (xmlNextChar c) stop).1 ≤
      htmlInputBound c := fun stop =>
    le_trans (htmlInputBound_htmlParseHTMLAttribute lim _ stop) (htmlInputBound_xmlNextChar c)
  unfold htmlParseAttValue
  split_ifs
  · dsimp only
    split_ifs
    · exact hq _
    · exact le_trans (htmlInputBound_xmlNextChar _) (hq _)
  · dsimp only
    split_ifs
    · exact hq _
    · exact le_trans (htmlInputBound_xmlNextChar _) (hq _)
  · dsimp only
    split
    · exact htmlInputBound_htmlParseHTMLAttribute lim c 0
    · exact htmlInputBound_htmlParseHTMLAttribute lim c 0

theorem htmlInputBound_htmlParseAttribute (lim : xmlLimits) (c : htmlParserCtxt) :
    htmlInputBound (htmlParseAttribute lim c).1 ≤ htmlInputBound c := by
  have h1 := htmlInputBound_htmlParseHTMLName c
  unfold htmlParseAttribute
  dsimp only
  split
  · exact h1
  · have h2 := le_trans (htmlInputBound_htmlSkipBlankChars lim _) h1
    split_ifs
    · exact le_trans (htmlInputBound_htmlParseAttValue lim _)
        (le_trans (htmlInputBound_htmlSkipBlankChars lim _)
          (le_trans (htmlInputBound_xmlNextChar _) h2))
    · exact h2

theorem htmlInputBound_htmlParseStartTag_dumpAttr :
    ∀ (fuel : Nat) (c : htmlParserCtxt),
      htmlInputBound (htmlParseStartTag_dumpAttr fuel c) ≤ htmlInputBound c := by
  intro fuel
  induction fuel with
  | zero => intro c; exact le_refl _
  | succ n ih =>
    intro c
    simp only [htmlParseStartTag_dumpAttr]
    split_ifs
    · exact le_trans (ih _) (htmlInputBound_xmlNextChar c)
    · exact le_refl _

theorem htmlInputBound_htmlParseStartTag_atts (lim : xmlLimits) :
    ∀ (fuel : Nat) (c : htmlParserCtxt) (atts : List (List Nat × Option (List Nat))),
      htmlInputBound (htmlParseStartTag_atts lim fuel c atts).1 ≤ htmlInputBound c := by
  intro fuel
  induction fuel with
  | zero => intro c atts; exact le_refl _
  | succ n ih =>
    intro c atts
    simp only [htmlParseStartTag_atts]
    split_ifs
    · split
      · split_ifs
        · exact le_trans (ih _ _) (le_trans (htmlInputBound_htmlSkipBlankChars lim _)
            (htmlInputBound_htmlParseAttribute lim c))
        · exact le_trans (ih _ _) (le_trans (htmlInputBound_htmlSkipBlankChars lim _)
            (htmlInputBound_htmlParseAttribute lim c))
      · exact le_trans (ih _ _) (le_trans (htmlInputBound_htmlSkipBlankChars lim _)
          (le_trans (htmlInputBound_htmlParseStartTag_dumpAttr _ _)
            (htmlInputBound_htmlParseAttribute lim c)))
    · exact le_refl _

/-! ### Implied elements -/

theorem htmlPushedHtml_push (c : htmlParserCtxt) (n : List Nat) :
    htmlnamePush c n =
      { c with html := htmlPushedHtml c.html n, nameTab := n :: c.nameTab } := by
  unfold htmlnamePush htmlPushedHtml
  by_cases h1 : c.html < 3 ∧ n = bytes "head"
  · have h2 : ¬ ((3 : Nat) < 10 ∧ n = bytes "body") := by
      rintro ⟨_, hb⟩
      rw [h1.2] at hb
      exact absurd hb (by decide)
    simp only [h1, and_self, if_true, h2, if_false]
    rfl
  · simp only [h1, if_false]
    by_cases h2 : c.html < 10 ∧ n = bytes "body"
    · simp only [h2, and_self, if_true]
    · simp only [h2, if_false]

theorem htmlImpliedNames_mem (noImplied : Bool) (h : Nat) (stack : List (List Nat))
    (n x : List Nat) (hx : x ∈ htmlImpliedNames noImplied h stack n) :
    x = bytes "html" ∨ x = bytes "head" ∨ x = bytes "body" := by
  have hroot : ∀ y ∈ (if stack = [] then [bytes "html"] else ([] : List (List Nat))),
      y = bytes "html" := by
    intro y hy
    split_ifs at hy
    · exact List.mem_singleton.mp hy
    · exact absurd hy (List.not_mem_nil _)
  unfold htmlImpliedNames at hx
  dsimp only at hx
  generalize (if stack = [] then [bytes "html"] else ([] : List (List Nat))) = root at hx hroot
  split_ifs at hx <;>
    first
    | exact absurd hx (List.not_mem_nil _)
    | exact Or.inl (hroot x hx)
    | (rcases List.mem_append.mp hx with h1 | h1
       · exact Or.inl (hroot x h1)
       · rw [List.mem_singleton.mp h1]
         simp)

/-- The result of `htmlCheckImplied` in terms of `htmlImpliedNames`. -/
theorem htmlCheckImplied_names (c : htmlParserCtxt) (hd : htmlSAXHandler) (n : List Nat)
    (hsax : c.sax = some hd) (hst : hd.startElement = true) :
    htmlCheckImplied c n =
      { c with
        nameTab := (htmlImpliedNames c.noImplied c.html c.nameTab n).reverse ++ c.nameTab,
        html := (htmlImpliedNames c.noImplied c.html c.nameTab n).foldl htmlPushedHtml c.html,
        events := c.events ++
          (htmlImpliedNames c.noImplied c.html c.nameTab n).map
            (fun x => saxEvent.startElement x []) } := by
  have push : ∀ (c1 : htmlParserCtxt) (x : List Nat), c1.sax = some hd →
      saxCall (htmlnamePush c1 x) (fun h => h.startElement) (saxEvent.startElement x []) =
        { c1 with html := htmlPushedHtml c1.html x, nameTab := x :: c1.nameTab,
                  events := c1.events ++ [saxEvent.startElement x []] } := by
    intro c1 x hs
    rw [htmlPushedHtml_push, saxCall_on _ hd _ _ (by simpa using hs) hst]
  unfold htmlCheckImplied htmlImpliedNames
  by_cases hni : c.noImplied = true
  · rw [if_pos hni, if_pos hni]
    simp
  · rw [if_neg hni, if_neg hni, if_neg (by decide)]
    by_cases hh : n = bytes "html"
    · rw [if_pos hh, if_pos hh]
      simp
    · rw [if_neg hh, if_neg hh]
      dsimp only
      rw [htmlCheckImplied_root c hd hsax hst]
      have hp : ∀ v : Nat, htmlPushedHtml v (bytes "html") = v := by
        intro v
        unfold htmlPushedHtml
        rw [if_neg (by rintro ⟨_, hb⟩; exact absurd hb (by decide)),
          if_neg (by rintro ⟨_, hb⟩; exact absurd hb (by decide))]
      have r1 : htmlImpliedRoot c.nameTab =
          (if c.nameTab = [] then [bytes "html"] else ([] : List (List Nat))).reverse ++
            c.nameTab := by
        unfold htmlImpliedRoot
        split_ifs with h0
        · simp [h0]
        · simp
      have r2 : htmlImpliedRootEvents c.nameTab =
          (if c.nameTab = [] then [bytes "html"] else ([] : List (List Nat))).map
            (fun x => saxEvent.startElement x []) := by
        unfold htmlImpliedRootEvents
        split_ifs <;> simp
      have r3 : (if c.nameTab = [] then [bytes "html"] else ([] : List (List Nat))).foldl
          htmlPushedHtml c.html = c.html := by
        split_ifs
        · simp [hp]
        · simp
      have r4 : ((if c.nameTab = [] then [bytes "html"] else
          ([] : List (List Nat))).reverse ++ c.nameTab).any
            (fun n => decide (n = bytes "body" ∨ n = bytes "head")) =
          c.nameTab.any (fun x => decide (x = bytes "body" ∨ x = bytes "head")) := by
        split_ifs with h0
        · simp [h0]
          decide
        · simp
      rw [r1, r2]
      generalize (if c.nameTab = [] then [bytes "html"] else ([] : List (List Nat))) = root
        at r3 r4 ⊢
      generalize hc1 : ({ c with
        nameTab := root.reverse ++ c.nameTab,
        events := c.events ++ root.map (fun x => saxEvent.startElement x []) } :
          htmlParserCtxt) = c1
      have f1 : c1.html = c.html := by rw [← hc1]
      have f2 : c1.sax = some hd := by rw [← hc1]; exact hsax
      have f3 : c1.nameNr = c.nameTab.length + root.length := by
        rw [← hc1]
        simp [htmlParserCtxt.nameNr]
        omega
      have f4 : c1.nameTab = root.reverse ++ c.nameTab := by rw [← hc1]
      by_cases hbh : n = bytes "body" ∨ n = bytes "head"
      · rw [if_pos hbh, if_pos hbh, ← hc1]
        simp [r3]
      · rw [if_neg hbh, if_neg hbh]
        by_cases hc : c.nameTab.length + root.length ≤ 1 ∧
            (n = bytes "script" ∨ n = bytes "style" ∨ n = bytes "meta" ∨
             n = bytes "link" ∨ n = bytes "title" ∨ n = bytes "base")
        · rw [if_pos (by rw [f3]; exact hc), if_pos hc, f1]
          by_cases h3 : c.html ≥ 3
          · rw [if_pos h3, if_pos h3, ← hc1]
            simp [r3]
          · rw [if_neg h3, if_neg h3, push c1 _ f2, ← hc1]
            simp [r3, List.foldl_append]
        · rw [if_neg (by rw [f3]; exact hc), if_neg hc]
          by_cases hf : n ≠ bytes "noframes" ∧ n ≠ bytes "frame" ∧ n ≠ bytes "frameset"
          · rw [if_pos hf, if_pos hf, f1]
            by_cases h10 : c.html ≥ 10
            · rw [if_pos h10, if_pos h10, ← hc1]
              simp [r3]
            · rw [if_neg h10, if_neg h10, f4, r4]
              by_cases hany : c.nameTab.any
                  (fun x => decide (x = bytes "body" ∨ x = bytes "head")) = true
              · rw [if_pos hany, if_pos hany, ← hc1]
                simp [r3]
              · rw [if_neg hany, if_neg hany, push c1 _ f2, ← hc1]
                simp [r3, List.foldl_append]
          · rw [if_neg hf, if_neg hf, ← hc1]
            simp [r3]

theorem htmlMisplacedCount_zero (c : htmlParserCtxt) (n : List Nat)
    (h : htmlMisplacedIn c.nameTab n = false) : htmlMisplacedCount c n = 0 := by
  unfold htmlMisplacedIn at h
  simp only [Bool.or_eq_false_iff, Bool.and_eq_false_iff, decide_eq_false_iff_not,
    Bool.not_eq_false', List.isEmpty_iff, decide_eq_true_eq, not_not, List.contains_eq_any_beq,
    List.any_eq_false, beq_iff_eq] at h
  obtain ⟨⟨h1, h2⟩, h3⟩ := h
  unfold htmlMisplacedCount htmlParserCtxt.nameNr
  by_cases e1 : n = bytes "html"
  · rcases h1 with h1 | h1
    · exact absurd e1 h1
    · simp [e1, h1]
  · rw [if_neg e1]
    by_cases e2 : n = bytes "head"
    · rcases h2 with h2 | h2
      · exact absurd e2 h2
      · simp [e2, h2]
    · rw [if_neg e2]
      by_cases e3 : n = bytes "body"
      · rcases h3 with h3 | h3
        · exact absurd e3 h3
        · rw [if_pos e3]
          simp only [List.length_eq_zero, List.filter_eq_nil_iff, decide_eq_true_eq]
          intro a ha hb
          exact h3 a ha hb.symm
      · rw [if_neg e3]

theorem htmlMirrors_implied (pre : List saxEvent) (hpre : ∀ e ∈ pre, htmlImpliedEvent e = true) :
    ∀ (es : List saxEvent) (ts : List htmlTagToken), htmlMirrors es ts = true →
      htmlMirrors (pre ++ es) ts = true := by
  induction pre with
  | nil => intro es ts h; exact h
  | cons e pre ih =>
    intro es ts h
    have he := hpre e (List.mem_cons_self _ _)
    have := ih (fun x hx => hpre x (List.mem_cons_of_mem _ hx)) es ts h
    cases ts with
    | nil => simp [htmlMirrors, he, this]
    | cons t ts => simp [htmlMirrors, he, this]

theorem htmlMirrors_cons (t : htmlTagToken) (es : List saxEvent) (ts : List htmlTagToken)
    (h : htmlMirrors es ts = true) : htmlMirrors (t.event :: es) (t :: ts) = true := by
  simp [htmlMirrors, h]

theorem htmlImpliedEvent_start (x : List Nat)
    (hx : x = bytes "html" ∨ x = bytes "head" ∨ x = bytes "body") :
    htmlImpliedEvent (saxEvent.startElement x []) = true := by
  rcases hx with h | h | h <;> subst h <;> decide

theorem htmlImpliedEvent_end (x : List Nat)
    (hx : x = bytes "html" ∨ x = bytes "head" ∨ x = bytes "body") :
    htmlImpliedEvent (saxEvent.endElement x) = true := by
  rcases hx with h | h | h <;> subst h <;> decide

/-! ### End tags -/

theorem htmlAutoCloseOnClose_loop_eq (name : List Nat) (below : List (List Nat))
    (hd : htmlSAXHandler) (hend : hd.endElement = true) :
    ∀ (above : List (List Nat)) (ctxt : htmlParserCtxt) (fuel : Nat),
      ctxt.nameTab = above ++ name :: below → name ∉ above → ctxt.sax = some hd →
      (∀ e ∈ above, ∀ i, htmlTagLookup (some e) = some i → i.endTag ≠ 3) →
      above.length ≤ fuel →
      htmlAutoCloseOnClose_loop name fuel ctxt =
        { ctxt with nameTab := name :: below,
                    events := ctxt.events ++ above.map saxEvent.endElement } := by
  intro above
  induction above with
  | nil =>
    intro ctxt fuel hs _ hsax _ _
    have hn : ctxt.name = some name := by simp [htmlParserCtxt.name, hs]
    have hs' : ctxt.nameTab = name :: below := hs
    cases fuel with
    | zero =>
      simp only [htmlAutoCloseOnClose_loop, List.map_nil, List.append_nil]
      rw [← hs']
    | succ n =>
      simp only [htmlAutoCloseOnClose_loop, hn, ne_eq, not_true_eq_false, if_false,
        List.map_nil, List.append_nil]
      rw [← hs']
  | cons e rest ih =>
    intro ctxt fuel hs hnot hsax htag hfuel
    cases fuel with
    | zero => simp at hfuel
    | succ n =>
      have hne : name ≠ e := fun hx => hnot (hx ▸ List.mem_cons_self _ _)
      have hn : ctxt.name = some e := by simp [htmlParserCtxt.name, hs]
      have hne2 : some name ≠ ctxt.name := by
        rw [hn]
        intro hx
        exact hne (Option.some.inj hx)
      have hs1 : ctxt.nameTab = e :: (rest ++ name :: below) := hs
      simp only [htmlAutoCloseOnClose_loop, hne2, ne_eq, not_false_eq_true, if_true]
      have hi : ∀ i, htmlTagLookup ctxt.name = some i → i.endTag ≠ 3 := by
        rw [hn]
        exact htag e (List.mem_cons_self _ _)
      have key : ∀ c1 : htmlParserCtxt, c1 = ctxt →
          htmlAutoCloseOnClose_loop name n
            (htmlnamePop (match c1.name with
              | some n => saxCall c1 (fun h => h.endElement) (saxEvent.endElement n)
              | none => saxCall c1 (fun h => h.endElement) (saxEvent.endElement []))).1 =
            { ctxt with nameTab := name :: below,
                        events := ctxt.events ++ (e :: rest).map saxEvent.endElement } := by
        intro c1 hc1
        subst hc1
        simp only [hn]
        rw [saxCall_endElement c1 hd hsax hend]
        simp only [htmlnamePop, hs1]
        rw [ih { c1 with nameTab := rest ++ name :: below,
                         events := c1.events ++ [saxEvent.endElement e] } n rfl
          (fun hx => hnot (List.mem_cons_of_mem _ hx)) hsax
          (fun x hx => htag x (List.mem_cons_of_mem _ hx)) (by simpa using hfuel)]
        simp
      cases hinfo : htmlTagLookup ctxt.name with
      | none => exact key ctxt rfl
      | some i =>
        simp only
        rw [if_neg (hi i hinfo)]
        exact key ctxt rfl

/-- What the scanner leaves of the fields that the tree builder reads. -/
theorem htmlTreeSet_fields (c : htmlParserCtxt) (t : List (List Nat)) (e : List saxEvent)
    (h k : Nat) :
    (htmlTreeSet c t e h k).nameTab = t ∧ (htmlTreeSet c t e h k).events = e ∧
      (htmlTreeSet c t e h k).html = h ∧ (htmlTreeSet c t e h k).nodeInfoNr = k ∧
      (htmlTreeSet c t e h k).sax = c.sax ∧ (htmlTreeSet c t e h k).depth = c.depth ∧
      (htmlTreeSet c t e h k).noImplied = c.noImplied ∧
      (htmlTreeSet c t e h k).record_info = c.record_info ∧
      (htmlTreeSet c t e h k).disableSAX = c.disableSAX :=
  ⟨rfl, rfl, rfl, rfl, rfl, rfl, rfl, rfl, rfl⟩

theorem htmlTreeSet_set (c : htmlParserCtxt) (t t1 : List (List Nat)) (e e1 : List saxEvent)
    (h h1 k k1 : Nat) :
    htmlTreeSet (htmlTreeSet c t e h k) t1 e1 h1 k1 = htmlTreeSet c t1 e1 h1 k1 := rfl

theorem htmlTreeSet_self (c : htmlParserCtxt) :
    htmlTreeSet c c.nameTab c.events c.html c.nodeInfoNr = c := rfl

/-- An end tag that closes its element: `htmlParseEndTag` on `</n>` read with
the stack `above ++ n :: below`, where the elements of `above` have no higher
end priority than `n` and are not reported when closed. -/
theorem htmlParseEndTag_treeSet (lim : xmlLimits) (cl : htmlParserCtxt) (hd : htmlSAXHandler)
    (n : List Nat) (above below : List (List Nat)) (E : List saxEvent) (h k : Nat)
    (hsax : cl.sax = some hd) (hend : hd.endElement = true) (hdepth : cl.depth = 0)
    (hlt : CUR cl = 0x3c) (hsl : NXT cl 1 = 0x2f)
    (hname : (htmlParseHTMLName (SKIP cl 2)).2 = some n)
    (hgt : CUR (htmlScanEndTag lim cl) = 0x3e)
    (hnot : n ∉ above)
    (hprio : ∀ e ∈ above, htmlGetEndPriority e ≤ htmlGetEndPriority n)
    (htag : ∀ e ∈ above, ∀ i, htmlTagLookup (some e) = some i → i.endTag ≠ 3) :
    htmlParseEndTag lim (htmlTreeSet cl (above ++ n :: below) E h k) =
      (htmlTreeSet (xmlNextChar (htmlScanEndTag lim cl))
        below (E ++ above.map saxEvent.endElement ++ [saxEvent.endElement n]) h (k - 1), 1) := by
  have hf : tokenFrame htmlTokenizerError cl
      (xmlNextChar (htmlScanEndTag lim cl)) :=
    show tokenFrame htmlTokenizerError cl
      (xmlNextChar (htmlSkipBlankChars lim (htmlParseHTMLName (SKIP cl 2)).1).1) from
    tokenFrame_trans (tokenFrame_trans (tokenFrame_trans (tokenFrame_SKIP cl 2)
      (tokenFrame_htmlParseHTMLName _)) (tokenFrame_htmlSkipBlankChars lim _))
      (tokenFrame_xmlNextChar _)
  generalize hc3 : xmlNextChar (htmlScanEndTag lim cl) = c3
    at hf
  have hgt' : ¬ CUR (htmlScanEndTag lim cl) ≠ 0x3e :=
    fun hx => hx hgt
  have e1 : htmlParseEndTag lim (htmlTreeSet cl (above ++ n :: below) E h k) =
      htmlParseEndTag_close (htmlTreeSet c3 (above ++ n :: below) E h k) n := by
    unfold htmlParseEndTag
    rw [if_neg (by
      rw [htmlTreeSet_CUR, htmlTreeSet_NXT]
      exact fun hx => hx.elim (fun h1 => h1 hlt) (fun h1 => h1 hsl))]
    simp only [htmlTreeSet_SKIP, htmlTreeSet_htmlParseHTMLName, hname]
    unfold htmlParseEndTag_gt
    have hgt2 : CUR (htmlSkipBlankChars lim (htmlParseHTMLName (SKIP cl 2)).1).1 = 0x3e := hgt
    have hc3' : xmlNextChar (htmlSkipBlankChars lim (htmlParseHTMLName (SKIP cl 2)).1).1 = c3 :=
      hc3
    simp only [htmlTreeSet_htmlSkipBlankChars, htmlTreeSet_CUR, hgt2, ne_eq, not_true_eq_false,
      if_false, if_true, htmlTreeSet_xmlNextChar, hc3']
  rw [e1]
  have hsax3 : c3.sax = some hd := by rw [tokenFrame_sax hf, hsax]
  have hd3 : c3.depth = 0 := by rw [tokenFrame_depth hf, hdepth]
  unfold htmlParseEndTag_close
  have g1 : ¬ ((htmlTreeSet c3 (above ++ n :: below) E h k).depth > 0 ∧
      (n = bytes "html" ∨ n = bytes "body" ∨ n = bytes "head")) := by
    intro hx
    have : c3.depth > 0 := hx.1
    omega
  have g2 : ¬ ¬ n ∈ (htmlTreeSet c3 (above ++ n :: below) E h k).nameTab := by
    intro hx
    exact hx (by show n ∈ above ++ n :: below; simp)
  rw [if_neg g1, if_neg g2]
  have hclose : htmlAutoCloseOnClose (htmlTreeSet c3 (above ++ n :: below) E h k) n =
      htmlTreeSet c3 (n :: below) (E ++ above.map saxEvent.endElement) h k := by
    unfold htmlAutoCloseOnClose
    have hscan := htmlAutoCloseOnClose_scan_found n below above hnot hprio
    simp only [show (htmlTreeSet c3 (above ++ n :: below) E h k).nameTab = above ++ n :: below
      from rfl, hscan, if_true]
    rw [htmlAutoCloseOnClose_loop_eq n below hd hend above
      (htmlTreeSet c3 (above ++ n :: below) E h k) _ rfl hnot hsax3 htag
      (by simp [htmlParserCtxt.nameNr, htmlTreeSet])]
    rfl
  simp only [hclose]
  have hnm : (htmlTreeSet c3 (n :: below) (E ++ above.map saxEvent.endElement) h k).name =
      some n := rfl
  simp only [hnm, ne_eq, not_true_eq_false, and_false, if_false, if_true]
  rw [saxCall_endElement _ hd (by exact hsax3) hend]
  unfold htmlNodeInfoPop htmlnamePop
  by_cases hk : k = 0
  · subst hk
    simp [htmlTreeSet]
  · simp [htmlTreeSet, hk]

/-! ### Start tags -/

theorem tokenFrame_record_info {P : htmlError → Prop} {c c1 : htmlParserCtxt}
    (h : tokenFrame P c c1) : c1.record_info = c.record_info := by
  obtain ⟨es, _, h⟩ := h
  rw [h]

theorem htmlTagLookup_meta_void (n : List Nat) (i : htmlElemDesc)
    (hinfo : htmlTagLookup (some n) = some i) (hempty : i.empty = 0) : n ≠ bytes "meta" := by
  intro hx
  subst hx
  have e : (htmlTagLookup (some (bytes "meta"))).map (fun i => i.empty) = some 1 := by decide!
  rw [hinfo] at e
  simp only [Option.map_some', Option.some.injEq] at e
  omega

theorem htmlAutoClose_top (c : htmlParserCtxt) (n : List Nat)
    (h : ∀ top more, c.nameTab = top :: more → htmlCheckAutoClose n top = false) :
    htmlAutoClose c (some n) = c := by
  cases hT : c.nameTab with
  | nil => exact htmlAutoClose_empty c n hT
  | cons top more => exact htmlAutoClose_no_pair c n top more hT (h top more hT)

theorem tokenFrame_scanName (cl : htmlParserCtxt) :
    tokenFrame (fun _ => True) cl (htmlParseHTMLName (xmlNextChar cl)).1 :=
  tokenFrame_mono (fun _ _ => trivial)
    (tokenFrame_trans (tokenFrame_xmlNextChar cl) (tokenFrame_htmlParseHTMLName _))

theorem tokenFrame_htmlScanStartTag (lim : xmlLimits) (cl : htmlParserCtxt) :
    tokenFrame (fun _ => True) cl (htmlScanStartTag lim cl).1 :=
  tokenFrame_trans (tokenFrame_scanName cl)
    (tokenFrame_trans
      (tokenFrame_mono (fun _ _ => trivial) (tokenFrame_htmlSkipBlankChars lim _))
      (tokenFrame_mono (fun _ _ => trivial) (tokenFrame_htmlParseStartTag_atts lim _ _ [])))

theorem tokenFrame_htmlScanEndTag (lim : xmlLimits) (cl : htmlParserCtxt) :
    tokenFrame (fun _ => True) cl (htmlScanEndTag lim cl) :=
  tokenFrame_mono (fun _ _ => trivial)
    (tokenFrame_trans (tokenFrame_trans (tokenFrame_SKIP cl 2)
      (tokenFrame_htmlParseHTMLName _)) (tokenFrame_htmlSkipBlankChars lim _))

theorem tokenFrame_next {P : htmlError → Prop} {c c1 : htmlParserCtxt}
    (h : tokenFrame P c c1) : tokenFrame (fun _ => True) c (xmlNextChar c1) :=
  tokenFrame_trans (tokenFrame_mono (fun _ _ => trivial) h)
    (tokenFrame_mono (fun _ _ => trivial) (tokenFrame_xmlNextChar c1))

/-- The start tag of an element that is known, not void and not misplaced, read
on a stack whose top it does not close: the implied elements are opened, then
the element itself, and the scanner is left behind the `>`. -/
theorem htmlParseElementInternal_treeSet (lim : xmlLimits) (cl : htmlParserCtxt)
    (hd : htmlSAXHandler) (n : List Nat) (atts : List (List Nat × Option (List Nat)))
    (T : List (List Nat)) (E : List saxEvent) (h k : Nat) (i : htmlElemDesc)
    (hsax : cl.sax = some hd) (hst : hd.startElement = true)
    (hlt : CUR cl = 0x3c)
    (hname : (htmlParseHTMLName (xmlNextChar cl)).2 = some n)
    (hatts : (htmlScanStartTag lim cl).2 = atts)
    (hgt : CUR (htmlScanStartTag lim cl).1 = 0x3e)
    (hinfo : htmlTagLookup (some n) = some i) (hempty : i.empty = 0)
    (hclose : ∀ top more, T = top :: more → htmlCheckAutoClose n top = false)
    (hmis : htmlMisplacedIn ((htmlImpliedNames cl.noImplied h T n).reverse ++ T) n = false) :
    htmlParseElementInternal lim (htmlTreeSet cl T E h k) =
      htmlTreeSet (xmlNextChar (htmlScanStartTag lim cl).1)
        (n :: ((htmlImpliedNames cl.noImplied h T n).reverse ++ T))
        (E ++ (htmlImpliedNames cl.noImplied h T n).map (fun x => saxEvent.startElement x []) ++
          [saxEvent.startElement n atts])
        (htmlPushedHtml ((htmlImpliedNames cl.noImplied h T n).foldl htmlPushedHtml h) n)
        (if cl.record_info then k + 1 else k) := by
  have hmeta := htmlTagLookup_meta_void n i hinfo hempty
  have fn := tokenFrame_scanName cl
  have fa := tokenFrame_htmlScanStartTag lim cl
  generalize himp : htmlImpliedNames cl.noImplied h T n = imp at hmis ⊢
  -- the tag is judged
  have hj : htmlParseStartTag_judged (htmlTreeSet cl T E h k) n =
      htmlTreeSet (htmlParseHTMLName (xmlNextChar cl)).1 (imp.reverse ++ T)
        (E ++ imp.map (fun x => saxEvent.startElement x [])) (imp.foldl htmlPushedHtml h) k := by
    unfold htmlParseStartTag_judged
    rw [htmlTreeSet_xmlNextChar, htmlTreeSet_htmlParseHTMLName]
    rw [htmlAutoClose_top _ n (by
      intro top more ht
      exact hclose top more ht)]
    rw [htmlCheckImplied_names _ hd n (by
      show (htmlParseHTMLName (xmlNextChar cl)).1.sax = some hd
      rw [tokenFrame_sax fn, hsax]) hst]
    show { htmlTreeSet (htmlParseHTMLName (xmlNextChar cl)).1 T E h k with
        nameTab := (htmlImpliedNames (htmlParseHTMLName (xmlNextChar cl)).1.noImplied h T n).reverse
          ++ T,
        html := (htmlImpliedNames (htmlParseHTMLName (xmlNextChar cl)).1.noImplied h T n).foldl
          htmlPushedHtml h,
        events := E ++ (htmlImpliedNames (htmlParseHTMLName (xmlNextChar cl)).1.noImplied h T
          n).map (fun x => saxEvent.startElement x []) } = _
    rw [tokenFrame_noImplied fn, himp]
    rfl
  have hcount : htmlMisplacedCount (htmlParseStartTag_judged (htmlTreeSet cl T E h k) n) n = 0 := by
    rw [hj]
    exact htmlMisplacedCount_zero _ n hmis
  have hstart : htmlParseStartTag_attsStart lim (htmlTreeSet cl T E h k) n =
      htmlTreeSet (htmlSkipBlankChars lim (htmlParseHTMLName (xmlNextChar cl)).1).1
        (imp.reverse ++ T) (E ++ imp.map (fun x => saxEvent.startElement x []))
        (imp.foldl htmlPushedHtml h) k := by
    unfold htmlParseStartTag_attsStart
    rw [hcount, htmlMisplacedReports_zero, hj, htmlTreeSet_htmlSkipBlankChars]
  have hloop : htmlParseStartTag_atts lim
      (2 * (htmlParseStartTag_attsStart lim (htmlTreeSet cl T E h k) n).input.length + 1)
      (htmlParseStartTag_attsStart lim (htmlTreeSet cl T E h k) n) [] =
      (htmlTreeSet (htmlScanStartTag lim cl).1 (imp.reverse ++ T)
        (E ++ imp.map (fun x => saxEvent.startElement x [])) (imp.foldl htmlPushedHtml h) k,
        (htmlScanStartTag lim cl).2) := by
    rw [hstart, htmlTreeSet_input, htmlTreeSet_htmlParseStartTag_atts]
    rfl
  have hof : htmlParseStartTag_attsOf lim (htmlTreeSet cl T E h k) n = atts := by
    unfold htmlParseStartTag_attsOf
    rw [hloop]
    exact hatts
  have hend : htmlParseStartTag_attsEnd lim (htmlTreeSet cl T E h k) n =
      htmlTreeSet (htmlScanStartTag lim cl).1 (imp.reverse ++ T)
        (E ++ imp.map (fun x => saxEvent.startElement x [])) (imp.foldl htmlPushedHtml h) k := by
    unfold htmlParseStartTag_attsEnd
    rw [if_neg (by
      rintro ⟨hm, _⟩
      exact hmeta (of_decide_eq_true hm))]
    rw [hloop]
  have hres : htmlParseStartTag lim (htmlTreeSet cl T E h k) =
      (htmlTreeSet (htmlScanStartTag lim cl).1 (n :: (imp.reverse ++ T))
        (E ++ imp.map (fun x => saxEvent.startElement x []) ++ [saxEvent.startElement n atts])
        (htmlPushedHtml (imp.foldl htmlPushedHtml h) n) k, 0) := by
    rw [htmlParseStartTag_eq lim (htmlTreeSet cl T E h k) n hlt (by
      rw [htmlTreeSet_xmlNextChar, htmlTreeSet_htmlParseHTMLName]
      exact hname)]
    rw [if_pos hcount, hend, hof, htmlPushedHtml_push]
    rw [saxCall_on _ hd _ _ (by
      show (htmlScanStartTag lim cl).1.sax = some hd
      rw [tokenFrame_sax fa, hsax]) hst]
    rfl
  unfold htmlParseElementInternal
  rw [hres]
  have hnm : (htmlTreeSet (htmlScanStartTag lim cl).1 (n :: (imp.reverse ++ T))
        (E ++ imp.map (fun x => saxEvent.startElement x []) ++ [saxEvent.startElement n atts])
        (htmlPushedHtml (imp.foldl htmlPushedHtml h) n) k).name = some n := rfl
  simp only [hnm]
  rw [if_neg (by decide)]
  rw [hinfo]
  simp only [Option.isNone_some, Bool.false_eq_true, if_false, htmlTreeSet_CUR, hgt]
  rw [if_neg (by
    rintro ⟨h1, _⟩
    exact absurd h1 (by decide)), if_pos trivial]
  rw [if_neg (by simp [hempty])]
  rw [htmlTreeSet_xmlNextChar]
  have hri : (htmlTreeSet (xmlNextChar (htmlScanStartTag lim cl).1) (n :: (imp.reverse ++ T))
      (E ++ imp.map (fun x => saxEvent.startElement x []) ++ [saxEvent.startElement n atts])
      (htmlPushedHtml (imp.foldl htmlPushedHtml h) n) k).record_info = cl.record_info :=
    show (xmlNextChar (htmlScanStartTag lim cl).1).record_info = cl.record_info from
    tokenFrame_record_info (tokenFrame_next fa)
  rw [hri]
  by_cases hr : cl.record_info = true
  · rw [if_pos hr, if_pos hr]
    rfl
  · rw [if_neg hr, if_neg hr]

/-! ### The look-ahead of the content loop -/

theorem htmlNameChar_ascii (b : Nat) (h : htmlNameChar b = true) :
    b < 0x80 ∧ b ≠ 0 ∧ b ≠ 0x0a ∧ b ≠ 0x0d ∧ htmlLowerByte b ≠ 0 ∧
      (b ≠ 0x2e → htmlNameCharNonInvasive b = true) ∧ (b = 0x2e → htmlLowerByte b = 0x2e) := by
  simp only [htmlNameChar, IS_ASCII_LETTER, IS_ASCII_DIGIT, Bool.or_eq_true, Bool.and_eq_true,
    decide_eq_true_eq, beq_iff_eq] at h
  refine ⟨by omega, by omega, by omega, by omega, ?_, ?_, ?_⟩
  · unfold htmlLowerByte
    split_ifs
    · omega
    · omega
  · intro hne
    simp only [htmlNameCharNonInvasive, IS_ASCII_LETTER, IS_ASCII_DIGIT, Bool.or_eq_true,
      Bool.and_eq_true, decide_eq_true_eq, beq_iff_eq]
    omega
  · intro he
    subst he
    decide

theorem htmlNameCharNonInvasive_sub (b : Nat) (h : htmlNameCharNonInvasive b = true) :
    htmlNameChar b = true := by
  simp only [htmlNameCharNonInvasive, IS_ASCII_LETTER, IS_ASCII_DIGIT, Bool.or_eq_true,
    Bool.and_eq_true, decide_eq_true_eq, beq_iff_eq] at h
  simp only [htmlNameChar, IS_ASCII_LETTER, IS_ASCII_DIGIT, Bool.or_eq_true, Bool.and_eq_true,
    decide_eq_true_eq, beq_iff_eq]
  omega

theorem htmlParseHTMLName_loop_mem : ∀ (room : Nat) (c : htmlParserCtxt) (loc : List Nat)
    (x : Nat), x ∈ loc → x ∈ (htmlParseHTMLName_loop room c loc).2 := by
  intro room
  induction room with
  | zero => intro c loc x hx; exact hx
  | succ room ih =>
    intro c loc x hx
    unfold htmlParseHTMLName_loop
    split_ifs
    · exact ih _ _ x (List.mem_append_left _ hx)
    · exact hx

theorem htmlParseHTMLName_loop_nul : ∀ (room : Nat) (c : htmlParserCtxt) (loc : List Nat),
    0 ∉ loc → 0 ∉ (htmlParseHTMLName_loop room c loc).2 := by
  intro room
  induction room with
  | zero => intro c loc h; exact h
  | succ room ih =>
    intro c loc h
    unfold htmlParseHTMLName_loop
    split_ifs with hc
    · apply ih
      intro hm
      rcases List.mem_append.mp hm with hm | hm
      · exact h hm
      · rw [List.mem_singleton] at hm
        exact (htmlNameChar_ascii _ hc).2.2.2.2.1 hm.symm
    · exact h

/-- The look-ahead of the content loop reads the name that `htmlParseHTMLName`
reads, as long as that name has no dot. -/
theorem htmlParseHTMLName_nonInvasive_loop_eq (c0 : htmlParserCtxt) :
    ∀ (room : Nat) (c : htmlParserCtxt) (i : Nat) (loc : List Nat),
      c.input = c0.input.drop (1 + i) → 0x2e ∉ (htmlParseHTMLName_loop room c loc).2 →
      htmlParseHTMLName_nonInvasive_loop c0 room i loc = (htmlParseHTMLName_loop room c loc).2 := by
  intro room
  induction room with
  | zero => intro c i loc _ _; rfl
  | succ room ih =>
    intro c i loc hin hdot
    have hcur : NXT c0 (1 + i) = CUR c := by
      rw [NXT_drop, ← hin]
      rfl
    unfold htmlParseHTMLName_nonInvasive_loop
    unfold htmlParseHTMLName_loop at hdot ⊢
    rw [hcur]
    by_cases hc : htmlNameChar (CUR c) = true
    · rw [if_pos hc] at hdot ⊢
      obtain ⟨f1, f2, f3, f4, _, f6, f7⟩ := htmlNameChar_ascii _ hc
      have hne : CUR c ≠ 0x2e := by
        intro he
        apply hdot
        apply htmlParseHTMLName_loop_mem
        rw [f7 he]
        simp
      rw [if_pos (f6 hne)]
      cases hinp : c.input with
      | nil => simp [CUR, hinp] at f2
      | cons b rest =>
        have hb : CUR c = b := by simp [CUR, hinp]
        have hnext := xmlNextChar_ascii c b rest hinp (hb ▸ f1) (hb ▸ f3) (hb ▸ f4)
        apply ih (xmlNextChar c) (i + 1) _ _ hdot
        rw [hnext]
        show rest = _
        have : c0.input.drop (1 + (i + 1)) = (c0.input.drop (1 + i)).drop 1 := by
          rw [List.drop_drop, Nat.add_assoc]
        rw [this, ← hin, hinp]
        rfl
    · have hc' : htmlNameChar (CUR c) = false := by simpa using hc
      have hn : htmlNameCharNonInvasive (CUR c) = false := by
        cases hx : htmlNameCharNonInvasive (CUR c) with
        | false => rfl
        | true => rw [htmlNameCharNonInvasive_sub _ hx] at hc'; exact absurd hc' (by decide)
      rw [hn, hc']
      simp

theorem html40ElementTable_names :
    ∀ e ∈ html40ElementTable, 0x2e ∉ e.name.map casemap ∧ 0 ∉ e.name.map casemap := by
  decide!

theorem casemap_nul (b : Nat) (h : casemap b = 0) : b = 0 := by
  unfold casemap at h
  split_ifs at h <;> omega

theorem casemap_dot : casemap 0x2e = 0x2e := by decide

/-- A name without NUL that `htmlTagLookup` knows has no dot. -/
theorem htmlTagLookup_no_dot (n : List Nat) (i : htmlElemDesc) (hnul : 0 ∉ n)
    (hinfo : htmlTagLookup (some n) = some i) : 0x2e ∉ n := by
  rw [htmlTagLookup_eq_scan] at hinfo
  unfold htmlTagLookup_scan at hinfo
  have hmem := List.mem_of_find?_eq_some hinfo
  have hp := List.find?_some hinfo
  simp only [decide_eq_true_eq] at hp
  rw [xmlStrcasecmp_eq_strcmp] at hp
  obtain ⟨t1, t2⟩ := html40ElementTable_names i hmem
  have hn0 : 0 ∉ n.map casemap := by
    intro hm
    obtain ⟨b, hb, hb0⟩ := List.mem_map.mp hm
    rw [casemap_nul b hb0] at hb
    exact hnul hb
  have heq := strcmp_eq_zero _ _ hn0 t2 hp
  intro hdot
  apply t1
  rw [← heq]
  exact List.mem_map.mpr ⟨0x2e, hdot, casemap_dot⟩

theorem htmlTreeSet_htmlParseHTMLName_nonInvasive_loop (c : htmlParserCtxt)
    (t : List (List Nat)) (e : List saxEvent) (h k : Nat) :
    ∀ (room i : Nat) (loc : List Nat),
      htmlParseHTMLName_nonInvasive_loop (htmlTreeSet c t e h k) room i loc =
        htmlParseHTMLName_nonInvasive_loop c room i loc := by
  intro room
  induction room with
  | zero => intro i loc; rfl
  | succ room ih =>
    intro i loc
    unfold htmlParseHTMLName_nonInvasive_loop
    rw [htmlTreeSet_NXT, ih]

theorem htmlTreeSet_htmlParseHTMLName_nonInvasive (c : htmlParserCtxt) (t : List (List Nat))
    (e : List saxEvent) (h k : Nat) :
    htmlParseHTMLName_nonInvasive (htmlTreeSet c t e h k) = htmlParseHTMLName_nonInvasive c := by
  unfold htmlParseHTMLName_nonInvasive
  rw [htmlTreeSet_NXT, htmlTreeSet_htmlParseHTMLName_nonInvasive_loop]

/-- The look-ahead of the content loop on a start tag with a known name: it
reads the name that `htmlParseStartTag` will read. -/
theorem htmlParseHTMLName_nonInvasive_known (c : htmlParserCtxt) (n : List Nat)
    (i : htmlElemDesc) (hlt : CUR c = 0x3c) (hletter : IS_ASCII_LETTER (NXT c 1) = true)
    (hname : (htmlParseHTMLName (xmlNextChar c)).2 = some n)
    (hinfo : htmlTagLookup (some n) = some i) :
    htmlParseHTMLName_nonInvasive c = some n := by
  cases hinp : c.input with
  | nil => simp [CUR, hinp] at hlt
  | cons b rest =>
    have hb : b = 0x3c := by simpa [CUR, hinp] using hlt
    subst hb
    have hnext := xmlNextChar_ascii c 0x3c rest hinp (by decide) (by decide) (by decide)
    have hcur : CUR (xmlNextChar c) = NXT c 1 := by
      rw [hnext, NXT_drop, hinp]
      rfl
    unfold htmlParseHTMLName at hname
    rw [hcur] at hname
    simp only [hletter, Bool.not_true, Bool.false_and, Bool.false_eq_true, if_false,
      Option.some.injEq] at hname
    unfold htmlParseHTMLName_nonInvasive
    simp only [hletter, Bool.not_true, Bool.false_and, Bool.false_eq_true, if_false,
      Option.some.injEq]
    have hnul : 0 ∉ n := by
      rw [← hname]
      exact htmlParseHTMLName_loop_nul _ _ [] (by simp)
    have hdot := htmlTagLookup_no_dot n i hnul hinfo
    rw [← hname] at hdot ⊢
    apply htmlParseHTMLName_nonInvasive_loop_eq c _ (xmlNextChar c) 0 [] _ hdot
    rw [hnext, hinp]
    rfl

/-! ### Turns of the content loop -/

theorem IS_ASCII_LETTER_ne (x : Nat) (h : IS_ASCII_LETTER x = true) :
    x ≠ 0x2f ∧ x ≠ 0x21 ∧ x ≠ 0x3f ∧ x ≠ 0 := by
  simp only [IS_ASCII_LETTER, Bool.or_eq_true, Bool.and_eq_true, decide_eq_true_eq] at h
  omega

/-- A turn of the content loop on a start tag that closes nothing and finds
`currentNode` up to date: the tag goes to `htmlParseElementInternal`. -/
theorem htmlParseContentInternal_body_element (lim : xmlLimits) (c : htmlParserCtxt)
    (cur : Option (List Nat)) (d : Nat) (n : List Nat)
    (hlt : CUR c = 0x3c) (hletter : IS_ASCII_LETTER (NXT c 1) = true)
    (hla : htmlParseHTMLName_nonInvasive c = some n)
    (hclose : ∀ top more, c.nameTab = top :: more → htmlCheckAutoClose n top = false)
    (hfresh : ¬ (c.nameNr > 0 ∧ d ≥ c.nameNr ∧ cur ≠ c.name))
    (hs1 : cur ≠ some (bytes "script")) (hs2 : cur ≠ some (bytes "style")) :
    htmlParseContentInternal_body lim ⟨c, cur, d⟩ =
      (htmlContentState.refresh (htmlParseElementInternal lim c), true) := by
  obtain ⟨l1, l2, l3, _⟩ := IS_ASCII_LETTER_ne _ hletter
  unfold htmlParseContentInternal_body
  simp only [hlt, hletter, hla, true_and, true_or, if_true, l1, if_false]
  have hclose1 : ∀ top, c.name = some top → htmlCheckAutoClose n top = false := by
    intro top ht
    cases hT : c.nameTab with
    | nil => simp [htmlParserCtxt.name, hT] at ht
    | cons t more =>
      simp only [htmlParserCtxt.name, hT, List.head?_cons, Option.some.injEq] at ht
      exact ht ▸ hclose t more hT
  have hgoal : (if c.nameNr > 0 ∧ d ≥ c.nameNr ∧ cur ≠ c.name then
        (htmlContentState.refresh (htmlParserFinishElementParsing c), true)
      else htmlParseContentInternal_dispatch lim ⟨c, cur, d⟩) =
      (htmlContentState.refresh (htmlParseElementInternal lim c), true) := by
    rw [if_neg hfresh]
    unfold htmlParseContentInternal_dispatch
    simp only [hlt, hletter, true_and, l2, l3, if_false, if_true]
    rw [if_neg (by
      rintro ⟨_, h | h⟩
      · exact hs1 h
      · exact hs2 h)]
  revert hgoal
  cases hname : c.name with
  | none => intro hgoal; exact hgoal
  | some top =>
    intro hgoal
    simp only [hclose1 top hname, Bool.false_eq_true, if_false]
    exact hgoal

/-- A turn of the content loop on a start tag that closes the innermost open
element: `htmlAutoClose` runs and the loop goes on with `currentNode` and
`depth` as they were. -/
theorem htmlParseContentInternal_body_close (lim : xmlLimits) (c : htmlParserCtxt)
    (cur : Option (List Nat)) (d : Nat) (n top : List Nat) (more : List (List Nat))
    (hlt : CUR c = 0x3c) (hletter : IS_ASCII_LETTER (NXT c 1) = true)
    (hla : htmlParseHTMLName_nonInvasive c = some n)
    (hT : c.nameTab = top :: more) (hc : htmlCheckAutoClose n top = true) :
    htmlParseContentInternal_body lim ⟨c, cur, d⟩ =
      (⟨htmlAutoClose c (some n), cur, d⟩, true) := by
  obtain ⟨l1, l2, l3, _⟩ := IS_ASCII_LETTER_ne _ hletter
  unfold htmlParseContentInternal_body
  simp only [hlt, hletter, hla, true_and, true_or, if_true, l1, if_false]
  simp [htmlParserCtxt.name, hT, hc]

/-- A turn of the content loop on a start tag that closes nothing, entered with
a stale `currentNode`: `htmlParserFinishElementParsing` runs and `currentNode`
is refreshed. -/
theorem htmlParseContentInternal_body_finish (lim : xmlLimits) (c : htmlParserCtxt)
    (cur : Option (List Nat)) (d : Nat) (n : List Nat)
    (hlt : CUR c = 0x3c) (hletter : IS_ASCII_LETTER (NXT c 1) = true)
    (hla : htmlParseHTMLName_nonInvasive c = some n)
    (hclose : ∀ top more, c.nameTab = top :: more → htmlCheckAutoClose n top = false)
    (hstale : c.nameNr > 0 ∧ d ≥ c.nameNr ∧ cur ≠ c.name) :
    htmlParseContentInternal_body lim ⟨c, cur, d⟩ =
      (htmlContentState.refresh (htmlParserFinishElementParsing c), true) := by
  obtain ⟨l1, l2, l3, _⟩ := IS_ASCII_LETTER_ne _ hletter
  unfold htmlParseContentInternal_body
  simp only [hlt, hletter, hla, true_and, true_or, if_true, l1, if_false]
  have hclose1 : ∀ top, c.name = some top → htmlCheckAutoClose n top = false := by
    intro top ht
    cases hT : c.nameTab with
    | nil => simp [htmlParserCtxt.name, hT] at ht
    | cons t more =>
      simp only [htmlParserCtxt.name, hT, List.head?_cons, Option.some.injEq] at ht
      exact ht ▸ hclose t more hT
  have hgoal : (if c.nameNr > 0 ∧ d ≥ c.nameNr ∧ cur ≠ c.name then
        (htmlContentState.refresh (htmlParserFinishElementParsing c), true)
      else htmlParseContentInternal_dispatch lim ⟨c, cur, d⟩) =
      (htmlContentState.refresh (htmlParserFinishElementParsing c), true) := by
    rw [if_pos hstale]
  revert hgoal
  cases hname : c.name with
  | none => intro hgoal; exact hgoal
  | some top =>
    intro hgoal
    simp only [hclose1 top hname, Bool.false_eq_true, if_false]
    exact hgoal

theorem htmlParserFinishElementParsing_treeSet (cl : htmlParserCtxt) (T : List (List Nat))
    (E : List saxEvent) (h k : Nat) (hcur : CUR cl ≠ 0) :
    ∃ k1, htmlParserFinishElementParsing (htmlTreeSet cl T E h k) = htmlTreeSet cl T E h k1 := by
  unfold htmlParserFinishElementParsing
  by_cases hn : (htmlTreeSet cl T E h k).node.isSome ∧ (htmlTreeSet cl T E h k).record_info
  · rw [if_pos hn]
    unfold htmlNodeInfoPop
    by_cases hk : (htmlTreeSet cl T E h k).nodeInfoNr = 0
    · rw [if_pos hk]
      refine ⟨k, ?_⟩
      show (if CUR cl = 0 then _ else _) = _
      rw [if_neg hcur]
    · rw [if_neg hk]
      refine ⟨k - 1, ?_⟩
      show (if CUR cl = 0 then _ else _) = _
      rw [if_neg hcur]
      rfl
  · rw [if_neg hn]
    refine ⟨k, ?_⟩
    show (if CUR cl = 0 then _ else _) = _
    rw [if_neg hcur]

/-- A turn of the content loop on an end tag that `htmlParseEndTag` accepts,
entered with an open element as `currentNode`. -/
theorem htmlParseContentInternal_body_endTag (lim : xmlLimits) (c : htmlParserCtxt)
    (cur : Option (List Nat)) (d : Nat) (r : htmlParserCtxt)
    (hlt : CUR c = 0x3c) (hsl : NXT c 1 = 0x2f)
    (hr : htmlParseEndTag lim c = (r, 1)) (hcur : cur.isSome = true) :
    htmlParseContentInternal_body lim ⟨c, cur, d⟩ = (htmlContentState.refresh r, true) := by
  unfold htmlParseContentInternal_body
  simp only [hlt, hsl, and_self, if_true, hr, hcur, true_or, and_true]
  rw [if_pos (by decide)]

/-- The last turn of the content loop: at the end of the input, with
`currentNode` up to date, `htmlAutoCloseOnEnd` runs and the loop stops. -/
theorem htmlParseContentInternal_body_end (lim : xmlLimits) (c : htmlParserCtxt)
    (hin : c.input = []) :
    htmlParseContentInternal_body lim (htmlContentState.refresh c) =
      ({ htmlContentState.refresh c with ctxt := htmlAutoCloseOnEnd c }, false) := by
  have hcur : CUR c = 0 := by simp [CUR, hin]
  unfold htmlParseContentInternal_body htmlParseContentInternal_dispatch
  simp only [htmlContentState.refresh, hcur]
  simp

theorem htmlParseContentInternal_loop_turn (lim : xmlLimits) (fuel : Nat)
    (st st1 : htmlContentState) (hstop : PARSER_STOPPED st.ctxt = false)
    (hb : htmlParseContentInternal_body lim st = (st1, true)) :
    htmlParseContentInternal_loop lim (fuel + 1) st = htmlParseContentInternal_loop lim fuel st1 := by
  conv_lhs => unfold htmlParseContentInternal_loop
  rw [if_pos hstop, hb]
  simp

theorem htmlParseContentInternal_loop_last (lim : xmlLimits) (fuel : Nat)
    (st st1 : htmlContentState) (hstop : PARSER_STOPPED st.ctxt = false)
    (hb : htmlParseContentInternal_body lim st = (st1, false)) :
    htmlParseContentInternal_loop lim (fuel + 1) st = st1 := by
  unfold htmlParseContentInternal_loop
  rw [if_pos hstop, hb]
  simp

/-! ### The content loop on nested tags -/

theorem htmlDropWhile_head {α : Type} (p : α → Bool) :
    ∀ (l : List α) (a : α) (r : List α), l.dropWhile p = a :: r → p a = false := by
  intro l
  induction l with
  | nil => intro a r h; simp at h
  | cons x xs ih =>
    intro a r h
    rw [List.dropWhile_cons] at h
    by_cases hx : p x = true
    · rw [if_pos hx] at h
      exact ih a r h
    · rw [if_neg hx] at h
      simp only [List.cons.injEq] at h
      rw [← h.1]
      simpa using hx

theorem htmlAutoClose_treeSet (cl : htmlParserCtxt) (hd : htmlSAXHandler) (n : List Nat)
    (T : List (List Nat)) (E : List saxEvent) (h k : Nat)
    (hsax : cl.sax = some hd) (hend : hd.endElement = true) :
    htmlAutoClose (htmlTreeSet cl T E h k) (some n) =
      htmlTreeSet cl (T.dropWhile (htmlCheckAutoClose n))
        (E ++ (T.takeWhile (htmlCheckAutoClose n)).map saxEvent.endElement) h k := by
  unfold htmlAutoClose
  exact htmlAutoClose_loop_eq n hd hend (htmlCheckAutoClose n) T (htmlTreeSet cl T E h k) _ rfl
    hsax (fun _ _ => rfl) (Nat.le_refl _)

/-- The turn of the content loop that hands a start tag to
`htmlParseElementInternal`, on a stack whose top the tag does not close. -/
theorem htmlParseContentInternal_loop_element (lim : xmlLimits) (cl : htmlParserCtxt)
    (hd : htmlSAXHandler) (n : List Nat) (atts : List (List Nat × Option (List Nat)))
    (T : List (List Nat)) (E : List saxEvent) (h k : Nat) (i : htmlElemDesc)
    (cur : Option (List Nat)) (d : Nat)
    (hsax : cl.sax = some hd) (hst : hd.startElement = true)
    (hstop : PARSER_STOPPED cl = false)
    (hlt : CUR cl = 0x3c) (hletter : IS_ASCII_LETTER (NXT cl 1) = true)
    (hname : (htmlParseHTMLName (xmlNextChar cl)).2 = some n)
    (hatts : (htmlScanStartTag lim cl).2 = atts)
    (hgt : CUR (htmlScanStartTag lim cl).1 = 0x3e)
    (hinfo : htmlTagLookup (some n) = some i) (hempty : i.empty = 0)
    (hclose : ∀ top more, T = top :: more → htmlCheckAutoClose n top = false)
    (hmis : htmlMisplacedIn ((htmlImpliedNames cl.noImplied h T n).reverse ++ T) n = false)
    (hfresh : ¬ (T.length > 0 ∧ d ≥ T.length ∧ cur ≠ T.head?))
    (hs1 : cur ≠ some (bytes "script")) (hs2 : cur ≠ some (bytes "style")) (fuel : Nat) :
    htmlParseContentInternal_loop lim (fuel + 1) ⟨htmlTreeSet cl T E h k, cur, d⟩ =
      htmlParseContentInternal_loop lim fuel
        (htmlContentState.refresh
          (htmlTreeSet (xmlNextChar (htmlScanStartTag lim cl).1)
            (n :: ((htmlImpliedNames cl.noImplied h T n).reverse ++ T))
            (E ++ (htmlImpliedNames cl.noImplied h T n).map (fun x => saxEvent.startElement x []) ++
              [saxEvent.startElement n atts])
            (htmlPushedHtml ((htmlImpliedNames cl.noImplied h T n).foldl htmlPushedHtml h) n)
            (if cl.record_info then k + 1 else k))) := by
  apply htmlParseContentInternal_loop_turn lim fuel _ _ hstop
  rw [htmlParseContentInternal_body_element lim (htmlTreeSet cl T E h k) cur d n hlt hletter
    (by
      rw [htmlTreeSet_htmlParseHTMLName_nonInvasive]
      exact htmlParseHTMLName_nonInvasive_known cl n i hlt hletter hname hinfo)
    hclose hfresh hs1 hs2]
  rw [htmlParseElementInternal_treeSet lim cl hd n atts T E h k i hsax hst hlt hname hatts hgt
    hinfo hempty hclose hmis]

/-- A start tag in the content loop. The tag names a known element that is not
void; the elements that it closes through `htmlStartClose` and the element it
is opened in are neither script nor style; the tag is not discarded as
misplaced. After one to three turns of the loop the closed elements have been
ended, the implied elements and the element itself have been opened, the
scanner is behind the `>` and `currentNode` is up to date. -/
theorem htmlParseContentInternal_loop_start (lim : xmlLimits) (cl : htmlParserCtxt)
    (hd : htmlSAXHandler) (n : List Nat) (atts : List (List Nat × Option (List Nat)))
    (T : List (List Nat)) (E : List saxEvent) (h k : Nat) (i : htmlElemDesc)
    (hsax : cl.sax = some hd) (hst : hd.startElement = true) (hend : hd.endElement = true)
    (hstop : PARSER_STOPPED cl = false)
    (hlt : CUR cl = 0x3c) (hletter : IS_ASCII_LETTER (NXT cl 1) = true)
    (hname : (htmlParseHTMLName (xmlNextChar cl)).2 = some n)
    (hatts : (htmlScanStartTag lim cl).2 = atts)
    (hgt : CUR (htmlScanStartTag lim cl).1 = 0x3e)
    (hinfo : htmlTagLookup (some n) = some i) (hempty : i.empty = 0)
    (hclosed : ∀ x ∈ T.takeWhile (htmlCheckAutoClose n),
      x ≠ bytes "script" ∧ x ≠ bytes "style")
    (hkept : (T.dropWhile (htmlCheckAutoClose n)).head? ≠ some (bytes "script") ∧
      (T.dropWhile (htmlCheckAutoClose n)).head? ≠ some (bytes "style"))
    (hmis : htmlMisplacedIn
      ((htmlImpliedNames cl.noImplied h (T.dropWhile (htmlCheckAutoClose n)) n).reverse ++
        T.dropWhile (htmlCheckAutoClose n)) n = false) :
    ∃ j k1, 1 ≤ j ∧ j ≤ 3 ∧ ∀ fuel,
      htmlParseContentInternal_loop lim (fuel + j)
          (htmlContentState.refresh (htmlTreeSet cl T E h k)) =
        htmlParseContentInternal_loop lim fuel
          (htmlContentState.refresh
            (htmlTreeSet (xmlNextChar (htmlScanStartTag lim cl).1)
              (n :: ((htmlImpliedNames cl.noImplied h (T.dropWhile (htmlCheckAutoClose n))
                n).reverse ++ T.dropWhile (htmlCheckAutoClose n)))
              (E ++ (T.takeWhile (htmlCheckAutoClose n)).map saxEvent.endElement ++
                (htmlImpliedNames cl.noImplied h (T.dropWhile (htmlCheckAutoClose n)) n).map
                  (fun x => saxEvent.startElement x []) ++
                [saxEvent.startElement n atts])
              (htmlPushedHtml ((htmlImpliedNames cl.noImplied h
                (T.dropWhile (htmlCheckAutoClose n)) n).foldl htmlPushedHtml h) n)
              k1)) := by
  have hkc : ∀ top more, T.dropWhile (htmlCheckAutoClose n) = top :: more →
      htmlCheckAutoClose n top = false :=
    fun top more hx => htmlDropWhile_head _ T top more hx
  have hla : htmlParseHTMLName_nonInvasive cl = some n :=
    htmlParseHTMLName_nonInvasive_known cl n i hlt hletter hname hinfo
  cases hT : T with
  | nil =>
    subst hT
    refine ⟨1, (if cl.record_info then k + 1 else k), Nat.le_refl _, by omega, fun fuel => ?_⟩
    have := htmlParseContentInternal_loop_element lim cl hd n atts [] E h k i none 0 hsax hst
      hstop hlt hletter hname hatts hgt hinfo hempty (by intro _ _ hx; simp at hx) hmis
      (by simp) (by simp) (by simp) fuel
    simpa using this
  | cons top more =>
    by_cases hp : htmlCheckAutoClose n top = true
    · -- the tag closes the innermost element
      have hturn1 : ∀ fuel, htmlParseContentInternal_loop lim (fuel + 1)
          (htmlContentState.refresh (htmlTreeSet cl T E h k)) =
          htmlParseContentInternal_loop lim fuel
            ⟨htmlTreeSet cl (T.dropWhile (htmlCheckAutoClose n))
              (E ++ (T.takeWhile (htmlCheckAutoClose n)).map saxEvent.endElement) h k,
              some top, T.length⟩ := by
        intro fuel
        apply htmlParseContentInternal_loop_turn lim fuel _ _ hstop
        have hb := htmlParseContentInternal_body_close lim (htmlTreeSet cl T E h k) (some top)
          T.length n top more hlt hletter
          (by rw [htmlTreeSet_htmlParseHTMLName_nonInvasive]; exact hla) hT hp
        rw [htmlAutoClose_treeSet cl hd n T E h k hsax hend] at hb
        rw [← hb]
        simp [htmlContentState.refresh, htmlParserCtxt.name, htmlParserCtxt.nameNr, htmlTreeSet,
          hT]
      have htop : top ≠ bytes "script" ∧ top ≠ bytes "style" := by
        apply hclosed
        rw [hT, List.takeWhile_cons, if_pos hp]
        exact List.mem_cons_self _ _
      rw [← hT]
      generalize hK : T.dropWhile (htmlCheckAutoClose n) = K at *
      generalize hE1 : E ++ (T.takeWhile (htmlCheckAutoClose n)).map saxEvent.endElement = E1
        at *
      have hlen : K.length ≤ T.length := by
        rw [← hK]
        exact (List.dropWhile_sublist _).length_le
      cases hKK : K with
      | nil =>
        subst hKK
        refine ⟨2, (if cl.record_info then k + 1 else k), by omega, by omega, fun fuel => ?_⟩
        rw [show fuel + 2 = (fuel + 1) + 1 from rfl, hturn1]
        exact htmlParseContentInternal_loop_element lim cl hd n atts [] E1 h k i (some top)
          T.length hsax hst hstop hlt hletter hname hatts hgt hinfo hempty hkc hmis
          (by simp) (by simpa using htop.1) (by simpa using htop.2) fuel
      | cons t2 m2 =>
        rw [← hKK]
        have hne : top ≠ t2 := by
          intro he
          have := hkc t2 m2 hKK
          rw [← he, hp] at this
          exact absurd this (by decide)
        obtain ⟨k1, hk1⟩ := htmlParserFinishElementParsing_treeSet cl K E1 h k (by
          rw [hlt]
          decide)
        refine ⟨3, (if cl.record_info then k1 + 1 else k1), by omega, by omega, fun fuel => ?_⟩
        rw [show fuel + 3 = (fuel + 1 + 1) + 1 from rfl, hturn1]
        have hturn2 : htmlParseContentInternal_loop lim (fuel + 1 + 1)
            ⟨htmlTreeSet cl K E1 h k, some top, T.length⟩ =
            htmlParseContentInternal_loop lim (fuel + 1)
              (htmlContentState.refresh (htmlTreeSet cl K E1 h k1)) := by
          apply htmlParseContentInternal_loop_turn lim (fuel + 1) _ _ hstop
          rw [htmlParseContentInternal_body_finish lim (htmlTreeSet cl K E1 h k) (some top)
            T.length n hlt hletter
            (by rw [htmlTreeSet_htmlParseHTMLName_nonInvasive]; exact hla) hkc
            (by
              refine ⟨?_, hlen, ?_⟩
              · show K.length > 0
                rw [hKK]
                simp
              · show some top ≠ K.head?
                rw [hKK]
                simpa using hne), hk1]
        rw [hturn2]
        have := htmlParseContentInternal_loop_element lim cl hd n atts K E1 h k1 i K.head?
          K.length hsax hst hstop hlt hletter hname hatts hgt hinfo hempty hkc hmis
          (by simp) hkept.1 hkept.2 fuel
        exact this
    · -- the tag closes nothing
      have hp' : htmlCheckAutoClose n top = false := by simpa using hp
      have hd1 : T.dropWhile (htmlCheckAutoClose n) = T := by
        rw [hT, List.dropWhile_cons, if_neg hp]
      have ht1 : T.takeWhile (htmlCheckAutoClose n) = [] := by
        rw [hT, List.takeWhile_cons, if_neg hp]
      rw [← hT]
      rw [hd1] at hkept hmis hkc ⊢
      rw [ht1]
      refine ⟨1, (if cl.record_info then k + 1 else k), Nat.le_refl _, by omega, fun fuel => ?_⟩
      have := htmlParseContentInternal_loop_element lim cl hd n atts T E h k i T.head? T.length
        hsax hst hstop hlt hletter hname hatts hgt hinfo hempty hkc hmis
        (by simp) hkept.1 hkept.2 fuel
      simpa using this

theorem CUR_input (c : htmlParserCtxt) (x : Nat) (h : CUR c = x) (hx : x ≠ 0) : c.input ≠ [] := by
  intro hin
  apply hx
  rw [← h]
  simp [CUR, hin]

/-- The scanner reads no more tags than `htmlInputBound` counts bytes. -/
theorem htmlReadsTags_length (lim : xmlLimits) :
    ∀ (tags : List htmlTagToken) (c : htmlParserCtxt),
      htmlReadsTags lim c tags = true → tags.length ≤ htmlInputBound c := by
  intro tags
  induction tags with
  | nil => intro c _; exact Nat.zero_le _
  | cons t ts ih =>
    intro c hread
    cases t with
    | start n atts =>
      rw [htmlReadsTags] at hread
      simp only [Bool.and_eq_true, decide_eq_true_eq] at hread
      obtain ⟨⟨⟨⟨⟨_, _⟩, _⟩, _⟩, hgt⟩, hrest⟩ := hread
      have h1 := ih _ hrest
      have h2 := htmlInputBound_xmlNextChar_lt _ (CUR_input _ _ hgt (by decide))
      have h3 : htmlInputBound (htmlScanStartTag lim c).1 ≤ htmlInputBound c :=
        le_trans (htmlInputBound_htmlParseStartTag_atts lim _ _ _)
          (le_trans (htmlInputBound_htmlSkipBlankChars lim _)
            (le_trans (htmlInputBound_htmlParseHTMLName _) (htmlInputBound_xmlNextChar c)))
      simp only [List.length_cons]
      omega
    | stop n =>
      rw [htmlReadsTags] at hread
      simp only [Bool.and_eq_true, decide_eq_true_eq] at hread
      obtain ⟨⟨⟨⟨_, _⟩, _⟩, hgt⟩, hrest⟩ := hread
      have h1 := ih _ hrest
      have h2 := htmlInputBound_xmlNextChar_lt _ (CUR_input _ _ hgt (by decide))
      have h3 : htmlInputBound (htmlScanEndTag lim c) ≤ htmlInputBound c :=
        le_trans (htmlInputBound_htmlSkipBlankChars lim _)
          (le_trans (htmlInputBound_htmlParseHTMLName _) (htmlInputBound_SKIP c 2))
      simp only [List.length_cons]
      omega

theorem htmlImpliedName_endTag (x : List Nat)
    (hx : x = bytes "html" ∨ x = bytes "head" ∨ x = bytes "body") (i : htmlElemDesc)
    (hi : htmlTagLookup (some x) = some i) : i.endTag ≠ 3 := by
  have e1 : (htmlTagLookup (some (bytes "html"))).map (fun i => i.endTag) = some 1 := by decide!
  have e2 : (htmlTagLookup (some (bytes "head"))).map (fun i => i.endTag) = some 1 := by decide!
  have e3 : (htmlTagLookup (some (bytes "body"))).map (fun i => i.endTag) = some 1 := by decide!
  rcases hx with h | h | h <;> subst h
  · rw [hi] at e1
    simp only [Option.map_some', Option.some.injEq] at e1
    omega
  · rw [hi] at e2
    simp only [Option.map_some', Option.some.injEq] at e2
    omega
  · rw [hi] at e3
    simp only [Option.map_some', Option.some.injEq] at e3
    omega

theorem htmlImpliedName_plain (x : List Nat)
    (hx : x = bytes "html" ∨ x = bytes "head" ∨ x = bytes "body") :
    x ≠ bytes "script" ∧ x ≠ bytes "style" := by
  rcases hx with h | h | h <;> subst h <;> decide

theorem tokenFrame_stopped {P : htmlError → Prop} {c c1 : htmlParserCtxt}
    (h : tokenFrame P c c1) : PARSER_STOPPED c1 = PARSER_STOPPED c := by
  unfold PARSER_STOPPED
  rw [tokenFrame_disableSAX h]

theorem htmlPushedHtml_le (h : Nat) (n : List Nat) : h ≤ htmlPushedHtml h n := by
  unfold htmlPushedHtml
  split_ifs <;> omega

theorem htmlPushedHtml_head (h : Nat) : 3 ≤ htmlPushedHtml h (bytes "head") := by
  unfold htmlPushedHtml
  by_cases h3 : h < 3
  · rw [if_pos ⟨h3, rfl⟩]
  · rw [if_neg (fun x => h3 x.1)]
    split_ifs <;> omega

theorem htmlPushedHtml_foldl_le (imp : List (List Nat)) :
    ∀ h : Nat, h ≤ imp.foldl htmlPushedHtml h := by
  induction imp with
  | nil => intro h; exact Nat.le_refl _
  | cons x xs ih =>
    intro h
    exact le_trans (htmlPushedHtml_le h x) (ih _)

theorem htmlPushedHtml_foldl_head (imp : List (List Nat)) :
    ∀ h : Nat, bytes "head" ∈ imp → 3 ≤ imp.foldl htmlPushedHtml h := by
  induction imp with
  | nil => intro h hm; simp at hm
  | cons x xs ih =>
    intro h hm
    rcases List.mem_cons.mp hm with hx | hx
    · rw [← hx]
      exact le_trans (htmlPushedHtml_head h) (htmlPushedHtml_foldl_le xs _)
    · exact ih _ hx

/-- The implied elements of one start tag are distinct, and none of them has
the name of an open element, as long as the counter `html` is at least 3
whenever a head is open. -/
theorem htmlImpliedNames_fresh (ni : Bool) (h : Nat) (stack : List (List Nat)) (n : List Nat)
    (hhead : bytes "head" ∈ stack → 3 ≤ h) :
    (htmlImpliedNames ni h stack n).Nodup ∧
      ∀ a ∈ htmlImpliedNames ni h stack n, a ∉ stack := by
  unfold htmlImpliedNames
  by_cases hs : stack = []
  · subst hs
    refine ⟨?_, fun a _ => by simp⟩
    simp only [if_true]
    split_ifs <;> decide
  · simp only [hs, if_false, List.nil_append, List.length_nil, Nat.add_zero]
    split_ifs with h1 h2 h3 h4 h5 h6 h7 h8
    all_goals first
      | exact ⟨List.nodup_nil, fun a ha => by simp at ha⟩
      | (refine ⟨List.nodup_singleton _, fun a ha => ?_⟩
         rw [List.mem_singleton] at ha
         subst ha
         intro hm
         first
           | exact absurd (hhead hm) (by omega)
           | (simp only [List.any_eq_true, decide_eq_true_eq, not_exists, not_and, not_or] at *
              first
                | exact (h8 _ hm).1 rfl
                | exact (h7 _ hm).1 rfl
                | exact (h6 _ hm).1 rfl))

/-- The content loop on a properly nested sequence of tags, from a state in
which the open elements are those of the marked stack `F` and `currentNode` is
up to date: the events sent from there on mirror the tags, the whole input is
read and no element stays open. -/
theorem htmlParseContentInternal_loop_nested (lim : xmlLimits) (hd : htmlSAXHandler)
    (hst : hd.startElement = true) (hend : hd.endElement = true) :
    ∀ (tags : List htmlTagToken) (cl : htmlParserCtxt) (F : List (List Nat × Bool))
      (E : List saxEvent) (h k fuel : Nat),
      cl.sax = some hd → PARSER_STOPPED cl = false → cl.depth = 0 →
      (∀ e ∈ F, e.2 = false →
        e.1 = bytes "html" ∨ e.1 = bytes "head" ∨ e.1 = bytes "body") →
      (bytes "head" ∈ F.map (fun e => e.1) → 3 ≤ h) →
      F.Pairwise (fun a b => a.2 = false → a.1 ≠ b.1) →
      htmlReadsTags lim cl tags = true → htmlNested cl.noImplied h F tags = true →
      3 * tags.length + 1 ≤ fuel →
      ∃ evs : List saxEvent,
        (htmlParseContentInternal_loop lim fuel (htmlContentState.refresh
          (htmlTreeSet cl (F.map (fun e => e.1)) E h k))).ctxt.events = E ++ evs ∧
        (htmlParseContentInternal_loop lim fuel (htmlContentState.refresh
          (htmlTreeSet cl (F.map (fun e => e.1)) E h k))).ctxt.nameTab = [] ∧
        (htmlParseContentInternal_loop lim fuel (htmlContentState.refresh
          (htmlTreeSet cl (F.map (fun e => e.1)) E h k))).ctxt.input = [] ∧
        htmlMirrors evs tags = true := by
  intro tags
  induction tags with
  | nil =>
    intro cl F E h k fuel hsax hstop _ hF _ _ hread hnest hfuel
    rw [htmlReadsTags] at hread
    rw [htmlNested] at hnest
    have hin : cl.input = [] := of_decide_eq_true hread
    obtain ⟨f, rfl⟩ : ∃ f, fuel = f + 1 := ⟨fuel - 1, by omega⟩
    have hsax0 : (htmlTreeSet cl (F.map (fun e => e.1)) E h k).sax = some hd := hsax
    have hstop0 : PARSER_STOPPED (htmlTreeSet cl (F.map (fun e => e.1)) E h k) = false := hstop
    have hin0 : (htmlTreeSet cl (F.map (fun e => e.1)) E h k).input = [] := hin
    have hev0 : (htmlTreeSet cl (F.map (fun e => e.1)) E h k).events = E := rfl
    have htab0 : (htmlTreeSet cl (F.map (fun e => e.1)) E h k).nameTab =
        F.map (fun e => e.1) := rfl
    generalize htmlTreeSet cl (F.map (fun e => e.1)) E h k = c0 at *
    have hl : htmlParseContentInternal_loop lim (f + 1) (htmlContentState.refresh c0) =
        { htmlContentState.refresh c0 with ctxt := htmlAutoCloseOnEnd c0 } :=
      htmlParseContentInternal_loop_last lim f (htmlContentState.refresh c0) _ hstop0
        (htmlParseContentInternal_body_end lim c0 hin0)
    rw [hl]
    have ha := htmlAutoCloseOnEnd_all hd hend c0 hsax0
    refine ⟨(F.map (fun e => e.1)).map saxEvent.endElement, ?_, ?_, ?_, ?_⟩
    · show (htmlAutoCloseOnEnd c0).events = _
      rw [ha, ← hev0, ← htab0]
    · show (htmlAutoCloseOnEnd c0).nameTab = _
      rw [ha]
    · show (htmlAutoCloseOnEnd c0).input = _
      rw [ha]
      exact hin0
    · have := htmlMirrors_implied ((F.map (fun e => e.1)).map saxEvent.endElement) (by
        intro e he
        simp only [List.map_map, List.mem_map, Function.comp] at he
        obtain ⟨x, hx, rfl⟩ := he
        apply htmlImpliedEvent_end
        apply hF x hx
        have := List.all_eq_true.mp hnest x hx
        simpa using this) [] [] rfl
      simpa using this
  | cons t ts ih =>
    intro cl F E h k fuel hsax hstop hdepth hF hH hP hread hnest hfuel
    simp only [List.length_cons] at hfuel
    cases t with
    | start n atts =>
      rw [htmlReadsTags] at hread
      simp only [Bool.and_eq_true, decide_eq_true_eq] at hread
      obtain ⟨⟨⟨⟨⟨hlt, hletter⟩, hname⟩, hatts⟩, hgt⟩, hrest⟩ := hread
      rw [htmlNested] at hnest
      simp only [Bool.and_eq_true] at hnest
      obtain ⟨⟨⟨⟨hknown, hauto⟩, hscr⟩, hmis⟩, hnrest⟩ := hnest
      have hTd : (F.map (fun e => e.1)).dropWhile (htmlCheckAutoClose n) =
          (F.dropWhile (fun e => htmlCheckAutoClose n e.1)).map (fun e => e.1) := by
        rw [List.dropWhile_map]
        simp only [Function.comp_def]
      have hTt : (F.map (fun e => e.1)).takeWhile (htmlCheckAutoClose n) =
          (F.takeWhile (fun e => htmlCheckAutoClose n e.1)).map (fun e => e.1) := by
        rw [List.takeWhile_map]
        simp only [Function.comp_def]
      have hKsub : ∀ e ∈ F.dropWhile (fun e => htmlCheckAutoClose n e.1), e ∈ F :=
        fun e he => (List.dropWhile_sublist _).subset he
      have hCsub : ∀ e ∈ F.takeWhile (fun e => htmlCheckAutoClose n e.1), e ∈ F :=
        fun e he => (List.takeWhile_sublist _).subset he
      have hKP : (F.dropWhile (fun e => htmlCheckAutoClose n e.1)).Pairwise
          (fun a b => a.2 = false → a.1 ≠ b.1) := hP.sublist (List.dropWhile_sublist _)
      generalize F.dropWhile (fun e => htmlCheckAutoClose n e.1) = KF at *
      generalize F.takeWhile (fun e => htmlCheckAutoClose n e.1) = CF at *
      cases hinfo : htmlTagLookup (some n) with
      | none => simp [hinfo] at hknown
      | some i =>
        have hempty : i.empty = 0 := by simpa [hinfo] using hknown
        have hCimp : ∀ x ∈ CF.map (fun e => e.1),
            x = bytes "html" ∨ x = bytes "head" ∨ x = bytes "body" := by
          intro x hx
          obtain ⟨e, he, rfl⟩ := List.mem_map.mp hx
          apply hF e (hCsub e he)
          have := List.all_eq_true.mp hauto e he
          simpa using this
        have hmis1 : htmlMisplacedIn
            ((htmlImpliedNames cl.noImplied h (KF.map (fun e => e.1)) n).reverse ++
              KF.map (fun e => e.1)) n = false := by
          simpa using hmis
        obtain ⟨j, k1, hj1, hj3, hloop⟩ := htmlParseContentInternal_loop_start lim cl hd n atts
          (F.map (fun e => e.1)) E h k i hsax hst hend hstop hlt hletter hname hatts hgt hinfo
          hempty
          (by
            rw [hTt]
            intro x hx
            exact htmlImpliedName_plain x (hCimp x hx))
          (by
            rw [hTd]
            simp only [Bool.not_eq_true', Bool.or_eq_false_iff, beq_eq_false_iff_ne,
              ne_eq] at hscr
            simpa [List.head?_map] using hscr)
          (by
            rw [hTd]
            exact hmis1)
        rw [hTd, hTt] at hloop
        have hKhead : bytes "head" ∈ KF.map (fun e => e.1) → 3 ≤ h := by
          intro hm
          obtain ⟨e, he, he1⟩ := List.mem_map.mp hm
          exact hH (List.mem_map.mpr ⟨e, hKsub e he, he1⟩)
        have hfresh := htmlImpliedNames_fresh cl.noImplied h (KF.map (fun e => e.1)) n hKhead
        generalize himp : htmlImpliedNames cl.noImplied h (KF.map (fun e => e.1)) n = imp at *
        have hfr := tokenFrame_next (tokenFrame_htmlScanStartTag lim cl)
        obtain ⟨f, rfl⟩ : ∃ f, fuel = f + j := ⟨fuel - j, by omega⟩
        rw [hloop f]
        have hmapF : ((n, true) :: (imp.reverse.map (fun x => (x, false)) ++ KF)).map
            (fun e => e.1) = n :: (imp.reverse ++ KF.map (fun e => e.1)) := by
          have hid : ((fun e : List Nat × Bool => e.1) ∘ fun x : List Nat => (x, false)) = id :=
            rfl
          simp [List.map_append, List.map_map, hid]
        obtain ⟨evs, h1, h2, h3, h4⟩ := ih (xmlNextChar (htmlScanStartTag lim cl).1)
          ((n, true) :: (imp.reverse.map (fun x => (x, false)) ++ KF))
          (E ++ (CF.map (fun e => e.1)).map saxEvent.endElement ++
            imp.map (fun x => saxEvent.startElement x []) ++ [saxEvent.startElement n atts])
          (htmlPushedHtml (imp.foldl htmlPushedHtml h) n) k1 f
          (by rw [tokenFrame_sax hfr]; exact hsax)
          (by rw [tokenFrame_stopped hfr]; exact hstop)
          (by rw [tokenFrame_depth hfr]; exact hdepth)
          (by
            intro e he hfalse
            rcases List.mem_cons.mp he with he | he
            · rw [he] at hfalse
              exact absurd hfalse (by simp)
            · rcases List.mem_append.mp he with he | he
              · obtain ⟨x, hx, rfl⟩ := List.mem_map.mp he
                apply htmlImpliedNames_mem cl.noImplied h (KF.map (fun e => e.1)) n
                rw [himp]
                exact List.mem_reverse.mp hx
              · exact hF e (hKsub e he) hfalse)
          (by
            rw [hmapF]
            intro hm
            rcases List.mem_cons.mp hm with hx | hx
            · rw [← hx]
              exact htmlPushedHtml_head _
            · rcases List.mem_append.mp hx with hx | hx
              · exact le_trans (htmlPushedHtml_foldl_head imp h (List.mem_reverse.mp hx))
                  (htmlPushedHtml_le _ _)
              · exact le_trans (hKhead hx)
                  (le_trans (htmlPushedHtml_foldl_le imp h) (htmlPushedHtml_le _ _)))
          (by
            refine List.pairwise_cons.mpr ⟨fun b _ hfalse => absurd hfalse (by simp), ?_⟩
            refine List.pairwise_append.mpr ⟨?_, hKP, ?_⟩
            · rw [List.pairwise_map]
              have hnd : imp.reverse.Pairwise (fun a b => a ≠ b) := List.nodup_reverse.mpr hfresh.1
              refine List.Pairwise.imp ?_ hnd
              intro a b hne _
              exact hne
            · intro a ha b hb _
              obtain ⟨x, hx, rfl⟩ := List.mem_map.mp ha
              intro he
              exact hfresh.2 x (List.mem_reverse.mp hx) (List.mem_map.mpr ⟨b, hb, he.symm⟩))
          hrest
          (by rw [tokenFrame_noImplied hfr]; exact hnrest)
          (by omega)
        rw [hmapF] at h1 h2 h3
        refine ⟨((CF.map (fun e => e.1)).map saxEvent.endElement ++
            imp.map (fun x => saxEvent.startElement x [])) ++
            (saxEvent.startElement n atts :: evs), ?_, h2, h3, ?_⟩
        · rw [h1]
          simp [List.append_assoc]
        · apply htmlMirrors_implied
          · intro e he
            rcases List.mem_append.mp he with he | he
            · obtain ⟨x, hx, rfl⟩ := List.mem_map.mp he
              exact htmlImpliedEvent_end x (hCimp x hx)
            · obtain ⟨x, hx, rfl⟩ := List.mem_map.mp he
              apply htmlImpliedEvent_start
              apply htmlImpliedNames_mem cl.noImplied h (KF.map (fun e => e.1)) n
              rw [himp]
              exact hx
          · exact htmlMirrors_cons (htmlTagToken.start n atts) evs ts h4
    | stop n =>
      rw [htmlReadsTags] at hread
      simp only [Bool.and_eq_true, decide_eq_true_eq] at hread
      obtain ⟨⟨⟨⟨hlt, hsl⟩, hname⟩, hgt⟩, hrest⟩ := hread
      rw [htmlNested] at hnest
      have hsplit := List.takeWhile_append_dropWhile (fun e : List Nat × Bool => !e.2) F
      have hAimp : ∀ e ∈ F.takeWhile (fun e => !e.2), e ∈ F ∧ e.2 = false := by
        intro e he
        refine ⟨(List.takeWhile_sublist _).subset he, ?_⟩
        have := List.mem_takeWhile_imp he
        simpa using this
      have hBsub : ∀ e ∈ F.dropWhile (fun e => !e.2), e ∈ F :=
        fun e he => (List.dropWhile_sublist _).subset he
      have hBP : (F.dropWhile (fun e => !e.2)).Pairwise
          (fun a b => a.2 = false → a.1 ≠ b.1) := hP.sublist (List.dropWhile_sublist _)
      have hcross := (List.pairwise_append.mp (hsplit ▸ hP)).2.2
      generalize F.takeWhile (fun e => !e.2) = AF at *
      generalize F.dropWhile (fun e => !e.2) = D at *
      cases D with
      | nil => simp at hnest
      | cons m below =>
        simp only [Bool.and_eq_true, decide_eq_true_eq] at hnest
        obtain ⟨⟨hm, habove⟩, hnrest⟩ := hnest
        have hAname : ∀ x ∈ AF.map (fun e => e.1),
            (x = bytes "html" ∨ x = bytes "head" ∨ x = bytes "body") ∧ x ≠ n ∧
              htmlGetEndPriority x ≤ htmlGetEndPriority n := by
          intro x hx
          obtain ⟨e, he, rfl⟩ := List.mem_map.mp hx
          have h1 := List.all_eq_true.mp habove e he
          simp only [decide_eq_true_eq] at h1
          exact ⟨hF e (hAimp e he).1 (hAimp e he).2,
            hm ▸ hcross e he m (List.mem_cons_self _ _) (hAimp e he).2, h1⟩
        have hT : F.map (fun e => e.1) =
            AF.map (fun e => e.1) ++ n :: below.map (fun e => e.1) := by
          rw [← hsplit, List.map_append, List.map_cons, hm]
        have hr := htmlParseEndTag_treeSet lim cl hd n (AF.map (fun e => e.1))
          (below.map (fun e => e.1)) E h k hsax hend hdepth hlt hsl hname hgt
          (fun hx => (hAname n hx).2.1 rfl)
          (fun e he => (hAname e he).2.2)
          (fun e he i hi => htmlImpliedName_endTag e (hAname e he).1 i hi)
        have hfr := tokenFrame_next (tokenFrame_htmlScanEndTag lim cl)
        obtain ⟨f, rfl⟩ : ∃ f, fuel = f + 1 := ⟨fuel - 1, by omega⟩
        rw [hT]
        have hturn : htmlParseContentInternal_loop lim (f + 1)
            (htmlContentState.refresh
              (htmlTreeSet cl (AF.map (fun e => e.1) ++ n :: below.map (fun e => e.1)) E h k)) =
            htmlParseContentInternal_loop lim f
              (htmlContentState.refresh
                (htmlTreeSet (xmlNextChar (htmlScanEndTag lim cl)) (below.map (fun e => e.1))
                  (E ++ (AF.map (fun e => e.1)).map saxEvent.endElement ++
                    [saxEvent.endElement n]) h (k - 1))) := by
          apply htmlParseContentInternal_loop_turn lim f _ _ hstop
          exact htmlParseContentInternal_body_endTag lim _ _ _ _ hlt hsl hr (by
            cases AF <;> rfl)
        rw [hturn]
        obtain ⟨evs, h1, h2, h3, h4⟩ := ih (xmlNextChar (htmlScanEndTag lim cl)) below
          (E ++ (AF.map (fun e => e.1)).map saxEvent.endElement ++ [saxEvent.endElement n])
          h (k - 1) f
          (by rw [tokenFrame_sax hfr]; exact hsax)
          (by rw [tokenFrame_stopped hfr]; exact hstop)
          (by rw [tokenFrame_depth hfr]; exact hdepth)
          (fun e he => hF e (hBsub e (List.mem_cons_of_mem _ he)))
          (by
            intro hx
            obtain ⟨e, he, he1⟩ := List.mem_map.mp hx
            exact hH (List.mem_map.mpr ⟨e, hBsub e (List.mem_cons_of_mem _ he), he1⟩))
          (List.pairwise_cons.mp hBP).2
          hrest
          (by rw [tokenFrame_noImplied hfr]; exact hnrest)
          (by omega)
        refine ⟨(AF.map (fun e => e.1)).map saxEvent.endElement ++
            (saxEvent.endElement n :: evs), ?_, h2, h3, ?_⟩
        · rw [h1]
          simp [List.append_assoc]
        · apply htmlMirrors_implied
          · intro e he
            obtain ⟨x, hx, rfl⟩ := List.mem_map.mp he
            exact htmlImpliedEvent_end x (hAname x hx).1
          · exact htmlMirrors_cons (htmlTagToken.stop n) evs ts h4

/-- C3, as the code has it. The input is read by the scanner as a sequence of
start and end tags and nothing else (`htmlReadsTags`), and the tags are
properly nested for the parser (`htmlNested`): every start tag names an element
of `html40ElementTable` that is not void, stands in no script or style
element, closes no element of the input through `htmlStartClose`, and is not
an html, head or body tag that `htmlParseStartTag` discards as misplaced; every
end tag names the innermost open element of the input, and no element implied
above that element has a higher end priority; at the end no element of the
input is open. Then `htmlParseContentInternal`, started with no
open element, the depth counter at 0, the parser not stopped and a handler for
startElement and endElement, sends events that mirror the tags
(`htmlMirrors`): one startElement with the attributes read for every start tag
and one endElement for every end tag, of the same name and in the order of the
input, and between them only startElement without attributes and endElement
for implied html, head and body elements. The events sent before are kept, the
whole input is read and no element stays open. -/
theorem C3_nesting_round_trip (lim : xmlLimits) (c : htmlParserCtxt) (hd : htmlSAXHandler)
    (tags : List htmlTagToken)
    (hsax : c.sax = some hd) (hst : hd.startElement = true) (hend : hd.endElement = true)
    (hstop : PARSER_STOPPED c = false) (htab : c.nameTab = []) (hdepth : c.depth = 0)
    (hread : htmlReadsTags lim c tags = true)
    (hnest : htmlNested c.noImplied c.html [] tags = true) :
    htmlMirrors ((htmlParseContentInternal lim c).events.drop c.events.length) tags = true ∧
      (htmlParseContentInternal lim c).events.take c.events.length = c.events ∧
      (htmlParseContentInternal lim c).nameTab = [] ∧
      (htmlParseContentInternal lim c).input = [] := by
  have hlen := htmlReadsTags_length lim tags c hread
  have hb := htmlInputBound_le_twice c
  have hc : htmlTreeSet c (([] : List (List Nat × Bool)).map (fun e => e.1)) c.events c.html
      c.nodeInfoNr = c := by
    rw [List.map_nil, ← htab]
    rfl
  obtain ⟨evs, h1, h2, h3, h4⟩ := htmlParseContentInternal_loop_nested lim hd hst hend tags c []
    c.events c.html c.nodeInfoNr (htmlParseContentInternal_fuel c) hsax hstop hdepth
    (fun e he => absurd he (List.not_mem_nil e)) (fun hx => absurd hx (List.not_mem_nil _))
    List.Pairwise.nil hread hnest (by
      unfold htmlParseContentInternal_fuel
      omega)
  rw [hc] at h1 h2 h3
  unfold htmlParseContentInternal
  rw [h1]
  refine ⟨?_, ?_, h2, h3⟩
  · rw [List.drop_left]
    exact h4
  · rw [List.take_left]

/-- Witness for C3: `<title></title><div id="x"><b></b></div>`, where the
parser implies html, head and body. -/
theorem C3_nesting_round_trip_witness :
    htmlMirrors
        ((htmlParseContentInternal xmlDefaultLimits
          { htmlNewSAXParserCtxt htmlSinkHandler with
            input := bytes "<title></title><div id=\"x\"><b></b></div>" }).events.drop 0)
        [htmlTagToken.start (bytes "title") [], htmlTagToken.stop (bytes "title"),
         htmlTagToken.start (bytes "div") [(bytes "id", some (bytes "x"))],
         htmlTagToken.start (bytes "b") [], htmlTagToken.stop (bytes "b"),
         htmlTagToken.stop (bytes "div")] = true :=
  (C3_nesting_round_trip xmlDefaultLimits
    { htmlNewSAXParserCtxt htmlSinkHandler with
      input := bytes "<title></title><div id=\"x\"><b></b></div>" }
    htmlSinkHandler
    [htmlTagToken.start (bytes "title") [], htmlTagToken.stop (bytes "title"),
     htmlTagToken.start (bytes "div") [(bytes "id", some (bytes "x"))],
     htmlTagToken.start (bytes "b") [], htmlTagToken.stop (bytes "b"),
     htmlTagToken.stop (bytes "div")]
    rfl rfl rfl (by decide) rfl rfl (by decide!) (by decide!)).1

/-- C3 fails for inputs of properly nested tags of known elements
(`htmlSpecNested`) whose events do not mirror the tags. In `<p><p></p></p>`
the second start tag closes the first p. In `<br><b></b></br>` the void
element br is closed by its own start tag. In `<div><body></body></div>` the
body tag is discarded as misplaced. In `<script><b></b></script>` the tags
inside script are character data. In
`<html><frameset><div></div></frameset><frameset></frameset></html>` the end
tag of frameset is not honoured below the implied body, which has a higher end
priority. -/
theorem C3_nested_p_not_mirrored :
    (htmlReadsTags xmlDefaultLimits
        { htmlNewSAXParserCtxt htmlSinkHandler with input := bytes "<p><p></p></p>" }
        [htmlTagToken.start (bytes "p") [], htmlTagToken.start (bytes "p") [],
         htmlTagToken.stop (bytes "p"), htmlTagToken.stop (bytes "p")] = true ∧
      htmlSpecNested []
        [htmlTagToken.start (bytes "p") [], htmlTagToken.start (bytes "p") [],
         htmlTagToken.stop (bytes "p"), htmlTagToken.stop (bytes "p")] = true ∧
      htmlMirrors
        (htmlParseContentInternal xmlDefaultLimits
          { htmlNewSAXParserCtxt htmlSinkHandler with input := bytes "<p><p></p></p>" }).events
        [htmlTagToken.start (bytes "p") [], htmlTagToken.start (bytes "p") [],
         htmlTagToken.stop (bytes "p"), htmlTagToken.stop (bytes "p")] = false) ∧
    (htmlReadsTags xmlDefaultLimits
        { htmlNewSAXParserCtxt htmlSinkHandler with input := bytes "<br><b></b></br>" }
        [htmlTagToken.start (bytes "br") [], htmlTagToken.start (bytes "b") [],
         htmlTagToken.stop (bytes "b"), htmlTagToken.stop (bytes "br")] = true ∧
      htmlSpecNested []
        [htmlTagToken.start (bytes "br") [], htmlTagToken.start (bytes "b") [],
         htmlTagToken.stop (bytes "b"), htmlTagToken.stop (bytes "br")] = true ∧
      htmlMirrors
        (htmlParseContentInternal xmlDefaultLimits
          { htmlNewSAXParserCtxt htmlSinkHandler with input := bytes "<br><b></b></br>" }).events
        [htmlTagToken.start (bytes "br") [], htmlTagToken.start (bytes "b") [],
         htmlTagToken.stop (bytes "b"), htmlTagToken.stop (bytes "br")] = false) ∧
    (htmlReadsTags xmlDefaultLimits
        { htmlNewSAXParserCtxt htmlSinkHandler with input := bytes "<div><body></body></div>" }
        [htmlTagToken.start (bytes "div") [], htmlTagToken.start (bytes "body") [],
         htmlTagToken.stop (bytes "body"), htmlTagToken.stop (bytes "div")] = true ∧
      htmlSpecNested []
        [htmlTagToken.start (bytes "div") [], htmlTagToken.start (bytes "body") [],
         htmlTagToken.stop (bytes "body"), htmlTagToken.stop (bytes "div")] = true ∧
      htmlMirrors
        (htmlParseContentInternal xmlDefaultLimits
          { htmlNewSAXParserCtxt htmlSinkHandler with
            input := bytes "<div><body></body></div>" }).events
        [htmlTagToken.start (bytes "div") [], htmlTagToken.start (bytes "body") [],
         htmlTagToken.stop (bytes "body"), htmlTagToken.stop (bytes "div")] = false) ∧
    (htmlReadsTags xmlDefaultLimits
        { htmlNewSAXParserCtxt htmlSinkHandler with input := bytes "<script><b></b></script>" }
        [htmlTagToken.start (bytes "script") [], htmlTagToken.start (bytes "b") [],
         htmlTagToken.stop (bytes "b"), htmlTagToken.stop (bytes "script")] = true ∧
      htmlSpecNested []
        [htmlTagToken.start (bytes "script") [], htmlTagToken.start (bytes "b") [],
         htmlTagToken.stop (bytes "b"), htmlTagToken.stop (bytes "script")] = true ∧
      htmlMirrors
        (htmlParseContentInternal xmlDefaultLimits
          { htmlNewSAXParserCtxt htmlSinkHandler with
            input := bytes "<script><b></b></script>" }).events
        [htmlTagToken.start (bytes "script") [], htmlTagToken.start (bytes "b") [],
         htmlTagToken.stop (bytes "b"), htmlTagToken.stop (bytes "script")] = false) ∧
    (htmlReadsTags xmlDefaultLimits
        { htmlNewSAXParserCtxt htmlSinkHandler with
          input := bytes "<html><frameset><div></div></frameset><frameset></frameset></html>" }
        [htmlTagToken.start (bytes "html") [], htmlTagToken.start (bytes "frameset") [],
         htmlTagToken.start (bytes "div") [], htmlTagToken.stop (bytes "div"),
         htmlTagToken.stop (bytes "frameset"), htmlTagToken.start (bytes "frameset") [],
         htmlTagToken.stop (bytes "frameset"), htmlTagToken.stop (bytes "html")] = true ∧
      htmlSpecNested []
        [htmlTagToken.start (bytes "html") [], htmlTagToken.start (bytes "frameset") [],
         htmlTagToken.start (bytes "div") [], htmlTagToken.stop (bytes "div"),
         htmlTagToken.stop (bytes "frameset"), htmlTagToken.start (bytes "frameset") [],
         htmlTagToken.stop (bytes "frameset"), htmlTagToken.stop (bytes "html")] = true ∧
      htmlMirrors
        (htmlParseContentInternal xmlDefaultLimits
          { htmlNewSAXParserCtxt htmlSinkHandler with
            input :=
              bytes "<html><frameset><div></div></frameset><frameset></frameset></html>" }).events
        [htmlTagToken.start (bytes "html") [], htmlTagToken.start (bytes "frameset") [],
         htmlTagToken.start (bytes "div") [], htmlTagToken.stop (bytes "div"),
         htmlTagToken.stop (bytes "frameset"), htmlTagToken.start (bytes "frameset") [],
         htmlTagToken.stop (bytes "frameset"), htmlTagToken.stop (bytes "html")] = false) := by
  refine ⟨⟨?_, ?_, ?_⟩, ⟨?_, ?_, ?_⟩, ⟨?_, ?_, ?_⟩, ⟨?_, ?_, ?_⟩, ⟨?_, ?_, ?_⟩⟩ <;> decide!

end HTMLparser
